import Mathlib

/-!
GaussianShape: Gaussian overlap volume and rigid-alignment search

A shallow embedding of the overlap engine (`GaussianVolume.cpp`), the
transformation objective (`GaussianVolumeOverlapEvaluator.cpp`), the molecule
operations it uses (`Molecule.cpp`, `Atom.cpp`, `Mathematics.cpp`) and the
multi-start Nelder-Mead optimizer (`SimplexOptimizer.cpp`), with the alignment
call and the optimizer parameters of the service front end
(`GaussianService.cpp`) and the assignment solver (`AssignmentSolver.cpp`).

Conventions of the embedding.

* A C++ `double` is an element of a linearly ordered field `R`: arithmetic is
  exact, there is no rounding, no infinity and no NaN, and `x / 0 = 0`.
  The definitions are computable whenever the field is (for instance `ℚ`).
* The `<cmath>` functions are not code of the repository; they are the fields
  of a parameter `CMath R`.
* `std::vector` and `std::list` are `List`; `std::set<int>` is a strictly
  ascending `List Nat` (built by `setInsert`).
* A call returns `Except Failure`: a thrown exception is `invalidArgument`,
  `badCast`, `emptyMolecule` or `logicError`; an index outside `[0, size)` and
  a null dereference (undefined behaviour in C++) are `outOfRange` and
  `nullDereference`; a container resized to a negative count is `lengthError`.
* A `while` loop takes a bound on the number of its rounds and returns
  `loopBound` when the bound is reached.
* A method that mutates its object returns the new object; when it throws it
  returns no object, and the caller still holds the old one (`afterCall`).
* Where an identity of the exact arithmetic is compared with the values that the
  program returns, the overlap engine is embedded a second time in binary64
  arithmetic (namespace `Binary64`): a `double` is a rational number, and every
  operation is followed by rounding to the nearest binary64, ties to even.
-/

namespace GaussianShape

/-- Ways in which a call of the embedded code can fail. -/
inductive Failure where
  /-- Source `CInvalidArgumentException` was thrown. -/
  | invalidArgument
  /-- Source `CBadCastException` was thrown. -/
  | badCast
  /-- A container was indexed outside `[0, size)`. -/
  | outOfRange
  /-- A null pointer was dereferenced. -/
  | nullDereference
  /-- A vector was given a negative size (`std::length_error`). -/
  | lengthError
  /-- Source `CEmptyMoleculeException` was thrown. -/
  | emptyMolecule
  /-- Source `CLogicException` was thrown. -/
  | logicError
  /-- The bound given to the model of a `while` loop was reached; no source
  statement throws this. -/
  | loopBound
  deriving DecidableEq, Repr

/-- The functions of `<cmath>` used by the sources. -/
structure CMath (R : Type) where
  /-- Source `exp(x)` -/
  exp : R → R
  /-- Source `pow(x, y)` -/
  pow : R → R → R
  /-- Source `sin(x)` -/
  sin : R → R
  /-- Source `cos(x)` -/
  cos : R → R

section Containers

variable {α : Type}

/-- Checked read `v[i]` of a vector with an `int` index. -/
def vecGet (v : List α) (i : Int) : Except Failure α :=
  if i < 0 then .error .outOfRange
  else match v.get? i.toNat with
    | some x => .ok x
    | none => .error .outOfRange

/-- Checked write `v[i] = x` of a vector with an `int` index. -/
def vecSet (v : List α) (i : Int) (x : α) : Except Failure (List α) :=
  if i < 0 then .error .outOfRange
  else if i.toNat < v.length then .ok (v.set i.toNat x)
  else .error .outOfRange

/-- Dereference `*p` of a pointer that may be null. -/
def deref (p : Option α) : Except Failure α :=
  match p with
  | some x => .ok x
  | none => .error .nullDereference

/-- The object that the caller holds after a call of one of its methods: the
object returned by the call, or, when the call has thrown, the object before
the call (these methods throw before they write). -/
def afterCall (before : α) (call : Except Failure α) : α :=
  match call with
  | .ok after => after
  | .error _ => before

end Containers

/-- Insertion into a `std::set<int>`, kept strictly ascending. -/
def setInsert (x : Nat) : List Nat → List Nat
  | [] => [x]
  | y :: ys =>
    if x < y then x :: y :: ys
    else if x = y then y :: ys
    else y :: setInsert x ys

/-- The macro `EXIST(element, container)` of `Utility.h`. -/
def EXIST (x : Nat) (s : List Nat) : Bool := s.contains x

section Model

variable {R : Type} [LinearOrderedField R]

/-! ## Atom.cpp -/

/-- The fields of `CAtom` that the engine reads; names, residue and molecule
back-pointers play no part in the computations. -/
structure CAtom (R : Type) where
  /-- Source `_nAtomId` -/
  nAtomId : Int
  /-- Source `_dAtomRadius` -/
  dAtomRadius : R
  /-- Source `_position` -/
  position : List R

/-- Source `CAtom::getAtomRadius` -/
def CAtom.getAtomRadius (a : CAtom R) : R := a.dAtomRadius

/-- Source `CAtom::getPosition` -/
def CAtom.getPosition (a : CAtom R) : List R := a.position

/-- Source `CAtom::getPositionX` -/
def CAtom.getPositionX (a : CAtom R) : Except Failure R := vecGet a.position 0

/-- Source `CAtom::getPositionY` -/
def CAtom.getPositionY (a : CAtom R) : Except Failure R := vecGet a.position 1

/-- Source `CAtom::getPositionZ` -/
def CAtom.getPositionZ (a : CAtom R) : Except Failure R := vecGet a.position 2

/-- Source `CAtom::setPositionX` -/
def CAtom.setPositionX (a : CAtom R) (dPosX : R) : Except Failure (CAtom R) := do
  let p ← vecSet a.position 0 dPosX
  pure { a with position := p }

/-- Source `CAtom::setPositionY` -/
def CAtom.setPositionY (a : CAtom R) (dPosY : R) : Except Failure (CAtom R) := do
  let p ← vecSet a.position 1 dPosY
  pure { a with position := p }

/-- Source `CAtom::setPositionZ` -/
def CAtom.setPositionZ (a : CAtom R) (dPosZ : R) : Except Failure (CAtom R) := do
  let p ← vecSet a.position 2 dPosZ
  pure { a with position := p }

/-- Source `CAtom::clone`: a member-wise copy. -/
def CAtom.clone (a : CAtom R) : CAtom R := a

/-! ## Mathematics.cpp -/

/-- Source `CMathematics::pointToPointSquareDistance` -/
def CMathematics.pointToPointSquareDistance (position1 position2 : List R) :
    Except Failure R :=
  if position1.length = position2.length then
    .ok ((position1.zip position2).foldl
      (fun dDistance c => dDistance + (c.2 - c.1) * (c.2 - c.1)) 0)
  else
    .error .invalidArgument

/-- Source `CMathematics::add` -/
def CMathematics.add (dstVector srcVector : List R) : Except Failure (List R) :=
  if dstVector.length = srcVector.length then
    .ok (List.zipWith (fun d s => d + s) dstVector srcVector)
  else
    .error .invalidArgument

/-- Source `CMathematics::substract` -/
def CMathematics.substract (dstVector srcVector : List R) : Except Failure (List R) :=
  if dstVector.length = srcVector.length then
    .ok (List.zipWith (fun d s => d - s) dstVector srcVector)
  else
    .error .invalidArgument

/-- Source `CMathematics::multiply` -/
def CMathematics.multiply (dstVector : List R) (srcFactor : R) : List R :=
  dstVector.map (fun d => d * srcFactor)

/-! ## Molecule.cpp -/

/-- The state of `CMolecule` that the engine and the objective read: the atom
list and the cached centroid with its dirty flag. -/
structure CMolecule (R : Type) where
  /-- Source `_atomsList` -/
  atomsList : List (CAtom R)
  /-- Source `_bDirtyCentroid` -/
  bDirtyCentroid : Bool
  /-- Source `_centroid` -/
  centroid : List R

/-- Source `CMolecule::CMolecule()` -/
def CMolecule.new : CMolecule R :=
  { atomsList := [], bDirtyCentroid := true, centroid := [0, 0, 0] }

/-- Source `CMolecule::addAtom`: a clone of the atom is appended; the atom
types of the embedding are always `IAtom`, so the cast cannot fail. -/
def CMolecule.addAtom (mol : CMolecule R) (atom : CAtom R) : CMolecule R :=
  { mol with atomsList := mol.atomsList ++ [atom.clone] }

/-- Source `CMolecule::getAtomsList` -/
def CMolecule.getAtomsList (mol : CMolecule R) : List (CAtom R) := mol.atomsList

/-- Source `CMolecule::getAtomsCount` -/
def CMolecule.getAtomsCount (mol : CMolecule R) : Int := mol.atomsList.length

/-- Source `CMolecule::clear` -/
def CMolecule.clear (_mol : CMolecule R) : CMolecule R :=
  { atomsList := [], bDirtyCentroid := true, centroid := [0, 0, 0] }

/-- Source `CMolecule::operator=` -/
def CMolecule.assign (self mol : CMolecule R) : CMolecule R :=
  let self := self.clear
  let self := mol.atomsList.foldl (fun self atom => self.addAtom atom) self
  { self with bDirtyCentroid := mol.bDirtyCentroid, centroid := mol.centroid }

/-- Source `CMolecule::clone` -/
def CMolecule.clone (mol : CMolecule R) : CMolecule R :=
  (CMolecule.new : CMolecule R).assign mol

/-- Source `CMolecule::move` -/
def CMolecule.move (mol : CMolecule R) (dX dY dZ : R) : Except Failure (CMolecule R) := do
  let atomsList ← mol.atomsList.mapM (fun (atom : CAtom R) => do
    let atom ← atom.setPositionX ((← atom.getPositionX) + dX)
    let atom ← atom.setPositionY ((← atom.getPositionY) + dY)
    let atom ← atom.setPositionZ ((← atom.getPositionZ) + dZ)
    pure atom)
  pure { mol with atomsList := atomsList }

/-- Source `CMolecule::rotateXYZ` -/
def CMolecule.rotateXYZ (m : CMath R) (mol : CMolecule R) (dRadianX dRadianY dRadianZ : R) :
    Except Failure (CMolecule R) := do
  let dSINE_X := m.sin dRadianX
  let dCOSINE_X := m.cos dRadianX
  let dSINE_Y := m.sin dRadianY
  let dCOSINE_Y := m.cos dRadianY
  let dSINE_Z := m.sin dRadianZ
  let dCOSINE_Z := m.cos dRadianZ
  let atomsList ← mol.atomsList.mapM (fun (atom : CAtom R) => do
    let dX ← atom.getPositionX
    let dY ← atom.getPositionY
    let dZ ← atom.getPositionZ
    let dNewX := dX * dCOSINE_Y * dCOSINE_Z
      + dY * (dSINE_X * dSINE_Y * dCOSINE_Z - dCOSINE_X * dSINE_Z)
      + dZ * (dCOSINE_X * dSINE_Y * dCOSINE_Z + dSINE_X * dSINE_Z)
    let dNewY := dX * dCOSINE_Y * dSINE_Z
      + dY * (dSINE_X * dSINE_Y * dSINE_Z + dCOSINE_X * dCOSINE_Z)
      + dZ * (dCOSINE_X * dSINE_Y * dSINE_Z - dSINE_X * dCOSINE_Z)
    let dNewZ := -dX * dSINE_Y + dY * dSINE_X * dCOSINE_Y + dZ * dCOSINE_X * dCOSINE_Y
    let atom ← atom.setPositionX dNewX
    let atom ← atom.setPositionY dNewY
    let atom ← atom.setPositionZ dNewZ
    pure atom)
  pure { mol with atomsList := atomsList }

/-- Source `CMolecule::getCentroid`. The method is `const` and the cache members
`_bDirtyCentroid` and `_centroid` are `mutable`: the centroid returned and the
molecule after the call. -/
def CMolecule.getCentroid (mol : CMolecule R) : Except Failure (List R × CMolecule R) := do
  /- If need updating centroid coordinate: -/
  if mol.bDirtyCentroid then
    let (dX, dY, dZ) ← mol.atomsList.foldlM
      (fun (sums : R × R × R) (atom : CAtom R) => do
        let dX := sums.1 + (← atom.getPositionX)
        let dY := sums.2.1 + (← atom.getPositionY)
        let dZ := sums.2.2 + (← atom.getPositionZ)
        pure (dX, dY, dZ))
      ((0 : R), (0 : R), (0 : R))
    let nAtomsCount := mol.getAtomsCount
    let (dX, dY, dZ) :=
      if nAtomsCount ≠ 0 then
        (dX / (nAtomsCount : R), dY / (nAtomsCount : R), dZ / (nAtomsCount : R))
      else (dX, dY, dZ)
    let centroid ← vecSet mol.centroid 0 dX
    let centroid ← vecSet centroid 1 dY
    let centroid ← vecSet centroid 2 dZ
    pure (centroid, { mol with centroid := centroid, bDirtyCentroid := false })
  else
    pure (mol.centroid, mol)

/-- Source `CMolecule::moveToCentroid` -/
def CMolecule.moveToCentroid (mol : CMolecule R) : Except Failure (CMolecule R) := do
  let (CENTROID, mol) ← mol.getCentroid
  let atomsList ← mol.atomsList.mapM (fun (atom : CAtom R) => do
    let atom ← atom.setPositionX ((← atom.getPositionX) - (← vecGet CENTROID 0))
    let atom ← atom.setPositionY ((← atom.getPositionY) - (← vecGet CENTROID 1))
    let atom ← atom.setPositionZ ((← atom.getPositionZ) - (← vecGet CENTROID 2))
    pure atom)
  pure { mol with atomsList := atomsList }

/-! ## GaussianVolume.cpp: constants and direct mode -/

/-- Source `CGaussianVolume::_dP` -/
def CGaussianVolume.dP : R := 2.8284271247

/-- Source `CGaussianVolume::_dPI` -/
def CGaussianVolume.dPI : R := 3.14159265358

/-- Source `CGaussianVolume::_dPARTIAL_ALPHA` -/
def CGaussianVolume.dPARTIAL_ALPHA : R := 2.41798793102

/-- Source `CGaussianVolume::PrecalculationResult` -/
structure PrecalculationResult (R : Type) where
  /-- alpha values for fit molecule -/
  alphaValuesForFit : List R
  /-- alpha values for reference molecule -/
  alphaValuesForRef : List R
  /-- the Gaussian cutoff value used to calculate this result -/
  dGaussianCutoff : R
  /-- id sets of fit molecule at each order -/
  intersectedAtomIdsForFit : List (List (List Nat))
  /-- id sets of reference molecule at each order -/
  intersectedAtomIdsForRef : List (List (List Nat))
  /-- square distances matrix for fit molecule -/
  squareDistancesMatrixForFit : List (List R)
  /-- square distances matrix for reference molecule -/
  squareDistancesMatrixForRef : List (List R)
  /-- neighbor atom IDs list (monotone) for fit molecule -/
  neighborAtomIdsForFit : List (List Nat)
  /-- neighbor atom IDs list (monotone) for reference molecule -/
  neighborAtomIdsForRef : List (List Nat)

/-- A default-constructed `PrecalculationResult`: empty vectors, and the
indeterminate value `dIndeterminate` in the uninitialised `dGaussianCutoff`. -/
def PrecalculationResult.new (dIndeterminate : R) : PrecalculationResult R :=
  { alphaValuesForFit := [], alphaValuesForRef := [], dGaussianCutoff := dIndeterminate
    intersectedAtomIdsForFit := [], intersectedAtomIdsForRef := []
    squareDistancesMatrixForFit := [], squareDistancesMatrixForRef := []
    neighborAtomIdsForFit := [], neighborAtomIdsForRef := [] }

/-- The data members of `CGaussianVolume`. The three pointers are `none` when
null; they refer to data owned by the caller. -/
structure CGaussianVolume (R : Type) where
  /-- Source `_dGaussianCutoff` -/
  dGaussianCutoff : R
  /-- Source `_neighborAtomIds`: cross neighbours, index reference atom, value fit atoms -/
  neighborAtomIds : List (List Nat)
  /-- Source `_pFitAtoms` -/
  pFitAtoms : Option (List (CAtom R))
  /-- Source `_pPrecalculationResult` -/
  pPrecalculationResult : Option (PrecalculationResult R)
  /-- Source `_pRefAtoms` -/
  pRefAtoms : Option (List (CAtom R))
  /-- Source `_squareDistancesMatrix`: row reference atom, column fit atom -/
  squareDistancesMatrix : List (List R)

/-- Source `CGaussianVolume::CGaussianVolume()`: nothing is initialised; the cutoff
holds the indeterminate value `dIndeterminate` until `setGaussianCutoff`. -/
def CGaussianVolume.new (dIndeterminate : R) : CGaussianVolume R :=
  { dGaussianCutoff := dIndeterminate
    neighborAtomIds := []
    pFitAtoms := none
    pPrecalculationResult := none
    pRefAtoms := none
    squareDistancesMatrix := [] }

/-- Source `CGaussianVolume::setGaussianCutoff` -/
def CGaussianVolume.setGaussianCutoff (self : CGaussianVolume R) (dCutoff : R) :
    Except Failure (CGaussianVolume R) :=
  if dCutoff ≥ 0 then
    .ok { self with dGaussianCutoff := dCutoff }
  else
    .error .invalidArgument

/-- Source `CGaussianVolume::getGaussianCutoff` -/
def CGaussianVolume.getGaussianCutoff (self : CGaussianVolume R) : R :=
  self.dGaussianCutoff

/-- Source `CGaussianVolume::getOverlapVolume(const IMolecule&, const IMolecule&)`,
the direct mode. -/
def CGaussianVolume.getOverlapVolumeDirect (m : CMath R) (self : CGaussianVolume R)
    (refMol fitMol : CMolecule R) : Except Failure R :=
  let refAtomsList := refMol.getAtomsList
  let fitAtomsList := fitMol.getAtomsList
  refAtomsList.foldlM (fun dOverlap refAtom =>
    let refAtomPosition := refAtom.getPosition
    let dRadiusRefAtom := refAtom.getAtomRadius
    let dAlphaRefAtom := CGaussianVolume.dPARTIAL_ALPHA / (dRadiusRefAtom * dRadiusRefAtom)
    fitAtomsList.foldlM (fun dOverlap fitAtom => do
      let fitAtomPosition := fitAtom.getPosition
      let dRadiusFitAtom := fitAtom.getAtomRadius
      let dR2 ← CMathematics.pointToPointSquareDistance refAtomPosition fitAtomPosition
      if dR2 < (dRadiusRefAtom + dRadiusFitAtom + self.dGaussianCutoff)
          * (dRadiusRefAtom + dRadiusFitAtom + self.dGaussianCutoff) then
        let dAlphaFitAtom := CGaussianVolume.dPARTIAL_ALPHA / (dRadiusFitAtom * dRadiusFitAtom)
        let dK := m.exp (-(dAlphaRefAtom * dAlphaFitAtom * dR2) / (dAlphaRefAtom + dAlphaFitAtom))
        let dV := 8 * dK * m.pow (CGaussianVolume.dPI / (dAlphaRefAtom + dAlphaFitAtom)) 1.5
        pure (dOverlap + dV)
      else
        pure dOverlap) dOverlap) 0

/-! ## GaussianVolume.cpp: refined mode -/

/-- Source `CGaussianVolume::CIntersectedAtomsFilter::operator()`: the inner
loop over the ids behind `id`. -/
def CIntersectedAtomsFilter.behindLoop (neighborAtomIds : List (List Nat)) (id : Nat) :
    List Nat → Except Failure Bool
  | [] => pure true
  | idBehind :: rest => do
    let neighborIdsSet ← vecGet neighborAtomIds id
    if !EXIST idBehind neighborIdsSet then pure false
    else CIntersectedAtomsFilter.behindLoop neighborAtomIds id rest

/-- Source `CGaussianVolume::CIntersectedAtomsFilter::operator()`: are the ids
of the set pair-wise neighbours (each id with every id behind it). -/
def CIntersectedAtomsFilter.call (neighborAtomIds : List (List Nat)) :
    List Nat → Except Failure Bool
  | [] => pure true
  | id :: behind => do
    if !(← CIntersectedAtomsFilter.behindLoop neighborAtomIds id behind) then pure false
    else CIntersectedAtomsFilter.call neighborAtomIds behind

/-- The loop `for (++iterBehind; iterBehind != end; ++iterBehind) dK += ...` of
`calculateAtomIntersectionVolume`, run for every element of the id set. -/
def CGaussianVolume.addPairsWithin (alphaValues : List R) (squareDistances : List (List R)) :
    List Nat → R → Except Failure R
  | [], dK => pure dK
  | id :: behind, dK => do
    let dK ← behind.foldlM (fun dK (idBehind : Nat) => do
      let a ← vecGet alphaValues id
      let b ← vecGet alphaValues idBehind
      let row ← vecGet squareDistances id
      let d ← vecGet row idBehind
      pure (dK + a * b * d)) dK
    CGaussianVolume.addPairsWithin alphaValues squareDistances behind dK

/-- Source `CGaussianVolume::calculateAtomIntersectionVolume` -/
def CGaussianVolume.calculateAtomIntersectionVolume (m : CMath R) (self : CGaussianVolume R)
    (refAtomIdsSet fitAtomIdsSet : List Nat) : Except Failure R := do
  let pre ← deref self.pPrecalculationResult
  /- Calculate delta value. -/
  let dDelta ← refAtomIdsSet.foldlM (fun dDelta (id : Nat) => do
    pure (dDelta + (← vecGet pre.alphaValuesForRef id))) 0
  let dDelta ← fitAtomIdsSet.foldlM (fun dDelta (id : Nat) => do
    pure (dDelta + (← vecGet pre.alphaValuesForFit id))) dDelta
  /- Calculate K value. -/
  let dK ← CGaussianVolume.addPairsWithin pre.alphaValuesForRef
    pre.squareDistancesMatrixForRef refAtomIdsSet 0
  let dK ← CGaussianVolume.addPairsWithin pre.alphaValuesForFit
    pre.squareDistancesMatrixForFit fitAtomIdsSet dK
  let dK ← refAtomIdsSet.foldlM (fun dK (refId : Nat) =>
    fitAtomIdsSet.foldlM (fun dK (fitId : Nat) => do
      let a ← vecGet pre.alphaValuesForRef refId
      let b ← vecGet pre.alphaValuesForFit fitId
      let row ← vecGet self.squareDistancesMatrix refId
      let d ← vecGet row fitId
      pure (dK + a * b * d)) dK) dK
  let dK := m.exp (-(dK / dDelta))
  pure (m.pow CGaussianVolume.dP ((refAtomIdsSet.length + fitAtomIdsSet.length : Nat) : R)
    * dK * m.pow (CGaussianVolume.dPI / dDelta) 1.5)

/-- Source `CGaussianVolume::isIntersectedAtomsByCrossNeighbors`: the inner loop
over the value ids for one key id. -/
def CGaussianVolume.crossValuesLoop (neighborAtomIds : List (List Nat)) (keyId : Nat) :
    List Nat → Except Failure Bool
  | [] => pure true
  | valueId :: rest => do
    let neighbors ← vecGet neighborAtomIds keyId
    if !EXIST valueId neighbors then pure false
    else CGaussianVolume.crossValuesLoop neighborAtomIds keyId rest

/-- Source `CGaussianVolume::isIntersectedAtomsByCrossNeighbors` -/
def CGaussianVolume.isIntersectedAtomsByCrossNeighbors (idsSetAsKeys idsSetAsValues : List Nat)
    (neighborAtomIds : List (List Nat)) : Except Failure Bool :=
  match idsSetAsKeys with
  | [] => pure true
  | keyId :: rest => do
    if !(← CGaussianVolume.crossValuesLoop neighborAtomIds keyId idsSetAsValues) then pure false
    else CGaussianVolume.isIntersectedAtomsByCrossNeighbors rest idsSetAsValues neighborAtomIds

/-- Source `CGaussianVolume::isIntersectedAtomsByMonotoneNeighbors` (three
arguments): the inner loop over the value ids for one key id. -/
def CGaussianVolume.monotoneValuesLoop (neighborAtomIds : List (List Nat)) (keyId : Nat) :
    List Nat → Except Failure Bool
  | [] => pure true
  | valueId :: rest => do
    if keyId < valueId then
      let neighbors ← vecGet neighborAtomIds keyId
      if !EXIST valueId neighbors then pure false
      else CGaussianVolume.monotoneValuesLoop neighborAtomIds keyId rest
    else if keyId > valueId then
      let neighbors ← vecGet neighborAtomIds valueId
      if !EXIST keyId neighbors then pure false
      else CGaussianVolume.monotoneValuesLoop neighborAtomIds keyId rest
    else
      CGaussianVolume.monotoneValuesLoop neighborAtomIds keyId rest

/-- Source `CGaussianVolume::isIntersectedAtomsByMonotoneNeighbors` (three
arguments) -/
def CGaussianVolume.isIntersectedAtomsByMonotoneNeighbors (idsSetAsKeys idsSetAsValues : List Nat)
    (neighborAtomIds : List (List Nat)) : Except Failure Bool :=
  match idsSetAsKeys with
  | [] => pure true
  | keyId :: rest => do
    if !(← CGaussianVolume.monotoneValuesLoop neighborAtomIds keyId idsSetAsValues) then
      pure false
    else
      CGaussianVolume.isIntersectedAtomsByMonotoneNeighbors rest idsSetAsValues neighborAtomIds

/-- Source `CGaussianVolume::getOverlapVolume()`, the refined mode. -/
def CGaussianVolume.getOverlapVolume (m : CMath R) (self : CGaussianVolume R) :
    Except Failure R := do
  let pre ← deref self.pPrecalculationResult
  let nMAX_INTERSECTION_ORDER := pre.intersectedAtomIdsForRef.length
  (List.range nMAX_INTERSECTION_ORDER).foldlM (fun dOverlapVolume (iOrderRef : Nat) =>
    (List.range nMAX_INTERSECTION_ORDER).foldlM (fun dOverlapVolume (iOrderFit : Nat) => do
      let nSign : R := if (iOrderRef + 1 + iOrderFit + 1) % 2 = 0 then 1 else -1
      let intersectedIdsCurrRef ← vecGet pre.intersectedAtomIdsForRef iOrderRef
      let intersectedIdsCurrFit ← vecGet pre.intersectedAtomIdsForFit iOrderFit
      intersectedIdsCurrRef.foldlM (fun dOverlapVolume (idsSetRef : List Nat) =>
        intersectedIdsCurrFit.foldlM (fun dOverlapVolume (idsSetFit : List Nat) => do
          if (← CGaussianVolume.isIntersectedAtomsByCrossNeighbors idsSetRef idsSetFit
              self.neighborAtomIds) then
            pure (dOverlapVolume
              + nSign * (← self.calculateAtomIntersectionVolume m idsSetRef idsSetFit))
          else
            pure dOverlapVolume) dOverlapVolume) dOverlapVolume) dOverlapVolume) 0

/-- Source `CGaussianVolume::getReferenceVolume` -/
def CGaussianVolume.getReferenceVolume (m : CMath R) (self : CGaussianVolume R) :
    Except Failure R := do
  let pre ← deref self.pPrecalculationResult
  let nMAX_INTERSECTION_ORDER := pre.intersectedAtomIdsForRef.length
  (List.range nMAX_INTERSECTION_ORDER).foldlM (fun dOverlapVolume (iOrderOuter : Nat) =>
    (List.range nMAX_INTERSECTION_ORDER).foldlM (fun dOverlapVolume (iOrderInner : Nat) => do
      let nSign : R := if (iOrderOuter + 1 + iOrderInner + 1) % 2 = 0 then 1 else -1
      let intersectedIdsCurrOuter ← vecGet pre.intersectedAtomIdsForRef iOrderOuter
      let intersectedIdsCurrInner ← vecGet pre.intersectedAtomIdsForRef iOrderInner
      intersectedIdsCurrOuter.foldlM (fun dOverlapVolume (idsSetOuter : List Nat) =>
        intersectedIdsCurrInner.foldlM (fun dOverlapVolume (idsSetInner : List Nat) => do
          if (← CGaussianVolume.isIntersectedAtomsByMonotoneNeighbors idsSetOuter idsSetInner
              pre.neighborAtomIdsForRef) then
            pure (dOverlapVolume
              + nSign * (← self.calculateAtomIntersectionVolume m idsSetOuter idsSetInner))
          else
            pure dOverlapVolume) dOverlapVolume) dOverlapVolume) dOverlapVolume) 0

/-- Source `CGaussianVolume::initializeIntermolecularInformation` -/
def CGaussianVolume.initializeIntermolecularInformation (m : CMath R)
    (self : CGaussianVolume R) : Except Failure (CGaussianVolume R) :=
  match self.pRefAtoms, self.pFitAtoms, self.pPrecalculationResult with
  | some refAtoms, some fitAtoms, some pre => do
    let dGAUSSIAN_CUTOFF := pre.dGaussianCutoff
    let (squareDistancesMatrix, neighborAtomIds) ←
      refAtoms.foldlM (fun (acc : List (List R) × List (List Nat)) (refAtom : CAtom R) => do
        let row ← fitAtoms.foldlM
          (fun (row : List R × List Nat × Nat) (fitAtom : CAtom R) => do
            let dSquareDistance ←
              CMathematics.pointToPointSquareDistance refAtom.getPosition fitAtom.getPosition
            let neighborAtomIdsSet :=
              if dSquareDistance
                  < m.pow (refAtom.getAtomRadius + fitAtom.getAtomRadius + dGAUSSIAN_CUTOFF) 2
              then setInsert row.2.2 row.2.1
              else row.2.1
            pure (row.1 ++ [dSquareDistance], neighborAtomIdsSet, row.2.2 + 1))
          (([] : List R), ([] : List Nat), 0)
        pure (acc.1 ++ [row.1], acc.2 ++ [row.2.1])) (([] : List (List R)), ([] : List (List Nat)))
    pure { self with
      squareDistancesMatrix := squareDistancesMatrix
      neighborAtomIds := neighborAtomIds }
  | _, _, _ => .error .invalidArgument

/-- Source `CGaussianVolume::CGaussianVolume(pRefAtoms, pFitAtoms,
pPrecalculationResult)`; `dIndeterminate` is the value of the uninitialised
member `_dGaussianCutoff`. -/
def CGaussianVolume.ofAtoms (m : CMath R) (dIndeterminate : R)
    (pRefAtoms pFitAtoms : Option (List (CAtom R)))
    (pPrecalculationResult : Option (PrecalculationResult R)) :
    Except Failure (CGaussianVolume R) :=
  match pRefAtoms, pFitAtoms, pPrecalculationResult with
  | some refAtoms, some fitAtoms, some pre =>
    if refAtoms.length = pre.alphaValuesForRef.length ∧
        refAtoms.length = pre.neighborAtomIdsForRef.length ∧
        refAtoms.length = pre.squareDistancesMatrixForRef.length ∧
        fitAtoms.length = pre.alphaValuesForFit.length ∧
        fitAtoms.length = pre.neighborAtomIdsForFit.length ∧
        fitAtoms.length = pre.squareDistancesMatrixForFit.length ∧
        pre.intersectedAtomIdsForRef.length = pre.intersectedAtomIdsForFit.length then
      CGaussianVolume.initializeIntermolecularInformation m
        { dGaussianCutoff := dIndeterminate
          neighborAtomIds := []
          pFitAtoms := some fitAtoms
          pPrecalculationResult := some pre
          pRefAtoms := some refAtoms
          squareDistancesMatrix := [] }
    else
      .error .invalidArgument
  | _, _, _ => .error .invalidArgument

/-- Source `CGaussianVolume::CGaussianVolume(pRefAtoms, pFitMolecule,
pPrecalculationResult)`: the fit atoms are copied out of the molecule and the
constructor above is run; its exception is rethrown as invalid-argument. -/
def CGaussianVolume.ofMolecule (m : CMath R) (dIndeterminate : R)
    (pRefAtoms : Option (List (CAtom R))) (pFitMolecule : Option (CMolecule R))
    (pPrecalculationResult : Option (PrecalculationResult R)) :
    Except Failure (CGaussianVolume R) :=
  match pRefAtoms, pFitMolecule, pPrecalculationResult with
  | some refAtoms, some fitMolecule, some pre =>
    match CGaussianVolume.ofAtoms m dIndeterminate (some refAtoms)
        (some fitMolecule.getAtomsList) (some pre) with
    | .error .invalidArgument => .error .invalidArgument
    | r => r
  | _, _, _ => .error .invalidArgument

mutual

/-- Source `CGaussianVolume::combineElements` (template in `GaussianVolume.h`);
`remaining` is the range from `iterCurrent` to `iterEnd`, the result vector is
returned. -/
def CGaussianVolume.combineElements (filter : List Nat → Except Failure Bool)
    (remaining : List Nat) (nElementsLeft nElementsToSelect : Int)
    (currentCombination : List Nat) (resultCombinations : List (List Nat)) :
    Except Failure (List (List Nat)) :=
  if nElementsLeft < nElementsToSelect then
    pure resultCombinations
  else if nElementsToSelect = 0 then do
    if (← filter currentCombination) then
      pure (resultCombinations ++ [currentCombination])
    else
      pure resultCombinations
  else
    CGaussianVolume.combineElementsLoop filter remaining nElementsLeft nElementsToSelect
      currentCombination resultCombinations
termination_by (remaining.length, 1)

/-- The loop `for (iterStart = iterCurrent; iterStart != iterEnd;)` of
`combineElements`. -/
def CGaussianVolume.combineElementsLoop (filter : List Nat → Except Failure Bool)
    (remaining : List Nat) (nElementsLeft nElementsToSelect : Int)
    (currentCombination : List Nat) (resultCombinations : List (List Nat)) :
    Except Failure (List (List Nat)) :=
  match remaining with
  | [] => pure resultCombinations
  | start :: rest => do
    let combinationCopy := setInsert start currentCombination
    let resultCombinations ← CGaussianVolume.combineElements filter rest
      (nElementsLeft - 1) (nElementsToSelect - 1) combinationCopy resultCombinations
    CGaussianVolume.combineElementsLoop filter rest nElementsLeft nElementsToSelect
      currentCombination resultCombinations
termination_by (remaining.length, 0)

end

/-- Source `CGaussianVolume::enumerateIntersectedAtomIds`; the output vector is
passed in and returned. -/
def CGaussianVolume.enumerateIntersectedAtomIds (neighborAtomIds : List (List Nat))
    (nIntersectedAtoms : Int) (intersectedAtomIds : List (List Nat)) :
    Except Failure (List (List Nat)) :=
  if nIntersectedAtoms ≥ 0 then
    if nIntersectedAtoms = 0 then
      pure intersectedAtomIds
    else if nIntersectedAtoms = 1 then
      pure ((List.range neighborAtomIds.length).foldl
        (fun intersectedAtomIds iKeyId => intersectedAtomIds ++ [setInsert iKeyId []])
        intersectedAtomIds)
    else if nIntersectedAtoms = 2 then
      (List.range neighborAtomIds.length).foldlM (fun intersectedAtomIds (iKeyId : Nat) => do
        let currentNeighborIdsSet ← vecGet neighborAtomIds iKeyId
        pure (currentNeighborIdsSet.foldl (fun intersectedAtomIds neighborId =>
          intersectedAtomIds ++ [setInsert neighborId (setInsert iKeyId [])])
          intersectedAtomIds)) intersectedAtomIds
    else
      (List.range neighborAtomIds.length).foldlM (fun intersectedAtomIds (iKeyId : Nat) => do
        let currentNeighborIdsSet ← vecGet neighborAtomIds iKeyId
        let pickedIds ← CGaussianVolume.combineElements
          (CIntersectedAtomsFilter.call neighborAtomIds) currentNeighborIdsSet
          currentNeighborIdsSet.length (nIntersectedAtoms - 1) [] []
        let pickedIds := pickedIds.map (fun idsSet => setInsert iKeyId idsSet)
        pure (intersectedAtomIds ++ pickedIds)) intersectedAtomIds
  else
    .error .invalidArgument

/-- The four output parameters of `precalculateMolecule`. -/
structure MoleculePrecalculation (R : Type) where
  /-- alpha values -/
  alphaValues : List R
  /-- square distances matrix -/
  squareDistancesMatrix : List (List R)
  /-- neighbor atom ids (monotone: only larger ids) -/
  neighborAtomIds : List (List Nat)
  /-- id sets at each order -/
  intersectedAtomIds : List (List (List Nat))

/-- Source `CGaussianVolume::precalculateMolecule`. For `iInnerAtomId <
iOuterAtomId` the source reads `squareDistancesMatrix[iOuterAtomId][iInnerAtomId]`,
an element of the row under construction that has not been pushed yet (the row
holds `iInnerAtomId` elements, its capacity is reserved); the value read is
indeterminate and is given by `stale iOuterAtomId iInnerAtomId`. -/
def CGaussianVolume.precalculateMolecule (m : CMath R) (stale : Nat → Nat → R)
    (molecule : CMolecule R) (dGaussianCutoff : R) (nMaxIntersectionOrder : Int) :
    Except Failure (MoleculePrecalculation R) :=
  if dGaussianCutoff ≥ 0 ∧ nMaxIntersectionOrder > 0 then do
    let atomsList := molecule.getAtomsList
    let out ← atomsList.foldlM
      (fun (out : MoleculePrecalculation R × Nat) (atomOuter : CAtom R) => do
        let iOuterAtomId := out.2
        let outerAtomPosition := atomOuter.getPosition
        let row ← atomsList.foldlM
          (fun (row : List R × List Nat × Nat) (atomInner : CAtom R) => do
            let iInnerAtomId := row.2.2
            let innerAtomPosition := atomInner.getPosition
            let dSquareDistance ←
              if iInnerAtomId ≥ iOuterAtomId then
                CMathematics.pointToPointSquareDistance outerAtomPosition innerAtomPosition
              else
                pure (stale iOuterAtomId iInnerAtomId)
            let currentNeighborIdsSet :=
              if iInnerAtomId > iOuterAtomId ∧ dSquareDistance
                  < m.pow (atomOuter.getAtomRadius + atomInner.getAtomRadius + dGaussianCutoff) 2
              then setInsert iInnerAtomId row.2.1
              else row.2.1
            pure (row.1 ++ [dSquareDistance], currentNeighborIdsSet, iInnerAtomId + 1))
          (([] : List R), ([] : List Nat), 0)
        let dAlpha := CGaussianVolume.dPARTIAL_ALPHA / m.pow atomOuter.getAtomRadius 2
        pure ({ out.1 with
                alphaValues := out.1.alphaValues ++ [dAlpha]
                squareDistancesMatrix := out.1.squareDistancesMatrix ++ [row.1]
                neighborAtomIds := out.1.neighborAtomIds ++ [row.2.1] }, iOuterAtomId + 1))
      (({ alphaValues := [], squareDistancesMatrix := [], neighborAtomIds := [],
          intersectedAtomIds := [] } : MoleculePrecalculation R), 0)
    let intersectedAtomIds ←
      (List.range nMaxIntersectionOrder.toNat).foldlM (fun intersectedAtomIds (i : Nat) => do
        let iOrder : Int := (i : Int) + 1
        let intersectedAtomIdsForCurrentOrder ←
          CGaussianVolume.enumerateIntersectedAtomIds out.1.neighborAtomIds iOrder []
        pure (intersectedAtomIds ++ [intersectedAtomIdsForCurrentOrder]))
        ([] : List (List (List Nat)))
    pure { out.1 with intersectedAtomIds := intersectedAtomIds }
  else
    .error .invalidArgument

/-- Source `CGaussianVolume::precalculate`. The output parameter is passed in
and returned; `dGaussianCutoff` is written last. -/
def CGaussianVolume.precalculate (m : CMath R) (stale : Nat → Nat → R)
    (refMol fitMol : CMolecule R) (dGaussianCutoff : R) (nMaxIntersectionOrder : Int)
    (precalculationResult : PrecalculationResult R) :
    Except Failure (PrecalculationResult R) :=
  if dGaussianCutoff ≥ 0 ∧ nMaxIntersectionOrder > 0 then do
    let r ← CGaussianVolume.precalculateMolecule m stale refMol dGaussianCutoff
      nMaxIntersectionOrder
    let precalculationResult := { precalculationResult with
      alphaValuesForRef := r.alphaValues
      squareDistancesMatrixForRef := r.squareDistancesMatrix
      neighborAtomIdsForRef := r.neighborAtomIds
      intersectedAtomIdsForRef := r.intersectedAtomIds }
    let f ← CGaussianVolume.precalculateMolecule m stale fitMol dGaussianCutoff
      nMaxIntersectionOrder
    pure { precalculationResult with
      alphaValuesForFit := f.alphaValues
      squareDistancesMatrixForFit := f.squareDistancesMatrix
      neighborAtomIdsForFit := f.neighborAtomIds
      intersectedAtomIdsForFit := f.intersectedAtomIds
      dGaussianCutoff := dGaussianCutoff }
  else
    .error .invalidArgument

/-! ## GaussianVolume.cpp: the builder -/

/-- The data members of `CGaussianVolumeBuilder`; the two molecule pointers
refer to the caller's molecules. -/
structure CGaussianVolumeBuilder (R : Type) where
  /-- `_bInitForPrecalculationResult` -/
  bInitForPrecalculationResult : Bool
  /-- `_dGaussianCutoff` -/
  dGaussianCutoff : R
  /-- `_fitAtoms` -/
  fitAtoms : List (CAtom R)
  /-- `_nMaxIntersectionOrder` -/
  nMaxIntersectionOrder : Int
  /-- `_pFitMolecule` -/
  pFitMolecule : Option (CMolecule R)
  /-- `_pRefMolecule` -/
  pRefMolecule : Option (CMolecule R)
  /-- `_precalculationResult` -/
  precalculationResult : PrecalculationResult R
  /-- `_refAtoms` -/
  refAtoms : List (CAtom R)

/-- Source `CGaussianVolumeBuilder::DefaultValues::dGAUSSIAN_CUTOFF` -/
def CGaussianVolumeBuilder.dGAUSSIAN_CUTOFF : R := 0

/-- Source `CGaussianVolumeBuilder::DefaultValues::nMAX_INTERSECTION_ORDER` -/
def CGaussianVolumeBuilder.nMAX_INTERSECTION_ORDER : Int := 1

/-- Source `CGaussianVolumeBuilder::CGaussianVolumeBuilder`; `dIndeterminate` is
the uninitialised cutoff of the default-constructed precalculation result. -/
def CGaussianVolumeBuilder.new (dIndeterminate : R)
    (pRefMolecule pFitMolecule : Option (CMolecule R)) :
    Except Failure (CGaussianVolumeBuilder R) :=
  match pRefMolecule, pFitMolecule with
  | some refMolecule, some fitMolecule =>
    .ok { bInitForPrecalculationResult := false
          dGaussianCutoff := CGaussianVolumeBuilder.dGAUSSIAN_CUTOFF
          fitAtoms := fitMolecule.getAtomsList
          nMaxIntersectionOrder := CGaussianVolumeBuilder.nMAX_INTERSECTION_ORDER
          pFitMolecule := some fitMolecule
          pRefMolecule := some refMolecule
          precalculationResult := PrecalculationResult.new dIndeterminate
          refAtoms := refMolecule.getAtomsList }
  | _, _ => .error .invalidArgument

/-- Source `CGaussianVolumeBuilder::getGaussianCutoff` -/
def CGaussianVolumeBuilder.getGaussianCutoff (self : CGaussianVolumeBuilder R) : R :=
  self.dGaussianCutoff

/-- Source `CGaussianVolumeBuilder::getMaxIntersectionOrder` -/
def CGaussianVolumeBuilder.getMaxIntersectionOrder (self : CGaussianVolumeBuilder R) : Int :=
  self.nMaxIntersectionOrder

/-- Source `CGaussianVolumeBuilder::setGaussianCutoff` -/
def CGaussianVolumeBuilder.setGaussianCutoff (self : CGaussianVolumeBuilder R) (dCutoff : R) :
    Except Failure (CGaussianVolumeBuilder R) :=
  if dCutoff ≥ 0 then .ok { self with dGaussianCutoff := dCutoff }
  else .error .invalidArgument

/-- Source `CGaussianVolumeBuilder::setMaxIntersectionOrder` -/
def CGaussianVolumeBuilder.setMaxIntersectionOrder (self : CGaussianVolumeBuilder R)
    (nOrder : Int) : Except Failure (CGaussianVolumeBuilder R) :=
  if nOrder > 0 then .ok { self with nMaxIntersectionOrder := nOrder }
  else .error .invalidArgument

/-- Source `CGaussianVolumeBuilder::attemptInitialize` -/
def CGaussianVolumeBuilder.attemptInitialize (m : CMath R) (stale : Nat → Nat → R)
    (self : CGaussianVolumeBuilder R) : Except Failure (CGaussianVolumeBuilder R) :=
  if !self.bInitForPrecalculationResult then do
    let refMolecule ← deref self.pRefMolecule
    let fitMolecule ← deref self.pFitMolecule
    let precalculationResult ← CGaussianVolume.precalculate m stale refMolecule fitMolecule
      self.getGaussianCutoff self.getMaxIntersectionOrder self.precalculationResult
    pure { self with
      precalculationResult := precalculationResult
      bInitForPrecalculationResult := true }
  else
    pure self

/-- Source `CGaussianVolumeBuilder::build()` -/
def CGaussianVolumeBuilder.build (m : CMath R) (stale : Nat → Nat → R) (dIndeterminate : R)
    (self : CGaussianVolumeBuilder R) :
    Except Failure (CGaussianVolume R × CGaussianVolumeBuilder R) := do
  let self ← self.attemptInitialize m stale
  let volume ← CGaussianVolume.ofAtoms m dIndeterminate (some self.refAtoms)
    (some self.fitAtoms) (some self.precalculationResult)
  pure (volume, self)

/-- Source `CGaussianVolumeBuilder::build(const IMolecule*)` -/
def CGaussianVolumeBuilder.buildFor (m : CMath R) (stale : Nat → Nat → R) (dIndeterminate : R)
    (self : CGaussianVolumeBuilder R) (pFitMolecule : Option (CMolecule R)) :
    Except Failure (CGaussianVolume R × CGaussianVolumeBuilder R) :=
  match pFitMolecule with
  | some fitMolecule => do
    let self ← self.attemptInitialize m stale
    let volume ← CGaussianVolume.ofMolecule m dIndeterminate (some self.refAtoms)
      (some fitMolecule) (some self.precalculationResult)
    pure (volume, self)
  | none => .error .invalidArgument

/-! ## GaussianVolumeOverlapEvaluator.cpp -/

/-- The data members of `CGaussianVolumeOverlapEvaluator`; the two molecules
are the clones owned by the evaluator. -/
structure CGaussianVolumeOverlapEvaluator (R : Type) where
  /-- `_bInitForGaussianVolumeBuilder` -/
  bInitForGaussianVolumeBuilder : Bool
  /-- `_bNegativeOverlap` -/
  bNegativeOverlap : Bool
  /-- `_dGaussianCutoff` -/
  dGaussianCutoff : R
  /-- `_gVolumeBuilder` -/
  gVolumeBuilder : CGaussianVolumeBuilder R
  /-- `_nMaxIntersectionOrder` -/
  nMaxIntersectionOrder : Int
  /-- `_pFitMolecule` -/
  pFitMolecule : CMolecule R
  /-- `_pRefMolecule` -/
  pRefMolecule : CMolecule R

/-- Source `CGaussianVolumeOverlapEvaluator::DefaultValues::bNEGATIVE_OVERLAP` -/
def CGaussianVolumeOverlapEvaluator.bNEGATIVE_OVERLAP : Bool := false

/-- Source `CGaussianVolumeOverlapEvaluator::DefaultValues::dGAUSSIAN_CUTOFF` -/
def CGaussianVolumeOverlapEvaluator.dGAUSSIAN_CUTOFF : R := 0

/-- Source `CGaussianVolumeOverlapEvaluator::DefaultValues::nMAX_INTERSECTION_ORDER` -/
def CGaussianVolumeOverlapEvaluator.nMAX_INTERSECTION_ORDER : Int := 1

/-- Source `CGaussianVolumeOverlapEvaluator::CGaussianVolumeOverlapEvaluator`;
the clones are molecules, so the casts cannot fail. -/
def CGaussianVolumeOverlapEvaluator.new (dIndeterminate : R)
    (refMolecule fitMolecule : CMolecule R) :
    Except Failure (CGaussianVolumeOverlapEvaluator R) := do
  let gVolumeBuilder ← CGaussianVolumeBuilder.new dIndeterminate (some refMolecule)
    (some fitMolecule)
  pure { bInitForGaussianVolumeBuilder := false
         bNegativeOverlap := CGaussianVolumeOverlapEvaluator.bNEGATIVE_OVERLAP
         dGaussianCutoff := CGaussianVolumeOverlapEvaluator.dGAUSSIAN_CUTOFF
         gVolumeBuilder := gVolumeBuilder
         nMaxIntersectionOrder := CGaussianVolumeOverlapEvaluator.nMAX_INTERSECTION_ORDER
         pFitMolecule := fitMolecule.clone
         pRefMolecule := refMolecule.clone }

/-- Source `CGaussianVolumeOverlapEvaluator::getGaussianCutoff` -/
def CGaussianVolumeOverlapEvaluator.getGaussianCutoff
    (self : CGaussianVolumeOverlapEvaluator R) : R := self.dGaussianCutoff

/-- Source `CGaussianVolumeOverlapEvaluator::getMaxIntersectionOrder` -/
def CGaussianVolumeOverlapEvaluator.getMaxIntersectionOrder
    (self : CGaussianVolumeOverlapEvaluator R) : Int := self.nMaxIntersectionOrder

/-- Source `CGaussianVolumeOverlapEvaluator::getNegativeOverlapFlag` -/
def CGaussianVolumeOverlapEvaluator.getNegativeOverlapFlag
    (self : CGaussianVolumeOverlapEvaluator R) : Bool := self.bNegativeOverlap

/-- Source `CGaussianVolumeOverlapEvaluator::setGaussianCutoff` -/
def CGaussianVolumeOverlapEvaluator.setGaussianCutoff
    (self : CGaussianVolumeOverlapEvaluator R) (dCutoff : R) :
    Except Failure (CGaussianVolumeOverlapEvaluator R) :=
  if dCutoff ≥ 0 then .ok { self with dGaussianCutoff := dCutoff }
  else .error .invalidArgument

/-- Source `CGaussianVolumeOverlapEvaluator::setMaxIntersectionOrder` -/
def CGaussianVolumeOverlapEvaluator.setMaxIntersectionOrder
    (self : CGaussianVolumeOverlapEvaluator R) (nOrders : Int) :
    Except Failure (CGaussianVolumeOverlapEvaluator R) :=
  if nOrders > 0 then .ok { self with nMaxIntersectionOrder := nOrders }
  else .error .invalidArgument

/-- Source `CGaussianVolumeOverlapEvaluator::setNegativeOverlapFlag` -/
def CGaussianVolumeOverlapEvaluator.setNegativeOverlapFlag
    (self : CGaussianVolumeOverlapEvaluator R) (bFlag : Bool) :
    CGaussianVolumeOverlapEvaluator R :=
  { self with bNegativeOverlap := bFlag }

/-- Source `CGaussianVolumeOverlapEvaluator::attemptInitialize`. The evaluator
after the call is returned also when a setter throws: the flag is then still
unset, and the builder keeps what was already written. -/
def CGaussianVolumeOverlapEvaluator.attemptInitialize
    (self : CGaussianVolumeOverlapEvaluator R) :
    CGaussianVolumeOverlapEvaluator R × Except Failure Unit :=
  if !self.bInitForGaussianVolumeBuilder then
    match self.gVolumeBuilder.setGaussianCutoff self.getGaussianCutoff with
    | .error err => (self, .error err)
    | .ok builder =>
      match builder.setMaxIntersectionOrder self.getMaxIntersectionOrder with
      | .error err => ({ self with gVolumeBuilder := builder }, .error err)
      | .ok builder =>
        ({ self with gVolumeBuilder := builder, bInitForGaussianVolumeBuilder := true },
          .ok ())
  else
    (self, .ok ())

/-- Source `CGaussianVolumeOverlapEvaluator::getFunctionValue`. The method is
not `const`: the evaluator after the call is returned next to the result (or
the failure); `dIndeterminate` is the uninitialised cutoff of the local
default-constructed engine. -/
def CGaussianVolumeOverlapEvaluator.getFunctionValue (m : CMath R) (dIndeterminate : R)
    (self : CGaussianVolumeOverlapEvaluator R) (params : List R) :
    CGaussianVolumeOverlapEvaluator R × Except Failure R :=
  match self.attemptInitialize with
  | (self, .error err) => (self, .error err)
  | (self, .ok ()) =>
    (self, do
      let fitMoleculeClone := self.pFitMolecule.clone
      /- Apply transformation. -/
      let fitMolecule ← fitMoleculeClone.rotateXYZ m
        (← vecGet params 3) (← vecGet params 4) (← vecGet params 5)
      let fitMolecule ← fitMolecule.move
        (← vecGet params 0) (← vecGet params 1) (← vecGet params 2)
      /- Get overlap volume. -/
      let gaussianVolume := CGaussianVolume.new dIndeterminate
      let gaussianVolume ← gaussianVolume.setGaussianCutoff self.getGaussianCutoff
      let dOverlap ← gaussianVolume.getOverlapVolumeDirect m self.pRefMolecule fitMolecule
      pure (if self.bNegativeOverlap then -1 * dOverlap else dOverlap))

/-! ## SimplexOptimizer.cpp -/

/-- The value `numeric_limits<double>::max()`, `(2 - 2^-52) * 2^1023`. -/
def DBL_MAX : R := 2 ^ 1024 - 2 ^ 971

/-- The data members of `CSimplexOptimizer`. The objective
`_functionValueEvaluator` is a pure function passed to the methods that call it. -/
structure CSimplexOptimizer (R : Type) where
  /-- `_INITIAL_FEASIBLE_SOLUTIONS` -/
  INITIAL_FEASIBLE_SOLUTIONS : List (List (List R))
  /-- `_currentFeasibleSolutions` -/
  currentFeasibleSolutions : List (List R)
  /-- `_currentFunctionValues` -/
  currentFunctionValues : List R
  /-- `_dContractionFactor` -/
  dContractionFactor : R
  /-- `_dExtensionFactor` -/
  dExtensionFactor : R
  /-- `_dHighestSolutionValue` -/
  dHighestSolutionValue : R
  /-- `_dLowestSolutionValue` -/
  dLowestSolutionValue : R
  /-- `_dReductionFactor` -/
  dReductionFactor : R
  /-- `_dReflectedPointValue` -/
  dReflectedPointValue : R
  /-- `_dReflectionFactor` -/
  dReflectionFactor : R
  /-- `_dSecondHighestSolutionValue` -/
  dSecondHighestSolutionValue : R
  /-- `_nHighestSolutionId` -/
  nHighestSolutionId : Int
  /-- `_nLowestSolutionId` -/
  nLowestSolutionId : Int
  /-- `_nPROBLEM_DIMENSION` -/
  nPROBLEM_DIMENSION : Int
  /-- `_nSecondHighestSolutionId` -/
  nSecondHighestSolutionId : Int
  /-- `_reflectionCentroid` -/
  reflectionCentroid : List R
  /-- `_reflectedPoint` -/
  reflectedPoint : List R

/-- Source `CSimplexOptimizer::DefaultValues::dCONTRACTION_FACTOR` -/
def CSimplexOptimizer.dCONTRACTION_FACTOR : R := 0.5

/-- Source `CSimplexOptimizer::DefaultValues::dEXTENSION_FACTOR` -/
def CSimplexOptimizer.dEXTENSION_FACTOR : R := 2.0

/-- Source `CSimplexOptimizer::DefaultValues::dREDUCTION_FACTOR` -/
def CSimplexOptimizer.dREDUCTION_FACTOR : R := 0.5

/-- Source `CSimplexOptimizer::DefaultValues::dREFLECTION_FACTOR` -/
def CSimplexOptimizer.dREFLECTION_FACTOR : R := 1.0

/-- Source `CSimplexOptimizer::getContractionFactor` -/
def CSimplexOptimizer.getContractionFactor (self : CSimplexOptimizer R) : R :=
  self.dContractionFactor

/-- Source `CSimplexOptimizer::getExtensionFactor` -/
def CSimplexOptimizer.getExtensionFactor (self : CSimplexOptimizer R) : R :=
  self.dExtensionFactor

/-- Source `CSimplexOptimizer::getReductionFactor` -/
def CSimplexOptimizer.getReductionFactor (self : CSimplexOptimizer R) : R :=
  self.dReductionFactor

/-- Source `CSimplexOptimizer::getReflectionFactor` -/
def CSimplexOptimizer.getReflectionFactor (self : CSimplexOptimizer R) : R :=
  self.dReflectionFactor

/-- Source `CSimplexOptimizer::setContractionFactor` -/
def CSimplexOptimizer.setContractionFactor (self : CSimplexOptimizer R) (dFactor : R) :
    Except Failure (CSimplexOptimizer R) :=
  if dFactor > 0 ∧ dFactor < 1 then .ok { self with dContractionFactor := dFactor }
  else .error .invalidArgument

/-- Source `CSimplexOptimizer::setExtensionFactor` -/
def CSimplexOptimizer.setExtensionFactor (self : CSimplexOptimizer R) (dFactor : R) :
    Except Failure (CSimplexOptimizer R) :=
  if dFactor > 1.0 then .ok { self with dExtensionFactor := dFactor }
  else .error .invalidArgument

/-- Source `CSimplexOptimizer::setReductionFactor` -/
def CSimplexOptimizer.setReductionFactor (self : CSimplexOptimizer R) (dFactor : R) :
    Except Failure (CSimplexOptimizer R) :=
  if dFactor > 0 ∧ dFactor < 1 then .ok { self with dReductionFactor := dFactor }
  else .error .invalidArgument

/-- Source `CSimplexOptimizer::setReflectionFactor` -/
def CSimplexOptimizer.setReflectionFactor (self : CSimplexOptimizer R) (dFactor : R) :
    CSimplexOptimizer R :=
  { self with dReflectionFactor := dFactor }

/-- The call `v.assign(n, 0.0)` with an `int` count. -/
def vecAssignZero (n : Int) : Except Failure (List R) :=
  if n < 0 then .error .lengthError else .ok (List.replicate n.toNat 0)

/-- Source `CSimplexOptimizer::CSimplexOptimizer`; `dIndeterminate` is the value
of the members that the constructor leaves uninitialised. -/
def CSimplexOptimizer.new (dIndeterminate : R)
    (initialFeasibleSolutions : List (List (List R))) :
    Except Failure (CSimplexOptimizer R) := do
  let firstGroup ← vecGet initialFeasibleSolutions 0
  let nPROBLEM_DIMENSION : Int := (firstGroup.length : Int) - 1
  /- Validate dimensions of the initial feasible solutions. -/
  initialFeasibleSolutions.forM (fun (SOLUTIONS_GROUP : List (List R)) => do
    if (SOLUTIONS_GROUP.length : Int) ≠ nPROBLEM_DIMENSION + 1 then
      throw Failure.invalidArgument
    SOLUTIONS_GROUP.forM (fun (solution : List R) =>
      if (solution.length : Int) ≠ nPROBLEM_DIMENSION then
        throw Failure.invalidArgument
      else pure ()))
  /- Initialization. -/
  let reflectedPoint ← vecAssignZero nPROBLEM_DIMENSION
  let reflectionCentroid ← vecAssignZero nPROBLEM_DIMENSION
  let currentFunctionValues ← vecAssignZero (nPROBLEM_DIMENSION + 1)
  let self : CSimplexOptimizer R :=
    { INITIAL_FEASIBLE_SOLUTIONS := initialFeasibleSolutions
      currentFeasibleSolutions := []
      currentFunctionValues := currentFunctionValues
      dContractionFactor := dIndeterminate
      dExtensionFactor := dIndeterminate
      dHighestSolutionValue := -DBL_MAX
      dLowestSolutionValue := DBL_MAX
      dReductionFactor := dIndeterminate
      dReflectedPointValue := dIndeterminate
      dReflectionFactor := dIndeterminate
      dSecondHighestSolutionValue := -DBL_MAX
      nHighestSolutionId := -1
      nLowestSolutionId := -1
      nPROBLEM_DIMENSION := nPROBLEM_DIMENSION
      nSecondHighestSolutionId := -1
      reflectionCentroid := reflectionCentroid
      reflectedPoint := reflectedPoint }
  let self ← self.setContractionFactor CSimplexOptimizer.dCONTRACTION_FACTOR
  let self ← self.setExtensionFactor CSimplexOptimizer.dEXTENSION_FACTOR
  let self ← self.setReductionFactor CSimplexOptimizer.dREDUCTION_FACTOR
  pure (self.setReflectionFactor CSimplexOptimizer.dREFLECTION_FACTOR)

/-- Source `CSimplexOptimizer::evaluateAllCurrentSolutions` -/
def CSimplexOptimizer.evaluateAllCurrentSolutions (f : List R → R)
    (self : CSimplexOptimizer R) : Except Failure (CSimplexOptimizer R) := do
  let currentFunctionValues ←
    (List.range self.currentFeasibleSolutions.length).foldlM
      (fun (currentFunctionValues : List R) (i : Nat) => do
        vecSet currentFunctionValues i (f (← vecGet self.currentFeasibleSolutions i)))
      self.currentFunctionValues
  pure { self with currentFunctionValues := currentFunctionValues }

/-- The body of the loop of `CSimplexOptimizer::updateSpecialVertices` for the
index `i` and the value `_currentFunctionValues[i]`. -/
def CSimplexOptimizer.updateSpecialVerticesStep (self : CSimplexOptimizer R) (i : Int)
    (value : R) : CSimplexOptimizer R :=
  /- Get the highest and second highest solution. -/
  let self :=
    if value > self.dHighestSolutionValue then
      { self with
        dSecondHighestSolutionValue := self.dHighestSolutionValue
        nSecondHighestSolutionId := self.nHighestSolutionId
        dHighestSolutionValue := value
        nHighestSolutionId := i }
    else if value > self.dSecondHighestSolutionValue then
      { self with
        dSecondHighestSolutionValue := value
        nSecondHighestSolutionId := i }
    else self
  /- Get the lowest solution. -/
  if value < self.dLowestSolutionValue then
    { self with
      dLowestSolutionValue := value
      nLowestSolutionId := i }
  else self

/-- Source `CSimplexOptimizer::updateSpecialVertices` -/
def CSimplexOptimizer.updateSpecialVertices (self : CSimplexOptimizer R) :
    CSimplexOptimizer R :=
  /- Reset records. -/
  let self := { self with
    nHighestSolutionId := -1
    nLowestSolutionId := -1
    nSecondHighestSolutionId := -1
    dHighestSolutionValue := -DBL_MAX
    dLowestSolutionValue := DBL_MAX
    dSecondHighestSolutionValue := -DBL_MAX }
  /- Get some special solutions. -/
  self.currentFunctionValues.enum.foldl (fun (self : CSimplexOptimizer R) (iv : Nat × R) =>
    self.updateSpecialVerticesStep iv.1 iv.2) self

/-- Source `CSimplexOptimizer::updateReflectionCentroid` -/
def CSimplexOptimizer.updateReflectionCentroid (self : CSimplexOptimizer R) :
    Except Failure (CSimplexOptimizer R) := do
  let reflectionCentroid ← vecAssignZero self.nPROBLEM_DIMENSION
  let reflectionCentroid ← self.currentFeasibleSolutions.foldlM
    (fun (reflectionCentroid : List R) (solution : List R) =>
      CMathematics.add reflectionCentroid solution) reflectionCentroid
  let reflectionCentroid ← CMathematics.substract reflectionCentroid
    (← vecGet self.currentFeasibleSolutions self.nHighestSolutionId)
  let reflectionCentroid := CMathematics.multiply reflectionCentroid
    (1 / (self.nPROBLEM_DIMENSION : R))
  pure { self with reflectionCentroid := reflectionCentroid }

/-- Source `CSimplexOptimizer::doReflection` -/
def CSimplexOptimizer.doReflection (f : List R → R) (self : CSimplexOptimizer R) :
    Except Failure (CSimplexOptimizer R) := do
  let reflectedPoint := self.reflectionCentroid
  let reflectedPoint ← CMathematics.substract reflectedPoint
    (← vecGet self.currentFeasibleSolutions self.nHighestSolutionId)
  let reflectedPoint := CMathematics.multiply reflectedPoint self.dReductionFactor
  let reflectedPoint ← CMathematics.add reflectedPoint self.reflectionCentroid
  pure { self with
    reflectedPoint := reflectedPoint
    dReflectedPointValue := f reflectedPoint }

/-- Source `CSimplexOptimizer::doReduction` -/
def CSimplexOptimizer.doReduction (self : CSimplexOptimizer R) :
    Except Failure (CSimplexOptimizer R) := do
  let lowestPoint ← vecGet self.currentFeasibleSolutions self.nLowestSolutionId
  let currentFeasibleSolutions ← self.currentFeasibleSolutions.mapM
    (fun (oldPoint : List R) => do
      let newPoint := lowestPoint
      let newPoint ← CMathematics.substract newPoint oldPoint
      let newPoint := CMathematics.multiply newPoint self.dReductionFactor
      CMathematics.add newPoint oldPoint)
  pure { self with currentFeasibleSolutions := currentFeasibleSolutions }

/-- Source `CSimplexOptimizer::doExtention` -/
def CSimplexOptimizer.doExtention (f : List R → R) (self : CSimplexOptimizer R) :
    Except Failure (CSimplexOptimizer R) := do
  let extendedPoint := self.reflectedPoint
  let extendedPoint ← CMathematics.substract extendedPoint self.reflectionCentroid
  let extendedPoint := CMathematics.multiply extendedPoint self.dExtensionFactor
  let extendedPoint ← CMathematics.add extendedPoint self.reflectionCentroid
  let dExtendedPointValue := f extendedPoint
  if dExtendedPointValue < self.dReflectedPointValue then
    pure { self with
      currentFeasibleSolutions :=
        (← vecSet self.currentFeasibleSolutions self.nHighestSolutionId extendedPoint)
      currentFunctionValues :=
        (← vecSet self.currentFunctionValues self.nHighestSolutionId dExtendedPointValue) }
  else
    pure { self with
      currentFeasibleSolutions :=
        (← vecSet self.currentFeasibleSolutions self.nHighestSolutionId self.reflectedPoint)
      currentFunctionValues :=
        (← vecSet self.currentFunctionValues self.nHighestSolutionId
          self.dReflectedPointValue) }

/-- Source `CSimplexOptimizer::doContraction` -/
def CSimplexOptimizer.doContraction (f : List R → R) (self : CSimplexOptimizer R) :
    Except Failure (CSimplexOptimizer R) := do
  let highestValue ← vecGet self.currentFunctionValues self.nHighestSolutionId
  let (lowerPoint, dLowerPointValue) ←
    if highestValue < self.dReflectedPointValue then
      pure ((← vecGet self.currentFeasibleSolutions self.nHighestSolutionId), highestValue)
    else
      pure (self.reflectedPoint, self.dReflectedPointValue)
  let contractedPoint := lowerPoint
  let contractedPoint ← CMathematics.substract contractedPoint self.reflectionCentroid
  let contractedPoint := CMathematics.multiply contractedPoint self.dContractionFactor
  let contractedPoint ← CMathematics.add contractedPoint self.reflectionCentroid
  let dContractedPointValue := f contractedPoint
  if dContractedPointValue ≤ dLowerPointValue then
    pure { self with
      currentFeasibleSolutions :=
        (← vecSet self.currentFeasibleSolutions self.nHighestSolutionId contractedPoint)
      currentFunctionValues :=
        (← vecSet self.currentFunctionValues self.nHighestSolutionId dContractedPointValue) }
  else
    let self ← self.doReduction
    self.evaluateAllCurrentSolutions f

/-- The body of the main iteration of `CSimplexOptimizer::runOptimization`. -/
def CSimplexOptimizer.iteration (f : List R → R) (self : CSimplexOptimizer R) :
    Except Failure (CSimplexOptimizer R) := do
  /- Calculate three special vertices and one centroid. -/
  let self := self.updateSpecialVertices
  let self ← self.updateReflectionCentroid
  /- Reflection operation. -/
  let self ← self.doReflection f
  if self.dReflectedPointValue < self.dLowestSolutionValue then
    self.doExtention f
  else if self.dReflectedPointValue ≥ self.dLowestSolutionValue
      ∧ self.dReflectedPointValue ≤ self.dSecondHighestSolutionValue then
    pure { self with
      currentFeasibleSolutions :=
        (← vecSet self.currentFeasibleSolutions self.nHighestSolutionId self.reflectedPoint)
      currentFunctionValues :=
        (← vecSet self.currentFunctionValues self.nHighestSolutionId
          self.dReflectedPointValue) }
  else
    self.doContraction f

/-- Source `CSimplexOptimizer::runOptimization`: the best solution, the best
value and the optimizer after the run. -/
def CSimplexOptimizer.runOptimization (f : List R → R) (self : CSimplexOptimizer R)
    (nMaxIterations : Int) : Except Failure (List R × R × CSimplexOptimizer R) := do
  let (bestSolution, dBestValue, self) ← self.INITIAL_FEASIBLE_SOLUTIONS.foldlM
    (fun (acc : List R × R × CSimplexOptimizer R) (solutionsGroup : List (List R)) => do
      let (bestSolution, dBestValue, self) := acc
      let self := { self with currentFeasibleSolutions := solutionsGroup }
      let self ← self.evaluateAllCurrentSolutions f
      /- Main iteration. -/
      let self ← (List.range nMaxIterations.toNat).foldlM
        (fun (self : CSimplexOptimizer R) (_iIteration : Nat) => self.iteration f) self
      /- Record the best solution and value. -/
      let lowestValue ← vecGet self.currentFunctionValues self.nLowestSolutionId
      if lowestValue < dBestValue then
        pure ((← vecGet self.currentFeasibleSolutions self.nLowestSolutionId), lowestValue, self)
      else
        pure (bestSolution, dBestValue, self))
    (([] : List R), (DBL_MAX : R), self)
  pure (bestSolution, dBestValue, self)

/-- Source `CSimplexOptimizer::CourseNode::OperationType` -/
inductive CourseNode.OperationType where
  /-- the type of a default-constructed node -/
  | OperationType_Default
  /-- the extension branch -/
  | OperationType_Extension
  /-- the replacement branch -/
  | OperationType_Replacement
  /-- the contraction branch -/
  | OperationType_Contraction
  deriving DecidableEq, Repr

/-- Source `CSimplexOptimizer::CourseNode` -/
structure CourseNode (R : Type) where
  /-- `_lowestPoint` -/
  lowestPoint : List R
  /-- `_dLowestValue` -/
  dLowestValue : R
  /-- `_operationType` -/
  operationType : CourseNode.OperationType

/-- Source `CSimplexOptimizer::CourseNode::CourseNode` -/
def CourseNode.new : CourseNode R :=
  { lowestPoint := [], dLowestValue := 0.0, operationType := .OperationType_Default }

/-- Source `CSimplexOptimizer::CourseNode::getLowestPoint` -/
def CourseNode.getLowestPoint (self : CourseNode R) : List R := self.lowestPoint

/-- Source `CSimplexOptimizer::CourseNode::getLowestValue` -/
def CourseNode.getLowestValue (self : CourseNode R) : R := self.dLowestValue

/-- Source `CSimplexOptimizer::CourseNode::getOperationType` -/
def CourseNode.getOperationType (self : CourseNode R) : CourseNode.OperationType :=
  self.operationType

/-- Source `CSimplexOptimizer::CourseNode::setLowestPoint` -/
def CourseNode.setLowestPoint (self : CourseNode R) (point : List R) : CourseNode R :=
  { self with lowestPoint := point }

/-- Source `CSimplexOptimizer::CourseNode::setLowestValue` -/
def CourseNode.setLowestValue (self : CourseNode R) (dValue : R) : CourseNode R :=
  { self with dLowestValue := dValue }

/-- Source `CSimplexOptimizer::CourseNode::setOperationType` -/
def CourseNode.setOperationType (self : CourseNode R) (type : CourseNode.OperationType) :
    CourseNode R :=
  { self with operationType := type }

/-- The body of the main iteration of `CSimplexOptimizer::traceOptimization`:
the optimizer after the iteration and the course node that is pushed. -/
def CSimplexOptimizer.traceIteration (f : List R → R) (self : CSimplexOptimizer R) :
    Except Failure (CSimplexOptimizer R × CourseNode R) := do
  let currentCourseNode : CourseNode R := CourseNode.new
  /- Calculate three special vertices and one centroid. -/
  let self := self.updateSpecialVertices
  let self ← self.updateReflectionCentroid
  /- Reflection operation. -/
  let self ← self.doReflection f
  let step : CSimplexOptimizer R × CourseNode R ←
    if self.dReflectedPointValue < self.dLowestSolutionValue then do
      let self ← self.doExtention f
      pure (self, currentCourseNode.setOperationType .OperationType_Extension)
    else if self.dReflectedPointValue ≥ self.dLowestSolutionValue
        ∧ self.dReflectedPointValue ≤ self.dSecondHighestSolutionValue then do
      let currentFeasibleSolutions ←
        vecSet self.currentFeasibleSolutions self.nHighestSolutionId self.reflectedPoint
      let currentFunctionValues ←
        vecSet self.currentFunctionValues self.nHighestSolutionId self.dReflectedPointValue
      pure ({ self with
              currentFeasibleSolutions := currentFeasibleSolutions
              currentFunctionValues := currentFunctionValues },
        currentCourseNode.setOperationType .OperationType_Replacement)
    else do
      let self ← self.doContraction f
      pure (self, currentCourseNode.setOperationType .OperationType_Contraction)
  /- Record the information of current iteration. -/
  let self := step.1
  let currentCourseNode := step.2
  let currentCourseNode := currentCourseNode.setLowestPoint
    (← vecGet self.currentFeasibleSolutions self.nLowestSolutionId)
  let currentCourseNode := currentCourseNode.setLowestValue
    (← vecGet self.currentFunctionValues self.nLowestSolutionId)
  pure (self, currentCourseNode)

/-- Source `CSimplexOptimizer::traceOptimization`: the trajectories written to
the output parameter and the optimizer after the run. -/
def CSimplexOptimizer.traceOptimization (f : List R → R) (self : CSimplexOptimizer R)
    (_trajectories : List (List (CourseNode R))) (nMaxIterations : Int) :
    Except Failure (List (List (CourseNode R)) × CSimplexOptimizer R) :=
  /- clear output -/
  let trajectories : List (List (CourseNode R)) := []
  self.INITIAL_FEASIBLE_SOLUTIONS.foldlM
    (fun (acc : List (List (CourseNode R)) × CSimplexOptimizer R)
        (solutionsGroup : List (List R)) => do
      let self := { acc.2 with currentFeasibleSolutions := solutionsGroup }
      let currentTrajectory : List (CourseNode R) := []
      let self ← self.evaluateAllCurrentSolutions f
      /- Main iteration. -/
      let run ← (List.range nMaxIterations.toNat).foldlM
        (fun (run : CSimplexOptimizer R × List (CourseNode R)) (_iIteration : Nat) => do
          let step ← run.1.traceIteration f
          pure (step.1, run.2 ++ [step.2]))
        (self, currentTrajectory)
      /- Record the information of current trajectory. -/
      pure (acc.1 ++ [run.2], run.1))
    (trajectories, self)

/-! ## GaussianService.cpp -/

/-- Source `CGaussianService::ParametersAggregation` -/
structure ParametersAggregation (R : Type) where
  /-- contraction factor for simplex optimization -/
  dSimplexContractionFactor : R
  /-- extension factor for simplex optimization -/
  dSimplexExtensionFactor : R
  /-- reflection factor for simplex optimization -/
  dSimplexReflectionFactor : R
  /-- number of initial solution group -/
  nSimplexInitialSolutionGroupsNumber : Int
  /-- max iteration for simplex optimization -/
  nSimplexMaxIterations : Int

/-- The data member `_parameterAggregation` of `CGaussianService`. -/
structure CGaussianService (R : Type) where
  /-- `_parameterAggregation` -/
  parameterAggregation : ParametersAggregation R

/-- Source `CGaussianService::_nDIMENSIONS` -/
def CGaussianService.nDIMENSIONS : Int := 6

/-- Source `CGaussianService::DefaultValues::dSIMPLEX_CONTRACTION_FACTOR` -/
def CGaussianService.dSIMPLEX_CONTRACTION_FACTOR : R := 0.5

/-- Source `CGaussianService::DefaultValues::dSIMPLEX_EXTENSION_FACTOR` -/
def CGaussianService.dSIMPLEX_EXTENSION_FACTOR : R := 3.5

/-- Source `CGaussianService::DefaultValues::dSIMPLEX_REFLECTION_FACTOR` -/
def CGaussianService.dSIMPLEX_REFLECTION_FACTOR : R := 1.0

/-- Source `CGaussianService::DefaultValues::nSIMPLEX_INITIAL_SOLUTION_GROUPS_NUMBER` -/
def CGaussianService.nSIMPLEX_INITIAL_SOLUTION_GROUPS_NUMBER : Int := 16

/-- Source `CGaussianService::DefaultValues::nSIMPLEX_MAX_ITERATIONS` -/
def CGaussianService.nSIMPLEX_MAX_ITERATIONS : Int := 60

/-- Source `CGaussianService::getSimplexContractionFactor` -/
def CGaussianService.getSimplexContractionFactor (self : CGaussianService R) : R :=
  self.parameterAggregation.dSimplexContractionFactor

/-- Source `CGaussianService::getSimplexExtensionFactor` -/
def CGaussianService.getSimplexExtensionFactor (self : CGaussianService R) : R :=
  self.parameterAggregation.dSimplexExtensionFactor

/-- Source `CGaussianService::getSimplexInitialSolutionGroupsNumber` -/
def CGaussianService.getSimplexInitialSolutionGroupsNumber (self : CGaussianService R) : Int :=
  self.parameterAggregation.nSimplexInitialSolutionGroupsNumber

/-- Source `CGaussianService::getSimplexMaxIterations` -/
def CGaussianService.getSimplexMaxIterations (self : CGaussianService R) : Int :=
  self.parameterAggregation.nSimplexMaxIterations

/-- Source `CGaussianService::getSimplexReflectionFactor` -/
def CGaussianService.getSimplexReflectionFactor (self : CGaussianService R) : R :=
  self.parameterAggregation.dSimplexReflectionFactor

/-- Source `CGaussianService::setSimplexContractionFactor` -/
def CGaussianService.setSimplexContractionFactor (self : CGaussianService R)
    (dContractionFactor : R) : Except Failure (CGaussianService R) :=
  if dContractionFactor > 0 then
    .ok { self with parameterAggregation :=
      { self.parameterAggregation with dSimplexContractionFactor := dContractionFactor } }
  else .error .invalidArgument

/-- Source `CGaussianService::setSimplexExtensionFactor` -/
def CGaussianService.setSimplexExtensionFactor (self : CGaussianService R)
    (dExtensionFactor : R) : Except Failure (CGaussianService R) :=
  if dExtensionFactor > 0 then
    .ok { self with parameterAggregation :=
      { self.parameterAggregation with dSimplexExtensionFactor := dExtensionFactor } }
  else .error .invalidArgument

/-- Source `CGaussianService::setSimplexInitialSolutionGroupsNumber` -/
def CGaussianService.setSimplexInitialSolutionGroupsNumber (self : CGaussianService R)
    (nGroupsNumber : Int) : Except Failure (CGaussianService R) :=
  if nGroupsNumber > 0 then
    .ok { self with parameterAggregation :=
      { self.parameterAggregation with nSimplexInitialSolutionGroupsNumber := nGroupsNumber } }
  else .error .invalidArgument

/-- Source `CGaussianService::setSimplexMaxIterations` -/
def CGaussianService.setSimplexMaxIterations (self : CGaussianService R)
    (nMaxIterations : Int) : Except Failure (CGaussianService R) :=
  if nMaxIterations > 0 then
    .ok { self with parameterAggregation :=
      { self.parameterAggregation with nSimplexMaxIterations := nMaxIterations } }
  else .error .invalidArgument

/-- Source `CGaussianService::setSimplexReflectionFactor` -/
def CGaussianService.setSimplexReflectionFactor (self : CGaussianService R)
    (dReflectionFactor : R) : Except Failure (CGaussianService R) :=
  if dReflectionFactor > 0 then
    .ok { self with parameterAggregation :=
      { self.parameterAggregation with dSimplexReflectionFactor := dReflectionFactor } }
  else .error .invalidArgument

/-- Source `CGaussianService::initParameters()`, run on a service whose
parameters are not yet initialised. -/
def CGaussianService.initParameters (self : CGaussianService R) :
    Except Failure (CGaussianService R) := do
  let self ← self.setSimplexContractionFactor CGaussianService.dSIMPLEX_CONTRACTION_FACTOR
  let self ← self.setSimplexExtensionFactor CGaussianService.dSIMPLEX_EXTENSION_FACTOR
  let self ← self.setSimplexInitialSolutionGroupsNumber
    CGaussianService.nSIMPLEX_INITIAL_SOLUTION_GROUPS_NUMBER
  let self ← self.setSimplexMaxIterations CGaussianService.nSIMPLEX_MAX_ITERATIONS
  self.setSimplexReflectionFactor CGaussianService.dSIMPLEX_REFLECTION_FACTOR

/-- The step "Construct simplex optimizer" of
`CGaussianService::evaluateMaxGaussianVolumeOverlap`: the optimizer is
constructed for the initial groups and receives the reflection, extension and
contraction factors of the service. -/
def CGaussianService.constructSimplexOptimizer (dIndeterminate : R)
    (self : CGaussianService R) (initialSolutionGroups : List (List (List R))) :
    Except Failure (CSimplexOptimizer R) := do
  let simplexOptimizer ← CSimplexOptimizer.new dIndeterminate initialSolutionGroups
  let simplexOptimizer :=
    simplexOptimizer.setReflectionFactor self.getSimplexReflectionFactor
  let simplexOptimizer ← simplexOptimizer.setExtensionFactor self.getSimplexExtensionFactor
  simplexOptimizer.setContractionFactor self.getSimplexContractionFactor

/-- Source `CGaussianService::generateInitialSolutionGroups`: the total returned
and the groups appended to `initialSolutionGroups`. Each of the three loops
pushes one element per round; `rand k` is the value of
`rand() / static_cast<double>(RAND_MAX)` at the `k`-th call of `rand()` in this
call of the function, and the running total `nTotalSolutions` is the number of
calls made so far. -/
def CGaussianService.generateInitialSolutionGroups (rand : Nat → R)
    (nGroups nSolutionsPerGroup : Int) (initialSolutionGroups : List (List (List R))) :
    Int × List (List (List R)) :=
  let nGROUPS := nGroups.toNat
  let nSOLUTIONS_PER_GROUP := nSolutionsPerGroup.toNat
  let nDIMENSIONS := CGaussianService.nDIMENSIONS.toNat
  ((nGROUPS * nSOLUTIONS_PER_GROUP * nDIMENSIONS : Nat),
    initialSolutionGroups ++ (List.range nGROUPS).map (fun (iGroup : Nat) =>
      (List.range nSOLUTIONS_PER_GROUP).map (fun (iSolution : Nat) =>
        (List.range nDIMENSIONS).map (fun (iDimension : Nat) =>
          let nTotalSolutions := (iGroup * nSOLUTIONS_PER_GROUP + iSolution) * nDIMENSIONS
            + iDimension
          let dRandom := 2 * rand nTotalSolutions - 1
          /- translation -/
          if iDimension < 3 then dRandom * 4.0
          /- rotation -/
          else dRandom * 3.1415926))))

/-- The exception that leaves the run of the optimizer on the objective of the
evaluator, if there is one. The optimizer of the embedding takes a total
function, so an exception of `getFunctionValue` cannot pass through it and is
thrown here, before the run. The first call of the objective in a run is at the
first vertex of the first group; and at the points of six coordinates, the only
ones that a run on groups of dimension six evaluates, `getFunctionValue` throws
the same exception at every point or returns at every point
(`getFunctionValue_throws_uniformly`). -/
def CGaussianVolumeOverlapEvaluator.objectiveException (m : CMath R) (dIndeterminate : R)
    (self : CGaussianVolumeOverlapEvaluator R) (initialSolutionGroups : List (List (List R))) :
    Except Failure Unit :=
  match initialSolutionGroups with
  | (firstVertex :: _) :: _ => do
    let _ ← (self.getFunctionValue m dIndeterminate firstVertex).2
    pure ()
  | _ => pure ()

/-- The objective that the optimizer of `evaluateMaxGaussianVolumeOverlap` calls:
the value returned by `getFunctionValue` of the evaluator. The value written
here for an evaluation that throws is not used: the exception has left the
method before the run (`objectiveException`). -/
def CGaussianVolumeOverlapEvaluator.objective (m : CMath R) (dIndeterminate : R)
    (self : CGaussianVolumeOverlapEvaluator R) (params : List R) : R :=
  match (self.getFunctionValue m dIndeterminate params).2 with
  | .ok dValue => dValue
  | .error _ => 0

/-- Source `CGaussianService::evaluateMaxGaussianVolumeOverlap`: the score
returned, the vector behind `pFitTransformations` after the call (`none` for a
null pointer), and the two molecules of the caller after the call (the method
`getCentroid` writes their `mutable` cache). The clones are molecules, so the
casts cannot fail. An exception of the objective is thrown where the run of
the optimizer starts (`objectiveException`). -/
def CGaussianService.evaluateMaxGaussianVolumeOverlap (m : CMath R) (dIndeterminate : R)
    (rand : Nat → R) (self : CGaussianService R) (refMol fitMol : CMolecule R)
    (pFitTransformations : Option (List (List R))) :
    Except Failure (R × Option (List (List R)) × CMolecule R × CMolecule R) := do
  /- If not empty molecule: -/
  if refMol.getAtomsCount > 0 ∧ fitMol.getAtomsCount > 0 then
    /- Construct initial feasible solutions. -/
    let nInitialGroups := self.getSimplexInitialSolutionGroupsNumber
    let initialSolutionGroups := (CGaussianService.generateInitialSolutionGroups rand
      nInitialGroups (CGaussianService.nDIMENSIONS + 1) []).2
    /- Get molecule copies. -/
    let refMoleculePtr := refMol.clone
    let fitMoleculePtr := fitMol.clone
    /- Move molecules to centroid. -/
    let refMoleculePtr ← refMoleculePtr.moveToCentroid
    let fitMoleculePtr ← fitMoleculePtr.moveToCentroid
    /- Construct evaluator. -/
    let gaussianOverlapEvaluator ←
      CGaussianVolumeOverlapEvaluator.new dIndeterminate refMoleculePtr fitMoleculePtr
    let gaussianOverlapEvaluator := gaussianOverlapEvaluator.setNegativeOverlapFlag true
    /- Construct simplex optimizer. -/
    let simplexOptimizer ← self.constructSimplexOptimizer dIndeterminate initialSolutionGroups
    /- Do optimization. -/
    gaussianOverlapEvaluator.objectiveException m dIndeterminate initialSolutionGroups
    let (resultPoint, dResultValue, _) ← simplexOptimizer.runOptimization
      (gaussianOverlapEvaluator.objective m dIndeterminate) self.getSimplexMaxIterations
    /- Get results. -/
    match pFitTransformations with
    | some _ =>
      /- Get centroid of molecule. -/
      let (refMoleculeCentroid, refMol) ← refMol.getCentroid
      let (fitMoleculeCentroid, fitMol) ← fitMol.getCentroid
      /- Transformation 1 (translation): -/
      let transformation1 ← (List.range 3).mapM (fun (iDimension : Nat) => do
        pure (-(← vecGet fitMoleculeCentroid iDimension)))
      /- Transformation 2 (Rotation): -/
      let transformation2 ←
        if resultPoint.length < 3 then throw Failure.outOfRange
        else pure (resultPoint.drop 3)
      /- Transformation 3 (translation): -/
      let transformation3 ← (List.range 3).mapM (fun (iDimension : Nat) => do
        pure ((← vecGet resultPoint iDimension) + (← vecGet refMoleculeCentroid iDimension)))
      pure (|dResultValue|, some [transformation1, transformation2, transformation3],
        refMol, fitMol)
    | none => pure (|dResultValue|, none, refMol, fitMol)
  /- If empty molecule: -/
  else
    throw Failure.emptyMolecule

/-! ### Notions used to state the properties of the optimizer -/

/-- The part of the optimizer that no iteration changes: the initial groups,
the dimension and the four factors. -/
def CSimplexOptimizer.config (self : CSimplexOptimizer R) :
    List (List (List R)) × Int × R × R × R × R :=
  (self.INITIAL_FEASIBLE_SOLUTIONS, self.nPROBLEM_DIMENSION, self.dContractionFactor,
    self.dExtensionFactor, self.dReductionFactor, self.dReflectionFactor)

/-- The simplex invariant of a run in dimension `d` for the objective `f`:
`d + 1` vertices of `d` coordinates each, and one cached value per vertex, equal
to the objective at that vertex. -/
structure CSimplexOptimizer.SimplexInvariant (f : List R → R) (d : Nat)
    (self : CSimplexOptimizer R) : Prop where
  /-- the stored dimension -/
  dimension : self.nPROBLEM_DIMENSION = d
  /-- the number of vertices -/
  vertexCount : self.currentFeasibleSolutions.length = d + 1
  /-- the number of coordinates of each vertex -/
  vertexSize : ∀ v ∈ self.currentFeasibleSolutions, v.length = d
  /-- the cached values -/
  cached : self.currentFunctionValues = self.currentFeasibleSolutions.map f

/-- An objective with one coordinate, `(x0 - 10)^2`. -/
def squareDistanceToTen (x : List ℚ) : ℚ := (x.getD 0 0 - 10) ^ 2

/-- The constant objective with the value `-DBL_MAX`. -/
def constantLowest (_x : List ℚ) : ℚ := -DBL_MAX

/-- A bounded objective with one coordinate, `-1 / (1 + x0^2)`. -/
def boundedWell (x : List ℚ) : ℚ := -1 / (1 + (x.getD 0 0) ^ 2)

/-- The shape of the simplex of a run in dimension `d`: `d + 1` vertices of `d`
coordinates each and `d + 1` cached values. -/
structure CSimplexOptimizer.SimplexShape (d : Nat) (self : CSimplexOptimizer R) : Prop where
  /-- the stored dimension -/
  dimension : self.nPROBLEM_DIMENSION = d
  /-- the number of vertices -/
  vertexCount : self.currentFeasibleSolutions.length = d + 1
  /-- the number of coordinates of each vertex -/
  vertexSize : ∀ v ∈ self.currentFeasibleSolutions, v.length = d
  /-- the number of cached values -/
  valueCount : self.currentFunctionValues.length = d + 1

/-- Groups that are valid in dimension `d`: every group has `d + 1` vertices
and every vertex has `d` coordinates. -/
def validGroups (d : Nat) (groups : List (List (List R))) : Prop :=
  ∀ g ∈ groups, g.length = d + 1 ∧ ∀ v ∈ g, v.length = d

/-- The objective of the convergence scenario, `(x0 - 3)^2 + (x1 + 1)^2`. -/
def shiftedBowl (x : List ℚ) : ℚ := (x.getD 0 0 - 3) ^ 2 + (x.getD 1 0 + 1) ^ 2

/-! ### Closed forms used to state the direct-mode properties -/

/-- Squared Euclidean distance of two points, as a sum over the coordinates. -/
def sqDist (p q : List R) : R :=
  (List.zipWith (fun a b => (b - a) * (b - a)) p q).sum

/-- Row `i` of the matrix written by `precalculateMolecule` for the atom `outer`
of index `i`: entry `j` is the square distance to atom `j` for `j >= i`, and the
value `stale i j` read from unwritten storage for `j < i`. -/
def writtenRow (stale : Nat → Nat → R) (atoms : List (CAtom R)) (i : Nat) (outer : CAtom R) :
    List R :=
  atoms.enum.map (fun (ja : Nat × CAtom R) =>
    if ja.1 ≥ i then sqDist outer.position ja.2.position else stale i ja.1)

/-- The neighbour list written by `precalculateMolecule` for the atom `outer` of
index `i`: the indices `j > i`, ascending, of the atoms whose square distance to
`outer` is below `pow(r_i + r_j + c, 2)`. -/
def monotoneNeighbours (m : CMath R) (c : R) (atoms : List (CAtom R)) (i : Nat)
    (outer : CAtom R) : List Nat :=
  (atoms.enum.filter (fun (ja : Nat × CAtom R) =>
    decide (ja.1 > i ∧ sqDist outer.position ja.2.position
      < m.pow (outer.dAtomRadius + ja.2.dAtomRadius + c) 2))).map Prod.fst

/-- The Gaussian width `alpha = k / r^2` of an atom. -/
def alphaOf (a : CAtom R) : R :=
  CGaussianVolume.dPARTIAL_ALPHA / (a.dAtomRadius ^ 2)

/-- The pair volume `V_ij = 8 * exp(-(a_i*a_j*d2)/(a_i+a_j)) * (PI/(a_i+a_j))^1.5`. -/
def pairVolume (m : CMath R) (a b : CAtom R) : R :=
  8 * m.exp (-(alphaOf a * alphaOf b * sqDist a.position b.position) / (alphaOf a + alphaOf b))
    * m.pow (CGaussianVolume.dPI / (alphaOf a + alphaOf b)) 1.5

/-- The neighbour test `d2 < (r_i + r_j + c)^2`. -/
def withinCutoff (c : R) (a b : CAtom R) : Prop :=
  sqDist a.position b.position < (a.dAtomRadius + b.dAtomRadius + c) ^ 2

instance (c : R) (a b : CAtom R) : Decidable (withinCutoff c a b) := by
  unfold withinCutoff; infer_instance

/-- The contribution of one (reference atom, fit atom) pair to the direct sum. -/
def pairTerm (m : CMath R) (c : R) (a b : CAtom R) : R :=
  if withinCutoff c a b then pairVolume m a b else 0

/-- The direct-mode sum over all pairs within the cutoff. -/
def directSum (m : CMath R) (c : R) (refAtoms fitAtoms : List (CAtom R)) : R :=
  (((refAtoms ×ˢ fitAtoms).filter (fun p => decide (withinCutoff c p.1 p.2))).map
    (fun p => pairVolume m p.1 p.2)).sum

/-! ### Closed forms used to state the properties of the objective -/

/-- The rotation of `rotateXYZ` on one 3-D point. -/
def rotatePoint (m : CMath R) (rx ry rz : R) : List R → List R
  | [x, y, z] =>
    [x * m.cos ry * m.cos rz
        + y * (m.sin rx * m.sin ry * m.cos rz - m.cos rx * m.sin rz)
        + z * (m.cos rx * m.sin ry * m.cos rz + m.sin rx * m.sin rz),
      x * m.cos ry * m.sin rz
        + y * (m.sin rx * m.sin ry * m.sin rz + m.cos rx * m.cos rz)
        + z * (m.cos rx * m.sin ry * m.sin rz - m.sin rx * m.cos rz),
      -x * m.sin ry + y * m.sin rx * m.cos ry + z * m.cos rx * m.cos ry]
  | position => position

/-- The translation of `move` on one 3-D point. -/
def translatePoint (tx ty tz : R) : List R → List R
  | [x, y, z] => [x + tx, y + ty, z + tz]
  | position => position

/-- The rigid transformation `T_p`, `p = [tx, ty, tz, rx, ry, rz]`, on one atom:
rotation first, translation second; the radius is kept. -/
def rigidTransform (m : CMath R) (tx ty tz rx ry rz : R) (atom : CAtom R) : CAtom R :=
  { atom with position := translatePoint tx ty tz (rotatePoint m rx ry rz atom.position) }

/-- The evaluator after a sequence of `getFunctionValue` calls, each with its
own parameter vector (and its own indeterminate engine cutoff). -/
def CGaussianVolumeOverlapEvaluator.afterCalls (m : CMath R)
    (self : CGaussianVolumeOverlapEvaluator R) (calls : List (R × List R)) :
    CGaussianVolumeOverlapEvaluator R :=
  calls.foldl (fun ev call => (ev.getFunctionValue m call.1 call.2).1) self

/-- Is the builder of the evaluator initialised, or can it be: the flag is
set, or the stored cutoff and order pass the setters of the builder. -/
def initPossible (ev : CGaussianVolumeOverlapEvaluator R) : Prop :=
  ev.bInitForGaussianVolumeBuilder = true ∨ (ev.dGaussianCutoff ≥ 0 ∧ ev.nMaxIntersectionOrder > 0)

instance (ev : CGaussianVolumeOverlapEvaluator R) : Decidable (initPossible ev) := by
  unfold initPossible; infer_instance

/-- The result of `getFunctionValue` as a function of the stored molecules,
cutoff and flag only. -/
def objectiveValue (m : CMath R) (fit ref : CMolecule R) (cutoff : R) (negative : Bool)
    (params : List R) : Except Failure R := do
  let fitMolecule ← fit.clone.rotateXYZ m
    (← vecGet params 3) (← vecGet params 4) (← vecGet params 5)
  let fitMolecule ← fitMolecule.move
    (← vecGet params 0) (← vecGet params 1) (← vecGet params 2)
  let gaussianVolume ← (CGaussianVolume.new cutoff).setGaussianCutoff cutoff
  let dOverlap ← gaussianVolume.getOverlapVolumeDirect m ref fitMolecule
  pure (if negative then -1 * dOverlap else dOverlap)

/-! ### Closed forms used to state the refined-mode properties -/

/-- Entry `alpha[i]` of a vector of alpha values (0 outside the vector). -/
def alphaAt (alphaValues : List R) (i : Nat) : R := alphaValues.getD i 0

/-- Entry `matrix[i][j]` of a square-distance matrix (0 outside the matrix). -/
def entryAt (matrix : List (List R)) (i j : Nat) : R := (matrix.getD i []).getD j 0

/-- The sum of `alpha_i * alpha_j * d2(i, j)` over the pairs of one id set, each pair
taken once (`i` before `j` in the set). -/
def pairSumWithin (alphaValues : List R) (matrix : List (List R)) : List Nat → R
  | [] => 0
  | i :: behind =>
    (behind.map (fun j => alphaAt alphaValues i * alphaAt alphaValues j * entryAt matrix i j)).sum
      + pairSumWithin alphaValues matrix behind

/-- The combined-intersection volume
`V(S,T) = p^(|S|+|T|) * exp(-E/delta) * (PI/delta)^1.5` of a reference id set `S`
and a fit id set `T`, from the precalculated alphas and square distances and
the cross square distances `cross`. -/
def intersectionVolume (m : CMath R) (pre : PrecalculationResult R) (cross : List (List R))
    (S T : List Nat) : R :=
  let delta := (S.map (alphaAt pre.alphaValuesForRef)).sum
    + (T.map (alphaAt pre.alphaValuesForFit)).sum
  let E := pairSumWithin pre.alphaValuesForRef pre.squareDistancesMatrixForRef S
    + pairSumWithin pre.alphaValuesForFit pre.squareDistancesMatrixForFit T
    + (S.map (fun i => (T.map (fun j =>
        alphaAt pre.alphaValuesForRef i * alphaAt pre.alphaValuesForFit j
          * entryAt cross i j)).sum)).sum
  m.pow CGaussianVolume.dP ((S.length + T.length : Nat) : R)
    * m.exp (-(E / delta)) * m.pow (CGaussianVolume.dPI / delta) 1.5

/-- Every id of `S` and every id of `T` are cross-neighbours: `j` is in the
neighbour set of `i`. -/
def crossNeighbours (neighborAtomIds : List (List Nat)) (S T : List Nat) : Bool :=
  S.all (fun i => T.all (fun j => EXIST j (neighborAtomIds.getD i [])))

/-- The refined-mode sum with a given sign rule: over the order pairs `(a, b)`
with `1 <= a, b <= maxOrder` (`a = iRef + 1`, `b = iFit + 1`), the sets `S`
enumerated for the reference at order `a` and the sets `T` enumerated for the
fit molecule at order `b` that are cross-neighbours, of `sign a b S T * V(S,T)`. -/
def refinedSum (m : CMath R) (sign : Nat → Nat → List Nat → List Nat → R)
    (pre : PrecalculationResult R) (neighborAtomIds : List (List Nat))
    (cross : List (List R)) : R :=
  ((List.range pre.intersectedAtomIdsForRef.length).map (fun iRef =>
    ((List.range pre.intersectedAtomIdsForRef.length).map (fun iFit =>
      ((pre.intersectedAtomIdsForRef.getD iRef []).map (fun S =>
        ((pre.intersectedAtomIdsForFit.getD iFit []).map (fun T =>
          if crossNeighbours neighborAtomIds S T
          then sign (iRef + 1) (iFit + 1) S T * intersectionVolume m pre cross S T
          else 0)).sum)).sum)).sum)).sum

/-- The sign rule of the code: `+1` when `a + b` is even, `-1` otherwise. -/
def signOfOrders (a b : Nat) (_S _T : List Nat) : R := (-1) ^ (a + b)

/-- The sign rule `(-1)^(|S|+|T|+1)` of the specification. -/
def signOfSizes (_a _b : Nat) (S T : List Nat) : R := (-1) ^ (S.length + T.length + 1)

/-- The data-model invariant of a `PrecalculationResult` for `nRef` reference
and `nFit` fit atoms: square matrices of those sizes and enumerated ids inside
the atom ranges. -/
structure PrecalculationResult.Valid (pre : PrecalculationResult R) (nRef nFit : Nat) :
    Prop where
  /-- rows of the reference matrix -/
  rowsRef : ∀ row ∈ pre.squareDistancesMatrixForRef, row.length = nRef
  /-- rows of the fit matrix -/
  rowsFit : ∀ row ∈ pre.squareDistancesMatrixForFit, row.length = nFit
  /-- enumerated reference ids -/
  idsRef : ∀ sets ∈ pre.intersectedAtomIdsForRef, ∀ S ∈ sets, ∀ i ∈ S, i < nRef
  /-- enumerated fit ids -/
  idsFit : ∀ sets ∈ pre.intersectedAtomIdsForFit, ∀ T ∈ sets, ∀ j ∈ T, j < nFit

/-! ### Notions used to state the properties of the steps, of the centroid and of
the alignment -/

/-- The point `base + factor * (tip - tail)`, coordinate by coordinate. -/
def pointAlong (base : List R) (factor : R) (tip tail : List R) : List R :=
  List.zipWith (fun b dt => b + factor * dt) base (List.zipWith (fun t s => t - s) tip tail)

/-- The arithmetic mean of the vertices other than the vertex of index `hi`,
for vertices of `d` coordinates. -/
def meanOfOthers (d : Nat) (vertices : List (List R)) (hi : Nat) : List R :=
  (List.range d).map (fun k =>
    ((vertices.eraseIdx hi).map (fun v => v.getD k 0)).sum
      / ((vertices.eraseIdx hi).length : R))

/-- The first steps of the body of the main iteration of
`CSimplexOptimizer::runOptimization`, up to the reflection: "Calculate three
special vertices and one centroid" and "Reflection operation". -/
def CSimplexOptimizer.reflectionPhase (f : List R → R) (self : CSimplexOptimizer R) :
    Except Failure (CSimplexOptimizer R) := do
  /- Calculate three special vertices and one centroid. -/
  let self := self.updateSpecialVertices
  let self ← self.updateReflectionCentroid
  /- Reflection operation. -/
  self.doReflection f

/-- An optimizer state of dimension `d` that holds the simplex `vertices` with the
cached values `values`; the factors have their default values and the other
members are as the constructor leaves them. -/
def CSimplexOptimizer.holding (d : Nat) (vertices : List (List R)) (values : List R) :
    CSimplexOptimizer R :=
  { INITIAL_FEASIBLE_SOLUTIONS := [vertices]
    currentFeasibleSolutions := vertices
    currentFunctionValues := values
    dContractionFactor := CSimplexOptimizer.dCONTRACTION_FACTOR
    dExtensionFactor := CSimplexOptimizer.dEXTENSION_FACTOR
    dHighestSolutionValue := -DBL_MAX
    dLowestSolutionValue := DBL_MAX
    dReductionFactor := CSimplexOptimizer.dREDUCTION_FACTOR
    dReflectedPointValue := 0
    dReflectionFactor := CSimplexOptimizer.dREFLECTION_FACTOR
    dSecondHighestSolutionValue := -DBL_MAX
    nHighestSolutionId := -1
    nLowestSolutionId := -1
    nPROBLEM_DIMENSION := d
    nSecondHighestSolutionId := -1
    reflectionCentroid := List.replicate d 0
    reflectedPoint := List.replicate d 0 }

/-- The objective `0` at `x0 = 0`, `1` at `x0 = 4` and `2` elsewhere. -/
def plateau (x : List ℚ) : ℚ :=
  if x.getD 0 0 = 0 then 0 else if x.getD 0 0 = 4 then 1 else 2

/-- The sum of `alpha_i * alpha_j * d2(i, j)` over the pairs `i < j` of ids of the
set `S`. -/
def pairSumBelow (alphaValues : List R) (matrix : List (List R)) (S : List Nat) : R :=
  (S.map (fun i => ((S.filter (fun j => i < j)).map (fun j =>
    alphaAt alphaValues i * alphaAt alphaValues j * entryAt matrix i j)).sum)).sum

/-- The arithmetic mean of the positions of a list of atoms, coordinate by
coordinate. -/
def meanPosition (atoms : List (CAtom R)) : List R :=
  [(atoms.map (fun a => a.position.getD 0 0)).sum / (atoms.length : R),
    (atoms.map (fun a => a.position.getD 1 0)).sum / (atoms.length : R),
    (atoms.map (fun a => a.position.getD 2 0)).sum / (atoms.length : R)]

/-- The centroid that `getCentroid` returns: the cached one when the cache is
not dirty, the mean of the positions otherwise. -/
def centroidOf (mol : CMolecule R) : List R :=
  if mol.bDirtyCentroid then meanPosition mol.atomsList else mol.centroid

/-- The atoms of a list, each translated by `(tx, ty, tz)`. -/
def shiftedAtoms (tx ty tz : R) (atoms : List (CAtom R)) : List (CAtom R) :=
  atoms.map (fun a => { a with position := translatePoint tx ty tz a.position })

/-! ### Notions used to state the properties of the neighbour lists, of the
enumerated sets, of the reference volume and of the trajectories -/

/-- Every id of `S` and every id of `T` are neighbours by the index-ordered
neighbour lists of one molecule: for two different ids, the larger one is in the
list of the smaller one; an id paired with itself passes. -/
def mutualNeighbours (neighborAtomIds : List (List Nat)) (S T : List Nat) : Bool :=
  S.all (fun i => T.all (fun j =>
    if i < j then EXIST j (neighborAtomIds.getD i [])
    else if i > j then EXIST i (neighborAtomIds.getD j [])
    else true))

/-- The sum of `getReferenceVolume`: over the order pairs `(a, b)` with
`1 <= a, b <= maxOrder` and all the ordered pairs `(S, T)` of sets enumerated for
the reference molecule at the orders `a` and `b` that are mutual neighbours, of
`(-1)^(a+b) * V(S,T)`, the volume being taken with `T` as a fit id set. -/
def referenceSum (m : CMath R) (pre : PrecalculationResult R) (cross : List (List R)) : R :=
  ((List.range pre.intersectedAtomIdsForRef.length).map (fun iOuter =>
    ((List.range pre.intersectedAtomIdsForRef.length).map (fun iInner =>
      ((pre.intersectedAtomIdsForRef.getD iOuter []).map (fun S =>
        ((pre.intersectedAtomIdsForRef.getD iInner []).map (fun T =>
          if mutualNeighbours pre.neighborAtomIdsForRef S T
          then signOfOrders (iOuter + 1) (iInner + 1) S T * intersectionVolume m pre cross S T
          else 0)).sum)).sum)).sum)).sum

/-- The cross-neighbour list written by the constructor for the reference atom
`refAtom`: the indices `j`, ascending, of the fit atoms whose square distance to
`refAtom` is below `pow(r_i + r_j + c, 2)`. -/
def crossNeighbourIds (m : CMath R) (c : R) (fitAtoms : List (CAtom R)) (refAtom : CAtom R) :
    List Nat :=
  (fitAtoms.enum.filter (fun (jb : Nat × CAtom R) =>
    decide (sqDist refAtom.position jb.2.position
      < m.pow (refAtom.dAtomRadius + jb.2.dAtomRadius + c) 2))).map Prod.fst

/-- The selections of `k` elements of a list, each in the order of the list, in
the order in which the loops of `combineElements` visit them. -/
def selections : Nat → List Nat → List (List Nat)
  | 0, _ => [[]]
  | _ + 1, [] => []
  | k + 1, x :: xs => (selections k xs).map (fun s => x :: s) ++ selections (k + 1) xs

/-- The test of the clique filter: every id of the set has every id behind it in
its neighbour list. -/
def pairwiseNeighbours (neighborAtomIds : List (List Nat)) : List Nat → Bool
  | [] => true
  | id :: behind =>
    behind.all (fun idBehind => EXIST idBehind (neighborAtomIds.getD id []))
      && pairwiseNeighbours neighborAtomIds behind

/-- The sets that `enumerateIntersectedAtomIds` appends at order `k >= 1`: for
each key id in ascending order, the key put in front of every selection of
`k - 1` of its neighbours that passes the clique filter. -/
def enumeratedSets (neighborAtomIds : List (List Nat)) (k : Nat) : List (List Nat) :=
  (List.range neighborAtomIds.length).flatMap (fun iKeyId =>
    ((selections (k - 1) (neighborAtomIds.getD iKeyId [])).filter
      (pairwiseNeighbours neighborAtomIds)).map (fun idsSet => iKeyId :: idsSet))

/-- The constant objective with the value `DBL_MAX`. -/
def constantHighest (_x : List ℚ) : ℚ := DBL_MAX

/-- The record of the best point and value kept by `runOptimization`, read off
the trajectories of the groups: starting from the record `best`, the last node
of a trajectory replaces the record when its lowest value is strictly smaller
than the recorded value. -/
def bestOfLastNodes (best : List R × R) (trajectories : List (List (CourseNode R))) :
    List R × R :=
  trajectories.foldl (fun (best : List R × R) (trajectory : List (CourseNode R)) =>
    match trajectory.getLast? with
    | some node =>
      if node.dLowestValue < best.2 then (node.lowestPoint, node.dLowestValue) else best
    | none => best) best

end Model

/-! ## AssignmentSolver.cpp

A `std::map<int, V>` is the list of its entries in ascending order of the keys.
A `while` loop takes a bound on the number of its rounds; reaching the bound is
`Failure.loopBound`, which no source statement throws. -/

section Maps

variable {V : Type}

/-- The assignment `map[key] = value` on a `std::map<int, V>`. -/
def mapInsert (key : Nat) (value : V) : List (Nat × V) → List (Nat × V)
  | [] => [(key, value)]
  | (k, v) :: rest =>
    if key < k then (key, value) :: (k, v) :: rest
    else if key = k then (k, value) :: rest
    else (k, v) :: mapInsert key value rest

/-- The lookup of a key in a `std::map<int, V>`. -/
def mapFind (key : Nat) (map : List (Nat × V)) : Option V :=
  (map.find? (fun entry => entry.1 == key)).map Prod.snd

/-- The call `map.erase(key)` on a `std::map<int, V>`. -/
def mapErase (key : Nat) (map : List (Nat × V)) : List (Nat × V) :=
  map.filter (fun entry => entry.1 != key)

/-- The call `std::set_difference(a, b)` into an empty set. -/
def setDifference (a b : List Nat) : List Nat := a.filter (fun x => !EXIST x b)

end Maps

section Solver

variable {R : Type} [LinearOrderedField R]

/-- The data members of `CAssignmentSolver`. -/
structure CAssignmentSolver (R : Type) where
  /-- `_assignmentColumnIdsSet` -/
  assignmentColumnIdsSet : List Nat
  /-- `_assignmentColumnIdsMap`: key column of an assignment, value its row -/
  assignmentColumnIdsMap : List (Nat × Nat)
  /-- `_assignmentRowIdsSet` -/
  assignmentRowIdsSet : List Nat
  /-- `_bMultiRuns` -/
  bMultiRuns : Bool
  /-- `_bTransposedCostMatrix` -/
  bTransposedCostMatrix : Bool
  /-- `_costMatrix` -/
  costMatrix : List (List R)
  /-- `_fullColumnIndicesSet` -/
  fullColumnIndicesSet : List Nat
  /-- `_fullRowIndicesSet` -/
  fullRowIndicesSet : List Nat
  /-- `_markedColumnIdsSet` -/
  markedColumnIdsSet : List Nat
  /-- `_markedRowIdsSet` -/
  markedRowIdsSet : List Nat
  /-- `_nColumns` -/
  nColumns : Int
  /-- `_nDimensions` -/
  nDimensions : Int
  /-- `_nRows` -/
  nRows : Int
  /-- `_pRawCostMatrix` -/
  pRawCostMatrix : List (List R)
  /-- `_zeroColumnIdsMap`: key column of a zero, value the rows of the zeros of the column -/
  zeroColumnIdsMap : List (Nat × List Nat)
  /-- `_zeroRowIdsMap`: key row of a zero, value the columns of the zeros of the row -/
  zeroRowIdsMap : List (Nat × List Nat)

/-- The read `matrix[i][j]`. -/
def matGet (matrix : List (List R)) (i j : Int) : Except Failure R := do
  let row ← vecGet matrix i
  vecGet row j

/-- The write `matrix[i][j] = x`. -/
def matSet (matrix : List (List R)) (i j : Int) (x : R) : Except Failure (List (List R)) := do
  let row ← vecGet matrix i
  let row ← vecSet row j x
  vecSet matrix i row

/-- Source `CAssignmentSolver::setCostMatrix` -/
def CAssignmentSolver.setCostMatrix (self : CAssignmentSolver R)
    (rawCostMatrix : List (List R)) : Except Failure (CAssignmentSolver R) := do
  /- If not empty cost matrix: -/
  if rawCostMatrix.length > 0 ∧ (rawCostMatrix.getD 0 []).length > 0 then
    /- Check the integrity of cost matrix. -/
    let nRowsRawCostMatrix : Int := rawCostMatrix.length
    let nColumnsRawCostMatrix : Int := (rawCostMatrix.getD 0 []).length
    rawCostMatrix.forM (fun (row : List R) =>
      if (row.length : Int) ≠ nColumnsRawCostMatrix then throw Failure.invalidArgument
      else pure ())
    let self := { self with bMultiRuns := false, pRawCostMatrix := rawCostMatrix }
    let self :=
      /- If there are less or equal rows than columns: -/
      if rawCostMatrix.length ≤ (rawCostMatrix.getD 0 []).length then
        { self with
          bTransposedCostMatrix := false
          nRows := nRowsRawCostMatrix
          nColumns := nColumnsRawCostMatrix
          costMatrix := rawCostMatrix }
      /- If there are more rows than columns: -/
      else
        { self with
          bTransposedCostMatrix := true
          nRows := nColumnsRawCostMatrix
          nColumns := nRowsRawCostMatrix
          costMatrix := (List.range nColumnsRawCostMatrix.toNat).map (fun (iColumn : Nat) =>
            rawCostMatrix.map (fun (row : List R) => row.getD iColumn 0)) }
    let self := { self with
      nDimensions := if self.nRows ≤ self.nColumns then self.nRows else self.nColumns }
    pure { self with
      fullRowIndicesSet := List.range self.nRows.toNat
      fullColumnIndicesSet := List.range self.nColumns.toNat }
  /- If empty cost matrix: -/
  else
    throw Failure.invalidArgument

/-- Source `CAssignmentSolver::CAssignmentSolver`: the containers are empty;
`nIndeterminate` and `bIndeterminate` are the values of the scalar members
before `setCostMatrix` writes them. -/
def CAssignmentSolver.new (nIndeterminate : Int) (bIndeterminate : Bool)
    (rawCostMatrix : List (List R)) : Except Failure (CAssignmentSolver R) :=
  CAssignmentSolver.setCostMatrix
    { assignmentColumnIdsSet := [], assignmentColumnIdsMap := [], assignmentRowIdsSet := []
      bMultiRuns := bIndeterminate, bTransposedCostMatrix := bIndeterminate
      costMatrix := [], fullColumnIndicesSet := [], fullRowIndicesSet := []
      markedColumnIdsSet := [], markedRowIdsSet := []
      nColumns := nIndeterminate, nDimensions := nIndeterminate, nRows := nIndeterminate
      pRawCostMatrix := [], zeroColumnIdsMap := [], zeroRowIdsMap := [] }
    rawCostMatrix

/-- Source `CAssignmentSolver::recordAssignmentPosition` -/
def CAssignmentSolver.recordAssignmentPosition (self : CAssignmentSolver R)
    (iRowId iColumnId : Nat) : Except Failure (CAssignmentSolver R) := do
  /- Record row and column ID. -/
  let self := { self with
    assignmentColumnIdsSet := setInsert iColumnId self.assignmentColumnIdsSet
    assignmentRowIdsSet := setInsert iRowId self.assignmentRowIdsSet }
  /- Record in column IDs map. -/
  let self := { self with
    assignmentColumnIdsMap := mapInsert iColumnId iRowId self.assignmentColumnIdsMap }
  /- Check integrity. -/
  if self.assignmentColumnIdsMap.length ≠ self.assignmentRowIdsSet.length
      ∨ self.assignmentColumnIdsMap.length ≠ self.assignmentColumnIdsSet.length then
    throw Failure.logicError
  else
    pure self

/-- Source `CAssignmentSolver::recordZeroPosition` -/
def CAssignmentSolver.recordZeroPosition (self : CAssignmentSolver R)
    (iRowId iColumnId : Nat) : CAssignmentSolver R :=
  /- Record in row ID map. -/
  let self :=
    match mapFind iRowId self.zeroRowIdsMap with
    | some columnIdsSet =>
      { self with
        zeroRowIdsMap := mapInsert iRowId (setInsert iColumnId columnIdsSet) self.zeroRowIdsMap }
    | none =>
      { self with zeroRowIdsMap := mapInsert iRowId (setInsert iColumnId []) self.zeroRowIdsMap }
  /- Record in column ID map. -/
  match mapFind iColumnId self.zeroColumnIdsMap with
  | some rowIdsSet =>
    { self with
      zeroColumnIdsMap := mapInsert iColumnId (setInsert iRowId rowIdsSet) self.zeroColumnIdsMap }
  | none =>
    { self with
      zeroColumnIdsMap := mapInsert iColumnId (setInsert iRowId []) self.zeroColumnIdsMap }

/-- Source `CAssignmentSolver::removeZeroPosition` -/
def CAssignmentSolver.removeZeroPosition (self : CAssignmentSolver R)
    (iRowId iColumnId : Nat) : CAssignmentSolver R :=
  /- Remove from row ID map. -/
  let self :=
    match mapFind iRowId self.zeroRowIdsMap with
    | some columnIdsSet =>
      let columnIdsSet := columnIdsSet.filter (fun id => id != iColumnId)
      if columnIdsSet.isEmpty then
        { self with zeroRowIdsMap := mapErase iRowId self.zeroRowIdsMap }
      else
        { self with zeroRowIdsMap := mapInsert iRowId columnIdsSet self.zeroRowIdsMap }
    | none => self
  /- Remove from column ID map. -/
  match mapFind iColumnId self.zeroColumnIdsMap with
  | some rowIdsSet =>
    let rowIdsSet := rowIdsSet.filter (fun id => id != iRowId)
    if rowIdsSet.isEmpty then
      { self with zeroColumnIdsMap := mapErase iColumnId self.zeroColumnIdsMap }
    else
      { self with zeroColumnIdsMap := mapInsert iColumnId rowIdsSet self.zeroColumnIdsMap }
  | none => self

/-- Source `CAssignmentSolver::subtractRowAndColumnMinimum` -/
def CAssignmentSolver.subtractRowAndColumnMinimum (self : CAssignmentSolver R) :
    Except Failure (CAssignmentSolver R) := do
  /- Subtract row minimum. -/
  let self ← (List.range self.nRows.toNat).foldlM
    (fun (self : CAssignmentSolver R) (iRow : Nat) => do
      /- Get row minimum. -/
      let (dRowMinValue, iColumnIdMin) ← (List.range self.nColumns.toNat).foldlM
        (fun (min : R × Int) (iColumn : Nat) => do
          let cost ← matGet self.costMatrix iRow iColumn
          if cost < min.1 then pure (cost, (iColumn : Int)) else pure min)
        ((DBL_MAX : R), (-1 : Int))
      /- Do subtraction. -/
      let costMatrix ← (List.range self.nColumns.toNat).foldlM
        (fun (costMatrix : List (List R)) (iColumn : Nat) => do
          matSet costMatrix iRow iColumn ((← matGet costMatrix iRow iColumn) - dRowMinValue))
        self.costMatrix
      /- zero cost -/
      let costMatrix ← matSet costMatrix iRow iColumnIdMin 0
      /- Record the position of zero cost. -/
      pure (({ self with costMatrix := costMatrix }).recordZeroPosition iRow iColumnIdMin.toNat))
    self
  /- Subtract column minimum. -/
  (List.range self.nColumns.toNat).foldlM
    (fun (self : CAssignmentSolver R) (iColumn : Nat) => do
      /- Get column minimum. -/
      let (dColumnMinValue, iRowIdMin) ← (List.range self.nRows.toNat).foldlM
        (fun (min : R × Int) (iRow : Nat) => do
          let cost ← matGet self.costMatrix iRow iColumn
          if cost < min.1 then pure (cost, (iRow : Int)) else pure min)
        ((DBL_MAX : R), (-1 : Int))
      /- Do subtraction. -/
      let costMatrix ← (List.range self.nRows.toNat).foldlM
        (fun (costMatrix : List (List R)) (iRow : Nat) => do
          matSet costMatrix iRow iColumn
            ((← matGet costMatrix iRow iColumn) - dColumnMinValue))
        self.costMatrix
      /- zero cost -/
      let costMatrix ← matSet costMatrix iRowIdMin iColumn 0
      /- Record the position of zero cost. -/
      pure (({ self with costMatrix := costMatrix }).recordZeroPosition iRowIdMin.toNat iColumn))
    self

/-- Source `CAssignmentSolver::assignUniquelyByRow`: the flag returned and the
solver after the call. -/
def CAssignmentSolver.assignUniquelyByRow (self : CAssignmentSolver R) :
    Except Failure (Bool × CAssignmentSolver R) :=
  /- For each zero cost row: -/
  self.zeroRowIdsMap.foldlM
    (fun (state : Bool × CAssignmentSolver R) (entry : Nat × List Nat) => do
      let (bNewUniqueAssignment, self) := state
      let iZeroRowId := entry.1
      /- If this row has not been assigned: -/
      if !EXIST iZeroRowId self.assignmentRowIdsSet then
        let zeroColumnIdsSetUnassigned := setDifference entry.2 self.assignmentColumnIdsSet
        /- If unique assignment can be made: -/
        match zeroColumnIdsSetUnassigned with
        | [iZeroColumnIdUnique] =>
          let self ← self.recordAssignmentPosition iZeroRowId iZeroColumnIdUnique
          pure (true, self)
        | _ => pure (bNewUniqueAssignment, self)
      else
        pure (bNewUniqueAssignment, self))
    (false, self)

/-- Source `CAssignmentSolver::assignUniquelyByColumn`: the flag returned and the
solver after the call. -/
def CAssignmentSolver.assignUniquelyByColumn (self : CAssignmentSolver R) :
    Except Failure (Bool × CAssignmentSolver R) :=
  /- For each zero column: -/
  self.zeroColumnIdsMap.foldlM
    (fun (state : Bool × CAssignmentSolver R) (entry : Nat × List Nat) => do
      let (bNewUniqueAssignment, self) := state
      let iZeroColumnId := entry.1
      /- If this column has not been assigned: -/
      if !EXIST iZeroColumnId self.assignmentColumnIdsSet then
        let zeroRowIdsSetUnassigned := setDifference entry.2 self.assignmentRowIdsSet
        /- If unique assignment can be made: -/
        match zeroRowIdsSetUnassigned with
        | [iZeroRowIdUnique] =>
          let self ← self.recordAssignmentPosition iZeroRowIdUnique iZeroColumnId
          pure (true, self)
        | _ => pure (bNewUniqueAssignment, self)
      else
        pure (bNewUniqueAssignment, self))
    (false, self)

/-- The loop `while (assignUniquelyByRow()) bNewAssignmentByColumn = true;` of
`assignUniquely`: the flag and the solver after the loop. -/
def CAssignmentSolver.whileAssignUniquelyByRow :
    Nat → Bool → CAssignmentSolver R → Except Failure (Bool × CAssignmentSolver R)
  | 0, _, _ => throw Failure.loopBound
  | bound + 1, bNewAssignmentByColumn, self => do
    let (bNew, self) ← self.assignUniquelyByRow
    if bNew then CAssignmentSolver.whileAssignUniquelyByRow bound true self
    else pure (bNewAssignmentByColumn, self)

/-- The loop `while (assignUniquelyByColumn()) bNewAssignmentByRow = true;` of
`assignUniquely`: the flag and the solver after the loop. -/
def CAssignmentSolver.whileAssignUniquelyByColumn :
    Nat → Bool → CAssignmentSolver R → Except Failure (Bool × CAssignmentSolver R)
  | 0, _, _ => throw Failure.loopBound
  | bound + 1, bNewAssignmentByRow, self => do
    let (bNew, self) ← self.assignUniquelyByColumn
    if bNew then CAssignmentSolver.whileAssignUniquelyByColumn bound true self
    else pure (bNewAssignmentByRow, self)

/-- The outer loop of `assignUniquely`. -/
def CAssignmentSolver.whileAssignUniquely :
    Nat → Bool → Bool → CAssignmentSolver R → Except Failure (CAssignmentSolver R)
  | 0, _, _, _ => throw Failure.loopBound
  | bound + 1, bNewAssignmentByRow, bNewAssignmentByColumn, self => do
    if bNewAssignmentByRow || bNewAssignmentByColumn then
      let (_, self) ← self.whileAssignUniquelyByRow bound bNewAssignmentByColumn
      let bNewAssignmentByRow := false
      let (bNewAssignmentByRow, self) ←
        self.whileAssignUniquelyByColumn bound bNewAssignmentByRow
      let bNewAssignmentByColumn := false
      CAssignmentSolver.whileAssignUniquely bound bNewAssignmentByRow bNewAssignmentByColumn
        self
    else
      pure self

/-- Source `CAssignmentSolver::assignUniquely`: the number returned and the
solver after the call. -/
def CAssignmentSolver.assignUniquely (bound : Nat) (self : CAssignmentSolver R) :
    Except Failure (Int × CAssignmentSolver R) := do
  let self ← self.whileAssignUniquely bound true true
  pure ((self.assignmentRowIdsSet.length : Int), self)

/-- Source `CAssignmentSolver::assignOneArbitrarily`: the number returned and the
solver after the call. -/
def CAssignmentSolver.assignOneArbitrarily (self : CAssignmentSolver R) :
    Except Failure (Int × CAssignmentSolver R) := do
  /- For each row containing zero cost: the first unassigned column of the
  first unassigned row that has one. -/
  let byRow := self.zeroRowIdsMap.findSome? (fun (entry : Nat × List Nat) =>
    if !EXIST entry.1 self.assignmentRowIdsSet then
      (entry.2.find? (fun iZeroColumnId => !EXIST iZeroColumnId self.assignmentColumnIdsSet)).map
        (fun iZeroColumnId => (entry.1, iZeroColumnId))
    else none)
  match byRow with
  | some (iZeroRowId, iZeroColumnId) =>
    let self ← self.recordAssignmentPosition iZeroRowId iZeroColumnId
    pure ((self.assignmentRowIdsSet.length : Int), self)
  | none =>
    /- For each column containing zero cost: -/
    let byColumn := self.zeroColumnIdsMap.findSome? (fun (entry : Nat × List Nat) =>
      if !EXIST entry.1 self.assignmentColumnIdsSet then
        (entry.2.find? (fun iZeroRowId => !EXIST iZeroRowId self.assignmentRowIdsSet)).map
          (fun iZeroRowId => (iZeroRowId, entry.1))
      else none)
    match byColumn with
    | some (iZeroRowId, iZeroColumnId) =>
      let self ← self.recordAssignmentPosition iZeroRowId iZeroColumnId
      pure ((self.assignmentRowIdsSet.length : Int), self)
    | none => pure ((self.assignmentRowIdsSet.length : Int), self)

/-- The loop `while (bNewAssignment)` of `tryAssign`: the number of assignments
and the solver after the loop. -/
def CAssignmentSolver.whileTryAssign :
    Nat → Int → CAssignmentSolver R → Except Failure (Int × CAssignmentSolver R)
  | 0, _, _ => throw Failure.loopBound
  | bound + 1, nAssignments, self => do
    let (nNewAssignments, self) ← self.assignUniquely bound
    let nAssignments := if nNewAssignments > nAssignments then nNewAssignments else nAssignments
    let (nNewAssignments, self) ← self.assignOneArbitrarily
    if nNewAssignments > nAssignments then
      CAssignmentSolver.whileTryAssign bound nNewAssignments self
    else
      pure (nAssignments, self)

/-- Source `CAssignmentSolver::tryAssign`: the number returned and the solver
after the call. -/
def CAssignmentSolver.tryAssign (bound : Nat) (self : CAssignmentSolver R) :
    Except Failure (Int × CAssignmentSolver R) :=
  CAssignmentSolver.whileTryAssign bound 0
    { self with
      assignmentColumnIdsSet := [], assignmentRowIdsSet := [], assignmentColumnIdsMap := [] }

/-- Source `CAssignmentSolver::markColumns`: is the code returned
`nNO_MORE_ELEMENT`, and the solver after the call. -/
def CAssignmentSolver.markColumns (self : CAssignmentSolver R) : Bool × CAssignmentSolver R :=
  /- For each marked row: -/
  self.markedRowIdsSet.foldl
    (fun (state : Bool × CAssignmentSolver R) (iMarkedRowId : Nat) =>
      /- If we have zero in this row: -/
      match mapFind iMarkedRowId state.2.zeroRowIdsMap with
      | some zeroColumnIdsSet =>
        zeroColumnIdsSet.foldl
          (fun (state : Bool × CAssignmentSolver R) (iZeroColumnId : Nat) =>
            /- If new column marked: -/
            if !EXIST iZeroColumnId state.2.markedColumnIdsSet then
              (false, { state.2 with
                markedColumnIdsSet := setInsert iZeroColumnId state.2.markedColumnIdsSet })
            else state)
          state
      | none => state)
    (true, self)

/-- Source `CAssignmentSolver::markRows`: is the code returned `nNO_MORE_ELEMENT`,
and the solver after the call. -/
def CAssignmentSolver.markRows (self : CAssignmentSolver R) : Bool × CAssignmentSolver R :=
  /- For each marked column: -/
  self.markedColumnIdsSet.foldl
    (fun (state : Bool × CAssignmentSolver R) (iMarkedColumnId : Nat) =>
      /- If we have assignment in this column: -/
      match mapFind iMarkedColumnId state.2.assignmentColumnIdsMap with
      | some iAssignmentRowId =>
        /- If new row marked: -/
        if !EXIST iAssignmentRowId state.2.markedRowIdsSet then
          (false, { state.2 with
            markedRowIdsSet := setInsert iAssignmentRowId state.2.markedRowIdsSet })
        else state
      | none => state)
    (true, self)

/-- The loop `while (true)` of `markRowsAndColumns`. -/
def CAssignmentSolver.whileMark :
    Nat → CAssignmentSolver R → Except Failure (CAssignmentSolver R)
  | 0, _ => throw Failure.loopBound
  | bound + 1, self =>
    let (bNoMoreColumns, self) := self.markColumns
    if bNoMoreColumns then pure self
    else
      let (bNoMoreRows, self) := self.markRows
      if bNoMoreRows then pure self
      else CAssignmentSolver.whileMark bound self

/-- Source `CAssignmentSolver::markRowsAndColumns`: the number of lines and the
solver after the call. -/
def CAssignmentSolver.markRowsAndColumns (bound : Nat) (self : CAssignmentSolver R) :
    Except Failure (Int × CAssignmentSolver R) := do
  /- Mark all rows having no assignments. -/
  let self := { self with
    markedRowIdsSet := setDifference self.fullRowIndicesSet self.assignmentRowIdsSet
    markedColumnIdsSet := [] }
  /- Mark more columns and rows alternately. -/
  let self ← self.whileMark bound
  let nMinLines : Int :=
    (self.markedColumnIdsSet.length : Int) + self.nDimensions - (self.markedRowIdsSet.length : Int)
  pure (nMinLines, self)

/-- Source `CAssignmentSolver::minimumLineCover`: the number of lines and the
solver after the call. -/
def CAssignmentSolver.minimumLineCover (bound : Nat) (self : CAssignmentSolver R) :
    Except Failure (Int × CAssignmentSolver R) := do
  let (_, self) ← self.tryAssign bound
  self.markRowsAndColumns bound

/-- Source `CAssignmentSolver::adjustCostMatrix` -/
def CAssignmentSolver.adjustCostMatrix (self : CAssignmentSolver R) :
    Except Failure (CAssignmentSolver R) := do
  /- Get line covered rows (unmarked rows) and columns (marked columns). -/
  let rowIdsSetLineCovered := setDifference self.fullRowIndicesSet self.markedRowIdsSet
  let columnIdsSetLineCovered := self.markedColumnIdsSet
  /- Get uncovered rows (marked rows) and columns (unmarked columns). -/
  let columnIdsSetUncovered := setDifference self.fullColumnIndicesSet self.markedColumnIdsSet
  let rowIdsSetUncovered := self.markedRowIdsSet
  /- Find minimum cost. -/
  let (dMinCostUncoverd, iRow_minCostUncovered, iColumn_minCostUncovered) ←
    rowIdsSetUncovered.foldlM
      (fun (min : R × Int × Int) (iRow : Nat) =>
        columnIdsSetUncovered.foldlM
          (fun (min : R × Int × Int) (iColumn : Nat) => do
            let cost ← matGet self.costMatrix iRow iColumn
            if cost < min.1 then pure (cost, (iRow : Int), (iColumn : Int)) else pure min)
          min)
      ((DBL_MAX : R), (-1 : Int), (-1 : Int))
  /- Subtract minimum cost. -/
  let costMatrix ← rowIdsSetUncovered.foldlM
    (fun (costMatrix : List (List R)) (iRow : Nat) =>
      columnIdsSetUncovered.foldlM
        (fun (costMatrix : List (List R)) (iColumn : Nat) => do
          matSet costMatrix iRow iColumn ((← matGet costMatrix iRow iColumn) - dMinCostUncoverd))
        costMatrix)
    self.costMatrix
  /- Keep track of zero cost. -/
  let costMatrix ← matSet costMatrix iRow_minCostUncovered iColumn_minCostUncovered 0
  let self := ({ self with costMatrix := costMatrix }).recordZeroPosition
    iRow_minCostUncovered.toNat iColumn_minCostUncovered.toNat
  /- Add uncovered minimum cost to elements covered by two lines. -/
  rowIdsSetLineCovered.foldlM
    (fun (self : CAssignmentSolver R) (iRow : Nat) =>
      columnIdsSetLineCovered.foldlM
        (fun (self : CAssignmentSolver R) (iColumn : Nat) => do
          let cost ← matGet self.costMatrix iRow iColumn
          /- Keep track of zero cost. -/
          let self := if cost = 0 then self.removeZeroPosition iRow iColumn else self
          let costMatrix ← matSet self.costMatrix iRow iColumn (cost + dMinCostUncoverd)
          pure { self with costMatrix := costMatrix })
        self)
    self

/-- Source `CAssignmentSolver::preProcessCostMatrix`: its body is commented out. -/
def CAssignmentSolver.preProcessCostMatrix (self : CAssignmentSolver R) : CAssignmentSolver R :=
  self

/-- Source `CAssignmentSolver::getOptimalAssignments`: the map returned (key row
of the raw matrix, value column of the raw matrix) and the solver after the
call. -/
def CAssignmentSolver.getOptimalAssignments (bound : Nat) (self : CAssignmentSolver R) :
    Except Failure (List (Nat × Nat) × CAssignmentSolver R) := do
  let self := { self with
    assignmentColumnIdsMap := [], assignmentColumnIdsSet := [], assignmentRowIdsSet := [] }
  let (nAssignments, self) ← self.tryAssign bound
  /- If all assignments have been made: -/
  if nAssignments = self.nDimensions then
    let assignmentsMap := self.assignmentColumnIdsMap.foldl
      (fun (assignmentsMap : List (Nat × Nat)) (entry : Nat × Nat) =>
        let iColumnIdAssignment := entry.1
        let iRowIdAssignment := entry.2
        if self.bTransposedCostMatrix then
          mapInsert iColumnIdAssignment iRowIdAssignment assignmentsMap
        else
          mapInsert iRowIdAssignment iColumnIdAssignment assignmentsMap)
      []
    pure (assignmentsMap, self)
  else
    throw Failure.logicError

/-- The loop `while (minimumLineCover() < _nDimensions) adjustCostMatrix();` of
`evaluateOptimalAssignments`. -/
def CAssignmentSolver.whileLineCover :
    Nat → CAssignmentSolver R → Except Failure (CAssignmentSolver R)
  | 0, _ => throw Failure.loopBound
  | bound + 1, self => do
    let (nMinLines, self) ← self.minimumLineCover bound
    if nMinLines < self.nDimensions then
      let self ← self.adjustCostMatrix
      CAssignmentSolver.whileLineCover bound self
    else
      pure self

/-- Source `CAssignmentSolver::evaluateOptimalAssignments`: the total cost, the
map written to `assignmentsMap` and the solver after the call; no loop runs for
more than `bound` rounds. -/
def CAssignmentSolver.evaluateOptimalAssignments (bound : Nat) (self : CAssignmentSolver R) :
    Except Failure (R × List (Nat × Nat) × CAssignmentSolver R) := do
  /- If first run: -/
  let self ←
    if !self.bMultiRuns then do
      let self := self.preProcessCostMatrix
      let self ← self.subtractRowAndColumnMinimum
      let self ← self.whileLineCover bound
      pure { self with bMultiRuns := true }
    else pure self
  let (assignmentsMap, self) ← self.getOptimalAssignments bound
  /- Get total cost under these assignments. -/
  let dCostTotal ← assignmentsMap.foldlM
    (fun (dCostTotal : R) (entry : Nat × Nat) => do
      pure (dCostTotal + (← matGet self.pRawCostMatrix entry.1 entry.2)))
    (0 : R)
  pure (dCostTotal, assignmentsMap, self)

/-- The solver constructed for the raw cost matrix `[[2, 1]]` (one row, two
columns) as `subtractRowAndColumnMinimum` leaves it, with the given flag
`_bMultiRuns`, assignment sets and assignment map. -/
def solverOneByTwo (multiRuns : Bool) (columnIdsSet : List Nat) (columnIdsMap : List (Nat × Nat))
    (rowIdsSet : List Nat) : CAssignmentSolver ℚ :=
  { assignmentColumnIdsSet := columnIdsSet
    assignmentColumnIdsMap := columnIdsMap
    assignmentRowIdsSet := rowIdsSet
    bMultiRuns := multiRuns
    bTransposedCostMatrix := false
    costMatrix := [[0, 0]]
    fullColumnIndicesSet := [0, 1]
    fullRowIndicesSet := [0]
    markedColumnIdsSet := []
    markedRowIdsSet := []
    nColumns := 2
    nDimensions := 1
    nRows := 1
    pRawCostMatrix := [[2, 1]]
    zeroColumnIdsMap := [(0, [0]), (1, [0])]
    zeroRowIdsMap := [(0, [0, 1])] }

end Solver

/-! ## Binary64 arithmetic

The values of type `double` are the rational numbers `n * 2^u` with `|n| < 2^53`
and `u >= -1074`. An operation returns the value nearest to its exact result,
ties to even (IEEE 754 binary64, round to nearest even). Overflow, infinities
and NaN are not modelled: the runs evaluated below stay far inside the range.
The functions `exp` and `pow` of the C library are taken correctly rounded. -/

namespace Binary64

/-- The power `2^u` of two with an integer exponent. -/
def pow2 (u : Int) : ℚ :=
  if 0 ≤ u then ((2 ^ u.toNat : Nat) : ℚ) else 1 / ((2 ^ (-u).toNat : Nat) : ℚ)

/-- The bits below `2^k` of the binary logarithm of `n`, added to `r`. -/
def log2Bits (n : Nat) : Nat → Nat → Nat
  | 0, r => r
  | k + 1, r => if 2 ^ (r + 2 ^ k) ≤ n then log2Bits n k (r + 2 ^ k) else log2Bits n k r

/-- The binary logarithm `floor(log2 n)` of a positive natural number below
`2^65536`. -/
def log2Floor (n : Nat) : Nat := log2Bits n 16 0

/-- The binary exponent of a positive rational `q`: the integer `e` with
`2^e <= q < 2^(e+1)`. -/
def exponent (q : ℚ) : Int :=
  let e : Int := (log2Floor q.num.natAbs : Int) - (log2Floor q.den : Int)
  if q < pow2 e then e - 1 else e

/-- Rounding to binary64, to nearest and ties to even: the multiple of the unit
in the last place `2^u`, `u = max(e - 52, -1074)`, that is nearest to `q`. -/
def nearest (q : ℚ) : ℚ :=
  if q = 0 then 0 else
    let a := |q|
    let u := max (exponent a - 52) (-1074)
    let s := a / pow2 u
    let n := s.floor
    let f := s - n
    let n := if f < 1 / 2 then n else if 1 / 2 < f then n + 1 else if n % 2 = 0 then n else n + 1
    if 0 < q then n * pow2 u else -(n * pow2 u)

/-- Binary64 addition. -/
def add (x y : ℚ) : ℚ := nearest (x + y)

/-- Binary64 subtraction. -/
def sub (x y : ℚ) : ℚ := nearest (x - y)

/-- Binary64 multiplication. -/
def mul (x y : ℚ) : ℚ := nearest (x * y)

/-- Binary64 division. -/
def div (x y : ℚ) : ℚ := nearest (x / y)

/-- The bits below `2^k` of the integer square root of `n`, added to `r`. -/
def sqrtBits (n : Nat) : Nat → Nat → Nat
  | 0, r => r
  | k + 1, r => if (r + 2 ^ k) ^ 2 ≤ n then sqrtBits n k (r + 2 ^ k) else sqrtBits n k r

/-- The integer square root `floor(sqrt n)`. -/
def sqrtFloor (n : Nat) : Nat := sqrtBits n (log2Floor n / 2 + 1) 0

/-- The binary64 nearest to the square root of a positive rational `r`: with
`u = floor(e / 2) - 52` for the binary exponent `e` of `r`, the integer part `n`
of `sqrt(r) / 2^u` has 53 bits, and `sqrt(r) / 2^u` is compared with `n + 1/2`
through the squares. -/
def sqrtNearest (r : ℚ) : ℚ :=
  if 0 < r then
    let u := exponent r / 2 - 52
    let s := r / pow2 (2 * u)
    let n : Int := sqrtFloor s.floor.toNat
    let h : ℚ := (n + 1 / 2) ^ 2
    let n := if s < h then n else if h < s then n + 1 else if n % 2 = 0 then n else n + 1
    n * pow2 u
  else 0

/-- The sum of the first `n` terms of the exponential series at `x`, and the
term of index `n`, `x^n / n!`. -/
def expSeries (x : ℚ) : Nat → ℚ × ℚ
  | 0 => (0, 1)
  | k + 1 => ((expSeries x k).1 + (expSeries x k).2, (expSeries x k).2 * x / (k + 1))

/-- The function `exp` of the C library in binary64: the value nearest to the
sum of the first 48 terms of the exponential series. For `|x| <= 4` the omitted
tail is below `2^-100` of the sum, so this is the correctly rounded exponential
unless `exp(x)` lies that close to the middle of two neighbouring values. -/
def exp (x : ℚ) : ℚ := nearest (expSeries x 48).1

/-- The function `pow` of the C library in binary64, correctly rounded, for an
exponent `y` that is half of a natural number (the sources use the exponents
1.5 and 2 and the number of atoms of an intersection): the value nearest to
`x^y` for a natural number `y`, and to the square root of `x^(2y)` for an odd
`2y`. Other exponents are not modelled (value 0). -/
def pow (x y : ℚ) : ℚ :=
  if (2 * y).den = 1 ∧ 0 ≤ y.num then
    if (2 * y).num % 2 = 0 then nearest (x ^ y.num.toNat)
    else sqrtNearest (x ^ (2 * y).num.toNat)
  else 0

/-! ### The overlap engine in binary64 arithmetic -/

/-- Source `CGaussianVolume::_dP`, as the binary64 of the literal. -/
def CGaussianVolume.dP : ℚ := nearest 2.8284271247

/-- Source `CGaussianVolume::_dPI`, as the binary64 of the literal. -/
def CGaussianVolume.dPI : ℚ := nearest 3.14159265358

/-- Source `CGaussianVolume::_dPARTIAL_ALPHA`, as the binary64 of the literal. -/
def CGaussianVolume.dPARTIAL_ALPHA : ℚ := nearest 2.41798793102

/-- Source `CMathematics::pointToPointSquareDistance`, every operation rounded. -/
def CMathematics.pointToPointSquareDistance (position1 position2 : List ℚ) :
    Except Failure ℚ :=
  if position1.length = position2.length then
    .ok ((position1.zip position2).foldl
      (fun dDistance c => add dDistance (mul (sub c.2 c.1) (sub c.2 c.1))) 0)
  else
    .error .invalidArgument

/-- Source `CGaussianVolume::getOverlapVolume(const IMolecule&, const IMolecule&)`,
the direct mode, every operation rounded. -/
def CGaussianVolume.getOverlapVolumeDirect (self : CGaussianVolume ℚ)
    (refMol fitMol : CMolecule ℚ) : Except Failure ℚ :=
  let refAtomsList := refMol.getAtomsList
  let fitAtomsList := fitMol.getAtomsList
  refAtomsList.foldlM (fun dOverlap refAtom =>
    let refAtomPosition := refAtom.getPosition
    let dRadiusRefAtom := refAtom.getAtomRadius
    let dAlphaRefAtom := div CGaussianVolume.dPARTIAL_ALPHA (mul dRadiusRefAtom dRadiusRefAtom)
    fitAtomsList.foldlM (fun dOverlap fitAtom => do
      let fitAtomPosition := fitAtom.getPosition
      let dRadiusFitAtom := fitAtom.getAtomRadius
      let dR2 ← CMathematics.pointToPointSquareDistance refAtomPosition fitAtomPosition
      if dR2 < mul (add (add dRadiusRefAtom dRadiusFitAtom) self.dGaussianCutoff)
          (add (add dRadiusRefAtom dRadiusFitAtom) self.dGaussianCutoff) then
        let dAlphaFitAtom :=
          div CGaussianVolume.dPARTIAL_ALPHA (mul dRadiusFitAtom dRadiusFitAtom)
        let dK := exp (div (-(mul (mul dAlphaRefAtom dAlphaFitAtom) dR2))
          (add dAlphaRefAtom dAlphaFitAtom))
        let dV := mul (mul 8 dK)
          (pow (div CGaussianVolume.dPI (add dAlphaRefAtom dAlphaFitAtom)) 1.5)
        pure (add dOverlap dV)
      else
        pure dOverlap) dOverlap) 0

/-- The loop `for (++iterBehind; iterBehind != end; ++iterBehind) dK += ...` of
`calculateAtomIntersectionVolume`, every operation rounded. -/
def CGaussianVolume.addPairsWithin (alphaValues : List ℚ) (squareDistances : List (List ℚ)) :
    List Nat → ℚ → Except Failure ℚ
  | [], dK => pure dK
  | id :: behind, dK => do
    let dK ← behind.foldlM (fun dK (idBehind : Nat) => do
      let a ← vecGet alphaValues id
      let b ← vecGet alphaValues idBehind
      let row ← vecGet squareDistances id
      let d ← vecGet row idBehind
      pure (add dK (mul (mul a b) d))) dK
    CGaussianVolume.addPairsWithin alphaValues squareDistances behind dK

/-- Source `CGaussianVolume::calculateAtomIntersectionVolume`, every operation
rounded. -/
def CGaussianVolume.calculateAtomIntersectionVolume (self : CGaussianVolume ℚ)
    (refAtomIdsSet fitAtomIdsSet : List Nat) : Except Failure ℚ := do
  let pre ← deref self.pPrecalculationResult
  /- Calculate delta value. -/
  let dDelta ← refAtomIdsSet.foldlM (fun dDelta (id : Nat) => do
    pure (add dDelta (← vecGet pre.alphaValuesForRef id))) 0
  let dDelta ← fitAtomIdsSet.foldlM (fun dDelta (id : Nat) => do
    pure (add dDelta (← vecGet pre.alphaValuesForFit id))) dDelta
  /- Calculate K value. -/
  let dK ← CGaussianVolume.addPairsWithin pre.alphaValuesForRef
    pre.squareDistancesMatrixForRef refAtomIdsSet 0
  let dK ← CGaussianVolume.addPairsWithin pre.alphaValuesForFit
    pre.squareDistancesMatrixForFit fitAtomIdsSet dK
  let dK ← refAtomIdsSet.foldlM (fun dK (refId : Nat) =>
    fitAtomIdsSet.foldlM (fun dK (fitId : Nat) => do
      let a ← vecGet pre.alphaValuesForRef refId
      let b ← vecGet pre.alphaValuesForFit fitId
      let row ← vecGet self.squareDistancesMatrix refId
      let d ← vecGet row fitId
      pure (add dK (mul (mul a b) d))) dK) dK
  let dK := exp (-(div dK dDelta))
  pure (mul (mul (pow CGaussianVolume.dP ((refAtomIdsSet.length + fitAtomIdsSet.length : Nat) : ℚ))
    dK) (pow (div CGaussianVolume.dPI dDelta) 1.5))

/-- Source `CGaussianVolume::getOverlapVolume()`, the refined mode, every
operation rounded. -/
def CGaussianVolume.getOverlapVolume (self : CGaussianVolume ℚ) : Except Failure ℚ := do
  let pre ← deref self.pPrecalculationResult
  let nMAX_INTERSECTION_ORDER := pre.intersectedAtomIdsForRef.length
  (List.range nMAX_INTERSECTION_ORDER).foldlM (fun dOverlapVolume (iOrderRef : Nat) =>
    (List.range nMAX_INTERSECTION_ORDER).foldlM (fun dOverlapVolume (iOrderFit : Nat) => do
      let nSign : ℚ := if (iOrderRef + 1 + iOrderFit + 1) % 2 = 0 then 1 else -1
      let intersectedIdsCurrRef ← vecGet pre.intersectedAtomIdsForRef iOrderRef
      let intersectedIdsCurrFit ← vecGet pre.intersectedAtomIdsForFit iOrderFit
      intersectedIdsCurrRef.foldlM (fun dOverlapVolume (idsSetRef : List Nat) =>
        intersectedIdsCurrFit.foldlM (fun dOverlapVolume (idsSetFit : List Nat) => do
          if (← CGaussianVolume.isIntersectedAtomsByCrossNeighbors idsSetRef idsSetFit
              self.neighborAtomIds) then
            pure (add dOverlapVolume
              (mul nSign (← CGaussianVolume.calculateAtomIntersectionVolume self
                idsSetRef idsSetFit)))
          else
            pure dOverlapVolume) dOverlapVolume) dOverlapVolume) dOverlapVolume) 0

/-- Source `CGaussianVolume::initializeIntermolecularInformation`, every
operation rounded. -/
def CGaussianVolume.initializeIntermolecularInformation (self : CGaussianVolume ℚ) :
    Except Failure (CGaussianVolume ℚ) :=
  match self.pRefAtoms, self.pFitAtoms, self.pPrecalculationResult with
  | some refAtoms, some fitAtoms, some pre => do
    let dGAUSSIAN_CUTOFF := pre.dGaussianCutoff
    let (squareDistancesMatrix, neighborAtomIds) ←
      refAtoms.foldlM (fun (acc : List (List ℚ) × List (List Nat)) (refAtom : CAtom ℚ) => do
        let row ← fitAtoms.foldlM
          (fun (row : List ℚ × List Nat × Nat) (fitAtom : CAtom ℚ) => do
            let dSquareDistance ←
              CMathematics.pointToPointSquareDistance refAtom.getPosition fitAtom.getPosition
            let neighborAtomIdsSet :=
              if dSquareDistance
                  < pow (add (add refAtom.getAtomRadius fitAtom.getAtomRadius)
                      dGAUSSIAN_CUTOFF) 2
              then setInsert row.2.2 row.2.1
              else row.2.1
            pure (row.1 ++ [dSquareDistance], neighborAtomIdsSet, row.2.2 + 1))
          (([] : List ℚ), ([] : List Nat), 0)
        pure (acc.1 ++ [row.1], acc.2 ++ [row.2.1])) (([] : List (List ℚ)), ([] : List (List Nat)))
    pure { self with
      squareDistancesMatrix := squareDistancesMatrix
      neighborAtomIds := neighborAtomIds }
  | _, _, _ => .error .invalidArgument

/-- Source `CGaussianVolume::CGaussianVolume(pRefAtoms, pFitAtoms,
pPrecalculationResult)`, with the binary64 initialisation. -/
def CGaussianVolume.ofAtoms (dIndeterminate : ℚ)
    (pRefAtoms pFitAtoms : Option (List (CAtom ℚ)))
    (pPrecalculationResult : Option (PrecalculationResult ℚ)) :
    Except Failure (CGaussianVolume ℚ) :=
  match pRefAtoms, pFitAtoms, pPrecalculationResult with
  | some refAtoms, some fitAtoms, some pre =>
    if refAtoms.length = pre.alphaValuesForRef.length ∧
        refAtoms.length = pre.neighborAtomIdsForRef.length ∧
        refAtoms.length = pre.squareDistancesMatrixForRef.length ∧
        fitAtoms.length = pre.alphaValuesForFit.length ∧
        fitAtoms.length = pre.neighborAtomIdsForFit.length ∧
        fitAtoms.length = pre.squareDistancesMatrixForFit.length ∧
        pre.intersectedAtomIdsForRef.length = pre.intersectedAtomIdsForFit.length then
      CGaussianVolume.initializeIntermolecularInformation
        { dGaussianCutoff := dIndeterminate
          neighborAtomIds := []
          pFitAtoms := some fitAtoms
          pPrecalculationResult := some pre
          pRefAtoms := some refAtoms
          squareDistancesMatrix := [] }
    else
      .error .invalidArgument
  | _, _, _ => .error .invalidArgument

/-- Source `CGaussianVolume::precalculateMolecule`, every operation rounded;
`stale` gives the values read from the row under construction. -/
def CGaussianVolume.precalculateMolecule (stale : Nat → Nat → ℚ)
    (molecule : CMolecule ℚ) (dGaussianCutoff : ℚ) (nMaxIntersectionOrder : Int) :
    Except Failure (MoleculePrecalculation ℚ) :=
  if dGaussianCutoff ≥ 0 ∧ nMaxIntersectionOrder > 0 then do
    let atomsList := molecule.getAtomsList
    let out ← atomsList.foldlM
      (fun (out : MoleculePrecalculation ℚ × Nat) (atomOuter : CAtom ℚ) => do
        let iOuterAtomId := out.2
        let outerAtomPosition := atomOuter.getPosition
        let row ← atomsList.foldlM
          (fun (row : List ℚ × List Nat × Nat) (atomInner : CAtom ℚ) => do
            let iInnerAtomId := row.2.2
            let innerAtomPosition := atomInner.getPosition
            let dSquareDistance ←
              if iInnerAtomId ≥ iOuterAtomId then
                CMathematics.pointToPointSquareDistance outerAtomPosition innerAtomPosition
              else
                pure (stale iOuterAtomId iInnerAtomId)
            let currentNeighborIdsSet :=
              if iInnerAtomId > iOuterAtomId ∧ dSquareDistance
                  < pow (add (add atomOuter.getAtomRadius atomInner.getAtomRadius)
                      dGaussianCutoff) 2
              then setInsert iInnerAtomId row.2.1
              else row.2.1
            pure (row.1 ++ [dSquareDistance], currentNeighborIdsSet, iInnerAtomId + 1))
          (([] : List ℚ), ([] : List Nat), 0)
        let dAlpha := div CGaussianVolume.dPARTIAL_ALPHA (pow atomOuter.getAtomRadius 2)
        pure ({ out.1 with
                alphaValues := out.1.alphaValues ++ [dAlpha]
                squareDistancesMatrix := out.1.squareDistancesMatrix ++ [row.1]
                neighborAtomIds := out.1.neighborAtomIds ++ [row.2.1] }, iOuterAtomId + 1))
      (({ alphaValues := [], squareDistancesMatrix := [], neighborAtomIds := [],
          intersectedAtomIds := [] } : MoleculePrecalculation ℚ), 0)
    let intersectedAtomIds ←
      (List.range nMaxIntersectionOrder.toNat).foldlM (fun intersectedAtomIds (i : Nat) => do
        let iOrder : Int := (i : Int) + 1
        let intersectedAtomIdsForCurrentOrder ←
          CGaussianVolume.enumerateIntersectedAtomIds out.1.neighborAtomIds iOrder []
        pure (intersectedAtomIds ++ [intersectedAtomIdsForCurrentOrder]))
        ([] : List (List (List Nat)))
    pure { out.1 with intersectedAtomIds := intersectedAtomIds }
  else
    .error .invalidArgument

/-- Source `CGaussianVolume::precalculate`, with the binary64 precalculation of
the two molecules. -/
def CGaussianVolume.precalculate (stale : Nat → Nat → ℚ)
    (refMol fitMol : CMolecule ℚ) (dGaussianCutoff : ℚ) (nMaxIntersectionOrder : Int)
    (precalculationResult : PrecalculationResult ℚ) :
    Except Failure (PrecalculationResult ℚ) :=
  if dGaussianCutoff ≥ 0 ∧ nMaxIntersectionOrder > 0 then do
    let r ← CGaussianVolume.precalculateMolecule stale refMol dGaussianCutoff
      nMaxIntersectionOrder
    let precalculationResult := { precalculationResult with
      alphaValuesForRef := r.alphaValues
      squareDistancesMatrixForRef := r.squareDistancesMatrix
      neighborAtomIdsForRef := r.neighborAtomIds
      intersectedAtomIdsForRef := r.intersectedAtomIds }
    let f ← CGaussianVolume.precalculateMolecule stale fitMol dGaussianCutoff
      nMaxIntersectionOrder
    pure { precalculationResult with
      alphaValuesForFit := f.alphaValues
      squareDistancesMatrixForFit := f.squareDistancesMatrix
      neighborAtomIdsForFit := f.neighborAtomIds
      intersectedAtomIdsForFit := f.intersectedAtomIds
      dGaussianCutoff := dGaussianCutoff }
  else
    .error .invalidArgument

end Binary64

/-! # Theorems -/

section DirectMode

variable {R : Type} [LinearOrderedField R]

theorem foldl_sq_eq (l : List (R × R)) (init : R) :
    l.foldl (fun dDistance c => dDistance + (c.2 - c.1) * (c.2 - c.1)) init
      = init + (l.map (fun c => (c.2 - c.1) * (c.2 - c.1))).sum := by
  induction l generalizing init with
  | nil => simp
  | cons x xs ih => simp [ih, add_assoc]

theorem pointToPointSquareDistance_ok (p q : List R) (h : p.length = q.length) :
    CMathematics.pointToPointSquareDistance p q = .ok (sqDist p q) := by
  unfold CMathematics.pointToPointSquareDistance sqDist
  rw [if_pos h, foldl_sq_eq, zero_add]
  congr 1
  rw [List.zip, List.map_zipWith]

theorem pointToPointSquareDistance_error (p q : List R) (h : p.length ≠ q.length) :
    CMathematics.pointToPointSquareDistance p q = .error .invalidArgument := by
  unfold CMathematics.pointToPointSquareDistance
  rw [if_neg h]

/-- A loop that adds `g x` to an accumulator for every element, and throws
`e` at the first element violating `P`. -/
theorem foldlM_sum_or_error {α : Type} (l : List α) (f : R → α → Except Failure R)
    (g : α → R) (P : α → Prop) [DecidablePred P] (e : Failure)
    (hok : ∀ acc x, P x → f acc x = .ok (acc + g x))
    (herr : ∀ acc x, ¬ P x → f acc x = .error e) (init : R) :
    l.foldlM f init
      = if ∀ x ∈ l, P x then .ok (init + (l.map g).sum) else .error e := by
  induction l generalizing init with
  | nil => simp [pure, Except.pure]
  | cons x xs ih =>
    rw [List.foldlM_cons]
    by_cases hx : P x
    · rw [hok init x hx]
      show xs.foldlM f (init + g x) = _
      rw [ih]
      by_cases hxs : ∀ y ∈ xs, P y
      · have hall : ∀ y ∈ x :: xs, P y := by
          intro y hy
          rcases List.mem_cons.1 hy with rfl | hy
          · exact hx
          · exact hxs y hy
        rw [if_pos hxs, if_pos hall, List.map_cons, List.sum_cons, add_assoc]
      · have hall : ¬ ∀ y ∈ x :: xs, P y := fun h =>
          hxs (fun y hy => h y (List.mem_cons_of_mem x hy))
        rw [if_neg hxs, if_neg hall]
    · rw [herr init x hx]
      have hall : ¬ ∀ y ∈ x :: xs, P y := fun h => hx (h x (List.mem_cons_self x xs))
      rw [if_neg hall]
      rfl

/-- Value of the direct mode on every input: the sum of the pair terms, or the
exception of `pointToPointSquareDistance` when two positions differ in length. -/
theorem getOverlapVolumeDirect_eq (m : CMath R) (self : CGaussianVolume R)
    (refMol fitMol : CMolecule R) :
    self.getOverlapVolumeDirect m refMol fitMol
      = if ∀ a ∈ refMol.atomsList, ∀ b ∈ fitMol.atomsList,
            a.position.length = b.position.length
        then .ok ((refMol.atomsList.map (fun a =>
          (fitMol.atomsList.map (pairTerm m self.dGaussianCutoff a)).sum)).sum)
        else .error .invalidArgument := by
  unfold CGaussianVolume.getOverlapVolumeDirect
  simp only [CMolecule.getAtomsList, CAtom.getPosition, CAtom.getAtomRadius]
  rw [foldlM_sum_or_error refMol.atomsList _
    (fun a => (fitMol.atomsList.map (pairTerm m self.dGaussianCutoff a)).sum)
    (fun a => ∀ b ∈ fitMol.atomsList, a.position.length = b.position.length)
    .invalidArgument, zero_add]
  · intro acc a ha
    rw [foldlM_sum_or_error fitMol.atomsList _ (pairTerm m self.dGaussianCutoff a)
      (fun b => a.position.length = b.position.length) .invalidArgument, if_pos ha]
    · intro acc2 b hb
      rw [pointToPointSquareDistance_ok _ _ hb]
      show (if _ then _ else _) = _
      unfold pairTerm withinCutoff pairVolume alphaOf
      simp only [sq]
      split_ifs <;> simp [pure, Except.pure]
    · intro acc2 b hb
      rw [pointToPointSquareDistance_error _ _ hb]
      rfl
  · intro acc a ha
    rw [foldlM_sum_or_error fitMol.atomsList _ (pairTerm m self.dGaussianCutoff a)
      (fun b => a.position.length = b.position.length) .invalidArgument, if_neg ha]
    · intro acc2 b hb
      rw [pointToPointSquareDistance_ok _ _ hb]
      show (if _ then _ else _) = _
      unfold pairTerm withinCutoff pairVolume alphaOf
      simp only [sq]
      split_ifs <;> simp [pure, Except.pure]
    · intro acc2 b hb
      rw [pointToPointSquareDistance_error _ _ hb]
      rfl

theorem pairTerm_row_sum (m : CMath R) (c : R) (a : CAtom R) (fit : List (CAtom R)) :
    (fit.map (pairTerm m c a)).sum
      = ((((fit.map (Prod.mk a))).filter (fun p => decide (withinCutoff c p.1 p.2))).map
          (fun p => pairVolume m p.1 p.2)).sum := by
  induction fit with
  | nil => simp
  | cons b bs ih =>
    rw [List.map_cons, List.sum_cons, ih, List.map_cons, List.filter_cons]
    by_cases h : withinCutoff c a b
    · simp [pairTerm, h]
    · simp [pairTerm, h]

theorem nested_sum_eq_directSum (m : CMath R) (c : R) (refAtoms fitAtoms : List (CAtom R)) :
    (refAtoms.map (fun a => (fitAtoms.map (pairTerm m c a)).sum)).sum
      = directSum m c refAtoms fitAtoms := by
  unfold directSum
  induction refAtoms with
  | nil => simp
  | cons a as ih =>
    rw [List.map_cons, List.sum_cons, ih, pairTerm_row_sum, List.product_cons,
      List.filter_append, List.map_append, List.sum_append]

theorem sqDist_comm (p q : List R) : sqDist p q = sqDist q p := by
  unfold sqDist
  rw [List.zipWith_comm]
  congr 1
  congr 1
  funext a b
  ring

theorem sqDist_self (p : List R) : sqDist p p = 0 := by
  unfold sqDist
  induction p with
  | nil => simp
  | cons x xs ih => simp [ih]

theorem pairTerm_comm (m : CMath R) (c : R) (a b : CAtom R) :
    pairTerm m c a b = pairTerm m c b a := by
  unfold pairTerm withinCutoff pairVolume
  simp only [sqDist_comm a.position b.position, add_comm a.dAtomRadius b.dAtomRadius,
    add_comm (alphaOf a) (alphaOf b), mul_comm (alphaOf a) (alphaOf b)]

theorem sum_map_sum_swap {α β : Type} (f : α → β → R) (l₁ : List α) (l₂ : List β) :
    (l₁.map (fun a => (l₂.map (fun b => f a b)).sum)).sum
      = (l₂.map (fun b => (l₁.map (fun a => f a b)).sum)).sum := by
  induction l₁ with
  | nil => simp
  | cons a as ih =>
    simp only [List.map_cons, List.sum_cons]
    rw [ih, List.sum_map_add]

/-- C1: with 3-D atom positions, the direct mode returns the sum of the pair
volumes `8 * exp(-(a_i*a_j*d2)/(a_i+a_j)) * (PI/(a_i+a_j))^1.5` over exactly the
(reference atom, fit atom) pairs with `d2 < (r_i + r_j + c)^2`; and two
single-atom molecules with `d2 >= (r_i + r_j + c)^2` have overlap exactly 0. -/
theorem C1_direct_mode_is_sum_over_pairs_within_cutoff (m : CMath R)
    (self : CGaussianVolume R) (refMol fitMol : CMolecule R)
    (href : ∀ a ∈ refMol.atomsList, a.position.length = 3)
    (hfit : ∀ b ∈ fitMol.atomsList, b.position.length = 3) :
    self.getOverlapVolumeDirect m refMol fitMol
        = .ok (directSum m self.dGaussianCutoff refMol.atomsList fitMol.atomsList)
      ∧ (∀ a b, refMol.atomsList = [a] → fitMol.atomsList = [b] →
          (a.dAtomRadius + b.dAtomRadius + self.dGaussianCutoff) ^ 2
            ≤ sqDist a.position b.position →
          self.getOverlapVolumeDirect m refMol fitMol = .ok 0) := by
  have hdim : ∀ a ∈ refMol.atomsList, ∀ b ∈ fitMol.atomsList,
      a.position.length = b.position.length := fun a ha b hb =>
    (href a ha).trans (hfit b hb).symm
  have hval := getOverlapVolumeDirect_eq m self refMol fitMol
  rw [if_pos hdim, nested_sum_eq_directSum] at hval
  refine ⟨hval, ?_⟩
  intro a b ha hb hfar
  rw [hval, ha, hb]
  have hnot : ¬ withinCutoff self.dGaussianCutoff a b := not_lt.2 hfar
  simp [directSum, hnot]

/-- Witness of C1: a two-atom reference and a one-atom fit molecule over the
reals. -/
theorem C1_direct_mode_is_sum_over_pairs_within_cutoff_witness :
    (∀ a ∈ ((CMolecule.new.addAtom ⟨1, 1.5, [0, 0, 0]⟩).addAtom
        ⟨2, 1.7, [1, 0, 0]⟩ : CMolecule ℝ).atomsList, a.position.length = 3)
      ∧ (∀ b ∈ (CMolecule.new.addAtom ⟨1, 1.2, [0, 1, 0]⟩ : CMolecule ℝ).atomsList,
          b.position.length = 3)
      ∧ (CGaussianVolume.new (0 : ℝ)).getOverlapVolumeDirect
          ⟨Real.exp, fun x y => x ^ y, Real.sin, Real.cos⟩
          ((CMolecule.new.addAtom ⟨1, 1.5, [0, 0, 0]⟩).addAtom ⟨2, 1.7, [1, 0, 0]⟩)
          (CMolecule.new.addAtom ⟨1, 1.2, [0, 1, 0]⟩)
        = .ok (directSum ⟨Real.exp, fun x y => x ^ y, Real.sin, Real.cos⟩
            (CGaussianVolume.new (0 : ℝ)).dGaussianCutoff
            ((CMolecule.new.addAtom ⟨1, 1.5, [0, 0, 0]⟩).addAtom
              ⟨2, 1.7, [1, 0, 0]⟩ : CMolecule ℝ).atomsList
            (CMolecule.new.addAtom ⟨1, 1.2, [0, 1, 0]⟩ : CMolecule ℝ).atomsList) :=
  have h1 : ∀ a ∈ ((CMolecule.new.addAtom ⟨1, 1.5, [0, 0, 0]⟩).addAtom
      ⟨2, 1.7, [1, 0, 0]⟩ : CMolecule ℝ).atomsList, a.position.length = 3 := by
    simp [CMolecule.new, CMolecule.addAtom, CAtom.clone]
  have h2 : ∀ b ∈ (CMolecule.new.addAtom ⟨1, 1.2, [0, 1, 0]⟩ : CMolecule ℝ).atomsList,
      b.position.length = 3 := by
    simp [CMolecule.new, CMolecule.addAtom, CAtom.clone]
  ⟨h1, h2, (C1_direct_mode_is_sum_over_pairs_within_cutoff _ _ _ _ h1 h2).1⟩

/-- C2: the direct mode is symmetric in its two molecules, for one cutoff. -/
theorem C2_direct_mode_symmetric (m : CMath R) (self : CGaussianVolume R)
    (molA molB : CMolecule R) :
    self.getOverlapVolumeDirect m molA molB = self.getOverlapVolumeDirect m molB molA := by
  rw [getOverlapVolumeDirect_eq, getOverlapVolumeDirect_eq]
  have hsum : (molA.atomsList.map (fun a =>
        (molB.atomsList.map (pairTerm m self.dGaussianCutoff a)).sum)).sum
      = (molB.atomsList.map (fun b =>
        (molA.atomsList.map (pairTerm m self.dGaussianCutoff b)).sum)).sum := by
    rw [sum_map_sum_swap (fun a b => pairTerm m self.dGaussianCutoff a b)]
    congr 1
    apply List.map_congr_left
    intro b _
    congr 1
    apply List.map_congr_left
    intro a _
    exact pairTerm_comm m _ a b
  by_cases h : ∀ a ∈ molA.atomsList, ∀ b ∈ molB.atomsList,
      a.position.length = b.position.length
  · have h2 : ∀ b ∈ molB.atomsList, ∀ a ∈ molA.atomsList,
        b.position.length = a.position.length := fun b hb a ha => (h a ha b hb).symm
    rw [if_pos h, if_pos h2, hsum]
  · have h2 : ¬ ∀ b ∈ molB.atomsList, ∀ a ∈ molA.atomsList,
        b.position.length = a.position.length := fun h2 =>
      h (fun a ha b hb => (h2 b hb a ha).symm)
    rw [if_neg h, if_neg h2]

theorem alphaOf_pos (a : CAtom R) (h : 0 < a.dAtomRadius) : 0 < alphaOf a := by
  unfold alphaOf CGaussianVolume.dPARTIAL_ALPHA
  have : (0 : R) < a.dAtomRadius ^ 2 := by positivity
  have hk : (0 : R) < 2.41798793102 := by norm_num
  exact div_pos hk this

theorem pairVolume_nonneg (m : CMath R) (hexp : ∀ x, 0 ≤ m.exp x)
    (hpow : ∀ x y, 0 < x → 0 ≤ m.pow x y) (a b : CAtom R)
    (ha : 0 < a.dAtomRadius) (hb : 0 < b.dAtomRadius) : 0 ≤ pairVolume m a b := by
  unfold pairVolume
  have hsum : 0 < alphaOf a + alphaOf b := add_pos (alphaOf_pos a ha) (alphaOf_pos b hb)
  have hpi : (0 : R) < CGaussianVolume.dPI := by
    unfold CGaussianVolume.dPI; norm_num
  have hbase : 0 < CGaussianVolume.dPI / (alphaOf a + alphaOf b) := div_pos hpi hsum
  exact mul_nonneg (mul_nonneg (by norm_num) (hexp _)) (hpow _ _ hbase)

theorem pairTerm_mono (m : CMath R) (hexp : ∀ x, 0 ≤ m.exp x)
    (hpow : ∀ x y, 0 < x → 0 ≤ m.pow x y) (c1 c2 : R) (h0 : 0 ≤ c1) (h12 : c1 ≤ c2)
    (a b : CAtom R) (ha : 0 < a.dAtomRadius) (hb : 0 < b.dAtomRadius) :
    pairTerm m c1 a b ≤ pairTerm m c2 a b := by
  unfold pairTerm
  have hV := pairVolume_nonneg m hexp hpow a b ha hb
  by_cases h1 : withinCutoff c1 a b
  · have h2 : withinCutoff c2 a b := by
      unfold withinCutoff at h1 ⊢
      have hs : 0 ≤ a.dAtomRadius + b.dAtomRadius + c1 := by positivity
      have : (a.dAtomRadius + b.dAtomRadius + c1) ^ 2
          ≤ (a.dAtomRadius + b.dAtomRadius + c2) ^ 2 :=
        pow_le_pow_left₀ hs (by linarith) 2
      exact lt_of_lt_of_le h1 this
    rw [if_pos h1, if_pos h2]
  · rw [if_neg h1]
    split_ifs
    · exact hV
    · exact le_refl 0

/-- C3: for molecules with positive radii and cutoffs `0 <= c1 <= c2`, the
direct-mode overlap computed with cutoff `c1` is at most the one computed
with cutoff `c2` (both calls return a value). -/
theorem C3_direct_mode_monotone_in_cutoff (m : CMath R) (hexp : ∀ x, 0 ≤ m.exp x)
    (hpow : ∀ x y, 0 < x → 0 ≤ m.pow x y) (self : CGaussianVolume R)
    (refMol fitMol : CMolecule R) (c1 c2 : R) (h0 : 0 ≤ c1) (h12 : c1 ≤ c2)
    (href : ∀ a ∈ refMol.atomsList, a.position.length = 3 ∧ 0 < a.dAtomRadius)
    (hfit : ∀ b ∈ fitMol.atomsList, b.position.length = 3 ∧ 0 < b.dAtomRadius) :
    ∃ e1 e2 v1 v2, self.setGaussianCutoff c1 = .ok e1
      ∧ self.setGaussianCutoff c2 = .ok e2
      ∧ e1.getOverlapVolumeDirect m refMol fitMol = .ok v1
      ∧ e2.getOverlapVolumeDirect m refMol fitMol = .ok v2
      ∧ v1 ≤ v2 := by
  have hdim : ∀ a ∈ refMol.atomsList, ∀ b ∈ fitMol.atomsList,
      a.position.length = b.position.length := fun a ha b hb =>
    (href a ha).1.trans (hfit b hb).1.symm
  refine ⟨{ self with dGaussianCutoff := c1 }, { self with dGaussianCutoff := c2 },
    (refMol.atomsList.map (fun a => (fitMol.atomsList.map (pairTerm m c1 a)).sum)).sum,
    (refMol.atomsList.map (fun a => (fitMol.atomsList.map (pairTerm m c2 a)).sum)).sum,
    ?_, ?_, ?_, ?_, ?_⟩
  · unfold CGaussianVolume.setGaussianCutoff
    rw [if_pos (ge_iff_le.2 h0)]
  · unfold CGaussianVolume.setGaussianCutoff
    rw [if_pos (ge_iff_le.2 (le_trans h0 h12))]
  · rw [getOverlapVolumeDirect_eq, if_pos hdim]
  · rw [getOverlapVolumeDirect_eq, if_pos hdim]
  · apply List.sum_le_sum
    intro a ha
    apply List.sum_le_sum
    intro b hb
    exact pairTerm_mono m hexp hpow c1 c2 h0 h12 a b (href a ha).2 (hfit b hb).2

/-- Witness of C3: a two-atom reference and a one-atom fit molecule over the
reals, cutoffs 0 and 1. -/
theorem C3_direct_mode_monotone_in_cutoff_witness :
    ∃ e1 e2 v1 v2, (CGaussianVolume.new (0 : ℝ)).setGaussianCutoff 0 = .ok e1
      ∧ (CGaussianVolume.new (0 : ℝ)).setGaussianCutoff 1 = .ok e2
      ∧ e1.getOverlapVolumeDirect ⟨Real.exp, fun x y => x ^ y, Real.sin, Real.cos⟩
          ((CMolecule.new.addAtom ⟨1, 1.5, [0, 0, 0]⟩).addAtom ⟨2, 1.7, [4, 0, 0]⟩)
          (CMolecule.new.addAtom ⟨1, 1.2, [0, 3, 0]⟩) = .ok v1
      ∧ e2.getOverlapVolumeDirect ⟨Real.exp, fun x y => x ^ y, Real.sin, Real.cos⟩
          ((CMolecule.new.addAtom ⟨1, 1.5, [0, 0, 0]⟩).addAtom ⟨2, 1.7, [4, 0, 0]⟩)
          (CMolecule.new.addAtom ⟨1, 1.2, [0, 3, 0]⟩) = .ok v2
      ∧ v1 ≤ v2 :=
  C3_direct_mode_monotone_in_cutoff ⟨Real.exp, fun x y => x ^ y, Real.sin, Real.cos⟩
    (fun x => (Real.exp_pos x).le) (fun _ y hx => Real.rpow_nonneg hx.le y)
    (CGaussianVolume.new 0) _ _ 0 1 (le_refl 0) zero_le_one
    (by simp [CMolecule.new, CMolecule.addAtom, CAtom.clone]; norm_num)
    (by simp [CMolecule.new, CMolecule.addAtom, CAtom.clone]; norm_num)

/-- C4: two single-atom molecules of radius 1.5 at one same position, cutoff 0:
the direct mode returns exactly `8 * (PI / (2 * alpha))^1.5` with
`alpha = k / 1.5^2`, `k = 2.41798793102`, `PI = 3.14159265358`. -/
theorem C4_closed_form_self_pair (m : CMath R) (hexp0 : m.exp 0 = 1)
    (self : CGaussianVolume R) (id1 id2 : Int) (p : List R) :
    (self.setGaussianCutoff 0).bind (fun e => e.getOverlapVolumeDirect m
        (CMolecule.new.addAtom ⟨id1, 1.5, p⟩) (CMolecule.new.addAtom ⟨id2, 1.5, p⟩))
      = .ok (8 * m.pow (3.14159265358 / (2 * (2.41798793102 / 1.5 ^ 2))) 1.5) := by
  unfold CGaussianVolume.setGaussianCutoff
  rw [if_pos (le_refl (0 : R))]
  show CGaussianVolume.getOverlapVolumeDirect m _ _ _ = _
  rw [getOverlapVolumeDirect_eq, if_pos]
  · have hd : sqDist p p = 0 := sqDist_self p
    have hw : withinCutoff (0 : R) ⟨id1, 1.5, p⟩ ⟨id2, 1.5, p⟩ := by
      unfold withinCutoff
      rw [hd]
      norm_num
    simp only [CMolecule.new, CMolecule.addAtom, CAtom.clone, List.nil_append, List.map_cons,
      List.map_nil, List.sum_cons, List.sum_nil, add_zero, pairTerm, if_pos hw, pairVolume,
      alphaOf, hd, mul_zero, neg_zero, zero_div, hexp0, mul_one, CGaussianVolume.dPI,
      CGaussianVolume.dPARTIAL_ALPHA]
    congr 3
    ring
  · intro a ha b hb
    simp only [CMolecule.new, CMolecule.addAtom, CAtom.clone, List.nil_append,
      List.mem_singleton] at ha hb
    rw [ha, hb]

/-- Witness of C4: the real exponential satisfies `exp 0 = 1`. -/
theorem C4_closed_form_self_pair_witness :
    Real.exp 0 = 1
      ∧ ((CGaussianVolume.new (7 : ℝ)).setGaussianCutoff 0).bind (fun e =>
          e.getOverlapVolumeDirect ⟨Real.exp, fun x y => x ^ y, Real.sin, Real.cos⟩
            (CMolecule.new.addAtom ⟨1, 1.5, [1, 2, 3]⟩)
            (CMolecule.new.addAtom ⟨1, 1.5, [1, 2, 3]⟩))
        = .ok (8 * (3.14159265358 / (2 * (2.41798793102 / 1.5 ^ 2)) : ℝ) ^ (1.5 : ℝ)) :=
  ⟨Real.exp_zero, C4_closed_form_self_pair
    ⟨Real.exp, fun x y => x ^ y, Real.sin, Real.cos⟩ Real.exp_zero
    (CGaussianVolume.new 7) 1 1 [1, 2, 3]⟩

end DirectMode

section RefinedMode

variable {R : Type} [LinearOrderedField R]

theorem vecGet_natCast {α : Type} (v : List α) (i : Nat) (d : α) (h : i < v.length) :
    vecGet v (i : Int) = .ok (v.getD i d) := by
  unfold vecGet
  have hneg : ¬ ((i : Int) < 0) := by omega
  rw [if_neg hneg, Int.toNat_natCast, List.get?_eq_get h, List.getD_eq_getElem v d h]
  rfl

theorem vecGet_natCast_error {α : Type} (v : List α) (i : Nat) (h : v.length ≤ i) :
    vecGet v (i : Int) = .error .outOfRange := by
  unfold vecGet
  have hneg : ¬ ((i : Int) < 0) := by omega
  rw [if_neg hneg, Int.toNat_natCast, List.get?_eq_none.2 h]

theorem ok_bind {ε α β : Type} (a : α) (f : α → Except ε β) :
    (Except.ok a >>= f) = f a := rfl

theorem error_bind {ε α β : Type} (e : ε) (f : α → Except ε β) :
    (Except.error e >>= f) = Except.error e := rfl

/-- A loop whose every step succeeds computes the pure fold. -/
theorem foldlM_eq_ok_foldl {σ α : Type} (l : List α) (f : σ → α → Except Failure σ)
    (step : σ → α → σ) (hok : ∀ s, ∀ x ∈ l, f s x = .ok (step s x)) (init : σ) :
    l.foldlM f init = .ok (l.foldl step init) := by
  induction l generalizing init with
  | nil => rfl
  | cons x xs ih =>
    rw [List.foldlM_cons, hok init x (List.mem_cons_self x xs)]
    show xs.foldlM f (step init x) = _
    rw [ih (fun s y hy => hok s y (List.mem_cons_of_mem x hy))]
    rfl

/-- A loop whose every step adds `g x` to the accumulator computes the sum. -/
theorem foldlM_eq_ok_sum {α : Type} (l : List α) (f : R → α → Except Failure R)
    (g : α → R) (hok : ∀ acc, ∀ x ∈ l, f acc x = .ok (acc + g x)) (init : R) :
    l.foldlM f init = .ok (init + (l.map g).sum) := by
  induction l generalizing init with
  | nil => simp [pure, Except.pure]
  | cons x xs ih =>
    rw [List.foldlM_cons, hok init x (List.mem_cons_self x xs)]
    show xs.foldlM f (init + g x) = _
    rw [ih (fun s y hy => hok s y (List.mem_cons_of_mem x hy)), List.map_cons,
      List.sum_cons, add_assoc]

/-- A property kept by every successful step holds after a successful loop. -/
theorem foldlM_invariant {σ α : Type} (l : List α) (f : σ → α → Except Failure σ)
    (Q : σ → Prop) (hstep : ∀ s x s', x ∈ l → f s x = .ok s' → Q s → Q s')
    (init r : σ) (hinit : Q init) (hr : l.foldlM f init = .ok r) : Q r := by
  induction l generalizing init with
  | nil =>
    have : init = r := by simpa [pure, Except.pure] using hr
    exact this ▸ hinit
  | cons x xs ih =>
    rw [List.foldlM_cons] at hr
    cases hfx : f init x with
    | error e => rw [hfx] at hr; cases hr
    | ok s' =>
      rw [hfx] at hr
      exact ih (fun s y t hy => hstep s y t (List.mem_cons_of_mem x hy)) s'
        (hstep init x s' (List.mem_cons_self x xs) hfx hinit) hr

theorem crossValuesLoop_ok (neighborAtomIds : List (List Nat)) (keyId : Nat)
    (hk : keyId < neighborAtomIds.length) (values : List Nat) :
    CGaussianVolume.crossValuesLoop neighborAtomIds keyId values
      = .ok (values.all (fun j => EXIST j (neighborAtomIds.getD keyId []))) := by
  induction values with
  | nil => rfl
  | cons v vs ih =>
    unfold CGaussianVolume.crossValuesLoop
    rw [vecGet_natCast neighborAtomIds keyId [] hk]
    show (if _ then _ else _) = _
    rw [ih, List.all_cons]
    cases h : EXIST v (neighborAtomIds.getD keyId [])
    · rfl
    · rfl

theorem isIntersectedAtomsByCrossNeighbors_ok (neighborAtomIds : List (List Nat))
    (keys values : List Nat) (hk : ∀ i ∈ keys, i < neighborAtomIds.length) :
    CGaussianVolume.isIntersectedAtomsByCrossNeighbors keys values neighborAtomIds
      = .ok (crossNeighbours neighborAtomIds keys values) := by
  induction keys with
  | nil => rfl
  | cons k ks ih =>
    unfold CGaussianVolume.isIntersectedAtomsByCrossNeighbors
    rw [crossValuesLoop_ok neighborAtomIds k (hk k (List.mem_cons_self k ks))]
    show (if _ then _ else _) = _
    rw [ih (fun i hi => hk i (List.mem_cons_of_mem k hi))]
    unfold crossNeighbours
    rw [List.all_cons]
    cases h : values.all (fun j => EXIST j (neighborAtomIds.getD k []))
    · rfl
    · rfl

theorem addPairsWithin_ok (alphaValues : List R) (matrix : List (List R)) (n : Nat)
    (halpha : alphaValues.length = n) (hmatrix : matrix.length = n)
    (hrows : ∀ row ∈ matrix, row.length = n) (S : List Nat) (hS : ∀ i ∈ S, i < n) (dK : R) :
    CGaussianVolume.addPairsWithin alphaValues matrix S dK
      = .ok (dK + pairSumWithin alphaValues matrix S) := by
  induction S generalizing dK with
  | nil => simp [CGaussianVolume.addPairsWithin, pairSumWithin, pure, Except.pure]
  | cons i behind ih =>
    unfold CGaussianVolume.addPairsWithin
    have hi : i < n := hS i (List.mem_cons_self i behind)
    have hrow : (matrix.getD i []).length = n := by
      apply hrows
      rw [List.getD_eq_getElem matrix [] (by omega)]
      exact List.getElem_mem _
    rw [foldlM_eq_ok_sum behind _
      (fun j => alphaAt alphaValues i * alphaAt alphaValues j * entryAt matrix i j)]
    · show CGaussianVolume.addPairsWithin alphaValues matrix behind _ = _
      rw [ih (fun j hj => hS j (List.mem_cons_of_mem i hj))]
      simp only [pairSumWithin, add_assoc]
    · intro acc j hj
      have hj' : j < n := hS j (List.mem_cons_of_mem i hj)
      rw [vecGet_natCast alphaValues i 0 (by omega), vecGet_natCast alphaValues j 0 (by omega),
        vecGet_natCast matrix i [] (by omega)]
      show (do let d ← vecGet (matrix.getD i []) (j : Int); pure _) = _
      rw [vecGet_natCast (matrix.getD i []) j 0 (by omega)]
      rfl

/-- Value of `calculateAtomIntersectionVolume` when every id read is inside
its vector. -/
theorem calculateAtomIntersectionVolume_ok (m : CMath R) (self : CGaussianVolume R)
    (pre : PrecalculationResult R) (nRef nFit : Nat)
    (hpre : self.pPrecalculationResult = some pre)
    (haRef : pre.alphaValuesForRef.length = nRef) (haFit : pre.alphaValuesForFit.length = nFit)
    (hmRef : pre.squareDistancesMatrixForRef.length = nRef)
    (hmFit : pre.squareDistancesMatrixForFit.length = nFit)
    (hrRef : ∀ row ∈ pre.squareDistancesMatrixForRef, row.length = nRef)
    (hrFit : ∀ row ∈ pre.squareDistancesMatrixForFit, row.length = nFit)
    (hcross : self.squareDistancesMatrix.length = nRef)
    (hcrossRows : ∀ row ∈ self.squareDistancesMatrix, row.length = nFit)
    (S T : List Nat) (hS : ∀ i ∈ S, i < nRef) (hT : ∀ j ∈ T, j < nFit) :
    self.calculateAtomIntersectionVolume m S T
      = .ok (intersectionVolume m pre self.squareDistancesMatrix S T) := by
  have h1 : ∀ acc : R, ∀ i ∈ S,
      (do pure (acc + (← vecGet pre.alphaValuesForRef (i : Int))) : Except Failure R)
        = .ok (acc + alphaAt pre.alphaValuesForRef i) := by
    intro acc i hi
    rw [vecGet_natCast pre.alphaValuesForRef i 0 (by have := hS i hi; omega)]
    rfl
  have h2 : ∀ acc : R, ∀ j ∈ T,
      (do pure (acc + (← vecGet pre.alphaValuesForFit (j : Int))) : Except Failure R)
        = .ok (acc + alphaAt pre.alphaValuesForFit j) := by
    intro acc j hj
    rw [vecGet_natCast pre.alphaValuesForFit j 0 (by have := hT j hj; omega)]
    rfl
  have h3 : ∀ acc : R, ∀ i ∈ S,
      T.foldlM (fun dK (fitId : Nat) => do
        let a ← vecGet pre.alphaValuesForRef (i : Int)
        let b ← vecGet pre.alphaValuesForFit (fitId : Int)
        let row ← vecGet self.squareDistancesMatrix (i : Int)
        let d ← vecGet row (fitId : Int)
        pure (dK + a * b * d)) acc
      = .ok (acc + (T.map (fun j =>
        alphaAt pre.alphaValuesForRef i * alphaAt pre.alphaValuesForFit j
          * entryAt self.squareDistancesMatrix i j)).sum) := by
    intro acc i hi
    have hi' : i < nRef := hS i hi
    have hrow : (self.squareDistancesMatrix.getD i []).length = nFit := by
      apply hcrossRows
      rw [List.getD_eq_getElem _ [] (by omega)]
      exact List.getElem_mem _
    apply foldlM_eq_ok_sum
    intro acc2 j hj
    have hj' : j < nFit := hT j hj
    rw [vecGet_natCast pre.alphaValuesForRef i 0 (by omega),
      vecGet_natCast pre.alphaValuesForFit j 0 (by omega),
      vecGet_natCast self.squareDistancesMatrix i [] (by omega)]
    show (do let d ← vecGet (self.squareDistancesMatrix.getD i []) (j : Int); pure _) = _
    rw [vecGet_natCast (self.squareDistancesMatrix.getD i []) j 0 (by omega)]
    rfl
  unfold CGaussianVolume.calculateAtomIntersectionVolume
  rw [hpre, deref, ok_bind, foldlM_eq_ok_sum S _ _ h1, ok_bind,
    foldlM_eq_ok_sum T _ _ h2, ok_bind,
    addPairsWithin_ok _ _ nRef haRef hmRef hrRef S hS, ok_bind,
    addPairsWithin_ok _ _ nFit haFit hmFit hrFit T hT, ok_bind,
    foldlM_eq_ok_sum S _ _ h3, ok_bind]
  unfold intersectionVolume
  simp only [zero_add]
  rfl

/-- A loop whose every successful step lengthens a measured component by one
lengthens it by the number of elements. -/
theorem foldlM_length {σ α : Type} (l : List α) (f : σ → α → Except Failure σ)
    (len : σ → Nat) (hstep : ∀ s x s', x ∈ l → f s x = .ok s' → len s' = len s + 1)
    (init r : σ) (hr : l.foldlM f init = .ok r) : len r = len init + l.length := by
  induction l generalizing init with
  | nil =>
    have : init = r := by simpa [pure, Except.pure] using hr
    rw [← this]; rfl
  | cons x xs ih =>
    rw [List.foldlM_cons] at hr
    cases hfx : f init x with
    | error e => rw [hfx] at hr; cases hr
    | ok s' =>
      rw [hfx, ok_bind] at hr
      rw [ih (fun s y t hy => hstep s y t (List.mem_cons_of_mem x hy)) s' hr,
        hstep init x s' (List.mem_cons_self x xs) hfx, List.length_cons]
      omega

/-- The engine left by a successful `initializeIntermolecularInformation`: a
cross matrix with one row per reference atom and one column per fit atom, and
one cross-neighbour set per reference atom; the other members are unchanged. -/
theorem initializeIntermolecularInformation_ok (m : CMath R) (self e : CGaussianVolume R)
    (refAtoms fitAtoms : List (CAtom R)) (pre : PrecalculationResult R)
    (hRef : self.pRefAtoms = some refAtoms) (hFit : self.pFitAtoms = some fitAtoms)
    (hPre : self.pPrecalculationResult = some pre)
    (h : self.initializeIntermolecularInformation m = .ok e) :
    e.pPrecalculationResult = some pre ∧ e.pRefAtoms = some refAtoms
      ∧ e.pFitAtoms = some fitAtoms ∧ e.dGaussianCutoff = self.dGaussianCutoff
      ∧ e.squareDistancesMatrix.length = refAtoms.length
      ∧ (∀ row ∈ e.squareDistancesMatrix, row.length = fitAtoms.length)
      ∧ e.neighborAtomIds.length = refAtoms.length := by
  unfold CGaussianVolume.initializeIntermolecularInformation at h
  rw [hRef, hFit, hPre] at h
  simp only [] at h
  -- the step of the outer loop
  generalize hf : (fun (acc : List (List R) × List (List Nat)) (refAtom : CAtom R) => (do
        let row ← fitAtoms.foldlM
          (fun (row : List R × List Nat × Nat) (fitAtom : CAtom R) => do
            let dSquareDistance ←
              CMathematics.pointToPointSquareDistance refAtom.getPosition fitAtom.getPosition
            let neighborAtomIdsSet :=
              if dSquareDistance
                  < m.pow (refAtom.getAtomRadius + fitAtom.getAtomRadius + pre.dGaussianCutoff) 2
              then setInsert row.2.2 row.2.1
              else row.2.1
            pure (row.1 ++ [dSquareDistance], neighborAtomIdsSet, row.2.2 + 1))
          (([] : List R), ([] : List Nat), 0)
        pure (acc.1 ++ [row.1], acc.2 ++ [row.2.1]) :
          Except Failure (List (List R) × List (List Nat)))) = f at h
  have hstep : ∀ acc refAtom acc', f acc refAtom = .ok acc' →
      ∃ row : List R, ∃ nb : List Nat, row.length = fitAtoms.length
        ∧ acc' = (acc.1 ++ [row], acc.2 ++ [nb]) := by
    intro acc refAtom acc' hacc
    rw [← hf] at hacc
    simp only [] at hacc
    cases hrow : fitAtoms.foldlM
        (fun (row : List R × List Nat × Nat) (fitAtom : CAtom R) => (do
          let dSquareDistance ←
            CMathematics.pointToPointSquareDistance refAtom.getPosition fitAtom.getPosition
          let neighborAtomIdsSet :=
            if dSquareDistance
                < m.pow (refAtom.getAtomRadius + fitAtom.getAtomRadius + pre.dGaussianCutoff) 2
            then setInsert row.2.2 row.2.1
            else row.2.1
          pure (row.1 ++ [dSquareDistance], neighborAtomIdsSet, row.2.2 + 1) :
            Except Failure (List R × List Nat × Nat)))
        (([] : List R), ([] : List Nat), 0) with
    | error err => rw [hrow] at hacc; cases hacc
    | ok row =>
      rw [hrow, ok_bind] at hacc
      have hlen := foldlM_length fitAtoms _ (fun row : List R × List Nat × Nat => row.1.length)
        (by
          intro s x s' _ hs
          cases hd : CMathematics.pointToPointSquareDistance refAtom.getPosition x.getPosition with
          | error err => rw [hd] at hs; cases hs
          | ok d =>
            rw [hd, ok_bind] at hs
            cases hs
            simp) _ row hrow
      refine ⟨row.1, row.2.1, by simpa using hlen, ?_⟩
      cases hacc
      rfl
  cases hres : refAtoms.foldlM f (([] : List (List R)), ([] : List (List Nat))) with
  | error err => rw [hres] at h; cases h
  | ok res =>
    rw [hres] at h
    have hlen1 := foldlM_length refAtoms f (fun acc => acc.1.length)
      (by
        intro s x s' _ hs
        obtain ⟨row, nb, _, rfl⟩ := hstep s x s' hs
        simp) _ res hres
    have hlen2 := foldlM_length refAtoms f (fun acc => acc.2.length)
      (by
        intro s x s' _ hs
        obtain ⟨row, nb, _, rfl⟩ := hstep s x s' hs
        simp) _ res hres
    have hrows := foldlM_invariant refAtoms f
      (fun acc => ∀ row ∈ acc.1, row.length = fitAtoms.length)
      (by
        intro s x s' _ hs hQ
        obtain ⟨row, nb, hrowlen, rfl⟩ := hstep s x s' hs
        intro r hr
        rcases List.mem_append.1 hr with hr | hr
        · exact hQ r hr
        · rw [List.mem_singleton.1 hr]; exact hrowlen) _ res (by simp) hres
    obtain ⟨matrix, neighbors⟩ := res
    cases h
    exact ⟨rfl, rfl, rfl, rfl, by simpa using hlen1, hrows, by simpa using hlen2⟩

/-- What a successful construction `CGaussianVolume(pRefAtoms, pFitAtoms,
pPrecalculationResult)` guarantees. -/
theorem ofAtoms_ok (m : CMath R) (d : R) (refAtoms fitAtoms : List (CAtom R))
    (pre : PrecalculationResult R) (e : CGaussianVolume R)
    (h : CGaussianVolume.ofAtoms m d (some refAtoms) (some fitAtoms) (some pre) = .ok e) :
    (refAtoms.length = pre.alphaValuesForRef.length ∧
        refAtoms.length = pre.neighborAtomIdsForRef.length ∧
        refAtoms.length = pre.squareDistancesMatrixForRef.length ∧
        fitAtoms.length = pre.alphaValuesForFit.length ∧
        fitAtoms.length = pre.neighborAtomIdsForFit.length ∧
        fitAtoms.length = pre.squareDistancesMatrixForFit.length ∧
        pre.intersectedAtomIdsForRef.length = pre.intersectedAtomIdsForFit.length)
      ∧ e.pPrecalculationResult = some pre ∧ e.pRefAtoms = some refAtoms
      ∧ e.pFitAtoms = some fitAtoms ∧ e.dGaussianCutoff = d
      ∧ e.squareDistancesMatrix.length = refAtoms.length
      ∧ (∀ row ∈ e.squareDistancesMatrix, row.length = fitAtoms.length)
      ∧ e.neighborAtomIds.length = refAtoms.length := by
  unfold CGaussianVolume.ofAtoms at h
  simp only [] at h
  split_ifs at h with hsizes
  exact ⟨hsizes, initializeIntermolecularInformation_ok m _ e refAtoms fitAtoms pre rfl rfl rfl h⟩

theorem sign_eq (a b : Nat) :
    (if (a + 1 + b + 1) % 2 = 0 then (1 : R) else -1) = (-1) ^ ((a + 1) + (b + 1)) := by
  have hsum : a + 1 + b + 1 = (a + 1) + (b + 1) := by ring
  rw [hsum]
  by_cases h : ((a + 1) + (b + 1)) % 2 = 0
  · rw [if_pos h, Even.neg_one_pow (Nat.even_iff.2 h)]
  · rw [if_neg h, Odd.neg_one_pow (Nat.odd_iff.2 (by omega))]

/-- Value of the refined mode for an engine constructed from a valid
precalculation: the sum over order pairs and enumerated set pairs that are
cross-neighbours, with the sign `(-1)^(a+b)` of the two orders. -/
theorem getOverlapVolume_eq (m : CMath R) (d : R) (refAtoms fitAtoms : List (CAtom R))
    (pre : PrecalculationResult R) (e : CGaussianVolume R)
    (hctor : CGaussianVolume.ofAtoms m d (some refAtoms) (some fitAtoms) (some pre) = .ok e)
    (hvalid : pre.Valid refAtoms.length fitAtoms.length) :
    e.getOverlapVolume m
      = .ok (refinedSum m signOfOrders pre e.neighborAtomIds e.squareDistancesMatrix) := by
  obtain ⟨⟨s1, s2, s3, s4, s5, s6, s7⟩, hpre, -, -, -, hcross, hcrossRows, hnb⟩ :=
    ofAtoms_ok m d refAtoms fitAtoms pre e hctor
  have hmem : ∀ (l : List (List (List Nat))) (i : Nat), i < l.length → l.getD i [] ∈ l := by
    intro l i hi
    rw [List.getD_eq_getElem l [] hi]
    exact List.getElem_mem _
  have hinner : ∀ (iRef iFit : Nat), iRef < pre.intersectedAtomIdsForRef.length →
      iFit < pre.intersectedAtomIdsForRef.length →
      ∀ S ∈ pre.intersectedAtomIdsForRef.getD iRef [],
      ∀ acc : R, ∀ T ∈ pre.intersectedAtomIdsForFit.getD iFit [],
      (do
        if (← CGaussianVolume.isIntersectedAtomsByCrossNeighbors S T e.neighborAtomIds) then
          pure (acc + (if (iRef + 1 + iFit + 1) % 2 = 0 then (1 : R) else -1)
            * (← e.calculateAtomIntersectionVolume m S T))
        else
          pure acc : Except Failure R)
      = .ok (acc + (if crossNeighbours e.neighborAtomIds S T
          then signOfOrders (iRef + 1) (iFit + 1) S T
            * intersectionVolume m pre e.squareDistancesMatrix S T
          else 0)) := by
    intro iRef iFit hiRef hiFit S hS acc T hT
    have hSids : ∀ i ∈ S, i < refAtoms.length :=
      hvalid.idsRef _ (hmem _ iRef hiRef) S hS
    have hTids : ∀ j ∈ T, j < fitAtoms.length :=
      hvalid.idsFit _ (hmem _ iFit (by omega)) T hT
    rw [isIntersectedAtomsByCrossNeighbors_ok _ S T (by rw [hnb]; exact hSids), ok_bind]
    cases hc : crossNeighbours e.neighborAtomIds S T
    · simp [pure, Except.pure]
    · rw [if_pos rfl, calculateAtomIntersectionVolume_ok m e pre refAtoms.length fitAtoms.length
        hpre s1.symm s4.symm s3.symm s6.symm hvalid.rowsRef hvalid.rowsFit hcross hcrossRows
        S T hSids hTids, ok_bind, if_pos rfl, sign_eq]
      rfl
  unfold CGaussianVolume.getOverlapVolume
  rw [hpre, deref, ok_bind]
  simp only []
  rw [foldlM_eq_ok_sum _ _ (fun iRef =>
    ((List.range pre.intersectedAtomIdsForRef.length).map (fun iFit =>
      ((pre.intersectedAtomIdsForRef.getD iRef []).map (fun S =>
        ((pre.intersectedAtomIdsForFit.getD iFit []).map (fun T =>
          if crossNeighbours e.neighborAtomIds S T
          then signOfOrders (iRef + 1) (iFit + 1) S T
            * intersectionVolume m pre e.squareDistancesMatrix S T
          else 0)).sum)).sum)).sum), zero_add]
  · rfl
  · intro acc iRef hiRef
    have hiRef' : iRef < pre.intersectedAtomIdsForRef.length := List.mem_range.1 hiRef
    apply foldlM_eq_ok_sum
    intro acc2 iFit hiFit
    have hiFit' : iFit < pre.intersectedAtomIdsForRef.length := List.mem_range.1 hiFit
    rw [vecGet_natCast pre.intersectedAtomIdsForRef iRef [] hiRef', ok_bind,
      vecGet_natCast pre.intersectedAtomIdsForFit iFit [] (by omega), ok_bind]
    apply foldlM_eq_ok_sum
    intro acc3 S hS
    apply foldlM_eq_ok_sum
    intro acc4 T hT
    exact hinner iRef iFit hiRef' hiFit' S hS acc4 T hT

/-! ### A concrete engine over the reals: one reference atom and one fit atom
at the origin -/

/-- The precalculation of a radius-1.5 reference atom and a fit atom of radius
`r`, both at the origin, cutoff 0 and maximum order 1. -/
theorem precalculate_single_atoms (r : ℝ) :
    CGaussianVolume.precalculate (⟨Real.exp, fun x y => x ^ y, Real.sin, Real.cos⟩ : CMath ℝ)
        (fun _ _ => 0) (CMolecule.new.addAtom ⟨1, 1.5, [0, 0, 0]⟩)
        (CMolecule.new.addAtom ⟨1, r, [0, 0, 0]⟩) 0 1 (PrecalculationResult.new 0)
      = .ok ⟨[CGaussianVolume.dPARTIAL_ALPHA / r ^ 2],
          [CGaussianVolume.dPARTIAL_ALPHA / 1.5 ^ 2], 0,
          [[[0]]], [[[0]]], [[0]], [[0]], [[]], [[]]⟩ := by
  simp [CGaussianVolume.precalculate, CGaussianVolume.precalculateMolecule, CMolecule.new,
    CMolecule.addAtom, CAtom.clone, CMolecule.getAtomsList, CAtom.getPosition,
    CAtom.getAtomRadius, CMathematics.pointToPointSquareDistance,
    CGaussianVolume.enumerateIntersectedAtomIds, setInsert, pure, Except.pure, bind,
    Except.bind, List.range_succ, List.range_zero, PrecalculationResult.new]

/-- The engine constructed from that precalculation. -/
theorem ofAtoms_single_atoms (r : ℝ) (hr : 0 < r) :
    CGaussianVolume.ofAtoms (⟨Real.exp, fun x y => x ^ y, Real.sin, Real.cos⟩ : CMath ℝ) 0
        (some (CMolecule.new.addAtom ⟨1, 1.5, [0, 0, 0]⟩ : CMolecule ℝ).getAtomsList)
        (some (CMolecule.new.addAtom ⟨1, r, [0, 0, 0]⟩ : CMolecule ℝ).getAtomsList)
        (some ⟨[CGaussianVolume.dPARTIAL_ALPHA / r ^ 2],
          [CGaussianVolume.dPARTIAL_ALPHA / 1.5 ^ 2], 0,
          [[[0]]], [[[0]]], [[0]], [[0]], [[]], [[]]⟩)
      = .ok ⟨0, [[0]], some [⟨1, r, [0, 0, 0]⟩],
          some ⟨[CGaussianVolume.dPARTIAL_ALPHA / r ^ 2],
            [CGaussianVolume.dPARTIAL_ALPHA / 1.5 ^ 2], 0,
            [[[0]]], [[[0]]], [[0]], [[0]], [[]], [[]]⟩,
          some [⟨1, 1.5, [0, 0, 0]⟩], [[0]]⟩ := by
  simp [CGaussianVolume.ofAtoms, CGaussianVolume.initializeIntermolecularInformation,
    CMolecule.new, CMolecule.addAtom, CAtom.clone, CMolecule.getAtomsList, CAtom.getPosition,
    CAtom.getAtomRadius, CMathematics.pointToPointSquareDistance, setInsert, pure,
    Except.pure, bind, Except.bind]
  positivity

theorem valid_single_atoms (r : ℝ) :
    PrecalculationResult.Valid (⟨[CGaussianVolume.dPARTIAL_ALPHA / r ^ 2],
      [CGaussianVolume.dPARTIAL_ALPHA / 1.5 ^ 2], 0,
      [[[0]]], [[[0]]], [[0]], [[0]], [[]], [[]]⟩ : PrecalculationResult ℝ) 1 1 := by
  constructor <;> simp

/-- C5 (amended): for an engine constructed from a precalculation that fits
the atom counts, the refined mode returns the sum, over every order pair
`(a, b)` with `1 <= a, b <= maxOrder` and every enumerated pair of sets `(S, T)`
at these orders whose members are cross-neighbours, of `(-1)^(a+b) * V(S,T)`;
pairs that are not fully cross-neighbouring contribute nothing. -/
theorem C5_refined_mode_signed_sum (m : CMath R) (d : R) (refAtoms fitAtoms : List (CAtom R))
    (pre : PrecalculationResult R) (e : CGaussianVolume R)
    (hctor : CGaussianVolume.ofAtoms m d (some refAtoms) (some fitAtoms) (some pre) = .ok e)
    (hvalid : pre.Valid refAtoms.length fitAtoms.length) :
    e.getOverlapVolume m
      = .ok (refinedSum m signOfOrders pre e.neighborAtomIds e.squareDistancesMatrix) :=
  getOverlapVolume_eq m d refAtoms fitAtoms pre e hctor hvalid

/-- Witness of C5 (amended): the engine of two radius-1.5 atoms at the origin. -/
theorem C5_refined_mode_signed_sum_witness :
    CGaussianVolume.ofAtoms (⟨Real.exp, fun x y => x ^ y, Real.sin, Real.cos⟩ : CMath ℝ) 0
        (some [⟨1, 1.5, [0, 0, 0]⟩]) (some [⟨1, 1.5, [0, 0, 0]⟩])
        (some ⟨[CGaussianVolume.dPARTIAL_ALPHA / 1.5 ^ 2],
          [CGaussianVolume.dPARTIAL_ALPHA / 1.5 ^ 2], 0,
          [[[0]]], [[[0]]], [[0]], [[0]], [[]], [[]]⟩)
      = .ok ⟨0, [[0]], some [⟨1, 1.5, [0, 0, 0]⟩],
          some ⟨[CGaussianVolume.dPARTIAL_ALPHA / 1.5 ^ 2],
            [CGaussianVolume.dPARTIAL_ALPHA / 1.5 ^ 2], 0,
            [[[0]]], [[[0]]], [[0]], [[0]], [[]], [[]]⟩,
          some [⟨1, 1.5, [0, 0, 0]⟩], [[0]]⟩
      ∧ PrecalculationResult.Valid (⟨[CGaussianVolume.dPARTIAL_ALPHA / 1.5 ^ 2],
          [CGaussianVolume.dPARTIAL_ALPHA / 1.5 ^ 2], 0,
          [[[0]]], [[[0]]], [[0]], [[0]], [[]], [[]]⟩ : PrecalculationResult ℝ) 1 1
      ∧ CGaussianVolume.getOverlapVolume (⟨Real.exp, fun x y => x ^ y, Real.sin, Real.cos⟩ : CMath ℝ)
          ⟨0, [[0]], some [⟨1, 1.5, [0, 0, 0]⟩],
            some ⟨[CGaussianVolume.dPARTIAL_ALPHA / 1.5 ^ 2],
              [CGaussianVolume.dPARTIAL_ALPHA / 1.5 ^ 2], 0,
              [[[0]]], [[[0]]], [[0]], [[0]], [[]], [[]]⟩,
            some [⟨1, 1.5, [0, 0, 0]⟩], [[0]]⟩
        = .ok (refinedSum (⟨Real.exp, fun x y => x ^ y, Real.sin, Real.cos⟩ : CMath ℝ) signOfOrders
            ⟨[CGaussianVolume.dPARTIAL_ALPHA / 1.5 ^ 2],
              [CGaussianVolume.dPARTIAL_ALPHA / 1.5 ^ 2], 0,
              [[[0]]], [[[0]]], [[0]], [[0]], [[]], [[]]⟩ [[0]] [[0]]) :=
  ⟨ofAtoms_single_atoms 1.5 (by norm_num), valid_single_atoms 1.5,
    C5_refined_mode_signed_sum _ _ _ _ _ _ (ofAtoms_single_atoms 1.5 (by norm_num))
      (valid_single_atoms 1.5)⟩

/-- Counterexample to C5 as stated: for the engine built by `precalculate` and
the constructor from two radius-1.5 atoms at the origin (cutoff 0, maximum
order 1), the refined mode does not return the sum taken with the sign
`(-1)^(|S|+|T|+1)`: it returns `+V({0},{0})`, the claimed sum is `-V({0},{0})`. -/
theorem C5_sign_of_sizes_counterexample :
    ∃ pre e,
      CGaussianVolume.precalculate (⟨Real.exp, fun x y => x ^ y, Real.sin, Real.cos⟩ : CMath ℝ)
          (fun _ _ => 0) (CMolecule.new.addAtom ⟨1, 1.5, [0, 0, 0]⟩)
          (CMolecule.new.addAtom ⟨1, 1.5, [0, 0, 0]⟩) 0 1 (PrecalculationResult.new 0)
        = .ok pre
      ∧ CGaussianVolume.ofAtoms (⟨Real.exp, fun x y => x ^ y, Real.sin, Real.cos⟩ : CMath ℝ) 0
          (some (CMolecule.new.addAtom ⟨1, 1.5, [0, 0, 0]⟩ : CMolecule ℝ).getAtomsList)
          (some (CMolecule.new.addAtom ⟨1, 1.5, [0, 0, 0]⟩ : CMolecule ℝ).getAtomsList)
          (some pre) = .ok e
      ∧ e.getOverlapVolume (⟨Real.exp, fun x y => x ^ y, Real.sin, Real.cos⟩ : CMath ℝ)
          ≠ .ok (refinedSum (⟨Real.exp, fun x y => x ^ y, Real.sin, Real.cos⟩ : CMath ℝ) signOfSizes pre
              e.neighborAtomIds e.squareDistancesMatrix) := by
  refine ⟨_, _, precalculate_single_atoms 1.5, ofAtoms_single_atoms 1.5 (by norm_num), ?_⟩
  rw [getOverlapVolume_eq _ _ _ _ _ _ (ofAtoms_single_atoms 1.5 (by norm_num))
    (valid_single_atoms 1.5)]
  intro h
  injection h with h
  simp [refinedSum, crossNeighbours, EXIST, intersectionVolume, signOfOrders, signOfSizes,
    alphaAt, entryAt, pairSumWithin, List.range_succ] at h
  have hP : (0 : ℝ) < CGaussianVolume.dP := by unfold CGaussianVolume.dP; norm_num
  have hbase : (0 : ℝ) < CGaussianVolume.dPI /
      (CGaussianVolume.dPARTIAL_ALPHA / 1.5 ^ 2 + CGaussianVolume.dPARTIAL_ALPHA / 1.5 ^ 2) := by
    unfold CGaussianVolume.dPI CGaussianVolume.dPARTIAL_ALPHA; norm_num
  have hV := mul_pos (Real.rpow_pos_of_pos hP (1 + 1)) (Real.rpow_pos_of_pos hbase 1.5)
  have hneg : ((-1 : ℝ)) ^ 3 = -1 := by norm_num
  rw [hneg] at h
  linarith

/-- C6 (code evaluated at the failing input): two engines built from the same
one-atom reference molecule, cutoff 0 and maximum order 1, but from fit atoms
of radius 1.5 and of radius 3, return different `getReferenceVolume()` values:
the volume helper reads the fit-side alpha values. And for a two-atom reference
molecule with a one-atom fit molecule the same reads leave the fit-side arrays. -/
theorem C6_getReferenceVolume_depends_on_fit :
    (∃ preA eA preB eB vA vB,
      CGaussianVolume.precalculate (⟨Real.exp, fun x y => x ^ y, Real.sin, Real.cos⟩ : CMath ℝ)
          (fun _ _ => 0) (CMolecule.new.addAtom ⟨1, 1.5, [0, 0, 0]⟩)
          (CMolecule.new.addAtom ⟨1, 1.5, [0, 0, 0]⟩) 0 1 (PrecalculationResult.new 0)
        = .ok preA
      ∧ CGaussianVolume.ofAtoms (⟨Real.exp, fun x y => x ^ y, Real.sin, Real.cos⟩ : CMath ℝ) 0
          (some (CMolecule.new.addAtom ⟨1, 1.5, [0, 0, 0]⟩ : CMolecule ℝ).getAtomsList)
          (some (CMolecule.new.addAtom ⟨1, 1.5, [0, 0, 0]⟩ : CMolecule ℝ).getAtomsList)
          (some preA) = .ok eA
      ∧ CGaussianVolume.precalculate (⟨Real.exp, fun x y => x ^ y, Real.sin, Real.cos⟩ : CMath ℝ)
          (fun _ _ => 0) (CMolecule.new.addAtom ⟨1, 1.5, [0, 0, 0]⟩)
          (CMolecule.new.addAtom ⟨1, 3, [0, 0, 0]⟩) 0 1 (PrecalculationResult.new 0)
        = .ok preB
      ∧ CGaussianVolume.ofAtoms (⟨Real.exp, fun x y => x ^ y, Real.sin, Real.cos⟩ : CMath ℝ) 0
          (some (CMolecule.new.addAtom ⟨1, 1.5, [0, 0, 0]⟩ : CMolecule ℝ).getAtomsList)
          (some (CMolecule.new.addAtom ⟨1, 3, [0, 0, 0]⟩ : CMolecule ℝ).getAtomsList)
          (some preB) = .ok eB
      ∧ eA.getReferenceVolume (⟨Real.exp, fun x y => x ^ y, Real.sin, Real.cos⟩ : CMath ℝ) = .ok vA
      ∧ eB.getReferenceVolume (⟨Real.exp, fun x y => x ^ y, Real.sin, Real.cos⟩ : CMath ℝ) = .ok vB
      ∧ vA ≠ vB)
    ∧ (∃ pre e,
      CGaussianVolume.precalculate (⟨Real.exp, fun x y => x ^ y, Real.sin, Real.cos⟩ : CMath ℝ)
          (fun _ _ => 0)
          ((CMolecule.new.addAtom ⟨1, 1.5, [0, 0, 0]⟩).addAtom ⟨2, 1.5, [9, 0, 0]⟩)
          (CMolecule.new.addAtom ⟨1, 1.5, [0, 0, 0]⟩) 0 1 (PrecalculationResult.new 0)
        = .ok pre
      ∧ CGaussianVolume.ofAtoms (⟨Real.exp, fun x y => x ^ y, Real.sin, Real.cos⟩ : CMath ℝ) 0
          (some ((CMolecule.new.addAtom ⟨1, 1.5, [0, 0, 0]⟩).addAtom
            ⟨2, 1.5, [9, 0, 0]⟩ : CMolecule ℝ).getAtomsList)
          (some (CMolecule.new.addAtom ⟨1, 1.5, [0, 0, 0]⟩ : CMolecule ℝ).getAtomsList)
          (some pre) = .ok e
      ∧ e.getReferenceVolume (⟨Real.exp, fun x y => x ^ y, Real.sin, Real.cos⟩ : CMath ℝ) = .error .outOfRange) := by
  constructor
  · refine ⟨_, _, _, _,
      CGaussianVolume.dP ^ ((1 : ℝ) + 1) * (CGaussianVolume.dPI /
        (CGaussianVolume.dPARTIAL_ALPHA / 1.5 ^ 2 + CGaussianVolume.dPARTIAL_ALPHA / 1.5 ^ 2))
          ^ (1.5 : ℝ),
      CGaussianVolume.dP ^ ((1 : ℝ) + 1) * (CGaussianVolume.dPI /
        (CGaussianVolume.dPARTIAL_ALPHA / 1.5 ^ 2 + CGaussianVolume.dPARTIAL_ALPHA / 3 ^ 2))
          ^ (1.5 : ℝ),
      precalculate_single_atoms 1.5, ofAtoms_single_atoms 1.5 (by norm_num),
      precalculate_single_atoms 3, ofAtoms_single_atoms 3 (by norm_num), ?_, ?_, ?_⟩
    · simp [CGaussianVolume.getReferenceVolume,
        CGaussianVolume.isIntersectedAtomsByMonotoneNeighbors,
        CGaussianVolume.monotoneValuesLoop, CGaussianVolume.calculateAtomIntersectionVolume,
        CGaussianVolume.addPairsWithin, vecGet, deref, List.range_succ, pure, Except.pure,
        bind, Except.bind]
    · simp [CGaussianVolume.getReferenceVolume,
        CGaussianVolume.isIntersectedAtomsByMonotoneNeighbors,
        CGaussianVolume.monotoneValuesLoop, CGaussianVolume.calculateAtomIntersectionVolume,
        CGaussianVolume.addPairsWithin, vecGet, deref, List.range_succ, pure, Except.pure,
        bind, Except.bind]
    · have hP : (0 : ℝ) < CGaussianVolume.dP := by unfold CGaussianVolume.dP; norm_num
      have hA : (0 : ℝ) < CGaussianVolume.dPI /
          (CGaussianVolume.dPARTIAL_ALPHA / 1.5 ^ 2 + CGaussianVolume.dPARTIAL_ALPHA / 1.5 ^ 2) := by
        unfold CGaussianVolume.dPI CGaussianVolume.dPARTIAL_ALPHA; norm_num
      have hlt : CGaussianVolume.dPI /
          (CGaussianVolume.dPARTIAL_ALPHA / 1.5 ^ 2 + CGaussianVolume.dPARTIAL_ALPHA / 1.5 ^ 2)
          < (CGaussianVolume.dPI /
          (CGaussianVolume.dPARTIAL_ALPHA / 1.5 ^ 2 + CGaussianVolume.dPARTIAL_ALPHA / 3 ^ 2) : ℝ) := by
        unfold CGaussianVolume.dPI CGaussianVolume.dPARTIAL_ALPHA; norm_num
      have hpow := Real.rpow_lt_rpow hA.le hlt (by norm_num : (0 : ℝ) < 1.5)
      have hP2 := Real.rpow_pos_of_pos hP ((1 : ℝ) + 1)
      exact ne_of_lt (mul_lt_mul_of_pos_left hpow hP2)
  · refine ⟨⟨[CGaussianVolume.dPARTIAL_ALPHA / 1.5 ^ 2],
        [CGaussianVolume.dPARTIAL_ALPHA / 1.5 ^ 2, CGaussianVolume.dPARTIAL_ALPHA / 1.5 ^ 2], 0,
        [[[0]]], [[[0], [1]]], [[0]], [[0, 81], [0, 0]], [[]], [[], []]⟩,
      ⟨0, [[0], []], some [⟨1, 1.5, [0, 0, 0]⟩],
        some ⟨[CGaussianVolume.dPARTIAL_ALPHA / 1.5 ^ 2],
          [CGaussianVolume.dPARTIAL_ALPHA / 1.5 ^ 2, CGaussianVolume.dPARTIAL_ALPHA / 1.5 ^ 2], 0,
          [[[0]]], [[[0], [1]]], [[0]], [[0, 81], [0, 0]], [[]], [[], []]⟩,
        some [⟨1, 1.5, [0, 0, 0]⟩, ⟨2, 1.5, [9, 0, 0]⟩], [[0], [81]]⟩, ?_, ?_, ?_⟩
    · norm_num [CGaussianVolume.precalculate, CGaussianVolume.precalculateMolecule,
        CMolecule.new, CMolecule.addAtom, CAtom.clone, CMolecule.getAtomsList,
        CAtom.getPosition, CAtom.getAtomRadius, CMathematics.pointToPointSquareDistance,
        CGaussianVolume.enumerateIntersectedAtomIds, setInsert, pure, Except.pure, bind,
        Except.bind, List.range_succ, List.range_zero, PrecalculationResult.new]
    · norm_num [CGaussianVolume.ofAtoms, CGaussianVolume.initializeIntermolecularInformation,
        CMolecule.new, CMolecule.addAtom, CAtom.clone, CMolecule.getAtomsList,
        CAtom.getPosition, CAtom.getAtomRadius, CMathematics.pointToPointSquareDistance,
        setInsert, pure, Except.pure, bind, Except.bind]
    · norm_num [CGaussianVolume.getReferenceVolume,
        CGaussianVolume.isIntersectedAtomsByMonotoneNeighbors,
        CGaussianVolume.monotoneValuesLoop, CGaussianVolume.calculateAtomIntersectionVolume,
        CGaussianVolume.addPairsWithin, vecGet, deref, List.range_succ, pure, Except.pure,
        bind, Except.bind, EXIST]

end RefinedMode

section Objective

variable {R : Type} [LinearOrderedField R]

theorem mapM_eq_ok_map {α β : Type} (l : List α) (f : α → Except Failure β) (g : α → β)
    (h : ∀ x ∈ l, f x = .ok (g x)) : l.mapM f = .ok (l.map g) := by
  rw [← List.mapM'_eq_mapM]
  induction l with
  | nil => rfl
  | cons x xs ih =>
    rw [List.mapM'_cons, h x (List.mem_cons_self x xs), ok_bind,
      ih (fun y hy => h y (List.mem_cons_of_mem x hy)), ok_bind]
    rfl

omit [LinearOrderedField R] in
theorem foldl_addAtom_atomsList (atoms : List (CAtom R)) (mol : CMolecule R) :
    (atoms.foldl (fun self atom => self.addAtom atom) mol).atomsList
      = mol.atomsList ++ atoms := by
  induction atoms generalizing mol with
  | nil => simp
  | cons a as ih =>
    rw [List.foldl_cons, ih]
    simp [CMolecule.addAtom, CAtom.clone]

/-- The clone has the atoms (positions and radii) of the original. -/
theorem clone_atomsList (mol : CMolecule R) : mol.clone.atomsList = mol.atomsList := by
  unfold CMolecule.clone CMolecule.assign
  simp only [foldl_addAtom_atomsList, CMolecule.clear, List.nil_append]

theorem rotateXYZ_ok (m : CMath R) (mol : CMolecule R) (rx ry rz : R)
    (h3 : ∀ a ∈ mol.atomsList, a.position.length = 3) :
    mol.rotateXYZ m rx ry rz
      = .ok { mol with atomsList := mol.atomsList.map (fun a =>
          { a with position := rotatePoint m rx ry rz a.position }) } := by
  unfold CMolecule.rotateXYZ
  simp only []
  rw [mapM_eq_ok_map mol.atomsList _ (fun a =>
    { a with position := rotatePoint m rx ry rz a.position })]
  · rfl
  · intro a ha
    obtain ⟨x, y, z, hpos⟩ := List.length_eq_three.1 (h3 a ha)
    obtain ⟨id, r, pos⟩ := a
    simp only at hpos
    subst hpos
    rfl

theorem move_ok (mol : CMolecule R) (tx ty tz : R)
    (h3 : ∀ a ∈ mol.atomsList, a.position.length = 3) :
    mol.move tx ty tz
      = .ok { mol with atomsList := mol.atomsList.map (fun a =>
          { a with position := translatePoint tx ty tz a.position }) } := by
  unfold CMolecule.move
  rw [mapM_eq_ok_map mol.atomsList _ (fun a =>
    { a with position := translatePoint tx ty tz a.position })]
  · rfl
  · intro a ha
    obtain ⟨x, y, z, hpos⟩ := List.length_eq_three.1 (h3 a ha)
    obtain ⟨id, r, pos⟩ := a
    simp only at hpos
    subst hpos
    rfl

theorem rotatePoint_length (m : CMath R) (rx ry rz : R) (position : List R)
    (h : position.length = 3) : (rotatePoint m rx ry rz position).length = 3 := by
  obtain ⟨x, y, z, rfl⟩ := List.length_eq_three.1 h
  rfl

theorem translatePoint_length (tx ty tz : R) (position : List R)
    (h : position.length = 3) : (translatePoint tx ty tz position).length = 3 := by
  obtain ⟨x, y, z, rfl⟩ := List.length_eq_three.1 h
  rfl

/-- The engine left by `setGaussianCutoff` on a default-constructed engine does
not depend on the indeterminate initial cutoff. -/
theorem new_setGaussianCutoff (d c : R) :
    (CGaussianVolume.new d).setGaussianCutoff c
      = if c ≥ 0 then .ok (CGaussianVolume.new c) else .error .invalidArgument := by
  unfold CGaussianVolume.setGaussianCutoff CGaussianVolume.new
  rfl

/-- What `attemptInitialize` does: it fails exactly when initialisation is not
possible, and keeps the molecules, the cutoff, the order and the flag. -/
theorem attemptInitialize_spec (ev : CGaussianVolumeOverlapEvaluator R) :
    (ev.attemptInitialize.1.pFitMolecule = ev.pFitMolecule
      ∧ ev.attemptInitialize.1.pRefMolecule = ev.pRefMolecule
      ∧ ev.attemptInitialize.1.dGaussianCutoff = ev.dGaussianCutoff
      ∧ ev.attemptInitialize.1.nMaxIntersectionOrder = ev.nMaxIntersectionOrder
      ∧ ev.attemptInitialize.1.bNegativeOverlap = ev.bNegativeOverlap)
    ∧ ((initPossible ev ∧ ev.attemptInitialize.2 = .ok ()
          ∧ ev.attemptInitialize.1.bInitForGaussianVolumeBuilder = true)
        ∨ (¬ initPossible ev ∧ ev.attemptInitialize.2 = .error .invalidArgument
          ∧ ev.attemptInitialize.1.bInitForGaussianVolumeBuilder = false)) := by
  by_cases hb : ev.bInitForGaussianVolumeBuilder = true
  · have h : ev.attemptInitialize = (ev, .ok ()) := by
      unfold CGaussianVolumeOverlapEvaluator.attemptInitialize
      simp [hb]
    rw [h]
    exact ⟨⟨rfl, rfl, rfl, rfl, rfl⟩, Or.inl ⟨Or.inl hb, rfl, hb⟩⟩
  · by_cases hc : ev.dGaussianCutoff ≥ 0
    · by_cases ho : ev.nMaxIntersectionOrder > 0
      · have h : ev.attemptInitialize
            = ({ ev with
                  gVolumeBuilder := { ev.gVolumeBuilder with
                    dGaussianCutoff := ev.dGaussianCutoff
                    nMaxIntersectionOrder := ev.nMaxIntersectionOrder }
                  bInitForGaussianVolumeBuilder := true }, .ok ()) := by
          unfold CGaussianVolumeOverlapEvaluator.attemptInitialize
            CGaussianVolumeBuilder.setGaussianCutoff
            CGaussianVolumeBuilder.setMaxIntersectionOrder
            CGaussianVolumeOverlapEvaluator.getGaussianCutoff
            CGaussianVolumeOverlapEvaluator.getMaxIntersectionOrder
          simp [hb, hc, ho]
        rw [h]
        exact ⟨⟨rfl, rfl, rfl, rfl, rfl⟩, Or.inl ⟨Or.inr ⟨hc, ho⟩, rfl, rfl⟩⟩
      · have h : ev.attemptInitialize
            = ({ ev with
                  gVolumeBuilder := { ev.gVolumeBuilder with
                    dGaussianCutoff := ev.dGaussianCutoff } }, .error .invalidArgument) := by
          unfold CGaussianVolumeOverlapEvaluator.attemptInitialize
            CGaussianVolumeBuilder.setGaussianCutoff
            CGaussianVolumeBuilder.setMaxIntersectionOrder
            CGaussianVolumeOverlapEvaluator.getGaussianCutoff
            CGaussianVolumeOverlapEvaluator.getMaxIntersectionOrder
          simp [hb, hc, ho]
        rw [h]
        refine ⟨⟨rfl, rfl, rfl, rfl, rfl⟩, Or.inr ⟨?_, rfl, by simpa using hb⟩⟩
        rintro (h | ⟨-, h⟩)
        · exact hb h
        · exact ho h
    · have h : ev.attemptInitialize = (ev, .error .invalidArgument) := by
        unfold CGaussianVolumeOverlapEvaluator.attemptInitialize
          CGaussianVolumeBuilder.setGaussianCutoff
          CGaussianVolumeOverlapEvaluator.getGaussianCutoff
        simp [hb, hc]
      rw [h]
      refine ⟨⟨rfl, rfl, rfl, rfl, rfl⟩, Or.inr ⟨?_, rfl, by simpa using hb⟩⟩
      rintro (h | ⟨h, -⟩)
      · exact hb h
      · exact hc h

/-- The state and the result of one `getFunctionValue` call. -/
theorem getFunctionValue_eq (m : CMath R) (d : R) (ev : CGaussianVolumeOverlapEvaluator R)
    (params : List R) :
    ev.getFunctionValue m d params
      = (ev.attemptInitialize.1,
          if initPossible ev then
            objectiveValue m ev.pFitMolecule ev.pRefMolecule ev.dGaussianCutoff
              ev.bNegativeOverlap params
          else .error .invalidArgument) := by
  obtain ⟨⟨hfit, href, hcut, -, hneg⟩, hcase⟩ := attemptInitialize_spec ev
  unfold CGaussianVolumeOverlapEvaluator.getFunctionValue
  rcases hinit : ev.attemptInitialize with ⟨ev', r⟩
  rw [hinit] at hfit href hcut hneg hcase
  simp only at hfit href hcut hneg hcase
  rcases hcase with ⟨hposs, hr, -⟩ | ⟨hposs, hr, -⟩
  · subst hr
    simp only []
    rw [if_pos hposs]
    unfold objectiveValue CGaussianVolumeOverlapEvaluator.getGaussianCutoff
    rw [hfit, href, hcut, hneg, new_setGaussianCutoff d, new_setGaussianCutoff ev.dGaussianCutoff]
  · subst hr
    simp only []
    rw [if_neg hposs]

/-- One call keeps the stored molecules, cutoff and flag, and keeps whether
initialisation is possible. -/
theorem getFunctionValue_frame (m : CMath R) (d : R) (ev : CGaussianVolumeOverlapEvaluator R)
    (params : List R) :
    (ev.getFunctionValue m d params).1.pFitMolecule = ev.pFitMolecule
      ∧ (ev.getFunctionValue m d params).1.pRefMolecule = ev.pRefMolecule
      ∧ (ev.getFunctionValue m d params).1.dGaussianCutoff = ev.dGaussianCutoff
      ∧ (ev.getFunctionValue m d params).1.bNegativeOverlap = ev.bNegativeOverlap
      ∧ (initPossible (ev.getFunctionValue m d params).1 ↔ initPossible ev) := by
  obtain ⟨⟨hfit, href, hcut, hord, hneg⟩, hcase⟩ := attemptInitialize_spec ev
  rw [getFunctionValue_eq]
  refine ⟨hfit, href, hcut, hneg, ?_⟩
  simp only []
  rcases hcase with ⟨hposs, -, hflag⟩ | ⟨hposs, -, hflag⟩
  · exact ⟨fun _ => hposs, fun _ => Or.inl hflag⟩
  · constructor
    · rintro (h | ⟨hc, ho⟩)
      · rw [hflag] at h; cases h
      · rw [hcut] at hc; rw [hord] at ho
        exact Or.inr ⟨hc, ho⟩
    · intro h
      exact absurd h hposs

/-- The same, after any sequence of calls. -/
theorem afterCalls_frame (m : CMath R) (calls : List (R × List R))
    (ev : CGaussianVolumeOverlapEvaluator R) :
    (ev.afterCalls m calls).pFitMolecule = ev.pFitMolecule
      ∧ (ev.afterCalls m calls).pRefMolecule = ev.pRefMolecule
      ∧ (ev.afterCalls m calls).dGaussianCutoff = ev.dGaussianCutoff
      ∧ (ev.afterCalls m calls).bNegativeOverlap = ev.bNegativeOverlap
      ∧ (initPossible (ev.afterCalls m calls) ↔ initPossible ev) := by
  induction calls generalizing ev with
  | nil => exact ⟨rfl, rfl, rfl, rfl, Iff.rfl⟩
  | cons c cs ih =>
    obtain ⟨h1, h2, h3, h4, h5⟩ := getFunctionValue_frame m c.1 ev c.2
    obtain ⟨i1, i2, i3, i4, i5⟩ := ih (ev.getFunctionValue m c.1 c.2).1
    unfold CGaussianVolumeOverlapEvaluator.afterCalls at i1 i2 i3 i4 i5 ⊢
    rw [List.foldl_cons]
    exact ⟨i1.trans h1, i2.trans h2, i3.trans h3, i4.trans h4, i5.trans h5⟩

/-- C8: `getFunctionValue` never changes the wrapped molecules: after any
sequence of calls the stored reference and fit molecules (atom positions and
radii included), the cutoff and the flag are those before the calls, and a
call with a parameter vector returns what the same call returned before. -/
theorem C8_getFunctionValue_keeps_molecules (m : CMath R)
    (ev : CGaussianVolumeOverlapEvaluator R) (calls : List (R × List R)) (d1 d2 : R)
    (params : List R) :
    (ev.afterCalls m calls).pRefMolecule = ev.pRefMolecule
      ∧ (ev.afterCalls m calls).pFitMolecule = ev.pFitMolecule
      ∧ (ev.afterCalls m calls).dGaussianCutoff = ev.dGaussianCutoff
      ∧ (ev.afterCalls m calls).bNegativeOverlap = ev.bNegativeOverlap
      ∧ ((ev.afterCalls m calls).getFunctionValue m d2 params).2
          = (ev.getFunctionValue m d1 params).2 := by
  obtain ⟨h1, h2, h3, h4, h5⟩ := afterCalls_frame m calls ev
  refine ⟨h2, h1, h3, h4, ?_⟩
  rw [getFunctionValue_eq, getFunctionValue_eq]
  simp only []
  rw [h1, h2, h3, h4]
  by_cases hp : initPossible ev
  · rw [if_pos hp, if_pos (h5.2 hp)]
  · rw [if_neg hp, if_neg (fun h => hp (h5.1 h))]

theorem clone_eq (mol : CMolecule R) : mol.clone = mol := by
  have h := clone_atomsList mol
  unfold CMolecule.clone CMolecule.assign at h ⊢
  obtain ⟨atoms, dirty, centroid⟩ := mol
  simp only at h ⊢
  rw [h]

/-- C7: for a 6-entry parameter vector `[tx, ty, tz, rx, ry, rz]`,
`getFunctionValue` returns `s * D(ref, T_p(fit))`: `T_p(fit)` is the fit molecule
after `rotateXYZ(rx, ry, rz)` and then `move(tx, ty, tz)` (each atom rotated first,
translated second); `D` is the direct-mode overlap of the engine that
`setGaussianCutoff` leaves, whose cutoff is the cutoff of the evaluator (not the
indeterminate cutoff `d` of the default-constructed engine), that is the sum of
the pair volumes over the pairs within the cutoff of the evaluator; and `s` is
`-1` when the negative-overlap flag is set and `+1` otherwise. -/
theorem C7_objective_is_signed_direct_overlap (m : CMath R) (d : R)
    (ev : CGaussianVolumeOverlapEvaluator R) (tx ty tz rx ry rz : R)
    (hcut : ev.dGaussianCutoff ≥ 0) (hord : ev.nMaxIntersectionOrder > 0)
    (href : ∀ a ∈ ev.pRefMolecule.atomsList, a.position.length = 3)
    (hfit : ∀ a ∈ ev.pFitMolecule.atomsList, a.position.length = 3) :
    ∃ rotated moved engine,
      ev.pFitMolecule.rotateXYZ m rx ry rz = .ok rotated
      ∧ rotated.move tx ty tz = .ok moved
      ∧ moved.atomsList = ev.pFitMolecule.atomsList.map (rigidTransform m tx ty tz rx ry rz)
      ∧ (CGaussianVolume.new d).setGaussianCutoff ev.dGaussianCutoff = .ok engine
      ∧ engine.dGaussianCutoff = ev.dGaussianCutoff
      ∧ engine.getOverlapVolumeDirect m ev.pRefMolecule moved
          = .ok (directSum m ev.dGaussianCutoff ev.pRefMolecule.atomsList moved.atomsList)
      ∧ (ev.getFunctionValue m d [tx, ty, tz, rx, ry, rz]).2
          = .ok ((if ev.bNegativeOverlap then -1 else 1)
              * directSum m ev.dGaussianCutoff ev.pRefMolecule.atomsList
                  (ev.pFitMolecule.atomsList.map (rigidTransform m tx ty tz rx ry rz))) := by
  have hrot := rotateXYZ_ok m ev.pFitMolecule rx ry rz hfit
  have hrot3 : ∀ a ∈ ({ ev.pFitMolecule with atomsList := ev.pFitMolecule.atomsList.map (fun a =>
      { a with position := rotatePoint m rx ry rz a.position }) } : CMolecule R).atomsList,
      a.position.length = 3 := by
    intro a ha
    obtain ⟨b, hb, rfl⟩ := List.mem_map.1 ha
    exact rotatePoint_length m rx ry rz b.position (hfit b hb)
  have hmove : ({ ev.pFitMolecule with atomsList := ev.pFitMolecule.atomsList.map (fun a =>
      { a with position := rotatePoint m rx ry rz a.position }) } : CMolecule R).move tx ty tz
      = .ok { ev.pFitMolecule with
          atomsList := ev.pFitMolecule.atomsList.map (rigidTransform m tx ty tz rx ry rz) } := by
    rw [move_ok _ tx ty tz hrot3]
    simp only [List.map_map]
    rfl
  have hmoved3 : ∀ a ∈ (ev.pFitMolecule.atomsList.map (rigidTransform m tx ty tz rx ry rz)),
      a.position.length = 3 := by
    intro a ha
    obtain ⟨b, hb, rfl⟩ := List.mem_map.1 ha
    exact translatePoint_length tx ty tz _ (rotatePoint_length m rx ry rz b.position (hfit b hb))
  have hset : ∀ d0 : R, (CGaussianVolume.new d0).setGaussianCutoff ev.dGaussianCutoff
      = .ok (CGaussianVolume.new ev.dGaussianCutoff) := by
    intro d0
    rw [new_setGaussianCutoff, if_pos hcut]
  have hdirect := getOverlapVolumeDirect_eq m (CGaussianVolume.new ev.dGaussianCutoff)
    ev.pRefMolecule { ev.pFitMolecule with
      atomsList := ev.pFitMolecule.atomsList.map (rigidTransform m tx ty tz rx ry rz) }
  rw [if_pos (fun a ha b hb => (href a ha).trans (hmoved3 b hb).symm),
    nested_sum_eq_directSum] at hdirect
  refine ⟨{ ev.pFitMolecule with atomsList := ev.pFitMolecule.atomsList.map (fun a =>
      { a with position := rotatePoint m rx ry rz a.position }) },
    { ev.pFitMolecule with
      atomsList := ev.pFitMolecule.atomsList.map (rigidTransform m tx ty tz rx ry rz) },
    CGaussianVolume.new ev.dGaussianCutoff, hrot, hmove, rfl, hset d, rfl, hdirect, ?_⟩
  rw [getFunctionValue_eq]
  simp only []
  rw [if_pos (show initPossible ev from Or.inr ⟨hcut, hord⟩)]
  unfold objectiveValue
  rw [clone_eq]
  have h0 : vecGet [tx, ty, tz, rx, ry, rz] 0 = .ok tx := rfl
  have h1 : vecGet [tx, ty, tz, rx, ry, rz] 1 = .ok ty := rfl
  have h2 : vecGet [tx, ty, tz, rx, ry, rz] 2 = .ok tz := rfl
  have h3 : vecGet [tx, ty, tz, rx, ry, rz] 3 = .ok rx := rfl
  have h4 : vecGet [tx, ty, tz, rx, ry, rz] 4 = .ok ry := rfl
  have h5 : vecGet [tx, ty, tz, rx, ry, rz] 5 = .ok rz := rfl
  rw [h3, ok_bind, h4, ok_bind, h5, ok_bind, hrot, ok_bind, h0, ok_bind, h1, ok_bind,
    h2, ok_bind, hmove, ok_bind, hset, ok_bind, hdirect, ok_bind]
  cases ev.bNegativeOverlap <;> simp [pure, Except.pure, CGaussianVolume.new]

/-- Witness of C7: the evaluator constructed for two one-atom molecules over
the reals, with its default cutoff 0 and order 1, and the value 7 in the
uninitialised cutoff of the engine of the call. -/
theorem C7_objective_is_signed_direct_overlap_witness :
    ∃ ev, CGaussianVolumeOverlapEvaluator.new (0 : ℝ)
        (CMolecule.new.addAtom ⟨1, 1.5, [0, 0, 0]⟩) (CMolecule.new.addAtom ⟨1, 1.2, [1, 0, 0]⟩)
        = .ok ev
      ∧ ∃ rotated moved engine,
        ev.pFitMolecule.rotateXYZ (⟨Real.exp, fun x y => x ^ y, Real.sin, Real.cos⟩ : CMath ℝ)
            0.1 0.2 0.3 = .ok rotated
        ∧ rotated.move 1 2 3 = .ok moved
        ∧ moved.atomsList
            = ev.pFitMolecule.atomsList.map (rigidTransform
                (⟨Real.exp, fun x y => x ^ y, Real.sin, Real.cos⟩ : CMath ℝ) 1 2 3 0.1 0.2 0.3)
        ∧ (CGaussianVolume.new 7).setGaussianCutoff ev.dGaussianCutoff = .ok engine
        ∧ engine.dGaussianCutoff = ev.dGaussianCutoff
        ∧ engine.getOverlapVolumeDirect
            (⟨Real.exp, fun x y => x ^ y, Real.sin, Real.cos⟩ : CMath ℝ) ev.pRefMolecule moved
            = .ok (directSum (⟨Real.exp, fun x y => x ^ y, Real.sin, Real.cos⟩ : CMath ℝ)
                ev.dGaussianCutoff ev.pRefMolecule.atomsList moved.atomsList)
        ∧ (ev.getFunctionValue (⟨Real.exp, fun x y => x ^ y, Real.sin, Real.cos⟩ : CMath ℝ) 7
            [1, 2, 3, 0.1, 0.2, 0.3]).2
            = .ok ((if ev.bNegativeOverlap then -1 else 1)
                * directSum (⟨Real.exp, fun x y => x ^ y, Real.sin, Real.cos⟩ : CMath ℝ)
                    ev.dGaussianCutoff ev.pRefMolecule.atomsList
                    (ev.pFitMolecule.atomsList.map (rigidTransform
                      (⟨Real.exp, fun x y => x ^ y, Real.sin, Real.cos⟩ : CMath ℝ)
                      1 2 3 0.1 0.2 0.3))) :=
  ⟨_, rfl, C7_objective_is_signed_direct_overlap
    (⟨Real.exp, fun x y => x ^ y, Real.sin, Real.cos⟩ : CMath ℝ) 7 _ 1 2 3 0.1 0.2 0.3
    (le_refl (0 : ℝ)) (by decide)
    (by simp [clone_atomsList, CMolecule.new, CMolecule.addAtom, CAtom.clone])
    (by simp [clone_atomsList, CMolecule.new, CMolecule.addAtom, CAtom.clone])⟩

end Objective

section Optimizer

variable {R : Type} [LinearOrderedField R]

/-- A fold over an enumerated list keeps an invariant indexed by the number of
elements consumed. -/
theorem foldl_enumFrom_invariant {σ α : Type} (step : σ → Nat × α → σ) (P : Nat → σ → Prop)
    (vs : List α) (n : Nat) (init : σ) (h0 : P n init)
    (hstep : ∀ k (hk : k < vs.length) s, P (n + k) s → P (n + k + 1) (step s (n + k, vs[k]))) :
    P (n + vs.length) ((vs.enumFrom n).foldl step init) := by
  induction vs generalizing n init with
  | nil => simpa using h0
  | cons v vs ih =>
    rw [List.enumFrom_cons, List.foldl_cons, List.length_cons]
    have h1 : P (n + 1) (step init (n, v)) := by
      have := hstep 0 (by simp) init (by simpa using h0)
      simpa using this
    have := ih (n + 1) (step init (n, v)) h1 (by
      intro k hk s hs
      have hk' : k + 1 < (v :: vs).length := by simp; omega
      have := hstep (k + 1) hk' s (by rw [← add_assoc, add_right_comm]; exact hs)
      rw [← add_assoc, add_right_comm n k 1] at this
      simpa using this)
    rw [add_assoc, add_comm 1 vs.length] at this
    exact this

/-- What one step of the scan of `updateSpecialVertices` does to the tracked
highest and lowest vertices; the rest of the optimizer is kept. -/
theorem updateSpecialVerticesStep_spec (t : CSimplexOptimizer R) (i : Int) (value : R) :
    (t.updateSpecialVerticesStep i value).config = t.config
      ∧ (t.updateSpecialVerticesStep i value).currentFeasibleSolutions
          = t.currentFeasibleSolutions
      ∧ (t.updateSpecialVerticesStep i value).currentFunctionValues = t.currentFunctionValues
      ∧ (value > t.dHighestSolutionValue →
          (t.updateSpecialVerticesStep i value).dHighestSolutionValue = value
            ∧ (t.updateSpecialVerticesStep i value).nHighestSolutionId = i)
      ∧ (¬ value > t.dHighestSolutionValue →
          (t.updateSpecialVerticesStep i value).dHighestSolutionValue = t.dHighestSolutionValue
            ∧ (t.updateSpecialVerticesStep i value).nHighestSolutionId = t.nHighestSolutionId)
      ∧ (value < t.dLowestSolutionValue →
          (t.updateSpecialVerticesStep i value).dLowestSolutionValue = value
            ∧ (t.updateSpecialVerticesStep i value).nLowestSolutionId = i)
      ∧ (¬ value < t.dLowestSolutionValue →
          (t.updateSpecialVerticesStep i value).dLowestSolutionValue = t.dLowestSolutionValue
            ∧ (t.updateSpecialVerticesStep i value).nLowestSolutionId = t.nLowestSolutionId) := by
  unfold CSimplexOptimizer.updateSpecialVerticesStep CSimplexOptimizer.config
  by_cases h1 : value > t.dHighestSolutionValue
  · by_cases h3 : value < t.dLowestSolutionValue
    · simp [h1, h3]
    · simp [h1, h3]
  · by_cases h2 : value > t.dSecondHighestSolutionValue
    · by_cases h3 : value < t.dLowestSolutionValue
      · simp [h1, h2, h3]
      · simp [h1, h2, h3]
    · by_cases h3 : value < t.dLowestSolutionValue
      · simp [h1, h2, h3]
      · simp [h1, h2, h3]

/-- Step 1 of an iteration, for cached values strictly between `-DBL_MAX` and
`DBL_MAX`: the highest index holds a maximal and the lowest index a minimal
cached value; the simplex, its cached values and the configuration are kept. -/
theorem updateSpecialVertices_spec (s : CSimplexOptimizer R)
    (hne : 0 < s.currentFunctionValues.length)
    (hrange : ∀ v ∈ s.currentFunctionValues, -DBL_MAX < v ∧ v < DBL_MAX) :
    s.updateSpecialVertices.config = s.config
      ∧ s.updateSpecialVertices.currentFeasibleSolutions = s.currentFeasibleSolutions
      ∧ s.updateSpecialVertices.currentFunctionValues = s.currentFunctionValues
      ∧ ∃ hi lo : Nat, hi < s.currentFunctionValues.length
          ∧ lo < s.currentFunctionValues.length
          ∧ s.updateSpecialVertices.nHighestSolutionId = hi
          ∧ s.updateSpecialVertices.nLowestSolutionId = lo
          ∧ s.currentFunctionValues.getD hi 0 = s.updateSpecialVertices.dHighestSolutionValue
          ∧ s.currentFunctionValues.getD lo 0 = s.updateSpecialVertices.dLowestSolutionValue
          ∧ (∀ j < s.currentFunctionValues.length,
              s.currentFunctionValues.getD j 0 ≤ s.updateSpecialVertices.dHighestSolutionValue)
          ∧ (∀ j < s.currentFunctionValues.length,
              s.updateSpecialVertices.dLowestSolutionValue ≤ s.currentFunctionValues.getD j 0) := by
  have key := foldl_enumFrom_invariant
    (fun (self : CSimplexOptimizer R) (iv : Nat × R) =>
      self.updateSpecialVerticesStep iv.1 iv.2)
    (fun k t => t.config = s.config
      ∧ t.currentFeasibleSolutions = s.currentFeasibleSolutions
      ∧ t.currentFunctionValues = s.currentFunctionValues
      ∧ (k = 0 → t.dHighestSolutionValue = -DBL_MAX ∧ t.dLowestSolutionValue = DBL_MAX)
      ∧ (0 < k → ∃ hi lo : Nat, hi < k ∧ lo < k
          ∧ t.nHighestSolutionId = hi ∧ t.nLowestSolutionId = lo
          ∧ s.currentFunctionValues.getD hi 0 = t.dHighestSolutionValue
          ∧ s.currentFunctionValues.getD lo 0 = t.dLowestSolutionValue
          ∧ (∀ j < k, s.currentFunctionValues.getD j 0 ≤ t.dHighestSolutionValue)
          ∧ (∀ j < k, t.dLowestSolutionValue ≤ s.currentFunctionValues.getD j 0)))
    s.currentFunctionValues 0
    { s with
      nHighestSolutionId := -1
      nLowestSolutionId := -1
      nSecondHighestSolutionId := -1
      dHighestSolutionValue := -DBL_MAX
      dLowestSolutionValue := DBL_MAX
      dSecondHighestSolutionValue := -DBL_MAX }
    ⟨rfl, rfl, rfl, fun _ => ⟨rfl, rfl⟩, fun h => absurd h (lt_irrefl 0)⟩
    (by
      intro k hk t ht
      rw [zero_add] at ht ⊢
      obtain ⟨hc, hsol, hval, h0, hpos⟩ := ht
      obtain ⟨sc, ssol, sval, sHi, sHi', sLo, sLo'⟩ :=
        updateSpecialVerticesStep_spec t (k : Int) s.currentFunctionValues[k]
      have hgetD : s.currentFunctionValues.getD k 0 = s.currentFunctionValues[k] :=
        List.getD_eq_getElem _ 0 hk
      have hr := hrange _ (List.getElem_mem hk)
      refine ⟨sc.trans hc, ssol.trans hsol, sval.trans hval,
        fun h => absurd h (Nat.succ_ne_zero k), fun _ => ?_⟩
      rcases Nat.eq_zero_or_pos k with hk0 | hkpos
      · -- first element
        obtain ⟨hH, hL⟩ := h0 hk0
        have h1 : s.currentFunctionValues[k] > t.dHighestSolutionValue := by rw [hH]; exact hr.1
        have h2 : s.currentFunctionValues[k] < t.dLowestSolutionValue := by rw [hL]; exact hr.2
        obtain ⟨e1, e2⟩ := sHi h1
        obtain ⟨e3, e4⟩ := sLo h2
        refine ⟨k, k, Nat.lt_succ_self k, Nat.lt_succ_self k, e2, e4, ?_, ?_, ?_, ?_⟩
        · rw [hgetD, e1]
        · rw [hgetD, e3]
        · intro j hj
          have : j = k := by omega
          rw [this, hgetD, e1]
        · intro j hj
          have : j = k := by omega
          rw [this, hgetD, e3]
      · obtain ⟨hi, lo, hhi, hlo, ehi, elo, vhi, vlo, hmax, hmin⟩ := hpos hkpos
        have hHigh : ∃ hi' : Nat, hi' < k + 1
            ∧ (t.updateSpecialVerticesStep (k : Int) s.currentFunctionValues[k]).nHighestSolutionId
                = hi'
            ∧ s.currentFunctionValues.getD hi' 0
                = (t.updateSpecialVerticesStep (k : Int)
                    s.currentFunctionValues[k]).dHighestSolutionValue
            ∧ ∀ j < k + 1, s.currentFunctionValues.getD j 0
                ≤ (t.updateSpecialVerticesStep (k : Int)
                    s.currentFunctionValues[k]).dHighestSolutionValue := by
          by_cases h1 : s.currentFunctionValues[k] > t.dHighestSolutionValue
          · obtain ⟨e1, e2⟩ := sHi h1
            refine ⟨k, Nat.lt_succ_self k, e2, by rw [hgetD, e1], ?_⟩
            intro j hj
            rw [e1]
            rcases Nat.lt_succ_iff_lt_or_eq.1 hj with hj | hj
            · exact le_trans (hmax j hj) (le_of_lt h1)
            · rw [hj, hgetD]
          · obtain ⟨e1, e2⟩ := sHi' h1
            refine ⟨hi, by omega, e2.trans ehi, by rw [e1]; exact vhi, ?_⟩
            intro j hj
            rw [e1]
            rcases Nat.lt_succ_iff_lt_or_eq.1 hj with hj | hj
            · exact hmax j hj
            · rw [hj, hgetD]; exact not_lt.1 h1
        have hLow : ∃ lo' : Nat, lo' < k + 1
            ∧ (t.updateSpecialVerticesStep (k : Int) s.currentFunctionValues[k]).nLowestSolutionId
                = lo'
            ∧ s.currentFunctionValues.getD lo' 0
                = (t.updateSpecialVerticesStep (k : Int)
                    s.currentFunctionValues[k]).dLowestSolutionValue
            ∧ ∀ j < k + 1, (t.updateSpecialVerticesStep (k : Int)
                    s.currentFunctionValues[k]).dLowestSolutionValue
                ≤ s.currentFunctionValues.getD j 0 := by
          by_cases h1 : s.currentFunctionValues[k] < t.dLowestSolutionValue
          · obtain ⟨e1, e2⟩ := sLo h1
            refine ⟨k, Nat.lt_succ_self k, e2, by rw [hgetD, e1], ?_⟩
            intro j hj
            rw [e1]
            rcases Nat.lt_succ_iff_lt_or_eq.1 hj with hj | hj
            · exact le_trans (le_of_lt h1) (hmin j hj)
            · rw [hj, hgetD]
          · obtain ⟨e1, e2⟩ := sLo' h1
            refine ⟨lo, by omega, e2.trans elo, by rw [e1]; exact vlo, ?_⟩
            intro j hj
            rw [e1]
            rcases Nat.lt_succ_iff_lt_or_eq.1 hj with hj | hj
            · exact hmin j hj
            · rw [hj, hgetD]; exact not_lt.1 h1
        obtain ⟨hi', a1, a2, a3, a4⟩ := hHigh
        obtain ⟨lo', b1, b2, b3, b4⟩ := hLow
        exact ⟨hi', lo', a1, b1, a2, b2, a3, b3, a4, b4⟩)
  rw [zero_add] at key
  obtain ⟨hc, hsol, hval, -, hpos⟩ := key
  exact ⟨hc, hsol, hval, hpos hne⟩

theorem vecSet_natCast {α : Type} (v : List α) (i : Nat) (x : α) (h : i < v.length) :
    vecSet v (i : Int) x = .ok (v.set i x) := by
  unfold vecSet
  have hneg : ¬ ((i : Int) < 0) := by omega
  rw [if_neg hneg, Int.toNat_natCast, if_pos h]

theorem add_ok (a b : List R) (h : a.length = b.length) :
    CMathematics.add a b = .ok (List.zipWith (fun d s => d + s) a b) := by
  unfold CMathematics.add
  rw [if_pos h]

theorem substract_ok (a b : List R) (h : a.length = b.length) :
    CMathematics.substract a b = .ok (List.zipWith (fun d s => d - s) a b) := by
  unfold CMathematics.substract
  rw [if_pos h]

theorem multiply_length (a : List R) (c : R) : (CMathematics.multiply a c).length = a.length := by
  unfold CMathematics.multiply
  rw [List.length_map]

/-- The point `(a - b) * c + b'` computed by `substract`, `multiply`, `add`. -/
theorem affine_ok (a b b' : List R) (c : R) (d : Nat) (ha : a.length = d) (hb : b.length = d)
    (hb' : b'.length = d) :
    ∃ x : List R, x.length = d
      ∧ (do
          let p ← CMathematics.substract a b
          CMathematics.add (CMathematics.multiply p c) b' : Except Failure (List R)) = .ok x := by
  rw [substract_ok a b (ha.trans hb.symm), ok_bind]
  have hlen : (CMathematics.multiply (List.zipWith (fun d s => d - s) a b) c).length = d := by
    rw [multiply_length, List.length_zipWith, ha, hb, min_self]
  rw [add_ok _ _ (hlen.trans hb'.symm)]
  exact ⟨_, by rw [List.length_zipWith, hlen, hb', min_self], rfl⟩

theorem foldlM_add_length (sols : List (List R)) (d : Nat) (h : ∀ v ∈ sols, v.length = d)
    (c : List R) (hc : c.length = d) :
    ∃ c' : List R, c'.length = d
      ∧ sols.foldlM (fun (reflectionCentroid : List R) (solution : List R) =>
          CMathematics.add reflectionCentroid solution) c = .ok c' := by
  induction sols generalizing c with
  | nil => exact ⟨c, hc, rfl⟩
  | cons v vs ih =>
    have hv : v.length = d := h v (List.mem_cons_self v vs)
    rw [List.foldlM_cons, add_ok c v (hc.trans hv.symm), ok_bind]
    exact ih (fun w hw => h w (List.mem_cons_of_mem v hw)) _
      (by rw [List.length_zipWith, hc, hv, min_self])

/-- The reflection centroid is computed and has `d` coordinates. -/
theorem updateReflectionCentroid_ok (s : CSimplexOptimizer R) (d hi : Nat)
    (hdim : s.nPROBLEM_DIMENSION = d)
    (hsize : ∀ v ∈ s.currentFeasibleSolutions, v.length = d)
    (hhi : hi < s.currentFeasibleSolutions.length) (hid : s.nHighestSolutionId = hi) :
    ∃ c : List R, c.length = d
      ∧ s.updateReflectionCentroid = .ok { s with reflectionCentroid := c } := by
  unfold CSimplexOptimizer.updateReflectionCentroid
  have hzero : (vecAssignZero (s.nPROBLEM_DIMENSION) : Except Failure (List R))
      = .ok (List.replicate d 0) := by
    unfold vecAssignZero
    rw [hdim, if_neg (by omega), Int.toNat_natCast]
  obtain ⟨c1, hc1, hfold⟩ := foldlM_add_length s.currentFeasibleSolutions d hsize
    (List.replicate d 0) (List.length_replicate d 0)
  have hget : vecGet s.currentFeasibleSolutions s.nHighestSolutionId
      = .ok (s.currentFeasibleSolutions.getD hi []) := by
    rw [hid]; exact vecGet_natCast _ hi [] hhi
  have hvert : (s.currentFeasibleSolutions.getD hi []).length = d := by
    apply hsize
    rw [List.getD_eq_getElem _ [] hhi]
    exact List.getElem_mem _
  rw [hzero, ok_bind, hfold, ok_bind, hget, ok_bind,
    substract_ok c1 _ (hc1.trans hvert.symm), ok_bind]
  refine ⟨_, ?_, rfl⟩
  rw [multiply_length, List.length_zipWith, hc1, hvert, min_self]

/-- The reflected point is computed, has `d` coordinates, and its value is
cached. -/
theorem doReflection_ok (f : List R → R) (s : CSimplexOptimizer R) (d hi : Nat)
    (hsize : ∀ v ∈ s.currentFeasibleSolutions, v.length = d)
    (hc : s.reflectionCentroid.length = d)
    (hhi : hi < s.currentFeasibleSolutions.length) (hid : s.nHighestSolutionId = hi) :
    ∃ p : List R, p.length = d
      ∧ s.doReflection f = .ok { s with reflectedPoint := p, dReflectedPointValue := f p } := by
  unfold CSimplexOptimizer.doReflection
  have hget : vecGet s.currentFeasibleSolutions s.nHighestSolutionId
      = .ok (s.currentFeasibleSolutions.getD hi []) := by
    rw [hid]; exact vecGet_natCast _ hi [] hhi
  have hvert : (s.currentFeasibleSolutions.getD hi []).length = d := by
    apply hsize
    rw [List.getD_eq_getElem _ [] hhi]
    exact List.getElem_mem _
  obtain ⟨x, hx, hcomp⟩ := affine_ok s.reflectionCentroid
    (s.currentFeasibleSolutions.getD hi []) s.reflectionCentroid s.dReductionFactor d hc hvert hc
  rw [hget, ok_bind]
  refine ⟨x, hx, ?_⟩
  simp only [] at hcomp ⊢
  cases hsub : CMathematics.substract s.reflectionCentroid
      (s.currentFeasibleSolutions.getD hi []) with
  | error e => rw [hsub] at hcomp; cases hcomp
  | ok q =>
    rw [hsub, ok_bind] at hcomp
    rw [ok_bind, hcomp, ok_bind]
    rfl

theorem evaluateAll_prefix (f : List R → R) (sols : List (List R)) (vals : List R)
    (h : vals.length = sols.length) (k : Nat) (hk : k ≤ sols.length) :
    ∃ vk : List R, (List.range k).foldlM
        (fun (currentFunctionValues : List R) (i : Nat) => do
          vecSet currentFunctionValues i (f (← vecGet sols i))) vals = .ok vk
      ∧ vk.length = sols.length
      ∧ ∀ j, j < sols.length →
          vk.getD j 0 = if j < k then f (sols.getD j []) else vals.getD j 0 := by
  induction k with
  | zero => exact ⟨vals, rfl, h, fun j _ => by simp⟩
  | succ k ih =>
    obtain ⟨vk, hfold, hlen, hval⟩ := ih (by omega)
    rw [List.range_succ, List.foldlM_append, hfold, ok_bind, List.foldlM_cons,
      vecGet_natCast sols k [] (by omega), ok_bind, vecSet_natCast vk k _ (by omega), ok_bind]
    refine ⟨_, rfl, by rw [List.length_set, hlen], ?_⟩
    intro j hj
    rw [List.getD_eq_getElem _ 0 (by rw [List.length_set, hlen]; exact hj), List.getElem_set]
    by_cases hjk : k = j
    · subst hjk
      simp
    · rw [if_neg hjk]
      have := hval j hj
      rw [List.getD_eq_getElem _ 0 (by omega)] at this
      rw [this]
      by_cases hlt : j < k
      · rw [if_pos hlt, if_pos (by omega)]
      · rw [if_neg hlt, if_neg (by omega)]

/-- With one cached value per vertex, `evaluateAllCurrentSolutions` caches the
objective at every vertex. -/
theorem evaluateAllCurrentSolutions_ok (f : List R → R) (s : CSimplexOptimizer R)
    (h : s.currentFunctionValues.length = s.currentFeasibleSolutions.length) :
    s.evaluateAllCurrentSolutions f
      = .ok { s with currentFunctionValues := s.currentFeasibleSolutions.map f } := by
  unfold CSimplexOptimizer.evaluateAllCurrentSolutions
  obtain ⟨vk, hfold, hlen, hval⟩ := evaluateAll_prefix f s.currentFeasibleSolutions
    s.currentFunctionValues h s.currentFeasibleSolutions.length (le_refl _)
  rw [hfold, ok_bind]
  have : vk = s.currentFeasibleSolutions.map f := by
    apply List.ext_getElem
    · rw [hlen, List.length_map]
    · intro j h1 h2
      have := hval j (by omega)
      rw [if_pos (by omega), List.getD_eq_getElem _ 0 h1,
        List.getD_eq_getElem _ [] (by omega)] at this
      rw [this, List.getElem_map]
  rw [this]
  rfl

theorem reduce_fixed_point (l : List R) (r : R) :
    List.zipWith (fun d s => d + s)
      (CMathematics.multiply (List.zipWith (fun d s => d - s) l l) r) l = l := by
  unfold CMathematics.multiply
  induction l with
  | nil => rfl
  | cons x xs ih =>
    simp only [List.zipWith_cons_cons, List.map_cons, ih]
    simp

/-- The reduction is computed, keeps the shape of the simplex and leaves the
lowest vertex where it is. -/
theorem doReduction_ok (s : CSimplexOptimizer R) (d lo : Nat)
    (hsize : ∀ v ∈ s.currentFeasibleSolutions, v.length = d)
    (hlo : lo < s.currentFeasibleSolutions.length) (hid : s.nLowestSolutionId = lo) :
    ∃ sols : List (List R), sols.length = s.currentFeasibleSolutions.length
      ∧ (∀ v ∈ sols, v.length = d)
      ∧ sols.getD lo [] = s.currentFeasibleSolutions.getD lo []
      ∧ s.doReduction = .ok { s with currentFeasibleSolutions := sols } := by
  unfold CSimplexOptimizer.doReduction
  have hget : vecGet s.currentFeasibleSolutions s.nLowestSolutionId
      = .ok (s.currentFeasibleSolutions.getD lo []) := by
    rw [hid]; exact vecGet_natCast _ lo [] hlo
  have hvert : (s.currentFeasibleSolutions.getD lo []).length = d := by
    apply hsize
    rw [List.getD_eq_getElem _ [] hlo]
    exact List.getElem_mem _
  rw [hget, ok_bind]
  rw [mapM_eq_ok_map s.currentFeasibleSolutions _ (fun oldPoint =>
    List.zipWith (fun d s => d + s) (CMathematics.multiply
      (List.zipWith (fun d s => d - s) (s.currentFeasibleSolutions.getD lo []) oldPoint)
      s.dReductionFactor) oldPoint)]
  · rw [ok_bind]
    refine ⟨_, by rw [List.length_map], ?_, ?_, rfl⟩
    · intro v hv
      obtain ⟨w, hw, rfl⟩ := List.mem_map.1 hv
      have := hsize w hw
      rw [List.length_zipWith, multiply_length, List.length_zipWith, hvert, this, min_self,
        min_self]
    · rw [List.getD_eq_getElem _ [] (by rw [List.length_map]; exact hlo), List.getElem_map,
        List.getD_eq_getElem _ [] hlo]
      exact reduce_fixed_point _ _
  · intro oldPoint hold
    have hlen := hsize oldPoint hold
    simp only []
    rw [substract_ok _ _ (hvert.trans hlen.symm), ok_bind]
    rw [add_ok _ _ (by
      rw [multiply_length, List.length_zipWith, hvert, hlen, min_self])]

/-- The extension step replaces the highest vertex, and its cached value, by a
point of `d` coordinates and the objective at that point. -/
theorem doExtention_ok (f : List R → R) (t : CSimplexOptimizer R) (d hi : Nat)
    (hc : t.reflectionCentroid.length = d) (hp : t.reflectedPoint.length = d)
    (hrv : t.dReflectedPointValue = f t.reflectedPoint)
    (hhi : hi < t.currentFeasibleSolutions.length) (hhi' : hi < t.currentFunctionValues.length)
    (hid : t.nHighestSolutionId = hi) :
    ∃ x : List R, x.length = d
      ∧ t.doExtention f = .ok { t with
          currentFeasibleSolutions := t.currentFeasibleSolutions.set hi x
          currentFunctionValues := t.currentFunctionValues.set hi (f x) } := by
  unfold CSimplexOptimizer.doExtention
  obtain ⟨x, hx, hcomp⟩ := affine_ok t.reflectedPoint t.reflectionCentroid t.reflectionCentroid
    t.dExtensionFactor d hp hc hc
  cases hsub : CMathematics.substract t.reflectedPoint t.reflectionCentroid with
  | error e => rw [hsub] at hcomp; cases hcomp
  | ok q =>
    rw [hsub, ok_bind] at hcomp
    simp only [hsub, ok_bind, hcomp, hid]
    by_cases hlt : f x < t.dReflectedPointValue
    · refine ⟨x, hx, ?_⟩
      simp only [hlt, if_true]
      rw [vecSet_natCast _ hi _ hhi, ok_bind, vecSet_natCast _ hi _ hhi', ok_bind]
      rfl
    · refine ⟨t.reflectedPoint, hp, ?_⟩
      simp only [hlt, if_false]
      rw [vecSet_natCast _ hi _ hhi, ok_bind, vecSet_natCast _ hi _ hhi', ok_bind, hrv]
      rfl

/-- The contraction step either replaces the highest vertex and its cached
value, or reduces the simplex around the lowest vertex and re-evaluates it. -/
theorem doContraction_ok (f : List R → R) (t : CSimplexOptimizer R) (d hi lo : Nat)
    (hsize : ∀ v ∈ t.currentFeasibleSolutions, v.length = d)
    (hc : t.reflectionCentroid.length = d) (hp : t.reflectedPoint.length = d)
    (hlen : t.currentFunctionValues.length = t.currentFeasibleSolutions.length)
    (hhi : hi < t.currentFeasibleSolutions.length) (hid : t.nHighestSolutionId = hi)
    (hlo : lo < t.currentFeasibleSolutions.length) (hlid : t.nLowestSolutionId = lo) :
    (∃ x : List R, x.length = d
        ∧ t.doContraction f = .ok { t with
            currentFeasibleSolutions := t.currentFeasibleSolutions.set hi x
            currentFunctionValues := t.currentFunctionValues.set hi (f x) })
      ∨ (∃ sols : List (List R), sols.length = t.currentFeasibleSolutions.length
        ∧ (∀ v ∈ sols, v.length = d)
        ∧ sols.getD lo [] = t.currentFeasibleSolutions.getD lo []
        ∧ t.doContraction f = .ok { t with
            currentFeasibleSolutions := sols
            currentFunctionValues := sols.map f }) := by
  have hvert : (t.currentFeasibleSolutions.getD hi []).length = d := by
    apply hsize
    rw [List.getD_eq_getElem _ [] hhi]
    exact List.getElem_mem _
  have hgetv : vecGet t.currentFunctionValues t.nHighestSolutionId
      = .ok (t.currentFunctionValues.getD hi 0) := by
    rw [hid]; exact vecGet_natCast _ hi 0 (by omega)
  have hgets : vecGet t.currentFeasibleSolutions t.nHighestSolutionId
      = .ok (t.currentFeasibleSolutions.getD hi []) := by
    rw [hid]; exact vecGet_natCast _ hi [] hhi
  -- the rest of the step, for any baseline of `d` coordinates
  have hrest : ∀ (lowerPoint : List R) (dLowerPointValue : R), lowerPoint.length = d →
      (∃ x : List R, x.length = d
        ∧ (do
            let contractedPoint ← CMathematics.substract lowerPoint t.reflectionCentroid
            let contractedPoint := CMathematics.multiply contractedPoint t.dContractionFactor
            let contractedPoint ← CMathematics.add contractedPoint t.reflectionCentroid
            let dContractedPointValue := f contractedPoint
            if dContractedPointValue ≤ dLowerPointValue then
              pure { t with
                currentFeasibleSolutions :=
                  (← vecSet t.currentFeasibleSolutions t.nHighestSolutionId contractedPoint)
                currentFunctionValues :=
                  (← vecSet t.currentFunctionValues t.nHighestSolutionId
                    dContractedPointValue) }
            else
              let self ← t.doReduction
              self.evaluateAllCurrentSolutions f : Except Failure (CSimplexOptimizer R))
          = .ok { t with
            currentFeasibleSolutions := t.currentFeasibleSolutions.set hi x
            currentFunctionValues := t.currentFunctionValues.set hi (f x) })
      ∨ (∃ sols : List (List R), sols.length = t.currentFeasibleSolutions.length
        ∧ (∀ v ∈ sols, v.length = d)
        ∧ sols.getD lo [] = t.currentFeasibleSolutions.getD lo []
        ∧ (do
            let contractedPoint ← CMathematics.substract lowerPoint t.reflectionCentroid
            let contractedPoint := CMathematics.multiply contractedPoint t.dContractionFactor
            let contractedPoint ← CMathematics.add contractedPoint t.reflectionCentroid
            let dContractedPointValue := f contractedPoint
            if dContractedPointValue ≤ dLowerPointValue then
              pure { t with
                currentFeasibleSolutions :=
                  (← vecSet t.currentFeasibleSolutions t.nHighestSolutionId contractedPoint)
                currentFunctionValues :=
                  (← vecSet t.currentFunctionValues t.nHighestSolutionId
                    dContractedPointValue) }
            else
              let self ← t.doReduction
              self.evaluateAllCurrentSolutions f : Except Failure (CSimplexOptimizer R))
          = .ok { t with
            currentFeasibleSolutions := sols
            currentFunctionValues := sols.map f }) := by
    intro lowerPoint dLowerPointValue hlower
    obtain ⟨x, hx, hcomp⟩ := affine_ok lowerPoint t.reflectionCentroid t.reflectionCentroid
      t.dContractionFactor d hlower hc hc
    cases hsub : CMathematics.substract lowerPoint t.reflectionCentroid with
    | error e => rw [hsub] at hcomp; cases hcomp
    | ok q =>
      rw [hsub, ok_bind] at hcomp
      simp only [ok_bind, hcomp, hid]
      by_cases hle : f x ≤ dLowerPointValue
      · left
        refine ⟨x, hx, ?_⟩
        simp only [hle, if_true]
        rw [vecSet_natCast _ hi _ hhi, ok_bind, vecSet_natCast _ hi _ (by omega), ok_bind]
        rfl
      · right
        obtain ⟨sols, hsl, hsv, hslo, hred⟩ := doReduction_ok t d lo hsize hlo hlid
        refine ⟨sols, hsl, hsv, hslo, ?_⟩
        simp only [hle, if_false]
        rw [hred, ok_bind, evaluateAllCurrentSolutions_ok f _ (by
          show t.currentFunctionValues.length = sols.length
          rw [hlen, hsl])]
        simp only [hid]
  unfold CSimplexOptimizer.doContraction
  rw [hgetv, ok_bind]
  by_cases hlt : t.currentFunctionValues.getD hi 0 < t.dReflectedPointValue
  · simp only [hlt, if_true]
    rw [hgets]
    exact hrest _ _ hvert
  · simp only [hlt, if_false]
    exact hrest _ _ hp

/-- One iteration, whatever branch it takes: it returns; it either replaces
the vertex of a maximal cached value (and its cached value) by a point of `d`
coordinates and the objective there, or (Reduce) re-evaluates a simplex of the
same shape in which the lowest vertex has not moved. -/
theorem iteration_spec (f : List R → R) (d : Nat) (s : CSimplexOptimizer R)
    (hinv : s.SimplexInvariant f d) (hrange : ∀ x, -DBL_MAX < f x ∧ f x < DBL_MAX) :
    ∃ (s' : CSimplexOptimizer R) (hi lo : Nat), s.iteration f = .ok s'
      ∧ s'.config = s.config ∧ hi < d + 1 ∧ lo < d + 1
      ∧ (∀ j < d + 1, s.currentFunctionValues.getD j 0 ≤ s.currentFunctionValues.getD hi 0)
      ∧ (∀ j < d + 1, s.currentFunctionValues.getD lo 0 ≤ s.currentFunctionValues.getD j 0)
      ∧ ((∃ x : List R, x.length = d
            ∧ s'.currentFeasibleSolutions = s.currentFeasibleSolutions.set hi x
            ∧ s'.currentFunctionValues = s.currentFunctionValues.set hi (f x))
          ∨ (s'.currentFeasibleSolutions.length = d + 1
            ∧ (∀ v ∈ s'.currentFeasibleSolutions, v.length = d)
            ∧ s'.currentFunctionValues = s'.currentFeasibleSolutions.map f
            ∧ s'.currentFeasibleSolutions.getD lo [] = s.currentFeasibleSolutions.getD lo [])) := by
  obtain ⟨hdim, hcount, hsize, hcached⟩ := hinv
  have hvlen : s.currentFunctionValues.length = d + 1 := by
    rw [hcached, List.length_map, hcount]
  have hvrange : ∀ v ∈ s.currentFunctionValues, -DBL_MAX < v ∧ v < DBL_MAX := by
    intro v hv
    rw [hcached] at hv
    obtain ⟨x, -, rfl⟩ := List.mem_map.1 hv
    exact hrange x
  obtain ⟨hc1, hsol1, hval1, hi, lo, hhi, hlo, hid, hlid, vhi, vlo, hmax, hmin⟩ :=
    updateSpecialVertices_spec s (by omega) hvrange
  rw [hvlen] at hhi hlo hmax hmin
  have hdim1 : s.updateSpecialVertices.nPROBLEM_DIMENSION = d := by
    have := congrArg (fun c => c.2.1) hc1
    exact this.trans hdim
  obtain ⟨c, hclen, hcen⟩ := updateReflectionCentroid_ok s.updateSpecialVertices d hi hdim1
    (by rw [hsol1]; exact hsize) (by rw [hsol1, hcount]; exact hhi) hid
  obtain ⟨p, hplen, hrefl⟩ := doReflection_ok f
    { s.updateSpecialVertices with reflectionCentroid := c } d hi
    (by show ∀ v ∈ s.updateSpecialVertices.currentFeasibleSolutions, v.length = d
        rw [hsol1]; exact hsize)
    hclen
    (by show hi < s.updateSpecialVertices.currentFeasibleSolutions.length
        rw [hsol1, hcount]; exact hhi)
    hid
  have hmax' : ∀ j < d + 1,
      s.currentFunctionValues.getD j 0 ≤ s.currentFunctionValues.getD hi 0 := by
    intro j hj
    rw [vhi]; exact hmax j hj
  have hmin' : ∀ j < d + 1,
      s.currentFunctionValues.getD lo 0 ≤ s.currentFunctionValues.getD j 0 := by
    intro j hj
    rw [vlo]; exact hmin j hj
  have hsols3 : ({ s.updateSpecialVertices with
      reflectionCentroid := c, reflectedPoint := p, dReflectedPointValue := f p } :
      CSimplexOptimizer R).currentFeasibleSolutions = s.currentFeasibleSolutions := hsol1
  have hvals3 : ({ s.updateSpecialVertices with
      reflectionCentroid := c, reflectedPoint := p, dReflectedPointValue := f p } :
      CSimplexOptimizer R).currentFunctionValues = s.currentFunctionValues := hval1
  have hiter : s.iteration f
      = (if f p < s.updateSpecialVertices.dLowestSolutionValue then
          CSimplexOptimizer.doExtention f { s.updateSpecialVertices with
            reflectionCentroid := c, reflectedPoint := p, dReflectedPointValue := f p }
        else if f p ≥ s.updateSpecialVertices.dLowestSolutionValue
            ∧ f p ≤ s.updateSpecialVertices.dSecondHighestSolutionValue then
          .ok { s.updateSpecialVertices with
            reflectionCentroid := c, reflectedPoint := p, dReflectedPointValue := f p
            currentFeasibleSolutions := s.currentFeasibleSolutions.set hi p
            currentFunctionValues := s.currentFunctionValues.set hi (f p) }
        else
          CSimplexOptimizer.doContraction f { s.updateSpecialVertices with
            reflectionCentroid := c, reflectedPoint := p, dReflectedPointValue := f p }) := by
    unfold CSimplexOptimizer.iteration
    simp only []
    rw [hcen, ok_bind, hrefl, ok_bind]
    simp only []
    split_ifs
    · rfl
    · rw [hid, hsol1, hval1, vecSet_natCast _ hi _ (by omega), ok_bind,
        vecSet_natCast _ hi _ (by omega), ok_bind]
      rfl
    · rfl
  rw [hiter]
  split_ifs
  · obtain ⟨x, hx, hext⟩ := doExtention_ok f { s.updateSpecialVertices with
      reflectionCentroid := c, reflectedPoint := p, dReflectedPointValue := f p } d hi
      hclen hplen rfl (by rw [hsols3]; omega) (by rw [hvals3]; omega) hid
    rw [hext]
    refine ⟨_, hi, lo, rfl, hc1, hhi, hlo, hmax', hmin', Or.inl ⟨x, hx, ?_, ?_⟩⟩
    · show List.set s.updateSpecialVertices.currentFeasibleSolutions hi x = _
      rw [hsol1]
    · show List.set s.updateSpecialVertices.currentFunctionValues hi (f x) = _
      rw [hval1]
  · exact ⟨_, hi, lo, rfl, hc1, hhi, hlo, hmax', hmin', Or.inl ⟨p, hplen, rfl, rfl⟩⟩
  · rcases doContraction_ok f { s.updateSpecialVertices with
      reflectionCentroid := c, reflectedPoint := p, dReflectedPointValue := f p } d hi lo
      (by rw [hsols3]; exact hsize) hclen hplen (by rw [hsols3, hvals3, hvlen, hcount])
      (by rw [hsols3]; omega) hid (by rw [hsols3]; omega) hlid with
      ⟨x, hx, hcon⟩ | ⟨sols, hsl, hsv, hslo, hcon⟩
    · rw [hcon]
      refine ⟨_, hi, lo, rfl, hc1, hhi, hlo, hmax', hmin', Or.inl ⟨x, hx, ?_, ?_⟩⟩
      · show List.set s.updateSpecialVertices.currentFeasibleSolutions hi x = _
        rw [hsol1]
      · show List.set s.updateSpecialVertices.currentFunctionValues hi (f x) = _
        rw [hval1]
    · rw [hcon]
      refine ⟨_, hi, lo, rfl, hc1, hhi, hlo, hmax', hmin', Or.inr ⟨?_, hsv, rfl, ?_⟩⟩
      · show sols.length = d + 1
        rw [hsl, hsols3, hcount]
      · show sols.getD lo [] = _
        rw [hslo, hsols3]

/-- Replacing an element of maximal value in a list of at least two values
leaves an element that is at most the old minimal value. -/
theorem exists_le_of_set_max (vals : List R) (hi lo : Nat) (x : R) (h2 : 2 ≤ vals.length)
    (hlo : lo < vals.length)
    (hmax : ∀ j < vals.length, vals.getD j 0 ≤ vals.getD hi 0) :
    ∃ w ∈ vals.set hi x, w ≤ vals.getD lo 0 := by
  have hpick : ∀ j, j < vals.length → j ≠ hi → vals.getD j 0 ≤ vals.getD lo 0 →
      ∃ w ∈ vals.set hi x, w ≤ vals.getD lo 0 := by
    intro j hj hne hle
    have hj2 : j < (vals.set hi x).length := by rw [List.length_set]; exact hj
    refine ⟨(vals.set hi x)[j], List.getElem_mem _, ?_⟩
    rw [List.getElem_set_ne (Ne.symm hne), ← List.getD_eq_getElem vals 0 hj]
    exact hle
  by_cases hne : lo = hi
  · -- the highest vertex is also the lowest one: all values are equal
    have hother : ∃ j, j < vals.length ∧ j ≠ hi := by
      by_cases h0 : hi = 0
      · exact ⟨1, by omega, by omega⟩
      · exact ⟨0, by omega, fun h => h0 h.symm⟩
    obtain ⟨j, hj, hjne⟩ := hother
    exact hpick j hj hjne (by rw [hne]; exact hmax j hj)
  · exact hpick lo hlo hne (le_refl _)

theorem DBL_MAX_gt_one : (1 : R) < DBL_MAX := by
  unfold DBL_MAX
  have h : (2 : R) ^ 1024 = 2 ^ 971 * 2 ^ 53 := by rw [← pow_add]
  have h1 : (1 : R) ≤ 2 ^ 971 := one_le_pow₀ (by norm_num)
  have h2 : (2 : R) ^ 53 - 1 > 1 := by norm_num
  nlinarith

theorem boundedWell_range (x : List ℚ) : -DBL_MAX < boundedWell x ∧ boundedWell x < DBL_MAX := by
  have hmax := DBL_MAX_gt_one (R := ℚ)
  unfold boundedWell
  have hpos : (0 : ℚ) < 1 + (x.getD 0 0) ^ 2 := by positivity
  have h1 : (-1 : ℚ) / (1 + (x.getD 0 0) ^ 2) < 0 := div_neg_of_neg_of_pos (by norm_num) hpos
  have h2 : (-1 : ℚ) ≤ -1 / (1 + (x.getD 0 0) ^ 2) := by
    rw [le_div_iff₀ hpos]
    nlinarith [sq_nonneg (x.getD 0 0)]
  constructor <;> linarith

/-- For the constant objective `-DBL_MAX` and the simplex `[0], [1]` of
dimension 1 with its cached values, no cached value is above the initial
`-DBL_MAX` of the scan of `updateSpecialVertices`, the highest index stays `-1`,
and the iteration reads `_currentFeasibleSolutions[-1]`: it does not return. -/
theorem iteration_fails_at_lowest_sentinel :
    CSimplexOptimizer.SimplexInvariant constantLowest 1
        { INITIAL_FEASIBLE_SOLUTIONS := [[[0], [1]]]
          currentFeasibleSolutions := [[0], [1]]
          currentFunctionValues := [constantLowest [0], constantLowest [1]]
          dContractionFactor := 0.5
          dExtensionFactor := 2
          dHighestSolutionValue := -DBL_MAX
          dLowestSolutionValue := DBL_MAX
          dReductionFactor := 0.5
          dReflectedPointValue := 0
          dReflectionFactor := 1
          dSecondHighestSolutionValue := -DBL_MAX
          nHighestSolutionId := -1
          nLowestSolutionId := -1
          nPROBLEM_DIMENSION := 1
          nSecondHighestSolutionId := -1
          reflectionCentroid := [0]
          reflectedPoint := [0] }
      ∧ CSimplexOptimizer.iteration constantLowest
          { INITIAL_FEASIBLE_SOLUTIONS := [[[0], [1]]]
            currentFeasibleSolutions := [[0], [1]]
            currentFunctionValues := [constantLowest [0], constantLowest [1]]
            dContractionFactor := 0.5
            dExtensionFactor := 2
            dHighestSolutionValue := -DBL_MAX
            dLowestSolutionValue := DBL_MAX
            dReductionFactor := 0.5
            dReflectedPointValue := 0
            dReflectionFactor := 1
            dSecondHighestSolutionValue := -DBL_MAX
            nHighestSolutionId := -1
            nLowestSolutionId := -1
            nPROBLEM_DIMENSION := 1
            nSecondHighestSolutionId := -1
            reflectionCentroid := [0]
            reflectedPoint := [0] } = .error .outOfRange := by
  refine ⟨⟨rfl, rfl, by simp, rfl⟩, ?_⟩
  norm_num [CSimplexOptimizer.iteration, CSimplexOptimizer.updateSpecialVertices,
    CSimplexOptimizer.updateSpecialVerticesStep, CSimplexOptimizer.updateReflectionCentroid,
    CMathematics.add, vecAssignZero, DBL_MAX, vecGet, constantLowest, pure, Except.pure,
    bind, Except.bind, List.enum, List.enumFrom, List.replicate]

/-- C9 (code evaluated at the failing input): one group `[0], [1]` in dimension
1, objective `(x0 - 10)^2`, one iteration. The iteration extends the simplex to
`[2], [1]` with cached values `64, 81`; `runOptimization` returns the vertex `[1]`
and the value `81` of the lowest index found before the extension, which is
above the lowest cached value `64` of the final simplex. -/
theorem C9_runOptimization_returns_stale_lowest :
    ∃ o r, CSimplexOptimizer.new (0 : ℚ) [[[0], [1]]] = .ok o
      ∧ o.runOptimization squareDistanceToTen 1 = .ok r
      ∧ r.1 = [1] ∧ r.2.1 = 81
      ∧ r.2.2.currentFeasibleSolutions = [[2], [1]]
      ∧ r.2.2.currentFunctionValues = [64, 81]
      ∧ r.2.2.currentFunctionValues.minimum < ((r.2.1 : ℚ) : WithTop ℚ) := by
  refine ⟨
    { INITIAL_FEASIBLE_SOLUTIONS := [[[0], [1]]]
      currentFeasibleSolutions := []
      currentFunctionValues := [0, 0]
      dContractionFactor := 0.5
      dExtensionFactor := 2
      dHighestSolutionValue := -DBL_MAX
      dLowestSolutionValue := DBL_MAX
      dReductionFactor := 0.5
      dReflectedPointValue := 0
      dReflectionFactor := 1
      dSecondHighestSolutionValue := -DBL_MAX
      nHighestSolutionId := -1
      nLowestSolutionId := -1
      nPROBLEM_DIMENSION := 1
      nSecondHighestSolutionId := -1
      reflectionCentroid := [0]
      reflectedPoint := [0] },
    ([1], 81,
      { INITIAL_FEASIBLE_SOLUTIONS := [[[0], [1]]]
        currentFeasibleSolutions := [[2], [1]]
        currentFunctionValues := [64, 81]
        dContractionFactor := 0.5
        dExtensionFactor := 2
        dHighestSolutionValue := 100
        dLowestSolutionValue := 81
        dReductionFactor := 0.5
        dReflectedPointValue := 289 / 4
        dReflectionFactor := 1
        dSecondHighestSolutionValue := 81
        nHighestSolutionId := 0
        nLowestSolutionId := 1
        nPROBLEM_DIMENSION := 1
        nSecondHighestSolutionId := 1
        reflectionCentroid := [1]
        reflectedPoint := [3 / 2] }), ?_, ?_, rfl, rfl, rfl, rfl, ?_⟩
  · norm_num [CSimplexOptimizer.new, vecGet, vecAssignZero,
      CSimplexOptimizer.setContractionFactor, CSimplexOptimizer.setExtensionFactor,
      CSimplexOptimizer.setReductionFactor, CSimplexOptimizer.setReflectionFactor,
      CSimplexOptimizer.dCONTRACTION_FACTOR, CSimplexOptimizer.dEXTENSION_FACTOR,
      CSimplexOptimizer.dREDUCTION_FACTOR, CSimplexOptimizer.dREFLECTION_FACTOR, pure,
      Except.pure, bind, Except.bind, throw, throwThe, MonadExceptOf.throw, List.replicate]
  · norm_num [CSimplexOptimizer.runOptimization, CSimplexOptimizer.evaluateAllCurrentSolutions,
      CSimplexOptimizer.iteration, CSimplexOptimizer.updateSpecialVertices,
      CSimplexOptimizer.updateSpecialVerticesStep, CSimplexOptimizer.updateReflectionCentroid,
      CSimplexOptimizer.doReflection, CSimplexOptimizer.doExtention,
      CSimplexOptimizer.doContraction, CMathematics.add, CMathematics.substract,
      CMathematics.multiply, vecAssignZero, DBL_MAX, vecGet, vecSet, squareDistanceToTen,
      List.range_succ, pure, Except.pure, bind, Except.bind, List.enum, List.enumFrom,
      List.replicate]
  · show List.minimum [(64 : ℚ), 81] < ((81 : ℚ) : WithTop ℚ)
    exact lt_of_le_of_lt (List.minimum_le_of_mem' (List.mem_cons_self 64 [81]))
      (WithTop.coe_lt_coe.2 (by norm_num))

end Optimizer

/-! ## Precalculation and construction of the engine -/

section Precalculation

variable {R : Type} [LinearOrderedField R]

/-- Inserting an element above all the elements of an ascending list appends it. -/
theorem setInsert_append (x : Nat) (s : List Nat) (h : ∀ y ∈ s, y < x) :
    setInsert x s = s ++ [x] := by
  induction s with
  | nil => rfl
  | cons y ys ih =>
    have hy : y < x := h y (List.mem_cons_self y ys)
    unfold setInsert
    rw [if_neg (by omega), if_neg (by omega), ih (fun z hz => h z (List.mem_cons_of_mem y hz))]
    rfl

/-- Membership in a set after an insertion. -/
theorem mem_setInsert (x y : Nat) (s : List Nat) : y ∈ setInsert x s ↔ y = x ∨ y ∈ s := by
  induction s with
  | nil => simp [setInsert]
  | cons z zs ih =>
    unfold setInsert
    by_cases h1 : x < z
    · rw [if_pos h1]; simp
    · rw [if_neg h1]
      by_cases h2 : x = z
      · rw [if_pos h2]; subst h2; simp
      · rw [if_neg h2, List.mem_cons, ih, List.mem_cons]
        tauto

/-- The inner loop of `precalculateMolecule` over the atoms `as` with indices from `k`. -/
theorem precalculateMolecule_inner (m : CMath R) (stale : Nat → Nat → R) (c : R)
    (atomOuter : CAtom R) (iOuterAtomId : Nat) (as : List (CAtom R)) (row : List R)
    (nb : List Nat) (k : Nat)
    (hlen : ∀ a ∈ as, atomOuter.position.length = a.position.length)
    (hnb : ∀ x ∈ nb, x < k) :
    as.foldlM
        (fun (row : List R × List Nat × Nat) (atomInner : CAtom R) => do
          let iInnerAtomId := row.2.2
          let innerAtomPosition := atomInner.getPosition
          let dSquareDistance ←
            if iInnerAtomId ≥ iOuterAtomId then
              CMathematics.pointToPointSquareDistance atomOuter.getPosition innerAtomPosition
            else
              pure (stale iOuterAtomId iInnerAtomId)
          let currentNeighborIdsSet :=
            if iInnerAtomId > iOuterAtomId ∧ dSquareDistance
                < m.pow (atomOuter.getAtomRadius + atomInner.getAtomRadius + c) 2
            then setInsert iInnerAtomId row.2.1
            else row.2.1
          pure (row.1 ++ [dSquareDistance], currentNeighborIdsSet, iInnerAtomId + 1))
        (row, nb, k)
      = .ok (row ++ (as.enumFrom k).map (fun (ja : Nat × CAtom R) =>
              if ja.1 ≥ iOuterAtomId then sqDist atomOuter.position ja.2.position
              else stale iOuterAtomId ja.1),
            nb ++ ((as.enumFrom k).filter (fun (ja : Nat × CAtom R) =>
              decide (ja.1 > iOuterAtomId ∧ sqDist atomOuter.position ja.2.position
                < m.pow (atomOuter.dAtomRadius + ja.2.dAtomRadius + c) 2))).map Prod.fst,
            k + as.length) := by
  induction as generalizing row nb k with
  | nil => simp [pure, Except.pure]
  | cons a as ih =>
    have ha := hlen a (List.mem_cons_self a as)
    rw [List.foldlM_cons]
    simp only [CAtom.getPosition, CAtom.getAtomRadius]
    by_cases hge : k ≥ iOuterAtomId
    · rw [if_pos hge, pointToPointSquareDistance_ok _ _ ha, ok_bind]
      by_cases hnbr : k > iOuterAtomId ∧ sqDist atomOuter.position a.position
          < m.pow (atomOuter.dAtomRadius + a.dAtomRadius + c) 2
      · rw [if_pos hnbr, setInsert_append k nb hnb]
        show (Except.ok _ >>= _) = _
        rw [ok_bind]
        have := ih (row ++ [sqDist atomOuter.position a.position]) (nb ++ [k]) (k + 1)
          (fun b hb => hlen b (List.mem_cons_of_mem a hb))
          (by
            intro x hx
            rcases List.mem_append.1 hx with hx | hx
            · exact Nat.lt_succ_of_lt (hnb x hx)
            · rw [List.mem_singleton.1 hx]; exact Nat.lt_succ_self k)
        simp only [CAtom.getPosition, CAtom.getAtomRadius] at this
        rw [this]
        simp [List.enumFrom_cons, hge, hnbr, List.filter_cons, Nat.add_assoc, Nat.add_comm 1]
      · rw [if_neg hnbr]
        show (Except.ok _ >>= _) = _
        rw [ok_bind]
        have := ih (row ++ [sqDist atomOuter.position a.position]) nb (k + 1)
          (fun b hb => hlen b (List.mem_cons_of_mem a hb))
          (fun x hx => Nat.lt_succ_of_lt (hnb x hx))
        simp only [CAtom.getPosition, CAtom.getAtomRadius] at this
        rw [this]
        simp [List.enumFrom_cons, hge, hnbr, List.filter_cons, Nat.add_assoc, Nat.add_comm 1]
    · rw [if_neg hge]
      have hgt : ¬ k > iOuterAtomId := by omega
      show (Except.ok _ >>= _) = _
      rw [ok_bind]
      simp only [hgt, false_and, if_false]
      have := ih (row ++ [stale iOuterAtomId k]) nb (k + 1)
        (fun b hb => hlen b (List.mem_cons_of_mem a hb))
        (fun x hx => Nat.lt_succ_of_lt (hnb x hx))
      simp only [CAtom.getPosition, CAtom.getAtomRadius] at this
      rw [this]
      simp [List.enumFrom_cons, hge, hgt, List.filter_cons, Nat.add_assoc, Nat.add_comm 1]

/-- The outer loop of `precalculateMolecule` over the atoms `as` with indices
from `i`, for the atom list `atoms` of the molecule. -/
theorem precalculateMolecule_outer (m : CMath R) (stale : Nat → Nat → R) (c : R)
    (atoms as : List (CAtom R)) (out : MoleculePrecalculation R) (i : Nat)
    (hlen : ∀ a ∈ as, ∀ b ∈ atoms, a.position.length = b.position.length) :
    as.foldlM
        (fun (out : MoleculePrecalculation R × Nat) (atomOuter : CAtom R) => do
          let iOuterAtomId := out.2
          let outerAtomPosition := atomOuter.getPosition
          let row ← atoms.foldlM
            (fun (row : List R × List Nat × Nat) (atomInner : CAtom R) => do
              let iInnerAtomId := row.2.2
              let innerAtomPosition := atomInner.getPosition
              let dSquareDistance ←
                if iInnerAtomId ≥ iOuterAtomId then
                  CMathematics.pointToPointSquareDistance outerAtomPosition innerAtomPosition
                else
                  pure (stale iOuterAtomId iInnerAtomId)
              let currentNeighborIdsSet :=
                if iInnerAtomId > iOuterAtomId ∧ dSquareDistance
                    < m.pow (atomOuter.getAtomRadius + atomInner.getAtomRadius + c) 2
                then setInsert iInnerAtomId row.2.1
                else row.2.1
              pure (row.1 ++ [dSquareDistance], currentNeighborIdsSet, iInnerAtomId + 1))
            (([] : List R), ([] : List Nat), 0)
          let dAlpha := CGaussianVolume.dPARTIAL_ALPHA / m.pow atomOuter.getAtomRadius 2
          pure ({ out.1 with
                  alphaValues := out.1.alphaValues ++ [dAlpha]
                  squareDistancesMatrix := out.1.squareDistancesMatrix ++ [row.1]
                  neighborAtomIds := out.1.neighborAtomIds ++ [row.2.1] }, iOuterAtomId + 1))
        (out, i)
      = .ok ({ out with
              alphaValues := out.alphaValues
                ++ as.map (fun a => CGaussianVolume.dPARTIAL_ALPHA / m.pow a.dAtomRadius 2)
              squareDistancesMatrix := out.squareDistancesMatrix
                ++ (as.enumFrom i).map (fun (ia : Nat × CAtom R) =>
                  writtenRow stale atoms ia.1 ia.2)
              neighborAtomIds := out.neighborAtomIds
                ++ (as.enumFrom i).map (fun (ia : Nat × CAtom R) =>
                  monotoneNeighbours m c atoms ia.1 ia.2) }, i + as.length) := by
  induction as generalizing out i with
  | nil => simp [pure, Except.pure]
  | cons a as ih =>
    rw [List.foldlM_cons]
    simp only []
    have hinner := precalculateMolecule_inner m stale c a i atoms [] [] 0
      (fun b hb => hlen a (List.mem_cons_self a as) b hb)
      (fun x hx => absurd hx (List.not_mem_nil x))
    rw [hinner, ok_bind]
    show (Except.ok _ >>= _) = _
    rw [ok_bind]
    rw [ih]
    · simp [List.enumFrom_cons, writtenRow, monotoneNeighbours, List.enum, CAtom.getAtomRadius,
        Nat.add_assoc, Nat.add_comm 1]
    · exact fun b hb => hlen b (List.mem_cons_of_mem a hb)

/-- The inner loop of the filter returns when the identifier has a neighbour list. -/
theorem behindLoop_returns (nbrs : List (List Nat)) (id : Nat) (hid : id < nbrs.length)
    (behind : List Nat) : ∃ b, CIntersectedAtomsFilter.behindLoop nbrs id behind = .ok b := by
  induction behind with
  | nil => exact ⟨true, rfl⟩
  | cons x xs ih =>
    unfold CIntersectedAtomsFilter.behindLoop
    rw [vecGet_natCast nbrs id [] hid, ok_bind]
    by_cases h : EXIST x (nbrs.getD id []) = true
    · simp only [h, Bool.not_true, Bool.false_eq_true, if_false]
      exact ih
    · simp only [h, Bool.not_false, if_true]
      exact ⟨false, rfl⟩

/-- The filter returns on identifiers that have neighbour lists. -/
theorem filter_call_returns (nbrs : List (List Nat)) (ids : List Nat)
    (h : ∀ x ∈ ids, x < nbrs.length) : ∃ b, CIntersectedAtomsFilter.call nbrs ids = .ok b := by
  induction ids with
  | nil => exact ⟨true, rfl⟩
  | cons x xs ih =>
    unfold CIntersectedAtomsFilter.call
    obtain ⟨b, hb⟩ := behindLoop_returns nbrs x (h x (List.mem_cons_self x xs)) xs
    rw [hb, ok_bind]
    cases b with
    | true =>
      simp only [Bool.not_true, Bool.false_eq_true, if_false]
      exact ih (fun y hy => h y (List.mem_cons_of_mem x hy))
    | false =>
      simp only [Bool.not_false, if_true]
      exact ⟨false, rfl⟩

/-- The combination generator returns whenever the filter returns on every id
set drawn from the candidates and the current combination. -/
theorem combineElements_returns (filter : List Nat → Except Failure Bool) (n : Nat)
    (hfilter : ∀ ids : List Nat, (∀ x ∈ ids, x < n) → ∃ b, filter ids = .ok b)
    (remaining : List Nat) (hrem : ∀ x ∈ remaining, x < n) :
    ∀ (nElementsLeft nElementsToSelect : Int) (currentCombination : List Nat)
      (resultCombinations : List (List Nat)), (∀ x ∈ currentCombination, x < n) →
      (∃ r, CGaussianVolume.combineElements filter remaining nElementsLeft nElementsToSelect
          currentCombination resultCombinations = .ok r)
        ∧ (∃ r, CGaussianVolume.combineElementsLoop filter remaining nElementsLeft
          nElementsToSelect currentCombination resultCombinations = .ok r) := by
  induction remaining with
  | nil =>
    intro left toSelect current result hcur
    have hloop : ∃ r, CGaussianVolume.combineElementsLoop filter [] left toSelect current result
        = .ok r := by
      unfold CGaussianVolume.combineElementsLoop
      exact ⟨result, rfl⟩
    refine ⟨?_, hloop⟩
    unfold CGaussianVolume.combineElements
    split_ifs with h1 h2
    · exact ⟨result, rfl⟩
    · obtain ⟨b, hb⟩ := hfilter current hcur
      rw [hb, ok_bind]
      cases b <;> exact ⟨_, rfl⟩
    · exact hloop
  | cons start rest ih =>
    intro left toSelect current result hcur
    have hrest : ∀ x ∈ rest, x < n := fun x hx => hrem x (List.mem_cons_of_mem start hx)
    have hloop : ∃ r, CGaussianVolume.combineElementsLoop filter (start :: rest) left toSelect
        current result = .ok r := by
      unfold CGaussianVolume.combineElementsLoop
      obtain ⟨r1, hr1⟩ := (ih hrest (left - 1) (toSelect - 1) (setInsert start current) result
        (by
          intro x hx
          rcases (mem_setInsert start x current).1 hx with rfl | hx
          · exact hrem _ (List.mem_cons_self _ rest)
          · exact hcur x hx)).1
      simp only []
      rw [hr1, ok_bind]
      exact (ih hrest left toSelect current r1 hcur).2
    refine ⟨?_, hloop⟩
    unfold CGaussianVolume.combineElements
    split_ifs with h1 h2
    · exact ⟨result, rfl⟩
    · obtain ⟨b, hb⟩ := hfilter current hcur
      rw [hb, ok_bind]
      cases b <;> exact ⟨_, rfl⟩
    · exact hloop

/-- A loop whose every step returns, returns. -/
theorem foldlM_returns {σ α : Type} (l : List α) (f : σ → α → Except Failure σ)
    (h : ∀ s, ∀ x ∈ l, ∃ s', f s x = .ok s') (init : σ) : ∃ r, l.foldlM f init = .ok r := by
  induction l generalizing init with
  | nil => exact ⟨init, rfl⟩
  | cons x xs ih =>
    obtain ⟨s', hs⟩ := h init x (List.mem_cons_self x xs)
    rw [List.foldlM_cons, hs, ok_bind]
    exact ih (fun s y hy => h s y (List.mem_cons_of_mem x hy)) s'

/-- The enumeration returns for every order `>= 0` when the neighbour ids are
indices of the neighbour vector. -/
theorem enumerateIntersectedAtomIds_returns (nbrs : List (List Nat))
    (hids : ∀ l ∈ nbrs, ∀ x ∈ l, x < nbrs.length) (nIntersectedAtoms : Int)
    (hn : 0 ≤ nIntersectedAtoms) (init : List (List Nat)) :
    ∃ r, CGaussianVolume.enumerateIntersectedAtomIds nbrs nIntersectedAtoms init = .ok r := by
  unfold CGaussianVolume.enumerateIntersectedAtomIds
  rw [if_pos hn]
  have hget : ∀ i ∈ List.range nbrs.length,
      vecGet nbrs (i : Int) = .ok (nbrs.getD i []) ∧ ∀ x ∈ nbrs.getD i [], x < nbrs.length := by
    intro i hi
    have hi' : i < nbrs.length := List.mem_range.1 hi
    refine ⟨vecGet_natCast nbrs i [] hi', ?_⟩
    rw [List.getD_eq_getElem _ [] hi']
    exact hids _ (List.getElem_mem _)
  split_ifs with h0 h1 h2
  · exact ⟨_, rfl⟩
  · exact ⟨_, rfl⟩
  · apply foldlM_returns
    intro s i hi
    rw [(hget i hi).1, ok_bind]
    exact ⟨_, rfl⟩
  · apply foldlM_returns
    intro s i hi
    rw [(hget i hi).1, ok_bind]
    obtain ⟨r, hr⟩ := (combineElements_returns (CIntersectedAtomsFilter.call nbrs) nbrs.length
      (fun ids h => filter_call_returns nbrs ids h) (nbrs.getD i []) (hget i hi).2
      ((nbrs.getD i []).length : Int) (nIntersectedAtoms - 1) [] []
      (fun x hx => absurd hx (List.not_mem_nil x))).1
    simp only [] at hr ⊢
    rw [hr, ok_bind]
    exact ⟨_, rfl⟩

omit [LinearOrderedField R] in
/-- The indices of an enumeration from `k` are below `k` plus the length. -/
theorem mem_enumFrom_fst_lt {α : Type} (l : List α) (k : Nat) (x : Nat × α)
    (h : x ∈ l.enumFrom k) : x.1 < k + l.length := by
  obtain ⟨i, hi, rfl⟩ := List.getElem_of_mem h
  have hi' : i < l.length := by simpa using hi
  simp
  omega

/-- The monotone neighbours of an atom are indices of atoms. -/
theorem monotoneNeighbours_lt (m : CMath R) (c : R) (atoms : List (CAtom R)) (i : Nat)
    (outer : CAtom R) : ∀ x ∈ monotoneNeighbours m c atoms i outer, x < atoms.length := by
  intro x hx
  unfold monotoneNeighbours at hx
  obtain ⟨ja, hja, rfl⟩ := List.mem_map.1 hx
  have := mem_enumFrom_fst_lt atoms 0 ja (List.mem_of_mem_filter hja)
  simpa using this

/-- A counted loop that appends one computed element per index. -/
theorem foldlM_range_append {α : Type} (g : Nat → Except Failure α) (n : Nat)
    (hg : ∀ k < n, ∃ x, g k = .ok x) (init : List α) :
    ∃ xs : List α, (List.range n).foldlM (fun (acc : List α) (i : Nat) => do
        let x ← g i
        pure (acc ++ [x])) init = .ok (init ++ xs)
      ∧ xs.length = n ∧ ∀ k, k < n → ∀ d, g k = .ok (xs.getD k d) := by
  induction n with
  | zero => exact ⟨[], by simp [pure, Except.pure], rfl, fun k hk => absurd hk (Nat.not_lt_zero k)⟩
  | succ n ih =>
    obtain ⟨xs, hfold, hlen, hget⟩ := ih (fun k hk => hg k (Nat.lt_succ_of_lt hk))
    obtain ⟨x, hx⟩ := hg n (Nat.lt_succ_self n)
    refine ⟨xs ++ [x], ?_, by rw [List.length_append, hlen]; rfl, ?_⟩
    · rw [List.range_succ, List.foldlM_append, hfold, ok_bind, List.foldlM_cons, hx, ok_bind]
      simp only [List.append_assoc]
      rfl
    · intro k hk d
      rcases Nat.lt_succ_iff_lt_or_eq.1 hk with hlt | heq
      · rw [List.getD_append _ _ _ _ (by omega)]
        exact hget k hlt d
      · subst heq
        rw [List.getD_append_right _ _ _ _ (by omega), hlen, Nat.sub_self]
        exact hx

/-- The result of `precalculateMolecule` for valid arguments and atoms whose
positions have the same number of coordinates: the alpha values, the written
matrix, the neighbour lists, and one enumerated list per order. -/
theorem precalculateMolecule_ok (m : CMath R) (stale : Nat → Nat → R) (molecule : CMolecule R)
    (dGaussianCutoff : R) (nMaxIntersectionOrder : Int) (hc : dGaussianCutoff ≥ 0)
    (ho : nMaxIntersectionOrder > 0)
    (hpos : ∀ a ∈ molecule.atomsList, ∀ b ∈ molecule.atomsList,
      a.position.length = b.position.length) :
    ∃ ids : List (List (List Nat)),
      CGaussianVolume.precalculateMolecule m stale molecule dGaussianCutoff nMaxIntersectionOrder
        = .ok
          { alphaValues := molecule.atomsList.map (fun a =>
              CGaussianVolume.dPARTIAL_ALPHA / m.pow a.dAtomRadius 2)
            squareDistancesMatrix := molecule.atomsList.enum.map (fun (ia : Nat × CAtom R) =>
              writtenRow stale molecule.atomsList ia.1 ia.2)
            neighborAtomIds := molecule.atomsList.enum.map (fun (ia : Nat × CAtom R) =>
              monotoneNeighbours m dGaussianCutoff molecule.atomsList ia.1 ia.2)
            intersectedAtomIds := ids }
      ∧ ids.length = nMaxIntersectionOrder.toNat
      ∧ ∀ k, k < nMaxIntersectionOrder.toNat →
          CGaussianVolume.enumerateIntersectedAtomIds
            (molecule.atomsList.enum.map (fun (ia : Nat × CAtom R) =>
              monotoneNeighbours m dGaussianCutoff molecule.atomsList ia.1 ia.2))
            ((k : Int) + 1) [] = .ok (ids.getD k []) := by
  have hnbrs : ∀ l ∈ molecule.atomsList.enum.map (fun (ia : Nat × CAtom R) =>
      monotoneNeighbours m dGaussianCutoff molecule.atomsList ia.1 ia.2),
      ∀ x ∈ l, x < (molecule.atomsList.enum.map (fun (ia : Nat × CAtom R) =>
        monotoneNeighbours m dGaussianCutoff molecule.atomsList ia.1 ia.2)).length := by
    intro l hl x hx
    obtain ⟨ia, -, rfl⟩ := List.mem_map.1 hl
    have := monotoneNeighbours_lt m dGaussianCutoff molecule.atomsList ia.1 ia.2 x hx
    simpa [List.enum] using this
  obtain ⟨ids, hfold, hlen, hget⟩ := foldlM_range_append
    (fun i => CGaussianVolume.enumerateIntersectedAtomIds
      (molecule.atomsList.enum.map (fun (ia : Nat × CAtom R) =>
        monotoneNeighbours m dGaussianCutoff molecule.atomsList ia.1 ia.2))
      ((i : Int) + 1) [])
    nMaxIntersectionOrder.toNat
    (fun k _ => enumerateIntersectedAtomIds_returns _ hnbrs _ (by omega) [])
    ([] : List (List (List Nat)))
  refine ⟨ids, ?_, hlen, fun k hk => hget k hk []⟩
  unfold CGaussianVolume.precalculateMolecule
  rw [if_pos ⟨hc, ho⟩]
  simp only [CMolecule.getAtomsList]
  have houter := precalculateMolecule_outer m stale dGaussianCutoff molecule.atomsList
    molecule.atomsList
    { alphaValues := [], squareDistancesMatrix := [], neighborAtomIds := [],
      intersectedAtomIds := [] } 0 hpos
  simp only [] at houter
  rw [houter, ok_bind]
  simp only [List.nil_append, List.enum] at hfold ⊢
  rw [hfold, ok_bind]
  rfl

/-- The result of `precalculate` for valid arguments and atoms whose positions
have the same number of coordinates within each molecule. -/
theorem precalculate_ok (m : CMath R) (stale : Nat → Nat → R) (refMol fitMol : CMolecule R)
    (dGaussianCutoff : R) (nMaxIntersectionOrder : Int) (pre : PrecalculationResult R)
    (hc : dGaussianCutoff ≥ 0) (ho : nMaxIntersectionOrder > 0)
    (href : ∀ a ∈ refMol.atomsList, ∀ b ∈ refMol.atomsList,
      a.position.length = b.position.length)
    (hfit : ∀ a ∈ fitMol.atomsList, ∀ b ∈ fitMol.atomsList,
      a.position.length = b.position.length) :
    ∃ idsRef idsFit : List (List (List Nat)),
      CGaussianVolume.precalculate m stale refMol fitMol dGaussianCutoff nMaxIntersectionOrder pre
        = .ok
          { alphaValuesForFit := fitMol.atomsList.map (fun a =>
              CGaussianVolume.dPARTIAL_ALPHA / m.pow a.dAtomRadius 2)
            alphaValuesForRef := refMol.atomsList.map (fun a =>
              CGaussianVolume.dPARTIAL_ALPHA / m.pow a.dAtomRadius 2)
            dGaussianCutoff := dGaussianCutoff
            intersectedAtomIdsForFit := idsFit
            intersectedAtomIdsForRef := idsRef
            squareDistancesMatrixForFit := fitMol.atomsList.enum.map
              (fun (ia : Nat × CAtom R) => writtenRow stale fitMol.atomsList ia.1 ia.2)
            squareDistancesMatrixForRef := refMol.atomsList.enum.map
              (fun (ia : Nat × CAtom R) => writtenRow stale refMol.atomsList ia.1 ia.2)
            neighborAtomIdsForFit := fitMol.atomsList.enum.map (fun (ia : Nat × CAtom R) =>
              monotoneNeighbours m dGaussianCutoff fitMol.atomsList ia.1 ia.2)
            neighborAtomIdsForRef := refMol.atomsList.enum.map (fun (ia : Nat × CAtom R) =>
              monotoneNeighbours m dGaussianCutoff refMol.atomsList ia.1 ia.2) }
      ∧ idsRef.length = nMaxIntersectionOrder.toNat
      ∧ idsFit.length = nMaxIntersectionOrder.toNat
      ∧ (∀ k, k < nMaxIntersectionOrder.toNat →
          CGaussianVolume.enumerateIntersectedAtomIds
            (refMol.atomsList.enum.map (fun (ia : Nat × CAtom R) =>
              monotoneNeighbours m dGaussianCutoff refMol.atomsList ia.1 ia.2))
            ((k : Int) + 1) [] = .ok (idsRef.getD k []))
      ∧ (∀ k, k < nMaxIntersectionOrder.toNat →
          CGaussianVolume.enumerateIntersectedAtomIds
            (fitMol.atomsList.enum.map (fun (ia : Nat × CAtom R) =>
              monotoneNeighbours m dGaussianCutoff fitMol.atomsList ia.1 ia.2))
            ((k : Int) + 1) [] = .ok (idsFit.getD k [])) := by
  obtain ⟨idsRef, hr, hlr, her⟩ := precalculateMolecule_ok m stale refMol dGaussianCutoff
    nMaxIntersectionOrder hc ho href
  obtain ⟨idsFit, hf, hlf, hef⟩ := precalculateMolecule_ok m stale fitMol dGaussianCutoff
    nMaxIntersectionOrder hc ho hfit
  refine ⟨idsRef, idsFit, ?_, hlr, hlf, her, hef⟩
  unfold CGaussianVolume.precalculate
  rw [if_pos ⟨hc, ho⟩, hr, ok_bind, hf, ok_bind]
  rfl

omit [LinearOrderedField R] in
/-- Atoms with three coordinates have positions of equal length. -/
theorem three_coordinates (atoms : List (CAtom R)) (h : ∀ a ∈ atoms, a.position.length = 3) :
    ∀ a ∈ atoms, ∀ b ∈ atoms, a.position.length = b.position.length :=
  fun a ha b hb => (h a ha).trans (h b hb).symm

/-- C14: a negative cutoff or a non-positive maximum intersection order is
rejected. For molecules whose atoms have three coordinates, `precalculate`
fails with invalid-argument iff `dGaussianCutoff < 0` or
`nMaxIntersectionOrder <= 0`, and the caller's output is then the one before
the call; `setGaussianCutoff(-1)` and `setMaxIntersectionOrder(0)` of the
builder fail with invalid-argument, and the cutoff and the order stored in the
caller's builder are those before the call. -/
theorem C14_invalid_arguments_rejected (m : CMath R) (stale : Nat → Nat → R)
    (refMol fitMol : CMolecule R) (dGaussianCutoff : R) (nMaxIntersectionOrder : Int)
    (pre : PrecalculationResult R) (builder : CGaussianVolumeBuilder R)
    (href : ∀ a ∈ refMol.atomsList, a.position.length = 3)
    (hfit : ∀ a ∈ fitMol.atomsList, a.position.length = 3) :
    (CGaussianVolume.precalculate m stale refMol fitMol dGaussianCutoff nMaxIntersectionOrder pre
          = .error .invalidArgument
        ↔ dGaussianCutoff < 0 ∨ nMaxIntersectionOrder ≤ 0)
      ∧ (dGaussianCutoff < 0 ∨ nMaxIntersectionOrder ≤ 0 →
          afterCall pre (CGaussianVolume.precalculate m stale refMol fitMol dGaussianCutoff
            nMaxIntersectionOrder pre) = pre)
      ∧ builder.setGaussianCutoff (-1) = .error .invalidArgument
      ∧ builder.setMaxIntersectionOrder 0 = .error .invalidArgument
      ∧ (afterCall builder (builder.setGaussianCutoff (-1))).getGaussianCutoff
          = builder.getGaussianCutoff
      ∧ (afterCall builder (builder.setGaussianCutoff (-1))).getMaxIntersectionOrder
          = builder.getMaxIntersectionOrder
      ∧ (afterCall builder (builder.setMaxIntersectionOrder 0)).getGaussianCutoff
          = builder.getGaussianCutoff
      ∧ (afterCall builder (builder.setMaxIntersectionOrder 0)).getMaxIntersectionOrder
          = builder.getMaxIntersectionOrder := by
  have hbad : dGaussianCutoff < 0 ∨ nMaxIntersectionOrder ≤ 0 →
      CGaussianVolume.precalculate m stale refMol fitMol dGaussianCutoff nMaxIntersectionOrder pre
        = .error .invalidArgument := by
    intro h
    unfold CGaussianVolume.precalculate
    rw [if_neg]
    rintro ⟨h1, h2⟩
    rcases h with h | h
    · exact absurd h1 (not_le.2 h)
    · exact absurd h2 (not_lt.2 h)
  have hcut : builder.setGaussianCutoff (-1) = .error .invalidArgument := by
    unfold CGaussianVolumeBuilder.setGaussianCutoff
    rw [if_neg (by norm_num)]
  have hord : builder.setMaxIntersectionOrder 0 = .error .invalidArgument := by
    unfold CGaussianVolumeBuilder.setMaxIntersectionOrder
    rw [if_neg (by decide)]
  refine ⟨⟨?_, hbad⟩, ?_, hcut, hord, ?_, ?_, ?_, ?_⟩
  · intro herr
    by_contra hgood
    have hc : dGaussianCutoff ≥ 0 := not_lt.1 (fun h => hgood (Or.inl h))
    have ho : nMaxIntersectionOrder > 0 := not_le.1 (fun h => hgood (Or.inr h))
    obtain ⟨idsRef, idsFit, hok, -⟩ := precalculate_ok m stale refMol fitMol dGaussianCutoff
      nMaxIntersectionOrder pre hc ho (three_coordinates _ href) (three_coordinates _ hfit)
    rw [hok] at herr
    cases herr
  · intro h
    rw [hbad h]
    rfl
  · rw [hcut]; rfl
  · rw [hcut]; rfl
  · rw [hord]; rfl
  · rw [hord]; rfl

/-- Witness of C14: two one-atom molecules over the reals, cutoff `-1` and
maximum order 1, a default-constructed output and the builder constructed for
the two molecules. -/
theorem C14_invalid_arguments_rejected_witness :
    CGaussianVolume.precalculate (⟨Real.exp, fun x y => x ^ y, Real.sin, Real.cos⟩ : CMath ℝ)
        (fun _ _ => 0) (CMolecule.new.addAtom ⟨1, 1.5, [0, 0, 0]⟩)
        (CMolecule.new.addAtom ⟨1, 1.2, [1, 0, 0]⟩) (-1) 1 (PrecalculationResult.new 0)
        = .error .invalidArgument
      ∧ afterCall (PrecalculationResult.new 0)
          (CGaussianVolume.precalculate
            (⟨Real.exp, fun x y => x ^ y, Real.sin, Real.cos⟩ : CMath ℝ)
            (fun _ _ => 0) (CMolecule.new.addAtom ⟨1, 1.5, [0, 0, 0]⟩)
            (CMolecule.new.addAtom ⟨1, 1.2, [1, 0, 0]⟩) (-1) 1 (PrecalculationResult.new 0))
          = PrecalculationResult.new 0 :=
  have h := C14_invalid_arguments_rejected
    (⟨Real.exp, fun x y => x ^ y, Real.sin, Real.cos⟩ : CMath ℝ) (fun _ _ => 0)
    (CMolecule.new.addAtom ⟨1, 1.5, [0, 0, 0]⟩) (CMolecule.new.addAtom ⟨1, 1.2, [1, 0, 0]⟩)
    (-1) 1 (PrecalculationResult.new 0)
    ⟨false, 0, [⟨1, 1.2, [1, 0, 0]⟩], 1, some (CMolecule.new.addAtom ⟨1, 1.2, [1, 0, 0]⟩),
      some (CMolecule.new.addAtom ⟨1, 1.5, [0, 0, 0]⟩), PrecalculationResult.new 0,
      [⟨1, 1.5, [0, 0, 0]⟩]⟩
    (by simp [CMolecule.new, CMolecule.addAtom, CAtom.clone])
    (by simp [CMolecule.new, CMolecule.addAtom, CAtom.clone])
  ⟨h.1.2 (Or.inl (by norm_num)), h.2.1 (Or.inl (by norm_num))⟩

/-- The cross-molecule initialisation returns when reference and fit positions
have the same number of coordinates. -/
theorem initializeIntermolecularInformation_returns (m : CMath R) (self : CGaussianVolume R)
    (refAtoms fitAtoms : List (CAtom R)) (pre : PrecalculationResult R)
    (hRef : self.pRefAtoms = some refAtoms) (hFit : self.pFitAtoms = some fitAtoms)
    (hPre : self.pPrecalculationResult = some pre)
    (hpos : ∀ a ∈ refAtoms, ∀ b ∈ fitAtoms, a.position.length = b.position.length) :
    ∃ e, self.initializeIntermolecularInformation m = .ok e := by
  unfold CGaussianVolume.initializeIntermolecularInformation
  rw [hRef, hFit, hPre]
  simp only []
  obtain ⟨acc, hacc⟩ := foldlM_returns refAtoms
    (fun (acc : List (List R) × List (List Nat)) (refAtom : CAtom R) => (do
        let row ← fitAtoms.foldlM
          (fun (row : List R × List Nat × Nat) (fitAtom : CAtom R) => do
            let dSquareDistance ←
              CMathematics.pointToPointSquareDistance refAtom.getPosition fitAtom.getPosition
            let neighborAtomIdsSet :=
              if dSquareDistance
                  < m.pow (refAtom.getAtomRadius + fitAtom.getAtomRadius + pre.dGaussianCutoff) 2
              then setInsert row.2.2 row.2.1
              else row.2.1
            pure (row.1 ++ [dSquareDistance], neighborAtomIdsSet, row.2.2 + 1))
          (([] : List R), ([] : List Nat), 0)
        pure (acc.1 ++ [row.1], acc.2 ++ [row.2.1]) :
          Except Failure (List (List R) × List (List Nat))))
    (by
      intro acc refAtom hrefAtom
      obtain ⟨row, hrow⟩ := foldlM_returns fitAtoms
        (fun (row : List R × List Nat × Nat) (fitAtom : CAtom R) => (do
            let dSquareDistance ←
              CMathematics.pointToPointSquareDistance refAtom.getPosition fitAtom.getPosition
            let neighborAtomIdsSet :=
              if dSquareDistance
                  < m.pow (refAtom.getAtomRadius + fitAtom.getAtomRadius + pre.dGaussianCutoff) 2
              then setInsert row.2.2 row.2.1
              else row.2.1
            pure (row.1 ++ [dSquareDistance], neighborAtomIdsSet, row.2.2 + 1) :
              Except Failure (List R × List Nat × Nat)))
        (by
          intro row fitAtom hfitAtom
          simp only [CAtom.getPosition]
          rw [pointToPointSquareDistance_ok _ _ (hpos refAtom hrefAtom fitAtom hfitAtom), ok_bind]
          exact ⟨_, rfl⟩)
        (([] : List R), ([] : List Nat), 0)
      beta_reduce
      rw [hrow, ok_bind]
      exact ⟨_, rfl⟩)
    (([] : List (List R)), ([] : List (List Nat)))
  rw [hacc, ok_bind]
  exact ⟨_, rfl⟩

/-- A written row has one entry per atom. -/
theorem writtenRow_length (stale : Nat → Nat → R) (atoms : List (CAtom R)) (i : Nat)
    (outer : CAtom R) : (writtenRow stale atoms i outer).length = atoms.length := by
  unfold writtenRow
  rw [List.length_map, List.enum_length]

/-- The combinations added by the combination generator, for candidates in
strictly ascending order above the current combination: each has the elements
of the current combination and `nElementsToSelect` more, taken from the
candidates. -/
theorem combineElements_sizes (filter : List Nat → Except Failure Bool)
    (remaining : List Nat) (hsorted : remaining.Pairwise (fun a b => a < b)) :
    ∀ (nElementsLeft nElementsToSelect : Int) (currentCombination : List Nat)
      (resultCombinations r : List (List Nat)), 0 ≤ nElementsToSelect →
      (∀ y ∈ currentCombination, ∀ x ∈ remaining, y < x) →
      (CGaussianVolume.combineElements filter remaining nElementsLeft nElementsToSelect
          currentCombination resultCombinations = .ok r →
        ∀ c ∈ r, c ∈ resultCombinations
          ∨ (c.length = currentCombination.length + nElementsToSelect.toNat
            ∧ ∀ x ∈ c, x ∈ currentCombination ∨ x ∈ remaining))
      ∧ (1 ≤ nElementsToSelect →
        CGaussianVolume.combineElementsLoop filter remaining nElementsLeft nElementsToSelect
          currentCombination resultCombinations = .ok r →
        ∀ c ∈ r, c ∈ resultCombinations
          ∨ (c.length = currentCombination.length + nElementsToSelect.toNat
            ∧ ∀ x ∈ c, x ∈ currentCombination ∨ x ∈ remaining)) := by
  induction remaining with
  | nil =>
    intro left toSelect current result r hsel hcur
    have hloop : CGaussianVolume.combineElementsLoop filter [] left toSelect current result
        = .ok r → ∀ c ∈ r, c ∈ result
          ∨ (c.length = current.length + toSelect.toNat ∧ ∀ x ∈ c, x ∈ current ∨ x ∈ []) := by
      unfold CGaussianVolume.combineElementsLoop
      intro h c hc
      have : result = r := by simpa [pure, Except.pure] using h
      rw [← this] at hc
      exact Or.inl hc
    refine ⟨?_, fun _ => hloop⟩
    unfold CGaussianVolume.combineElements
    split_ifs with h1 h2
    · intro h c hc
      have : result = r := by simpa [pure, Except.pure] using h
      rw [← this] at hc
      exact Or.inl hc
    · intro h c hc
      cases hf : filter current with
      | error e => rw [hf] at h; cases h
      | ok b =>
        rw [hf, ok_bind] at h
        cases b
        · have : result = r := by simpa [pure, Except.pure] using h
          rw [← this] at hc
          exact Or.inl hc
        · have : result ++ [current] = r := by simpa [pure, Except.pure] using h
          rw [← this] at hc
          rcases List.mem_append.1 hc with hc | hc
          · exact Or.inl hc
          · rw [List.mem_singleton] at hc
            subst hc
            exact Or.inr ⟨by rw [h2]; rfl, fun x hx => Or.inl hx⟩
    · exact hloop
  | cons start rest ih =>
    intro left toSelect current result r hsel hcur
    have hsorted' : rest.Pairwise (fun a b => a < b) := (List.pairwise_cons.1 hsorted).2
    have hstart : ∀ x ∈ rest, start < x := (List.pairwise_cons.1 hsorted).1
    have hcur' : ∀ y ∈ current, ∀ x ∈ rest, y < x :=
      fun y hy x hx => hcur y hy x (List.mem_cons_of_mem start hx)
    have hloop : 1 ≤ toSelect →
        CGaussianVolume.combineElementsLoop filter (start :: rest) left toSelect current result
          = .ok r → ∀ c ∈ r, c ∈ result
            ∨ (c.length = current.length + toSelect.toNat
              ∧ ∀ x ∈ c, x ∈ current ∨ x ∈ start :: rest) := by
      intro h1
      unfold CGaussianVolume.combineElementsLoop
      simp only []
      intro h c hc
      have hins : setInsert start current = current ++ [start] :=
        setInsert_append start current
          (fun y hy => hcur y hy start (List.mem_cons_self start rest))
      cases hr1 : CGaussianVolume.combineElements filter rest (left - 1) (toSelect - 1)
          (setInsert start current) result with
      | error e => rw [hr1] at h; cases h
      | ok r1 =>
        rw [hr1, ok_bind] at h
        have hfirst := (ih hsorted' (left - 1) (toSelect - 1) (setInsert start current) result r1
          (by omega) (by
            intro y hy x hx
            rcases (mem_setInsert start y current).1 hy with rfl | hy
            · exact hstart x hx
            · exact hcur' y hy x hx)).1 hr1
        have hsecond := (ih hsorted' left toSelect current r1 r hsel hcur').2 h1 h
        rcases hsecond c hc with hc1 | ⟨hlen, hmem⟩
        · rcases hfirst c hc1 with hc0 | ⟨hlen, hmem⟩
          · exact Or.inl hc0
          · refine Or.inr ⟨?_, ?_⟩
            · rw [hlen, hins, List.length_append, List.length_singleton]
              omega
            · intro x hx
              rcases hmem x hx with hx | hx
              · rcases (mem_setInsert start x current).1 hx with rfl | hx
                · exact Or.inr (List.mem_cons_self _ rest)
                · exact Or.inl hx
              · exact Or.inr (List.mem_cons_of_mem start hx)
        · refine Or.inr ⟨hlen, ?_⟩
          intro x hx
          rcases hmem x hx with hx | hx
          · exact Or.inl hx
          · exact Or.inr (List.mem_cons_of_mem start hx)
    refine ⟨?_, hloop⟩
    unfold CGaussianVolume.combineElements
    split_ifs with h1 h2
    · intro h c hc
      have : result = r := by simpa [pure, Except.pure] using h
      rw [← this] at hc
      exact Or.inl hc
    · intro h c hc
      cases hf : filter current with
      | error e => rw [hf] at h; cases h
      | ok b =>
        rw [hf, ok_bind] at h
        cases b
        · have : result = r := by simpa [pure, Except.pure] using h
          rw [← this] at hc
          exact Or.inl hc
        · have : result ++ [current] = r := by simpa [pure, Except.pure] using h
          rw [← this] at hc
          rcases List.mem_append.1 hc with hc | hc
          · exact Or.inl hc
          · rw [List.mem_singleton] at hc
            subst hc
            exact Or.inr ⟨by rw [h2]; rfl, fun x hx => Or.inl hx⟩
    · exact hloop (by omega)

/-- The elements collected by a loop that appends a list per element. -/
theorem foldl_append_mem {α β : Type} (g : α → List β) (l : List α) (init : List β) :
    ∀ c ∈ l.foldl (fun acc x => acc ++ g x) init, c ∈ init ∨ ∃ x ∈ l, c ∈ g x := by
  induction l generalizing init with
  | nil => exact fun c hc => Or.inl hc
  | cons a as ih =>
    intro c hc
    rw [List.foldl_cons] at hc
    rcases ih (init ++ g a) c hc with h | ⟨x, hx, hcx⟩
    · rcases List.mem_append.1 h with h | h
      · exact Or.inl h
      · exact Or.inr ⟨a, List.mem_cons_self a as, h⟩
    · exact Or.inr ⟨x, List.mem_cons_of_mem a hx, hcx⟩

/-- Inserting an element below all the elements of a set puts it in front. -/
theorem setInsert_cons (x : Nat) (s : List Nat) (h : ∀ y ∈ s, x < y) :
    setInsert x s = x :: s := by
  cases s with
  | nil => rfl
  | cons y ys =>
    unfold setInsert
    rw [if_pos (h y (List.mem_cons_self y ys))]

/-- The sets enumerated at order `k >= 1` have `k` elements, when every
neighbour list is strictly ascending and holds only ids above its key. -/
theorem enumerateIntersectedAtomIds_sizes (nbrs : List (List Nat))
    (hmono : ∀ i, i < nbrs.length →
      (nbrs.getD i []).Pairwise (fun a b => a < b) ∧ ∀ x ∈ nbrs.getD i [], i < x)
    (k : Nat) (hk : 1 ≤ k) (init r : List (List Nat))
    (h : CGaussianVolume.enumerateIntersectedAtomIds nbrs (k : Int) init = .ok r) :
    ∀ c ∈ r, c ∈ init ∨ c.length = k := by
  unfold CGaussianVolume.enumerateIntersectedAtomIds at h
  rw [if_pos (by omega), if_neg (by omega)] at h
  split_ifs at h with h1 h2
  · -- order 1
    have hk1 : k = 1 := by omega
    have hr : (List.range nbrs.length).foldl
        (fun intersectedAtomIds iKeyId => intersectedAtomIds ++ [setInsert iKeyId []]) init
        = r := by simpa [pure, Except.pure] using h
    intro c hc
    rw [← hr] at hc
    rcases foldl_append_mem (fun iKeyId => [setInsert iKeyId []]) _ init c hc with
      hc | ⟨x, -, hcx⟩
    · exact Or.inl hc
    · rw [List.mem_singleton] at hcx
      subst hcx
      exact Or.inr (by rw [hk1]; rfl)
  · -- order 2
    have hk2 : k = 2 := by omega
    refine foldlM_invariant _ _ (fun acc => ∀ c ∈ acc, c ∈ init ∨ c.length = k) ?_ init r
      (fun c hc => Or.inl hc) h
    intro acc key acc' hkey hstep hacc c hc
    have hkey' : key < nbrs.length := List.mem_range.1 hkey
    rw [vecGet_natCast nbrs key [] hkey', ok_bind] at hstep
    have hacc' : (nbrs.getD key []).foldl (fun intersectedAtomIds neighborId =>
        intersectedAtomIds ++ [setInsert neighborId (setInsert key [])]) acc = acc' := by
      simpa [pure, Except.pure] using hstep
    rw [← hacc'] at hc
    rcases foldl_append_mem (fun neighborId => [setInsert neighborId (setInsert key [])]) _ acc
      c hc with hc | ⟨x, hx, hcx⟩
    · exact hacc c hc
    · rw [List.mem_singleton] at hcx
      subst hcx
      have hlt : key < x := (hmono key hkey').2 x hx
      have hins : setInsert x (setInsert key []) = [key] ++ [x] :=
        setInsert_append x [key] (by
          intro y hy
          rw [List.mem_singleton] at hy
          rw [hy]
          exact hlt)
      exact Or.inr (by rw [hins, hk2]; rfl)
  · -- order 3 and above
    refine foldlM_invariant _ _ (fun acc => ∀ c ∈ acc, c ∈ init ∨ c.length = k) ?_ init r
      (fun c hc => Or.inl hc) h
    intro acc key acc' hkey hstep hacc c hc
    have hkey' : key < nbrs.length := List.mem_range.1 hkey
    rw [vecGet_natCast nbrs key [] hkey', ok_bind] at hstep
    cases hpick : CGaussianVolume.combineElements (CIntersectedAtomsFilter.call nbrs)
        (nbrs.getD key []) (nbrs.getD key []).length ((k : Int) - 1) [] [] with
    | error e => rw [hpick] at hstep; cases hstep
    | ok picked =>
      rw [hpick, ok_bind] at hstep
      have hacc' : acc ++ picked.map (fun idsSet => setInsert key idsSet) = acc' := by
        simpa [pure, Except.pure] using hstep
      rw [← hacc'] at hc
      rcases List.mem_append.1 hc with hc | hc
      · exact hacc c hc
      · obtain ⟨c0, hc0, rfl⟩ := List.mem_map.1 hc
        have hsz := (combineElements_sizes (CIntersectedAtomsFilter.call nbrs)
          (nbrs.getD key []) (hmono key hkey').1 (nbrs.getD key []).length ((k : Int) - 1) []
          [] picked (by omega) (by
            intro y hy
            exact absurd hy (List.not_mem_nil y))).1 hpick c0 hc0
        rcases hsz with hnil | ⟨hlen, hmem⟩
        · exact absurd hnil (List.not_mem_nil c0)
        · have habove : ∀ y ∈ c0, key < y := by
            intro y hy
            rcases hmem y hy with hy | hy
            · exact absurd hy (List.not_mem_nil y)
            · exact (hmono key hkey').2 y hy
          refine Or.inr ?_
          rw [setInsert_cons key c0 habove, List.length_cons, hlen, List.length_nil]
          omega

/-- The monotone neighbours of an atom are strictly ascending ids above the id
of the atom. -/
theorem monotoneNeighbours_sorted (m : CMath R) (c : R) (atoms : List (CAtom R)) (i : Nat)
    (outer : CAtom R) :
    (monotoneNeighbours m c atoms i outer).Pairwise (fun a b => a < b)
      ∧ ∀ x ∈ monotoneNeighbours m c atoms i outer, i < x := by
  unfold monotoneNeighbours
  constructor
  · have hsub : ((atoms.enum.filter (fun (ja : Nat × CAtom R) =>
        decide (ja.1 > i ∧ sqDist outer.position ja.2.position
          < m.pow (outer.dAtomRadius + ja.2.dAtomRadius + c) 2))).map Prod.fst).Sublist
        (atoms.enum.map Prod.fst) := (List.filter_sublist _).map Prod.fst
    rw [List.enum_map_fst] at hsub
    exact (List.pairwise_lt_range _).sublist hsub
  · intro x hx
    obtain ⟨ja, hja, rfl⟩ := List.mem_map.1 hx
    have := (List.mem_filter.1 hja).2
    simp only [decide_eq_true_eq] at this
    exact this.1

/-- The neighbour lists written by `precalculateMolecule` are strictly
ascending and hold only ids above their key. -/
theorem neighbours_monotone (m : CMath R) (c : R) (atoms : List (CAtom R)) :
    ∀ i, i < (atoms.enum.map (fun (ia : Nat × CAtom R) =>
        monotoneNeighbours m c atoms ia.1 ia.2)).length →
      ((atoms.enum.map (fun (ia : Nat × CAtom R) =>
          monotoneNeighbours m c atoms ia.1 ia.2)).getD i []).Pairwise (fun a b => a < b)
        ∧ ∀ x ∈ (atoms.enum.map (fun (ia : Nat × CAtom R) =>
          monotoneNeighbours m c atoms ia.1 ia.2)).getD i [], i < x := by
  intro i hi
  have hi' : i < atoms.enum.length := by simpa using hi
  rw [List.getD_eq_getElem _ [] hi, List.getElem_map]
  have hfst : (atoms.enum[i]).1 = i := by simp [List.enum]
  have hs := monotoneNeighbours_sorted m c atoms (atoms.enum[i]).1 (atoms.enum[i]).2
  refine ⟨hs.1, fun x hx => ?_⟩
  have := hs.2 x hx
  omega

/-- C18: the sizes of the precalculation. For molecules whose atoms have three
coordinates, a cutoff `>= 0` and a maximum order `>= 1`, `precalculate` returns
a result whose alpha values, neighbour lists and square-distance rows are as
many as the atoms of the reference (resp. fit) molecule, whose square-distance
rows have the length of their matrix, and whose lists of subsets have
`nMaxIntersectionOrder` entries on both sides, the entry at index `k - 1` being
what `enumerateIntersectedAtomIds` returns at order `k` on the neighbour lists
of that side, a list of sets of `k` atom ids each. -/
theorem C18_precalculation_sizes (m : CMath R) (stale : Nat → Nat → R)
    (refMol fitMol : CMolecule R) (dGaussianCutoff : R) (nMaxIntersectionOrder : Int)
    (precalculationResult : PrecalculationResult R)
    (hc : dGaussianCutoff ≥ 0) (ho : nMaxIntersectionOrder ≥ 1)
    (href : ∀ a ∈ refMol.atomsList, a.position.length = 3)
    (hfit : ∀ a ∈ fitMol.atomsList, a.position.length = 3) :
    ∃ pre, CGaussianVolume.precalculate m stale refMol fitMol dGaussianCutoff
        nMaxIntersectionOrder precalculationResult = .ok pre
      ∧ pre.alphaValuesForRef.length = refMol.atomsList.length
      ∧ pre.neighborAtomIdsForRef.length = refMol.atomsList.length
      ∧ pre.squareDistancesMatrixForRef.length = refMol.atomsList.length
      ∧ (∀ row ∈ pre.squareDistancesMatrixForRef,
          row.length = pre.squareDistancesMatrixForRef.length)
      ∧ pre.alphaValuesForFit.length = fitMol.atomsList.length
      ∧ pre.neighborAtomIdsForFit.length = fitMol.atomsList.length
      ∧ pre.squareDistancesMatrixForFit.length = fitMol.atomsList.length
      ∧ (∀ row ∈ pre.squareDistancesMatrixForFit,
          row.length = pre.squareDistancesMatrixForFit.length)
      ∧ (pre.intersectedAtomIdsForRef.length : Int) = nMaxIntersectionOrder
      ∧ (pre.intersectedAtomIdsForFit.length : Int) = nMaxIntersectionOrder
      ∧ (∀ k : Nat, 1 ≤ k → (k : Int) ≤ nMaxIntersectionOrder →
          CGaussianVolume.enumerateIntersectedAtomIds pre.neighborAtomIdsForRef (k : Int) []
            = .ok (pre.intersectedAtomIdsForRef.getD (k - 1) []))
      ∧ (∀ k : Nat, 1 ≤ k → (k : Int) ≤ nMaxIntersectionOrder →
          CGaussianVolume.enumerateIntersectedAtomIds pre.neighborAtomIdsForFit (k : Int) []
            = .ok (pre.intersectedAtomIdsForFit.getD (k - 1) []))
      ∧ (∀ k : Nat, 1 ≤ k → (k : Int) ≤ nMaxIntersectionOrder →
          ∀ S ∈ pre.intersectedAtomIdsForRef.getD (k - 1) [], S.length = k)
      ∧ (∀ k : Nat, 1 ≤ k → (k : Int) ≤ nMaxIntersectionOrder →
          ∀ T ∈ pre.intersectedAtomIdsForFit.getD (k - 1) [], T.length = k) := by
  obtain ⟨idsRef, idsFit, hok, hlr, hlf, her, hef⟩ := precalculate_ok m stale refMol fitMol
    dGaussianCutoff nMaxIntersectionOrder precalculationResult hc (by omega)
    (three_coordinates _ href) (three_coordinates _ hfit)
  have horder : ∀ k : Nat, 1 ≤ k → (k : Int) ≤ nMaxIntersectionOrder →
      k - 1 < nMaxIntersectionOrder.toNat ∧ (((k - 1 : Nat) : Int) + 1) = (k : Int) := by
    intro k hk1 hk2
    omega
  refine ⟨_, hok, ?_, ?_, ?_, ?_, ?_, ?_, ?_, ?_, ?_, ?_, ?_, ?_, ?_, ?_⟩
  · simp
  · simp [List.enum]
  · simp [List.enum]
  · intro row hrow
    obtain ⟨ia, -, rfl⟩ := List.mem_map.1 hrow
    simp [writtenRow_length, List.enum]
  · simp
  · simp [List.enum]
  · simp [List.enum]
  · intro row hrow
    obtain ⟨ia, -, rfl⟩ := List.mem_map.1 hrow
    simp [writtenRow_length, List.enum]
  · show (idsRef.length : Int) = _
    rw [hlr]; omega
  · show (idsFit.length : Int) = _
    rw [hlf]; omega
  · intro k hk1 hk2
    have := her (k - 1) (by omega)
    have hcast : (((k - 1 : Nat) : Int) + 1) = (k : Int) := by omega
    rw [hcast] at this
    exact this
  · intro k hk1 hk2
    have := hef (k - 1) (by omega)
    have hcast : (((k - 1 : Nat) : Int) + 1) = (k : Int) := by omega
    rw [hcast] at this
    exact this
  · intro k hk1 hk2 S hS
    obtain ⟨hlt, hcast⟩ := horder k hk1 hk2
    have hen := her (k - 1) hlt
    rw [hcast] at hen
    rcases enumerateIntersectedAtomIds_sizes _
      (neighbours_monotone m dGaussianCutoff refMol.atomsList) k hk1 [] _ hen S hS with h | h
    · exact absurd h (List.not_mem_nil S)
    · exact h
  · intro k hk1 hk2 T hT
    obtain ⟨hlt, hcast⟩ := horder k hk1 hk2
    have hen := hef (k - 1) hlt
    rw [hcast] at hen
    rcases enumerateIntersectedAtomIds_sizes _
      (neighbours_monotone m dGaussianCutoff fitMol.atomsList) k hk1 [] _ hen T hT with h | h
    · exact absurd h (List.not_mem_nil T)
    · exact h

/-- Witness of C18: two one-atom molecules over the reals, cutoff 0 and maximum
order 2. -/
theorem C18_precalculation_sizes_witness :
    ∃ pre, CGaussianVolume.precalculate
        (⟨Real.exp, fun x y => x ^ y, Real.sin, Real.cos⟩ : CMath ℝ)
        (fun _ _ => 0) (CMolecule.new.addAtom ⟨1, 1.5, [0, 0, 0]⟩)
        (CMolecule.new.addAtom ⟨1, 1.2, [1, 0, 0]⟩) 0 2 (PrecalculationResult.new 0) = .ok pre
      ∧ pre.alphaValuesForRef.length = 1
      ∧ pre.squareDistancesMatrixForFit.length = 1
      ∧ (pre.intersectedAtomIdsForRef.length : Int) = 2
      ∧ (pre.intersectedAtomIdsForFit.length : Int) = 2 := by
  obtain ⟨pre, hpre, h1, -, -, -, -, -, h7, -, h9, h10, -⟩ := C18_precalculation_sizes
    (⟨Real.exp, fun x y => x ^ y, Real.sin, Real.cos⟩ : CMath ℝ) (fun _ _ => 0)
    (CMolecule.new.addAtom ⟨1, 1.5, [0, 0, 0]⟩) (CMolecule.new.addAtom ⟨1, 1.2, [1, 0, 0]⟩)
    0 2 (PrecalculationResult.new 0) (le_refl (0 : ℝ)) (by decide)
    (by simp [CMolecule.new, CMolecule.addAtom, CAtom.clone])
    (by simp [CMolecule.new, CMolecule.addAtom, CAtom.clone])
  exact ⟨pre, hpre, h1, h7, h9, h10⟩

/-- C17: the constructor checks the sizes of the precalculation. The
constructor fails with invalid-argument whenever the number of alpha values, of
neighbour lists or of square-distance rows of the reference (resp. fit) side
differs from the number of reference (resp. fit) atoms; and for molecules whose
atoms have three coordinates, a cutoff `>= 0` and a maximum order `>= 1`, it
returns an engine for the result of `precalculate` on the two molecules. -/
theorem C17_constructor_checks_precalculation_sizes (m : CMath R) (stale : Nat → Nat → R)
    (dIndeterminate : R) (refMol fitMol : CMolecule R) (dGaussianCutoff : R)
    (nMaxIntersectionOrder : Int) (precalculationResult : PrecalculationResult R)
    (hc : dGaussianCutoff ≥ 0) (ho : nMaxIntersectionOrder ≥ 1)
    (href : ∀ a ∈ refMol.atomsList, a.position.length = 3)
    (hfit : ∀ a ∈ fitMol.atomsList, a.position.length = 3) :
    (∀ (refAtoms fitAtoms : List (CAtom R)) (pre : PrecalculationResult R),
        (pre.alphaValuesForRef.length ≠ refAtoms.length
          ∨ pre.neighborAtomIdsForRef.length ≠ refAtoms.length
          ∨ pre.squareDistancesMatrixForRef.length ≠ refAtoms.length
          ∨ pre.alphaValuesForFit.length ≠ fitAtoms.length
          ∨ pre.neighborAtomIdsForFit.length ≠ fitAtoms.length
          ∨ pre.squareDistancesMatrixForFit.length ≠ fitAtoms.length) →
        CGaussianVolume.ofAtoms m dIndeterminate (some refAtoms) (some fitAtoms) (some pre)
          = .error .invalidArgument)
      ∧ ∃ pre engine,
          CGaussianVolume.precalculate m stale refMol fitMol dGaussianCutoff
            nMaxIntersectionOrder precalculationResult = .ok pre
          ∧ CGaussianVolume.ofAtoms m dIndeterminate (some refMol.getAtomsList)
              (some fitMol.getAtomsList) (some pre) = .ok engine := by
  constructor
  · intro refAtoms fitAtoms pre hbad
    unfold CGaussianVolume.ofAtoms
    simp only []
    rw [if_neg]
    rintro ⟨h1, h2, h3, h4, h5, h6, -⟩
    rcases hbad with h | h | h | h | h | h
    · exact h h1.symm
    · exact h h2.symm
    · exact h h3.symm
    · exact h h4.symm
    · exact h h5.symm
    · exact h h6.symm
  · obtain ⟨idsRef, idsFit, hok, hlr, hlf, -, -⟩ := precalculate_ok m stale refMol fitMol
      dGaussianCutoff nMaxIntersectionOrder precalculationResult hc (by omega)
      (three_coordinates _ href) (three_coordinates _ hfit)
    obtain ⟨e, he⟩ := initializeIntermolecularInformation_returns m
      { dGaussianCutoff := dIndeterminate
        neighborAtomIds := []
        pFitAtoms := some fitMol.getAtomsList
        pPrecalculationResult := some _
        pRefAtoms := some refMol.getAtomsList
        squareDistancesMatrix := [] }
      refMol.getAtomsList fitMol.getAtomsList _ rfl rfl rfl
      (fun a ha b hb => (href a ha).trans (hfit b hb).symm)
    refine ⟨_, e, hok, ?_⟩
    unfold CGaussianVolume.ofAtoms
    simp only []
    rw [if_pos, he]
    simp [List.enum, CMolecule.getAtomsList, hlr, hlf]

/-- Witness of C17: two one-atom molecules over the reals, cutoff 0 and maximum
order 1; the constructor returns for the result of `precalculate`, and fails
for a default-constructed result, which has no alpha value for the one
reference atom. -/
theorem C17_constructor_checks_precalculation_sizes_witness :
    CGaussianVolume.ofAtoms (⟨Real.exp, fun x y => x ^ y, Real.sin, Real.cos⟩ : CMath ℝ) 0
        (some [⟨1, 1.5, [0, 0, 0]⟩]) (some [⟨1, 1.2, [1, 0, 0]⟩])
        (some (PrecalculationResult.new 0)) = .error .invalidArgument
      ∧ ∃ pre engine, CGaussianVolume.precalculate
          (⟨Real.exp, fun x y => x ^ y, Real.sin, Real.cos⟩ : CMath ℝ)
          (fun _ _ => 0) (CMolecule.new.addAtom ⟨1, 1.5, [0, 0, 0]⟩)
          (CMolecule.new.addAtom ⟨1, 1.2, [1, 0, 0]⟩) 0 1 (PrecalculationResult.new 0) = .ok pre
        ∧ CGaussianVolume.ofAtoms
            (⟨Real.exp, fun x y => x ^ y, Real.sin, Real.cos⟩ : CMath ℝ) 0
            (some (CMolecule.new.addAtom ⟨1, 1.5, [0, 0, 0]⟩ : CMolecule ℝ).getAtomsList)
            (some (CMolecule.new.addAtom ⟨1, 1.2, [1, 0, 0]⟩ : CMolecule ℝ).getAtomsList)
            (some pre) = .ok engine :=
  have h := C17_constructor_checks_precalculation_sizes
    (⟨Real.exp, fun x y => x ^ y, Real.sin, Real.cos⟩ : CMath ℝ) (fun _ _ => 0) 0
    (CMolecule.new.addAtom ⟨1, 1.5, [0, 0, 0]⟩) (CMolecule.new.addAtom ⟨1, 1.2, [1, 0, 0]⟩)
    0 1 (PrecalculationResult.new 0) (le_refl (0 : ℝ)) (by decide)
    (by simp [CMolecule.new, CMolecule.addAtom, CAtom.clone])
    (by simp [CMolecule.new, CMolecule.addAtom, CAtom.clone])
  ⟨h.1 _ _ _ (Or.inl (by simp [PrecalculationResult.new])), h.2⟩

end Precalculation

/-! ## Construction and parameters of the optimizer -/

section Construction

variable {R : Type} [LinearOrderedField R]

/-- C16: the factor setters of the optimizer enforce their ranges.
`setContractionFactor x` and `setReductionFactor x` return iff `0 < x < 1`,
`setExtensionFactor x` returns iff `x > 1`, `setReflectionFactor` accepts every
value; a rejected call fails with invalid-argument and the caller's optimizer
is the one before the call; an accepted call changes the matching factor only,
and the matching getter then returns `x`. -/
theorem C16_factor_setters_enforce_ranges (self : CSimplexOptimizer R) (x : R) :
    ((∃ s, self.setContractionFactor x = .ok s) ↔ 0 < x ∧ x < 1)
      ∧ ((∃ s, self.setReductionFactor x = .ok s) ↔ 0 < x ∧ x < 1)
      ∧ ((∃ s, self.setExtensionFactor x = .ok s) ↔ 1 < x)
      ∧ (¬ (0 < x ∧ x < 1) → self.setContractionFactor x = .error .invalidArgument
          ∧ afterCall self (self.setContractionFactor x) = self)
      ∧ (¬ (0 < x ∧ x < 1) → self.setReductionFactor x = .error .invalidArgument
          ∧ afterCall self (self.setReductionFactor x) = self)
      ∧ (¬ 1 < x → self.setExtensionFactor x = .error .invalidArgument
          ∧ afterCall self (self.setExtensionFactor x) = self)
      ∧ (∀ s, self.setContractionFactor x = .ok s →
          s.getContractionFactor = x ∧ s = { self with dContractionFactor := x })
      ∧ (∀ s, self.setReductionFactor x = .ok s →
          s.getReductionFactor = x ∧ s = { self with dReductionFactor := x })
      ∧ (∀ s, self.setExtensionFactor x = .ok s →
          s.getExtensionFactor = x ∧ s = { self with dExtensionFactor := x })
      ∧ (self.setReflectionFactor x).getReflectionFactor = x
      ∧ self.setReflectionFactor x = { self with dReflectionFactor := x } := by
  have h1 : (1.0 : R) = 1 := by norm_num
  have hcon : self.setContractionFactor x
      = if 0 < x ∧ x < 1 then .ok { self with dContractionFactor := x }
        else .error .invalidArgument := rfl
  have hred : self.setReductionFactor x
      = if 0 < x ∧ x < 1 then .ok { self with dReductionFactor := x }
        else .error .invalidArgument := rfl
  have hext : self.setExtensionFactor x
      = if 1 < x then .ok { self with dExtensionFactor := x }
        else .error .invalidArgument := by
    unfold CSimplexOptimizer.setExtensionFactor
    rw [h1]
  rw [hcon, hred, hext]
  refine ⟨?_, ?_, ?_, ?_, ?_, ?_, ?_, ?_, ?_, rfl, rfl⟩
  · by_cases h : 0 < x ∧ x < 1
    · rw [if_pos h]
      exact ⟨fun _ => h, fun _ => ⟨_, rfl⟩⟩
    · rw [if_neg h]
      exact ⟨fun ⟨s, hs⟩ => (by cases hs), fun h' => absurd h' h⟩
  · by_cases h : 0 < x ∧ x < 1
    · rw [if_pos h]
      exact ⟨fun _ => h, fun _ => ⟨_, rfl⟩⟩
    · rw [if_neg h]
      exact ⟨fun ⟨s, hs⟩ => (by cases hs), fun h' => absurd h' h⟩
  · by_cases h : 1 < x
    · rw [if_pos h]
      exact ⟨fun _ => h, fun _ => ⟨_, rfl⟩⟩
    · rw [if_neg h]
      exact ⟨fun ⟨s, hs⟩ => (by cases hs), fun h' => absurd h' h⟩
  · intro h
    rw [if_neg h]
    exact ⟨rfl, rfl⟩
  · intro h
    rw [if_neg h]
    exact ⟨rfl, rfl⟩
  · intro h
    rw [if_neg h]
    exact ⟨rfl, rfl⟩
  · intro s hs
    by_cases h : 0 < x ∧ x < 1
    · rw [if_pos h] at hs
      cases hs
      exact ⟨rfl, rfl⟩
    · rw [if_neg h] at hs
      cases hs
  · intro s hs
    by_cases h : 0 < x ∧ x < 1
    · rw [if_pos h] at hs
      cases hs
      exact ⟨rfl, rfl⟩
    · rw [if_neg h] at hs
      cases hs
  · intro s hs
    by_cases h : 1 < x
    · rw [if_pos h] at hs
      cases hs
      exact ⟨rfl, rfl⟩
    · rw [if_neg h] at hs
      cases hs

/-- A loop whose body either passes or throws `e` passes on every element or
throws `e`. -/
theorem forM_ok_or_error {α : Type} (l : List α) (body : α → Except Failure PUnit.{1}) (e : Failure)
    (h : ∀ x ∈ l, body x = .ok ⟨⟩ ∨ body x = .error e) :
    (l.forM body = .ok ⟨⟩ ∧ ∀ x ∈ l, body x = .ok ⟨⟩)
      ∨ (l.forM body = .error e ∧ ∃ x ∈ l, body x = .error e) := by
  induction l with
  | nil => exact Or.inl ⟨rfl, fun x hx => absurd hx (List.not_mem_nil x)⟩
  | cons a as ih =>
    have hcons : (a :: as).forM body = body a >>= fun _ => as.forM body := rfl
    rw [hcons]
    rcases h a (List.mem_cons_self a as) with ha | ha
    · rw [ha, ok_bind]
      rcases ih (fun x hx => h x (List.mem_cons_of_mem a hx)) with ⟨h1, h2⟩ | ⟨h1, x, hx, h2⟩
      · refine Or.inl ⟨h1, ?_⟩
        intro x hx
        rcases List.mem_cons.1 hx with rfl | hx
        · exact ha
        · exact h2 x hx
      · exact Or.inr ⟨h1, x, List.mem_cons_of_mem a hx, h2⟩
    · rw [ha]
      exact Or.inr ⟨rfl, a, List.mem_cons_self a as, ha⟩

/-- The validation loop of the constructor for the dimension `n`: it passes
when every group has `n + 1` vertices of `n` coordinates and throws
invalid-argument otherwise. -/
theorem validation_spec {α : Type} (G : List (List (List α))) (n : Int) :
    (G.forM (fun (SOLUTIONS_GROUP : List (List α)) => do
        if (SOLUTIONS_GROUP.length : Int) ≠ n + 1 then
          throw Failure.invalidArgument
        SOLUTIONS_GROUP.forM (fun (solution : List α) =>
          if (solution.length : Int) ≠ n then
            throw Failure.invalidArgument
          else pure ())) = (.ok ⟨⟩ : Except Failure PUnit)
        ∧ ∀ g ∈ G, (g.length : Int) = n + 1 ∧ ∀ v ∈ g, (v.length : Int) = n)
      ∨ (G.forM (fun (SOLUTIONS_GROUP : List (List α)) => do
        if (SOLUTIONS_GROUP.length : Int) ≠ n + 1 then
          throw Failure.invalidArgument
        SOLUTIONS_GROUP.forM (fun (solution : List α) =>
          if (solution.length : Int) ≠ n then
            throw Failure.invalidArgument
          else pure ())) = (.error .invalidArgument : Except Failure PUnit)
        ∧ ¬ ∀ g ∈ G, (g.length : Int) = n + 1 ∧ ∀ v ∈ g, (v.length : Int) = n) := by
  have hinner : ∀ g : List (List α),
      (g.forM (fun (solution : List α) =>
          if (solution.length : Int) ≠ n then
            (throw Failure.invalidArgument : Except Failure PUnit)
          else pure ()) = .ok ⟨⟩ ∧ ∀ v ∈ g, (v.length : Int) = n)
      ∨ (g.forM (fun (solution : List α) =>
          if (solution.length : Int) ≠ n then
            (throw Failure.invalidArgument : Except Failure PUnit)
          else pure ()) = .error .invalidArgument ∧ ¬ ∀ v ∈ g, (v.length : Int) = n) := by
    intro g
    rcases forM_ok_or_error g (fun (solution : List α) =>
          if (solution.length : Int) ≠ n then
            (throw Failure.invalidArgument : Except Failure PUnit)
          else pure ()) .invalidArgument (by
        intro v _
        by_cases hv : (v.length : Int) = n
        · left; simp [hv]; rfl
        · right; simp [hv]; rfl) with ⟨h1, h2⟩ | ⟨h1, v, hv, h2⟩
    · refine Or.inl ⟨h1, ?_⟩
      intro v hv
      by_contra hne
      have := h2 v hv
      simp [hne] at this
    · refine Or.inr ⟨h1, ?_⟩
      intro hall
      simp [hall v hv] at h2
      cases h2
  rcases forM_ok_or_error G (fun (SOLUTIONS_GROUP : List (List α)) => (do
        if (SOLUTIONS_GROUP.length : Int) ≠ n + 1 then
          throw Failure.invalidArgument
        SOLUTIONS_GROUP.forM (fun (solution : List α) =>
          if (solution.length : Int) ≠ n then
            throw Failure.invalidArgument
          else pure ()) : Except Failure PUnit)) .invalidArgument (by
      intro g _
      by_cases hg : (g.length : Int) = n + 1
      · simp only [hg, ne_eq, not_true_eq_false, if_false]
        rcases hinner g with ⟨h1, -⟩ | ⟨h1, -⟩
        · left; simp only [ne_eq] at h1; rw [h1]; rfl
        · right; simp only [ne_eq] at h1; rw [h1]; rfl
      · right
        simp only [ne_eq, hg, not_false_eq_true, if_true]
        rfl) with ⟨h1, h2⟩ | ⟨h1, g, hg, h2⟩
  · refine Or.inl ⟨h1, ?_⟩
    intro g hg
    have hgood := h2 g hg
    by_cases hlen : (g.length : Int) = n + 1
    · refine ⟨hlen, ?_⟩
      simp only [hlen, ne_eq, not_true_eq_false, if_false] at hgood
      rcases hinner g with ⟨-, h4⟩ | ⟨h3, -⟩
      · exact h4
      · simp only [ne_eq] at h3
        rw [show (pure PUnit.unit >>= fun _ => g.forM _) = g.forM _ from rfl] at hgood
        rw [h3] at hgood
        cases hgood
    · simp only [ne_eq, hlen, not_false_eq_true, if_true] at hgood
      cases hgood
  · refine Or.inr ⟨h1, ?_⟩
    intro hall
    obtain ⟨hlen, hv⟩ := hall g hg
    simp only [hlen, ne_eq, not_true_eq_false, if_false] at h2
    rcases hinner g with ⟨h3, -⟩ | ⟨-, h4⟩
    · simp only [ne_eq] at h3
      rw [show (pure PUnit.unit >>= fun _ => g.forM _) = g.forM _ from rfl] at h2
      rw [h3] at h2
      cases h2
    · exact h4 hv

/-- The call `assign(d, 0.0)` with a count that is not negative. -/
theorem vecAssignZero_natCast (d : Nat) :
    (vecAssignZero (d : Int) : Except Failure (List R)) = .ok (List.replicate d 0) := by
  unfold vecAssignZero
  rw [if_neg (by omega), Int.toNat_natCast]

/-- The optimizer that the constructor returns for groups that are valid in
dimension `d`. -/
theorem new_ok (dIndeterminate : R) (G : List (List (List R))) (d : Nat) (hne : G ≠ [])
    (h : validGroups d G) :
    CSimplexOptimizer.new dIndeterminate G = .ok
      { INITIAL_FEASIBLE_SOLUTIONS := G
        currentFeasibleSolutions := []
        currentFunctionValues := List.replicate (d + 1) 0
        dContractionFactor := CSimplexOptimizer.dCONTRACTION_FACTOR
        dExtensionFactor := CSimplexOptimizer.dEXTENSION_FACTOR
        dHighestSolutionValue := -DBL_MAX
        dLowestSolutionValue := DBL_MAX
        dReductionFactor := CSimplexOptimizer.dREDUCTION_FACTOR
        dReflectedPointValue := dIndeterminate
        dReflectionFactor := CSimplexOptimizer.dREFLECTION_FACTOR
        dSecondHighestSolutionValue := -DBL_MAX
        nHighestSolutionId := -1
        nLowestSolutionId := -1
        nPROBLEM_DIMENSION := d
        nSecondHighestSolutionId := -1
        reflectionCentroid := List.replicate d 0
        reflectedPoint := List.replicate d 0 } := by
  obtain ⟨g0, rest, rfl⟩ := List.exists_cons_of_ne_nil hne
  have hg0 := (h g0 (List.mem_cons_self g0 rest)).1
  have hdim : ((g0.length : Int) - 1) = (d : Int) := by rw [hg0]; push_cast; ring
  unfold CSimplexOptimizer.new
  have hget : vecGet (g0 :: rest) 0 = .ok g0 := rfl
  rw [hget, ok_bind]
  simp only [hdim]
  rcases validation_spec (g0 :: rest) (d : Int) with ⟨h1, -⟩ | ⟨-, h2⟩
  · simp only [ne_eq] at h1 ⊢
    rw [h1, ok_bind, vecAssignZero_natCast, ok_bind, ok_bind]
    have h3 : (vecAssignZero ((d : Int) + 1) : Except Failure (List R))
        = .ok (List.replicate (d + 1) 0) := by
      have := vecAssignZero_natCast (R := R) (d + 1)
      push_cast at this
      exact this
    rw [h3, ok_bind]
    have hc : (CSimplexOptimizer.dCONTRACTION_FACTOR : R) > 0
        ∧ (CSimplexOptimizer.dCONTRACTION_FACTOR : R) < 1 := by
      unfold CSimplexOptimizer.dCONTRACTION_FACTOR; norm_num
    have he : (CSimplexOptimizer.dEXTENSION_FACTOR : R) > 1.0 := by
      unfold CSimplexOptimizer.dEXTENSION_FACTOR; norm_num
    have hr : (CSimplexOptimizer.dREDUCTION_FACTOR : R) > 0
        ∧ (CSimplexOptimizer.dREDUCTION_FACTOR : R) < 1 := by
      unfold CSimplexOptimizer.dREDUCTION_FACTOR; norm_num
    unfold CSimplexOptimizer.setContractionFactor CSimplexOptimizer.setExtensionFactor
      CSimplexOptimizer.setReductionFactor CSimplexOptimizer.setReflectionFactor
    rw [if_pos hc, ok_bind, if_pos he, ok_bind, if_pos hr, ok_bind]
    rfl
  · exfalso
    apply h2
    intro g hg
    obtain ⟨hl, hv⟩ := h g hg
    refine ⟨by rw [hl]; push_cast; ring, ?_⟩
    intro v hv'
    rw [hv v hv']

/-- What the constructor does when the validation loop has passed or thrown. -/
theorem new_eq_of_validation (dIndeterminate : R) (g0 : List (List R))
    (rest : List (List (List R))) :
    (¬ (∀ g ∈ g0 :: rest, (g.length : Int) = ((g0.length : Int) - 1) + 1
          ∧ ∀ v ∈ g, (v.length : Int) = (g0.length : Int) - 1) →
        CSimplexOptimizer.new dIndeterminate (g0 :: rest) = .error .invalidArgument)
      ∧ ((∀ g ∈ g0 :: rest, (g.length : Int) = ((g0.length : Int) - 1) + 1
          ∧ ∀ v ∈ g, (v.length : Int) = (g0.length : Int) - 1) → g0 = [] →
        CSimplexOptimizer.new dIndeterminate (g0 :: rest) = .error .lengthError) := by
  have hget : vecGet (g0 :: rest) 0 = .ok g0 := rfl
  constructor
  · intro hbad
    unfold CSimplexOptimizer.new
    rw [hget, ok_bind]
    rcases validation_spec (g0 :: rest) ((g0.length : Int) - 1) with ⟨-, h2⟩ | ⟨h1, -⟩
    · exact absurd h2 hbad
    · simp only [ne_eq] at h1 ⊢
      rw [h1]
      rfl
  · intro hgood hnil
    unfold CSimplexOptimizer.new
    rw [hget, ok_bind]
    rcases validation_spec (g0 :: rest) ((g0.length : Int) - 1) with ⟨h1, -⟩ | ⟨-, h2⟩
    · simp only [ne_eq] at h1 ⊢
      rw [h1, ok_bind]
      have : (vecAssignZero ((g0.length : Int) - 1) : Except Failure (List R))
          = .error .lengthError := by
        unfold vecAssignZero
        rw [hnil]
        simp
      rw [this]
      rfl
    · exact absurd hgood h2

/-- C15: the validation of the constructor. For a non-empty list of groups,
the constructor returns iff some dimension `d` fits every group (`d + 1`
vertices of `d` coordinates each). When no dimension fits and some group has a
vertex, it fails with invalid-argument; when every group is empty (no dimension
fits: the first group gives the dimension `-1`, which every check passes), it
fails with a length error from `assign(-1, 0.0)`, not with invalid-argument. -/
theorem C15_constructor_validates_dimensions (dIndeterminate : R)
    (G : List (List (List R))) (hne : G ≠ []) :
    ((∃ o, CSimplexOptimizer.new dIndeterminate G = .ok o) ↔ ∃ d, validGroups d G)
      ∧ ((∃ g ∈ G, g ≠ []) → (¬ ∃ d, validGroups d G) →
          CSimplexOptimizer.new dIndeterminate G = .error .invalidArgument)
      ∧ ((∀ g ∈ G, g = []) →
          CSimplexOptimizer.new dIndeterminate G = .error .lengthError) := by
  obtain ⟨g0, rest, rfl⟩ := List.exists_cons_of_ne_nil hne
  obtain ⟨hbad, hempty⟩ := new_eq_of_validation dIndeterminate g0 rest
  -- validity in a dimension, from the condition checked by the loop
  have hvalid : (∀ g ∈ g0 :: rest, (g.length : Int) = ((g0.length : Int) - 1) + 1
      ∧ ∀ v ∈ g, (v.length : Int) = (g0.length : Int) - 1) → g0 ≠ [] →
      validGroups (g0.length - 1) (g0 :: rest) := by
    intro hall hg0 g hg
    have hpos : 0 < g0.length := List.length_pos.2 hg0
    obtain ⟨h1, h2⟩ := hall g hg
    refine ⟨by omega, ?_⟩
    intro v hv
    have := h2 v hv
    omega
  have hcheck : ∀ d, validGroups d (g0 :: rest) →
      (∀ g ∈ g0 :: rest, (g.length : Int) = ((g0.length : Int) - 1) + 1
        ∧ ∀ v ∈ g, (v.length : Int) = (g0.length : Int) - 1) ∧ g0 ≠ [] := by
    intro d hd
    have h0 := (hd g0 (List.mem_cons_self g0 rest)).1
    refine ⟨?_, ?_⟩
    · intro g hg
      obtain ⟨h1, h2⟩ := hd g hg
      refine ⟨by omega, ?_⟩
      intro v hv
      have := h2 v hv
      omega
    · intro hnil
      rw [hnil] at h0
      simp at h0
  have hallEmpty : (∀ g ∈ g0 :: rest, g = []) →
      (∀ g ∈ g0 :: rest, (g.length : Int) = ((g0.length : Int) - 1) + 1
        ∧ ∀ v ∈ g, (v.length : Int) = (g0.length : Int) - 1) ∧ g0 = [] := by
    intro hall
    have h0 := hall g0 (List.mem_cons_self g0 rest)
    refine ⟨?_, h0⟩
    intro g hg
    rw [hall g hg, h0]
    simp
  refine ⟨⟨?_, ?_⟩, ?_, ?_⟩
  · rintro ⟨o, ho⟩
    by_cases hall : ∀ g ∈ g0 :: rest, (g.length : Int) = ((g0.length : Int) - 1) + 1
        ∧ ∀ v ∈ g, (v.length : Int) = (g0.length : Int) - 1
    · by_cases hg0 : g0 = []
      · rw [hempty hall hg0] at ho
        cases ho
      · exact ⟨_, hvalid hall hg0⟩
    · rw [hbad hall] at ho
      cases ho
  · rintro ⟨d, hd⟩
    exact ⟨_, new_ok dIndeterminate (g0 :: rest) d hne hd⟩
  · rintro ⟨g, hg, hgne⟩ hno
    apply hbad
    intro hall
    by_cases hg0 : g0 = []
    · have := (hall g hg).1
      rw [hg0] at this
      have hlen : g.length = 0 := by simpa using this
      exact hgne (List.length_eq_zero.1 hlen)
    · exact hno ⟨_, hvalid hall hg0⟩
  · intro hall
    obtain ⟨h1, h2⟩ := hallEmpty hall
    exact hempty h1 h2

/-- Witness of C15: the list with one empty group. No dimension fits it, and
the constructor fails with a length error, not with invalid-argument. -/
theorem C15_constructor_validates_dimensions_witness :
    ([[]] : List (List (List ℚ))) ≠ []
      ∧ (¬ ∃ d, validGroups d ([[]] : List (List (List ℚ))))
      ∧ CSimplexOptimizer.new (0 : ℚ) [[]] = .error .lengthError :=
  ⟨by simp, by simp [validGroups],
    (C15_constructor_validates_dimensions (0 : ℚ) [[]] (by simp)).2.2 (by simp)⟩

/-- C20: the service does not validate the extension and contraction factors
with the ranges of the optimizer. `setSimplexExtensionFactor x` and
`setSimplexContractionFactor x` return iff `x > 0`; an extension factor
`0 < x <= 1`, and a contraction factor `x >= 1` (with a stored extension factor
above 1), are accepted and stored by the service, and the construction of the
optimizer in `evaluateMaxGaussianVolumeOverlap`, which forwards the stored
factors to the setters of the optimizer, then fails with invalid-argument. -/
theorem C20_service_accepts_factors_the_optimizer_rejects (s : CGaussianService R) (x : R)
    (dIndeterminate : R) (G : List (List (List R))) (d : Nat) (hne : G ≠ [])
    (hvalid : validGroups d G) :
    ((∃ s', s.setSimplexExtensionFactor x = .ok s') ↔ 0 < x)
      ∧ ((∃ s', s.setSimplexContractionFactor x = .ok s') ↔ 0 < x)
      ∧ (0 < x → x ≤ 1 →
        ∃ s', s.setSimplexExtensionFactor x = .ok s'
          ∧ s'.getSimplexExtensionFactor = x
          ∧ s'.constructSimplexOptimizer dIndeterminate G = .error .invalidArgument)
      ∧ (1 ≤ x → 1 < s.getSimplexExtensionFactor →
        ∃ s', s.setSimplexContractionFactor x = .ok s'
          ∧ s'.getSimplexContractionFactor = x
          ∧ s'.constructSimplexOptimizer dIndeterminate G = .error .invalidArgument) := by
  have h1 : (1.0 : R) = 1 := by norm_num
  refine ⟨?_, ?_, ?_, ?_⟩
  · unfold CGaussianService.setSimplexExtensionFactor
    by_cases h : x > 0
    · rw [if_pos h]
      exact ⟨fun _ => h, fun _ => ⟨_, rfl⟩⟩
    · rw [if_neg h]
      exact ⟨fun ⟨s', hs'⟩ => (by cases hs'), fun h' => absurd h' h⟩
  · unfold CGaussianService.setSimplexContractionFactor
    by_cases h : x > 0
    · rw [if_pos h]
      exact ⟨fun _ => h, fun _ => ⟨_, rfl⟩⟩
    · rw [if_neg h]
      exact ⟨fun ⟨s', hs'⟩ => (by cases hs'), fun h' => absurd h' h⟩
  · intro hpos hle
    refine ⟨_, if_pos hpos, rfl, ?_⟩
    unfold CGaussianService.constructSimplexOptimizer
    rw [new_ok dIndeterminate G d hne hvalid, ok_bind]
    unfold CSimplexOptimizer.setExtensionFactor CGaussianService.getSimplexExtensionFactor
    simp only [h1]
    rw [if_neg (not_lt.2 hle)]
    rfl
  · intro hge hext
    refine ⟨_, if_pos (lt_of_lt_of_le one_pos hge), rfl, ?_⟩
    unfold CGaussianService.constructSimplexOptimizer
    rw [new_ok dIndeterminate G d hne hvalid, ok_bind]
    unfold CGaussianService.getSimplexExtensionFactor at hext
    have hext' : s.parameterAggregation.dSimplexExtensionFactor > (1.0 : R) := by
      rw [h1]; exact hext
    unfold CSimplexOptimizer.setExtensionFactor CGaussianService.getSimplexExtensionFactor
    simp only []
    rw [if_pos hext', ok_bind]
    unfold CSimplexOptimizer.setContractionFactor CGaussianService.getSimplexContractionFactor
    rw [if_neg (fun h => absurd h.2 (not_lt.2 hge))]

/-- Witness of C20: the service with its default parameters, the extension
factor `1/2` and the contraction factor `2`, and the group `[0], [1]`. -/
theorem C20_service_accepts_factors_the_optimizer_rejects_witness :
    ([[[0], [1]]] : List (List (List ℚ))) ≠ []
      ∧ validGroups 1 ([[[0], [1]]] : List (List (List ℚ)))
      ∧ (∃ s', (⟨⟨0.5, 3.5, 1, 16, 60⟩⟩ : CGaussianService ℚ).setSimplexExtensionFactor (1 / 2)
            = .ok s'
          ∧ s'.getSimplexExtensionFactor = 1 / 2
          ∧ s'.constructSimplexOptimizer 0 [[[0], [1]]] = .error .invalidArgument)
      ∧ ∃ s', (⟨⟨0.5, 3.5, 1, 16, 60⟩⟩ : CGaussianService ℚ).setSimplexContractionFactor 2
            = .ok s'
          ∧ s'.getSimplexContractionFactor = 2
          ∧ s'.constructSimplexOptimizer 0 [[[0], [1]]] = .error .invalidArgument :=
  have hvalid : validGroups 1 ([[[0], [1]]] : List (List (List ℚ))) := by simp [validGroups]
  ⟨by simp, hvalid,
    (C20_service_accepts_factors_the_optimizer_rejects
      (⟨⟨0.5, 3.5, 1, 16, 60⟩⟩ : CGaussianService ℚ) (1 / 2) 0 [[[0], [1]]] 1 (by simp)
      hvalid).2.2.1 (by norm_num) (by norm_num),
    (C20_service_accepts_factors_the_optimizer_rejects
      (⟨⟨0.5, 3.5, 1, 16, 60⟩⟩ : CGaussianService ℚ) 2 0 [[[0], [1]]] 1 (by simp)
      hvalid).2.2.2 (by norm_num) (by norm_num [CGaussianService.getSimplexExtensionFactor])⟩

end Construction

/-! ## Iterations of the optimizer -/

section Iterations

variable {R : Type} [LinearOrderedField R]

/-- A checked read that returns has read at an index inside the vector. -/
theorem vecGet_ok_inv {α : Type} (v : List α) (i : Int) (x : α) (h : vecGet v i = .ok x) :
    ∃ n : Nat, i = (n : Int) ∧ n < v.length := by
  unfold vecGet at h
  by_cases hneg : i < 0
  · rw [if_pos hneg] at h; cases h
  · rw [if_neg hneg] at h
    refine ⟨i.toNat, by omega, ?_⟩
    by_contra hlen
    rw [List.get?_eq_none.2 (by omega)] at h
    cases h

/-- The scan of `updateSpecialVertices` changes only the three tracked indices
and values. -/
theorem updateSpecialVertices_frame (s : CSimplexOptimizer R) :
    s.updateSpecialVertices.config = s.config
      ∧ s.updateSpecialVertices.currentFeasibleSolutions = s.currentFeasibleSolutions
      ∧ s.updateSpecialVertices.currentFunctionValues = s.currentFunctionValues
      ∧ s.updateSpecialVertices.reflectionCentroid = s.reflectionCentroid
      ∧ s.updateSpecialVertices.reflectedPoint = s.reflectedPoint
      ∧ s.updateSpecialVertices.dReflectedPointValue = s.dReflectedPointValue := by
  have key := foldl_enumFrom_invariant
    (fun (self : CSimplexOptimizer R) (iv : Nat × R) =>
      self.updateSpecialVerticesStep iv.1 iv.2)
    (fun _ t => t.config = s.config
      ∧ t.currentFeasibleSolutions = s.currentFeasibleSolutions
      ∧ t.currentFunctionValues = s.currentFunctionValues
      ∧ t.reflectionCentroid = s.reflectionCentroid
      ∧ t.reflectedPoint = s.reflectedPoint
      ∧ t.dReflectedPointValue = s.dReflectedPointValue)
    s.currentFunctionValues 0
    { s with
      nHighestSolutionId := -1
      nLowestSolutionId := -1
      nSecondHighestSolutionId := -1
      dHighestSolutionValue := -DBL_MAX
      dLowestSolutionValue := DBL_MAX
      dSecondHighestSolutionValue := -DBL_MAX }
    ⟨rfl, rfl, rfl, rfl, rfl, rfl⟩
    (by
      intro k hk t ht
      obtain ⟨h1, h2, h3, h4, h5, h6⟩ := ht
      obtain ⟨sc, ssol, sval, -⟩ :=
        updateSpecialVerticesStep_spec t ((0 + k : Nat) : Int) s.currentFunctionValues[k]
      refine ⟨sc.trans h1, ssol.trans h2, sval.trans h3, ?_, ?_, ?_⟩
      · rw [← h4]
        unfold CSimplexOptimizer.updateSpecialVerticesStep
        simp only []
        split_ifs <;> rfl
      · rw [← h5]
        unfold CSimplexOptimizer.updateSpecialVerticesStep
        simp only []
        split_ifs <;> rfl
      · rw [← h6]
        unfold CSimplexOptimizer.updateSpecialVerticesStep
        simp only []
        split_ifs <;> rfl)
  exact key

/-- When the reflection centroid is computed, the highest index is an index of
the simplex. -/
theorem updateReflectionCentroid_inv (s s2 : CSimplexOptimizer R) (d : Nat)
    (hdim : s.nPROBLEM_DIMENSION = d)
    (hsize : ∀ v ∈ s.currentFeasibleSolutions, v.length = d)
    (h : s.updateReflectionCentroid = .ok s2) :
    ∃ hi : Nat, s.nHighestSolutionId = hi ∧ hi < s.currentFeasibleSolutions.length := by
  unfold CSimplexOptimizer.updateReflectionCentroid at h
  have hzero : (vecAssignZero (s.nPROBLEM_DIMENSION) : Except Failure (List R))
      = .ok (List.replicate d 0) := by
    unfold vecAssignZero
    rw [hdim, if_neg (by omega), Int.toNat_natCast]
  obtain ⟨c1, -, hfold⟩ := foldlM_add_length s.currentFeasibleSolutions d hsize
    (List.replicate d 0) (List.length_replicate d 0)
  rw [hzero, ok_bind, hfold, ok_bind] at h
  cases hget : vecGet s.currentFeasibleSolutions s.nHighestSolutionId with
  | error e => rw [hget] at h; cases h
  | ok x => exact vecGet_ok_inv _ _ x hget

/-- When the reduction is computed, the lowest index is an index of the
simplex. -/
theorem doReduction_inv (s s2 : CSimplexOptimizer R) (h : s.doReduction = .ok s2) :
    ∃ lo : Nat, s.nLowestSolutionId = lo ∧ lo < s.currentFeasibleSolutions.length := by
  unfold CSimplexOptimizer.doReduction at h
  cases hget : vecGet s.currentFeasibleSolutions s.nLowestSolutionId with
  | error e => rw [hget] at h; cases h
  | ok x => exact vecGet_ok_inv _ _ x hget

/-- The contraction step either replaces the highest vertex and its cached
value, or is the reduction followed by the re-evaluation. -/
theorem doContraction_cases (f : List R → R) (t : CSimplexOptimizer R) (d hi : Nat)
    (hsize : ∀ v ∈ t.currentFeasibleSolutions, v.length = d)
    (hc : t.reflectionCentroid.length = d) (hp : t.reflectedPoint.length = d)
    (hlen : t.currentFunctionValues.length = t.currentFeasibleSolutions.length)
    (hhi : hi < t.currentFeasibleSolutions.length) (hid : t.nHighestSolutionId = hi) :
    (∃ x : List R, x.length = d
        ∧ t.doContraction f = .ok { t with
            currentFeasibleSolutions := t.currentFeasibleSolutions.set hi x
            currentFunctionValues := t.currentFunctionValues.set hi (f x) })
      ∨ t.doContraction f = (do
          let self ← t.doReduction
          self.evaluateAllCurrentSolutions f) := by
  have hvert : (t.currentFeasibleSolutions.getD hi []).length = d := by
    apply hsize
    rw [List.getD_eq_getElem _ [] hhi]
    exact List.getElem_mem _
  have hgetv : vecGet t.currentFunctionValues t.nHighestSolutionId
      = .ok (t.currentFunctionValues.getD hi 0) := by
    rw [hid]; exact vecGet_natCast _ hi 0 (by omega)
  have hgets : vecGet t.currentFeasibleSolutions t.nHighestSolutionId
      = .ok (t.currentFeasibleSolutions.getD hi []) := by
    rw [hid]; exact vecGet_natCast _ hi [] hhi
  have hrest : ∀ (lowerPoint : List R) (dLowerPointValue : R), lowerPoint.length = d →
      (∃ x : List R, x.length = d
        ∧ (do
            let contractedPoint ← CMathematics.substract lowerPoint t.reflectionCentroid
            let contractedPoint := CMathematics.multiply contractedPoint t.dContractionFactor
            let contractedPoint ← CMathematics.add contractedPoint t.reflectionCentroid
            let dContractedPointValue := f contractedPoint
            if dContractedPointValue ≤ dLowerPointValue then
              pure { t with
                currentFeasibleSolutions :=
                  (← vecSet t.currentFeasibleSolutions t.nHighestSolutionId contractedPoint)
                currentFunctionValues :=
                  (← vecSet t.currentFunctionValues t.nHighestSolutionId
                    dContractedPointValue) }
            else
              let self ← t.doReduction
              self.evaluateAllCurrentSolutions f : Except Failure (CSimplexOptimizer R))
          = .ok { t with
            currentFeasibleSolutions := t.currentFeasibleSolutions.set hi x
            currentFunctionValues := t.currentFunctionValues.set hi (f x) })
      ∨ ((do
            let contractedPoint ← CMathematics.substract lowerPoint t.reflectionCentroid
            let contractedPoint := CMathematics.multiply contractedPoint t.dContractionFactor
            let contractedPoint ← CMathematics.add contractedPoint t.reflectionCentroid
            let dContractedPointValue := f contractedPoint
            if dContractedPointValue ≤ dLowerPointValue then
              pure { t with
                currentFeasibleSolutions :=
                  (← vecSet t.currentFeasibleSolutions t.nHighestSolutionId contractedPoint)
                currentFunctionValues :=
                  (← vecSet t.currentFunctionValues t.nHighestSolutionId
                    dContractedPointValue) }
            else
              let self ← t.doReduction
              self.evaluateAllCurrentSolutions f : Except Failure (CSimplexOptimizer R))
          = (do
              let self ← t.doReduction
              self.evaluateAllCurrentSolutions f)) := by
    intro lowerPoint dLowerPointValue hlower
    obtain ⟨x, hx, hcomp⟩ := affine_ok lowerPoint t.reflectionCentroid t.reflectionCentroid
      t.dContractionFactor d hlower hc hc
    cases hsub : CMathematics.substract lowerPoint t.reflectionCentroid with
    | error e => rw [hsub] at hcomp; cases hcomp
    | ok q =>
      rw [hsub, ok_bind] at hcomp
      simp only [ok_bind, hcomp, hid]
      by_cases hle : f x ≤ dLowerPointValue
      · left
        refine ⟨x, hx, ?_⟩
        simp only [hle, if_true]
        rw [vecSet_natCast _ hi _ hhi, ok_bind, vecSet_natCast _ hi _ (by omega), ok_bind]
        rfl
      · right
        simp only [hle, if_false]
  unfold CSimplexOptimizer.doContraction
  rw [hgetv, ok_bind]
  by_cases hlt : t.currentFunctionValues.getD hi 0 < t.dReflectedPointValue
  · simp only [hlt, if_true]
    rw [hgets]
    exact hrest _ _ hvert
  · simp only [hlt, if_false]
    exact hrest _ _ hp

/-- One iteration on a simplex of the right shape whose highest index `hi` is
an index of the simplex: the centroid `c` and the reflected point `p` are
computed, and the iteration is the branch selected by `f p`. -/
theorem iteration_unfold (f : List R → R) (d hi : Nat) (s : CSimplexOptimizer R)
    (hshape : s.SimplexShape d) (hid : s.updateSpecialVertices.nHighestSolutionId = hi)
    (hhi : hi < d + 1) :
    ∃ c p : List R, c.length = d ∧ p.length = d
      ∧ s.iteration f
        = (if f p < s.updateSpecialVertices.dLowestSolutionValue then
            CSimplexOptimizer.doExtention f { s.updateSpecialVertices with
              reflectionCentroid := c, reflectedPoint := p, dReflectedPointValue := f p }
          else if f p ≥ s.updateSpecialVertices.dLowestSolutionValue
              ∧ f p ≤ s.updateSpecialVertices.dSecondHighestSolutionValue then
            .ok { s.updateSpecialVertices with
              reflectionCentroid := c, reflectedPoint := p, dReflectedPointValue := f p
              currentFeasibleSolutions := s.currentFeasibleSolutions.set hi p
              currentFunctionValues := s.currentFunctionValues.set hi (f p) }
          else
            CSimplexOptimizer.doContraction f { s.updateSpecialVertices with
              reflectionCentroid := c, reflectedPoint := p, dReflectedPointValue := f p }) := by
  obtain ⟨hdim, hcount, hsize, hvlen⟩ := hshape
  obtain ⟨hc1, hsol1, hval1, -⟩ := updateSpecialVertices_frame s
  have hdim1 : s.updateSpecialVertices.nPROBLEM_DIMENSION = d := by
    have := congrArg (fun c => c.2.1) hc1
    exact this.trans hdim
  obtain ⟨c, hclen, hcen⟩ := updateReflectionCentroid_ok s.updateSpecialVertices d hi hdim1
    (by rw [hsol1]; exact hsize) (by rw [hsol1, hcount]; exact hhi) hid
  obtain ⟨p, hplen, hrefl⟩ := doReflection_ok f
    { s.updateSpecialVertices with reflectionCentroid := c } d hi
    (by show ∀ v ∈ s.updateSpecialVertices.currentFeasibleSolutions, v.length = d
        rw [hsol1]; exact hsize)
    hclen
    (by show hi < s.updateSpecialVertices.currentFeasibleSolutions.length
        rw [hsol1, hcount]; exact hhi)
    hid
  refine ⟨c, p, hclen, hplen, ?_⟩
  unfold CSimplexOptimizer.iteration
  simp only []
  rw [hcen, ok_bind, hrefl, ok_bind]
  simp only []
  split_ifs
  · rfl
  · rw [hid, hsol1, hval1, vecSet_natCast _ hi _ (by omega), ok_bind,
      vecSet_natCast _ hi _ (by omega), ok_bind]
    rfl
  · rfl

/-- Every iteration that returns keeps the shape of the simplex and the
configuration of the optimizer. -/
theorem iteration_shape (f : List R → R) (d : Nat) (s s' : CSimplexOptimizer R)
    (hshape : s.SimplexShape d) (h : s.iteration f = .ok s') :
    s'.SimplexShape d ∧ s'.config = s.config := by
  have hshape0 := hshape
  obtain ⟨hdim, hcount, hsize, hvlen⟩ := hshape
  obtain ⟨hc1, hsol1, hval1, -⟩ := updateSpecialVertices_frame s
  have hdim1 : s.updateSpecialVertices.nPROBLEM_DIMENSION = d := by
    have := congrArg (fun c => c.2.1) hc1
    exact this.trans hdim
  -- the highest index is an index of the simplex
  have hhigh : ∃ hi : Nat, s.updateSpecialVertices.nHighestSolutionId = hi ∧ hi < d + 1 := by
    cases hcen : s.updateSpecialVertices.updateReflectionCentroid with
    | error e =>
      unfold CSimplexOptimizer.iteration at h
      simp only [] at h
      rw [hcen] at h
      cases h
    | ok s2 =>
      obtain ⟨hi, h1, h2⟩ := updateReflectionCentroid_inv s.updateSpecialVertices s2 d hdim1
        (by rw [hsol1]; exact hsize) hcen
      exact ⟨hi, h1, by rw [hsol1, hcount] at h2; exact h2⟩
  obtain ⟨hi, hid, hhi⟩ := hhigh
  obtain ⟨c, p, hclen, hplen, hiter⟩ := iteration_unfold f d hi s hshape0 hid hhi
  rw [hiter] at h
  have hsols3 : ({ s.updateSpecialVertices with
      reflectionCentroid := c, reflectedPoint := p, dReflectedPointValue := f p } :
      CSimplexOptimizer R).currentFeasibleSolutions = s.currentFeasibleSolutions := hsol1
  have hvals3 : ({ s.updateSpecialVertices with
      reflectionCentroid := c, reflectedPoint := p, dReflectedPointValue := f p } :
      CSimplexOptimizer R).currentFunctionValues = s.currentFunctionValues := hval1
  -- the shape after a replacement of the highest vertex
  have hreplaced : ∀ (x : List R), x.length = d → ∀ t : CSimplexOptimizer R,
      t = { s.updateSpecialVertices with
          reflectionCentroid := c, reflectedPoint := p, dReflectedPointValue := f p
          currentFeasibleSolutions := s.currentFeasibleSolutions.set hi x
          currentFunctionValues := s.currentFunctionValues.set hi (f x) } →
      t.SimplexShape d ∧ t.config = s.config := by
    intro x hx t ht
    subst ht
    refine ⟨⟨hdim1, ?_, ?_, ?_⟩, hc1⟩
    · show (s.currentFeasibleSolutions.set hi x).length = d + 1
      rw [List.length_set, hcount]
    · intro v hv
      rcases List.mem_or_eq_of_mem_set hv with hv | hv
      · exact hsize v hv
      · rw [hv]; exact hx
    · show (s.currentFunctionValues.set hi (f x)).length = d + 1
      rw [List.length_set, hvlen]
  split_ifs at h
  · obtain ⟨x, hx, hext⟩ := doExtention_ok f { s.updateSpecialVertices with
      reflectionCentroid := c, reflectedPoint := p, dReflectedPointValue := f p } d hi
      hclen hplen rfl (by rw [hsols3]; omega) (by rw [hvals3]; omega) hid
    rw [hext] at h
    injection h with h
    apply hreplaced x hx
    rw [← h]
    show _ = ({ s.updateSpecialVertices with
      reflectionCentroid := c, reflectedPoint := p, dReflectedPointValue := f p
      currentFeasibleSolutions := s.currentFeasibleSolutions.set hi x
      currentFunctionValues := s.currentFunctionValues.set hi (f x) } : CSimplexOptimizer R)
    rw [← hsol1, ← hval1]
  · injection h with h
    exact hreplaced p hplen s' h.symm
  · rcases doContraction_cases f { s.updateSpecialVertices with
      reflectionCentroid := c, reflectedPoint := p, dReflectedPointValue := f p } d hi
      (by rw [hsols3]; exact hsize) hclen hplen (by rw [hsols3, hvals3, hvlen, hcount])
      (by rw [hsols3]; omega) hid with ⟨x, hx, hcon⟩ | hcon
    · rw [hcon] at h
      injection h with h
      apply hreplaced x hx
      rw [← h]
      show _ = ({ s.updateSpecialVertices with
        reflectionCentroid := c, reflectedPoint := p, dReflectedPointValue := f p
        currentFeasibleSolutions := s.currentFeasibleSolutions.set hi x
        currentFunctionValues := s.currentFunctionValues.set hi (f x) } : CSimplexOptimizer R)
      rw [← hsol1, ← hval1]
    · rw [hcon] at h
      cases hred : CSimplexOptimizer.doReduction { s.updateSpecialVertices with
          reflectionCentroid := c, reflectedPoint := p, dReflectedPointValue := f p } with
      | error e => rw [hred] at h; cases h
      | ok t2 =>
        obtain ⟨lo, hlid, hlo⟩ := doReduction_inv _ t2 hred
        obtain ⟨sols, hsl, hsv, -, hred'⟩ := doReduction_ok { s.updateSpecialVertices with
          reflectionCentroid := c, reflectedPoint := p, dReflectedPointValue := f p } d lo
          (by rw [hsols3]; exact hsize) hlo hlid
        rw [hred', ok_bind, evaluateAllCurrentSolutions_ok f _ (by
          show s.updateSpecialVertices.currentFunctionValues.length = sols.length
          rw [hval1, hvlen, hsl, hsols3, hcount])] at h
        injection h with h
        subst h
        refine ⟨⟨hdim1, ?_, hsv, ?_⟩, hc1⟩
        · show sols.length = d + 1
          rw [hsl, hsols3, hcount]
        · show (sols.map f).length = d + 1
          rw [List.length_map, hsl, hsols3, hcount]

/-- The recording of a course node after the operation `t` of type `ty`. -/
theorem record_node (t : Except Failure (CSimplexOptimizer R))
    (ty : CourseNode.OperationType) (r : Except Failure (CSimplexOptimizer R × CourseNode R))
    (hr : r = (do
      let step ← (do
        let self ← t
        pure (self, ({ lowestPoint := [], dLowestValue := 0.0, operationType := ty } :
          CourseNode R)))
      let p ← vecGet step.1.currentFeasibleSolutions step.1.nLowestSolutionId
      let v ← vecGet step.1.currentFunctionValues step.1.nLowestSolutionId
      pure (step.1, { lowestPoint := p, dLowestValue := v,
                      operationType := step.2.operationType }))) :
    (∀ s' node, r = .ok (s', node) →
        t = .ok s'
          ∧ vecGet s'.currentFeasibleSolutions s'.nLowestSolutionId = .ok node.lowestPoint
          ∧ vecGet s'.currentFunctionValues s'.nLowestSolutionId = .ok node.dLowestValue
          ∧ node.operationType = ty)
      ∧ (∀ s' p v, t = .ok s' →
          vecGet s'.currentFeasibleSolutions s'.nLowestSolutionId = .ok p →
          vecGet s'.currentFunctionValues s'.nLowestSolutionId = .ok v →
          r = .ok (s', { lowestPoint := p, dLowestValue := v, operationType := ty })) := by
  subst hr
  cases t with
  | error e =>
    refine ⟨fun s' node h => ?_, fun s' p v h => ?_⟩
    · cases h
    · cases h
  | ok s4 =>
    refine ⟨fun s' node h => ?_, fun s' p v h hp hv => ?_⟩
    · rw [ok_bind] at h
      change (vecGet s4.currentFeasibleSolutions s4.nLowestSolutionId >>= _) = _ at h
      cases hp : vecGet s4.currentFeasibleSolutions s4.nLowestSolutionId with
      | error e => rw [hp] at h; cases h
      | ok p =>
        rw [hp, ok_bind] at h
        cases hv : vecGet s4.currentFunctionValues s4.nLowestSolutionId with
        | error e => rw [hv] at h; cases h
        | ok v =>
          rw [hv, ok_bind] at h
          injection h with h
          injection h with h1 h2
          subst h1; subst h2
          exact ⟨rfl, hp, hv, rfl⟩
    · injection h with h
      subst h
      rw [ok_bind]
      change (vecGet s4.currentFeasibleSolutions s4.nLowestSolutionId >>= _) = _
      rw [hp, ok_bind, hv, ok_bind]
      rfl

/-- An iteration of `traceOptimization` is the iteration of `runOptimization`
followed by the recording of the node: the branch taken, and the vertex and the
cached value at the lowest index. -/
theorem traceIteration_spec (f : List R → R) (s : CSimplexOptimizer R) :
    (∀ s' node, s.traceIteration f = .ok (s', node) →
        s.iteration f = .ok s'
          ∧ vecGet s'.currentFeasibleSolutions s'.nLowestSolutionId = .ok node.lowestPoint
          ∧ vecGet s'.currentFunctionValues s'.nLowestSolutionId = .ok node.dLowestValue
          ∧ node.operationType ≠ .OperationType_Default)
      ∧ (∀ s' p v, s.iteration f = .ok s' →
          vecGet s'.currentFeasibleSolutions s'.nLowestSolutionId = .ok p →
          vecGet s'.currentFunctionValues s'.nLowestSolutionId = .ok v →
          ∃ node, s.traceIteration f = .ok (s', node)) := by
  -- both bodies, after the common prefix
  have key : ∀ (t : Except Failure (CSimplexOptimizer R)) (ty : CourseNode.OperationType)
      (r : Except Failure (CSimplexOptimizer R × CourseNode R)),
      ty ≠ .OperationType_Default →
      r = (do
        let step ← (do
          let self ← t
          pure (self, ({ lowestPoint := [], dLowestValue := 0.0, operationType := ty } :
            CourseNode R)))
        let p ← vecGet step.1.currentFeasibleSolutions step.1.nLowestSolutionId
        let v ← vecGet step.1.currentFunctionValues step.1.nLowestSolutionId
        pure (step.1, { lowestPoint := p, dLowestValue := v,
                        operationType := step.2.operationType })) →
      (∀ s' node, r = .ok (s', node) →
        t = .ok s'
          ∧ vecGet s'.currentFeasibleSolutions s'.nLowestSolutionId = .ok node.lowestPoint
          ∧ vecGet s'.currentFunctionValues s'.nLowestSolutionId = .ok node.dLowestValue
          ∧ node.operationType ≠ .OperationType_Default)
      ∧ (∀ s' p v, t = .ok s' →
          vecGet s'.currentFeasibleSolutions s'.nLowestSolutionId = .ok p →
          vecGet s'.currentFunctionValues s'.nLowestSolutionId = .ok v →
          ∃ node, r = .ok (s', node)) := by
    intro t ty r hty hr
    obtain ⟨h1, h2⟩ := record_node t ty r hr
    refine ⟨fun s' node h => ?_, fun s' p v h hp hv => ⟨_, h2 s' p v h hp hv⟩⟩
    obtain ⟨a, b, c, d⟩ := h1 s' node h
    exact ⟨a, b, c, by rw [d]; exact hty⟩
  unfold CSimplexOptimizer.traceIteration CSimplexOptimizer.iteration
  simp only []
  cases hcen : s.updateSpecialVertices.updateReflectionCentroid with
  | error e =>
    refine ⟨fun s' node h => ?_, fun s' p v h => ?_⟩
    · rw [error_bind] at h; cases h
    · rw [error_bind] at h; cases h
  | ok s2 =>
    rw [ok_bind, ok_bind]
    cases hrefl : s2.doReflection f with
    | error e =>
      refine ⟨fun s' node h => ?_, fun s' p v h => ?_⟩
      · rw [error_bind] at h; cases h
      · rw [error_bind] at h; cases h
    | ok s3 =>
      rw [ok_bind, ok_bind]
      simp only [CourseNode.setOperationType, CourseNode.setLowestPoint,
        CourseNode.setLowestValue, CourseNode.new]
      split_ifs with h1 h2
      · refine key (s3.doExtention f) .OperationType_Extension _ (by decide) ?_
        cases s3.doExtention f <;> rfl
      · refine key _ .OperationType_Replacement _ (by decide) ?_
        cases hs : vecSet s3.currentFeasibleSolutions s3.nHighestSolutionId s3.reflectedPoint with
        | error e => rfl
        | ok sols =>
          cases hv : vecSet s3.currentFunctionValues s3.nHighestSolutionId
              s3.dReflectedPointValue with
          | error e => rfl
          | ok vals => rfl
      · refine key (s3.doContraction f) .OperationType_Contraction _ (by decide) ?_
        cases s3.doContraction f <;> rfl

/-- An iteration on a simplex of the right shape whose cached values lie
strictly between `-DBL_MAX` and `DBL_MAX` returns, and the lowest index it
leaves is an index of the simplex. -/
theorem iteration_returns (f : List R → R) (d : Nat) (s : CSimplexOptimizer R)
    (hshape : s.SimplexShape d)
    (hrange : ∀ v ∈ s.currentFunctionValues, -DBL_MAX < v ∧ v < DBL_MAX) :
    ∃ (s' : CSimplexOptimizer R) (lo : Nat), s.iteration f = .ok s'
      ∧ s'.nLowestSolutionId = lo ∧ lo < d + 1 := by
  have hshape0 := hshape
  obtain ⟨hdim, hcount, hsize, hvlen⟩ := hshape
  obtain ⟨hc1, hsol1, hval1, hi, lo, hhi, hlo, hid, hlid, -⟩ :=
    updateSpecialVertices_spec s (by omega) hrange
  rw [hvlen] at hhi hlo
  obtain ⟨c, p, hclen, hplen, hiter⟩ := iteration_unfold f d hi s hshape0 hid hhi
  have hsols3 : ({ s.updateSpecialVertices with
      reflectionCentroid := c, reflectedPoint := p, dReflectedPointValue := f p } :
      CSimplexOptimizer R).currentFeasibleSolutions = s.currentFeasibleSolutions := hsol1
  have hvals3 : ({ s.updateSpecialVertices with
      reflectionCentroid := c, reflectedPoint := p, dReflectedPointValue := f p } :
      CSimplexOptimizer R).currentFunctionValues = s.currentFunctionValues := hval1
  rw [hiter]
  split_ifs
  · obtain ⟨x, hx, hext⟩ := doExtention_ok f { s.updateSpecialVertices with
      reflectionCentroid := c, reflectedPoint := p, dReflectedPointValue := f p } d hi
      hclen hplen rfl (by rw [hsols3]; omega) (by rw [hvals3]; omega) hid
    rw [hext]
    exact ⟨_, lo, rfl, hlid, hlo⟩
  · exact ⟨_, lo, rfl, hlid, hlo⟩
  · rcases doContraction_ok f { s.updateSpecialVertices with
      reflectionCentroid := c, reflectedPoint := p, dReflectedPointValue := f p } d hi lo
      (by rw [hsols3]; exact hsize) hclen hplen (by rw [hsols3, hvals3, hvlen, hcount])
      (by rw [hsols3]; omega) hid (by rw [hsols3]; omega) hlid with
      ⟨x, hx, hcon⟩ | ⟨sols, hsl, hsv, hslo, hcon⟩
    · rw [hcon]
      exact ⟨_, lo, rfl, hlid, hlo⟩
    · rw [hcon]
      exact ⟨_, lo, rfl, hlid, hlo⟩

omit [LinearOrderedField R] in
/-- The evaluation of the vertices carries the initial groups over. -/
theorem evaluateAllCurrentSolutions_groups (f : List R → R) (x : CSimplexOptimizer R)
    (I : List (List (List R))) :
    CSimplexOptimizer.evaluateAllCurrentSolutions f { x with INITIAL_FEASIBLE_SOLUTIONS := I }
      = (fun y => { y with INITIAL_FEASIBLE_SOLUTIONS := I })
          <$> x.evaluateAllCurrentSolutions f := by
  unfold CSimplexOptimizer.evaluateAllCurrentSolutions
  simp only [map_bind, map_pure]

/-- The reduction carries the initial groups over. -/
theorem doReduction_groups (x : CSimplexOptimizer R) (I : List (List (List R))) :
    CSimplexOptimizer.doReduction { x with INITIAL_FEASIBLE_SOLUTIONS := I }
      = (fun y => { y with INITIAL_FEASIBLE_SOLUTIONS := I }) <$> x.doReduction := by
  unfold CSimplexOptimizer.doReduction
  simp only [map_bind, map_pure]

/-- The extension carries the initial groups over. -/
theorem doExtention_groups (f : List R → R) (x : CSimplexOptimizer R)
    (I : List (List (List R))) :
    CSimplexOptimizer.doExtention f { x with INITIAL_FEASIBLE_SOLUTIONS := I }
      = (fun y => { y with INITIAL_FEASIBLE_SOLUTIONS := I }) <$> x.doExtention f := by
  unfold CSimplexOptimizer.doExtention
  have hite : ∀ (c : Prop) [Decidable c] (a b : Except Failure (CSimplexOptimizer R)),
      ((fun y => { y with INITIAL_FEASIBLE_SOLUTIONS := I }) <$> (if c then a else b))
        = if c then (fun y => { y with INITIAL_FEASIBLE_SOLUTIONS := I }) <$> a
          else (fun y => { y with INITIAL_FEASIBLE_SOLUTIONS := I }) <$> b := by
    intro c _ a b
    split_ifs <;> rfl
  simp only [map_bind, map_pure, hite]

/-- The contraction carries the initial groups over. -/
theorem doContraction_groups (f : List R → R) (x : CSimplexOptimizer R)
    (I : List (List (List R))) :
    CSimplexOptimizer.doContraction f { x with INITIAL_FEASIBLE_SOLUTIONS := I }
      = (fun y => { y with INITIAL_FEASIBLE_SOLUTIONS := I }) <$> x.doContraction f := by
  unfold CSimplexOptimizer.doContraction
  have hite : ∀ (c : Prop) [Decidable c] (a b : Except Failure (CSimplexOptimizer R)),
      ((fun y => { y with INITIAL_FEASIBLE_SOLUTIONS := I }) <$> (if c then a else b))
        = if c then (fun y => { y with INITIAL_FEASIBLE_SOLUTIONS := I }) <$> a
          else (fun y => { y with INITIAL_FEASIBLE_SOLUTIONS := I }) <$> b := by
    intro c _ a b
    split_ifs <;> rfl
  simp only [map_bind, map_pure, hite, doReduction_groups, bind_map_left,
    evaluateAllCurrentSolutions_groups]

/-- A map that commutes with the step of a loop commutes with the loop. -/
theorem foldl_commute {σ α : Type} (step : σ → α → σ) (W : σ → σ)
    (h : ∀ a x, step (W a) x = W (step a x)) (l : List α) (init : σ) :
    l.foldl step (W init) = W (l.foldl step init) := by
  induction l generalizing init with
  | nil => rfl
  | cons x xs ih => rw [List.foldl_cons, List.foldl_cons, h, ih]

/-- The scan of `updateSpecialVertices` does not read the initial groups, the
tracked indices and values it is about to reset, the centroid and the reflected
point. -/
theorem updateSpecialVertices_ignores (x : CSimplexOptimizer R) (I : List (List (List R)))
    (hv lv shv : R) (hi lo sh : Int) (c p : List R) (v : R) :
    CSimplexOptimizer.updateSpecialVertices { x with
        INITIAL_FEASIBLE_SOLUTIONS := I
        dHighestSolutionValue := hv, dLowestSolutionValue := lv
        dSecondHighestSolutionValue := shv
        nHighestSolutionId := hi, nLowestSolutionId := lo, nSecondHighestSolutionId := sh
        reflectionCentroid := c, reflectedPoint := p, dReflectedPointValue := v }
      = { x.updateSpecialVertices with
          INITIAL_FEASIBLE_SOLUTIONS := I
          reflectionCentroid := c, reflectedPoint := p, dReflectedPointValue := v } := by
  unfold CSimplexOptimizer.updateSpecialVertices
  simp only []
  exact foldl_commute
    (fun (self : CSimplexOptimizer R) (iv : Nat × R) => self.updateSpecialVerticesStep iv.1 iv.2)
    (fun y => { y with
      INITIAL_FEASIBLE_SOLUTIONS := I
      reflectionCentroid := c, reflectedPoint := p, dReflectedPointValue := v })
    (by
      intro a iv
      unfold CSimplexOptimizer.updateSpecialVerticesStep
      simp only []
      split_ifs <;> rfl)
    x.currentFunctionValues.enum
    { x with
      nHighestSolutionId := -1
      nLowestSolutionId := -1
      nSecondHighestSolutionId := -1
      dHighestSolutionValue := -DBL_MAX
      dLowestSolutionValue := DBL_MAX
      dSecondHighestSolutionValue := -DBL_MAX }

/-- One iteration does not read the initial groups, the tracked indices and
values, the centroid and the reflected point of the optimizer it starts from;
the initial groups are carried over. -/
theorem iteration_ignores (f : List R → R) (x : CSimplexOptimizer R)
    (I : List (List (List R))) (hv lv shv : R) (hi lo sh : Int) (c p : List R) (v : R) :
    CSimplexOptimizer.iteration f { x with
        INITIAL_FEASIBLE_SOLUTIONS := I
        dHighestSolutionValue := hv, dLowestSolutionValue := lv
        dSecondHighestSolutionValue := shv
        nHighestSolutionId := hi, nLowestSolutionId := lo, nSecondHighestSolutionId := sh
        reflectionCentroid := c, reflectedPoint := p, dReflectedPointValue := v }
      = (fun y => { y with INITIAL_FEASIBLE_SOLUTIONS := I }) <$> x.iteration f := by
  have hite : ∀ (c : Prop) [Decidable c] (a b : Except Failure (CSimplexOptimizer R)),
      ((fun y => { y with INITIAL_FEASIBLE_SOLUTIONS := I }) <$> (if c then a else b))
        = if c then (fun y => { y with INITIAL_FEASIBLE_SOLUTIONS := I }) <$> a
          else (fun y => { y with INITIAL_FEASIBLE_SOLUTIONS := I }) <$> b := by
    intro c _ a b
    split_ifs <;> rfl
  have hext : ∀ (I0 : List (List (List R))) (sols : List (List R)) (vals : List R)
      (a1 a2 a3 a4 a5 a6 a7 a8 : R) (n1 n2 n3 n4 : Int) (l1 l2 : List R),
      CSimplexOptimizer.doExtention f
          ⟨I, sols, vals, a1, a2, a3, a4, a5, a6, a7, a8, n1, n2, n3, n4, l1, l2⟩
        = (fun y => { y with INITIAL_FEASIBLE_SOLUTIONS := I })
            <$> CSimplexOptimizer.doExtention f
              ⟨I0, sols, vals, a1, a2, a3, a4, a5, a6, a7, a8, n1, n2, n3, n4, l1, l2⟩ :=
    fun I0 sols vals a1 a2 a3 a4 a5 a6 a7 a8 n1 n2 n3 n4 l1 l2 =>
      doExtention_groups f
        ⟨I0, sols, vals, a1, a2, a3, a4, a5, a6, a7, a8, n1, n2, n3, n4, l1, l2⟩ I
  have hcon : ∀ (I0 : List (List (List R))) (sols : List (List R)) (vals : List R)
      (a1 a2 a3 a4 a5 a6 a7 a8 : R) (n1 n2 n3 n4 : Int) (l1 l2 : List R),
      CSimplexOptimizer.doContraction f
          ⟨I, sols, vals, a1, a2, a3, a4, a5, a6, a7, a8, n1, n2, n3, n4, l1, l2⟩
        = (fun y => { y with INITIAL_FEASIBLE_SOLUTIONS := I })
            <$> CSimplexOptimizer.doContraction f
              ⟨I0, sols, vals, a1, a2, a3, a4, a5, a6, a7, a8, n1, n2, n3, n4, l1, l2⟩ :=
    fun I0 sols vals a1 a2 a3 a4 a5 a6 a7 a8 n1 n2 n3 n4 l1 l2 =>
      doContraction_groups f
        ⟨I0, sols, vals, a1, a2, a3, a4, a5, a6, a7, a8, n1, n2, n3, n4, l1, l2⟩ I
  unfold CSimplexOptimizer.iteration
  simp only []
  rw [updateSpecialVertices_ignores]
  unfold CSimplexOptimizer.updateReflectionCentroid CSimplexOptimizer.doReflection
  simp only [map_bind, map_pure, hite, bind_assoc, pure_bind]
  refine bind_congr (fun a1 => bind_congr (fun a2 => bind_congr (fun a3 => bind_congr (fun a4 =>
    bind_congr (fun a5 => bind_congr (fun a6 => bind_congr (fun a7 => ?_)))))))
  split_ifs
  · exact hext x.updateSpecialVertices.INITIAL_FEASIBLE_SOLUTIONS _ _ _ _ _ _ _ _ _ _ _ _ _ _ _ _
  · rfl
  · exact hcon x.updateSpecialVertices.INITIAL_FEASIBLE_SOLUTIONS _ _ _ _ _ _ _ _ _ _ _ _ _ _ _ _

/-- A counted loop whose body ignores the counter: the first pass, then the
remaining ones. -/
theorem foldlM_range_succ_front {σ : Type} (g : σ → Except Failure σ) (n : Nat) (s : σ) :
    (List.range (n + 1)).foldlM (fun (self : σ) (_i : Nat) => g self) s
      = g s >>= fun s1 => (List.range n).foldlM (fun (self : σ) (_i : Nat) => g self) s1 := by
  rw [List.range_succ_eq_map, List.foldlM_cons]
  refine bind_congr (fun s1 => ?_)
  rw [List.foldlM_map]

/-- A counted loop whose body ignores the counter: the first `n` passes, then
the last one. -/
theorem foldlM_range_succ_back {σ : Type} (g : σ → Except Failure σ) (n : Nat) (s : σ) :
    (List.range (n + 1)).foldlM (fun (self : σ) (_i : Nat) => g self) s
      = (List.range n).foldlM (fun (self : σ) (_i : Nat) => g self) s >>= g := by
  rw [List.range_succ, List.foldlM_append]
  congr 1
  funext s1
  rw [List.foldlM_cons]
  simp [List.foldlM_nil]

/-- The iterations of a run carry the initial groups over. -/
theorem iterations_groups (f : List R → R) (n : Nat) (x : CSimplexOptimizer R)
    (I : List (List (List R))) :
    (List.range n).foldlM (fun (self : CSimplexOptimizer R) (_i : Nat) => self.iteration f)
        { x with INITIAL_FEASIBLE_SOLUTIONS := I }
      = (fun y => { y with INITIAL_FEASIBLE_SOLUTIONS := I })
          <$> (List.range n).foldlM
            (fun (self : CSimplexOptimizer R) (_i : Nat) => self.iteration f) x := by
  induction n with
  | zero => rfl
  | succ n ih =>
    rw [foldlM_range_succ_back, foldlM_range_succ_back, ih, map_bind, bind_map_left]
    refine bind_congr (fun y => ?_)
    exact iteration_ignores f y I y.dHighestSolutionValue y.dLowestSolutionValue
      y.dSecondHighestSolutionValue y.nHighestSolutionId y.nLowestSolutionId
      y.nSecondHighestSolutionId y.reflectionCentroid y.reflectedPoint y.dReflectedPointValue

/-- With at least one iteration, the iterations of a run do not depend on the
tracked indices and values, the centroid and the reflected point left by an
earlier run. -/
theorem iterations_ignore (f : List R → R) (n : Nat) (hn : 1 ≤ n) (x : CSimplexOptimizer R)
    (I : List (List (List R))) (hv lv shv : R) (hi lo sh : Int) (c p : List R) (v : R) :
    (List.range n).foldlM (fun (self : CSimplexOptimizer R) (_i : Nat) => self.iteration f)
        { x with
          INITIAL_FEASIBLE_SOLUTIONS := I
          dHighestSolutionValue := hv, dLowestSolutionValue := lv
          dSecondHighestSolutionValue := shv
          nHighestSolutionId := hi, nLowestSolutionId := lo, nSecondHighestSolutionId := sh
          reflectionCentroid := c, reflectedPoint := p, dReflectedPointValue := v }
      = (fun y => { y with INITIAL_FEASIBLE_SOLUTIONS := I })
          <$> (List.range n).foldlM
            (fun (self : CSimplexOptimizer R) (_i : Nat) => self.iteration f) x := by
  obtain ⟨k, rfl⟩ : ∃ k, n = k + 1 := ⟨n - 1, by omega⟩
  rw [foldlM_range_succ_front, foldlM_range_succ_front, iteration_ignores, map_bind,
    bind_map_left]
  refine bind_congr (fun y => ?_)
  exact iterations_groups f k y I

/-- The iterations of a run keep the shape of the simplex and the configuration
of the optimizer. -/
theorem iterations_shape (f : List R → R) (d n : Nat) (s s' : CSimplexOptimizer R)
    (hshape : s.SimplexShape d)
    (h : (List.range n).foldlM
      (fun (self : CSimplexOptimizer R) (_i : Nat) => self.iteration f) s = .ok s') :
    s'.SimplexShape d ∧ s'.config = s.config := by
  induction n generalizing s' with
  | zero =>
    have : s = s' := by simpa [pure, Except.pure] using h
    rw [← this]
    exact ⟨hshape, rfl⟩
  | succ n ih =>
    rw [foldlM_range_succ_back] at h
    cases hn : (List.range n).foldlM
        (fun (self : CSimplexOptimizer R) (_i : Nat) => self.iteration f) s with
    | error e => rw [hn] at h; cases h
    | ok s1 =>
      rw [hn, ok_bind] at h
      obtain ⟨h1, h2⟩ := ih s1 hn
      obtain ⟨h3, h4⟩ := iteration_shape f d s1 s' h1 h
      exact ⟨h3, h4.trans h2⟩

/-- C11: the shape of the simplex is an invariant of the iterations. For an
optimizer whose simplex has `d + 1` vertices of `d` coordinates and `d + 1`
cached values, in dimension `d`: the simplex after an iteration of
`runOptimization`, after an iteration of `traceOptimization`, and after any
number of iterations, has that shape again, whichever operation was applied;
an iteration returns when the cached values lie strictly between `-DBL_MAX` and
`DBL_MAX`; and the shape holds at the start of the iterations of every group of
`d + 1` vertices of `d` coordinates. -/
theorem C11_simplex_shape_invariant (f : List R → R) (d : Nat) (s : CSimplexOptimizer R)
    (hshape : s.SimplexShape d) :
    (∀ s', s.iteration f = .ok s' → s'.SimplexShape d)
      ∧ (∀ s' node, s.traceIteration f = .ok (s', node) →
          s.iteration f = .ok s' ∧ s'.SimplexShape d)
      ∧ (∀ (n : Nat) s', (List.range n).foldlM
            (fun (self : CSimplexOptimizer R) (_i : Nat) => self.iteration f) s = .ok s' →
          s'.SimplexShape d)
      ∧ ((∀ v ∈ s.currentFunctionValues, -DBL_MAX < v ∧ v < DBL_MAX) →
          (∃ s', s.iteration f = .ok s') ∧ ∃ s' node, s.traceIteration f = .ok (s', node))
      ∧ (∀ (o : CSimplexOptimizer R) (g : List (List R)),
          o.nPROBLEM_DIMENSION = d → o.currentFunctionValues.length = d + 1 →
          g.length = d + 1 → (∀ v ∈ g, v.length = d) →
          ∃ s0, CSimplexOptimizer.evaluateAllCurrentSolutions f
              { o with currentFeasibleSolutions := g } = .ok s0 ∧ s0.SimplexShape d) := by
  refine ⟨fun s' h => (iteration_shape f d s s' hshape h).1, fun s' node h => ?_,
    fun n s' h => (iterations_shape f d n s s' hshape h).1, fun hrange => ?_, ?_⟩
  · have hit := ((traceIteration_spec f s).1 s' node h).1
    exact ⟨hit, (iteration_shape f d s s' hshape hit).1⟩
  · obtain ⟨s', lo, hiter, hlid, hlo⟩ := iteration_returns f d s hshape hrange
    obtain ⟨hdim', hcount', -, hvlen'⟩ := (iteration_shape f d s s' hshape hiter).1
    refine ⟨⟨s', hiter⟩, s', ?_⟩
    exact (traceIteration_spec f s).2 s' _ _ hiter
      (by rw [hlid]; exact vecGet_natCast _ lo [] (by omega))
      (by rw [hlid]; exact vecGet_natCast _ lo 0 (by omega))
  · intro o g hdim hvals hcount hsize
    refine ⟨_, evaluateAllCurrentSolutions_ok f { o with currentFeasibleSolutions := g }
      (by show o.currentFunctionValues.length = g.length
          rw [hvals, hcount]), ?_⟩
    exact ⟨hdim, hcount, hsize, by
      show (g.map f).length = d + 1
      rw [List.length_map, hcount]⟩

/-- Witness of C11: the simplex `[0], [1]` in dimension 1 with the cached values
`100, 81` of the objective `(x0 - 10)^2`. -/
theorem C11_simplex_shape_invariant_witness :
    ∃ s : CSimplexOptimizer ℚ, s.SimplexShape 1
      ∧ s.currentFeasibleSolutions = [[0], [1]] ∧ s.currentFunctionValues = [100, 81]
      ∧ ∃ s', s.iteration squareDistanceToTen = .ok s' ∧ s'.SimplexShape 1 := by
  have hshape : CSimplexOptimizer.SimplexShape 1
      ({ INITIAL_FEASIBLE_SOLUTIONS := [[[0], [1]]]
         currentFeasibleSolutions := [[0], [1]]
         currentFunctionValues := [100, 81]
         dContractionFactor := 0.5
         dExtensionFactor := 2
         dHighestSolutionValue := -DBL_MAX
         dLowestSolutionValue := DBL_MAX
         dReductionFactor := 0.5
         dReflectedPointValue := 0
         dReflectionFactor := 1
         dSecondHighestSolutionValue := -DBL_MAX
         nHighestSolutionId := -1
         nLowestSolutionId := -1
         nPROBLEM_DIMENSION := 1
         nSecondHighestSolutionId := -1
         reflectionCentroid := [0]
         reflectedPoint := [0] } : CSimplexOptimizer ℚ) :=
    ⟨rfl, rfl, by simp, rfl⟩
  have h := C11_simplex_shape_invariant squareDistanceToTen 1 _ hshape
  obtain ⟨⟨s', hs'⟩, -⟩ := h.2.2.2.1 (by
    intro v hv
    simp only [List.mem_cons, List.mem_singleton, List.not_mem_nil, or_false] at hv
    rcases hv with rfl | rfl <;> constructor <;> norm_num [DBL_MAX])
  exact ⟨_, hshape, rfl, rfl, s', hs', h.1 s' hs'⟩

/-- The trajectories of `traceOptimization`: one per initial group, each with
`nMaxIterations` nodes, none of the default type. -/
theorem traceOptimization_structure (f : List R → R) (o : CSimplexOptimizer R)
    (trajectories : List (List (CourseNode R))) (nMaxIterations : Int)
    (r : List (List (CourseNode R)) × CSimplexOptimizer R)
    (h : o.traceOptimization f trajectories nMaxIterations = .ok r) :
    r.1.length = o.INITIAL_FEASIBLE_SOLUTIONS.length
      ∧ ∀ trajectory ∈ r.1, trajectory.length = nMaxIterations.toNat
        ∧ ∀ node ∈ trajectory, node.getOperationType ≠ .OperationType_Default := by
  unfold CSimplexOptimizer.traceOptimization at h
  simp only [] at h
  -- the iterations of one group
  have hinner : ∀ (s : CSimplexOptimizer R) (run : CSimplexOptimizer R × List (CourseNode R)),
      (List.range nMaxIterations.toNat).foldlM
        (fun (run : CSimplexOptimizer R × List (CourseNode R)) (_iIteration : Nat) => do
          let step ← run.1.traceIteration f
          pure (step.1, run.2 ++ [step.2]))
        (s, ([] : List (CourseNode R))) = .ok run →
      run.2.length = nMaxIterations.toNat
        ∧ ∀ node ∈ run.2, node.getOperationType ≠ .OperationType_Default := by
    intro s run hrun
    constructor
    · have := foldlM_length _ _ (fun (run : CSimplexOptimizer R × List (CourseNode R)) =>
        run.2.length) ?_ _ run hrun
      · simpa using this
      · intro a x a' _ hstep
        cases ht : a.1.traceIteration f with
        | error e => rw [ht] at hstep; cases hstep
        | ok step =>
          rw [ht, ok_bind] at hstep
          cases hstep
          simp
    · refine foldlM_invariant _ _ (fun (run : CSimplexOptimizer R × List (CourseNode R)) =>
        ∀ node ∈ run.2, node.getOperationType ≠ .OperationType_Default) ?_ _ run
        (fun node hnode => absurd hnode (List.not_mem_nil node)) hrun
      intro a x a' _ hstep ha node hnode
      cases ht : a.1.traceIteration f with
      | error e => rw [ht] at hstep; cases hstep
      | ok step =>
        rw [ht, ok_bind] at hstep
        cases hstep
        rcases List.mem_append.1 hnode with hnode | hnode
        · exact ha node hnode
        · rw [List.mem_singleton] at hnode
          subst hnode
          exact ((traceIteration_spec f a.1).1 step.1 step.2 ht).2.2.2
  -- one step of the loop over the groups
  have hstep : ∀ (acc acc' : List (List (CourseNode R)) × CSimplexOptimizer R)
      (g : List (List R)),
      (do
        let self := { acc.2 with currentFeasibleSolutions := g }
        let currentTrajectory : List (CourseNode R) := []
        let self ← self.evaluateAllCurrentSolutions f
        let run ← (List.range nMaxIterations.toNat).foldlM
          (fun (run : CSimplexOptimizer R × List (CourseNode R)) (_iIteration : Nat) => do
            let step ← run.1.traceIteration f
            pure (step.1, run.2 ++ [step.2]))
          (self, currentTrajectory)
        pure (acc.1 ++ [run.2], run.1)) = .ok acc' →
      ∃ trajectory : List (CourseNode R), acc'.1 = acc.1 ++ [trajectory]
        ∧ trajectory.length = nMaxIterations.toNat
        ∧ ∀ node ∈ trajectory, node.getOperationType ≠ .OperationType_Default := by
    intro acc acc' g hs
    simp only [] at hs
    cases hev : CSimplexOptimizer.evaluateAllCurrentSolutions f
        { acc.2 with currentFeasibleSolutions := g } with
    | error e => rw [hev] at hs; cases hs
    | ok s =>
      rw [hev, ok_bind] at hs
      cases hrun : (List.range nMaxIterations.toNat).foldlM
          (fun (run : CSimplexOptimizer R × List (CourseNode R)) (_iIteration : Nat) => do
            let step ← run.1.traceIteration f
            pure (step.1, run.2 ++ [step.2]))
          (s, ([] : List (CourseNode R))) with
      | error e => rw [hrun] at hs; cases hs
      | ok run =>
        rw [hrun, ok_bind] at hs
        cases hs
        exact ⟨run.2, rfl, hinner s run hrun⟩
  constructor
  · have := foldlM_length _ _
      (fun (acc : List (List (CourseNode R)) × CSimplexOptimizer R) => acc.1.length) ?_ _ r h
    · simpa using this
    · intro acc g acc' _ hs
      obtain ⟨trajectory, heq, -⟩ := hstep acc acc' g hs
      show acc'.1.length = acc.1.length + 1
      rw [heq, List.length_append, List.length_singleton]
  · refine foldlM_invariant _ _
      (fun (acc : List (List (CourseNode R)) × CSimplexOptimizer R) =>
        ∀ trajectory ∈ acc.1, trajectory.length = nMaxIterations.toNat
          ∧ ∀ node ∈ trajectory, node.getOperationType ≠ .OperationType_Default) ?_ _ r
      (fun t ht => absurd ht (List.not_mem_nil t)) h
    intro acc g acc' _ hs hacc t ht
    obtain ⟨trajectory, heq, hlen, hnodes⟩ := hstep acc acc' g hs
    rw [heq] at ht
    rcases List.mem_append.1 ht with ht | ht
    · exact hacc t ht
    · rw [List.mem_singleton] at ht
      subst ht
      exact ⟨hlen, hnodes⟩

/-- C19 (code evaluated at the failing input): one group `[0], [1]` in dimension
1, objective `(x0 - 10)^2`, one iteration. `traceOptimization` returns one
trajectory with one node of type Extension; the node carries the vertex `[1]`
and the value `81` of the lowest index found before the extension, while the
simplex after the iteration is `[2], [1]` with cached values `64, 81`: its
lowest vertex is `[2]` and its lowest cached value `64`. -/
theorem C19_trace_node_records_stale_lowest :
    ∃ o r, CSimplexOptimizer.new (0 : ℚ) [[[0], [1]]] = .ok o
      ∧ o.traceOptimization squareDistanceToTen [] 1 = .ok r
      ∧ r.1 = [[{ lowestPoint := [1], dLowestValue := 81,
                  operationType := .OperationType_Extension }]]
      ∧ r.2.currentFeasibleSolutions = [[2], [1]]
      ∧ r.2.currentFunctionValues = [64, 81]
      ∧ ∀ node ∈ r.1.getD 0 [],
          r.2.currentFunctionValues.minimum < ((node.getLowestValue : ℚ) : WithTop ℚ)
            ∧ node.getLowestPoint ≠ r.2.currentFeasibleSolutions.getD 0 [] := by
  refine ⟨
    { INITIAL_FEASIBLE_SOLUTIONS := [[[0], [1]]]
      currentFeasibleSolutions := []
      currentFunctionValues := [0, 0]
      dContractionFactor := 0.5
      dExtensionFactor := 2
      dHighestSolutionValue := -DBL_MAX
      dLowestSolutionValue := DBL_MAX
      dReductionFactor := 0.5
      dReflectedPointValue := 0
      dReflectionFactor := 1
      dSecondHighestSolutionValue := -DBL_MAX
      nHighestSolutionId := -1
      nLowestSolutionId := -1
      nPROBLEM_DIMENSION := 1
      nSecondHighestSolutionId := -1
      reflectionCentroid := [0]
      reflectedPoint := [0] },
    ([[{ lowestPoint := [1], dLowestValue := 81, operationType := .OperationType_Extension }]],
      { INITIAL_FEASIBLE_SOLUTIONS := [[[0], [1]]]
        currentFeasibleSolutions := [[2], [1]]
        currentFunctionValues := [64, 81]
        dContractionFactor := 0.5
        dExtensionFactor := 2
        dHighestSolutionValue := 100
        dLowestSolutionValue := 81
        dReductionFactor := 0.5
        dReflectedPointValue := 289 / 4
        dReflectionFactor := 1
        dSecondHighestSolutionValue := 81
        nHighestSolutionId := 0
        nLowestSolutionId := 1
        nPROBLEM_DIMENSION := 1
        nSecondHighestSolutionId := 1
        reflectionCentroid := [1]
        reflectedPoint := [3 / 2] }), ?_, ?_, rfl, rfl, rfl, ?_⟩
  · norm_num [CSimplexOptimizer.new, vecGet, vecAssignZero,
      CSimplexOptimizer.setContractionFactor, CSimplexOptimizer.setExtensionFactor,
      CSimplexOptimizer.setReductionFactor, CSimplexOptimizer.setReflectionFactor,
      CSimplexOptimizer.dCONTRACTION_FACTOR, CSimplexOptimizer.dEXTENSION_FACTOR,
      CSimplexOptimizer.dREDUCTION_FACTOR, CSimplexOptimizer.dREFLECTION_FACTOR, pure,
      Except.pure, bind, Except.bind, throw, throwThe, MonadExceptOf.throw, List.replicate]
  · norm_num [CSimplexOptimizer.traceOptimization, CSimplexOptimizer.traceIteration,
      CSimplexOptimizer.evaluateAllCurrentSolutions,
      CSimplexOptimizer.updateSpecialVertices,
      CSimplexOptimizer.updateSpecialVerticesStep, CSimplexOptimizer.updateReflectionCentroid,
      CSimplexOptimizer.doReflection, CSimplexOptimizer.doExtention,
      CSimplexOptimizer.doContraction, CMathematics.add, CMathematics.substract,
      CMathematics.multiply, vecAssignZero, DBL_MAX, vecGet, vecSet, squareDistanceToTen,
      CourseNode.new, CourseNode.setOperationType, CourseNode.setLowestPoint,
      CourseNode.setLowestValue,
      List.range_succ, pure, Except.pure, bind, Except.bind, List.enum, List.enumFrom,
      List.replicate]
  · intro node hnode
    have hn : node = ⟨[1], 81, .OperationType_Extension⟩ := by
      simpa using hnode
    subst hn
    refine ⟨?_, ?_⟩
    · show List.minimum [(64 : ℚ), 81] < ((81 : ℚ) : WithTop ℚ)
      exact lt_of_le_of_lt (List.minimum_le_of_mem' (List.mem_cons_self 64 [81]))
        (WithTop.coe_lt_coe.2 (by norm_num))
    · show ([1] : List ℚ) ≠ [2]
      norm_num

end Iterations

/-! ## Runs of the optimizer -/

section Runs

variable {R : Type} [LinearOrderedField R]

/-- The run of one group (initial evaluation and `n >= 1` iterations) from the
optimizer `s` is the run of that group from any optimizer `ref` with the same
dimension, factors and number of cached values, up to the initial groups. -/
theorem groupRun_independent (f : List R → R) (n : Nat) (hn : 1 ≤ n)
    (ref s : CSimplexOptimizer R) (g : List (List R))
    (href : ref.currentFunctionValues.length = g.length)
    (hs : s.currentFunctionValues.length = g.length)
    (hdim : s.nPROBLEM_DIMENSION = ref.nPROBLEM_DIMENSION)
    (hcf : s.dContractionFactor = ref.dContractionFactor)
    (hef : s.dExtensionFactor = ref.dExtensionFactor)
    (hrf : s.dReductionFactor = ref.dReductionFactor)
    (hlf : s.dReflectionFactor = ref.dReflectionFactor) :
    (do
        let self ← CSimplexOptimizer.evaluateAllCurrentSolutions f
          { s with currentFeasibleSolutions := g }
        (List.range n).foldlM
          (fun (self : CSimplexOptimizer R) (_i : Nat) => self.iteration f) self)
      = (fun y => { y with INITIAL_FEASIBLE_SOLUTIONS := s.INITIAL_FEASIBLE_SOLUTIONS })
          <$> (do
            let self ← CSimplexOptimizer.evaluateAllCurrentSolutions f
              { ref with currentFeasibleSolutions := g }
            (List.range n).foldlM
              (fun (self : CSimplexOptimizer R) (_i : Nat) => self.iteration f) self) := by
  rw [evaluateAllCurrentSolutions_ok f { s with currentFeasibleSolutions := g } hs,
    evaluateAllCurrentSolutions_ok f { ref with currentFeasibleSolutions := g } href,
    ok_bind, ok_bind]
  have hst : ({ s with currentFeasibleSolutions := g, currentFunctionValues := g.map f } :
      CSimplexOptimizer R)
      = { ({ ref with currentFeasibleSolutions := g, currentFunctionValues := g.map f } :
            CSimplexOptimizer R) with
          INITIAL_FEASIBLE_SOLUTIONS := s.INITIAL_FEASIBLE_SOLUTIONS
          dHighestSolutionValue := s.dHighestSolutionValue
          dLowestSolutionValue := s.dLowestSolutionValue
          dSecondHighestSolutionValue := s.dSecondHighestSolutionValue
          nHighestSolutionId := s.nHighestSolutionId
          nLowestSolutionId := s.nLowestSolutionId
          nSecondHighestSolutionId := s.nSecondHighestSolutionId
          reflectionCentroid := s.reflectionCentroid
          reflectedPoint := s.reflectedPoint
          dReflectedPointValue := s.dReflectedPointValue } := by
    simp only [hdim, hcf, hef, hrf, hlf]
  exact hst ▸ iterations_ignore f n hn
    ({ ref with currentFeasibleSolutions := g, currentFunctionValues := g.map f } :
      CSimplexOptimizer R) s.INITIAL_FEASIBLE_SOLUTIONS
    s.dHighestSolutionValue s.dLowestSolutionValue s.dSecondHighestSolutionValue
    s.nHighestSolutionId s.nLowestSolutionId s.nSecondHighestSolutionId
    s.reflectionCentroid s.reflectedPoint s.dReflectedPointValue

/-- A loop that keeps the smaller of the recorded value and the outcome of each
element: it returns iff every element has an outcome, and the final value is
the minimum of the initial value and the outcomes. -/
theorem foldlM_min {A G : Type} (step : A → G → Except Failure A) (val : A → R)
    (Compat : A → Prop) (out : G → R → Prop) (l : List G)
    (h1 : ∀ acc, ∀ g ∈ l, ∀ lv, Compat acc → out g lv →
      ∃ acc', step acc g = .ok acc' ∧ val acc' = min lv (val acc) ∧ Compat acc')
    (h2 : ∀ acc, ∀ g ∈ l, ∀ acc', Compat acc → step acc g = .ok acc' → ∃ lv, out g lv)
    (acc : A) (hc : Compat acc) :
    ((∃ acc', l.foldlM step acc = .ok acc') ↔ ∀ g ∈ l, ∃ lv, out g lv)
      ∧ ∀ acc', l.foldlM step acc = .ok acc' →
          (∀ g ∈ l, ∀ lv, out g lv → val acc' ≤ min lv (val acc))
            ∧ (val acc' = val acc ∨ ∃ g ∈ l, ∃ lv, out g lv ∧ val acc' = min lv (val acc)) := by
  induction l generalizing acc with
  | nil =>
    refine ⟨⟨fun _ g hg => absurd hg (List.not_mem_nil g), fun _ => ⟨acc, rfl⟩⟩, ?_⟩
    intro acc' h
    have : acc = acc' := by simpa [pure, Except.pure] using h
    subst this
    exact ⟨fun g hg => absurd hg (List.not_mem_nil g), Or.inl rfl⟩
  | cons g rest ih =>
    have h1' : ∀ acc, ∀ g' ∈ rest, ∀ lv, Compat acc → out g' lv →
        ∃ acc', step acc g' = .ok acc' ∧ val acc' = min lv (val acc) ∧ Compat acc' :=
      fun a g' hg' => h1 a g' (List.mem_cons_of_mem g hg')
    have h2' : ∀ acc, ∀ g' ∈ rest, ∀ acc', Compat acc → step acc g' = .ok acc' →
        ∃ lv, out g' lv :=
      fun a g' hg' => h2 a g' (List.mem_cons_of_mem g hg')
    rw [List.foldlM_cons]
    constructor
    · constructor
      · rintro ⟨acc', h⟩
        cases hstep : step acc g with
        | error e => rw [hstep] at h; cases h
        | ok acc1 =>
          rw [hstep, ok_bind] at h
          obtain ⟨lv, hlv⟩ := h2 acc g (List.mem_cons_self g rest) acc1 hc hstep
          obtain ⟨acc1', hs1, -, hc1⟩ := h1 acc g (List.mem_cons_self g rest) lv hc hlv
          rw [hstep] at hs1
          injection hs1 with hs1
          subst hs1
          intro g' hg'
          rcases List.mem_cons.1 hg' with rfl | hg'
          · exact ⟨lv, hlv⟩
          · exact ((ih h1' h2' acc1 hc1).1.1 ⟨acc', h⟩) g' hg'
      · intro hall
        obtain ⟨lv, hlv⟩ := hall g (List.mem_cons_self g rest)
        obtain ⟨acc1, hs1, -, hc1⟩ := h1 acc g (List.mem_cons_self g rest) lv hc hlv
        rw [hs1, ok_bind]
        exact (ih h1' h2' acc1 hc1).1.2 (fun g' hg' => hall g' (List.mem_cons_of_mem g hg'))
    · intro acc' h
      cases hstep : step acc g with
      | error e => rw [hstep] at h; cases h
      | ok acc1 =>
        rw [hstep, ok_bind] at h
        obtain ⟨lv, hlv⟩ := h2 acc g (List.mem_cons_self g rest) acc1 hc hstep
        obtain ⟨acc1', hs1, hv1, hc1⟩ := h1 acc g (List.mem_cons_self g rest) lv hc hlv
        rw [hstep] at hs1
        injection hs1 with hs1
        subst hs1
        obtain ⟨hA, hB⟩ := (ih h1' h2' acc1 hc1).2 acc' h
        have hle1 : val acc' ≤ val acc1 := by
          rcases hB with hB | ⟨g', -, lv', -, hB⟩
          · exact le_of_eq hB
          · rw [hB]; exact min_le_right _ _
        constructor
        · intro g' hg' lv' hlv'
          rcases List.mem_cons.1 hg' with rfl | hg'
          · obtain ⟨acc2, hs2, hv2, -⟩ := h1 acc g' (List.mem_cons_self g' rest) lv' hc hlv'
            rw [hstep] at hs2
            injection hs2 with hs2
            subst hs2
            rw [← hv2]
            exact hle1
          · refine le_trans (hA g' hg' lv' hlv') ?_
            rw [hv1]
            exact min_le_min (le_refl _) (min_le_right _ _)
        · rcases hB with hB | ⟨g', hg', lv', hlv', hB⟩
          · rw [hB, hv1]
            rcases le_total lv (val acc) with hle | hle
            · exact Or.inr ⟨g, List.mem_cons_self g rest, lv, hlv, rfl⟩
            · exact Or.inl (min_eq_right hle)
          · rw [hv1] at hB
            rcases le_total lv' (min lv (val acc)) with hle | hle
            · refine Or.inr ⟨g', List.mem_cons_of_mem g hg', lv', hlv', ?_⟩
              rw [hB, min_eq_left hle, min_eq_left (le_trans hle (min_le_right _ _))]
            · rw [min_eq_right hle] at hB
              rcases le_total lv (val acc) with hle2 | hle2
              · exact Or.inr ⟨g, List.mem_cons_self g rest, lv, hlv, hB⟩
              · exact Or.inl (hB.trans (min_eq_right hle2))

/-- The body of the loop over the groups in `runOptimization`, for a group that
is valid in dimension `d`, from an accumulator whose optimizer has the
dimension, the factors and the number of cached values of `ref`: the group is
run as it is from `ref`, and the smaller of the recorded value and the cached
value at the lowest index is kept. -/
theorem runOptimization_step (f : List R → R) (n : Nat) (hn : 1 ≤ n) (d : Nat)
    (ref : CSimplexOptimizer R) (g : List (List R))
    (hg : g.length = d + 1 ∧ ∀ x ∈ g, x.length = d)
    (hrefdim : ref.nPROBLEM_DIMENSION = d) (hrefvals : ref.currentFunctionValues.length = d + 1)
    (acc : List R × R × CSimplexOptimizer R)
    (hacc : acc.2.2.nPROBLEM_DIMENSION = d ∧ acc.2.2.currentFunctionValues.length = d + 1
      ∧ acc.2.2.dContractionFactor = ref.dContractionFactor
      ∧ acc.2.2.dExtensionFactor = ref.dExtensionFactor
      ∧ acc.2.2.dReductionFactor = ref.dReductionFactor
      ∧ acc.2.2.dReflectionFactor = ref.dReflectionFactor) :
    (∀ lv, (∃ (s' : CSimplexOptimizer R) (lo : Nat), (do
            let self ← CSimplexOptimizer.evaluateAllCurrentSolutions f
              { ref with currentFeasibleSolutions := g }
            (List.range n).foldlM
              (fun (self : CSimplexOptimizer R) (_i : Nat) => self.iteration f) self) = .ok s'
          ∧ s'.nLowestSolutionId = lo ∧ lo < d + 1
          ∧ s'.currentFunctionValues.getD lo 0 = lv) →
        ∃ acc' : List R × R × CSimplexOptimizer R,
          (do
            let (bestSolution, dBestValue, self) := acc
            let self := { self with currentFeasibleSolutions := g }
            let self ← self.evaluateAllCurrentSolutions f
            let self ← (List.range n).foldlM
              (fun (self : CSimplexOptimizer R) (_iIteration : Nat) => self.iteration f) self
            let lowestValue ← vecGet self.currentFunctionValues self.nLowestSolutionId
            if lowestValue < dBestValue then
              pure ((← vecGet self.currentFeasibleSolutions self.nLowestSolutionId),
                lowestValue, self)
            else
              pure (bestSolution, dBestValue, self)) = .ok acc'
          ∧ acc'.2.1 = min lv acc.2.1
          ∧ (acc'.2.2.nPROBLEM_DIMENSION = d ∧ acc'.2.2.currentFunctionValues.length = d + 1
            ∧ acc'.2.2.dContractionFactor = ref.dContractionFactor
            ∧ acc'.2.2.dExtensionFactor = ref.dExtensionFactor
            ∧ acc'.2.2.dReductionFactor = ref.dReductionFactor
            ∧ acc'.2.2.dReflectionFactor = ref.dReflectionFactor))
      ∧ (∀ acc' : List R × R × CSimplexOptimizer R,
          (do
            let (bestSolution, dBestValue, self) := acc
            let self := { self with currentFeasibleSolutions := g }
            let self ← self.evaluateAllCurrentSolutions f
            let self ← (List.range n).foldlM
              (fun (self : CSimplexOptimizer R) (_iIteration : Nat) => self.iteration f) self
            let lowestValue ← vecGet self.currentFunctionValues self.nLowestSolutionId
            if lowestValue < dBestValue then
              pure ((← vecGet self.currentFeasibleSolutions self.nLowestSolutionId),
                lowestValue, self)
            else
              pure (bestSolution, dBestValue, self)) = .ok acc' →
          ∃ (lv : R) (s' : CSimplexOptimizer R) (lo : Nat), (do
              let self ← CSimplexOptimizer.evaluateAllCurrentSolutions f
                { ref with currentFeasibleSolutions := g }
              (List.range n).foldlM
                (fun (self : CSimplexOptimizer R) (_i : Nat) => self.iteration f) self) = .ok s'
            ∧ s'.nLowestSolutionId = lo ∧ lo < d + 1
            ∧ s'.currentFunctionValues.getD lo 0 = lv) := by
  obtain ⟨b, v, s⟩ := acc
  obtain ⟨hsdim, hsvals, hcf, hef, hrf, hlf⟩ := hacc
  simp only [] at hsdim hsvals hcf hef hrf hlf
  have hind := groupRun_independent f n hn ref s g (by rw [hrefvals, hg.1])
    (by rw [hsvals, hg.1]) (hsdim.trans hrefdim.symm) hcf hef hrf hlf
  -- the shape and the factors after the run of the group from `ref`
  have hshape : ∀ s', (do
        let self ← CSimplexOptimizer.evaluateAllCurrentSolutions f
          { ref with currentFeasibleSolutions := g }
        (List.range n).foldlM
          (fun (self : CSimplexOptimizer R) (_i : Nat) => self.iteration f) self) = .ok s' →
      s'.SimplexShape d ∧ s'.config = ref.config := by
    intro s' hs'
    rw [evaluateAllCurrentSolutions_ok f { ref with currentFeasibleSolutions := g }
      (by show ref.currentFunctionValues.length = g.length
          rw [hrefvals, hg.1]), ok_bind] at hs'
    have hsh : CSimplexOptimizer.SimplexShape d
        ({ ref with currentFeasibleSolutions := g, currentFunctionValues := g.map f } :
          CSimplexOptimizer R) :=
      ⟨hrefdim, hg.1, hg.2, by show (g.map f).length = d + 1
                               rw [List.length_map, hg.1]⟩
    have hboth := iterations_shape f d n _ s' hsh hs'
    exact ⟨hboth.1, hboth.2⟩
  -- the body of the loop, in terms of the run of the group
  have hbody : (do
        let (bestSolution, dBestValue, self) := ((b, v, s) : List R × R × CSimplexOptimizer R)
        let self := { self with currentFeasibleSolutions := g }
        let self ← self.evaluateAllCurrentSolutions f
        let self ← (List.range n).foldlM
          (fun (self : CSimplexOptimizer R) (_iIteration : Nat) => self.iteration f) self
        let lowestValue ← vecGet self.currentFunctionValues self.nLowestSolutionId
        if lowestValue < dBestValue then
          pure ((← vecGet self.currentFeasibleSolutions self.nLowestSolutionId),
            lowestValue, self)
        else
          pure (bestSolution, dBestValue, self))
      = ((do
          let self ← CSimplexOptimizer.evaluateAllCurrentSolutions f
            { s with currentFeasibleSolutions := g }
          (List.range n).foldlM
            (fun (self : CSimplexOptimizer R) (_i : Nat) => self.iteration f) self)
        >>= fun self => do
          let lowestValue ← vecGet self.currentFunctionValues self.nLowestSolutionId
          if lowestValue < v then
            pure ((← vecGet self.currentFeasibleSolutions self.nLowestSolutionId),
              lowestValue, self)
          else
            pure (b, v, self)) := by
    simp only [bind_assoc]
  rw [hbody, hind]
  constructor
  · rintro lv ⟨s', lo, hrun, hlid, hlo, hlv⟩
    obtain ⟨⟨-, hcount, -, hvlen⟩, hconfig⟩ := hshape s' hrun
    rw [hrun]
    simp only [map_pure, Except.map, Functor.map, ok_bind]
    have hgetv : vecGet s'.currentFunctionValues s'.nLowestSolutionId = .ok lv := by
      rw [hlid, ← hlv]; exact vecGet_natCast _ lo 0 (by omega)
    have hgets : vecGet s'.currentFeasibleSolutions s'.nLowestSolutionId
        = .ok (s'.currentFeasibleSolutions.getD lo []) := by
      rw [hlid]; exact vecGet_natCast _ lo [] (by omega)
    have hcompat : s'.nPROBLEM_DIMENSION = d ∧ s'.currentFunctionValues.length = d + 1
        ∧ s'.dContractionFactor = ref.dContractionFactor
        ∧ s'.dExtensionFactor = ref.dExtensionFactor
        ∧ s'.dReductionFactor = ref.dReductionFactor
        ∧ s'.dReflectionFactor = ref.dReflectionFactor := by
      unfold CSimplexOptimizer.config at hconfig
      simp only [Prod.mk.injEq] at hconfig
      obtain ⟨-, c1, c2, c3, c4, c5⟩ := hconfig
      exact ⟨c1.trans hrefdim, hvlen, c2, c3, c4, c5⟩
    show ∃ acc', (vecGet s'.currentFunctionValues s'.nLowestSolutionId >>= _) = _ ∧ _
    rw [hgetv, ok_bind]
    by_cases hlt : lv < v
    · simp only [hlt, if_true]
      show ∃ acc', (vecGet s'.currentFeasibleSolutions s'.nLowestSolutionId >>= _) = _ ∧ _
      rw [hgets, ok_bind]
      exact ⟨_, rfl, (min_eq_left (le_of_lt hlt)).symm, hcompat⟩
    · simp only [hlt, if_false]
      exact ⟨_, rfl, (min_eq_right (not_lt.1 hlt)).symm, hcompat⟩
  · intro acc' h
    cases hrun : (do
        let self ← CSimplexOptimizer.evaluateAllCurrentSolutions f
          { ref with currentFeasibleSolutions := g }
        (List.range n).foldlM
          (fun (self : CSimplexOptimizer R) (_i : Nat) => self.iteration f) self) with
    | error e =>
      rw [hrun] at h
      cases h
    | ok s' =>
      rw [hrun] at h
      obtain ⟨⟨-, hcount, -, hvlen⟩, -⟩ := hshape s' hrun
      simp only [map_pure, Except.map, Functor.map, ok_bind] at h
      change (vecGet s'.currentFunctionValues s'.nLowestSolutionId >>= _) = _ at h
      cases hget : vecGet s'.currentFunctionValues s'.nLowestSolutionId with
      | error e => rw [hget] at h; cases h
      | ok lv =>
        obtain ⟨lo, hlid, hlo⟩ := vecGet_ok_inv _ _ lv hget
        refine ⟨s'.currentFunctionValues.getD lo 0, s', lo, rfl, hlid, by omega, rfl⟩

/-- The run over the groups is a loop from the empty solution and `DBL_MAX`. -/
theorem runOptimization_eq (f : List R → R) (o : CSimplexOptimizer R) (n : Int) :
    o.runOptimization f n = o.INITIAL_FEASIBLE_SOLUTIONS.foldlM
      (fun (acc : List R × R × CSimplexOptimizer R) (solutionsGroup : List (List R)) => do
        let (bestSolution, dBestValue, self) := acc
        let self := { self with currentFeasibleSolutions := solutionsGroup }
        let self ← self.evaluateAllCurrentSolutions f
        let self ← (List.range n.toNat).foldlM
          (fun (self : CSimplexOptimizer R) (_iIteration : Nat) => self.iteration f) self
        let lowestValue ← vecGet self.currentFunctionValues self.nLowestSolutionId
        if lowestValue < dBestValue then
          pure ((← vecGet self.currentFeasibleSolutions self.nLowestSolutionId),
            lowestValue, self)
        else
          pure (bestSolution, dBestValue, self))
      (([] : List R), (DBL_MAX : R), o) := by
  unfold CSimplexOptimizer.runOptimization
  have key : ∀ x : Except Failure (List R × R × CSimplexOptimizer R),
      (do
        let (bestSolution, dBestValue, self) ← x
        pure (bestSolution, dBestValue, self)) = x := by
    intro x
    cases x with
    | error e => rfl
    | ok a =>
      obtain ⟨b, v, s⟩ := a
      rfl
  exact key _

/-- The value returned for a list of valid groups is the minimum of `DBL_MAX`
and the values at the lowest index after the run of each group from the
constructed optimizer. -/
theorem runOptimization_min (f : List R → R) (n : Int) (hn : 1 ≤ n) (d : Nat)
    (ref o : CSimplexOptimizer R)
    (hrefdim : ref.nPROBLEM_DIMENSION = d) (hrefvals : ref.currentFunctionValues.length = d + 1)
    (l : List (List (List R))) (hl : o.INITIAL_FEASIBLE_SOLUTIONS = l) (hvalid : validGroups d l)
    (ho : o.nPROBLEM_DIMENSION = d ∧ o.currentFunctionValues.length = d + 1
      ∧ o.dContractionFactor = ref.dContractionFactor
      ∧ o.dExtensionFactor = ref.dExtensionFactor
      ∧ o.dReductionFactor = ref.dReductionFactor
      ∧ o.dReflectionFactor = ref.dReflectionFactor) :
    ((∃ r, o.runOptimization f n = .ok r) ↔
        ∀ g ∈ l, ∃ (lv : R) (s' : CSimplexOptimizer R) (lo : Nat), (do
            let self ← CSimplexOptimizer.evaluateAllCurrentSolutions f
              { ref with currentFeasibleSolutions := g }
            (List.range n.toNat).foldlM
              (fun (self : CSimplexOptimizer R) (_i : Nat) => self.iteration f) self) = .ok s'
          ∧ s'.nLowestSolutionId = lo ∧ lo < d + 1
          ∧ s'.currentFunctionValues.getD lo 0 = lv)
      ∧ ∀ r, o.runOptimization f n = .ok r →
          (∀ g ∈ l, ∀ lv,
            (∃ (s' : CSimplexOptimizer R) (lo : Nat), (do
                let self ← CSimplexOptimizer.evaluateAllCurrentSolutions f
                  { ref with currentFeasibleSolutions := g }
                (List.range n.toNat).foldlM
                  (fun (self : CSimplexOptimizer R) (_i : Nat) => self.iteration f) self) = .ok s'
              ∧ s'.nLowestSolutionId = lo ∧ lo < d + 1
              ∧ s'.currentFunctionValues.getD lo 0 = lv) → r.2.1 ≤ min lv DBL_MAX)
          ∧ (r.2.1 = DBL_MAX ∨ ∃ g ∈ l, ∃ lv,
            (∃ (s' : CSimplexOptimizer R) (lo : Nat), (do
                let self ← CSimplexOptimizer.evaluateAllCurrentSolutions f
                  { ref with currentFeasibleSolutions := g }
                (List.range n.toNat).foldlM
                  (fun (self : CSimplexOptimizer R) (_i : Nat) => self.iteration f) self) = .ok s'
              ∧ s'.nLowestSolutionId = lo ∧ lo < d + 1
              ∧ s'.currentFunctionValues.getD lo 0 = lv) ∧ r.2.1 = min lv DBL_MAX) := by
  have hn' : 1 ≤ n.toNat := by omega
  rw [runOptimization_eq, hl]
  exact foldlM_min _ (fun (a : List R × R × CSimplexOptimizer R) => a.2.1)
    (fun (a : List R × R × CSimplexOptimizer R) =>
      a.2.2.nPROBLEM_DIMENSION = (d : Int) ∧ a.2.2.currentFunctionValues.length = d + 1
      ∧ a.2.2.dContractionFactor = ref.dContractionFactor
      ∧ a.2.2.dExtensionFactor = ref.dExtensionFactor
      ∧ a.2.2.dReductionFactor = ref.dReductionFactor
      ∧ a.2.2.dReflectionFactor = ref.dReflectionFactor)
    (fun g lv => ∃ (s' : CSimplexOptimizer R) (lo : Nat), (do
          let self ← CSimplexOptimizer.evaluateAllCurrentSolutions f
            { ref with currentFeasibleSolutions := g }
          (List.range n.toNat).foldlM
            (fun (self : CSimplexOptimizer R) (_i : Nat) => self.iteration f) self) = .ok s'
        ∧ s'.nLowestSolutionId = lo ∧ lo < d + 1
        ∧ s'.currentFunctionValues.getD lo 0 = lv)
    l
    (fun acc g hg lv hc hout =>
      (runOptimization_step f n.toNat hn' d ref g (hvalid g hg) hrefdim hrefvals acc hc).1 lv hout)
    (fun acc g hg acc' hc hstep =>
      (runOptimization_step f n.toNat hn' d ref g (hvalid g hg) hrefdim hrefvals acc hc).2
        acc' hstep)
    (([] : List R), (DBL_MAX : R), o) ho

/-- The value at the lowest index after a run is determined by the run. -/
theorem lowest_value_unique (x : Except Failure (CSimplexOptimizer R)) (d : Nat) (lv lv' : R)
    (h : ∃ (s' : CSimplexOptimizer R) (lo : Nat), x = .ok s' ∧ s'.nLowestSolutionId = lo
      ∧ lo < d + 1 ∧ s'.currentFunctionValues.getD lo 0 = lv)
    (h' : ∃ (s' : CSimplexOptimizer R) (lo : Nat), x = .ok s' ∧ s'.nLowestSolutionId = lo
      ∧ lo < d + 1 ∧ s'.currentFunctionValues.getD lo 0 = lv') : lv = lv' := by
  obtain ⟨s1, l1, hx1, hl1, -, hv1⟩ := h
  obtain ⟨s2, l2, hx2, hl2, -, hv2⟩ := h'
  rw [hx1] at hx2
  cases hx2
  have : l1 = l2 := by
    have : (l1 : Int) = (l2 : Int) := hl1.symm.trans hl2
    exact_mod_cast this
  subst this
  exact hv1.symm.trans hv2

/-- C12: multi-start never hurts. For a list `G` of at least two groups that
are valid in dimension `d`, at least one iteration and every objective `f`,
the run on `G` returns iff the run on the single-group list `[g]` returns for
each `g` of `G`; and when it returns, its value is at most the value returned
for `[g]`, for each `g` of `G`, and equal to the value returned for one of
them: it is the minimum of the single-group results. -/
theorem C12_multi_start_never_hurts (f : List R → R) (dIndeterminate : R)
    (G : List (List (List R))) (d : Nat) (nMaxIterations : Int)
    (hN : 2 ≤ G.length) (hvalid : validGroups d G) (hn : 1 ≤ nMaxIterations) :
    ((∃ o r, CSimplexOptimizer.new dIndeterminate G = .ok o
          ∧ o.runOptimization f nMaxIterations = .ok r) ↔
        ∀ g ∈ G, ∃ o1 r1, CSimplexOptimizer.new dIndeterminate [g] = .ok o1
          ∧ o1.runOptimization f nMaxIterations = .ok r1)
      ∧ ∀ o r, CSimplexOptimizer.new dIndeterminate G = .ok o →
          o.runOptimization f nMaxIterations = .ok r →
          (∀ g ∈ G, ∃ o1 r1, CSimplexOptimizer.new dIndeterminate [g] = .ok o1
              ∧ o1.runOptimization f nMaxIterations = .ok r1 ∧ r.2.1 ≤ r1.2.1)
            ∧ ∃ g ∈ G, ∃ o1 r1, CSimplexOptimizer.new dIndeterminate [g] = .ok o1
              ∧ o1.runOptimization f nMaxIterations = .ok r1 ∧ r.2.1 = r1.2.1 := by
  have hne : G ≠ [] := by
    intro h
    rw [h] at hN
    simp at hN
  obtain ⟨g0, hg0⟩ := List.exists_mem_of_ne_nil G hne
  -- the constructed optimizers differ in the stored groups only
  obtain ⟨mk, hmk⟩ : ∃ mk : List (List (List R)) → CSimplexOptimizer R,
      ∀ G', G' ≠ [] → validGroups d G' →
        CSimplexOptimizer.new dIndeterminate G' = .ok (mk G')
          ∧ (mk G').INITIAL_FEASIBLE_SOLUTIONS = G'
          ∧ (mk G').nPROBLEM_DIMENSION = (d : Int)
          ∧ (mk G').currentFunctionValues.length = d + 1
          ∧ (mk G').dContractionFactor = (mk G).dContractionFactor
          ∧ (mk G').dExtensionFactor = (mk G).dExtensionFactor
          ∧ (mk G').dReductionFactor = (mk G).dReductionFactor
          ∧ (mk G').dReflectionFactor = (mk G).dReflectionFactor :=
    ⟨_, fun G' h1 h2 => ⟨new_ok dIndeterminate G' d h1 h2, rfl, rfl,
      List.length_replicate _ _, rfl, rfl, rfl, rfl⟩⟩
  have hsingle : ∀ g ∈ G, validGroups d [g] := by
    intro g hg g' hg'
    rw [List.mem_singleton] at hg'
    subst hg'
    exact hvalid _ hg
  obtain ⟨hnewG, hIG, hdimG, hvalsG, -⟩ := hmk G hne hvalid
  -- the run on `G`
  have hG := runOptimization_min f nMaxIterations hn d (mk G) (mk G) hdimG hvalsG
    G hIG hvalid ⟨hdimG, hvalsG, rfl, rfl, rfl, rfl⟩
  obtain ⟨hGiff, hGval⟩ := hG
  -- the run on a single group
  have h1 : ∀ g ∈ G,
      ((∃ r1, (mk [g]).runOptimization f nMaxIterations = .ok r1) ↔
        ∃ (lv : R) (s' : CSimplexOptimizer R) (lo : Nat), (do
            let self ← CSimplexOptimizer.evaluateAllCurrentSolutions f
              { mk G with currentFeasibleSolutions := g }
            (List.range nMaxIterations.toNat).foldlM
              (fun (self : CSimplexOptimizer R) (_i : Nat) => self.iteration f) self) = .ok s'
          ∧ s'.nLowestSolutionId = lo ∧ lo < d + 1
          ∧ s'.currentFunctionValues.getD lo 0 = lv)
      ∧ ∀ r1 lv, (mk [g]).runOptimization f nMaxIterations = .ok r1 →
          (∃ (s' : CSimplexOptimizer R) (lo : Nat), (do
              let self ← CSimplexOptimizer.evaluateAllCurrentSolutions f
                { mk G with currentFeasibleSolutions := g }
              (List.range nMaxIterations.toNat).foldlM
                (fun (self : CSimplexOptimizer R) (_i : Nat) => self.iteration f) self) = .ok s'
            ∧ s'.nLowestSolutionId = lo ∧ lo < d + 1
            ∧ s'.currentFunctionValues.getD lo 0 = lv) →
          r1.2.1 = min lv DBL_MAX := by
    intro g hg
    obtain ⟨-, hI, hdim, hvals, c1, c2, c3, c4⟩ := hmk [g] (List.cons_ne_nil g []) (hsingle g hg)
    have hg1 := runOptimization_min f nMaxIterations hn d (mk G) (mk [g]) hdimG hvalsG
      [g] hI (hsingle g hg) ⟨hdim, hvals, c1, c2, c3, c4⟩
    obtain ⟨hiff, hval⟩ := hg1
    refine ⟨?_, ?_⟩
    · rw [hiff]
      constructor
      · intro h
        exact h g (List.mem_singleton_self g)
      · intro h g' hg'
        rw [List.mem_singleton] at hg'
        subst hg'
        exact h
    · intro r1 lv hr1 hout
      obtain ⟨hle, heq⟩ := hval r1 hr1
      have hle' := hle g (List.mem_singleton_self g) lv hout
      rcases heq with heq | ⟨g', hg', lv', hout', heq⟩
      · apply le_antisymm hle'
        rw [heq]
        exact min_le_right _ _
      · rw [List.mem_singleton] at hg'
        subst hg'
        rw [heq, lowest_value_unique _ d lv lv' hout hout']
  refine ⟨?_, ?_⟩
  · constructor
    · rintro ⟨o, r, ho, hr⟩ g hg
      rw [hnewG] at ho
      cases ho
      obtain ⟨lv, hout⟩ := (hGiff.1 ⟨r, hr⟩) g hg
      obtain ⟨r1, hr1⟩ := (h1 g hg).1.2 ⟨lv, hout⟩
      exact ⟨mk [g], r1, (hmk [g] (List.cons_ne_nil g []) (hsingle g hg)).1, hr1⟩
    · intro h
      have hall : ∀ g ∈ G, ∃ (lv : R) (s' : CSimplexOptimizer R) (lo : Nat), (do
            let self ← CSimplexOptimizer.evaluateAllCurrentSolutions f
              { mk G with currentFeasibleSolutions := g }
            (List.range nMaxIterations.toNat).foldlM
              (fun (self : CSimplexOptimizer R) (_i : Nat) => self.iteration f) self) = .ok s'
          ∧ s'.nLowestSolutionId = lo ∧ lo < d + 1
          ∧ s'.currentFunctionValues.getD lo 0 = lv := by
        intro g hg
        obtain ⟨o1, r1, ho1, hr1⟩ := h g hg
        rw [(hmk [g] (List.cons_ne_nil g []) (hsingle g hg)).1] at ho1
        cases ho1
        exact (h1 g hg).1.1 ⟨r1, hr1⟩
      obtain ⟨r, hr⟩ := hGiff.2 hall
      exact ⟨mk G, r, hnewG, hr⟩
  · intro o r ho hr
    rw [hnewG] at ho
    cases ho
    obtain ⟨hle, heq⟩ := hGval r hr
    have hall := hGiff.1 ⟨r, hr⟩
    refine ⟨?_, ?_⟩
    · intro g hg
      obtain ⟨lv, hout⟩ := hall g hg
      obtain ⟨r1, hr1⟩ := (h1 g hg).1.2 ⟨lv, hout⟩
      refine ⟨mk [g], r1, (hmk [g] (List.cons_ne_nil g []) (hsingle g hg)).1, hr1, ?_⟩
      rw [(h1 g hg).2 r1 lv hr1 hout]
      exact hle g hg lv hout
    · rcases heq with heq | ⟨g, hg, lv, hout, heq⟩
      · obtain ⟨lv, hout⟩ := hall g0 hg0
        obtain ⟨r1, hr1⟩ := (h1 g0 hg0).1.2 ⟨lv, hout⟩
        refine ⟨g0, hg0, mk [g0], r1,
          (hmk [g0] (List.cons_ne_nil g0 []) (hsingle g0 hg0)).1, hr1, ?_⟩
        rw [(h1 g0 hg0).2 r1 lv hr1 hout]
        apply le_antisymm (hle g0 hg0 lv hout)
        rw [heq]
        exact min_le_right _ _
      · obtain ⟨r1, hr1⟩ := (h1 g hg).1.2 ⟨lv, hout⟩
        refine ⟨g, hg, mk [g], r1,
          (hmk [g] (List.cons_ne_nil g []) (hsingle g hg)).1, hr1, ?_⟩
        rw [(h1 g hg).2 r1 lv hr1 hout]
        exact heq

/-- C12 at a concrete input: the groups `[0], [1]` and `[9], [10]` in
dimension 1, objective `(x0 - 10)^2`, one iteration. -/
theorem C12_multi_start_never_hurts_witness :
    2 ≤ ([[[0], [1]], [[9], [10]]] : List (List (List ℚ))).length
      ∧ validGroups 1 ([[[0], [1]], [[9], [10]]] : List (List (List ℚ)))
      ∧ (1 : Int) ≤ 1
      ∧ ∃ o r, CSimplexOptimizer.new (0 : ℚ) [[[0], [1]], [[9], [10]]] = .ok o
        ∧ o.runOptimization squareDistanceToTen 1 = .ok r
        ∧ ∀ g ∈ ([[[0], [1]], [[9], [10]]] : List (List (List ℚ))),
            ∃ o1 r1, CSimplexOptimizer.new (0 : ℚ) [g] = .ok o1
              ∧ o1.runOptimization squareDistanceToTen 1 = .ok r1 ∧ r.2.1 ≤ r1.2.1 := by
  have hvalid : validGroups 1 ([[[0], [1]], [[9], [10]]] : List (List (List ℚ))) := by
    simp [validGroups]
  obtain ⟨o, ho, r, hr⟩ : ∃ o, CSimplexOptimizer.new (0 : ℚ) [[[0], [1]], [[9], [10]]] = .ok o
      ∧ ∃ r, o.runOptimization squareDistanceToTen 1 = .ok r :=
    ⟨_, new_ok (0 : ℚ) _ 1 (by simp) hvalid, by
      norm_num [CSimplexOptimizer.runOptimization, CSimplexOptimizer.evaluateAllCurrentSolutions,
        CSimplexOptimizer.iteration, CSimplexOptimizer.updateSpecialVertices,
        CSimplexOptimizer.updateSpecialVerticesStep, CSimplexOptimizer.updateReflectionCentroid,
        CSimplexOptimizer.doReflection, CSimplexOptimizer.doExtention,
        CSimplexOptimizer.doContraction, CSimplexOptimizer.doReduction,
        CSimplexOptimizer.dCONTRACTION_FACTOR, CSimplexOptimizer.dEXTENSION_FACTOR,
        CSimplexOptimizer.dREDUCTION_FACTOR, CSimplexOptimizer.dREFLECTION_FACTOR,
        CMathematics.add, CMathematics.substract,
        CMathematics.multiply, vecAssignZero, DBL_MAX, vecGet, vecSet, squareDistanceToTen,
        List.range_succ, pure, Except.pure, bind, Except.bind, List.enum, List.enumFrom,
        List.replicate]⟩
  exact ⟨by decide, hvalid, by decide, o, r, ho, hr,
    ((C12_multi_start_never_hurts squareDistanceToTen 0 _ 1 1 (by decide) hvalid
      (by decide)).2 o r ho hr).1⟩

/-- A counted loop whose body ignores the counter: `a` passes, then `b` more. -/
theorem foldlM_range_add {σ : Type} (g : σ → Except Failure σ) (a b : Nat) (s s1 s2 : σ)
    (h1 : (List.range a).foldlM (fun (self : σ) (_i : Nat) => g self) s = .ok s1)
    (h2 : (List.range b).foldlM (fun (self : σ) (_i : Nat) => g self) s1 = .ok s2) :
    (List.range (a + b)).foldlM (fun (self : σ) (_i : Nat) => g self) s = .ok s2 := by
  induction b generalizing s2 with
  | zero =>
    have : s1 = s2 := by simpa [pure, Except.pure] using h2
    rw [← this]
    exact h1
  | succ b ih =>
    rw [foldlM_range_succ_back] at h2
    rw [← Nat.add_assoc, foldlM_range_succ_back]
    cases hb : (List.range b).foldlM (fun (self : σ) (_i : Nat) => g self) s1 with
    | error e =>
      rw [hb] at h2
      cases h2
    | ok s' =>
      rw [hb, ok_bind] at h2
      rw [ih s' hb, ok_bind]
      exact h2

/-- The run on a single group: the evaluation of the vertices, the iterations,
and the vertex and cached value at the lowest index, when that value is below
`DBL_MAX`. -/
theorem runOptimization_single (f : List R → R) (o : CSimplexOptimizer R) (n : Int)
    (g : List (List R)) (s0 s1 : CSimplexOptimizer R) (p : List R) (v : R)
    (hI : o.INITIAL_FEASIBLE_SOLUTIONS = [g])
    (hev : CSimplexOptimizer.evaluateAllCurrentSolutions f
      { o with currentFeasibleSolutions := g } = .ok s0)
    (hit : (List.range n.toNat).foldlM
      (fun (self : CSimplexOptimizer R) (_i : Nat) => self.iteration f) s0 = .ok s1)
    (hv : vecGet s1.currentFunctionValues s1.nLowestSolutionId = .ok v)
    (hp : vecGet s1.currentFeasibleSolutions s1.nLowestSolutionId = .ok p)
    (hlt : v < DBL_MAX) :
    o.runOptimization f n = .ok (p, v, s1) := by
  rw [runOptimization_eq, hI]
  simp only [List.foldlM_cons, List.foldlM_nil, hev, hit, hv, hp, hlt, ok_bind, if_true]
  rfl

set_option maxHeartbeats 4000000 in
set_option maxRecDepth 100000 in
/-- The scenario of the convergence run: iterations 1 to 10, evaluated. -/
theorem shiftedBowl_iterations_0_10 :
    (List.range 10).foldlM
      (fun (self : CSimplexOptimizer ℚ) (_i : Nat) => self.iteration shiftedBowl)
      { INITIAL_FEASIBLE_SOLUTIONS := [[[0, 0], [1, 0], [0, 1]]]
        currentFeasibleSolutions := [[0, 0], [1, 0], [0, 1]]
        currentFunctionValues := [10, 5, 13]
        dContractionFactor := (1 / 2)
        dExtensionFactor := 2
        dHighestSolutionValue := -DBL_MAX
        dLowestSolutionValue := DBL_MAX
        dReductionFactor := (1 / 2)
        dReflectedPointValue := 0
        dReflectionFactor := 1
        dSecondHighestSolutionValue := -DBL_MAX
        nHighestSolutionId := -1
        nLowestSolutionId := -1
        nPROBLEM_DIMENSION := 2
        nSecondHighestSolutionId := -1
        reflectionCentroid := [0, 0]
        reflectedPoint := [0, 0] }
    = .ok
      { INITIAL_FEASIBLE_SOLUTIONS := [[[0, 0], [1, 0], [0, 1]]]
        currentFeasibleSolutions := [[(191 / 64), (-29 / 32)], [(49533 / 16384), (-7895 / 8192)],
            [(13047 / 4096), (-2053 / 2048)]]
        currentFunctionValues := [(37 / 4096), (497997 / 268435456), (576181 / 16777216)]
        dContractionFactor := (1 / 2)
        dExtensionFactor := 2
        dHighestSolutionValue := (49725 / 1048576)
        dLowestSolutionValue := (37 / 4096)
        dReductionFactor := (1 / 2)
        dReflectedPointValue := (497997 / 268435456)
        dReflectionFactor := 1
        dSecondHighestSolutionValue := (576181 / 16777216)
        nHighestSolutionId := 1
        nLowestSolutionId := 0
        nPROBLEM_DIMENSION := 2
        nSecondHighestSolutionId := 2
        reflectionCentroid := [(25271 / 8192), (-3909 / 4096)]
        reflectedPoint := [(49533 / 16384), (-7895 / 8192)] } := by
  norm_num [CSimplexOptimizer.iteration, CSimplexOptimizer.updateSpecialVertices,
    CSimplexOptimizer.updateSpecialVerticesStep, CSimplexOptimizer.updateReflectionCentroid,
    CSimplexOptimizer.doReflection, CSimplexOptimizer.doExtention,
    CSimplexOptimizer.doContraction, CSimplexOptimizer.doReduction,
    CSimplexOptimizer.evaluateAllCurrentSolutions, CMathematics.add, CMathematics.substract,
    CMathematics.multiply, vecAssignZero, DBL_MAX, vecGet, vecSet, shiftedBowl,
    List.range_succ, pure, Except.pure, bind, Except.bind, List.enum, List.enumFrom,
    List.replicate, show Int.toNat 2 = 2 from rfl]

set_option maxHeartbeats 4000000 in
set_option maxRecDepth 100000 in
/-- The scenario of the convergence run: iterations 11 to 20, evaluated. -/
theorem shiftedBowl_iterations_10_20 :
    (List.range 10).foldlM
      (fun (self : CSimplexOptimizer ℚ) (_i : Nat) => self.iteration shiftedBowl)
      { INITIAL_FEASIBLE_SOLUTIONS := [[[0, 0], [1, 0], [0, 1]]]
        currentFeasibleSolutions := [[(191 / 64), (-29 / 32)], [(49533 / 16384), (-7895 / 8192)],
            [(13047 / 4096), (-2053 / 2048)]]
        currentFunctionValues := [(37 / 4096), (497997 / 268435456), (576181 / 16777216)]
        dContractionFactor := (1 / 2)
        dExtensionFactor := 2
        dHighestSolutionValue := (49725 / 1048576)
        dLowestSolutionValue := (37 / 4096)
        dReductionFactor := (1 / 2)
        dReflectedPointValue := (497997 / 268435456)
        dReflectionFactor := 1
        dSecondHighestSolutionValue := (576181 / 16777216)
        nHighestSolutionId := 1
        nLowestSolutionId := 0
        nPROBLEM_DIMENSION := 2
        nSecondHighestSolutionId := 2
        reflectionCentroid := [(25271 / 8192), (-3909 / 4096)]
        reflectedPoint := [(49533 / 16384), (-7895 / 8192)] }
    = .ok
      { INITIAL_FEASIBLE_SOLUTIONS := [[[0, 0], [1, 0], [0, 1]]]
        currentFeasibleSolutions := [[(3213375017 / 1073741824), (-536231771 / 536870912)],
            [(12866845067 / 4294967296), (-2140832065 / 2147483648)], [(100539255 / 33554432),
            (-16761221 / 16777216)]]
        currentFunctionValues := [(63263648578549 / 1152921504606846976),
            (503023010249597 / 18446744073709551616), (16409529781 / 1125899906842624)]
        dContractionFactor := (1 / 2)
        dExtensionFactor := 2
        dHighestSolutionValue := (1342857427925 / 18014398509481984)
        dLowestSolutionValue := (16409529781 / 1125899906842624)
        dReductionFactor := (1 / 2)
        dReflectedPointValue := (503023010249597 / 18446744073709551616)
        dReflectionFactor := 1
        dSecondHighestSolutionValue := (63263648578549 / 1152921504606846976)
        nHighestSolutionId := 1
        nLowestSolutionId := 2
        nPROBLEM_DIMENSION := 2
        nSecondHighestSolutionId := 0
        reflectionCentroid := [(6430631177 / 2147483648), (-1072590843 / 1073741824)]
        reflectedPoint := [(12866845067 / 4294967296), (-2140832065 / 2147483648)] } := by
  norm_num [CSimplexOptimizer.iteration, CSimplexOptimizer.updateSpecialVertices,
    CSimplexOptimizer.updateSpecialVerticesStep, CSimplexOptimizer.updateReflectionCentroid,
    CSimplexOptimizer.doReflection, CSimplexOptimizer.doExtention,
    CSimplexOptimizer.doContraction, CSimplexOptimizer.doReduction,
    CSimplexOptimizer.evaluateAllCurrentSolutions, CMathematics.add, CMathematics.substract,
    CMathematics.multiply, vecAssignZero, DBL_MAX, vecGet, vecSet, shiftedBowl,
    List.range_succ, pure, Except.pure, bind, Except.bind, List.enum, List.enumFrom,
    List.replicate, show Int.toNat 2 = 2 from rfl]

set_option maxHeartbeats 4000000 in
set_option maxRecDepth 100000 in
/-- The scenario of the convergence run: iterations 21 to 30, evaluated. -/
theorem shiftedBowl_iterations_20_30 :
    (List.range 10).foldlM
      (fun (self : CSimplexOptimizer ℚ) (_i : Nat) => self.iteration shiftedBowl)
      { INITIAL_FEASIBLE_SOLUTIONS := [[[0, 0], [1, 0], [0, 1]]]
        currentFeasibleSolutions := [[(3213375017 / 1073741824), (-536231771 / 536870912)],
            [(12866845067 / 4294967296), (-2140832065 / 2147483648)], [(100539255 / 33554432),
            (-16761221 / 16777216)]]
        currentFunctionValues := [(63263648578549 / 1152921504606846976),
            (503023010249597 / 18446744073709551616), (16409529781 / 1125899906842624)]
        dContractionFactor := (1 / 2)
        dExtensionFactor := 2
        dHighestSolutionValue := (1342857427925 / 18014398509481984)
        dLowestSolutionValue := (16409529781 / 1125899906842624)
        dReductionFactor := (1 / 2)
        dReflectedPointValue := (503023010249597 / 18446744073709551616)
        dReflectionFactor := 1
        dSecondHighestSolutionValue := (63263648578549 / 1152921504606846976)
        nHighestSolutionId := 1
        nLowestSolutionId := 2
        nPROBLEM_DIMENSION := 2
        nSecondHighestSolutionId := 0
        reflectionCentroid := [(6430631177 / 2147483648), (-1072590843 / 1073741824)]
        reflectedPoint := [(12866845067 / 4294967296), (-2140832065 / 2147483648)] }
    = .ok
      { INITIAL_FEASIBLE_SOLUTIONS := [[[0, 0], [1, 0], [0, 1]]]
        currentFeasibleSolutions := [[(422219131868533 / 140737488355328),
            (-70366846061503 / 70368744177664)], [(422208895331481 / 140737488355328),
            (-70380090373291 / 70368744177664)], [(824687969745 / 274877906944),
            (-137438218579 / 137438953472)]]
        currentFunctionValues := [(58857636069950409085 / 19807040628566084398385987584),
            (527687625246524349525 / 19807040628566084398385987584),
            (2945104832567365 / 75557863725914323419136)]
        dContractionFactor := (1 / 2)
        dExtensionFactor := 2
        dHighestSolutionValue := (60622483010307250997 / 1237940039285380274899124224)
        dLowestSolutionValue := (527687625246524349525 / 19807040628566084398385987584)
        dReductionFactor := (1 / 2)
        dReflectedPointValue := (1615047876508095038285 / 316912650057057350374175801344)
        dReflectionFactor := 1
        dSecondHighestSolutionValue := (2945104832567365 / 75557863725914323419136)
        nHighestSolutionId := 0
        nLowestSolutionId := 1
        nPROBLEM_DIMENSION := 2
        nSecondHighestSolutionId := 2
        reflectionCentroid := [(844449135840921 / 281474976710656),
            (-140748458285739 / 140737488355328)]
        reflectedPoint := [(1688887399577987 / 562949953421312),
            (-281482150408745 / 281474976710656)] } := by
  norm_num [CSimplexOptimizer.iteration, CSimplexOptimizer.updateSpecialVertices,
    CSimplexOptimizer.updateSpecialVerticesStep, CSimplexOptimizer.updateReflectionCentroid,
    CSimplexOptimizer.doReflection, CSimplexOptimizer.doExtention,
    CSimplexOptimizer.doContraction, CSimplexOptimizer.doReduction,
    CSimplexOptimizer.evaluateAllCurrentSolutions, CMathematics.add, CMathematics.substract,
    CMathematics.multiply, vecAssignZero, DBL_MAX, vecGet, vecSet, shiftedBowl,
    List.range_succ, pure, Except.pure, bind, Except.bind, List.enum, List.enumFrom,
    List.replicate, show Int.toNat 2 = 2 from rfl]

set_option maxHeartbeats 4000000 in
set_option maxRecDepth 100000 in
/-- The scenario of the convergence run: iterations 31 to 40, evaluated. -/
theorem shiftedBowl_iterations_30_40 :
    (List.range 10).foldlM
      (fun (self : CSimplexOptimizer ℚ) (_i : Nat) => self.iteration shiftedBowl)
      { INITIAL_FEASIBLE_SOLUTIONS := [[[0, 0], [1, 0], [0, 1]]]
        currentFeasibleSolutions := [[(422219131868533 / 140737488355328),
            (-70366846061503 / 70368744177664)], [(422208895331481 / 140737488355328),
            (-70380090373291 / 70368744177664)], [(824687969745 / 274877906944),
            (-137438218579 / 137438953472)]]
        currentFunctionValues := [(58857636069950409085 / 19807040628566084398385987584),
            (527687625246524349525 / 19807040628566084398385987584),
            (2945104832567365 / 75557863725914323419136)]
        dContractionFactor := (1 / 2)
        dExtensionFactor := 2
        dHighestSolutionValue := (60622483010307250997 / 1237940039285380274899124224)
        dLowestSolutionValue := (527687625246524349525 / 19807040628566084398385987584)
        dReductionFactor := (1 / 2)
        dReflectedPointValue := (1615047876508095038285 / 316912650057057350374175801344)
        dReflectionFactor := 1
        dSecondHighestSolutionValue := (2945104832567365 / 75557863725914323419136)
        nHighestSolutionId := 0
        nLowestSolutionId := 1
        nPROBLEM_DIMENSION := 2
        nSecondHighestSolutionId := 2
        reflectionCentroid := [(844449135840921 / 281474976710656),
            (-140748458285739 / 140737488355328)]
        reflectedPoint := [(1688887399577987 / 562949953421312),
            (-281482150408745 / 281474976710656)] }
    = .ok
      { INITIAL_FEASIBLE_SOLUTIONS := [[[0, 0], [1, 0], [0, 1]]]
        currentFeasibleSolutions := [[(55340224665861467929 / 18446744073709551616),
            (-9223411225114340395 / 9223372036854775808)],
            [(432345655734719731 / 144115188075855872), (-72057646641051257 / 72057594037927936)],
            [(221360797954318167155 / 73786976294838206464),
            (-36893557541964500217 / 36893488147419103232)]]
        currentFunctionValues := [(6199960813071512886982634837 / 340282366920938463463374607431768211456),
            (19441913220695085249389 / 20769187434139310514121985316880384),
            (36405128066438222506410665069 / 5444517870735015415413993718908291383296)]
        dContractionFactor := (1 / 2)
        dExtensionFactor := 2
        dHighestSolutionValue := (613471828175368129961592125 / 21267647932558653966460912964485513216)
        dLowestSolutionValue := (19441913220695085249389 / 20769187434139310514121985316880384)
        dReductionFactor := (1 / 2)
        dReflectedPointValue := (36405128066438222506410665069 / 5444517870735015415413993718908291383296)
        dReflectionFactor := 1
        dSecondHighestSolutionValue := (6199960813071512886982634837 / 340282366920938463463374607431768211456)
        nHighestSolutionId := 2
        nLowestSolutionId := 1
        nPROBLEM_DIMENSION := 2
        nSecondHighestSolutionId := 0
        reflectionCentroid := [(110680468599905593497 / 36893488147419103232),
            (-18446789995168901291 / 18446744073709551616)]
        reflectedPoint := [(221360797954318167155 / 73786976294838206464),
            (-36893557541964500217 / 36893488147419103232)] } := by
  norm_num [CSimplexOptimizer.iteration, CSimplexOptimizer.updateSpecialVertices,
    CSimplexOptimizer.updateSpecialVerticesStep, CSimplexOptimizer.updateReflectionCentroid,
    CSimplexOptimizer.doReflection, CSimplexOptimizer.doExtention,
    CSimplexOptimizer.doContraction, CSimplexOptimizer.doReduction,
    CSimplexOptimizer.evaluateAllCurrentSolutions, CMathematics.add, CMathematics.substract,
    CMathematics.multiply, vecAssignZero, DBL_MAX, vecGet, vecSet, shiftedBowl,
    List.range_succ, pure, Except.pure, bind, Except.bind, List.enum, List.enumFrom,
    List.replicate, show Int.toNat 2 = 2 from rfl]

set_option maxHeartbeats 4000000 in
set_option maxRecDepth 100000 in
/-- The scenario of the convergence run: iterations 41 to 50, evaluated. -/
theorem shiftedBowl_iterations_40_50 :
    (List.range 10).foldlM
      (fun (self : CSimplexOptimizer ℚ) (_i : Nat) => self.iteration shiftedBowl)
      { INITIAL_FEASIBLE_SOLUTIONS := [[[0, 0], [1, 0], [0, 1]]]
        currentFeasibleSolutions := [[(55340224665861467929 / 18446744073709551616),
            (-9223411225114340395 / 9223372036854775808)],
            [(432345655734719731 / 144115188075855872), (-72057646641051257 / 72057594037927936)],
            [(221360797954318167155 / 73786976294838206464),
            (-36893557541964500217 / 36893488147419103232)]]
        currentFunctionValues := [(6199960813071512886982634837 / 340282366920938463463374607431768211456),
            (19441913220695085249389 / 20769187434139310514121985316880384),
            (36405128066438222506410665069 / 5444517870735015415413993718908291383296)]
        dContractionFactor := (1 / 2)
        dExtensionFactor := 2
        dHighestSolutionValue := (613471828175368129961592125 / 21267647932558653966460912964485513216)
        dLowestSolutionValue := (19441913220695085249389 / 20769187434139310514121985316880384)
        dReductionFactor := (1 / 2)
        dReflectedPointValue := (36405128066438222506410665069 / 5444517870735015415413993718908291383296)
        dReflectionFactor := 1
        dSecondHighestSolutionValue := (6199960813071512886982634837 / 340282366920938463463374607431768211456)
        nHighestSolutionId := 2
        nLowestSolutionId := 1
        nPROBLEM_DIMENSION := 2
        nSecondHighestSolutionId := 0
        reflectionCentroid := [(110680468599905593497 / 36893488147419103232),
            (-18446789995168901291 / 18446744073709551616)]
        reflectedPoint := [(221360797954318167155 / 73786976294838206464),
            (-36893557541964500217 / 36893488147419103232)] }
    = .ok
      { INITIAL_FEASIBLE_SOLUTIONS := [[[0, 0], [1, 0], [0, 1]]]
        currentFeasibleSolutions := [[(232113762151446652157915205 / 77371252455336267181195264),
            (-38685617340162208898785839 / 38685626227668133590597632)],
            [(1813388744227425194299925 / 604462909807314587353088),
            (-302231372168652368424351 / 302231454903657293676544)],
            [(928455052102022790253334893 / 309485009821345068724781056),
            (-154742467741037721164771495 / 154742504910672534362390528)]]
        currentFunctionValues := [(338851461667820519325613272811412423965 / 5986310706507378352962293074805895248510699696029696),
            (27599526440366441509834529626953917 / 365375409332725729550921208179070754913983135744),
            (6038805490442804182621405504253433895981 / 95780971304118053647396689196894323976171195136475136)]
        dContractionFactor := (1 / 2)
        dExtensionFactor := 2
        dHighestSolutionValue := (453805761685845539221141835149781256325 / 5986310706507378352962293074805895248510699696029696)
        dLowestSolutionValue := (338851461667820519325613272811412423965 / 5986310706507378352962293074805895248510699696029696)
        dReductionFactor := (1 / 2)
        dReflectedPointValue := (6038805490442804182621405504253433895981 / 95780971304118053647396689196894323976171195136475136)
        dReflectionFactor := 1
        dSecondHighestSolutionValue := (27599526440366441509834529626953917 / 365375409332725729550921208179070754913983135744)
        nHighestSolutionId := 2
        nLowestSolutionId := 0
        nPROBLEM_DIMENSION := 2
        nSecondHighestSolutionId := 1
        reflectionCentroid := [(464227521412557077028305605 / 154742504910672534362390528),
            (-77371232977749712057102767 / 77371252455336267181195264)]
        reflectedPoint := [(928455052102022790253334893 / 309485009821345068724781056),
            (-154742467741037721164771495 / 154742504910672534362390528)] } := by
  norm_num [CSimplexOptimizer.iteration, CSimplexOptimizer.updateSpecialVertices,
    CSimplexOptimizer.updateSpecialVerticesStep, CSimplexOptimizer.updateReflectionCentroid,
    CSimplexOptimizer.doReflection, CSimplexOptimizer.doExtention,
    CSimplexOptimizer.doContraction, CSimplexOptimizer.doReduction,
    CSimplexOptimizer.evaluateAllCurrentSolutions, CMathematics.add, CMathematics.substract,
    CMathematics.multiply, vecAssignZero, DBL_MAX, vecGet, vecSet, shiftedBowl,
    List.range_succ, pure, Except.pure, bind, Except.bind, List.enum, List.enumFrom,
    List.replicate, show Int.toNat 2 = 2 from rfl]

/-- C13: the convergence scenario. With the objective
`(x0 - 3)^2 + (x1 + 1)^2`, the factors of a constructed optimizer (reflection 1,
extension 2, contraction 1/2, reduction 1/2), the single group `(0,0), (1,0),
(0,1)` and 50 iterations, `runOptimization` returns a point with two
coordinates, each within `1/100` of `(3, -1)`, and a value of at most
`2/10000`. -/
theorem C13_convergence_scenario (dIndeterminate : ℚ) :
    ∃ o r, CSimplexOptimizer.new dIndeterminate [[[0, 0], [1, 0], [0, 1]]] = .ok o
      ∧ o.getReflectionFactor = 1 ∧ o.getExtensionFactor = 2
      ∧ o.getContractionFactor = 1 / 2 ∧ o.getReductionFactor = 1 / 2
      ∧ o.runOptimization shiftedBowl 50 = .ok r
      ∧ r.1.length = 2
      ∧ |r.1.getD 0 0 - 3| ≤ 1 / 100 ∧ |r.1.getD 1 0 - (-1)| ≤ 1 / 100
      ∧ r.2.1 ≤ 2 / 10000 := by
  have hev : CSimplexOptimizer.evaluateAllCurrentSolutions shiftedBowl
      ({ (
      { INITIAL_FEASIBLE_SOLUTIONS := [[[0, 0], [1, 0], [0, 1]]]
        currentFeasibleSolutions := []
        currentFunctionValues := [0, 0, 0]
        dContractionFactor := (1 / 2)
        dExtensionFactor := 2
        dHighestSolutionValue := -DBL_MAX
        dLowestSolutionValue := DBL_MAX
        dReductionFactor := (1 / 2)
        dReflectedPointValue := dIndeterminate
        dReflectionFactor := 1
        dSecondHighestSolutionValue := -DBL_MAX
        nHighestSolutionId := -1
        nLowestSolutionId := -1
        nPROBLEM_DIMENSION := 2
        nSecondHighestSolutionId := -1
        reflectionCentroid := [0, 0]
        reflectedPoint := [0, 0] } : CSimplexOptimizer ℚ) with
        currentFeasibleSolutions := [[0, 0], [1, 0], [0, 1]] })
    = .ok
      { INITIAL_FEASIBLE_SOLUTIONS := [[[0, 0], [1, 0], [0, 1]]]
        currentFeasibleSolutions := [[0, 0], [1, 0], [0, 1]]
        currentFunctionValues := [10, 5, 13]
        dContractionFactor := (1 / 2)
        dExtensionFactor := 2
        dHighestSolutionValue := -DBL_MAX
        dLowestSolutionValue := DBL_MAX
        dReductionFactor := (1 / 2)
        dReflectedPointValue := dIndeterminate
        dReflectionFactor := 1
        dSecondHighestSolutionValue := -DBL_MAX
        nHighestSolutionId := -1
        nLowestSolutionId := -1
        nPROBLEM_DIMENSION := 2
        nSecondHighestSolutionId := -1
        reflectionCentroid := [0, 0]
        reflectedPoint := [0, 0] } := by
    norm_num [CSimplexOptimizer.evaluateAllCurrentSolutions, vecGet, vecSet, shiftedBowl,
      List.range_succ, pure, Except.pure, bind, Except.bind]
  have h10 : (List.range 10).foldlM
      (fun (self : CSimplexOptimizer ℚ) (_i : Nat) => self.iteration shiftedBowl)
      { INITIAL_FEASIBLE_SOLUTIONS := [[[0, 0], [1, 0], [0, 1]]]
        currentFeasibleSolutions := [[0, 0], [1, 0], [0, 1]]
        currentFunctionValues := [10, 5, 13]
        dContractionFactor := (1 / 2)
        dExtensionFactor := 2
        dHighestSolutionValue := -DBL_MAX
        dLowestSolutionValue := DBL_MAX
        dReductionFactor := (1 / 2)
        dReflectedPointValue := dIndeterminate
        dReflectionFactor := 1
        dSecondHighestSolutionValue := -DBL_MAX
        nHighestSolutionId := -1
        nLowestSolutionId := -1
        nPROBLEM_DIMENSION := 2
        nSecondHighestSolutionId := -1
        reflectionCentroid := [0, 0]
        reflectedPoint := [0, 0] }
    = .ok
      { INITIAL_FEASIBLE_SOLUTIONS := [[[0, 0], [1, 0], [0, 1]]]
        currentFeasibleSolutions := [[(191 / 64), (-29 / 32)], [(49533 / 16384), (-7895 / 8192)],
            [(13047 / 4096), (-2053 / 2048)]]
        currentFunctionValues := [(37 / 4096), (497997 / 268435456), (576181 / 16777216)]
        dContractionFactor := (1 / 2)
        dExtensionFactor := 2
        dHighestSolutionValue := (49725 / 1048576)
        dLowestSolutionValue := (37 / 4096)
        dReductionFactor := (1 / 2)
        dReflectedPointValue := (497997 / 268435456)
        dReflectionFactor := 1
        dSecondHighestSolutionValue := (576181 / 16777216)
        nHighestSolutionId := 1
        nLowestSolutionId := 0
        nPROBLEM_DIMENSION := 2
        nSecondHighestSolutionId := 2
        reflectionCentroid := [(25271 / 8192), (-3909 / 4096)]
        reflectedPoint := [(49533 / 16384), (-7895 / 8192)] } :=
    (iterations_ignore shiftedBowl 10 (by decide)
      { INITIAL_FEASIBLE_SOLUTIONS := [[[0, 0], [1, 0], [0, 1]]]
        currentFeasibleSolutions := [[0, 0], [1, 0], [0, 1]]
        currentFunctionValues := [10, 5, 13]
        dContractionFactor := (1 / 2)
        dExtensionFactor := 2
        dHighestSolutionValue := -DBL_MAX
        dLowestSolutionValue := DBL_MAX
        dReductionFactor := (1 / 2)
        dReflectedPointValue := 0
        dReflectionFactor := 1
        dSecondHighestSolutionValue := -DBL_MAX
        nHighestSolutionId := -1
        nLowestSolutionId := -1
        nPROBLEM_DIMENSION := 2
        nSecondHighestSolutionId := -1
        reflectionCentroid := [0, 0]
        reflectedPoint := [0, 0] }
      [[[0, 0], [1, 0], [0, 1]]] (-DBL_MAX) DBL_MAX (-DBL_MAX) (-1) (-1) (-1) [0, 0] [0, 0]
      dIndeterminate).trans (by rw [shiftedBowl_iterations_0_10]; rfl)
  have hit := foldlM_range_add (fun (self : CSimplexOptimizer ℚ) => self.iteration shiftedBowl)
    40 10 _ _ _
    (foldlM_range_add (fun (self : CSimplexOptimizer ℚ) => self.iteration shiftedBowl)
      30 10 _ _ _
      (foldlM_range_add (fun (self : CSimplexOptimizer ℚ) => self.iteration shiftedBowl)
        20 10 _ _ _
        (foldlM_range_add (fun (self : CSimplexOptimizer ℚ) => self.iteration shiftedBowl)
          10 10 _ _ _ h10
          shiftedBowl_iterations_10_20)
        shiftedBowl_iterations_20_30)
      shiftedBowl_iterations_30_40)
    shiftedBowl_iterations_40_50
  refine ⟨
      { INITIAL_FEASIBLE_SOLUTIONS := [[[0, 0], [1, 0], [0, 1]]]
        currentFeasibleSolutions := []
        currentFunctionValues := [0, 0, 0]
        dContractionFactor := (1 / 2)
        dExtensionFactor := 2
        dHighestSolutionValue := -DBL_MAX
        dLowestSolutionValue := DBL_MAX
        dReductionFactor := (1 / 2)
        dReflectedPointValue := dIndeterminate
        dReflectionFactor := 1
        dSecondHighestSolutionValue := -DBL_MAX
        nHighestSolutionId := -1
        nLowestSolutionId := -1
        nPROBLEM_DIMENSION := 2
        nSecondHighestSolutionId := -1
        reflectionCentroid := [0, 0]
        reflectedPoint := [0, 0] },
    ([(232113762151446652157915205 / 77371252455336267181195264),
        (-38685617340162208898785839 / 38685626227668133590597632)],
        (338851461667820519325613272811412423965 / 5986310706507378352962293074805895248510699696029696),
      { INITIAL_FEASIBLE_SOLUTIONS := [[[0, 0], [1, 0], [0, 1]]]
        currentFeasibleSolutions := [[(232113762151446652157915205 / 77371252455336267181195264),
            (-38685617340162208898785839 / 38685626227668133590597632)],
            [(1813388744227425194299925 / 604462909807314587353088),
            (-302231372168652368424351 / 302231454903657293676544)],
            [(928455052102022790253334893 / 309485009821345068724781056),
            (-154742467741037721164771495 / 154742504910672534362390528)]]
        currentFunctionValues := [(338851461667820519325613272811412423965 / 5986310706507378352962293074805895248510699696029696),
            (27599526440366441509834529626953917 / 365375409332725729550921208179070754913983135744),
            (6038805490442804182621405504253433895981 / 95780971304118053647396689196894323976171195136475136)]
        dContractionFactor := (1 / 2)
        dExtensionFactor := 2
        dHighestSolutionValue := (453805761685845539221141835149781256325 / 5986310706507378352962293074805895248510699696029696)
        dLowestSolutionValue := (338851461667820519325613272811412423965 / 5986310706507378352962293074805895248510699696029696)
        dReductionFactor := (1 / 2)
        dReflectedPointValue := (6038805490442804182621405504253433895981 / 95780971304118053647396689196894323976171195136475136)
        dReflectionFactor := 1
        dSecondHighestSolutionValue := (27599526440366441509834529626953917 / 365375409332725729550921208179070754913983135744)
        nHighestSolutionId := 2
        nLowestSolutionId := 0
        nPROBLEM_DIMENSION := 2
        nSecondHighestSolutionId := 1
        reflectionCentroid := [(464227521412557077028305605 / 154742504910672534362390528),
            (-77371232977749712057102767 / 77371252455336267181195264)]
        reflectedPoint := [(928455052102022790253334893 / 309485009821345068724781056),
            (-154742467741037721164771495 / 154742504910672534362390528)] }), ?_, ?_, ?_, ?_, ?_,
            ?_, rfl, ?_, ?_, ?_⟩
  · norm_num [CSimplexOptimizer.new, vecGet, vecAssignZero,
      CSimplexOptimizer.setContractionFactor, CSimplexOptimizer.setExtensionFactor,
      CSimplexOptimizer.setReductionFactor, CSimplexOptimizer.setReflectionFactor,
      CSimplexOptimizer.dCONTRACTION_FACTOR, CSimplexOptimizer.dEXTENSION_FACTOR,
      CSimplexOptimizer.dREDUCTION_FACTOR, CSimplexOptimizer.dREFLECTION_FACTOR, pure,
      Except.pure, bind, Except.bind, throw, throwThe, MonadExceptOf.throw, List.replicate]
  · rfl
  · rfl
  · rfl
  · rfl
  · refine runOptimization_single shiftedBowl _ 50 _ _ _ _ _ rfl hev hit ?_ ?_ ?_
    · norm_num [vecGet]
    · norm_num [vecGet]
    · norm_num [DBL_MAX]
  · rw [abs_le]
    norm_num [List.getD]
  · rw [abs_le]
    norm_num [List.getD]
  · norm_num

end Runs

/-! ## Steps of an iteration -/

section Steps

variable {R : Type} [LinearOrderedField R]

/-- The point computed by `substract`, `multiply`, `add` is
`base + factor * (tip - tail)`. -/
theorem affine_eq (tip tail base : List R) (c : R) (d : Nat) (ht : tip.length = d)
    (hs : tail.length = d) (hb : base.length = d) :
    (do
      let p ← CMathematics.substract tip tail
      CMathematics.add (CMathematics.multiply p c) base : Except Failure (List R))
      = .ok (pointAlong base c tip tail)
      ∧ (pointAlong base c tip tail).length = d := by
  rw [substract_ok tip tail (ht.trans hs.symm), ok_bind]
  have hlen : (CMathematics.multiply (List.zipWith (fun d s => d - s) tip tail) c).length = d := by
    rw [multiply_length, List.length_zipWith, ht, hs, min_self]
  rw [add_ok _ _ (hlen.trans hb.symm)]
  have hpl : (pointAlong base c tip tail).length = d := by
    unfold pointAlong
    rw [List.length_zipWith, List.length_zipWith, hb, ht, hs, min_self, min_self]
  refine ⟨?_, hpl⟩
  congr 1
  apply List.ext_getElem
  · rw [List.length_zipWith, hlen, hb, min_self, hpl]
  · intro k h1 h2
    unfold pointAlong CMathematics.multiply
    simp only [List.getElem_zipWith, List.getElem_map]
    ring

/-- Coordinate `k` of `base + factor * (tip - tail)`. -/
theorem pointAlong_getD (base tip tail : List R) (c : R) (d k : Nat) (ht : tip.length = d)
    (hs : tail.length = d) (hb : base.length = d) (hk : k < d) :
    (pointAlong base c tip tail).getD k 0
      = base.getD k 0 + c * (tip.getD k 0 - tail.getD k 0) := by
  have hpl : (pointAlong base c tip tail).length = d := by
    unfold pointAlong
    rw [List.length_zipWith, List.length_zipWith, hb, ht, hs, min_self, min_self]
  rw [List.getD_eq_getElem _ 0 (by omega), List.getD_eq_getElem _ 0 (by omega),
    List.getD_eq_getElem _ 0 (by omega), List.getD_eq_getElem _ 0 (by omega)]
  unfold pointAlong
  simp only [List.getElem_zipWith]

/-- The sum of the vertices computed by the loop of `updateReflectionCentroid`. -/
theorem foldlM_add_eq (sols : List (List R)) (d : Nat) (h : ∀ v ∈ sols, v.length = d)
    (c : List R) (hc : c.length = d) :
    sols.foldlM (fun (reflectionCentroid : List R) (solution : List R) =>
        CMathematics.add reflectionCentroid solution) c
      = .ok ((List.range d).map (fun k => c.getD k 0 + (sols.map (fun v => v.getD k 0)).sum)) := by
  induction sols generalizing c with
  | nil =>
    show Except.ok c = _
    congr 1
    apply List.ext_getElem
    · simp [hc]
    · intro k h1 h2
      rw [List.getElem_map, List.getElem_range, List.map_nil, List.sum_nil, add_zero,
        List.getD_eq_getElem _ 0 h1]
  | cons v vs ih =>
    have hv : v.length = d := h v (List.mem_cons_self v vs)
    rw [List.foldlM_cons, add_ok c v (hc.trans hv.symm), ok_bind,
      ih (fun w hw => h w (List.mem_cons_of_mem v hw)) _
        (by rw [List.length_zipWith, hc, hv, min_self])]
    congr 1
    apply List.map_congr_left
    intro k hk
    have hk' : k < d := List.mem_range.1 hk
    rw [List.getD_eq_getElem _ 0 (by rw [List.length_zipWith, hc, hv, min_self]; exact hk'),
      List.getElem_zipWith, List.getD_eq_getElem c 0 (by omega), List.map_cons, List.sum_cons,
      List.getD_eq_getElem v 0 (by omega)]
    ring

/-- The sum over a list without one element. -/
theorem sum_map_eraseIdx {α : Type} (g : α → R) (l : List α) (i : Nat) (hi : i < l.length)
    (dflt : α) : ((l.eraseIdx i).map g).sum = (l.map g).sum - g (l.getD i dflt) := by
  induction l generalizing i with
  | nil => simp at hi
  | cons a as ih =>
    cases i with
    | zero => simp
    | succ j =>
      have hj : j < as.length := by simpa using hi
      rw [List.eraseIdx_cons_succ, List.map_cons, List.sum_cons, ih j hj, List.map_cons,
        List.sum_cons, List.getD_cons_succ]
      ring

/-- The reflection centroid is the mean of the vertices other than the highest
one. -/
theorem updateReflectionCentroid_eq (s : CSimplexOptimizer R) (d hi : Nat)
    (hdim : s.nPROBLEM_DIMENSION = d)
    (hcount : s.currentFeasibleSolutions.length = d + 1)
    (hsize : ∀ v ∈ s.currentFeasibleSolutions, v.length = d)
    (hhi : hi < d + 1) (hid : s.nHighestSolutionId = hi) :
    s.updateReflectionCentroid
        = .ok { s with reflectionCentroid := meanOfOthers d s.currentFeasibleSolutions hi }
      ∧ (meanOfOthers d s.currentFeasibleSolutions hi).length = d := by
  have hmlen : (meanOfOthers d s.currentFeasibleSolutions hi).length = d := by
    unfold meanOfOthers
    rw [List.length_map, List.length_range]
  refine ⟨?_, hmlen⟩
  unfold CSimplexOptimizer.updateReflectionCentroid
  have hzero : (vecAssignZero (s.nPROBLEM_DIMENSION) : Except Failure (List R))
      = .ok (List.replicate d 0) := by
    unfold vecAssignZero
    rw [hdim, if_neg (by omega), Int.toNat_natCast]
  have hget : vecGet s.currentFeasibleSolutions s.nHighestSolutionId
      = .ok (s.currentFeasibleSolutions.getD hi []) := by
    rw [hid]; exact vecGet_natCast _ hi [] (by omega)
  have hvert : (s.currentFeasibleSolutions.getD hi []).length = d := by
    apply hsize
    rw [List.getD_eq_getElem _ [] (by omega)]
    exact List.getElem_mem _
  rw [hzero, ok_bind, foldlM_add_eq _ d hsize _ (List.length_replicate d 0), ok_bind, hget,
    ok_bind, substract_ok _ _ (by rw [List.length_map, List.length_range, hvert]), ok_bind]
  show Except.ok _ = Except.ok _
  congr 2
  apply List.ext_getElem
  · rw [multiply_length, List.length_zipWith, List.length_map, List.length_range, hvert,
      min_self, hmlen]
  · intro k h1 h2
    have hk : k < d := by rw [hmlen] at h2; exact h2
    have herase : (s.currentFeasibleSolutions.eraseIdx hi).length = d := by
      rw [List.length_eraseIdx, if_pos (by omega), hcount]
      rfl
    have hsum : ((s.currentFeasibleSolutions.eraseIdx hi).map (fun v => v.getD k 0)).sum
        = (s.currentFeasibleSolutions.map (fun v => v.getD k 0)).sum
          - (s.currentFeasibleSolutions.getD hi []).getD k 0 := by
      exact sum_map_eraseIdx (fun v => v.getD k 0) s.currentFeasibleSolutions hi (by omega) []
    unfold meanOfOthers CMathematics.multiply
    simp only [List.getElem_map, List.getElem_zipWith, List.getElem_range, herase, hsum, hdim]
    have hrep : (List.replicate d (0 : R)).getD k 0 = 0 := by
      rw [List.getD_eq_getElem _ 0 (by rw [List.length_replicate]; exact hk)]
      simp
    rw [hrep, List.getD_eq_getElem (s.currentFeasibleSolutions.getD hi []) 0 (by omega)]
    push_cast
    ring

/-- What one step of the scan of `updateSpecialVertices` does to the tracked
highest and second highest vertices. -/
theorem updateSpecialVerticesStep_second (t : CSimplexOptimizer R) (i : Int) (value : R) :
    (value > t.dHighestSolutionValue →
        (t.updateSpecialVerticesStep i value).dHighestSolutionValue = value
          ∧ (t.updateSpecialVerticesStep i value).nHighestSolutionId = i
          ∧ (t.updateSpecialVerticesStep i value).dSecondHighestSolutionValue
              = t.dHighestSolutionValue
          ∧ (t.updateSpecialVerticesStep i value).nSecondHighestSolutionId
              = t.nHighestSolutionId)
      ∧ (¬ value > t.dHighestSolutionValue → value > t.dSecondHighestSolutionValue →
        (t.updateSpecialVerticesStep i value).dHighestSolutionValue = t.dHighestSolutionValue
          ∧ (t.updateSpecialVerticesStep i value).nHighestSolutionId = t.nHighestSolutionId
          ∧ (t.updateSpecialVerticesStep i value).dSecondHighestSolutionValue = value
          ∧ (t.updateSpecialVerticesStep i value).nSecondHighestSolutionId = i)
      ∧ (¬ value > t.dHighestSolutionValue → ¬ value > t.dSecondHighestSolutionValue →
        (t.updateSpecialVerticesStep i value).dHighestSolutionValue = t.dHighestSolutionValue
          ∧ (t.updateSpecialVerticesStep i value).nHighestSolutionId = t.nHighestSolutionId
          ∧ (t.updateSpecialVerticesStep i value).dSecondHighestSolutionValue
              = t.dSecondHighestSolutionValue
          ∧ (t.updateSpecialVerticesStep i value).nSecondHighestSolutionId
              = t.nSecondHighestSolutionId) := by
  unfold CSimplexOptimizer.updateSpecialVerticesStep
  by_cases h1 : value > t.dHighestSolutionValue
  · by_cases h3 : value < t.dLowestSolutionValue
    · simp [h1, h3]
    · simp [h1, h3]
  · by_cases h2 : value > t.dSecondHighestSolutionValue
    · by_cases h3 : value < t.dLowestSolutionValue
      · simp [h1, h2, h3]
      · simp [h1, h2, h3]
    · by_cases h3 : value < t.dLowestSolutionValue
      · simp [h1, h2, h3]
      · simp [h1, h2, h3]

/-- Step 1 of an iteration, for at least two cached values strictly between
`-DBL_MAX` and `DBL_MAX`: the second highest index is not the highest index,
and it holds the largest cached value among the vertices other than the
highest one. -/
theorem updateSpecialVertices_second (s : CSimplexOptimizer R)
    (hne : 2 ≤ s.currentFunctionValues.length)
    (hrange : ∀ v ∈ s.currentFunctionValues, -DBL_MAX < v ∧ v < DBL_MAX) :
    ∃ hi sh : Nat, hi < s.currentFunctionValues.length
      ∧ sh < s.currentFunctionValues.length ∧ sh ≠ hi
      ∧ s.updateSpecialVertices.nHighestSolutionId = hi
      ∧ s.updateSpecialVertices.nSecondHighestSolutionId = sh
      ∧ s.currentFunctionValues.getD sh 0 = s.updateSpecialVertices.dSecondHighestSolutionValue
      ∧ ∀ j < s.currentFunctionValues.length, j ≠ hi →
          s.currentFunctionValues.getD j 0
            ≤ s.updateSpecialVertices.dSecondHighestSolutionValue := by
  have key := foldl_enumFrom_invariant
    (fun (self : CSimplexOptimizer R) (iv : Nat × R) =>
      self.updateSpecialVerticesStep iv.1 iv.2)
    (fun k t =>
      (k = 0 → t.dHighestSolutionValue = -DBL_MAX ∧ t.dSecondHighestSolutionValue = -DBL_MAX)
      ∧ (0 < k → ∃ hi : Nat, hi < k
          ∧ t.nHighestSolutionId = hi
          ∧ s.currentFunctionValues.getD hi 0 = t.dHighestSolutionValue
          ∧ (∀ j < k, s.currentFunctionValues.getD j 0 ≤ t.dHighestSolutionValue)
          ∧ (∀ j < k, j ≠ hi →
              s.currentFunctionValues.getD j 0 ≤ t.dSecondHighestSolutionValue)
          ∧ (k = 1 → t.dSecondHighestSolutionValue = -DBL_MAX)
          ∧ (2 ≤ k → ∃ sh : Nat, sh < k ∧ sh ≠ hi ∧ t.nSecondHighestSolutionId = sh
              ∧ s.currentFunctionValues.getD sh 0 = t.dSecondHighestSolutionValue)))
    s.currentFunctionValues 0
    { s with
      nHighestSolutionId := -1
      nLowestSolutionId := -1
      nSecondHighestSolutionId := -1
      dHighestSolutionValue := -DBL_MAX
      dLowestSolutionValue := DBL_MAX
      dSecondHighestSolutionValue := -DBL_MAX }
    ⟨fun _ => ⟨rfl, rfl⟩, fun h => absurd h (lt_irrefl 0)⟩
    (by
      intro k hk t ht
      rw [zero_add] at ht ⊢
      obtain ⟨h0, hpos⟩ := ht
      obtain ⟨c1, c2, c3⟩ :=
        updateSpecialVerticesStep_second t (k : Int) s.currentFunctionValues[k]
      have hgetD : s.currentFunctionValues.getD k 0 = s.currentFunctionValues[k] :=
        List.getD_eq_getElem _ 0 hk
      have hr := hrange _ (List.getElem_mem hk)
      refine ⟨fun h => absurd h (Nat.succ_ne_zero k), fun _ => ?_⟩
      rcases Nat.eq_zero_or_pos k with hk0 | hkpos
      · -- first element
        obtain ⟨hH, hS⟩ := h0 hk0
        have h1 : s.currentFunctionValues[k] > t.dHighestSolutionValue := by rw [hH]; exact hr.1
        obtain ⟨e1, e2, e3, e4⟩ := c1 h1
        refine ⟨k, Nat.lt_succ_self k, e2, by rw [hgetD, e1], ?_, ?_, ?_, ?_⟩
        · intro j hj
          have : j = k := by omega
          rw [this, hgetD, e1]
        · intro j hj hne'
          omega
        · intro _
          rw [e3, hH]
        · intro h2
          omega
      · obtain ⟨hi, hhi, ehi, vhi, hmax, hothers, hone, htwo⟩ := hpos hkpos
        by_cases h1 : s.currentFunctionValues[k] > t.dHighestSolutionValue
        · obtain ⟨e1, e2, e3, e4⟩ := c1 h1
          refine ⟨k, Nat.lt_succ_self k, e2, by rw [hgetD, e1], ?_, ?_, ?_, ?_⟩
          · intro j hj
            rw [e1]
            rcases Nat.lt_succ_iff_lt_or_eq.1 hj with hj | hj
            · exact le_trans (hmax j hj) (le_of_lt h1)
            · rw [hj, hgetD]
          · intro j hj hne'
            rw [e3]
            exact hmax j (by omega)
          · intro h
            omega
          · intro _
            exact ⟨hi, by omega, by omega, e4.trans ehi, by rw [e3]; exact vhi⟩
        · by_cases h2 : s.currentFunctionValues[k] > t.dSecondHighestSolutionValue
          · obtain ⟨e1, e2, e3, e4⟩ := c2 h1 h2
            refine ⟨hi, by omega, e2.trans ehi, by rw [e1]; exact vhi, ?_, ?_, ?_, ?_⟩
            · intro j hj
              rw [e1]
              rcases Nat.lt_succ_iff_lt_or_eq.1 hj with hj | hj
              · exact hmax j hj
              · rw [hj, hgetD]; exact not_lt.1 h1
            · intro j hj hne'
              rw [e3]
              rcases Nat.lt_succ_iff_lt_or_eq.1 hj with hj | hj
              · exact le_trans (hothers j hj hne') (le_of_lt h2)
              · rw [hj, hgetD]
            · intro h
              omega
            · intro _
              exact ⟨k, Nat.lt_succ_self k, by omega, e4, by rw [hgetD, e3]⟩
          · obtain ⟨e1, e2, e3, e4⟩ := c3 h1 h2
            have hk2 : 2 ≤ k := by
              by_contra hlt
              have hk1 : k = 1 := by omega
              rw [hone hk1] at h2
              exact h2 hr.1
            refine ⟨hi, by omega, e2.trans ehi, by rw [e1]; exact vhi, ?_, ?_, ?_, ?_⟩
            · intro j hj
              rw [e1]
              rcases Nat.lt_succ_iff_lt_or_eq.1 hj with hj | hj
              · exact hmax j hj
              · rw [hj, hgetD]; exact not_lt.1 h1
            · intro j hj hne'
              rw [e3]
              rcases Nat.lt_succ_iff_lt_or_eq.1 hj with hj | hj
              · exact hothers j hj hne'
              · rw [hj, hgetD]; exact not_lt.1 h2
            · intro h
              omega
            · intro _
              obtain ⟨sh, hsh, hshne, esh, vsh⟩ := htwo hk2
              exact ⟨sh, by omega, hshne, e4.trans esh, by rw [e3]; exact vsh⟩)
  rw [zero_add] at key
  obtain ⟨-, hpos⟩ := key
  obtain ⟨hi, hhi, ehi, -, -, hothers, -, htwo⟩ := hpos (by omega)
  obtain ⟨sh, hsh, hshne, esh, vsh⟩ := htwo hne
  exact ⟨hi, sh, hhi, hsh, hshne, ehi, esh, vsh, hothers⟩

/-- The reflected point is `centroid + reductionFactor * (centroid - highest)`:
the source scales by `_dReductionFactor`. -/
theorem doReflection_eq (f : List R → R) (s : CSimplexOptimizer R) (d hi : Nat)
    (hsize : ∀ v ∈ s.currentFeasibleSolutions, v.length = d)
    (hc : s.reflectionCentroid.length = d)
    (hhi : hi < s.currentFeasibleSolutions.length) (hid : s.nHighestSolutionId = hi) :
    s.doReflection f = .ok { s with
        reflectedPoint := pointAlong s.reflectionCentroid s.dReductionFactor
          s.reflectionCentroid (s.currentFeasibleSolutions.getD hi [])
        dReflectedPointValue := f (pointAlong s.reflectionCentroid s.dReductionFactor
          s.reflectionCentroid (s.currentFeasibleSolutions.getD hi [])) }
      ∧ (pointAlong s.reflectionCentroid s.dReductionFactor
          s.reflectionCentroid (s.currentFeasibleSolutions.getD hi [])).length = d := by
  unfold CSimplexOptimizer.doReflection
  have hget : vecGet s.currentFeasibleSolutions s.nHighestSolutionId
      = .ok (s.currentFeasibleSolutions.getD hi []) := by
    rw [hid]; exact vecGet_natCast _ hi [] hhi
  have hvert : (s.currentFeasibleSolutions.getD hi []).length = d := by
    apply hsize
    rw [List.getD_eq_getElem _ [] hhi]
    exact List.getElem_mem _
  obtain ⟨hcomp, hlen⟩ := affine_eq s.reflectionCentroid
    (s.currentFeasibleSolutions.getD hi []) s.reflectionCentroid s.dReductionFactor d hc hvert hc
  refine ⟨?_, hlen⟩
  rw [hget, ok_bind]
  simp only [] at hcomp ⊢
  cases hsub : CMathematics.substract s.reflectionCentroid
      (s.currentFeasibleSolutions.getD hi []) with
  | error e => rw [hsub] at hcomp; cases hcomp
  | ok q =>
    rw [hsub, ok_bind] at hcomp
    rw [ok_bind, hcomp, ok_bind]
    rfl

/-- The extension step: the extended point is
`centroid + extensionFactor * (reflected - centroid)`; the highest vertex and
its cached value become the extended point and its value when that value is
below the cached value of the reflected point, and the reflected point and its
cached value otherwise. -/
theorem doExtention_eq (f : List R → R) (t : CSimplexOptimizer R) (d hi : Nat)
    (hc : t.reflectionCentroid.length = d) (hp : t.reflectedPoint.length = d)
    (hhi : hi < t.currentFeasibleSolutions.length) (hhi' : hi < t.currentFunctionValues.length)
    (hid : t.nHighestSolutionId = hi) :
    t.doExtention f
      = .ok (if f (pointAlong t.reflectionCentroid t.dExtensionFactor t.reflectedPoint
            t.reflectionCentroid) < t.dReflectedPointValue then
          { t with
            currentFeasibleSolutions := t.currentFeasibleSolutions.set hi
              (pointAlong t.reflectionCentroid t.dExtensionFactor t.reflectedPoint
                t.reflectionCentroid)
            currentFunctionValues := t.currentFunctionValues.set hi
              (f (pointAlong t.reflectionCentroid t.dExtensionFactor t.reflectedPoint
                t.reflectionCentroid)) }
        else
          { t with
            currentFeasibleSolutions := t.currentFeasibleSolutions.set hi t.reflectedPoint
            currentFunctionValues := t.currentFunctionValues.set hi t.dReflectedPointValue }) := by
  unfold CSimplexOptimizer.doExtention
  obtain ⟨hcomp, -⟩ := affine_eq t.reflectedPoint t.reflectionCentroid t.reflectionCentroid
    t.dExtensionFactor d hp hc hc
  cases hsub : CMathematics.substract t.reflectedPoint t.reflectionCentroid with
  | error e => rw [hsub] at hcomp; cases hcomp
  | ok q =>
    rw [hsub, ok_bind] at hcomp
    simp only [hsub, ok_bind, hcomp, hid]
    split_ifs with hlt
    · rw [vecSet_natCast _ hi _ hhi, ok_bind, vecSet_natCast _ hi _ hhi', ok_bind]
      rfl
    · rw [vecSet_natCast _ hi _ hhi, ok_bind, vecSet_natCast _ hi _ hhi', ok_bind]
      rfl

/-- The reduction step moves every vertex `v` to
`v + reductionFactor * (lowest - v)`. -/
theorem doReduction_eq (s : CSimplexOptimizer R) (d lo : Nat)
    (hsize : ∀ v ∈ s.currentFeasibleSolutions, v.length = d)
    (hlo : lo < s.currentFeasibleSolutions.length) (hid : s.nLowestSolutionId = lo) :
    s.doReduction = .ok { s with
      currentFeasibleSolutions := s.currentFeasibleSolutions.map (fun v =>
        pointAlong v s.dReductionFactor (s.currentFeasibleSolutions.getD lo []) v) } := by
  unfold CSimplexOptimizer.doReduction
  have hget : vecGet s.currentFeasibleSolutions s.nLowestSolutionId
      = .ok (s.currentFeasibleSolutions.getD lo []) := by
    rw [hid]; exact vecGet_natCast _ lo [] hlo
  have hvert : (s.currentFeasibleSolutions.getD lo []).length = d := by
    apply hsize
    rw [List.getD_eq_getElem _ [] hlo]
    exact List.getElem_mem _
  rw [hget, ok_bind]
  rw [mapM_eq_ok_map s.currentFeasibleSolutions _ (fun v =>
    pointAlong v s.dReductionFactor (s.currentFeasibleSolutions.getD lo []) v)]
  · rfl
  · intro oldPoint hold
    have hlen := hsize oldPoint hold
    exact (affine_eq (s.currentFeasibleSolutions.getD lo []) oldPoint oldPoint
      s.dReductionFactor d hvert hlen hlen).1

/-- The contraction step: the baseline is the highest vertex when its cached
value is below the cached value of the reflected point, and the reflected
point otherwise; the contracted point is
`centroid + contractionFactor * (baseline - centroid)`; when its value is at
most the value of the baseline it replaces the highest vertex, otherwise the
simplex is reduced and every cached value is evaluated again. -/
theorem doContraction_eq (f : List R → R) (t : CSimplexOptimizer R) (d hi : Nat)
    (hsize : ∀ v ∈ t.currentFeasibleSolutions, v.length = d)
    (hc : t.reflectionCentroid.length = d) (hp : t.reflectedPoint.length = d)
    (hhi : hi < t.currentFeasibleSolutions.length) (hhi' : hi < t.currentFunctionValues.length)
    (hid : t.nHighestSolutionId = hi) :
    t.doContraction f
      = (if f (pointAlong t.reflectionCentroid t.dContractionFactor
              (if t.currentFunctionValues.getD hi 0 < t.dReflectedPointValue then
                t.currentFeasibleSolutions.getD hi [] else t.reflectedPoint)
              t.reflectionCentroid)
            ≤ (if t.currentFunctionValues.getD hi 0 < t.dReflectedPointValue then
                t.currentFunctionValues.getD hi 0 else t.dReflectedPointValue) then
          .ok { t with
            currentFeasibleSolutions := t.currentFeasibleSolutions.set hi
              (pointAlong t.reflectionCentroid t.dContractionFactor
                (if t.currentFunctionValues.getD hi 0 < t.dReflectedPointValue then
                  t.currentFeasibleSolutions.getD hi [] else t.reflectedPoint)
                t.reflectionCentroid)
            currentFunctionValues := t.currentFunctionValues.set hi
              (f (pointAlong t.reflectionCentroid t.dContractionFactor
                (if t.currentFunctionValues.getD hi 0 < t.dReflectedPointValue then
                  t.currentFeasibleSolutions.getD hi [] else t.reflectedPoint)
                t.reflectionCentroid)) }
        else do
          let self ← t.doReduction
          self.evaluateAllCurrentSolutions f) := by
  unfold CSimplexOptimizer.doContraction
  have hvert : (t.currentFeasibleSolutions.getD hi []).length = d := by
    apply hsize
    rw [List.getD_eq_getElem _ [] hhi]
    exact List.getElem_mem _
  have hgetv : vecGet t.currentFunctionValues t.nHighestSolutionId
      = .ok (t.currentFunctionValues.getD hi 0) := by
    rw [hid]; exact vecGet_natCast _ hi 0 hhi'
  have hgets : vecGet t.currentFeasibleSolutions t.nHighestSolutionId
      = .ok (t.currentFeasibleSolutions.getD hi []) := by
    rw [hid]; exact vecGet_natCast _ hi [] hhi
  -- the rest of the step, for any baseline of `d` coordinates
  have hrest : ∀ (lowerPoint : List R) (dLowerPointValue : R), lowerPoint.length = d →
      (do
        let contractedPoint ← CMathematics.substract lowerPoint t.reflectionCentroid
        let contractedPoint := CMathematics.multiply contractedPoint t.dContractionFactor
        let contractedPoint ← CMathematics.add contractedPoint t.reflectionCentroid
        let dContractedPointValue := f contractedPoint
        if dContractedPointValue ≤ dLowerPointValue then
          pure { t with
            currentFeasibleSolutions :=
              (← vecSet t.currentFeasibleSolutions t.nHighestSolutionId contractedPoint)
            currentFunctionValues :=
              (← vecSet t.currentFunctionValues t.nHighestSolutionId
                dContractedPointValue) }
        else
          let self ← t.doReduction
          self.evaluateAllCurrentSolutions f : Except Failure (CSimplexOptimizer R))
        = (if f (pointAlong t.reflectionCentroid t.dContractionFactor lowerPoint
              t.reflectionCentroid) ≤ dLowerPointValue then
            .ok { t with
              currentFeasibleSolutions := t.currentFeasibleSolutions.set hi
                (pointAlong t.reflectionCentroid t.dContractionFactor lowerPoint
                  t.reflectionCentroid)
              currentFunctionValues := t.currentFunctionValues.set hi
                (f (pointAlong t.reflectionCentroid t.dContractionFactor lowerPoint
                  t.reflectionCentroid)) }
          else do
            let self ← t.doReduction
            self.evaluateAllCurrentSolutions f) := by
    intro lowerPoint dLowerPointValue hlower
    obtain ⟨hcomp, -⟩ := affine_eq lowerPoint t.reflectionCentroid t.reflectionCentroid
      t.dContractionFactor d hlower hc hc
    cases hsub : CMathematics.substract lowerPoint t.reflectionCentroid with
    | error e => rw [hsub] at hcomp; cases hcomp
    | ok q =>
      rw [hsub, ok_bind] at hcomp
      simp only [ok_bind, hcomp, hid]
      split_ifs with hle
      · rw [vecSet_natCast _ hi _ hhi, ok_bind, vecSet_natCast _ hi _ hhi', ok_bind]
        rfl
      · rfl
  rw [hgetv, ok_bind]
  by_cases hlt : t.currentFunctionValues.getD hi 0 < t.dReflectedPointValue
  · simp only [hlt, if_true]
    rw [hgets]
    exact hrest _ _ hvert
  · simp only [hlt, if_false]
    exact hrest _ _ hp

/-- The body of the main iteration is the reflection phase followed by the
selection of the branch. -/
theorem iteration_eq_branches (f : List R → R) (s : CSimplexOptimizer R) :
    s.iteration f = (do
      let self ← s.reflectionPhase f
      if self.dReflectedPointValue < self.dLowestSolutionValue then
        self.doExtention f
      else if self.dReflectedPointValue ≥ self.dLowestSolutionValue
          ∧ self.dReflectedPointValue ≤ self.dSecondHighestSolutionValue then
        pure { self with
          currentFeasibleSolutions :=
            (← vecSet self.currentFeasibleSolutions self.nHighestSolutionId self.reflectedPoint)
          currentFunctionValues :=
            (← vecSet self.currentFunctionValues self.nHighestSolutionId
              self.dReflectedPointValue) }
      else
        self.doContraction f) := by
  unfold CSimplexOptimizer.iteration CSimplexOptimizer.reflectionPhase
  simp only [bind_assoc]

/-- The reflection phase on a simplex of at least two vertices whose cached
values lie strictly between `-DBL_MAX` and `DBL_MAX`: the three special
vertices, the centroid and the reflected point. -/
theorem reflectionPhase_spec (f : List R → R) (d : Nat) (s : CSimplexOptimizer R)
    (hshape : s.SimplexShape d) (hd : 1 ≤ d)
    (hrange : ∀ v ∈ s.currentFunctionValues, -DBL_MAX < v ∧ v < DBL_MAX) :
    ∃ (t : CSimplexOptimizer R) (hi lo sh : Nat),
      s.reflectionPhase f = .ok t
        ∧ hi < d + 1 ∧ lo < d + 1 ∧ sh < d + 1 ∧ sh ≠ hi
        ∧ t.nHighestSolutionId = hi ∧ t.nLowestSolutionId = lo
        ∧ t.nSecondHighestSolutionId = sh
        ∧ t.dHighestSolutionValue = s.currentFunctionValues.getD hi 0
        ∧ t.dLowestSolutionValue = s.currentFunctionValues.getD lo 0
        ∧ t.dSecondHighestSolutionValue = s.currentFunctionValues.getD sh 0
        ∧ (∀ j < d + 1, s.currentFunctionValues.getD j 0 ≤ s.currentFunctionValues.getD hi 0)
        ∧ (∀ j < d + 1, s.currentFunctionValues.getD lo 0 ≤ s.currentFunctionValues.getD j 0)
        ∧ (∀ j < d + 1, j ≠ hi →
            s.currentFunctionValues.getD j 0 ≤ s.currentFunctionValues.getD sh 0)
        ∧ t.currentFeasibleSolutions = s.currentFeasibleSolutions
        ∧ t.currentFunctionValues = s.currentFunctionValues
        ∧ t.config = s.config
        ∧ t.reflectionCentroid = meanOfOthers d s.currentFeasibleSolutions hi
        ∧ t.reflectedPoint = pointAlong t.reflectionCentroid s.dReductionFactor
            t.reflectionCentroid (s.currentFeasibleSolutions.getD hi [])
        ∧ t.dReflectedPointValue = f t.reflectedPoint
        ∧ t.reflectionCentroid.length = d ∧ t.reflectedPoint.length = d := by
  obtain ⟨hdim, hcount, hsize, hvlen⟩ := hshape
  obtain ⟨hc1, hsol1, hval1, hi, lo, hhi, hlo, hid, hlid, vhi, vlo, hmax, hmin⟩ :=
    updateSpecialVertices_spec s (by omega) hrange
  obtain ⟨hi', sh, -, hsh, hshne, hid', hsid, vsh, hothers⟩ :=
    updateSpecialVertices_second s (by omega) hrange
  have hhi_eq : hi' = hi := by
    have : (hi' : Int) = (hi : Int) := hid'.symm.trans hid
    exact_mod_cast this
  subst hhi_eq
  rw [hvlen] at hhi hlo hsh hmax hmin hothers
  have hdim1 : s.updateSpecialVertices.nPROBLEM_DIMENSION = d := by
    have := congrArg (fun c => c.2.1) hc1
    exact this.trans hdim
  have hred1 : s.updateSpecialVertices.dReductionFactor = s.dReductionFactor := by
    have := congrArg (fun c => c.2.2.2.2.1) hc1
    exact this
  obtain ⟨hcen0, hclen0⟩ := updateReflectionCentroid_eq s.updateSpecialVertices d hi' hdim1
    (by rw [hsol1]; exact hcount) (by rw [hsol1]; exact hsize) hhi hid
  have hclen : (meanOfOthers d s.currentFeasibleSolutions hi').length = d := by
    rw [← hsol1]; exact hclen0
  have hcen : s.updateSpecialVertices.updateReflectionCentroid
      = .ok { s.updateSpecialVertices with
          reflectionCentroid := meanOfOthers d s.currentFeasibleSolutions hi' } := by
    rw [← hsol1]; exact hcen0
  obtain ⟨hrefl, hplen⟩ := doReflection_eq f
    { s.updateSpecialVertices with
      reflectionCentroid := meanOfOthers d s.currentFeasibleSolutions hi' } d hi'
    (by show ∀ v ∈ s.updateSpecialVertices.currentFeasibleSolutions, v.length = d
        rw [hsol1]; exact hsize)
    hclen
    (by show hi' < s.updateSpecialVertices.currentFeasibleSolutions.length
        rw [hsol1, hcount]; exact hhi)
    hid
  refine ⟨{ s.updateSpecialVertices with
      reflectionCentroid := meanOfOthers d s.currentFeasibleSolutions hi'
      reflectedPoint := pointAlong (meanOfOthers d s.currentFeasibleSolutions hi')
        s.updateSpecialVertices.dReductionFactor
        (meanOfOthers d s.currentFeasibleSolutions hi')
        (s.updateSpecialVertices.currentFeasibleSolutions.getD hi' [])
      dReflectedPointValue := f (pointAlong (meanOfOthers d s.currentFeasibleSolutions hi')
        s.updateSpecialVertices.dReductionFactor
        (meanOfOthers d s.currentFeasibleSolutions hi')
        (s.updateSpecialVertices.currentFeasibleSolutions.getD hi' [])) },
    hi', lo, sh, ?_, hhi, hlo, hsh, hshne, hid, hlid, hsid, vhi.symm, vlo.symm,
    vsh.symm, ?_, ?_, ?_, hsol1, hval1, hc1, rfl, ?_, rfl, hclen, hplen⟩
  · unfold CSimplexOptimizer.reflectionPhase
    simp only []
    rw [hcen, ok_bind, hrefl]
  · intro j hj
    rw [vhi]
    exact hmax j hj
  · intro j hj
    rw [vlo]
    exact hmin j hj
  · intro j hj hne
    rw [vsh]
    exact hothers j hj hne
  · show pointAlong _ s.updateSpecialVertices.dReductionFactor _
      (s.updateSpecialVertices.currentFeasibleSolutions.getD hi' []) = _
    rw [hred1, hsol1]

/-- C29: step 1 of an iteration. For a simplex of `d + 1 >= 2` vertices of `d`
coordinates whose cached values lie strictly between `-DBL_MAX` and `DBL_MAX`,
`updateSpecialVertices` keeps the simplex and its cached values and leaves
three indices of the simplex: the highest index holds a maximal cached value,
the lowest index a minimal one, the second highest index is not the highest
index and holds the largest cached value among the other vertices (ties
included), and the three tracked values are the cached values at those indices;
`updateReflectionCentroid` then stores the arithmetic mean of the `d` vertices
other than the highest one. -/
theorem C29_special_vertices_and_centroid (d : Nat) (s : CSimplexOptimizer R)
    (hshape : s.SimplexShape d) (hd : 1 ≤ d)
    (hrange : ∀ v ∈ s.currentFunctionValues, -DBL_MAX < v ∧ v < DBL_MAX) :
    ∃ hi lo sh : Nat, hi < d + 1 ∧ lo < d + 1 ∧ sh < d + 1 ∧ sh ≠ hi
      ∧ s.updateSpecialVertices.nHighestSolutionId = hi
      ∧ s.updateSpecialVertices.nLowestSolutionId = lo
      ∧ s.updateSpecialVertices.nSecondHighestSolutionId = sh
      ∧ s.updateSpecialVertices.dHighestSolutionValue = s.currentFunctionValues.getD hi 0
      ∧ s.updateSpecialVertices.dLowestSolutionValue = s.currentFunctionValues.getD lo 0
      ∧ s.updateSpecialVertices.dSecondHighestSolutionValue
          = s.currentFunctionValues.getD sh 0
      ∧ (∀ j < d + 1, s.currentFunctionValues.getD j 0 ≤ s.currentFunctionValues.getD hi 0)
      ∧ (∀ j < d + 1, s.currentFunctionValues.getD lo 0 ≤ s.currentFunctionValues.getD j 0)
      ∧ (∀ j < d + 1, j ≠ hi →
          s.currentFunctionValues.getD j 0 ≤ s.currentFunctionValues.getD sh 0)
      ∧ s.updateSpecialVertices.currentFeasibleSolutions = s.currentFeasibleSolutions
      ∧ s.updateSpecialVertices.currentFunctionValues = s.currentFunctionValues
      ∧ s.updateSpecialVertices.updateReflectionCentroid
          = .ok { s.updateSpecialVertices with
              reflectionCentroid := meanOfOthers d s.currentFeasibleSolutions hi }
      ∧ (s.currentFeasibleSolutions.eraseIdx hi).length = d
      ∧ ∀ k < d, (meanOfOthers d s.currentFeasibleSolutions hi).getD k 0
          = ((s.currentFeasibleSolutions.eraseIdx hi).map (fun v => v.getD k 0)).sum / (d : R) := by
  obtain ⟨hdim, hcount, hsize, hvlen⟩ := hshape
  obtain ⟨hc1, hsol1, hval1, hi, lo, hhi, hlo, hid, hlid, vhi, vlo, hmax, hmin⟩ :=
    updateSpecialVertices_spec s (by omega) hrange
  obtain ⟨hi', sh, -, hsh, hshne, hid', hsid, vsh, hothers⟩ :=
    updateSpecialVertices_second s (by omega) hrange
  have hhi_eq : hi' = hi := by
    have : (hi' : Int) = (hi : Int) := hid'.symm.trans hid
    exact_mod_cast this
  subst hhi_eq
  rw [hvlen] at hhi hlo hsh hmax hmin hothers
  have hdim1 : s.updateSpecialVertices.nPROBLEM_DIMENSION = d := by
    have := congrArg (fun c => c.2.1) hc1
    exact this.trans hdim
  obtain ⟨hcen0, -⟩ := updateReflectionCentroid_eq s.updateSpecialVertices d hi' hdim1
    (by rw [hsol1]; exact hcount) (by rw [hsol1]; exact hsize) hhi hid
  have herase : (s.currentFeasibleSolutions.eraseIdx hi').length = d := by
    rw [List.length_eraseIdx, if_pos (by omega), hcount]
    rfl
  refine ⟨hi', lo, sh, hhi, hlo, hsh, hshne, hid, hlid, hsid, vhi.symm, vlo.symm, vsh.symm,
    ?_, ?_, ?_, hsol1, hval1, ?_, herase, ?_⟩
  · intro j hj
    rw [vhi]
    exact hmax j hj
  · intro j hj
    rw [vlo]
    exact hmin j hj
  · intro j hj hne
    rw [vsh]
    exact hothers j hj hne
  · rw [← hsol1]; exact hcen0
  · intro k hk
    unfold meanOfOthers
    rw [List.getD_eq_getElem _ 0 (by rw [List.length_map, List.length_range]; exact hk),
      List.getElem_map, List.getElem_range, herase]

/-- C26: the selection of the branch. For a simplex of `d + 1 >= 2` vertices
whose cached values lie strictly between `-DBL_MAX` and `DBL_MAX`, the
reflection phase returns a state `t` with the simplex unchanged, and the
iteration is decided by the value `f p` of the reflected point `p` alone:
Extend when `f p` is below the lowest cached value; Replace when `f p` lies
between the lowest cached value and the second highest one (both included), in
which case the vertex and the cached value at the highest index become `p` and
`f p` and nothing else changes; Contract in the remaining case, which is the
case `f p` above the second highest cached value. -/
theorem C26_branch_selection (f : List R → R) (d : Nat) (s : CSimplexOptimizer R)
    (hshape : s.SimplexShape d) (hd : 1 ≤ d)
    (hrange : ∀ v ∈ s.currentFunctionValues, -DBL_MAX < v ∧ v < DBL_MAX) :
    ∃ (t : CSimplexOptimizer R) (hi lo sh : Nat),
      s.reflectionPhase f = .ok t
        ∧ hi < d + 1 ∧ lo < d + 1 ∧ sh < d + 1 ∧ sh ≠ hi
        ∧ t.nHighestSolutionId = hi
        ∧ (∀ j < d + 1, s.currentFunctionValues.getD j 0 ≤ s.currentFunctionValues.getD hi 0)
        ∧ (∀ j < d + 1, s.currentFunctionValues.getD lo 0 ≤ s.currentFunctionValues.getD j 0)
        ∧ (∀ j < d + 1, j ≠ hi →
            s.currentFunctionValues.getD j 0 ≤ s.currentFunctionValues.getD sh 0)
        ∧ t.currentFeasibleSolutions = s.currentFeasibleSolutions
        ∧ t.currentFunctionValues = s.currentFunctionValues
        ∧ t.dReflectedPointValue = f t.reflectedPoint
        ∧ s.iteration f
          = (if f t.reflectedPoint < s.currentFunctionValues.getD lo 0 then
              t.doExtention f
            else if s.currentFunctionValues.getD lo 0 ≤ f t.reflectedPoint
                ∧ f t.reflectedPoint ≤ s.currentFunctionValues.getD sh 0 then
              .ok { t with
                currentFeasibleSolutions := s.currentFeasibleSolutions.set hi t.reflectedPoint
                currentFunctionValues := s.currentFunctionValues.set hi (f t.reflectedPoint) }
            else
              t.doContraction f)
        ∧ ((¬ f t.reflectedPoint < s.currentFunctionValues.getD lo 0
              ∧ ¬ (s.currentFunctionValues.getD lo 0 ≤ f t.reflectedPoint
                ∧ f t.reflectedPoint ≤ s.currentFunctionValues.getD sh 0))
            ↔ s.currentFunctionValues.getD sh 0 < f t.reflectedPoint) := by
  obtain ⟨t, hi, lo, sh, hphase, hhi, hlo, hsh, hshne, hid, hlid, hsid, vhi, vlo, vsh, hmax,
    hmin, hothers, hsols, hvals, hconfig, hcen, hrefl, hrv, hclen, hplen⟩ :=
    reflectionPhase_spec f d s hshape hd hrange
  obtain ⟨hdim, hcount, hsize, hvlen⟩ := hshape
  refine ⟨t, hi, lo, sh, hphase, hhi, hlo, hsh, hshne, hid, hmax, hmin, hothers, hsols, hvals,
    hrv, ?_, ?_⟩
  · rw [iteration_eq_branches, hphase, ok_bind, hrv, vlo, vsh, hid, hsols, hvals]
    split_ifs
    · rfl
    · rw [vecSet_natCast _ hi _ (by omega), ok_bind, vecSet_natCast _ hi _ (by omega), ok_bind]
      rfl
    · rfl
  · have hle : s.currentFunctionValues.getD lo 0 ≤ s.currentFunctionValues.getD sh 0 :=
      hmin sh hsh
    constructor
    · rintro ⟨h1, h2⟩
      by_contra h3
      exact h2 ⟨not_lt.1 h1, not_lt.1 h3⟩
    · intro h
      exact ⟨not_lt.2 (le_trans hle (le_of_lt h)), fun h2 => absurd h (not_lt.2 h2.2)⟩

/-- C25: the Extend step. For a simplex of `d + 1 >= 2` vertices whose cached
values lie strictly between `-DBL_MAX` and `DBL_MAX`, with `c` the centroid and
`p` the reflected point left by the reflection phase: whenever `f p` is below
the lowest cached value, the iteration returns; with
`e = c + extensionFactor * (p - c)`, the vertex and the cached value at the
highest index become `e` and `f e` when `f e < f p`, and `p` and `f p`
otherwise; every other vertex and cached value is unchanged. -/
theorem C25_extend_step (f : List R → R) (d : Nat) (s : CSimplexOptimizer R)
    (hshape : s.SimplexShape d) (hd : 1 ≤ d)
    (hrange : ∀ v ∈ s.currentFunctionValues, -DBL_MAX < v ∧ v < DBL_MAX) :
    ∃ (t : CSimplexOptimizer R) (hi lo : Nat),
      s.reflectionPhase f = .ok t
        ∧ hi < d + 1 ∧ lo < d + 1
        ∧ t.nHighestSolutionId = hi
        ∧ (∀ j < d + 1, s.currentFunctionValues.getD j 0 ≤ s.currentFunctionValues.getD hi 0)
        ∧ (∀ j < d + 1, s.currentFunctionValues.getD lo 0 ≤ s.currentFunctionValues.getD j 0)
        ∧ t.currentFeasibleSolutions = s.currentFeasibleSolutions
        ∧ t.currentFunctionValues = s.currentFunctionValues
        ∧ (f t.reflectedPoint < s.currentFunctionValues.getD lo 0 →
          s.iteration f
            = .ok (if f (pointAlong t.reflectionCentroid s.dExtensionFactor t.reflectedPoint
                  t.reflectionCentroid) < f t.reflectedPoint then
                { t with
                  currentFeasibleSolutions := s.currentFeasibleSolutions.set hi
                    (pointAlong t.reflectionCentroid s.dExtensionFactor t.reflectedPoint
                      t.reflectionCentroid)
                  currentFunctionValues := s.currentFunctionValues.set hi
                    (f (pointAlong t.reflectionCentroid s.dExtensionFactor t.reflectedPoint
                      t.reflectionCentroid)) }
              else
                { t with
                  currentFeasibleSolutions := s.currentFeasibleSolutions.set hi t.reflectedPoint
                  currentFunctionValues :=
                    s.currentFunctionValues.set hi (f t.reflectedPoint) })) := by
  obtain ⟨t, hi, lo, sh, hphase, hhi, hlo, hsh, hshne, hid, hlid, hsid, vhi, vlo, vsh, hmax,
    hmin, hothers, hsols, hvals, hconfig, hcen, hrefl, hrv, hclen, hplen⟩ :=
    reflectionPhase_spec f d s hshape hd hrange
  obtain ⟨hdim, hcount, hsize, hvlen⟩ := hshape
  have hext : t.dExtensionFactor = s.dExtensionFactor := by
    have := congrArg (fun c => c.2.2.2.1) hconfig
    exact this
  refine ⟨t, hi, lo, hphase, hhi, hlo, hid, hmax, hmin, hsols, hvals, ?_⟩
  intro hlt
  rw [iteration_eq_branches, hphase, ok_bind, if_pos (by rw [hrv, vlo]; exact hlt),
    doExtention_eq f t d hi hclen hplen (by rw [hsols]; omega) (by rw [hvals]; omega) hid,
    hrv, hext, hsols, hvals]

/-- C27: the Contract step. For a simplex of `d + 1 >= 2` vertices whose cached
values lie strictly between `-DBL_MAX` and `DBL_MAX`, with `c` the centroid and
`p` the reflected point left by the reflection phase: whenever `f p` is above
the second highest cached value, the iteration returns; the baseline is the
highest vertex when its cached value is below `f p` and `p` otherwise; with
`q = c + contractionFactor * (baseline - c)`, the vertex and the cached value at
the highest index become `q` and `f q` when `f q` is at most the value of the
baseline and nothing else changes; otherwise the simplex becomes the one that
`doReduction` computes and every cached value is the objective at the new
vertex. -/
theorem C27_contract_step (f : List R → R) (d : Nat) (s : CSimplexOptimizer R)
    (hshape : s.SimplexShape d) (hd : 1 ≤ d)
    (hrange : ∀ v ∈ s.currentFunctionValues, -DBL_MAX < v ∧ v < DBL_MAX) :
    ∃ (t : CSimplexOptimizer R) (hi lo sh : Nat),
      s.reflectionPhase f = .ok t
        ∧ hi < d + 1 ∧ lo < d + 1 ∧ sh < d + 1 ∧ sh ≠ hi
        ∧ t.nHighestSolutionId = hi ∧ t.nLowestSolutionId = lo
        ∧ (∀ j < d + 1, s.currentFunctionValues.getD j 0 ≤ s.currentFunctionValues.getD hi 0)
        ∧ (∀ j < d + 1, s.currentFunctionValues.getD lo 0 ≤ s.currentFunctionValues.getD j 0)
        ∧ (∀ j < d + 1, j ≠ hi →
            s.currentFunctionValues.getD j 0 ≤ s.currentFunctionValues.getD sh 0)
        ∧ t.currentFeasibleSolutions = s.currentFeasibleSolutions
        ∧ t.currentFunctionValues = s.currentFunctionValues
        ∧ (s.currentFunctionValues.getD sh 0 < f t.reflectedPoint →
          ∃ reduced : CSimplexOptimizer R, t.doReduction = .ok reduced
            ∧ reduced.currentFeasibleSolutions
              = s.currentFeasibleSolutions.map (fun v =>
                  pointAlong v s.dReductionFactor (s.currentFeasibleSolutions.getD lo []) v)
            ∧ s.iteration f
              = .ok (if f (pointAlong t.reflectionCentroid s.dContractionFactor
                      (if s.currentFunctionValues.getD hi 0 < f t.reflectedPoint then
                        s.currentFeasibleSolutions.getD hi [] else t.reflectedPoint)
                      t.reflectionCentroid)
                    ≤ (if s.currentFunctionValues.getD hi 0 < f t.reflectedPoint then
                        s.currentFunctionValues.getD hi 0 else f t.reflectedPoint) then
                  { t with
                    currentFeasibleSolutions := s.currentFeasibleSolutions.set hi
                      (pointAlong t.reflectionCentroid s.dContractionFactor
                        (if s.currentFunctionValues.getD hi 0 < f t.reflectedPoint then
                          s.currentFeasibleSolutions.getD hi [] else t.reflectedPoint)
                        t.reflectionCentroid)
                    currentFunctionValues := s.currentFunctionValues.set hi
                      (f (pointAlong t.reflectionCentroid s.dContractionFactor
                        (if s.currentFunctionValues.getD hi 0 < f t.reflectedPoint then
                          s.currentFeasibleSolutions.getD hi [] else t.reflectedPoint)
                        t.reflectionCentroid)) }
                else
                  { reduced with
                    currentFunctionValues := reduced.currentFeasibleSolutions.map f })) := by
  obtain ⟨t, hi, lo, sh, hphase, hhi, hlo, hsh, hshne, hid, hlid, hsid, vhi, vlo, vsh, hmax,
    hmin, hothers, hsols, hvals, hconfig, hcen, hrefl, hrv, hclen, hplen⟩ :=
    reflectionPhase_spec f d s hshape hd hrange
  obtain ⟨hdim, hcount, hsize, hvlen⟩ := hshape
  have hcon : t.dContractionFactor = s.dContractionFactor := by
    have := congrArg (fun c => c.2.2.1) hconfig
    exact this
  refine ⟨t, hi, lo, sh, hphase, hhi, hlo, hsh, hshne, hid, hlid, hmax, hmin, hothers, hsols,
    hvals, ?_⟩
  intro hgt
  have hle : s.currentFunctionValues.getD lo 0 ≤ s.currentFunctionValues.getD sh 0 :=
    hmin sh hsh
  have hrf : t.dReductionFactor = s.dReductionFactor := by
    have := congrArg (fun c => c.2.2.2.2.1) hconfig
    exact this
  obtain ⟨reduced, hred, hredsols, hredlen⟩ : ∃ r : CSimplexOptimizer R,
      t.doReduction = .ok r
        ∧ r.currentFeasibleSolutions
          = s.currentFeasibleSolutions.map (fun v =>
              pointAlong v s.dReductionFactor (s.currentFeasibleSolutions.getD lo []) v)
        ∧ r.currentFunctionValues.length = r.currentFeasibleSolutions.length := by
    refine ⟨_, doReduction_eq t d lo (by rw [hsols]; exact hsize) (by rw [hsols]; omega) hlid,
      ?_, ?_⟩
    · show List.map _ t.currentFeasibleSolutions = _
      rw [hsols, hrf]
    · show t.currentFunctionValues.length = (List.map _ t.currentFeasibleSolutions).length
      rw [hvals, hvlen, List.length_map, hsols, hcount]
  refine ⟨reduced, hred, hredsols, ?_⟩
  rw [iteration_eq_branches, hphase, ok_bind,
    if_neg (by rw [hrv, vlo]; exact not_lt.2 (le_trans hle (le_of_lt hgt))),
    if_neg (by rw [hrv, vsh]; exact fun h => absurd hgt (not_lt.2 h.2)),
    doContraction_eq f t d hi (by rw [hsols]; exact hsize) hclen hplen (by rw [hsols]; omega)
      (by rw [hvals]; omega) hid, hrv, hcon, hsols, hvals]
  split_ifs <;>
    first
    | rfl
    | (rw [hred, ok_bind]; exact evaluateAllCurrentSolutions_ok f _ hredlen)

theorem holding_range (d : Nat) (vertices : List (List ℚ)) (values : List ℚ)
    (h : ∀ v ∈ values, -1000 < v ∧ v < 1000) :
    ∀ v ∈ (CSimplexOptimizer.holding d vertices values).currentFunctionValues,
      -DBL_MAX < v ∧ v < DBL_MAX := by
  intro v hv
  have h1 := h v hv
  have h2 : (1000 : ℚ) < DBL_MAX := by norm_num [DBL_MAX]
  constructor <;> linarith [h1.1, h1.2]

/-- Witness of C29: the simplex `[0, 0], [1, 0], [0, 1]` of dimension 2 with the
cached values `3, 1, 2`: the highest, lowest and second highest indices are
`0, 1, 2` and the centroid is `[1/2, 1/2]`. -/
theorem C29_special_vertices_and_centroid_witness :
    (CSimplexOptimizer.holding 2 [[0, 0], [1, 0], [0, 1]] [(3 : ℚ), 1, 2]).SimplexShape 2
      ∧ 1 ≤ 2
      ∧ (∀ v ∈ (CSimplexOptimizer.holding 2 [[0, 0], [1, 0], [0, 1]]
            [(3 : ℚ), 1, 2]).currentFunctionValues, -DBL_MAX < v ∧ v < DBL_MAX)
      ∧ (CSimplexOptimizer.holding 2 [[0, 0], [1, 0], [0, 1]]
            [(3 : ℚ), 1, 2]).updateSpecialVertices.nHighestSolutionId = 0
      ∧ (CSimplexOptimizer.holding 2 [[0, 0], [1, 0], [0, 1]]
            [(3 : ℚ), 1, 2]).updateSpecialVertices.nLowestSolutionId = 1
      ∧ (CSimplexOptimizer.holding 2 [[0, 0], [1, 0], [0, 1]]
            [(3 : ℚ), 1, 2]).updateSpecialVertices.nSecondHighestSolutionId = 2
      ∧ ∃ t, (CSimplexOptimizer.holding 2 [[0, 0], [1, 0], [0, 1]]
            [(3 : ℚ), 1, 2]).updateSpecialVertices.updateReflectionCentroid = .ok t
          ∧ t.reflectionCentroid = [1 / 2, 1 / 2] := by
  have hshape : (CSimplexOptimizer.holding 2 [[0, 0], [1, 0], [0, 1]]
      [(3 : ℚ), 1, 2]).SimplexShape 2 :=
    ⟨rfl, rfl, by simp [CSimplexOptimizer.holding], rfl⟩
  have hrange := holding_range 2 [[0, 0], [1, 0], [0, 1]] [(3 : ℚ), 1, 2] (by
    intro v hv
    simp only [List.mem_cons, List.mem_singleton, List.not_mem_nil, or_false] at hv
    rcases hv with rfl | rfl | rfl <;> constructor <;> norm_num)
  obtain ⟨hi, lo, sh, hhi, hlo, hsh, hne, hid, hlid, hsid, -, -, -, hmax, hmin, hoth, -, -,
    hcen, -, -⟩ := C29_special_vertices_and_centroid 2 _ hshape (by norm_num) hrange
  have hi0 : hi = 0 := by
    have h0 := hmax 0 (by norm_num)
    interval_cases hi <;> first | rfl | (norm_num [CSimplexOptimizer.holding] at h0)
  subst hi0
  have lo1 : lo = 1 := by
    have h1 := hmin 1 (by norm_num)
    interval_cases lo <;> first | rfl | (norm_num [CSimplexOptimizer.holding] at h1)
  subst lo1
  have sh2 : sh = 2 := by
    have h2 := hoth 2 (by norm_num) (by norm_num)
    interval_cases sh <;>
      first | rfl | (exact absurd rfl hne) | (norm_num [CSimplexOptimizer.holding] at h2)
  subst sh2
  refine ⟨hshape, by norm_num, hrange, hid, hlid, hsid, _, hcen, ?_⟩
  norm_num [meanOfOthers, CSimplexOptimizer.holding, List.range_succ, List.eraseIdx]

/-- The reflection phase on the simplex `[0], [1]` with the cached values
`100, 81` of the objective `(x0 - 10)^2`. -/
theorem reflectionPhase_example :
    (CSimplexOptimizer.holding 1 [[0], [1]] [(100 : ℚ), 81]).reflectionPhase squareDistanceToTen
      = .ok { CSimplexOptimizer.holding 1 [[0], [1]] [(100 : ℚ), 81] with
          dHighestSolutionValue := 100
          dLowestSolutionValue := 81
          dSecondHighestSolutionValue := 81
          nHighestSolutionId := 0
          nLowestSolutionId := 1
          nSecondHighestSolutionId := 1
          reflectionCentroid := [1]
          reflectedPoint := [3 / 2]
          dReflectedPointValue := 289 / 4 } := by
  norm_num [CSimplexOptimizer.reflectionPhase, CSimplexOptimizer.holding,
    CSimplexOptimizer.updateSpecialVertices,
    CSimplexOptimizer.updateSpecialVerticesStep, CSimplexOptimizer.updateReflectionCentroid,
    CSimplexOptimizer.doReflection, CMathematics.add, CMathematics.substract,
    CMathematics.multiply, vecAssignZero, DBL_MAX, vecGet, vecSet, squareDistanceToTen,
    CSimplexOptimizer.dCONTRACTION_FACTOR, CSimplexOptimizer.dEXTENSION_FACTOR,
    CSimplexOptimizer.dREDUCTION_FACTOR, CSimplexOptimizer.dREFLECTION_FACTOR,
    List.range_succ, pure, Except.pure, bind, Except.bind, List.enum, List.enumFrom,
    List.replicate]

/-- The simplex `[0], [1]` with the cached values `100, 81` has the shape of
dimension 1. -/
theorem holding_example_shape :
    (CSimplexOptimizer.holding 1 [[0], [1]] [(100 : ℚ), 81]).SimplexShape 1 :=
  ⟨rfl, rfl, by simp [CSimplexOptimizer.holding], rfl⟩

/-- The cached values `100, 81` are inside the range of the optimizer. -/
theorem holding_example_range :
    ∀ v ∈ (CSimplexOptimizer.holding 1 [[0], [1]] [(100 : ℚ), 81]).currentFunctionValues,
      -DBL_MAX < v ∧ v < DBL_MAX :=
  holding_range 1 [[0], [1]] [(100 : ℚ), 81] (by
    intro v hv
    simp only [List.mem_cons, List.mem_singleton, List.not_mem_nil, or_false] at hv
    rcases hv with rfl | rfl <;> constructor <;> norm_num)

/-- Witness of C25: the simplex `[0], [1]` with the cached values `100, 81` of
the objective `(x0 - 10)^2`: the reflected point `[3/2]` has the value `289/4`,
below the lowest value `81`; the extended point is `[2]` with the value `64`,
which replaces the highest vertex. -/
theorem C25_extend_step_witness :
    (CSimplexOptimizer.holding 1 [[0], [1]] [(100 : ℚ), 81]).SimplexShape 1
      ∧ 1 ≤ 1
      ∧ (∀ v ∈ (CSimplexOptimizer.holding 1 [[0], [1]] [(100 : ℚ), 81]).currentFunctionValues,
          -DBL_MAX < v ∧ v < DBL_MAX)
      ∧ ∃ s', (CSimplexOptimizer.holding 1 [[0], [1]] [(100 : ℚ), 81]).iteration
            squareDistanceToTen = .ok s'
          ∧ s'.currentFeasibleSolutions = [[2], [1]] ∧ s'.currentFunctionValues = [64, 81] := by
  obtain ⟨t, hi, lo, hphase, hhi, hlo, hid, hmax, hmin, hsols, hvals, himp⟩ :=
    C25_extend_step squareDistanceToTen 1 _ holding_example_shape (le_refl 1)
      holding_example_range
  rw [reflectionPhase_example] at hphase
  have ht := (Except.ok.inj hphase).symm
  subst ht
  have hi0 : hi = 0 := by
    have h0 := hmax 0 (by norm_num)
    interval_cases hi <;> first | rfl | (norm_num [CSimplexOptimizer.holding] at h0)
  subst hi0
  have lo1 : lo = 1 := by
    have h1 := hmin 1 (by norm_num)
    interval_cases lo <;> first | rfl | (norm_num [CSimplexOptimizer.holding] at h1)
  subst lo1
  have hit := himp (by norm_num [CSimplexOptimizer.holding, squareDistanceToTen])
  refine ⟨holding_example_shape, le_refl 1, holding_example_range, _, hit, ?_, ?_⟩ <;>
    norm_num [CSimplexOptimizer.holding, squareDistanceToTen, pointAlong,
      CSimplexOptimizer.dEXTENSION_FACTOR]

/-- Witness of C26: the simplex `[0], [1]` with the cached values `100, 81` of
the objective `(x0 - 10)^2`: the value `289/4` of the reflected point is below
the lowest value `81`, and the iteration is the Extend step. -/
theorem C26_branch_selection_witness :
    (CSimplexOptimizer.holding 1 [[0], [1]] [(100 : ℚ), 81]).SimplexShape 1
      ∧ 1 ≤ 1
      ∧ (∀ v ∈ (CSimplexOptimizer.holding 1 [[0], [1]] [(100 : ℚ), 81]).currentFunctionValues,
          -DBL_MAX < v ∧ v < DBL_MAX)
      ∧ ∃ t, (CSimplexOptimizer.holding 1 [[0], [1]] [(100 : ℚ), 81]).reflectionPhase
            squareDistanceToTen = .ok t
          ∧ t.reflectedPoint = [3 / 2]
          ∧ (CSimplexOptimizer.holding 1 [[0], [1]] [(100 : ℚ), 81]).iteration
              squareDistanceToTen = t.doExtention squareDistanceToTen := by
  obtain ⟨t, hi, lo, sh, hphase, hhi, hlo, hsh, hne, hid, hmax, hmin, hoth, hsols, hvals, hrv,
    hit, -⟩ :=
    C26_branch_selection squareDistanceToTen 1 _ holding_example_shape (le_refl 1)
      holding_example_range
  have hphase' := hphase
  rw [reflectionPhase_example] at hphase'
  have ht := (Except.ok.inj hphase').symm
  have lo1 : lo = 1 := by
    have h1 := hmin 1 (by norm_num)
    interval_cases lo <;> first | rfl | (norm_num [CSimplexOptimizer.holding] at h1)
  subst lo1
  have hp : t.reflectedPoint = [3 / 2] := by rw [ht]
  refine ⟨holding_example_shape, le_refl 1, holding_example_range, t, hphase, hp, ?_⟩
  rw [hit, if_pos]
  rw [hp]
  norm_num [CSimplexOptimizer.holding, squareDistanceToTen]

/-- The simplex `[9], [10]` with the cached values `1, 0` has the shape of
dimension 1. -/
theorem holding_contract_shape :
    (CSimplexOptimizer.holding 1 [[9], [10]] [(1 : ℚ), 0]).SimplexShape 1 :=
  ⟨rfl, rfl, by simp [CSimplexOptimizer.holding], rfl⟩

/-- The cached values `1, 0` are inside the range of the optimizer. -/
theorem holding_contract_range :
    ∀ v ∈ (CSimplexOptimizer.holding 1 [[9], [10]] [(1 : ℚ), 0]).currentFunctionValues,
      -DBL_MAX < v ∧ v < DBL_MAX :=
  holding_range 1 [[9], [10]] [(1 : ℚ), 0] (by
    intro v hv
    simp only [List.mem_cons, List.mem_singleton, List.not_mem_nil, or_false] at hv
    rcases hv with rfl | rfl <;> constructor <;> norm_num)

/-- The reflection phase on the simplex `[9], [10]` with the cached values
`1, 0` of the objective `(x0 - 10)^2`. -/
theorem reflectionPhase_contract_example :
    (CSimplexOptimizer.holding 1 [[9], [10]] [(1 : ℚ), 0]).reflectionPhase squareDistanceToTen
      = .ok { CSimplexOptimizer.holding 1 [[9], [10]] [(1 : ℚ), 0] with
          dHighestSolutionValue := 1
          dLowestSolutionValue := 0
          dSecondHighestSolutionValue := 0
          nHighestSolutionId := 0
          nLowestSolutionId := 1
          nSecondHighestSolutionId := 1
          reflectionCentroid := [10]
          reflectedPoint := [21 / 2]
          dReflectedPointValue := 1 / 4 } := by
  norm_num [CSimplexOptimizer.reflectionPhase, CSimplexOptimizer.holding,
    CSimplexOptimizer.updateSpecialVertices,
    CSimplexOptimizer.updateSpecialVerticesStep, CSimplexOptimizer.updateReflectionCentroid,
    CSimplexOptimizer.doReflection, CMathematics.add, CMathematics.substract,
    CMathematics.multiply, vecAssignZero, DBL_MAX, vecGet, vecSet, squareDistanceToTen,
    CSimplexOptimizer.dCONTRACTION_FACTOR, CSimplexOptimizer.dEXTENSION_FACTOR,
    CSimplexOptimizer.dREDUCTION_FACTOR, CSimplexOptimizer.dREFLECTION_FACTOR,
    List.range_succ, pure, Except.pure, bind, Except.bind, List.enum, List.enumFrom,
    List.replicate]

/-- Witness of C27: the simplex `[9], [10]` with the cached values `1, 0` of the
objective `(x0 - 10)^2`: the reflected point `[21/2]` has the value `1/4`, above
the second highest value `0` and below the highest value `1`, so it is the
baseline; the contracted point `[41/4]` has the value `1/16` and replaces the
highest vertex. -/
theorem C27_contract_step_witness :
    (CSimplexOptimizer.holding 1 [[9], [10]] [(1 : ℚ), 0]).SimplexShape 1
      ∧ 1 ≤ 1
      ∧ (∀ v ∈ (CSimplexOptimizer.holding 1 [[9], [10]] [(1 : ℚ), 0]).currentFunctionValues,
          -DBL_MAX < v ∧ v < DBL_MAX)
      ∧ ∃ s', (CSimplexOptimizer.holding 1 [[9], [10]] [(1 : ℚ), 0]).iteration
            squareDistanceToTen = .ok s'
          ∧ s'.currentFeasibleSolutions = [[41 / 4], [10]]
          ∧ s'.currentFunctionValues = [1 / 16, 0] := by
  obtain ⟨t, hi, lo, sh, hphase, hhi, hlo, hsh, hne, hid, hlid, hmax, hmin, hoth, hsols, hvals,
    himp⟩ :=
    C27_contract_step squareDistanceToTen 1 _ holding_contract_shape (le_refl 1)
      holding_contract_range
  rw [reflectionPhase_contract_example] at hphase
  have ht := (Except.ok.inj hphase).symm
  subst ht
  have hi0 : hi = 0 := by
    have h0 := hmax 0 (by norm_num)
    interval_cases hi <;> first | rfl | (norm_num [CSimplexOptimizer.holding] at h0)
  subst hi0
  have sh1 : sh = 1 := by
    interval_cases sh <;> first | rfl | (exact absurd rfl hne)
  subst sh1
  obtain ⟨reduced, -, -, hit⟩ :=
    himp (by norm_num [CSimplexOptimizer.holding, squareDistanceToTen])
  refine ⟨holding_contract_shape, le_refl 1, holding_contract_range, _, hit, ?_, ?_⟩ <;>
    norm_num [CSimplexOptimizer.holding, squareDistanceToTen, pointAlong,
      CSimplexOptimizer.dCONTRACTION_FACTOR]

/-- C24: the reflection does not use the reflection factor. On the simplex
`[0], [1]` (cached values `100, 81` of `(x0 - 10)^2`, highest vertex `[0]`,
centroid `[1]`) an iteration leaves the reflected point `[3/2]`, which is
`centroid + reductionFactor * (centroid - highest)` for the default reduction
factor `0.5`, both for the default reflection factor `1` and after
`setReflectionFactor 3`, where `centroid + reflectionFactor * (centroid - highest)`
is `[2]` and `[4]`; after `setReductionFactor (1/4)` the reflected point is
`[5/4]`. -/
theorem C24_reflection_uses_reduction_factor :
    ((CSimplexOptimizer.holding 1 [[0], [1]] [(100 : ℚ), 81]).iteration
        squareDistanceToTen).map (fun s => (s.reflectionCentroid, s.reflectedPoint))
      = .ok ([1], [3 / 2])
    ∧ (((CSimplexOptimizer.holding 1 [[0], [1]] [(100 : ℚ), 81]).setReflectionFactor 3).iteration
        squareDistanceToTen).map (fun s => (s.reflectionCentroid, s.reflectedPoint))
      = .ok ([1], [3 / 2])
    ∧ ((CSimplexOptimizer.holding 1 [[0], [1]] [(100 : ℚ), 81]).setReductionFactor (1 / 4)
        >>= fun q => q.iteration squareDistanceToTen).map
          (fun s => (s.reflectionCentroid, s.reflectedPoint))
      = .ok ([1], [5 / 4])
    ∧ (CSimplexOptimizer.holding 1 [[0], [1]] [(100 : ℚ), 81]).getReflectionFactor = 1
    ∧ ((CSimplexOptimizer.holding 1 [[0], [1]]
        [(100 : ℚ), 81]).setReflectionFactor 3).getReflectionFactor = 3
    ∧ pointAlong [1] (1 : ℚ) [1] [0] = [2]
    ∧ pointAlong [1] (3 : ℚ) [1] [0] = [4] := by
  refine ⟨?_, ?_, ?_, ?_, ?_, ?_, ?_⟩ <;>
    norm_num [CSimplexOptimizer.holding, CSimplexOptimizer.evaluateAllCurrentSolutions,
      CSimplexOptimizer.iteration, CSimplexOptimizer.updateSpecialVertices,
      CSimplexOptimizer.updateSpecialVerticesStep, CSimplexOptimizer.updateReflectionCentroid,
      CSimplexOptimizer.doReflection, CSimplexOptimizer.doExtention,
      CSimplexOptimizer.doContraction, CSimplexOptimizer.doReduction, CMathematics.add,
      CMathematics.substract, CMathematics.multiply, vecAssignZero, DBL_MAX, vecGet, vecSet,
      squareDistanceToTen, CSimplexOptimizer.dCONTRACTION_FACTOR,
      CSimplexOptimizer.dEXTENSION_FACTOR, CSimplexOptimizer.dREDUCTION_FACTOR,
      CSimplexOptimizer.dREFLECTION_FACTOR, CSimplexOptimizer.setReflectionFactor,
      CSimplexOptimizer.setReductionFactor, CSimplexOptimizer.getReflectionFactor,
      List.range_succ, pure, Except.pure, bind, Except.bind, Except.map, List.enum,
      List.enumFrom, List.replicate, pointAlong]

/-- C28: the reduction moves each vertex by the complement of the claimed
amount. With the reduction factor `1/4` on the simplex `[0], [4]` (cached values
`0, 1`, lowest vertex `[0]`), `doReduction` after `updateSpecialVertices`
leaves the simplex `[0], [3]`, that is `v + r * (lowest - v)` for each vertex
`v`, and so does an iteration with the objective `plateau`, which takes the
reduce step; `lowest + r * (v - lowest)` gives the simplex `[0], [1]`. -/
theorem C28_reduction_uses_complement_of_factor :
    ((CSimplexOptimizer.holding 1 [[0], [4]] [(0 : ℚ), 1]).setReductionFactor (1 / 4)
        >>= fun q => q.updateSpecialVertices.doReduction).map
          (fun s => (s.nLowestSolutionId, s.dReductionFactor, s.currentFeasibleSolutions))
      = .ok (0, 1 / 4, [[0], [3]])
    ∧ ((CSimplexOptimizer.holding 1 [[0], [4]] [(0 : ℚ), 1]).setReductionFactor (1 / 4)
        >>= fun q => q.iteration plateau).map
          (fun s => (s.currentFeasibleSolutions, s.currentFunctionValues))
      = .ok ([[0], [3]], [0, 2])
    ∧ [[0], [4]].map (fun v => pointAlong [0] (1 / 4 : ℚ) v [0]) = [[0], [1]]
    ∧ [[0], [4]].map (fun v => pointAlong v (1 / 4 : ℚ) [0] v) = [[0], [3]] := by
  refine ⟨?_, ?_, ?_, ?_⟩ <;>
    norm_num [CSimplexOptimizer.holding, CSimplexOptimizer.evaluateAllCurrentSolutions,
      CSimplexOptimizer.iteration, CSimplexOptimizer.updateSpecialVertices,
      CSimplexOptimizer.updateSpecialVerticesStep, CSimplexOptimizer.updateReflectionCentroid,
      CSimplexOptimizer.doReflection, CSimplexOptimizer.doExtention,
      CSimplexOptimizer.doContraction, CSimplexOptimizer.doReduction, CMathematics.add,
      CMathematics.substract, CMathematics.multiply, vecAssignZero, DBL_MAX, vecGet, vecSet,
      plateau, CSimplexOptimizer.dCONTRACTION_FACTOR,
      CSimplexOptimizer.dEXTENSION_FACTOR, CSimplexOptimizer.dREDUCTION_FACTOR,
      CSimplexOptimizer.dREFLECTION_FACTOR, CSimplexOptimizer.setReflectionFactor,
      CSimplexOptimizer.setReductionFactor, CSimplexOptimizer.getReflectionFactor,
      List.range_succ, pure, Except.pure, bind, Except.bind, Except.map, List.enum,
      List.enumFrom, List.replicate, pointAlong, List.mapM, List.mapM.loop]

end Steps

/-! ## Volume of an intersection -/

section IntersectionVolume

variable {R : Type} [LinearOrderedField R]

/-- On a strictly ascending id set the pairs taken in set order are the pairs
`i < j`. -/
theorem pairSumWithin_eq_pairSumBelow (alphaValues : List R) (matrix : List (List R))
    (S : List Nat) (hS : S.Pairwise (fun a b => a < b)) :
    pairSumWithin alphaValues matrix S = pairSumBelow alphaValues matrix S := by
  induction S with
  | nil => rfl
  | cons i behind ih =>
    obtain ⟨hi, hbehind⟩ := List.pairwise_cons.1 hS
    unfold pairSumWithin pairSumBelow
    rw [List.map_cons, List.sum_cons, ih hbehind]
    have h1 : (i :: behind).filter (fun j => decide (i < j)) = behind := by
      rw [List.filter_cons_of_neg (by simp)]
      exact List.filter_eq_self.2 (fun j hj => by simpa using hi j hj)
    rw [h1]
    congr 1
    unfold pairSumBelow
    congr 1
    apply List.map_congr_left
    intro k hk
    rw [List.filter_cons_of_neg (by simpa using le_of_lt (hi k hk))]

/-- C30: for an engine that holds a precalculation whose vectors and matrices
fit `nRef` reference and `nFit` fit atoms, and for id sets `S` of reference ids
and `T` of fit ids (strictly ascending, as a `std::set` is traversed),
`calculateAtomIntersectionVolume` returns
`p^(|S|+|T|) * exp(-E/delta) * (PI/delta)^1.5`, with `delta` the sum of the
reference alphas over `S` plus the sum of the fit alphas over `T`, and `E` the
sum over the pairs `i < i2` of `S`, plus the sum over the pairs `j < j2` of `T`,
plus the sum over `i` in `S` and `j` in `T`, of the product of the two alphas
and the square distance. -/
theorem C30_intersection_volume_formula (m : CMath R) (self : CGaussianVolume R)
    (pre : PrecalculationResult R) (nRef nFit : Nat)
    (hpre : self.pPrecalculationResult = some pre)
    (haRef : pre.alphaValuesForRef.length = nRef) (haFit : pre.alphaValuesForFit.length = nFit)
    (hmRef : pre.squareDistancesMatrixForRef.length = nRef)
    (hmFit : pre.squareDistancesMatrixForFit.length = nFit)
    (hrRef : ∀ row ∈ pre.squareDistancesMatrixForRef, row.length = nRef)
    (hrFit : ∀ row ∈ pre.squareDistancesMatrixForFit, row.length = nFit)
    (hcross : self.squareDistancesMatrix.length = nRef)
    (hcrossRows : ∀ row ∈ self.squareDistancesMatrix, row.length = nFit)
    (S T : List Nat) (hS : ∀ i ∈ S, i < nRef) (hT : ∀ j ∈ T, j < nFit)
    (hSord : S.Pairwise (fun a b => a < b)) (hTord : T.Pairwise (fun a b => a < b)) :
    self.calculateAtomIntersectionVolume m S T
      = .ok (m.pow CGaussianVolume.dP ((S.length + T.length : Nat) : R)
          * m.exp (-((pairSumBelow pre.alphaValuesForRef pre.squareDistancesMatrixForRef S
              + pairSumBelow pre.alphaValuesForFit pre.squareDistancesMatrixForFit T
              + (S.map (fun i => (T.map (fun j =>
                  alphaAt pre.alphaValuesForRef i * alphaAt pre.alphaValuesForFit j
                    * entryAt self.squareDistancesMatrix i j)).sum)).sum)
            / ((S.map (alphaAt pre.alphaValuesForRef)).sum
                + (T.map (alphaAt pre.alphaValuesForFit)).sum)))
          * m.pow (CGaussianVolume.dPI / ((S.map (alphaAt pre.alphaValuesForRef)).sum
              + (T.map (alphaAt pre.alphaValuesForFit)).sum)) 1.5) := by
  rw [calculateAtomIntersectionVolume_ok m self pre nRef nFit hpre haRef haFit hmRef hmFit
    hrRef hrFit hcross hcrossRows S T hS hT]
  unfold intersectionVolume
  rw [pairSumWithin_eq_pairSumBelow _ _ S hSord, pairSumWithin_eq_pairSumBelow _ _ T hTord]

/-- Witness of C30: two reference atoms (alphas `1, 3`, square distance `4`) and
two fit atoms (alphas `1, 2`, square distance `1`) with the cross square
distances `1, 2, 3, 4`, and the sets `S = T = {0, 1}`: `delta = 7`, `E = 52`. -/
theorem C30_intersection_volume_formula_witness :
    CGaussianVolume.calculateAtomIntersectionVolume
        (⟨Real.exp, fun x y => x ^ y, Real.sin, Real.cos⟩ : CMath ℝ)
        ⟨0, [[0, 1], [0, 1]], none,
          some ⟨[1, 2], [1, 3], 0, [], [], [[0, 1], [1, 0]], [[0, 4], [4, 0]], [], []⟩,
          none, [[1, 2], [3, 4]]⟩ [0, 1] [0, 1]
      = .ok (CGaussianVolume.dP ^ (4 : ℝ) * Real.exp (-(52 / 7))
          * (CGaussianVolume.dPI / 7) ^ (1.5 : ℝ)) :=
  (C30_intersection_volume_formula (⟨Real.exp, fun x y => x ^ y, Real.sin, Real.cos⟩ : CMath ℝ)
    ⟨0, [[0, 1], [0, 1]], none,
      some ⟨[1, 2], [1, 3], 0, [], [], [[0, 1], [1, 0]], [[0, 4], [4, 0]], [], []⟩,
      none, [[1, 2], [3, 4]]⟩
    ⟨[1, 2], [1, 3], 0, [], [], [[0, 1], [1, 0]], [[0, 4], [4, 0]], [], []⟩ 2 2
    rfl rfl rfl rfl rfl (by simp) (by simp) rfl (by simp) [0, 1] [0, 1]
    (by simp) (by simp) (by simp) (by simp)).trans (by
      norm_num [pairSumBelow, alphaAt, entryAt, List.filter])

end IntersectionVolume

/-! ## Centroid of a molecule -/

section Centroid

variable {R : Type} [LinearOrderedField R]

/-- The sums of `getCentroid` over atoms of three coordinates. -/
theorem getCentroid_sums (atoms : List (CAtom R)) (h3 : ∀ a ∈ atoms, a.position.length = 3)
    (init : R × R × R) :
    atoms.foldlM
      (fun (sums : R × R × R) (atom : CAtom R) => do
        let dX := sums.1 + (← atom.getPositionX)
        let dY := sums.2.1 + (← atom.getPositionY)
        let dZ := sums.2.2 + (← atom.getPositionZ)
        pure (dX, dY, dZ)) init
      = (.ok (init.1 + (atoms.map (fun a => a.position.getD 0 0)).sum,
          init.2.1 + (atoms.map (fun a => a.position.getD 1 0)).sum,
          init.2.2 + (atoms.map (fun a => a.position.getD 2 0)).sum) :
        Except Failure (R × R × R)) := by
  have hstep : ∀ (sums : R × R × R) (a : CAtom R), a.position.length = 3 →
      (do
        let dX := sums.1 + (← a.getPositionX)
        let dY := sums.2.1 + (← a.getPositionY)
        let dZ := sums.2.2 + (← a.getPositionZ)
        pure (dX, dY, dZ) : Except Failure (R × R × R))
      = .ok (sums.1 + a.position.getD 0 0, sums.2.1 + a.position.getD 1 0,
          sums.2.2 + a.position.getD 2 0) := by
    intro sums a ha
    unfold CAtom.getPositionX CAtom.getPositionY CAtom.getPositionZ
    rw [show ((0 : Int)) = ((0 : Nat) : Int) from rfl,
      show ((1 : Int)) = ((1 : Nat) : Int) from rfl,
      show ((2 : Int)) = ((2 : Nat) : Int) from rfl,
      vecGet_natCast a.position 0 0 (by omega), ok_bind,
      vecGet_natCast a.position 1 0 (by omega), ok_bind,
      vecGet_natCast a.position 2 0 (by omega), ok_bind]
    rfl
  induction atoms generalizing init with
  | nil => simp [pure, Except.pure]
  | cons a rest ih =>
    rw [List.foldlM_cons, hstep init a (h3 a (List.mem_cons_self a rest)), ok_bind,
      ih (fun b hb => h3 b (List.mem_cons_of_mem a hb))]
    simp only [List.map_cons, List.sum_cons, add_assoc]

theorem centroidOf_length (mol : CMolecule R) (hc : mol.centroid.length = 3) :
    (centroidOf mol).length = 3 := by
  unfold centroidOf
  split_ifs
  · rfl
  · exact hc

/-- What `getCentroid` returns for a molecule of 3-coordinate atoms: the mean of
the positions when the cache is dirty, the cached centroid otherwise; the cache
is then not dirty and the atoms are those before the call. -/
theorem getCentroid_ok (mol : CMolecule R) (h3 : ∀ a ∈ mol.atomsList, a.position.length = 3)
    (hc : mol.centroid.length = 3) :
    mol.getCentroid
      = .ok (centroidOf mol,
          { mol with centroid := centroidOf mol, bDirtyCentroid := false }) := by
  unfold CMolecule.getCentroid centroidOf
  by_cases hd : mol.bDirtyCentroid = true
  · rw [if_pos hd, if_pos hd, getCentroid_sums mol.atomsList h3, ok_bind]
    obtain ⟨c0, c1, c2, hcen⟩ := List.length_eq_three.1 hc
    simp only [zero_add, hcen]
    have hn : ((mol.getAtomsCount : Int) : R) = (mol.atomsList.length : R) := by
      unfold CMolecule.getAtomsCount
      exact Int.cast_natCast _
    by_cases h0 : mol.getAtomsCount = 0
    · have hnil : mol.atomsList = [] := by
        unfold CMolecule.getAtomsCount at h0
        exact List.length_eq_zero.1 (by exact_mod_cast h0)
      simp [h0, hnil, meanPosition, vecSet, pure, Except.pure, bind, Except.bind]
    · simp [h0, hn, meanPosition, vecSet, pure, Except.pure, bind, Except.bind]
  · rw [if_neg hd, if_neg hd]
    have hf : mol.bDirtyCentroid = false := by simpa using hd
    obtain ⟨atoms, dirty, centroid⟩ := mol
    simp only at hf
    subst hf
    rfl

/-- What `moveToCentroid` does on a molecule of 3-coordinate atoms: every atom is
translated by the opposite of the centroid that `getCentroid` returns. -/
theorem moveToCentroid_ok (mol : CMolecule R)
    (h3 : ∀ a ∈ mol.atomsList, a.position.length = 3) (hc : mol.centroid.length = 3) :
    mol.moveToCentroid
      = .ok ⟨shiftedAtoms (-(centroidOf mol).getD 0 0) (-(centroidOf mol).getD 1 0)
          (-(centroidOf mol).getD 2 0) mol.atomsList, false, centroidOf mol⟩ := by
  unfold CMolecule.moveToCentroid
  rw [getCentroid_ok mol h3 hc, ok_bind]
  simp only []
  have hlen := centroidOf_length mol hc
  rw [mapM_eq_ok_map mol.atomsList _ (fun a =>
    { a with position := translatePoint (-(centroidOf mol).getD 0 0)
              (-(centroidOf mol).getD 1 0) (-(centroidOf mol).getD 2 0) a.position })]
  · rfl
  · intro a ha
    obtain ⟨x, y, z, hpos⟩ := List.length_eq_three.1 (h3 a ha)
    obtain ⟨id, r, pos⟩ := a
    simp only at hpos
    subst hpos
    rw [show ((0 : Int)) = ((0 : Nat) : Int) from rfl,
      show ((1 : Int)) = ((1 : Nat) : Int) from rfl,
      show ((2 : Int)) = ((2 : Nat) : Int) from rfl,
      vecGet_natCast (centroidOf mol) 0 0 (by omega),
      vecGet_natCast (centroidOf mol) 1 0 (by omega),
      vecGet_natCast (centroidOf mol) 2 0 (by omega)]
    simp [CAtom.getPositionX, CAtom.getPositionY, CAtom.getPositionZ, CAtom.setPositionX,
      CAtom.setPositionY, CAtom.setPositionZ, vecGet, vecSet, pure, Except.pure, bind,
      Except.bind, translatePoint, sub_eq_add_neg]

/-- C22: the cached centroid is never invalidated. For the molecule of one atom
at `(1, 0, 0)`: `getCentroid` returns `(1, 0, 0)`; after `move(1, 0, 0)` the atom
is at `(2, 0, 0)` and `getCentroid` still returns `(1, 0, 0)`; after `addAtom`
of an atom at `(3, 0, 0)` the mean is `(2, 0, 0)` and `getCentroid` still returns
`(1, 0, 0)`; after `moveToCentroid` on the fresh molecule the atom is at the
origin and `getCentroid` returns `(1, 0, 0)`; and `moveToCentroid` after
`getCentroid` and `move(1, 0, 0)` leaves the atom at `(1, 0, 0)`, not at the
origin. -/
theorem C22_centroid_cache_never_invalidated :
    (do
        let (c1, m1) ← (CMolecule.new.addAtom ⟨1, 1.5, [1, 0, 0]⟩ : CMolecule ℚ).getCentroid
        let m2 ← m1.move 1 0 0
        let (c2, m3) ← m2.getCentroid
        pure (c1, c2, meanPosition m3.atomsList))
      = .ok ([1, 0, 0], [1, 0, 0], [2, 0, 0])
    ∧ (do
        let (_, m1) ← (CMolecule.new.addAtom ⟨1, 1.5, [1, 0, 0]⟩ : CMolecule ℚ).getCentroid
        let (c2, m2) ← (m1.addAtom ⟨2, 1.5, [3, 0, 0]⟩).getCentroid
        pure (c2, meanPosition m2.atomsList))
      = .ok ([1, 0, 0], [2, 0, 0])
    ∧ (do
        let m1 ← (CMolecule.new.addAtom ⟨1, 1.5, [1, 0, 0]⟩ : CMolecule ℚ).moveToCentroid
        let (c2, m2) ← m1.getCentroid
        pure (c2, meanPosition m2.atomsList))
      = .ok ([1, 0, 0], [0, 0, 0])
    ∧ (do
        let (_, m1) ← (CMolecule.new.addAtom ⟨1, 1.5, [1, 0, 0]⟩ : CMolecule ℚ).getCentroid
        let m2 ← m1.move 1 0 0
        let m3 ← m2.moveToCentroid
        pure (meanPosition m3.atomsList))
      = .ok [1, 0, 0] := by
  refine ⟨?_, ?_, ?_, ?_⟩ <;>
    norm_num [CMolecule.getCentroid, CMolecule.moveToCentroid, CMolecule.move, CMolecule.new,
      CMolecule.addAtom, CMolecule.getAtomsCount, CAtom.clone, CAtom.getPositionX,
      CAtom.getPositionY, CAtom.getPositionZ, CAtom.setPositionX, CAtom.setPositionY,
      CAtom.setPositionZ, meanPosition, vecGet, vecSet, pure, Except.pure, bind, Except.bind,
      List.mapM, List.mapM.loop, show Int.toNat 2 = 2 from rfl]

end Centroid

/-! ## Assignment solver -/

section AssignmentSolver

/-- The solver constructed for `[[2, 1]]` is not transposed and has the
dimension 1; the reduction of the row and of the two columns leaves zero costs
only. -/
theorem solver_reduce (nIndeterminate : Int) (bIndeterminate : Bool) :
    ∃ solver : CAssignmentSolver ℚ,
      CAssignmentSolver.new nIndeterminate bIndeterminate [[(2 : ℚ), 1]] = .ok solver
        ∧ solver.bMultiRuns = false
        ∧ solver.subtractRowAndColumnMinimum = .ok (solverOneByTwo false [] [] []) := by
  refine ⟨{ assignmentColumnIdsSet := [], assignmentColumnIdsMap := [], assignmentRowIdsSet := []
            bMultiRuns := false, bTransposedCostMatrix := false
            costMatrix := [[2, 1]], fullColumnIndicesSet := [0, 1], fullRowIndicesSet := [0]
            markedColumnIdsSet := [], markedRowIdsSet := []
            nColumns := 2, nDimensions := 1, nRows := 1
            pRawCostMatrix := [[2, 1]], zeroColumnIdsMap := [], zeroRowIdsMap := [] },
    ?_, rfl, ?_⟩ <;>
  norm_num [CAssignmentSolver.new, CAssignmentSolver.setCostMatrix,
    CAssignmentSolver.subtractRowAndColumnMinimum, CAssignmentSolver.recordZeroPosition,
    solverOneByTwo, matGet, matSet, vecGet, vecSet, mapInsert, mapFind, setInsert,
    DBL_MAX, List.range_succ, pure, Except.pure, bind, Except.bind,
    throw, throwThe, MonadExceptOf.throw, List.forM, forM, show Int.toNat 2 = 2 from rfl,
    show Int.toNat 1 = 1 from rfl]

/-- On the reduced solver, `tryAssign` assigns row 0 to column 0: the column
pass of `assignUniquely` takes the columns in ascending order, and column 0 has
a single unassigned zero row. -/
theorem solver_tryAssign (n : Nat) (multiRuns : Bool) (columnIdsSet : List Nat)
    (columnIdsMap : List (Nat × Nat)) (rowIdsSet : List Nat) :
    (solverOneByTwo multiRuns columnIdsSet columnIdsMap rowIdsSet).tryAssign (n + 4)
      = .ok (1, solverOneByTwo multiRuns [0] [(0, 0)] [0]) := by
  simp [CAssignmentSolver.tryAssign,
    CAssignmentSolver.whileTryAssign, CAssignmentSolver.assignUniquely,
    CAssignmentSolver.whileAssignUniquely, CAssignmentSolver.whileAssignUniquelyByRow,
    CAssignmentSolver.whileAssignUniquelyByColumn, CAssignmentSolver.assignUniquelyByRow,
    CAssignmentSolver.assignUniquelyByColumn, CAssignmentSolver.assignOneArbitrarily,
    CAssignmentSolver.recordAssignmentPosition,
    solverOneByTwo, mapInsert, mapFind, setDifference, setInsert,
    EXIST, pure, Except.pure, bind, Except.bind,
    throw, throwThe, MonadExceptOf.throw]

/-- With row 0 assigned no row is marked, and the line cover has one line. -/
theorem solver_mark (n : Nat) (multiRuns : Bool) :
    (solverOneByTwo multiRuns [0] [(0, 0)] [0]).markRowsAndColumns (n + 1)
      = .ok (1, solverOneByTwo multiRuns [0] [(0, 0)] [0]) := by
  simp [CAssignmentSolver.markRowsAndColumns,
    CAssignmentSolver.whileMark, CAssignmentSolver.markColumns, CAssignmentSolver.markRows,
    solverOneByTwo, mapInsert, mapFind, setDifference, setInsert,
    EXIST, pure, Except.pure, bind, Except.bind,
    throw, throwThe, MonadExceptOf.throw]

/-- C23: the assignment returned for a rectangular matrix is not always optimal.
For the raw cost matrix `[[2, 1]]` (one row, two columns) the constructor
succeeds and, whatever bound of at least 5 rounds the loops are given,
`evaluateOptimalAssignments` returns the assignment of row 0 to column 0 and the
total cost 2, while the assignment of row 0 to column 1 costs 1: the column
reduction, applied to a matrix that has not been padded to a square one, turns
the cost 2 into a zero. -/
theorem C23_rectangular_matrix_not_optimal (nIndeterminate : Int) (bIndeterminate : Bool)
    (n : Nat) :
    ∃ solver : CAssignmentSolver ℚ,
      CAssignmentSolver.new nIndeterminate bIndeterminate [[(2 : ℚ), 1]] = .ok solver
        ∧ (solver.evaluateOptimalAssignments (n + 5)).map (fun r => (r.1, r.2.1))
            = .ok (2, [(0, 0)])
        ∧ matGet [[(2 : ℚ), 1]] 0 0 = .ok 2
        ∧ matGet [[(2 : ℚ), 1]] 0 1 = .ok 1 := by
  obtain ⟨solver, hnew, hmulti, hreduce⟩ := solver_reduce nIndeterminate bIndeterminate
  refine ⟨solver, hnew, ?_, rfl, rfl⟩
  have hcover : (solverOneByTwo false [] [] []).whileLineCover (n + 5)
      = .ok (solverOneByTwo false [0] [(0, 0)] [0]) := by
    unfold CAssignmentSolver.whileLineCover CAssignmentSolver.minimumLineCover
    rw [solver_tryAssign n false [] [] [], ok_bind]
    simp only []
    rw [solver_mark (n + 3) false, ok_bind]
    simp [solverOneByTwo, pure, Except.pure]
  have hget : (solverOneByTwo true [0] [(0, 0)] [0]).getOptimalAssignments (n + 5)
      = .ok ([(0, 0)], solverOneByTwo true [0] [(0, 0)] [0]) := by
    unfold CAssignmentSolver.getOptimalAssignments
    have h := solver_tryAssign (n + 1) true [] [] []
    simp only [solverOneByTwo] at h ⊢
    rw [h, ok_bind]
    simp [mapInsert, pure, Except.pure]
  unfold CAssignmentSolver.evaluateOptimalAssignments
  rw [hmulti]
  simp only [Bool.not_false, if_true, CAssignmentSolver.preProcessCostMatrix]
  rw [hreduce, ok_bind, hcover, ok_bind]
  have hs : ({ solverOneByTwo false [0] [(0, 0)] [0] with bMultiRuns := true } :
      CAssignmentSolver ℚ) = solverOneByTwo true [0] [(0, 0)] [0] := rfl
  simp only [pure, Except.pure, ok_bind, hs]
  rw [hget, ok_bind]
  norm_num [solverOneByTwo, matGet, vecGet, pure, Except.pure, bind, Except.bind, Except.map]

end AssignmentSolver

/-! ## Alignment call of the service -/

section Service

variable {R : Type} [LinearOrderedField R]

/-- One iteration keeps the simplex invariant and leaves a lowest index inside
the simplex. -/
theorem iteration_invariant (f : List R → R) (d : Nat) (s : CSimplexOptimizer R)
    (hinv : s.SimplexInvariant f d) (hrange : ∀ x, -DBL_MAX < f x ∧ f x < DBL_MAX) :
    ∃ (s' : CSimplexOptimizer R) (lo : Nat), s.iteration f = .ok s'
      ∧ s'.SimplexInvariant f d ∧ s'.nLowestSolutionId = lo ∧ lo < d + 1
      ∧ s'.config = s.config := by
  obtain ⟨s', hi, lo, hiter, hconfig, hhi, hlo, hmax, hmin, hcase⟩ :=
    iteration_spec f d s hinv hrange
  obtain ⟨hdim, hcount, hsize, hcached⟩ := hinv
  have hvlen : s.currentFunctionValues.length = d + 1 := by
    rw [hcached, List.length_map, hcount]
  have hvrange : ∀ v ∈ s.currentFunctionValues, -DBL_MAX < v ∧ v < DBL_MAX := by
    intro v hv
    rw [hcached] at hv
    obtain ⟨x, -, rfl⟩ := List.mem_map.1 hv
    exact hrange x
  obtain ⟨s2, lo', hiter', hlid, hlo'⟩ :=
    iteration_returns f d s ⟨hdim, hcount, hsize, hvlen⟩ hvrange
  have hs : s2 = s' := by
    rw [hiter] at hiter'
    exact (Except.ok.inj hiter').symm
  subst hs
  have hdim' : s2.nPROBLEM_DIMENSION = d :=
    (congrArg (fun c => c.2.1) hconfig).trans hdim
  refine ⟨s2, lo', hiter, ?_, hlid, hlo', hconfig⟩
  rcases hcase with ⟨x, hx, hs, hv⟩ | ⟨hl, hsz, hv, -⟩
  · refine ⟨hdim', by rw [hs, List.length_set, hcount], ?_, ?_⟩
    · intro v hv'
      rw [hs] at hv'
      rcases List.mem_or_eq_of_mem_set hv' with h | h
      · exact hsize v h
      · rw [h]; exact hx
    · rw [hv, hs, hcached, List.map_set]
  · exact ⟨hdim', hl, hsz, hv⟩

/-- At least one iteration keeps the simplex invariant and leaves a lowest index
inside the simplex. -/
theorem iterations_invariant (f : List R → R) (d n : Nat) (s : CSimplexOptimizer R)
    (hinv : s.SimplexInvariant f d) (hrange : ∀ x, -DBL_MAX < f x ∧ f x < DBL_MAX) :
    ∃ (s' : CSimplexOptimizer R) (lo : Nat),
      (List.range (n + 1)).foldlM
          (fun (self : CSimplexOptimizer R) (_i : Nat) => self.iteration f) s = .ok s'
      ∧ s'.SimplexInvariant f d ∧ s'.nLowestSolutionId = lo ∧ lo < d + 1
      ∧ s'.config = s.config := by
  induction n with
  | zero =>
    obtain ⟨s', lo, hiter, h⟩ := iteration_invariant f d s hinv hrange
    refine ⟨s', lo, ?_, h⟩
    rw [foldlM_range_succ_back]
    simp only [List.range_zero, List.foldlM_nil, pure, Except.pure, ok_bind]
    exact hiter
  | succ n ih =>
    obtain ⟨s1, lo1, hfold, hinv1, -, -, hconfig1⟩ := ih
    obtain ⟨s', lo, hiter, hinv', hlid, hlo, hconfig⟩ :=
      iteration_invariant f d s1 hinv1 hrange
    refine ⟨s', lo, ?_, hinv', hlid, hlo, hconfig.trans hconfig1⟩
    rw [foldlM_range_succ_back, hfold, ok_bind]
    exact hiter

/-- The value of a mapped list at an index of the list. -/
theorem getD_map_of_lt {α : Type} (f : α → R) (l : List α) (i : Nat) (h : i < l.length)
    (a : α) : (l.map f).getD i 0 = f (l.getD i a) := by
  rw [List.getD_eq_getElem _ 0 (by rw [List.length_map]; exact h), List.getElem_map,
    List.getD_eq_getElem _ a h]

/-- A run on valid groups, with at least one iteration and an objective whose
values lie strictly between `-DBL_MAX` and `DBL_MAX`, returns a point of `d`
coordinates together with the value of the objective at that point. -/
theorem runOptimization_point_value (f : List R → R) (d : Nat) (n : Int) (hn : 1 ≤ n)
    (o : CSimplexOptimizer R) (hne : o.INITIAL_FEASIBLE_SOLUTIONS ≠ [])
    (hvalid : validGroups d o.INITIAL_FEASIBLE_SOLUTIONS)
    (hdim : o.nPROBLEM_DIMENSION = d) (hvals : o.currentFunctionValues.length = d + 1)
    (hrange : ∀ x, -DBL_MAX < f x ∧ f x < DBL_MAX) :
    ∃ r, o.runOptimization f n = .ok r ∧ r.1.length = d ∧ r.2.1 = f r.1 := by
  obtain ⟨k, hk⟩ : ∃ k : Nat, n.toNat = k + 1 := ⟨n.toNat - 1, by omega⟩
  rw [runOptimization_eq, hk]
  -- one group
  have hstep : ∀ (acc : List R × R × CSimplexOptimizer R) (g : List (List R)),
      g.length = d + 1 → (∀ v ∈ g, v.length = d) →
      acc.2.2.nPROBLEM_DIMENSION = d → acc.2.2.currentFunctionValues.length = d + 1 →
      ∃ acc' : List R × R × CSimplexOptimizer R,
        (do
          let (bestSolution, dBestValue, self) := acc
          let self := { self with currentFeasibleSolutions := g }
          let self ← self.evaluateAllCurrentSolutions f
          let self ← (List.range (k + 1)).foldlM
            (fun (self : CSimplexOptimizer R) (_iIteration : Nat) => self.iteration f) self
          let lowestValue ← vecGet self.currentFunctionValues self.nLowestSolutionId
          if lowestValue < dBestValue then
            pure ((← vecGet self.currentFeasibleSolutions self.nLowestSolutionId),
              lowestValue, self)
          else
            pure (bestSolution, dBestValue, self)) = .ok acc'
        ∧ acc'.2.2.nPROBLEM_DIMENSION = d ∧ acc'.2.2.currentFunctionValues.length = d + 1
        ∧ ((acc.1.length = d ∧ acc.2.1 = f acc.1) ∨ acc.2.1 = DBL_MAX →
            acc'.1.length = d ∧ acc'.2.1 = f acc'.1) := by
    intro acc g hg hgsize hadim havals
    obtain ⟨b, v, s⟩ := acc
    simp only at hadim havals ⊢
    rw [evaluateAllCurrentSolutions_ok f { s with currentFeasibleSolutions := g }
      (by show s.currentFunctionValues.length = g.length
          rw [havals, hg]), ok_bind]
    have hinv0 : CSimplexOptimizer.SimplexInvariant f d
        ({ s with currentFeasibleSolutions := g, currentFunctionValues := g.map f } :
          CSimplexOptimizer R) := ⟨hadim, hg, hgsize, rfl⟩
    obtain ⟨s', lo, hfold, hinv', hlid, hlo, -⟩ := iterations_invariant f d k _ hinv0 hrange
    rw [hfold, ok_bind]
    obtain ⟨hdim', hcount', hsize', hcached'⟩ := hinv'
    have hvlen' : s'.currentFunctionValues.length = d + 1 := by
      rw [hcached', List.length_map, hcount']
    rw [hlid, vecGet_natCast _ lo 0 (by omega), ok_bind]
    have hval : s'.currentFunctionValues.getD lo 0 = f (s'.currentFeasibleSolutions.getD lo []) := by
      rw [hcached']
      exact getD_map_of_lt f _ lo (by omega) []
    by_cases hlt : s'.currentFunctionValues.getD lo 0 < v
    · rw [if_pos hlt, vecGet_natCast _ lo [] (by omega), ok_bind]
      refine ⟨_, rfl, hdim', hvlen', fun _ => ⟨?_, hval⟩⟩
      show (s'.currentFeasibleSolutions.getD lo []).length = d
      apply hsize'
      rw [List.getD_eq_getElem _ [] (by omega)]
      exact List.getElem_mem _
    · rw [if_neg hlt]
      refine ⟨_, rfl, hdim', hvlen', ?_⟩
      rintro (hgood | hmax)
      · exact hgood
      · exfalso
        apply hlt
        show s'.currentFunctionValues.getD lo 0 < v
        have hv : v = DBL_MAX := hmax
        rw [hv, hval]
        exact (hrange _).2
  -- the loop over the groups
  have hloop : ∀ (l : List (List (List R))) (acc : List R × R × CSimplexOptimizer R),
      validGroups d l →
      acc.2.2.nPROBLEM_DIMENSION = d → acc.2.2.currentFunctionValues.length = d + 1 →
      ∃ r : List R × R × CSimplexOptimizer R,
        l.foldlM
          (fun (acc : List R × R × CSimplexOptimizer R) (solutionsGroup : List (List R)) => do
            let (bestSolution, dBestValue, self) := acc
            let self := { self with currentFeasibleSolutions := solutionsGroup }
            let self ← self.evaluateAllCurrentSolutions f
            let self ← (List.range (k + 1)).foldlM
              (fun (self : CSimplexOptimizer R) (_iIteration : Nat) => self.iteration f) self
            let lowestValue ← vecGet self.currentFunctionValues self.nLowestSolutionId
            if lowestValue < dBestValue then
              pure ((← vecGet self.currentFeasibleSolutions self.nLowestSolutionId),
                lowestValue, self)
            else
              pure (bestSolution, dBestValue, self)) acc = .ok r
        ∧ ((acc.1.length = d ∧ acc.2.1 = f acc.1) ∨ (acc.2.1 = DBL_MAX ∧ l ≠ []) →
            r.1.length = d ∧ r.2.1 = f r.1) := by
    intro l
    induction l with
    | nil =>
      intro acc _ _ _
      refine ⟨acc, rfl, ?_⟩
      rintro (h | ⟨-, h⟩)
      · exact h
      · exact absurd rfl h
    | cons g rest ih =>
      intro acc hv hadim havals
      obtain ⟨hg, hgsize⟩ := hv g (List.mem_cons_self g rest)
      obtain ⟨acc', hbody, hadim', havals', hgood⟩ := hstep acc g hg hgsize hadim havals
      obtain ⟨r, hr, hrgood⟩ := ih acc' (fun g' hg' => hv g' (List.mem_cons_of_mem g hg'))
        hadim' havals'
      refine ⟨r, ?_, ?_⟩
      · rw [List.foldlM_cons, hbody, ok_bind]
        exact hr
      · intro h
        apply hrgood
        left
        apply hgood
        rcases h with h | ⟨h, -⟩
        · exact Or.inl h
        · exact Or.inr h
  obtain ⟨r, hr, hgood⟩ := hloop o.INITIAL_FEASIBLE_SOLUTIONS
    (([] : List R), (DBL_MAX : R), o) hvalid hdim hvals
  exact ⟨r, hr, hgood (Or.inr ⟨rfl, hne⟩)⟩

/-- The initial groups of `evaluateMaxGaussianVolumeOverlap`: as many groups as
asked for, each of seven points of six coordinates. -/
theorem generateInitialSolutionGroups_valid (rand : Nat → R) (nGroups : Int)
    (h : 1 ≤ nGroups) :
    (CGaussianService.generateInitialSolutionGroups rand nGroups
        (CGaussianService.nDIMENSIONS + 1) []).2 ≠ []
      ∧ validGroups 6 (CGaussianService.generateInitialSolutionGroups rand nGroups
        (CGaussianService.nDIMENSIONS + 1) []).2 := by
  unfold CGaussianService.generateInitialSolutionGroups
  simp only [List.nil_append]
  have h7 : (CGaussianService.nDIMENSIONS + 1).toNat = 7 := rfl
  have h6 : CGaussianService.nDIMENSIONS.toNat = 6 := rfl
  rw [h7, h6]
  constructor
  · intro hnil
    have := congrArg List.length hnil
    rw [List.length_map, List.length_range] at this
    simp only [List.length_nil] at this
    omega
  · intro g hg
    obtain ⟨iGroup, -, rfl⟩ := List.mem_map.1 hg
    refine ⟨by rw [List.length_map, List.length_range], ?_⟩
    intro v hv
    obtain ⟨iSolution, -, rfl⟩ := List.mem_map.1 hv
    rw [List.length_map, List.length_range]

/-- The optimizer constructed by the service for valid groups of dimension `d`,
when the extension and contraction factors of the service are inside the ranges
of the optimizer. -/
theorem constructSimplexOptimizer_ok (dIndeterminate : R) (service : CGaussianService R)
    (G : List (List (List R))) (d : Nat) (hne : G ≠ []) (hvalid : validGroups d G)
    (hext : 1 < service.getSimplexExtensionFactor)
    (hcon : 0 < service.getSimplexContractionFactor
      ∧ service.getSimplexContractionFactor < 1) :
    ∃ o : CSimplexOptimizer R,
      service.constructSimplexOptimizer dIndeterminate G = .ok o
        ∧ o.INITIAL_FEASIBLE_SOLUTIONS = G ∧ o.nPROBLEM_DIMENSION = d
        ∧ o.currentFunctionValues.length = d + 1 := by
  unfold CGaussianService.constructSimplexOptimizer
  rw [new_ok dIndeterminate G d hne hvalid, ok_bind]
  unfold CSimplexOptimizer.setExtensionFactor CSimplexOptimizer.setContractionFactor
    CSimplexOptimizer.setReflectionFactor
  have hext' : service.getSimplexExtensionFactor > 1.0 := by
    norm_num
    exact hext
  dsimp only
  rw [if_pos hext', ok_bind, if_pos hcon]
  exact ⟨_, rfl, rfl, rfl, by simp⟩

/-- The direct-mode total of a reference and a fit atom list at cutoff `c`. -/
theorem getOverlapVolumeDirect_three (m : CMath R) (c : R) (refMol fitMol : CMolecule R)
    (href : ∀ a ∈ refMol.atomsList, a.position.length = 3)
    (hfit : ∀ a ∈ fitMol.atomsList, a.position.length = 3) :
    (CGaussianVolume.new c).getOverlapVolumeDirect m refMol fitMol
      = .ok ((refMol.atomsList.map (fun a =>
          (fitMol.atomsList.map (pairTerm m c a)).sum)).sum) := by
  rw [getOverlapVolumeDirect_eq,
    if_pos (fun a ha b hb => (href a ha).trans (hfit b hb).symm)]
  rfl

/-- The value of the objective at a point of six coordinates, for molecules of
3-coordinate atoms and a cutoff that is not negative. -/
theorem objectiveValue_six (m : CMath R) (fit ref : CMolecule R) (cutoff : R)
    (negative : Bool) (tx ty tz rx ry rz : R) (hcut : cutoff ≥ 0)
    (href : ∀ a ∈ ref.atomsList, a.position.length = 3)
    (hfit : ∀ a ∈ fit.atomsList, a.position.length = 3) :
    objectiveValue m fit ref cutoff negative [tx, ty, tz, rx, ry, rz]
      = .ok ((if negative then -1 else 1) * (ref.atomsList.map (fun a =>
          ((fit.atomsList.map (rigidTransform m tx ty tz rx ry rz)).map
            (pairTerm m cutoff a)).sum)).sum) := by
  have hrot := rotateXYZ_ok m fit rx ry rz hfit
  have hrot3 : ∀ a ∈ ({ fit with atomsList := fit.atomsList.map (fun a =>
      { a with position := rotatePoint m rx ry rz a.position }) } : CMolecule R).atomsList,
      a.position.length = 3 := by
    intro a ha
    obtain ⟨b, hb, rfl⟩ := List.mem_map.1 ha
    exact rotatePoint_length m rx ry rz b.position (hfit b hb)
  have hmove : ({ fit with atomsList := fit.atomsList.map (fun a =>
      { a with position := rotatePoint m rx ry rz a.position }) } : CMolecule R).move tx ty tz
      = .ok { fit with
          atomsList := fit.atomsList.map (rigidTransform m tx ty tz rx ry rz) } := by
    rw [move_ok _ tx ty tz hrot3]
    simp only [List.map_map]
    rfl
  have hmoved3 : ∀ a ∈ (fit.atomsList.map (rigidTransform m tx ty tz rx ry rz)),
      a.position.length = 3 := by
    intro a ha
    obtain ⟨b, hb, rfl⟩ := List.mem_map.1 ha
    exact translatePoint_length tx ty tz _ (rotatePoint_length m rx ry rz b.position (hfit b hb))
  have hdirect := getOverlapVolumeDirect_three m cutoff ref
    { fit with atomsList := fit.atomsList.map (rigidTransform m tx ty tz rx ry rz) }
    href hmoved3
  unfold objectiveValue
  rw [clone_eq]
  have h0 : vecGet [tx, ty, tz, rx, ry, rz] 0 = .ok tx := rfl
  have h1 : vecGet [tx, ty, tz, rx, ry, rz] 1 = .ok ty := rfl
  have h2 : vecGet [tx, ty, tz, rx, ry, rz] 2 = .ok tz := rfl
  have h3 : vecGet [tx, ty, tz, rx, ry, rz] 3 = .ok rx := rfl
  have h4 : vecGet [tx, ty, tz, rx, ry, rz] 4 = .ok ry := rfl
  have h5 : vecGet [tx, ty, tz, rx, ry, rz] 5 = .ok rz := rfl
  rw [h3, ok_bind, h4, ok_bind, h5, ok_bind, hrot, ok_bind, h0, ok_bind, h1, ok_bind,
    h2, ok_bind, hmove, ok_bind, new_setGaussianCutoff, if_pos hcut, ok_bind, hdirect, ok_bind]
  cases negative <;> simp [pure, Except.pure]

/-- A point of fewer than six coordinates makes the objective throw. -/
theorem objectiveValue_short (m : CMath R) (fit ref : CMolecule R) (cutoff : R)
    (negative : Bool) (params : List R) (h : params.length < 6) :
    objectiveValue m fit ref cutoff negative params = .error .outOfRange := by
  unfold objectiveValue
  rcases params with _ | ⟨a, _ | ⟨b, _ | ⟨c, _ | ⟨d, _ | ⟨e, _ | ⟨f, rest⟩⟩⟩⟩⟩⟩
  · rfl
  · rfl
  · rfl
  · rfl
  · rfl
  · rfl
  · simp only [List.length_cons] at h
    omega

/-- Only the first six coordinates of a point are read by the objective. -/
theorem objectiveValue_long (m : CMath R) (fit ref : CMolecule R) (cutoff : R)
    (negative : Bool) (a b c d e f : R) (rest : List R) :
    objectiveValue m fit ref cutoff negative (a :: b :: c :: d :: e :: f :: rest)
      = objectiveValue m fit ref cutoff negative [a, b, c, d, e, f] := rfl

/-- A pair term is not negative when `exp` and `pow` are not. -/
theorem pairTerm_nonneg (m : CMath R) (hexp : ∀ x, 0 ≤ m.exp x)
    (hpow : ∀ x y, 0 ≤ x → 0 ≤ m.pow x y) (c : R) (a b : CAtom R) :
    0 ≤ pairTerm m c a b := by
  unfold pairTerm
  split_ifs
  · unfold pairVolume
    have halpha : ∀ x : CAtom R, 0 ≤ alphaOf x := by
      intro x
      unfold alphaOf CGaussianVolume.dPARTIAL_ALPHA
      exact div_nonneg (by norm_num) (sq_nonneg _)
    have hbase : 0 ≤ CGaussianVolume.dPI / (alphaOf a + alphaOf b) := by
      unfold CGaussianVolume.dPI
      exact div_nonneg (by norm_num) (add_nonneg (halpha a) (halpha b))
    exact mul_nonneg (mul_nonneg (by norm_num) (hexp _)) (hpow _ _ hbase)
  · exact le_refl 0

/-- A direct-mode total is not negative when `exp` and `pow` are not. -/
theorem overlapTotal_nonneg (m : CMath R) (hexp : ∀ x, 0 ≤ m.exp x)
    (hpow : ∀ x y, 0 ≤ x → 0 ≤ m.pow x y) (c : R) (refAtoms fitAtoms : List (CAtom R)) :
    0 ≤ (refAtoms.map (fun a => (fitAtoms.map (pairTerm m c a)).sum)).sum := by
  apply List.sum_nonneg
  intro x hx
  obtain ⟨a, -, rfl⟩ := List.mem_map.1 hx
  apply List.sum_nonneg
  intro y hy
  obtain ⟨b, -, rfl⟩ := List.mem_map.1 hy
  exact pairTerm_nonneg m hexp hpow c a b

/-- Moving the reference atom by `-s` is moving the fit atom by `s`, for the
square distance. -/
theorem sqDist_translate (sx sy sz : R) (p q : List R) (hp : p.length = 3)
    (hq : q.length = 3) :
    sqDist (translatePoint (-sx) (-sy) (-sz) p) q = sqDist p (translatePoint sx sy sz q) := by
  obtain ⟨x, y, z, rfl⟩ := List.length_eq_three.1 hp
  obtain ⟨u, v, w, rfl⟩ := List.length_eq_three.1 hq
  simp only [sqDist, translatePoint, List.zipWith_cons_cons, List.zipWith_nil_right,
    List.sum_cons, List.sum_nil]
  ring

/-- Moving the reference atom by `-s` is moving the fit atom by `s`, for the
pair term. -/
theorem pairTerm_translate (m : CMath R) (c sx sy sz : R) (a b : CAtom R)
    (ha : a.position.length = 3) (hb : b.position.length = 3) :
    pairTerm m c { a with position := translatePoint (-sx) (-sy) (-sz) a.position } b
      = pairTerm m c a { b with position := translatePoint sx sy sz b.position } := by
  unfold pairTerm withinCutoff pairVolume alphaOf
  simp only [sqDist_translate sx sy sz a.position b.position ha hb]

/-- Two translations in a row are one translation by the sum. -/
theorem translatePoint_translatePoint (tx ty tz sx sy sz : R) (p : List R)
    (hp : p.length = 3) :
    translatePoint sx sy sz (translatePoint tx ty tz p)
      = translatePoint (tx + sx) (ty + sy) (tz + sz) p := by
  obtain ⟨x, y, z, rfl⟩ := List.length_eq_three.1 hp
  simp only [translatePoint, add_assoc]

/-- The direct-mode total of the centred reference atoms and a rigidly moved
fit atom list is the total of the reference atoms and the fit atoms moved, after
the rotation, by the translation plus the centre. -/
theorem overlapTotal_centred (m : CMath R) (c sx sy sz tx ty tz rx ry rz : R)
    (refAtoms fitAtoms : List (CAtom R))
    (href : ∀ a ∈ refAtoms, a.position.length = 3)
    (hfit : ∀ b ∈ fitAtoms, b.position.length = 3) :
    ((shiftedAtoms (-sx) (-sy) (-sz) refAtoms).map (fun a =>
        ((fitAtoms.map (rigidTransform m tx ty tz rx ry rz)).map (pairTerm m c a)).sum)).sum
      = (refAtoms.map (fun a =>
          ((shiftedAtoms (tx + sx) (ty + sy) (tz + sz)
            (fitAtoms.map (fun b =>
              { b with position := rotatePoint m rx ry rz b.position }))).map
            (pairTerm m c a)).sum)).sum := by
  unfold shiftedAtoms
  rw [List.map_map]
  congr 1
  apply List.map_congr_left
  intro a ha
  simp only [Function.comp]
  rw [List.map_map, List.map_map, List.map_map]
  congr 1
  apply List.map_congr_left
  intro b hb
  simp only [Function.comp, rigidTransform]
  have hrot := rotatePoint_length m rx ry rz b.position (hfit b hb)
  rw [pairTerm_translate m c sx sy sz a _ (href a ha)
    (translatePoint_length tx ty tz _ hrot)]
  simp only [translatePoint_translatePoint tx ty tz sx sy sz _ hrot]

/-- A square distance is not negative. -/
theorem sqDist_nonneg (p q : List R) : 0 ≤ sqDist p q := by
  unfold sqDist
  induction p generalizing q with
  | nil => simp
  | cons x xs ih =>
    cases q with
    | nil => simp
    | cons y ys =>
      rw [List.zipWith_cons_cons, List.sum_cons]
      exact add_nonneg (mul_self_nonneg _) (ih ys)

/-- The evaluator that `evaluateMaxGaussianVolumeOverlap` constructs. -/
theorem evaluator_new_ok (d : R) (refMolecule fitMolecule : CMolecule R) :
    ∃ ev : CGaussianVolumeOverlapEvaluator R,
      CGaussianVolumeOverlapEvaluator.new d refMolecule fitMolecule = .ok ev
        ∧ ev.pRefMolecule = refMolecule ∧ ev.pFitMolecule = fitMolecule
        ∧ ev.dGaussianCutoff = 0 ∧ ev.nMaxIntersectionOrder = 1 :=
  ⟨_, rfl, clone_eq _, clone_eq _, rfl, rfl⟩

/-- The three coordinates written for the first translation. -/
theorem transformation1_ok (c : List R) (hc : c.length = 3) :
    (List.range 3).mapM (fun (iDimension : Nat) => do
        pure (-(← vecGet c iDimension)) : Nat → Except Failure R)
      = .ok [-c.getD 0 0, -c.getD 1 0, -c.getD 2 0] := by
  rw [mapM_eq_ok_map (List.range 3) _ (fun i => -c.getD i 0)]
  · rfl
  · intro i hi
    rw [vecGet_natCast c i 0 (by have := List.mem_range.1 hi; omega)]
    rfl

/-- The three coordinates written for the second translation. -/
theorem transformation3_ok (p c : List R) (hp : 3 ≤ p.length) (hc : c.length = 3) :
    (List.range 3).mapM (fun (iDimension : Nat) => do
        pure ((← vecGet p iDimension) + (← vecGet c iDimension)) : Nat → Except Failure R)
      = .ok [p.getD 0 0 + c.getD 0 0, p.getD 1 0 + c.getD 1 0, p.getD 2 0 + c.getD 2 0] := by
  rw [mapM_eq_ok_map (List.range 3) _ (fun i => p.getD i 0 + c.getD i 0)]
  · rfl
  · intro i hi
    have hi' := List.mem_range.1 hi
    rw [vecGet_natCast p i 0 (by omega), vecGet_natCast c i 0 (by omega)]
    rfl

/-- The fit molecule after `move(-c)`, `rotateXYZ(r)` and `move(t + s)`: the three
calls return, the radii are kept, and the direct-mode overlap with the reference
molecule at cutoff 0 is the total of the reference atoms moved by `-s` and the
fit atoms moved by `-c` and then by the rigid transformation `(t, r)`. -/
theorem alignment_placement (m : CMath R) (refMol fitMol : CMolecule R)
    (href : ∀ a ∈ refMol.atomsList, a.position.length = 3)
    (hfit : ∀ a ∈ fitMol.atomsList, a.position.length = 3)
    (sx sy sz cx cy cz tx ty tz rx ry rz : R) :
    ∃ moved1 rotated moved : CMolecule R,
      fitMol.move (-cx) (-cy) (-cz) = .ok moved1
        ∧ moved1.rotateXYZ m rx ry rz = .ok rotated
        ∧ rotated.move (tx + sx) (ty + sy) (tz + sz) = .ok moved
        ∧ moved.atomsList.map CAtom.dAtomRadius = fitMol.atomsList.map CAtom.dAtomRadius
        ∧ (CGaussianVolume.new 0).getOverlapVolumeDirect m refMol moved
          = .ok ((shiftedAtoms (-sx) (-sy) (-sz) refMol.atomsList).map (fun a =>
              (((shiftedAtoms (-cx) (-cy) (-cz) fitMol.atomsList).map
                (rigidTransform m tx ty tz rx ry rz)).map (pairTerm m 0 a)).sum)).sum := by
  have h1 : ∀ a ∈ shiftedAtoms (-cx) (-cy) (-cz) fitMol.atomsList, a.position.length = 3 := by
    intro a ha
    obtain ⟨b, hb, rfl⟩ := List.mem_map.1 ha
    exact translatePoint_length _ _ _ _ (hfit b hb)
  have h2 : ∀ a ∈ (shiftedAtoms (-cx) (-cy) (-cz) fitMol.atomsList).map (fun b =>
      ({ b with position := rotatePoint m rx ry rz b.position } : CAtom R)),
      a.position.length = 3 := by
    intro a ha
    obtain ⟨b, hb, rfl⟩ := List.mem_map.1 ha
    exact rotatePoint_length _ _ _ _ _ (h1 b hb)
  have h3 : ∀ a ∈ shiftedAtoms (tx + sx) (ty + sy) (tz + sz)
      ((shiftedAtoms (-cx) (-cy) (-cz) fitMol.atomsList).map (fun b =>
        ({ b with position := rotatePoint m rx ry rz b.position } : CAtom R))),
      a.position.length = 3 := by
    intro a ha
    obtain ⟨b, hb, rfl⟩ := List.mem_map.1 ha
    exact translatePoint_length _ _ _ _ (h2 b hb)
  refine ⟨_, _, _, move_ok fitMol _ _ _ hfit, rotateXYZ_ok m _ rx ry rz h1,
    move_ok _ _ _ _ h2, ?_, ?_⟩
  · simp [shiftedAtoms, List.map_map, Function.comp]
  · rw [getOverlapVolumeDirect_three m 0 refMol _ href h3,
      overlapTotal_centred m 0 sx sy sz tx ty tz rx ry rz refMol.atomsList _ href h1]
    rfl

omit [LinearOrderedField R] in
/-- A `mapM` whose function fails with one fixed exception exactly outside a
set `P` and keeps a key of its argument inside `P`: the call fails with that
exception when an element is outside `P`, and otherwise returns a list with the
same keys. -/
theorem mapM_shape {α β γ : Type} (f : α → Except Failure β) (ka : α → γ) (kb : β → γ)
    (P : α → Prop) (e0 : Failure)
    (hok : ∀ a, P a → ∃ b, f a = .ok b ∧ kb b = ka a)
    (herr : ∀ a, ¬ P a → f a = .error e0) (l : List α) :
    ((∀ a ∈ l, P a) → ∃ bs, l.mapM f = .ok bs ∧ bs.map kb = l.map ka)
      ∧ ((¬ ∀ a ∈ l, P a) → l.mapM f = .error e0) := by
  rw [← List.mapM'_eq_mapM]
  induction l with
  | nil =>
    refine ⟨fun _ => ⟨[], rfl, rfl⟩, fun h => ?_⟩
    exact absurd (fun a ha => absurd ha (List.not_mem_nil a)) h
  | cons x xs ih =>
    obtain ⟨ih1, ih2⟩ := ih
    constructor
    · intro h
      obtain ⟨b, hb, hkb⟩ := hok x (h x (List.mem_cons_self x xs))
      obtain ⟨bs, hbs, hks⟩ := ih1 (fun a ha => h a (List.mem_cons_of_mem x ha))
      refine ⟨b :: bs, ?_, ?_⟩
      · rw [List.mapM'_cons, hb, ok_bind, hbs, ok_bind]
        rfl
      · rw [List.map_cons, List.map_cons, hkb, hks]
    · intro h
      by_cases hx : P x
      · obtain ⟨b, hb, -⟩ := hok x hx
        have hrest : ¬ ∀ a ∈ xs, P a := by
          intro hall
          apply h
          intro a ha
          rcases List.mem_cons.1 ha with rfl | ha
          · exact hx
          · exact hall a ha
        rw [List.mapM'_cons, hb, ok_bind, ih2 hrest]
        rfl
      · rw [List.mapM'_cons, herr x hx]
        rfl

/-- Whether `rotateXYZ` returns depends on the numbers of coordinates of the
atoms only: it returns a molecule with the same numbers of coordinates when
every atom has at least three, and reads outside a position otherwise. -/
theorem rotateXYZ_shape (m : CMath R) (mol : CMolecule R) (rx ry rz : R) :
    ((∀ a ∈ mol.atomsList, 3 ≤ a.position.length) →
        ∃ mol', mol.rotateXYZ m rx ry rz = .ok mol'
          ∧ mol'.atomsList.map (fun a => a.position.length)
            = mol.atomsList.map (fun a => a.position.length))
      ∧ ((¬ ∀ a ∈ mol.atomsList, 3 ≤ a.position.length) →
          mol.rotateXYZ m rx ry rz = .error .outOfRange) := by
  obtain ⟨h1, h2⟩ := mapM_shape
    (fun (atom : CAtom R) => (do
      let dX ← atom.getPositionX
      let dY ← atom.getPositionY
      let dZ ← atom.getPositionZ
      let dNewX := dX * m.cos ry * m.cos rz
        + dY * (m.sin rx * m.sin ry * m.cos rz - m.cos rx * m.sin rz)
        + dZ * (m.cos rx * m.sin ry * m.cos rz + m.sin rx * m.sin rz)
      let dNewY := dX * m.cos ry * m.sin rz
        + dY * (m.sin rx * m.sin ry * m.sin rz + m.cos rx * m.cos rz)
        + dZ * (m.cos rx * m.sin ry * m.sin rz - m.sin rx * m.cos rz)
      let dNewZ := -dX * m.sin ry + dY * m.sin rx * m.cos ry + dZ * m.cos rx * m.cos ry
      let atom ← atom.setPositionX dNewX
      let atom ← atom.setPositionY dNewY
      let atom ← atom.setPositionZ dNewZ
      pure atom : Except Failure (CAtom R)))
    (fun a => a.position.length) (fun a => a.position.length)
    (fun a => 3 ≤ a.position.length) .outOfRange
    (by
      intro a ha
      obtain ⟨id, r, pos⟩ := a
      rcases pos with _ | ⟨x, _ | ⟨y, _ | ⟨z, rest⟩⟩⟩
      · simp at ha
      · simp at ha
      · simp at ha
      · simp [CAtom.getPositionX, CAtom.getPositionY, CAtom.getPositionZ, CAtom.setPositionX,
          CAtom.setPositionY, CAtom.setPositionZ, vecGet, vecSet, bind, Except.bind, pure,
          Except.pure])
    (by
      intro a ha
      obtain ⟨id, r, pos⟩ := a
      rcases pos with _ | ⟨x, _ | ⟨y, _ | ⟨z, rest⟩⟩⟩
      · rfl
      · rfl
      · rfl
      · simp at ha)
    mol.atomsList
  constructor
  · intro h
    obtain ⟨bs, hbs, hks⟩ := h1 h
    refine ⟨{ mol with atomsList := bs }, ?_, hks⟩
    unfold CMolecule.rotateXYZ
    simp only []
    rw [hbs]
    rfl
  · intro h
    unfold CMolecule.rotateXYZ
    simp only []
    rw [h2 h]
    rfl

/-- Whether `move` returns depends on the numbers of coordinates of the atoms
only. -/
theorem move_shape (mol : CMolecule R) (tx ty tz : R) :
    ((∀ a ∈ mol.atomsList, 3 ≤ a.position.length) →
        ∃ mol', mol.move tx ty tz = .ok mol'
          ∧ mol'.atomsList.map (fun a => a.position.length)
            = mol.atomsList.map (fun a => a.position.length))
      ∧ ((¬ ∀ a ∈ mol.atomsList, 3 ≤ a.position.length) →
          mol.move tx ty tz = .error .outOfRange) := by
  obtain ⟨h1, h2⟩ := mapM_shape
    (fun (atom : CAtom R) => (do
      let atom ← atom.setPositionX ((← atom.getPositionX) + tx)
      let atom ← atom.setPositionY ((← atom.getPositionY) + ty)
      let atom ← atom.setPositionZ ((← atom.getPositionZ) + tz)
      pure atom : Except Failure (CAtom R)))
    (fun a => a.position.length) (fun a => a.position.length)
    (fun a => 3 ≤ a.position.length) .outOfRange
    (by
      intro a ha
      obtain ⟨id, r, pos⟩ := a
      rcases pos with _ | ⟨x, _ | ⟨y, _ | ⟨z, rest⟩⟩⟩
      · simp at ha
      · simp at ha
      · simp at ha
      · simp [CAtom.getPositionX, CAtom.getPositionY, CAtom.getPositionZ, CAtom.setPositionX,
          CAtom.setPositionY, CAtom.setPositionZ, vecGet, vecSet, bind, Except.bind, pure,
          Except.pure])
    (by
      intro a ha
      obtain ⟨id, r, pos⟩ := a
      rcases pos with _ | ⟨x, _ | ⟨y, _ | ⟨z, rest⟩⟩⟩
      · rfl
      · rfl
      · rfl
      · simp at ha)
    mol.atomsList
  constructor
  · intro h
    obtain ⟨bs, hbs, hks⟩ := h1 h
    refine ⟨{ mol with atomsList := bs }, ?_, hks⟩
    unfold CMolecule.move
    rw [hbs]
    rfl
  · intro h
    unfold CMolecule.move
    rw [h2 h]
    rfl

omit [LinearOrderedField R] in
/-- A property of the keys of the elements holds on one list when it holds on
a list with the same keys. -/
theorem forall_mem_of_map_eq {α γ : Type} (k : α → γ) (Q : γ → Prop) (l1 l2 : List α)
    (h : l1.map k = l2.map k) (hall : ∀ b ∈ l2, Q (k b)) : ∀ b ∈ l1, Q (k b) := by
  intro b hb
  have hmem : k b ∈ l2.map k := by
    rw [← h]
    exact List.mem_map_of_mem k hb
  obtain ⟨b2, hb2, hk⟩ := List.mem_map.1 hmem
  rw [← hk]
  exact hall b2 hb2

/-- Whether the objective throws, and what, does not depend on the point of six
coordinates at which it is evaluated. -/
theorem objectiveValue_outcome (m : CMath R) (fit ref : CMolecule R) (cutoff : R)
    (negative : Bool) :
    ∃ outcome : Except Failure Unit, ∀ p : List R, p.length = 6 →
      (objectiveValue m fit ref cutoff negative p).map (fun _ => ()) = outcome := by
  have hsix : ∀ p : List R, p.length = 6 → ∃ t0 t1 t2 t3 t4 t5, p = [t0, t1, t2, t3, t4, t5] := by
    intro p hp
    rcases p with _ | ⟨a, _ | ⟨b, _ | ⟨c, _ | ⟨d, _ | ⟨e, _ | ⟨f, _ | ⟨g, rest⟩⟩⟩⟩⟩⟩⟩
    all_goals first
      | exact ⟨_, _, _, _, _, _, rfl⟩
      | (simp at hp)
  by_cases hP : ∀ a ∈ fit.atomsList, 3 ≤ a.position.length
  · by_cases hc : cutoff ≥ 0
    · by_cases hH : ∀ a ∈ ref.atomsList, ∀ b ∈ fit.atomsList,
          a.position.length = b.position.length
      · refine ⟨.ok (), ?_⟩
        intro p hp
        obtain ⟨t0, t1, t2, t3, t4, t5, rfl⟩ := hsix p hp
        obtain ⟨mol1, h1, hk1⟩ := (rotateXYZ_shape m fit t3 t4 t5).1 hP
        have hP1 : ∀ a ∈ mol1.atomsList, 3 ≤ a.position.length :=
          forall_mem_of_map_eq (fun a : CAtom R => a.position.length) (fun n => 3 ≤ n) _ _
            hk1 hP
        obtain ⟨mol2, h2, hk2⟩ := (move_shape mol1 t0 t1 t2).1 hP1
        have hH2 : ∀ a ∈ ref.atomsList, ∀ b ∈ mol2.atomsList,
            a.position.length = b.position.length := by
          intro a ha
          exact forall_mem_of_map_eq (fun b : CAtom R => b.position.length)
            (fun n => a.position.length = n) _ _ (hk2.trans hk1) (hH a ha)
        unfold objectiveValue
        rw [clone_eq]
        have g0 : vecGet [t0, t1, t2, t3, t4, t5] 0 = .ok t0 := rfl
        have g1 : vecGet [t0, t1, t2, t3, t4, t5] 1 = .ok t1 := rfl
        have g2 : vecGet [t0, t1, t2, t3, t4, t5] 2 = .ok t2 := rfl
        have g3 : vecGet [t0, t1, t2, t3, t4, t5] 3 = .ok t3 := rfl
        have g4 : vecGet [t0, t1, t2, t3, t4, t5] 4 = .ok t4 := rfl
        have g5 : vecGet [t0, t1, t2, t3, t4, t5] 5 = .ok t5 := rfl
        rw [g3, ok_bind, g4, ok_bind, g5, ok_bind, h1, ok_bind, g0, ok_bind, g1, ok_bind,
          g2, ok_bind, h2, ok_bind, new_setGaussianCutoff, if_pos hc, ok_bind,
          getOverlapVolumeDirect_eq, if_pos hH2, ok_bind]
        rfl
      · refine ⟨.error .invalidArgument, ?_⟩
        intro p hp
        obtain ⟨t0, t1, t2, t3, t4, t5, rfl⟩ := hsix p hp
        obtain ⟨mol1, h1, hk1⟩ := (rotateXYZ_shape m fit t3 t4 t5).1 hP
        have hP1 : ∀ a ∈ mol1.atomsList, 3 ≤ a.position.length :=
          forall_mem_of_map_eq (fun a : CAtom R => a.position.length) (fun n => 3 ≤ n) _ _
            hk1 hP
        obtain ⟨mol2, h2, hk2⟩ := (move_shape mol1 t0 t1 t2).1 hP1
        have hH2 : ¬ ∀ a ∈ ref.atomsList, ∀ b ∈ mol2.atomsList,
            a.position.length = b.position.length := by
          intro hall
          apply hH
          intro a ha
          exact forall_mem_of_map_eq (fun b : CAtom R => b.position.length)
            (fun n => a.position.length = n) _ _ (hk2.trans hk1).symm (hall a ha)
        unfold objectiveValue
        rw [clone_eq]
        have g0 : vecGet [t0, t1, t2, t3, t4, t5] 0 = .ok t0 := rfl
        have g1 : vecGet [t0, t1, t2, t3, t4, t5] 1 = .ok t1 := rfl
        have g2 : vecGet [t0, t1, t2, t3, t4, t5] 2 = .ok t2 := rfl
        have g3 : vecGet [t0, t1, t2, t3, t4, t5] 3 = .ok t3 := rfl
        have g4 : vecGet [t0, t1, t2, t3, t4, t5] 4 = .ok t4 := rfl
        have g5 : vecGet [t0, t1, t2, t3, t4, t5] 5 = .ok t5 := rfl
        rw [g3, ok_bind, g4, ok_bind, g5, ok_bind, h1, ok_bind, g0, ok_bind, g1, ok_bind,
          g2, ok_bind, h2, ok_bind, new_setGaussianCutoff, if_pos hc, ok_bind,
          getOverlapVolumeDirect_eq, if_neg hH2]
        rfl
    · refine ⟨.error .invalidArgument, ?_⟩
      intro p hp
      obtain ⟨t0, t1, t2, t3, t4, t5, rfl⟩ := hsix p hp
      obtain ⟨mol1, h1, hk1⟩ := (rotateXYZ_shape m fit t3 t4 t5).1 hP
      have hP1 : ∀ a ∈ mol1.atomsList, 3 ≤ a.position.length :=
        forall_mem_of_map_eq (fun a : CAtom R => a.position.length) (fun n => 3 ≤ n) _ _
          hk1 hP
      obtain ⟨mol2, h2, -⟩ := (move_shape mol1 t0 t1 t2).1 hP1
      unfold objectiveValue
      rw [clone_eq]
      have g0 : vecGet [t0, t1, t2, t3, t4, t5] 0 = .ok t0 := rfl
      have g1 : vecGet [t0, t1, t2, t3, t4, t5] 1 = .ok t1 := rfl
      have g2 : vecGet [t0, t1, t2, t3, t4, t5] 2 = .ok t2 := rfl
      have g3 : vecGet [t0, t1, t2, t3, t4, t5] 3 = .ok t3 := rfl
      have g4 : vecGet [t0, t1, t2, t3, t4, t5] 4 = .ok t4 := rfl
      have g5 : vecGet [t0, t1, t2, t3, t4, t5] 5 = .ok t5 := rfl
      rw [g3, ok_bind, g4, ok_bind, g5, ok_bind, h1, ok_bind, g0, ok_bind, g1, ok_bind,
        g2, ok_bind, h2, ok_bind, new_setGaussianCutoff, if_neg hc]
      rfl
  · refine ⟨.error .outOfRange, ?_⟩
    intro p hp
    obtain ⟨t0, t1, t2, t3, t4, t5, rfl⟩ := hsix p hp
    have h1 := (rotateXYZ_shape m fit t3 t4 t5).2 hP
    unfold objectiveValue
    rw [clone_eq]
    have g3 : vecGet [t0, t1, t2, t3, t4, t5] 3 = .ok t3 := rfl
    have g4 : vecGet [t0, t1, t2, t3, t4, t5] 4 = .ok t4 := rfl
    have g5 : vecGet [t0, t1, t2, t3, t4, t5] 5 = .ok t5 := rfl
    rw [g3, ok_bind, g4, ok_bind, g5, ok_bind, h1]
    rfl

/-- At the points of six coordinates `getFunctionValue` throws the same
exception at every point or returns at every point, whatever the indeterminate
cutoff of the engine of each call is. -/
theorem getFunctionValue_throws_uniformly (m : CMath R) (d d2 : R)
    (ev : CGaussianVolumeOverlapEvaluator R) (p q : List R) (hp : p.length = 6)
    (hq : q.length = 6) (e : Failure) (h : (ev.getFunctionValue m d p).2 = .error e) :
    (ev.getFunctionValue m d2 q).2 = .error e := by
  rw [getFunctionValue_eq] at h ⊢
  simp only [] at h ⊢
  by_cases hposs : initPossible ev
  · rw [if_pos hposs] at h ⊢
    obtain ⟨outcome, hout⟩ := objectiveValue_outcome m ev.pFitMolecule ev.pRefMolecule
      ev.dGaussianCutoff ev.bNegativeOverlap
    have h1 := hout p hp
    have h2 := hout q hq
    rw [h] at h1
    rw [← h1] at h2
    cases hv : objectiveValue m ev.pFitMolecule ev.pRefMolecule ev.dGaussianCutoff
        ev.bNegativeOverlap q with
    | error e2 =>
      rw [hv] at h2
      cases h2
      rfl
    | ok v =>
      rw [hv] at h2
      cases h2
  · rw [if_neg hposs] at h ⊢
    exact h

/-- The objective of an evaluator with cutoff 0 and the negative-overlap flag set,
for molecules of 3-coordinate atoms: minus the direct-mode total at the first six
coordinates of the point, and 0 for a point of fewer than six coordinates. -/
theorem objective_eq (m : CMath R) (d : R) (ev : CGaussianVolumeOverlapEvaluator R)
    (hcut : ev.dGaussianCutoff = 0) (hord : ev.nMaxIntersectionOrder > 0)
    (hneg : ev.bNegativeOverlap = true)
    (href : ∀ a ∈ ev.pRefMolecule.atomsList, a.position.length = 3)
    (hfit : ∀ a ∈ ev.pFitMolecule.atomsList, a.position.length = 3) (x : List R) :
    (x.length < 6 ∧ ev.objective m d x = 0)
      ∨ ∃ (tx ty tz rx ry rz : R) (rest : List R), x = tx :: ty :: tz :: rx :: ry :: rz :: rest
        ∧ ev.objective m d x = -(ev.pRefMolecule.atomsList.map (fun a =>
            ((ev.pFitMolecule.atomsList.map (rigidTransform m tx ty tz rx ry rz)).map
              (pairTerm m 0 a)).sum)).sum := by
  have hposs : initPossible ev := Or.inr ⟨by rw [hcut], hord⟩
  have hval : (ev.getFunctionValue m d x).2
      = objectiveValue m ev.pFitMolecule ev.pRefMolecule 0 true x := by
    rw [getFunctionValue_eq]
    simp only []
    rw [if_pos hposs, hcut, hneg]
  unfold CGaussianVolumeOverlapEvaluator.objective
  rw [hval]
  by_cases hlen : x.length < 6
  · left
    rw [objectiveValue_short m _ _ _ _ x hlen]
    exact ⟨hlen, rfl⟩
  · right
    obtain ⟨tx, ty, tz, rx, ry, rz, rest, rfl⟩ :
        ∃ tx ty tz rx ry rz rest, x = tx :: ty :: tz :: rx :: ry :: rz :: rest := by
      rcases x with _ | ⟨a, _ | ⟨b, _ | ⟨c, _ | ⟨d, _ | ⟨e, _ | ⟨f, rest⟩⟩⟩⟩⟩⟩
      all_goals first
        | exact ⟨_, _, _, _, _, _, _, rfl⟩
        | (exfalso; apply hlen; simp)
    refine ⟨tx, ty, tz, rx, ry, rz, rest, rfl, ?_⟩
    rw [objectiveValue_long, objectiveValue_six m _ _ 0 true tx ty tz rx ry rz (le_refl 0)
      href hfit]
    simp

/-- The objective of an evaluator with cutoff 0 and a positive order, for
molecules of 3-coordinate atoms, does not throw at the first vertex of valid
groups of dimension six: no exception leaves the run of the optimizer. -/
theorem objectiveException_ok (m : CMath R) (d : R) (ev : CGaussianVolumeOverlapEvaluator R)
    (hcut : ev.dGaussianCutoff = 0) (hord : ev.nMaxIntersectionOrder > 0)
    (href : ∀ a ∈ ev.pRefMolecule.atomsList, a.position.length = 3)
    (hfit : ∀ a ∈ ev.pFitMolecule.atomsList, a.position.length = 3)
    (G : List (List (List R))) (hvalid : validGroups 6 G) :
    ev.objectiveException m d G = .ok () := by
  unfold CGaussianVolumeOverlapEvaluator.objectiveException
  rcases G with _ | ⟨g, rest⟩
  · rfl
  · rcases g with _ | ⟨v, vs⟩
    · rfl
    · have hv : v.length = 6 :=
        (hvalid (v :: vs) (List.mem_cons_self _ _)).2 v (List.mem_cons_self _ _)
      obtain ⟨tx, ty, tz, rx, ry, rz, rfl⟩ :
          ∃ tx ty tz rx ry rz, v = [tx, ty, tz, rx, ry, rz] := by
        rcases v with _ | ⟨a, _ | ⟨b, _ | ⟨c, _ | ⟨d, _ | ⟨e, _ | ⟨f, _ | ⟨g, rest⟩⟩⟩⟩⟩⟩⟩
        all_goals first
          | exact ⟨_, _, _, _, _, _, rfl⟩
          | (simp at hv)
      simp only []
      rw [getFunctionValue_eq]
      simp only []
      rw [if_pos (show initPossible ev from Or.inr ⟨by rw [hcut], hord⟩),
        objectiveValue_six m _ _ _ _ tx ty tz rx ry rz (by rw [hcut]) href hfit, ok_bind]
      rfl

/-- The alignment call on fresh input: for molecules of at least one
3-coordinate atom each, a non-null output, a service with at least one initial
group, at least one iteration and extension and contraction factors inside the
ranges of the optimizer, and `exp`, `pow` without negative values, when no
direct-mode overlap of `refMol` with a placement of the fit atoms reaches
`DBL_MAX`: `evaluateMaxGaussianVolumeOverlap` returns; the point
`[tx, ty, tz, rx, ry, rz]` and the value `v` are what `runOptimization` returns
for the optimizer constructed by the service on the objective of the evaluator
of the two centred clones; the call writes exactly the three transformations
`[-c_fit]`, `[rx, ry, rz]` and `[t + c_ref]`, where `c` is what `getCentroid`
returns for the molecule of the caller; the score is `|v|` and is the
direct-mode overlap at cutoff 0 of `refMol` and of `fitMol` after
`move(-c_fit)`, `rotateXYZ(rx, ry, rz)` and `move(t + c_ref)`; the score is not
negative; and the atoms of the two molecules of the caller are unchanged (the
centroid cache is filled). -/
theorem alignment_score_and_transformations (m : CMath R) (dIndeterminate : R)
    (rand : Nat → R) (service : CGaussianService R) (refMol fitMol : CMolecule R)
    (previous : List (List R))
    (hexp : ∀ x, 0 ≤ m.exp x) (hpow : ∀ x y, 0 ≤ x → 0 ≤ m.pow x y)
    (hrefne : refMol.atomsList ≠ []) (hfitne : fitMol.atomsList ≠ [])
    (href : ∀ a ∈ refMol.atomsList, a.position.length = 3)
    (hfit : ∀ a ∈ fitMol.atomsList, a.position.length = 3)
    (hrefc : refMol.centroid.length = 3) (hfitc : fitMol.centroid.length = 3)
    (hgroups : 1 ≤ service.getSimplexInitialSolutionGroupsNumber)
    (hiter : 1 ≤ service.getSimplexMaxIterations)
    (hext : 1 < service.getSimplexExtensionFactor)
    (hcon : 0 < service.getSimplexContractionFactor
      ∧ service.getSimplexContractionFactor < 1)
    (hbound : ∀ (placed : CMolecule R) (overlap : R),
      placed.atomsList.map CAtom.dAtomRadius = fitMol.atomsList.map CAtom.dAtomRadius →
      (CGaussianVolume.new 0).getOverlapVolumeDirect m refMol placed = .ok overlap →
      overlap < DBL_MAX) :
    ∃ (tx ty tz rx ry rz score : R) (moved1 rotated moved : CMolecule R)
      (refCentred fitCentred : CMolecule R) (ev : CGaussianVolumeOverlapEvaluator R)
      (o after : CSimplexOptimizer R) (v : R),
      (refMol.getCentroid).map Prod.fst = .ok (centroidOf refMol)
        ∧ (fitMol.getCentroid).map Prod.fst = .ok (centroidOf fitMol)
        ∧ refMol.clone.moveToCentroid = .ok refCentred
        ∧ fitMol.clone.moveToCentroid = .ok fitCentred
        ∧ CGaussianVolumeOverlapEvaluator.new dIndeterminate refCentred fitCentred = .ok ev
        ∧ service.constructSimplexOptimizer dIndeterminate
            (CGaussianService.generateInitialSolutionGroups rand
              service.getSimplexInitialSolutionGroupsNumber
              (CGaussianService.nDIMENSIONS + 1) []).2 = .ok o
        ∧ o.runOptimization ((ev.setNegativeOverlapFlag true).objective m dIndeterminate)
            service.getSimplexMaxIterations = .ok ([tx, ty, tz, rx, ry, rz], v, after)
        ∧ score = |v|
        ∧ service.evaluateMaxGaussianVolumeOverlap m dIndeterminate rand refMol fitMol
            (some previous)
          = .ok (score,
              some [[-(centroidOf fitMol).getD 0 0, -(centroidOf fitMol).getD 1 0,
                  -(centroidOf fitMol).getD 2 0],
                [rx, ry, rz],
                [tx + (centroidOf refMol).getD 0 0, ty + (centroidOf refMol).getD 1 0,
                  tz + (centroidOf refMol).getD 2 0]],
              { refMol with centroid := centroidOf refMol, bDirtyCentroid := false },
              { fitMol with centroid := centroidOf fitMol, bDirtyCentroid := false })
        ∧ fitMol.move (-(centroidOf fitMol).getD 0 0) (-(centroidOf fitMol).getD 1 0)
            (-(centroidOf fitMol).getD 2 0) = .ok moved1
        ∧ moved1.rotateXYZ m rx ry rz = .ok rotated
        ∧ rotated.move (tx + (centroidOf refMol).getD 0 0) (ty + (centroidOf refMol).getD 1 0)
            (tz + (centroidOf refMol).getD 2 0) = .ok moved
        ∧ (CGaussianVolume.new 0).getOverlapVolumeDirect m refMol moved = .ok score
        ∧ 0 ≤ score := by
  -- the centred clones
  have hcrlen := centroidOf_length refMol hrefc
  have hcflen := centroidOf_length fitMol hfitc
  have hrefC := moveToCentroid_ok refMol href hrefc
  have hfitC := moveToCentroid_ok fitMol hfit hfitc
  have hrefC3 : ∀ a ∈ shiftedAtoms (-(centroidOf refMol).getD 0 0)
      (-(centroidOf refMol).getD 1 0) (-(centroidOf refMol).getD 2 0) refMol.atomsList,
      a.position.length = 3 := by
    intro a ha
    obtain ⟨b, hb, rfl⟩ := List.mem_map.1 ha
    exact translatePoint_length _ _ _ _ (href b hb)
  have hfitC3 : ∀ a ∈ shiftedAtoms (-(centroidOf fitMol).getD 0 0)
      (-(centroidOf fitMol).getD 1 0) (-(centroidOf fitMol).getD 2 0) fitMol.atomsList,
      a.position.length = 3 := by
    intro a ha
    obtain ⟨b, hb, rfl⟩ := List.mem_map.1 ha
    exact translatePoint_length _ _ _ _ (hfit b hb)
  -- the evaluator
  obtain ⟨ev, hev, hevref, hevfit, hevcut, hevord⟩ := evaluator_new_ok dIndeterminate
    (⟨shiftedAtoms (-(centroidOf refMol).getD 0 0) (-(centroidOf refMol).getD 1 0)
      (-(centroidOf refMol).getD 2 0) refMol.atomsList, false, centroidOf refMol⟩ : CMolecule R)
    (⟨shiftedAtoms (-(centroidOf fitMol).getD 0 0) (-(centroidOf fitMol).getD 1 0)
      (-(centroidOf fitMol).getD 2 0) fitMol.atomsList, false, centroidOf fitMol⟩ : CMolecule R)
  have hneg : (ev.setNegativeOverlapFlag true).bNegativeOverlap = true := rfl
  have hobj := objective_eq m dIndeterminate (ev.setNegativeOverlapFlag true) hevcut
    (by show ev.nMaxIntersectionOrder > 0
        rw [hevord]; decide) hneg
    (by show ∀ a ∈ ev.pRefMolecule.atomsList, a.position.length = 3
        rw [hevref]; exact hrefC3)
    (by show ∀ a ∈ ev.pFitMolecule.atomsList, a.position.length = 3
        rw [hevfit]; exact hfitC3)
  have hevref' : (ev.setNegativeOverlapFlag true).pRefMolecule.atomsList
      = shiftedAtoms (-(centroidOf refMol).getD 0 0) (-(centroidOf refMol).getD 1 0)
        (-(centroidOf refMol).getD 2 0) refMol.atomsList := by
    show ev.pRefMolecule.atomsList = _
    rw [hevref]
  have hevfit' : (ev.setNegativeOverlapFlag true).pFitMolecule.atomsList
      = shiftedAtoms (-(centroidOf fitMol).getD 0 0) (-(centroidOf fitMol).getD 1 0)
        (-(centroidOf fitMol).getD 2 0) fitMol.atomsList := by
    show ev.pFitMolecule.atomsList = _
    rw [hevfit]
  rw [hevref', hevfit'] at hobj
  -- the objective stays inside the range of the optimizer
  have hmax := DBL_MAX_gt_one (R := R)
  have hrange : ∀ x, -DBL_MAX < (ev.setNegativeOverlapFlag true).objective m dIndeterminate x
      ∧ (ev.setNegativeOverlapFlag true).objective m dIndeterminate x < DBL_MAX := by
    intro x
    rcases hobj x with ⟨-, h0⟩ | ⟨tx, ty, tz, rx, ry, rz, rest, -, hval⟩
    · rw [h0]
      constructor <;> linarith
    · obtain ⟨moved1, rotated, moved, -, -, -, hradii, hov⟩ := alignment_placement m refMol
        fitMol href hfit ((centroidOf refMol).getD 0 0) ((centroidOf refMol).getD 1 0)
        ((centroidOf refMol).getD 2 0) ((centroidOf fitMol).getD 0 0)
        ((centroidOf fitMol).getD 1 0) ((centroidOf fitMol).getD 2 0) tx ty tz rx ry rz
      have hlt := hbound moved _ hradii hov
      have hge := overlapTotal_nonneg m hexp hpow 0
        (shiftedAtoms (-(centroidOf refMol).getD 0 0) (-(centroidOf refMol).getD 1 0)
          (-(centroidOf refMol).getD 2 0) refMol.atomsList)
        ((shiftedAtoms (-(centroidOf fitMol).getD 0 0) (-(centroidOf fitMol).getD 1 0)
          (-(centroidOf fitMol).getD 2 0) fitMol.atomsList).map
            (rigidTransform m tx ty tz rx ry rz))
      rw [hval]
      constructor <;> linarith
  -- the optimizer and its run
  obtain ⟨hGne, hGvalid⟩ := generateInitialSolutionGroups_valid rand
    service.getSimplexInitialSolutionGroupsNumber hgroups
  obtain ⟨o, ho, hoG, hodim, hovals⟩ := constructSimplexOptimizer_ok dIndeterminate service _ 6
    hGne hGvalid hext hcon
  obtain ⟨r, hr, hrlen, hrval⟩ := runOptimization_point_value
    ((ev.setNegativeOverlapFlag true).objective m dIndeterminate) 6
    service.getSimplexMaxIterations hiter o (by rw [hoG]; exact hGne)
    (by rw [hoG]; exact hGvalid) hodim hovals hrange
  obtain ⟨pt, v, s⟩ := r
  simp only at hr hrlen hrval
  rcases hobj pt with ⟨hshort, -⟩ | ⟨tx, ty, tz, rx, ry, rz, rest, hpt, hval⟩
  · omega
  have hrest : rest = [] := by
    rw [hpt] at hrlen
    simp only [List.length_cons] at hrlen
    exact List.length_eq_zero.1 (by omega)
  subst hrest
  subst hpt
  obtain ⟨moved1, rotated, moved, hm1, hm2, hm3, hradii, hov⟩ := alignment_placement m refMol
    fitMol href hfit ((centroidOf refMol).getD 0 0) ((centroidOf refMol).getD 1 0)
    ((centroidOf refMol).getD 2 0) ((centroidOf fitMol).getD 0 0)
    ((centroidOf fitMol).getD 1 0) ((centroidOf fitMol).getD 2 0) tx ty tz rx ry rz
  have hge := overlapTotal_nonneg m hexp hpow 0
    (shiftedAtoms (-(centroidOf refMol).getD 0 0) (-(centroidOf refMol).getD 1 0)
      (-(centroidOf refMol).getD 2 0) refMol.atomsList)
    ((shiftedAtoms (-(centroidOf fitMol).getD 0 0) (-(centroidOf fitMol).getD 1 0)
      (-(centroidOf fitMol).getD 2 0) fitMol.atomsList).map
        (rigidTransform m tx ty tz rx ry rz))
  have hscore : |v| = ((shiftedAtoms (-(centroidOf refMol).getD 0 0)
      (-(centroidOf refMol).getD 1 0) (-(centroidOf refMol).getD 2 0) refMol.atomsList).map
      (fun a => (((shiftedAtoms (-(centroidOf fitMol).getD 0 0) (-(centroidOf fitMol).getD 1 0)
        (-(centroidOf fitMol).getD 2 0) fitMol.atomsList).map
          (rigidTransform m tx ty tz rx ry rz)).map (pairTerm m 0 a)).sum)).sum := by
    rw [hrval, hval, abs_neg, abs_of_nonneg hge]
  have hcount : refMol.getAtomsCount > 0 ∧ fitMol.getAtomsCount > 0 := by
    unfold CMolecule.getAtomsCount
    have h1 := List.length_pos.2 hrefne
    have h2 := List.length_pos.2 hfitne
    constructor <;> omega
  have hguard := objectiveException_ok m dIndeterminate (ev.setNegativeOverlapFlag true) hevcut
    (by show ev.nMaxIntersectionOrder > 0
        rw [hevord]; decide)
    (by show ∀ a ∈ ev.pRefMolecule.atomsList, a.position.length = 3
        rw [hevref]; exact hrefC3)
    (by show ∀ a ∈ ev.pFitMolecule.atomsList, a.position.length = 3
        rw [hevfit]; exact hfitC3)
    _ hGvalid
  refine ⟨tx, ty, tz, rx, ry, rz, |v|, moved1, rotated, moved, _, _, ev, o, s, v, ?_, ?_,
    by rw [clone_eq]; exact hrefC, by rw [clone_eq]; exact hfitC, hev, ho, hr, rfl, ?_, hm1,
    hm2, hm3, by rw [hscore]; exact hov, abs_nonneg v⟩
  · rw [getCentroid_ok refMol href hrefc]; rfl
  · rw [getCentroid_ok fitMol hfit hfitc]; rfl
  · unfold CGaussianService.evaluateMaxGaussianVolumeOverlap
    rw [if_pos hcount]
    simp only [clone_eq]
    rw [hrefC, ok_bind, hfitC, ok_bind, hev, ok_bind, ho, ok_bind, hguard, ok_bind, hr,
      ok_bind]
    simp only []
    rw [getCentroid_ok refMol href hrefc, ok_bind]
    simp only []
    rw [getCentroid_ok fitMol hfit hfitc, ok_bind]
    simp only []
    rw [transformation1_ok _ hcflen, ok_bind,
      transformation3_ok [tx, ty, tz, rx, ry, rz] _ (by simp) hcrlen]
    simp [pure, Except.pure, bind, Except.bind]

/-- Over the reals, the pair term of two atoms of radius 1.5 at cutoff 0 is at
most 32, wherever the atoms are. -/
theorem pairTerm_real_le (a b : CAtom ℝ) (ha : a.dAtomRadius = 1.5) (hb : b.dAtomRadius = 1.5) :
    pairTerm (⟨Real.exp, fun x y => x ^ y, Real.sin, Real.cos⟩ : CMath ℝ) 0 a b ≤ 32 := by
  unfold pairTerm
  split_ifs
  · unfold pairVolume alphaOf
    rw [ha, hb]
    simp only []
    have hd : 0 ≤ sqDist a.position b.position := sqDist_nonneg _ _
    have hexp : Real.exp (-(CGaussianVolume.dPARTIAL_ALPHA / (1.5 : ℝ) ^ 2
        * (CGaussianVolume.dPARTIAL_ALPHA / (1.5 : ℝ) ^ 2) * sqDist a.position b.position)
        / (CGaussianVolume.dPARTIAL_ALPHA / (1.5 : ℝ) ^ 2
          + CGaussianVolume.dPARTIAL_ALPHA / (1.5 : ℝ) ^ 2)) ≤ 1 := by
      rw [Real.exp_le_one_iff]
      apply div_nonpos_of_nonpos_of_nonneg
      · rw [neg_nonpos]
        exact mul_nonneg (by norm_num [CGaussianVolume.dPARTIAL_ALPHA]) hd
      · norm_num [CGaussianVolume.dPARTIAL_ALPHA]
    have hbase1 : (1 : ℝ) ≤ CGaussianVolume.dPI / (CGaussianVolume.dPARTIAL_ALPHA / (1.5 : ℝ) ^ 2
        + CGaussianVolume.dPARTIAL_ALPHA / (1.5 : ℝ) ^ 2) := by
      norm_num [CGaussianVolume.dPI, CGaussianVolume.dPARTIAL_ALPHA]
    have hbase2 : CGaussianVolume.dPI / (CGaussianVolume.dPARTIAL_ALPHA / (1.5 : ℝ) ^ 2
        + CGaussianVolume.dPARTIAL_ALPHA / (1.5 : ℝ) ^ 2) ≤ 2 := by
      norm_num [CGaussianVolume.dPI, CGaussianVolume.dPARTIAL_ALPHA]
    have hpow : (CGaussianVolume.dPI / (CGaussianVolume.dPARTIAL_ALPHA / (1.5 : ℝ) ^ 2
        + CGaussianVolume.dPARTIAL_ALPHA / (1.5 : ℝ) ^ 2)) ^ (1.5 : ℝ) ≤ 4 := by
      refine le_trans (Real.rpow_le_rpow_of_exponent_le hbase1
        (show (1.5 : ℝ) ≤ 2 by norm_num)) ?_
      rw [Real.rpow_two]
      nlinarith
    have hpow0 : 0 ≤ (CGaussianVolume.dPI / (CGaussianVolume.dPARTIAL_ALPHA / (1.5 : ℝ) ^ 2
        + CGaussianVolume.dPARTIAL_ALPHA / (1.5 : ℝ) ^ 2)) ^ (1.5 : ℝ) :=
      Real.rpow_nonneg (by linarith) _
    have hexp0 := Real.exp_nonneg (-(CGaussianVolume.dPARTIAL_ALPHA / (1.5 : ℝ) ^ 2
        * (CGaussianVolume.dPARTIAL_ALPHA / (1.5 : ℝ) ^ 2) * sqDist a.position b.position)
        / (CGaussianVolume.dPARTIAL_ALPHA / (1.5 : ℝ) ^ 2
          + CGaussianVolume.dPARTIAL_ALPHA / (1.5 : ℝ) ^ 2))
    nlinarith [mul_le_mul hexp hpow hpow0 (by norm_num : (0 : ℝ) ≤ 1)]
  · norm_num

/-- C21 (code evaluated at two failing inputs). First: the service accepts the
extension factor `1/2`, and `evaluateMaxGaussianVolumeOverlap` then throws
invalid-argument for two molecules of one atom each and a non-null output,
whatever `exp`, `pow`, `sin`, `cos` and `rand` are: no transformation is written
and no score is returned. Second, over the reals with the default service: the
fit molecule is one atom whose centroid was asked for at the origin and that was
then moved by `(1, 0, 0)`, so its atom, and the mean of its positions, is at
`(1, 0, 0)`; the call returns and the first transformation written is
`[0, 0, 0]`, the opposite of the centroid cached before the move, not
`[-1, 0, 0]`. -/
theorem C21_alignment_throws_or_uses_stale_centroid :
    (∃ service : CGaussianService ℚ,
      (⟨⟨0.5, 3.5, 1, 16, 60⟩⟩ : CGaussianService ℚ).setSimplexExtensionFactor (1 / 2)
          = .ok service
        ∧ (CMolecule.new.addAtom ⟨1, 1.5, [0, 0, 0]⟩ : CMolecule ℚ).getAtomsCount = 1
        ∧ (CMolecule.new.addAtom ⟨1, 1.5, [1, 0, 0]⟩ : CMolecule ℚ).getAtomsCount = 1
        ∧ ∀ (m : CMath ℚ) (rand : Nat → ℚ),
          service.evaluateMaxGaussianVolumeOverlap m 0 rand
              (CMolecule.new.addAtom ⟨1, 1.5, [0, 0, 0]⟩)
              (CMolecule.new.addAtom ⟨1, 1.5, [1, 0, 0]⟩) (some [])
            = .error .invalidArgument)
      ∧ ∃ (c : List ℝ) (fit1 fit2 : CMolecule ℝ) (tx ty tz rx ry rz score : ℝ)
          (refAfter fitAfter : CMolecule ℝ),
        (CMolecule.new.addAtom ⟨1, 1.5, [0, 0, 0]⟩ : CMolecule ℝ).getCentroid = .ok (c, fit1)
          ∧ fit1.move 1 0 0 = .ok fit2
          ∧ fit2.atomsList = [⟨1, 1.5, [1, 0, 0]⟩]
          ∧ meanPosition fit2.atomsList = [1, 0, 0]
          ∧ CGaussianService.evaluateMaxGaussianVolumeOverlap
              (⟨Real.exp, fun x y => x ^ y, Real.sin, Real.cos⟩ : CMath ℝ) 0 (fun _ => 1 / 2)
              ⟨⟨0.5, 3.5, 1, 16, 60⟩⟩ (CMolecule.new.addAtom ⟨1, 1.5, [0, 0, 0]⟩) fit2 (some [])
            = .ok (score, some [[0, 0, 0], [rx, ry, rz], [tx, ty, tz]], refAfter, fitAfter) := by
  constructor
  · refine ⟨⟨⟨0.5, 1 / 2, 1, 16, 60⟩⟩, by
      norm_num [CGaussianService.setSimplexExtensionFactor], rfl, rfl, ?_⟩
    intro m rand
    have href : ∀ a ∈ (CMolecule.new.addAtom ⟨1, 1.5, [0, 0, 0]⟩ : CMolecule ℚ).atomsList,
        a.position.length = 3 := by
      simp [CMolecule.new, CMolecule.addAtom, CAtom.clone]
    have hfit : ∀ a ∈ (CMolecule.new.addAtom ⟨1, 1.5, [1, 0, 0]⟩ : CMolecule ℚ).atomsList,
        a.position.length = 3 := by
      simp [CMolecule.new, CMolecule.addAtom, CAtom.clone]
    obtain ⟨hGne, hGvalid⟩ := generateInitialSolutionGroups_valid rand
      (⟨⟨0.5, 1 / 2, 1, 16, 60⟩⟩ : CGaussianService ℚ).getSimplexInitialSolutionGroupsNumber
      (by decide)
    unfold CGaussianService.evaluateMaxGaussianVolumeOverlap
    rw [if_pos (by decide)]
    simp only [clone_eq]
    rw [moveToCentroid_ok _ href rfl, ok_bind, moveToCentroid_ok _ hfit rfl, ok_bind]
    obtain ⟨ev, hev, -⟩ := evaluator_new_ok (0 : ℚ)
      (⟨shiftedAtoms
        (-(centroidOf (CMolecule.new.addAtom ⟨1, 1.5, [0, 0, 0]⟩ : CMolecule ℚ)).getD 0 0)
        (-(centroidOf (CMolecule.new.addAtom ⟨1, 1.5, [0, 0, 0]⟩ : CMolecule ℚ)).getD 1 0)
        (-(centroidOf (CMolecule.new.addAtom ⟨1, 1.5, [0, 0, 0]⟩ : CMolecule ℚ)).getD 2 0)
        (CMolecule.new.addAtom ⟨1, 1.5, [0, 0, 0]⟩ : CMolecule ℚ).atomsList, false,
        centroidOf (CMolecule.new.addAtom ⟨1, 1.5, [0, 0, 0]⟩ : CMolecule ℚ)⟩ : CMolecule ℚ)
      (⟨shiftedAtoms
        (-(centroidOf (CMolecule.new.addAtom ⟨1, 1.5, [1, 0, 0]⟩ : CMolecule ℚ)).getD 0 0)
        (-(centroidOf (CMolecule.new.addAtom ⟨1, 1.5, [1, 0, 0]⟩ : CMolecule ℚ)).getD 1 0)
        (-(centroidOf (CMolecule.new.addAtom ⟨1, 1.5, [1, 0, 0]⟩ : CMolecule ℚ)).getD 2 0)
        (CMolecule.new.addAtom ⟨1, 1.5, [1, 0, 0]⟩ : CMolecule ℚ).atomsList, false,
        centroidOf (CMolecule.new.addAtom ⟨1, 1.5, [1, 0, 0]⟩ : CMolecule ℚ)⟩ : CMolecule ℚ)
    rw [hev, ok_bind]
    have hcons : (⟨⟨0.5, 1 / 2, 1, 16, 60⟩⟩ : CGaussianService ℚ).constructSimplexOptimizer 0
        (CGaussianService.generateInitialSolutionGroups rand
          (⟨⟨0.5, 1 / 2, 1, 16, 60⟩⟩ : CGaussianService ℚ).getSimplexInitialSolutionGroupsNumber
          (CGaussianService.nDIMENSIONS + 1) []).2 = .error .invalidArgument := by
      unfold CGaussianService.constructSimplexOptimizer
      rw [new_ok 0 _ 6 hGne hGvalid, ok_bind]
      unfold CSimplexOptimizer.setExtensionFactor CGaussianService.getSimplexExtensionFactor
      dsimp only
      rw [if_neg (by norm_num)]
      rfl
    rw [hcons]
    rfl
  · have hfit1 : (CMolecule.new.addAtom ⟨1, 1.5, [0, 0, 0]⟩ : CMolecule ℝ).getCentroid
        = .ok ([0, 0, 0], ⟨[⟨1, 1.5, [0, 0, 0]⟩], false, [0, 0, 0]⟩) := by
      rw [getCentroid_ok (CMolecule.new.addAtom ⟨1, 1.5, [0, 0, 0]⟩ : CMolecule ℝ)
        (by simp [CMolecule.new, CMolecule.addAtom, CAtom.clone]) rfl]
      norm_num [centroidOf, meanPosition, CMolecule.new, CMolecule.addAtom, CAtom.clone]
    have hfit2 : (⟨[⟨1, 1.5, [0, 0, 0]⟩], false, [0, 0, 0]⟩ : CMolecule ℝ).move 1 0 0
        = .ok ⟨[⟨1, 1.5, [1, 0, 0]⟩], false, [0, 0, 0]⟩ := by
      rw [move_ok _ _ _ _ (by simp)]
      norm_num [translatePoint]
    have hcr : centroidOf (CMolecule.new.addAtom ⟨1, 1.5, [0, 0, 0]⟩ : CMolecule ℝ)
        = [0, 0, 0] := by
      norm_num [centroidOf, meanPosition, CMolecule.new, CMolecule.addAtom, CAtom.clone]
    have hcf : centroidOf (⟨[⟨1, 1.5, [1, 0, 0]⟩], false, [0, 0, 0]⟩ : CMolecule ℝ)
        = [0, 0, 0] := by
      simp [centroidOf]
    obtain ⟨tx, ty, tz, rx, ry, rz, score, moved1, rotated, moved, _, _, _, _, _, _,
      -, -, -, -, -, -, -, -, heval, -, -, -, -, -⟩ := alignment_score_and_transformations
        (⟨Real.exp, fun x y => x ^ y, Real.sin, Real.cos⟩ : CMath ℝ) 0 (fun _ => 1 / 2)
        ⟨⟨0.5, 3.5, 1, 16, 60⟩⟩ (CMolecule.new.addAtom ⟨1, 1.5, [0, 0, 0]⟩)
        (⟨[⟨1, 1.5, [1, 0, 0]⟩], false, [0, 0, 0]⟩ : CMolecule ℝ) []
        (fun x => Real.exp_nonneg x) (fun x y hx => Real.rpow_nonneg hx y)
        (by simp [CMolecule.new, CMolecule.addAtom])
        (by simp)
        (by simp [CMolecule.new, CMolecule.addAtom, CAtom.clone])
        (by simp)
        rfl rfl (by decide) (by decide)
        (by norm_num [CGaussianService.getSimplexExtensionFactor])
        (by norm_num [CGaussianService.getSimplexContractionFactor])
        (by
          intro placed overlap hrad hov
          rw [getOverlapVolumeDirect_eq] at hov
          have hlen : placed.atomsList.length = 1 := by
            have := congrArg List.length hrad
            simpa using this
          obtain ⟨b, hb⟩ := List.length_eq_one.1 hlen
          rw [hb] at hrad hov
          have hbr : b.dAtomRadius = 1.5 := by
            simpa using hrad
          split_ifs at hov
          · have hval := Except.ok.inj hov
            rw [← hval]
            have hle := pairTerm_real_le ⟨1, 1.5, [0, 0, 0]⟩ b rfl hbr
            have hmax : (32 : ℝ) < DBL_MAX := by norm_num [DBL_MAX]
            simp only [CMolecule.new, CMolecule.addAtom, CAtom.clone, List.nil_append,
              List.map_cons, List.map_nil, List.sum_cons, List.sum_nil, add_zero]
            exact lt_of_le_of_lt hle hmax)
    rw [hcr, hcf] at heval
    simp only [List.getD_cons_zero, List.getD_cons_succ, neg_zero, add_zero] at heval
    refine ⟨_, _, _, tx, ty, tz, rx, ry, rz, score, _, _, hfit1, hfit2, rfl, ?_, heval⟩
    norm_num [meanPosition]

end Service

/-! ## Distance matrix and index bounds of the engine -/

section MatrixAndBounds

/-- C33 (code evaluated at the failing input): for a molecule of two atoms at
the points `(0, 0, 0)` and `(3, 0, 0)`, `precalculateMolecule` returns the
matrix `[[0, 9], [stale 1 0, 0]]`: the entry `[1][0]` is not the square distance
`9` of the two atoms but the value `stale 1 0` that the source reads from the
row under construction, at an index that has not been pushed yet. -/
theorem C33_lower_triangle_read_before_written (stale : Nat → Nat → ℝ) :
    (CGaussianVolume.precalculateMolecule
        (⟨Real.exp, fun x y => x ^ y, Real.sin, Real.cos⟩ : CMath ℝ) stale
        ((CMolecule.new.addAtom ⟨1, 1.5, [0, 0, 0]⟩).addAtom ⟨2, 1.5, [3, 0, 0]⟩) 0 1).map
          (fun p => p.squareDistancesMatrix)
      = .ok [[0, 9], [stale 1 0, 0]] := by
  norm_num [CGaussianVolume.precalculateMolecule,
    CMolecule.new, CMolecule.addAtom, CAtom.clone, CMolecule.getAtomsList,
    CAtom.getPosition, CAtom.getAtomRadius, CMathematics.pointToPointSquareDistance,
    CGaussianVolume.enumerateIntersectedAtomIds, setInsert, pure, Except.pure, bind,
    Except.bind, List.range_succ, List.range_zero, Except.map]

/-- C37 (code evaluated at the failing input): for a reference molecule of two
atoms and a fit molecule of one atom, cutoff 0 and maximum order 1, the
precalculation and the construction of the engine succeed and
`getOverlapVolume()` returns, but `getReferenceVolume()` reads
`alphaValuesForFit[1]` in a vector of one element. -/
theorem C37_getReferenceVolume_reads_outside_fit_arrays :
    ∃ pre e v,
      CGaussianVolume.precalculate (⟨Real.exp, fun x y => x ^ y, Real.sin, Real.cos⟩ : CMath ℝ)
          (fun _ _ => 0)
          ((CMolecule.new.addAtom ⟨1, 1.5, [0, 0, 0]⟩).addAtom ⟨2, 2, [1, 0, 0]⟩)
          (CMolecule.new.addAtom ⟨1, 1.5, [0, 0, 0]⟩) 0 1 (PrecalculationResult.new 0)
        = .ok pre
      ∧ CGaussianVolume.ofAtoms (⟨Real.exp, fun x y => x ^ y, Real.sin, Real.cos⟩ : CMath ℝ) 0
          (some ((CMolecule.new.addAtom ⟨1, 1.5, [0, 0, 0]⟩).addAtom
            ⟨2, 2, [1, 0, 0]⟩ : CMolecule ℝ).getAtomsList)
          (some (CMolecule.new.addAtom ⟨1, 1.5, [0, 0, 0]⟩ : CMolecule ℝ).getAtomsList)
          (some pre) = .ok e
      ∧ e.getOverlapVolume (⟨Real.exp, fun x y => x ^ y, Real.sin, Real.cos⟩ : CMath ℝ) = .ok v
      ∧ e.getReferenceVolume (⟨Real.exp, fun x y => x ^ y, Real.sin, Real.cos⟩ : CMath ℝ)
          = .error .outOfRange := by
  have hpre : CGaussianVolume.precalculate
      (⟨Real.exp, fun x y => x ^ y, Real.sin, Real.cos⟩ : CMath ℝ) (fun _ _ => 0)
      ((CMolecule.new.addAtom ⟨1, 1.5, [0, 0, 0]⟩).addAtom ⟨2, 2, [1, 0, 0]⟩)
      (CMolecule.new.addAtom ⟨1, 1.5, [0, 0, 0]⟩) 0 1 (PrecalculationResult.new 0)
      = .ok ⟨[CGaussianVolume.dPARTIAL_ALPHA / 1.5 ^ 2],
        [CGaussianVolume.dPARTIAL_ALPHA / 1.5 ^ 2, CGaussianVolume.dPARTIAL_ALPHA / 2 ^ 2], 0,
        [[[0]]], [[[0], [1]]], [[0]], [[0, 1], [0, 0]], [[]], [[1], []]⟩ := by
    norm_num [CGaussianVolume.precalculate, CGaussianVolume.precalculateMolecule,
      CMolecule.new, CMolecule.addAtom, CAtom.clone, CMolecule.getAtomsList,
      CAtom.getPosition, CAtom.getAtomRadius, CMathematics.pointToPointSquareDistance,
      CGaussianVolume.enumerateIntersectedAtomIds, setInsert, pure, Except.pure, bind,
      Except.bind, List.range_succ, List.range_zero, PrecalculationResult.new]
  have hctor : CGaussianVolume.ofAtoms
      (⟨Real.exp, fun x y => x ^ y, Real.sin, Real.cos⟩ : CMath ℝ) 0
      (some ((CMolecule.new.addAtom ⟨1, 1.5, [0, 0, 0]⟩).addAtom
        ⟨2, 2, [1, 0, 0]⟩ : CMolecule ℝ).getAtomsList)
      (some (CMolecule.new.addAtom ⟨1, 1.5, [0, 0, 0]⟩ : CMolecule ℝ).getAtomsList)
      (some ⟨[CGaussianVolume.dPARTIAL_ALPHA / 1.5 ^ 2],
        [CGaussianVolume.dPARTIAL_ALPHA / 1.5 ^ 2, CGaussianVolume.dPARTIAL_ALPHA / 2 ^ 2], 0,
        [[[0]]], [[[0], [1]]], [[0]], [[0, 1], [0, 0]], [[]], [[1], []]⟩)
      = .ok ⟨0, [[0], [0]], some [⟨1, 1.5, [0, 0, 0]⟩],
        some ⟨[CGaussianVolume.dPARTIAL_ALPHA / 1.5 ^ 2],
          [CGaussianVolume.dPARTIAL_ALPHA / 1.5 ^ 2, CGaussianVolume.dPARTIAL_ALPHA / 2 ^ 2], 0,
          [[[0]]], [[[0], [1]]], [[0]], [[0, 1], [0, 0]], [[]], [[1], []]⟩,
        some [⟨1, 1.5, [0, 0, 0]⟩, ⟨2, 2, [1, 0, 0]⟩], [[0], [1]]⟩ := by
    norm_num [CGaussianVolume.ofAtoms, CGaussianVolume.initializeIntermolecularInformation,
      CMolecule.new, CMolecule.addAtom, CAtom.clone, CMolecule.getAtomsList,
      CAtom.getPosition, CAtom.getAtomRadius, CMathematics.pointToPointSquareDistance,
      setInsert, pure, Except.pure, bind, Except.bind]
  have hvalid : PrecalculationResult.Valid (⟨[CGaussianVolume.dPARTIAL_ALPHA / 1.5 ^ 2],
      [CGaussianVolume.dPARTIAL_ALPHA / 1.5 ^ 2, CGaussianVolume.dPARTIAL_ALPHA / 2 ^ 2], 0,
      [[[0]]], [[[0], [1]]], [[0]], [[0, 1], [0, 0]], [[]], [[1], []]⟩ :
        PrecalculationResult ℝ)
      ((CMolecule.new.addAtom ⟨1, 1.5, [0, 0, 0]⟩).addAtom
        ⟨2, 2, [1, 0, 0]⟩ : CMolecule ℝ).getAtomsList.length
      (CMolecule.new.addAtom ⟨1, 1.5, [0, 0, 0]⟩ : CMolecule ℝ).getAtomsList.length := by
    constructor <;> simp [CMolecule.new, CMolecule.addAtom, CMolecule.getAtomsList]
  refine ⟨_, _, _, hpre, hctor, getOverlapVolume_eq _ 0 _ _ _ _ hctor hvalid, ?_⟩
  norm_num [CGaussianVolume.getReferenceVolume,
    CGaussianVolume.isIntersectedAtomsByMonotoneNeighbors,
    CGaussianVolume.monotoneValuesLoop, CGaussianVolume.calculateAtomIntersectionVolume,
    CGaussianVolume.addPairsWithin, vecGet, deref, List.range_succ, pure, Except.pure,
    bind, Except.bind, EXIST]

end MatrixAndBounds

/-! ## Reference volume of the engine -/

section ReferenceVolume

variable {R : Type} [LinearOrderedField R]

theorem monotoneValuesLoop_ok (neighborAtomIds : List (List Nat)) (keyId : Nat)
    (hk : keyId < neighborAtomIds.length) (values : List Nat)
    (hv : ∀ j ∈ values, j < neighborAtomIds.length) :
    CGaussianVolume.monotoneValuesLoop neighborAtomIds keyId values
      = .ok (values.all (fun j =>
          if keyId < j then EXIST j (neighborAtomIds.getD keyId [])
          else if keyId > j then EXIST keyId (neighborAtomIds.getD j [])
          else true)) := by
  induction values with
  | nil => rfl
  | cons v vs ih =>
    have hv' := hv v (List.mem_cons_self v vs)
    have ih' := ih (fun j hj => hv j (List.mem_cons_of_mem v hj))
    unfold CGaussianVolume.monotoneValuesLoop
    rw [List.all_cons]
    by_cases h1 : keyId < v
    · rw [if_pos h1, if_pos h1, vecGet_natCast neighborAtomIds keyId [] hk]
      show (if _ then _ else _) = _
      rw [ih']
      cases h : EXIST v (neighborAtomIds.getD keyId [])
      · rfl
      · rfl
    · rw [if_neg h1, if_neg h1]
      by_cases h2 : keyId > v
      · rw [if_pos h2, if_pos h2, vecGet_natCast neighborAtomIds v [] hv']
        show (if _ then _ else _) = _
        rw [ih']
        cases h : EXIST keyId (neighborAtomIds.getD v [])
        · rfl
        · rfl
      · rw [if_neg h2, if_neg h2, ih']
        rfl

theorem isIntersectedAtomsByMonotoneNeighbors_ok (neighborAtomIds : List (List Nat))
    (keys values : List Nat) (hk : ∀ i ∈ keys, i < neighborAtomIds.length)
    (hv : ∀ j ∈ values, j < neighborAtomIds.length) :
    CGaussianVolume.isIntersectedAtomsByMonotoneNeighbors keys values neighborAtomIds
      = .ok (mutualNeighbours neighborAtomIds keys values) := by
  induction keys with
  | nil => rfl
  | cons k ks ih =>
    unfold CGaussianVolume.isIntersectedAtomsByMonotoneNeighbors
    rw [monotoneValuesLoop_ok neighborAtomIds k (hk k (List.mem_cons_self k ks)) values hv]
    show (if _ then _ else _) = _
    rw [ih (fun i hi => hk i (List.mem_cons_of_mem k hi))]
    unfold mutualNeighbours
    rw [List.all_cons]
    cases h : values.all (fun j =>
        if k < j then EXIST j (neighborAtomIds.getD k [])
        else if k > j then EXIST k (neighborAtomIds.getD j [])
        else true)
    · rfl
    · rfl

/-- The test between two id sets of one molecule does not depend on the order
of the two sets. -/
theorem mutualNeighbours_comm (neighborAtomIds : List (List Nat)) (S T : List Nat) :
    mutualNeighbours neighborAtomIds S T = mutualNeighbours neighborAtomIds T S := by
  have key : ∀ S T : List Nat, mutualNeighbours neighborAtomIds S T = true →
      mutualNeighbours neighborAtomIds T S = true := by
    intro S T h
    unfold mutualNeighbours at h ⊢
    rw [List.all_eq_true] at h ⊢
    intro j hj
    rw [List.all_eq_true]
    intro i hi
    have := h i hi
    rw [List.all_eq_true] at this
    have hij := this j hj
    by_cases h1 : i < j
    · rw [if_pos h1] at hij
      rw [if_neg (by omega), if_pos h1]
      exact hij
    · rw [if_neg h1] at hij
      by_cases h2 : i > j
      · rw [if_pos h2] at hij
        rw [if_pos h2]
        exact hij
      · rw [if_neg (by omega), if_neg (by omega)]
  cases h : mutualNeighbours neighborAtomIds S T
  · cases h' : mutualNeighbours neighborAtomIds T S
    · rfl
    · rw [key T S h'] at h
      cases h
  · exact (key S T h).symm

/-- Value of `getReferenceVolume` for an engine constructed from a valid
precalculation whose fit molecule has at least as many atoms as the reference
molecule: the sum over the ordered pairs of enumerated reference sets that are
mutual neighbours. -/
theorem getReferenceVolume_eq (m : CMath R) (d : R) (refAtoms fitAtoms : List (CAtom R))
    (pre : PrecalculationResult R) (e : CGaussianVolume R)
    (hctor : CGaussianVolume.ofAtoms m d (some refAtoms) (some fitAtoms) (some pre) = .ok e)
    (hvalid : pre.Valid refAtoms.length fitAtoms.length)
    (hcount : refAtoms.length ≤ fitAtoms.length) :
    e.getReferenceVolume m = .ok (referenceSum m pre e.squareDistancesMatrix) := by
  obtain ⟨⟨s1, s2, s3, s4, s5, s6, s7⟩, hpre, -, -, -, hcross, hcrossRows, hnb⟩ :=
    ofAtoms_ok m d refAtoms fitAtoms pre e hctor
  have hmem : ∀ (l : List (List (List Nat))) (i : Nat), i < l.length → l.getD i [] ∈ l := by
    intro l i hi
    rw [List.getD_eq_getElem l [] hi]
    exact List.getElem_mem _
  have hinner : ∀ (iOuter iInner : Nat), iOuter < pre.intersectedAtomIdsForRef.length →
      iInner < pre.intersectedAtomIdsForRef.length →
      ∀ S ∈ pre.intersectedAtomIdsForRef.getD iOuter [],
      ∀ acc : R, ∀ T ∈ pre.intersectedAtomIdsForRef.getD iInner [],
      (do
        if (← CGaussianVolume.isIntersectedAtomsByMonotoneNeighbors S T
            pre.neighborAtomIdsForRef) then
          pure (acc + (if (iOuter + 1 + iInner + 1) % 2 = 0 then (1 : R) else -1)
            * (← e.calculateAtomIntersectionVolume m S T))
        else
          pure acc : Except Failure R)
      = .ok (acc + (if mutualNeighbours pre.neighborAtomIdsForRef S T
          then signOfOrders (iOuter + 1) (iInner + 1) S T
            * intersectionVolume m pre e.squareDistancesMatrix S T
          else 0)) := by
    intro iOuter iInner hiOuter hiInner S hS acc T hT
    have hSids : ∀ i ∈ S, i < refAtoms.length :=
      hvalid.idsRef _ (hmem _ iOuter hiOuter) S hS
    have hTids : ∀ j ∈ T, j < refAtoms.length :=
      hvalid.idsRef _ (hmem _ iInner hiInner) T hT
    rw [isIntersectedAtomsByMonotoneNeighbors_ok _ S T (by rw [← s2]; exact hSids)
      (by rw [← s2]; exact hTids), ok_bind]
    cases hc : mutualNeighbours pre.neighborAtomIdsForRef S T
    · simp [pure, Except.pure]
    · rw [if_pos rfl, calculateAtomIntersectionVolume_ok m e pre refAtoms.length fitAtoms.length
        hpre s1.symm s4.symm s3.symm s6.symm hvalid.rowsRef hvalid.rowsFit hcross hcrossRows
        S T hSids (fun j hj => lt_of_lt_of_le (hTids j hj) hcount), ok_bind, if_pos rfl, sign_eq]
      rfl
  unfold CGaussianVolume.getReferenceVolume
  rw [hpre, deref, ok_bind]
  simp only []
  rw [foldlM_eq_ok_sum _ _ (fun iOuter =>
    ((List.range pre.intersectedAtomIdsForRef.length).map (fun iInner =>
      ((pre.intersectedAtomIdsForRef.getD iOuter []).map (fun S =>
        ((pre.intersectedAtomIdsForRef.getD iInner []).map (fun T =>
          if mutualNeighbours pre.neighborAtomIdsForRef S T
          then signOfOrders (iOuter + 1) (iInner + 1) S T
            * intersectionVolume m pre e.squareDistancesMatrix S T
          else 0)).sum)).sum)).sum), zero_add]
  · rfl
  · intro acc iOuter hiOuter
    have hiOuter' : iOuter < pre.intersectedAtomIdsForRef.length := List.mem_range.1 hiOuter
    apply foldlM_eq_ok_sum
    intro acc2 iInner hiInner
    have hiInner' : iInner < pre.intersectedAtomIdsForRef.length := List.mem_range.1 hiInner
    rw [vecGet_natCast pre.intersectedAtomIdsForRef iOuter [] hiOuter', ok_bind,
      vecGet_natCast pre.intersectedAtomIdsForRef iInner [] hiInner', ok_bind]
    apply foldlM_eq_ok_sum
    intro acc3 S hS
    apply foldlM_eq_ok_sum
    intro acc4 T hT
    exact hinner iOuter iInner hiOuter' hiInner' S hS acc4 T hT

/-- C34 (amended): for an engine constructed from a valid precalculation whose
fit molecule has at least as many atoms as the reference molecule,
`getReferenceVolume()` returns the sum over all the ordered pairs `(S, T)` of
enumerated reference sets that pass the test of
`isIntersectedAtomsByMonotoneNeighbors`, with the sign of the two orders; the
test does not depend on the order of the two sets, so the ordered terms
`(S, T)` and `(T, S)` enter the sum together or not at all, and a singleton
paired with itself always enters. -/
theorem C34_reference_volume_sums_ordered_pairs (m : CMath R) (d : R)
    (refAtoms fitAtoms : List (CAtom R)) (pre : PrecalculationResult R) (e : CGaussianVolume R)
    (hctor : CGaussianVolume.ofAtoms m d (some refAtoms) (some fitAtoms) (some pre) = .ok e)
    (hvalid : pre.Valid refAtoms.length fitAtoms.length)
    (hcount : refAtoms.length ≤ fitAtoms.length) :
    e.getReferenceVolume m = .ok (referenceSum m pre e.squareDistancesMatrix)
      ∧ (∀ S T : List Nat, (∀ i ∈ S, i < refAtoms.length) → (∀ j ∈ T, j < refAtoms.length) →
          CGaussianVolume.isIntersectedAtomsByMonotoneNeighbors S T pre.neighborAtomIdsForRef
            = .ok (mutualNeighbours pre.neighborAtomIdsForRef S T)
          ∧ CGaussianVolume.isIntersectedAtomsByMonotoneNeighbors T S pre.neighborAtomIdsForRef
            = .ok (mutualNeighbours pre.neighborAtomIdsForRef S T))
      ∧ ∀ i, mutualNeighbours pre.neighborAtomIdsForRef [i] [i] = true := by
  obtain ⟨⟨-, s2, -, -, -, -, -⟩, -⟩ := ofAtoms_ok m d refAtoms fitAtoms pre e hctor
  refine ⟨getReferenceVolume_eq m d refAtoms fitAtoms pre e hctor hvalid hcount, ?_, ?_⟩
  · intro S T hS hT
    refine ⟨isIntersectedAtomsByMonotoneNeighbors_ok _ S T (by rw [← s2]; exact hS)
      (by rw [← s2]; exact hT), ?_⟩
    rw [isIntersectedAtomsByMonotoneNeighbors_ok _ T S (by rw [← s2]; exact hT)
      (by rw [← s2]; exact hS), mutualNeighbours_comm]
  · intro i
    simp [mutualNeighbours]

/-- The precalculation of a molecule of two radius-1.5 atoms at distance 1 with
itself, cutoff 0 and maximum order 1. -/
theorem precalculate_two_atoms :
    CGaussianVolume.precalculate (⟨Real.exp, fun x y => x ^ y, Real.sin, Real.cos⟩ : CMath ℝ)
        (fun _ _ => 0)
        ((CMolecule.new.addAtom ⟨1, 1.5, [0, 0, 0]⟩).addAtom ⟨2, 1.5, [1, 0, 0]⟩)
        ((CMolecule.new.addAtom ⟨1, 1.5, [0, 0, 0]⟩).addAtom ⟨2, 1.5, [1, 0, 0]⟩) 0 1
        (PrecalculationResult.new 0)
      = .ok ⟨[CGaussianVolume.dPARTIAL_ALPHA / 1.5 ^ 2, CGaussianVolume.dPARTIAL_ALPHA / 1.5 ^ 2],
          [CGaussianVolume.dPARTIAL_ALPHA / 1.5 ^ 2, CGaussianVolume.dPARTIAL_ALPHA / 1.5 ^ 2], 0,
          [[[0], [1]]], [[[0], [1]]], [[0, 1], [0, 0]], [[0, 1], [0, 0]],
          [[1], []], [[1], []]⟩ := by
  norm_num [CGaussianVolume.precalculate, CGaussianVolume.precalculateMolecule,
    CMolecule.new, CMolecule.addAtom, CAtom.clone, CMolecule.getAtomsList,
    CAtom.getPosition, CAtom.getAtomRadius, CMathematics.pointToPointSquareDistance,
    CGaussianVolume.enumerateIntersectedAtomIds, setInsert, pure, Except.pure, bind,
    Except.bind, List.range_succ, List.range_zero, PrecalculationResult.new]

/-- The engine constructed from that precalculation. -/
theorem ofAtoms_two_atoms :
    CGaussianVolume.ofAtoms (⟨Real.exp, fun x y => x ^ y, Real.sin, Real.cos⟩ : CMath ℝ) 0
        (some ((CMolecule.new.addAtom ⟨1, 1.5, [0, 0, 0]⟩).addAtom
          ⟨2, 1.5, [1, 0, 0]⟩ : CMolecule ℝ).getAtomsList)
        (some ((CMolecule.new.addAtom ⟨1, 1.5, [0, 0, 0]⟩).addAtom
          ⟨2, 1.5, [1, 0, 0]⟩ : CMolecule ℝ).getAtomsList)
        (some ⟨[CGaussianVolume.dPARTIAL_ALPHA / 1.5 ^ 2, CGaussianVolume.dPARTIAL_ALPHA / 1.5 ^ 2],
          [CGaussianVolume.dPARTIAL_ALPHA / 1.5 ^ 2, CGaussianVolume.dPARTIAL_ALPHA / 1.5 ^ 2], 0,
          [[[0], [1]]], [[[0], [1]]], [[0, 1], [0, 0]], [[0, 1], [0, 0]],
          [[1], []], [[1], []]⟩)
      = .ok ⟨0, [[0, 1], [0, 1]], some [⟨1, 1.5, [0, 0, 0]⟩, ⟨2, 1.5, [1, 0, 0]⟩],
          some ⟨[CGaussianVolume.dPARTIAL_ALPHA / 1.5 ^ 2,
              CGaussianVolume.dPARTIAL_ALPHA / 1.5 ^ 2],
            [CGaussianVolume.dPARTIAL_ALPHA / 1.5 ^ 2, CGaussianVolume.dPARTIAL_ALPHA / 1.5 ^ 2],
            0, [[[0], [1]]], [[[0], [1]]], [[0, 1], [0, 0]], [[0, 1], [0, 0]],
            [[1], []], [[1], []]⟩,
          some [⟨1, 1.5, [0, 0, 0]⟩, ⟨2, 1.5, [1, 0, 0]⟩], [[0, 1], [1, 0]]⟩ := by
  norm_num [CGaussianVolume.ofAtoms, CGaussianVolume.initializeIntermolecularInformation,
    CMolecule.new, CMolecule.addAtom, CAtom.clone, CMolecule.getAtomsList,
    CAtom.getPosition, CAtom.getAtomRadius, CMathematics.pointToPointSquareDistance,
    setInsert, pure, Except.pure, bind, Except.bind]

theorem valid_two_atoms :
    PrecalculationResult.Valid (⟨[CGaussianVolume.dPARTIAL_ALPHA / 1.5 ^ 2,
        CGaussianVolume.dPARTIAL_ALPHA / 1.5 ^ 2],
      [CGaussianVolume.dPARTIAL_ALPHA / 1.5 ^ 2, CGaussianVolume.dPARTIAL_ALPHA / 1.5 ^ 2], 0,
      [[[0], [1]]], [[[0], [1]]], [[0, 1], [0, 0]], [[0, 1], [0, 0]],
      [[1], []], [[1], []]⟩ : PrecalculationResult ℝ)
      ((CMolecule.new.addAtom ⟨1, 1.5, [0, 0, 0]⟩).addAtom
        ⟨2, 1.5, [1, 0, 0]⟩ : CMolecule ℝ).getAtomsList.length
      ((CMolecule.new.addAtom ⟨1, 1.5, [0, 0, 0]⟩).addAtom
        ⟨2, 1.5, [1, 0, 0]⟩ : CMolecule ℝ).getAtomsList.length := by
  constructor <;> simp [CMolecule.new, CMolecule.addAtom, CMolecule.getAtomsList]

/-- Counterexample to C34 as stated: for a reference molecule of two
neighbouring atoms `0` and `1` (the fit molecule being the same molecule, cutoff
0, maximum order 1), the test of `getReferenceVolume()` accepts both ordered
pairs `({0}, {1})` and `({1}, {0})`, and the value returned is the sum of the
four order-(1,1) terms `V({0},{0}) + V({0},{1}) + V({1},{0}) + V({1},{1})`, in
which the two terms of the pair of atoms are equal and positive. -/
theorem C34_symmetric_pair_counted_twice_counterexample :
    ∃ pre e,
      CGaussianVolume.precalculate (⟨Real.exp, fun x y => x ^ y, Real.sin, Real.cos⟩ : CMath ℝ)
          (fun _ _ => 0)
          ((CMolecule.new.addAtom ⟨1, 1.5, [0, 0, 0]⟩).addAtom ⟨2, 1.5, [1, 0, 0]⟩)
          ((CMolecule.new.addAtom ⟨1, 1.5, [0, 0, 0]⟩).addAtom ⟨2, 1.5, [1, 0, 0]⟩) 0 1
          (PrecalculationResult.new 0) = .ok pre
      ∧ CGaussianVolume.ofAtoms (⟨Real.exp, fun x y => x ^ y, Real.sin, Real.cos⟩ : CMath ℝ) 0
          (some ((CMolecule.new.addAtom ⟨1, 1.5, [0, 0, 0]⟩).addAtom
            ⟨2, 1.5, [1, 0, 0]⟩ : CMolecule ℝ).getAtomsList)
          (some ((CMolecule.new.addAtom ⟨1, 1.5, [0, 0, 0]⟩).addAtom
            ⟨2, 1.5, [1, 0, 0]⟩ : CMolecule ℝ).getAtomsList)
          (some pre) = .ok e
      ∧ CGaussianVolume.isIntersectedAtomsByMonotoneNeighbors [0] [1] pre.neighborAtomIdsForRef
          = .ok true
      ∧ CGaussianVolume.isIntersectedAtomsByMonotoneNeighbors [1] [0] pre.neighborAtomIdsForRef
          = .ok true
      ∧ e.getReferenceVolume (⟨Real.exp, fun x y => x ^ y, Real.sin, Real.cos⟩ : CMath ℝ)
          = .ok (intersectionVolume (⟨Real.exp, fun x y => x ^ y, Real.sin, Real.cos⟩ : CMath ℝ)
                pre e.squareDistancesMatrix [0] [0]
              + intersectionVolume (⟨Real.exp, fun x y => x ^ y, Real.sin, Real.cos⟩ : CMath ℝ)
                pre e.squareDistancesMatrix [0] [1]
              + intersectionVolume (⟨Real.exp, fun x y => x ^ y, Real.sin, Real.cos⟩ : CMath ℝ)
                pre e.squareDistancesMatrix [1] [0]
              + intersectionVolume (⟨Real.exp, fun x y => x ^ y, Real.sin, Real.cos⟩ : CMath ℝ)
                pre e.squareDistancesMatrix [1] [1])
      ∧ intersectionVolume (⟨Real.exp, fun x y => x ^ y, Real.sin, Real.cos⟩ : CMath ℝ)
            pre e.squareDistancesMatrix [0] [1]
          = intersectionVolume (⟨Real.exp, fun x y => x ^ y, Real.sin, Real.cos⟩ : CMath ℝ)
            pre e.squareDistancesMatrix [1] [0]
      ∧ 0 < intersectionVolume (⟨Real.exp, fun x y => x ^ y, Real.sin, Real.cos⟩ : CMath ℝ)
            pre e.squareDistancesMatrix [0] [1] := by
  refine ⟨_, _, precalculate_two_atoms, ofAtoms_two_atoms, ?_, ?_, ?_, ?_, ?_⟩
  · simp [CGaussianVolume.isIntersectedAtomsByMonotoneNeighbors,
      CGaussianVolume.monotoneValuesLoop, vecGet, EXIST, pure, Except.pure, bind, Except.bind]
  · simp [CGaussianVolume.isIntersectedAtomsByMonotoneNeighbors,
      CGaussianVolume.monotoneValuesLoop, vecGet, EXIST, pure, Except.pure, bind, Except.bind]
  · rw [getReferenceVolume_eq _ 0 _ _ _ _ ofAtoms_two_atoms valid_two_atoms (le_refl _)]
    simp [referenceSum, mutualNeighbours, EXIST, signOfOrders, List.range_succ, add_assoc]
    ring
  · simp [intersectionVolume, alphaAt, entryAt, pairSumWithin, add_comm]
  · have hP : (0 : ℝ) < CGaussianVolume.dP := by unfold CGaussianVolume.dP; norm_num
    have hbase : (0 : ℝ) < CGaussianVolume.dPI /
        (CGaussianVolume.dPARTIAL_ALPHA / 1.5 ^ 2 + CGaussianVolume.dPARTIAL_ALPHA / 1.5 ^ 2) := by
      unfold CGaussianVolume.dPI CGaussianVolume.dPARTIAL_ALPHA; norm_num
    simp only [intersectionVolume, alphaAt, entryAt, pairSumWithin, List.map_cons, List.map_nil,
      List.sum_cons, List.sum_nil, List.getD_cons_zero, List.getD_cons_succ, add_zero,
      List.length_cons, List.length_nil]
    exact mul_pos (mul_pos (Real.rpow_pos_of_pos hP _) (Real.exp_pos _))
      (Real.rpow_pos_of_pos hbase _)

/-- C34 (amended), on the engine of a molecule of two neighbouring atoms paired
with itself. -/
theorem C34_reference_volume_sums_ordered_pairs_witness :
    ∃ pre e,
      CGaussianVolume.ofAtoms (⟨Real.exp, fun x y => x ^ y, Real.sin, Real.cos⟩ : CMath ℝ) 0
          (some ((CMolecule.new.addAtom ⟨1, 1.5, [0, 0, 0]⟩).addAtom
            ⟨2, 1.5, [1, 0, 0]⟩ : CMolecule ℝ).getAtomsList)
          (some ((CMolecule.new.addAtom ⟨1, 1.5, [0, 0, 0]⟩).addAtom
            ⟨2, 1.5, [1, 0, 0]⟩ : CMolecule ℝ).getAtomsList)
          (some pre) = .ok e
      ∧ e.getReferenceVolume (⟨Real.exp, fun x y => x ^ y, Real.sin, Real.cos⟩ : CMath ℝ)
          = .ok (referenceSum (⟨Real.exp, fun x y => x ^ y, Real.sin, Real.cos⟩ : CMath ℝ)
              pre e.squareDistancesMatrix) :=
  ⟨_, _, ofAtoms_two_atoms,
    (C34_reference_volume_sums_ordered_pairs _ 0 _ _ _ _ ofAtoms_two_atoms valid_two_atoms
      (le_refl _)).1⟩

end ReferenceVolume

/-! ## Neighbour lists -/

section NeighbourRelation

variable {R : Type} [LinearOrderedField R]

/-- The inner loop of `initializeIntermolecularInformation` over the fit atoms
`bs` with indices from `k`. -/
theorem initialize_inner (m : CMath R) (c : R) (refAtom : CAtom R) (bs : List (CAtom R))
    (row : List R) (nb : List Nat) (k : Nat)
    (hlen : ∀ b ∈ bs, refAtom.position.length = b.position.length)
    (hnb : ∀ x ∈ nb, x < k) :
    bs.foldlM
        (fun (row : List R × List Nat × Nat) (fitAtom : CAtom R) => do
          let dSquareDistance ←
            CMathematics.pointToPointSquareDistance refAtom.getPosition fitAtom.getPosition
          let neighborAtomIdsSet :=
            if dSquareDistance
                < m.pow (refAtom.getAtomRadius + fitAtom.getAtomRadius + c) 2
            then setInsert row.2.2 row.2.1
            else row.2.1
          pure (row.1 ++ [dSquareDistance], neighborAtomIdsSet, row.2.2 + 1))
        (row, nb, k)
      = .ok (row ++ bs.map (fun b => sqDist refAtom.position b.position),
            nb ++ ((bs.enumFrom k).filter (fun (jb : Nat × CAtom R) =>
              decide (sqDist refAtom.position jb.2.position
                < m.pow (refAtom.dAtomRadius + jb.2.dAtomRadius + c) 2))).map Prod.fst,
            k + bs.length) := by
  induction bs generalizing row nb k with
  | nil => simp [pure, Except.pure]
  | cons b bs ih =>
    have hb := hlen b (List.mem_cons_self b bs)
    rw [List.foldlM_cons]
    simp only [CAtom.getPosition, CAtom.getAtomRadius]
    rw [pointToPointSquareDistance_ok _ _ hb, ok_bind]
    by_cases hnbr : sqDist refAtom.position b.position
        < m.pow (refAtom.dAtomRadius + b.dAtomRadius + c) 2
    · rw [if_pos hnbr, setInsert_append k nb hnb]
      show (Except.ok _ >>= _) = _
      rw [ok_bind]
      have := ih (row ++ [sqDist refAtom.position b.position]) (nb ++ [k]) (k + 1)
        (fun b' hb' => hlen b' (List.mem_cons_of_mem b hb'))
        (by
          intro x hx
          rcases List.mem_append.1 hx with hx | hx
          · exact Nat.lt_succ_of_lt (hnb x hx)
          · rw [List.mem_singleton.1 hx]; exact Nat.lt_succ_self k)
      simp only [CAtom.getPosition, CAtom.getAtomRadius] at this
      rw [this]
      simp [List.enumFrom_cons, hnbr, List.filter_cons, Nat.add_assoc, Nat.add_comm 1]
    · rw [if_neg hnbr]
      show (Except.ok _ >>= _) = _
      rw [ok_bind]
      have := ih (row ++ [sqDist refAtom.position b.position]) nb (k + 1)
        (fun b' hb' => hlen b' (List.mem_cons_of_mem b hb'))
        (fun x hx => Nat.lt_succ_of_lt (hnb x hx))
      simp only [CAtom.getPosition, CAtom.getAtomRadius] at this
      rw [this]
      simp [List.enumFrom_cons, hnbr, List.filter_cons, Nat.add_assoc, Nat.add_comm 1]

/-- The outer loop of `initializeIntermolecularInformation` over the reference
atoms `as`. -/
theorem initialize_outer (m : CMath R) (c : R) (fitAtoms as : List (CAtom R))
    (acc : List (List R) × List (List Nat))
    (hlen : ∀ a ∈ as, ∀ b ∈ fitAtoms, a.position.length = b.position.length) :
    as.foldlM (fun (acc : List (List R) × List (List Nat)) (refAtom : CAtom R) => do
          let row ← fitAtoms.foldlM
            (fun (row : List R × List Nat × Nat) (fitAtom : CAtom R) => do
              let dSquareDistance ←
                CMathematics.pointToPointSquareDistance refAtom.getPosition fitAtom.getPosition
              let neighborAtomIdsSet :=
                if dSquareDistance
                    < m.pow (refAtom.getAtomRadius + fitAtom.getAtomRadius + c) 2
                then setInsert row.2.2 row.2.1
                else row.2.1
              pure (row.1 ++ [dSquareDistance], neighborAtomIdsSet, row.2.2 + 1))
            (([] : List R), ([] : List Nat), 0)
          pure (acc.1 ++ [row.1], acc.2 ++ [row.2.1])) acc
      = .ok (acc.1 ++ as.map (fun a => fitAtoms.map (fun b => sqDist a.position b.position)),
          acc.2 ++ as.map (crossNeighbourIds m c fitAtoms)) := by
  induction as generalizing acc with
  | nil => simp [pure, Except.pure]
  | cons a as ih =>
    rw [List.foldlM_cons]
    have hinner := initialize_inner m c a fitAtoms [] [] 0
      (fun b hb => hlen a (List.mem_cons_self a as) b hb)
      (fun x hx => absurd hx (List.not_mem_nil x))
    rw [hinner, ok_bind]
    show (Except.ok _ >>= _) = _
    rw [ok_bind, ih _ (fun a' ha' => hlen a' (List.mem_cons_of_mem a ha'))]
    simp [crossNeighbourIds, List.enum]

/-- The engine that the constructor builds from a precalculation of the right
sizes, for reference and fit positions with the same number of coordinates: the
cross matrix of the square distances and the cross-neighbour lists. -/
theorem ofAtoms_eq (m : CMath R) (d : R) (refAtoms fitAtoms : List (CAtom R))
    (pre : PrecalculationResult R)
    (hsizes : refAtoms.length = pre.alphaValuesForRef.length ∧
        refAtoms.length = pre.neighborAtomIdsForRef.length ∧
        refAtoms.length = pre.squareDistancesMatrixForRef.length ∧
        fitAtoms.length = pre.alphaValuesForFit.length ∧
        fitAtoms.length = pre.neighborAtomIdsForFit.length ∧
        fitAtoms.length = pre.squareDistancesMatrixForFit.length ∧
        pre.intersectedAtomIdsForRef.length = pre.intersectedAtomIdsForFit.length)
    (hlen : ∀ a ∈ refAtoms, ∀ b ∈ fitAtoms, a.position.length = b.position.length) :
    CGaussianVolume.ofAtoms m d (some refAtoms) (some fitAtoms) (some pre)
      = .ok { dGaussianCutoff := d
              neighborAtomIds := refAtoms.map (crossNeighbourIds m pre.dGaussianCutoff fitAtoms)
              pFitAtoms := some fitAtoms
              pPrecalculationResult := some pre
              pRefAtoms := some refAtoms
              squareDistancesMatrix := refAtoms.map (fun a =>
                fitAtoms.map (fun b => sqDist a.position b.position)) } := by
  unfold CGaussianVolume.ofAtoms
  simp only []
  rw [if_pos hsizes]
  unfold CGaussianVolume.initializeIntermolecularInformation
  simp only []
  rw [initialize_outer m pre.dGaussianCutoff fitAtoms refAtoms _ hlen, ok_bind]
  simp [pure, Except.pure]

omit [LinearOrderedField R] in
/-- Membership in the indices kept by a filter over an enumerated list. -/
theorem mem_filter_enum_fst {α : Type} (l : List α) (P : Nat × α → Bool) (j : Nat) :
    j ∈ ((l.enum.filter P).map Prod.fst) ↔ ∃ b, l[j]? = some b ∧ P (j, b) = true := by
  constructor
  · intro h
    obtain ⟨jb, hjb, rfl⟩ := List.mem_map.1 h
    obtain ⟨hmem, hP⟩ := List.mem_filter.1 hjb
    exact ⟨jb.2, List.mem_enum_iff_getElem?.1 hmem, hP⟩
  · rintro ⟨b, hb, hP⟩
    exact List.mem_map.2 ⟨(j, b), List.mem_filter.2 ⟨List.mem_enum_iff_getElem?.2 hb, hP⟩, rfl⟩

/-- The neighbour relation of the lists written by `precalculateMolecule`. -/
theorem mem_monotoneNeighbours (m : CMath R) (c : R) (atoms : List (CAtom R)) (i j : Nat)
    (a : CAtom R) (ha : atoms[i]? = some a) :
    j ∈ (atoms.enum.map (fun (ia : Nat × CAtom R) =>
        monotoneNeighbours m c atoms ia.1 ia.2)).getD i []
      ↔ ∃ b, atoms[j]? = some b ∧ i < j
          ∧ sqDist a.position b.position < m.pow (a.dAtomRadius + b.dAtomRadius + c) 2 := by
  have hi : i < atoms.length := (List.getElem?_eq_some_iff.1 ha).1
  have hai : atoms[i] = a := (List.getElem?_eq_some_iff.1 ha).2
  have hi' : i < atoms.enum.length := by simpa [List.enum] using hi
  rw [List.getD_eq_getElem _ [] (by simpa [List.enum] using hi), List.getElem_map]
  have hfst : atoms.enum[i] = (i, a) := by
    simp [List.enum, hai]
  rw [hfst]
  unfold monotoneNeighbours
  rw [mem_filter_enum_fst]
  simp only [decide_eq_true_eq, gt_iff_lt]

/-- The cross-neighbour relation of the lists written by the constructor. -/
theorem mem_crossNeighbourIds (m : CMath R) (c : R) (refAtoms fitAtoms : List (CAtom R))
    (i j : Nat) (a : CAtom R) (ha : refAtoms[i]? = some a) :
    j ∈ (refAtoms.map (crossNeighbourIds m c fitAtoms)).getD i []
      ↔ ∃ b, fitAtoms[j]? = some b
          ∧ sqDist a.position b.position < m.pow (a.dAtomRadius + b.dAtomRadius + c) 2 := by
  have hi : i < refAtoms.length := (List.getElem?_eq_some_iff.1 ha).1
  have hai : refAtoms[i] = a := (List.getElem?_eq_some_iff.1 ha).2
  rw [List.getD_eq_getElem _ [] (by simpa using hi), List.getElem_map, hai]
  unfold crossNeighbourIds
  rw [mem_filter_enum_fst]
  simp only [decide_eq_true_eq]

/-- C32: the neighbour relation. For molecules whose atoms have three
coordinates, a cutoff `c >= 0`, a maximum order `>= 1` and `pow(x, 2) = x^2`:
`precalculateMolecule` returns; for all atom indices `i < j` of the molecule,
`j` is in `neighborAtomIds[i]` iff the square distance of the atoms `i` and `j`
is below `(r_i + r_j + c)^2`, and `neighborAtomIds[i]` holds only indices of
atoms above `i`; `precalculate` stores these lists and the cutoff `c`, and the
engine constructed from its result has, for every reference index `i` and fit
index `j`, `j` in the cross-neighbour list of `i` iff the square distance of
the two atoms is below `(r_i + r_j + c)^2`. -/
theorem C32_neighbour_relation (m : CMath R) (hpow : ∀ x : R, m.pow x 2 = x ^ 2)
    (stale : Nat → Nat → R) (dIndeterminate : R) (refMol fitMol : CMolecule R)
    (dGaussianCutoff : R) (nMaxIntersectionOrder : Int)
    (precalculationResult : PrecalculationResult R)
    (hc : dGaussianCutoff ≥ 0) (ho : nMaxIntersectionOrder ≥ 1)
    (href : ∀ a ∈ refMol.atomsList, a.position.length = 3)
    (hfit : ∀ a ∈ fitMol.atomsList, a.position.length = 3) :
    ∃ p pre e,
      CGaussianVolume.precalculateMolecule m stale refMol dGaussianCutoff nMaxIntersectionOrder
        = .ok p
      ∧ (∀ i j a b, refMol.atomsList[i]? = some a → refMol.atomsList[j]? = some b → i < j →
          (j ∈ p.neighborAtomIds.getD i [] ↔ withinCutoff dGaussianCutoff a b))
      ∧ (∀ i, ∀ x ∈ p.neighborAtomIds.getD i [], i < x ∧ x < refMol.atomsList.length)
      ∧ CGaussianVolume.precalculate m stale refMol fitMol dGaussianCutoff
          nMaxIntersectionOrder precalculationResult = .ok pre
      ∧ pre.neighborAtomIdsForRef = p.neighborAtomIds
      ∧ pre.dGaussianCutoff = dGaussianCutoff
      ∧ CGaussianVolume.ofAtoms m dIndeterminate (some refMol.getAtomsList)
          (some fitMol.getAtomsList) (some pre) = .ok e
      ∧ ∀ i j a b, refMol.atomsList[i]? = some a → fitMol.atomsList[j]? = some b →
          (j ∈ e.neighborAtomIds.getD i [] ↔ withinCutoff pre.dGaussianCutoff a b) := by
  obtain ⟨ids, hp, -, -⟩ := precalculateMolecule_ok m stale refMol dGaussianCutoff
    nMaxIntersectionOrder hc (by omega) (three_coordinates _ href)
  obtain ⟨idsRef, idsFit, hpre, hlr, hlf, -, -⟩ := precalculate_ok m stale refMol fitMol
    dGaussianCutoff nMaxIntersectionOrder precalculationResult hc (by omega)
    (three_coordinates _ href) (three_coordinates _ hfit)
  refine ⟨_, _, _, hp, ?_, ?_, hpre, rfl, rfl,
    ofAtoms_eq m dIndeterminate refMol.getAtomsList fitMol.getAtomsList _
      (by simp [CMolecule.getAtomsList, List.enum, hlr, hlf])
      (fun a ha b hb => (href a ha).trans (hfit b hb).symm), ?_⟩
  · intro i j a b ha hb hij
    show j ∈ (refMol.atomsList.enum.map (fun (ia : Nat × CAtom R) =>
      monotoneNeighbours m dGaussianCutoff refMol.atomsList ia.1 ia.2)).getD i [] ↔ _
    rw [mem_monotoneNeighbours m dGaussianCutoff refMol.atomsList i j a ha]
    unfold withinCutoff
    constructor
    · rintro ⟨b', hb', -, hlt⟩
      rw [hb] at hb'
      cases hb'
      rwa [hpow] at hlt
    · intro hlt
      exact ⟨b, hb, hij, by rwa [hpow]⟩
  · intro i x hx
    have hx' : x ∈ (refMol.atomsList.enum.map (fun (ia : Nat × CAtom R) =>
        monotoneNeighbours m dGaussianCutoff refMol.atomsList ia.1 ia.2)).getD i [] := hx
    by_cases hi : i < refMol.atomsList.length
    · have hai : refMol.atomsList[i]? = some refMol.atomsList[i] :=
        List.getElem?_eq_getElem hi
      obtain ⟨b, hb, hlt, -⟩ :=
        (mem_monotoneNeighbours m dGaussianCutoff refMol.atomsList i x _ hai).1 hx'
      exact ⟨hlt, (List.getElem?_eq_some_iff.1 hb).1⟩
    · rw [List.getD_eq_default _ _ (by simpa [List.enum] using hi)] at hx'
      exact absurd hx' (List.not_mem_nil x)
  · intro i j a b ha hb
    show j ∈ (refMol.getAtomsList.map
      (crossNeighbourIds m dGaussianCutoff fitMol.getAtomsList)).getD i [] ↔ _
    rw [mem_crossNeighbourIds m dGaussianCutoff refMol.getAtomsList fitMol.getAtomsList i j a ha]
    unfold withinCutoff
    constructor
    · rintro ⟨b', hb', hlt⟩
      have hb2 : fitMol.atomsList[j]? = some b' := hb'
      rw [hb] at hb2
      cases hb2
      rwa [hpow] at hlt
    · intro hlt
      exact ⟨b, hb, by rwa [hpow]⟩

/-- C32 on a reference molecule of two atoms and a fit molecule of one atom over
the reals, cutoff 0 and maximum order 1. -/
theorem C32_neighbour_relation_witness :
    (∀ x : ℝ, (⟨Real.exp, fun x y => x ^ y, Real.sin, Real.cos⟩ : CMath ℝ).pow x 2 = x ^ 2)
      ∧ ∃ p pre e,
        CGaussianVolume.precalculateMolecule
            (⟨Real.exp, fun x y => x ^ y, Real.sin, Real.cos⟩ : CMath ℝ) (fun _ _ => 0)
            ((CMolecule.new.addAtom ⟨1, 1.5, [0, 0, 0]⟩).addAtom ⟨2, 2, [1, 0, 0]⟩) 0 1
          = .ok p
        ∧ CGaussianVolume.precalculate
            (⟨Real.exp, fun x y => x ^ y, Real.sin, Real.cos⟩ : CMath ℝ) (fun _ _ => 0)
            ((CMolecule.new.addAtom ⟨1, 1.5, [0, 0, 0]⟩).addAtom ⟨2, 2, [1, 0, 0]⟩)
            (CMolecule.new.addAtom ⟨1, 1.5, [0, 0, 0]⟩) 0 1 (PrecalculationResult.new 0)
          = .ok pre
        ∧ CGaussianVolume.ofAtoms
            (⟨Real.exp, fun x y => x ^ y, Real.sin, Real.cos⟩ : CMath ℝ) 0
            (some ((CMolecule.new.addAtom ⟨1, 1.5, [0, 0, 0]⟩).addAtom
              ⟨2, 2, [1, 0, 0]⟩ : CMolecule ℝ).getAtomsList)
            (some (CMolecule.new.addAtom ⟨1, 1.5, [0, 0, 0]⟩ : CMolecule ℝ).getAtomsList)
            (some pre) = .ok e
        ∧ (1 ∈ p.neighborAtomIds.getD 0 []
            ↔ withinCutoff (0 : ℝ) ⟨1, 1.5, [0, 0, 0]⟩ ⟨2, 2, [1, 0, 0]⟩) := by
  have hpow : ∀ x : ℝ,
      (⟨Real.exp, fun x y => x ^ y, Real.sin, Real.cos⟩ : CMath ℝ).pow x 2 = x ^ 2 :=
    fun x => Real.rpow_two x
  obtain ⟨p, pre, e, hp, hrel, -, hpre, -, -, he, -⟩ := C32_neighbour_relation
    (⟨Real.exp, fun x y => x ^ y, Real.sin, Real.cos⟩ : CMath ℝ) hpow (fun _ _ => 0) 0
    ((CMolecule.new.addAtom ⟨1, 1.5, [0, 0, 0]⟩).addAtom ⟨2, 2, [1, 0, 0]⟩)
    (CMolecule.new.addAtom ⟨1, 1.5, [0, 0, 0]⟩) 0 1 (PrecalculationResult.new 0)
    (le_refl (0 : ℝ)) (by decide)
    (by simp [CMolecule.new, CMolecule.addAtom, CAtom.clone])
    (by simp [CMolecule.new, CMolecule.addAtom, CAtom.clone])
  exact ⟨hpow, p, pre, e, hp, hpre, he,
    hrel 0 1 ⟨1, 1.5, [0, 0, 0]⟩ ⟨2, 2, [1, 0, 0]⟩
      (by simp [CMolecule.new, CMolecule.addAtom, CAtom.clone])
      (by simp [CMolecule.new, CMolecule.addAtom, CAtom.clone]) (by decide)⟩

end NeighbourRelation

/-! ## Refined mode of order one -/

section OrderOne

variable {R : Type} [LinearOrderedField R]

omit [LinearOrderedField R] in
/-- The loop of order 1 appends the singletons of the indices. -/
theorem foldl_singletons (n : Nat) (init : List (List Nat)) :
    (List.range n).foldl
        (fun intersectedAtomIds iKeyId => intersectedAtomIds ++ [setInsert iKeyId []]) init
      = init ++ (List.range n).map (fun i => [i]) := by
  induction n with
  | zero => simp
  | succ n ih =>
    rw [List.range_succ, List.foldl_append, ih, List.map_append, List.foldl_cons, List.foldl_nil,
      List.map_cons, List.map_nil, List.append_assoc]
    rfl

omit [LinearOrderedField R] in
/-- At order 1, `enumerateIntersectedAtomIds` returns the singletons of the
indices of the neighbour lists, in ascending order. -/
theorem enumerateIntersectedAtomIds_one (nbrs : List (List Nat)) (init : List (List Nat)) :
    CGaussianVolume.enumerateIntersectedAtomIds nbrs 1 init
      = .ok (init ++ (List.range nbrs.length).map (fun i => [i])) := by
  unfold CGaussianVolume.enumerateIntersectedAtomIds
  rw [if_pos (by decide), if_neg (by decide), if_pos rfl, foldl_singletons]
  rfl

/-- A sum over the indices of a list is the sum over its elements. -/
theorem sum_range_eq_sum_map {α : Type} (l : List α) (F : Nat → R) (G : α → R)
    (h : ∀ i a, l[i]? = some a → F i = G a) :
    ((List.range l.length).map F).sum = (l.map G).sum := by
  induction l generalizing F with
  | nil => simp
  | cons x xs ih =>
    rw [List.length_cons, List.range_succ_eq_map, List.map_cons, List.sum_cons, List.map_map,
      List.map_cons, List.sum_cons, h 0 x (by simp)]
    congr 1
    exact ih (F ∘ Nat.succ) (fun i a hi => h (i + 1) a (by simpa using hi))

omit [LinearOrderedField R] in
theorem getD_map_of_getElem? {α β : Type} (l : List α) (f : α → β) (i : Nat) (a : α) (d : β)
    (h : l[i]? = some a) : (l.map f).getD i d = f a := by
  rw [List.getD_eq_getElem?_getD, List.getElem?_map, h]
  rfl

/-- The term of the refined sum for the singletons of a reference atom and of a
fit atom is the pair term of the direct mode up to the factor `p^2 / 8`. -/
theorem order_one_term (m : CMath R) (hpow : ∀ x : R, m.pow x 2 = x ^ 2)
    (pre : PrecalculationResult R) (c : R) (refAtoms fitAtoms : List (CAtom R))
    (halphaRef : pre.alphaValuesForRef
      = refAtoms.map (fun a => CGaussianVolume.dPARTIAL_ALPHA / m.pow a.dAtomRadius 2))
    (halphaFit : pre.alphaValuesForFit
      = fitAtoms.map (fun a => CGaussianVolume.dPARTIAL_ALPHA / m.pow a.dAtomRadius 2))
    (i j : Nat) (a b : CAtom R) (ha : refAtoms[i]? = some a) (hb : fitAtoms[j]? = some b) :
    (if crossNeighbours (refAtoms.map (crossNeighbourIds m c fitAtoms)) [i] [j]
      then signOfOrders 1 1 [i] [j]
        * intersectionVolume m pre
          (refAtoms.map (fun a => fitAtoms.map (fun b => sqDist a.position b.position))) [i] [j]
      else 0)
      = CGaussianVolume.dP ^ 2 / 8 * pairTerm m c a b := by
  have hcross : crossNeighbours (refAtoms.map (crossNeighbourIds m c fitAtoms)) [i] [j] = true
      ↔ withinCutoff c a b := by
    unfold crossNeighbours EXIST
    simp only [List.all_cons, List.all_nil, Bool.and_true]
    have hmem : ∀ l : List Nat, l.contains j = true ↔ j ∈ l := fun l => by simp
    rw [hmem]
    rw [mem_crossNeighbourIds m c refAtoms fitAtoms i j a ha]
    unfold withinCutoff
    constructor
    · rintro ⟨b', hb', hlt⟩
      rw [hb] at hb'
      cases hb'
      rwa [hpow] at hlt
    · intro hlt
      exact ⟨b, hb, by rwa [hpow]⟩
  unfold pairTerm
  by_cases hw : withinCutoff c a b
  · rw [if_pos (hcross.2 hw), if_pos hw]
    unfold intersectionVolume pairVolume alphaOf signOfOrders alphaAt entryAt
    simp only [List.map_cons, List.map_nil, List.sum_cons, List.sum_nil, pairSumWithin,
      List.length_cons, List.length_nil, add_zero, zero_add]
    rw [halphaRef, halphaFit, getD_map_of_getElem? refAtoms _ i a 0 ha,
      getD_map_of_getElem? fitAtoms _ j b 0 hb,
      getD_map_of_getElem? refAtoms _ i a [] ha,
      getD_map_of_getElem? fitAtoms _ j b 0 hb, hpow, hpow]
    have h2 : (((1 + 1 : Nat) : R)) = 2 := by norm_num
    rw [h2, hpow, neg_div]
    ring
  · rw [if_neg (fun h => hw (hcross.1 h)), if_neg hw, mul_zero]

/-- C36: order-1 refinement agrees with the direct mode up to the constant `p`.
For molecules whose atoms have three coordinates, a cutoff `c >= 0` and
`pow(x, 2) = x^2`: `precalculate` with maximum order 1 returns, the constructor
builds an engine from its result, `getOverlapVolume()` returns a value `v`, the
direct mode of every engine with the cutoff `c` returns a value `w` on the two
molecules, and `8 * v = p^2 * w`. -/
theorem C36_order_one_agrees_with_direct_mode (m : CMath R)
    (hpow : ∀ x : R, m.pow x 2 = x ^ 2) (stale : Nat → Nat → R) (dIndeterminate : R)
    (refMol fitMol : CMolecule R) (dGaussianCutoff : R)
    (precalculationResult : PrecalculationResult R) (hc : dGaussianCutoff ≥ 0)
    (href : ∀ a ∈ refMol.atomsList, a.position.length = 3)
    (hfit : ∀ a ∈ fitMol.atomsList, a.position.length = 3) :
    ∃ pre e v w,
      CGaussianVolume.precalculate m stale refMol fitMol dGaussianCutoff 1 precalculationResult
        = .ok pre
      ∧ CGaussianVolume.ofAtoms m dIndeterminate (some refMol.getAtomsList)
          (some fitMol.getAtomsList) (some pre) = .ok e
      ∧ e.getOverlapVolume m = .ok v
      ∧ (∀ g : CGaussianVolume R, g.dGaussianCutoff = dGaussianCutoff →
          g.getOverlapVolumeDirect m refMol fitMol = .ok w)
      ∧ 8 * v = CGaussianVolume.dP ^ 2 * w := by
  obtain ⟨idsRef, idsFit, hpre0, hlr, hlf, her, hef⟩ := precalculate_ok m stale refMol fitMol
    dGaussianCutoff 1 precalculationResult hc (by decide)
    (three_coordinates _ href) (three_coordinates _ hfit)
  have hdim : ∀ a ∈ refMol.atomsList, ∀ b ∈ fitMol.atomsList,
      a.position.length = b.position.length :=
    fun a ha b hb => (href a ha).trans (hfit b hb).symm
  have hone : (1 : Int).toNat = 1 := rfl
  rw [hone] at hlr hlf her hef
  -- the enumerated sets of order 1
  have hidsRef : idsRef.getD 0 [] = (List.range refMol.atomsList.length).map (fun i => [i]) := by
    have h := her 0 (by decide)
    rw [show (((0 : Nat) : Int) + 1) = 1 from rfl, enumerateIntersectedAtomIds_one] at h
    have h' := (Except.ok.inj h).symm
    simpa [List.enum] using h'
  have hidsFit : idsFit.getD 0 [] = (List.range fitMol.atomsList.length).map (fun i => [i]) := by
    have h := hef 0 (by decide)
    rw [show (((0 : Nat) : Int) + 1) = 1 from rfl, enumerateIntersectedAtomIds_one] at h
    have h' := (Except.ok.inj h).symm
    simpa [List.enum] using h'
  have hsingle : ∀ (ids : List (List (List Nat))), ids.length = 1 → ∀ sets ∈ ids,
      sets = ids.getD 0 [] := by
    intro ids hlen sets hsets
    match ids, hlen, hsets with
    | [x], _, hsets => simpa using hsets
  obtain ⟨pre, hpre, haR, haF, hcut, hiR, hiF, hmR, hmF, hnR, hnF⟩ : ∃ pre : PrecalculationResult R,
      CGaussianVolume.precalculate m stale refMol fitMol dGaussianCutoff 1 precalculationResult
        = .ok pre
      ∧ pre.alphaValuesForRef = refMol.atomsList.map (fun a =>
          CGaussianVolume.dPARTIAL_ALPHA / m.pow a.dAtomRadius 2)
      ∧ pre.alphaValuesForFit = fitMol.atomsList.map (fun a =>
          CGaussianVolume.dPARTIAL_ALPHA / m.pow a.dAtomRadius 2)
      ∧ pre.dGaussianCutoff = dGaussianCutoff
      ∧ pre.intersectedAtomIdsForRef = idsRef
      ∧ pre.intersectedAtomIdsForFit = idsFit
      ∧ pre.squareDistancesMatrixForRef = refMol.atomsList.enum.map
          (fun (ia : Nat × CAtom R) => writtenRow stale refMol.atomsList ia.1 ia.2)
      ∧ pre.squareDistancesMatrixForFit = fitMol.atomsList.enum.map
          (fun (ia : Nat × CAtom R) => writtenRow stale fitMol.atomsList ia.1 ia.2)
      ∧ pre.neighborAtomIdsForRef.length = refMol.atomsList.length
      ∧ pre.neighborAtomIdsForFit.length = fitMol.atomsList.length :=
    ⟨_, hpre0, rfl, rfl, rfl, rfl, rfl, rfl, rfl, by simp [List.enum], by simp [List.enum]⟩
  have hctor := ofAtoms_eq m dIndeterminate refMol.getAtomsList fitMol.getAtomsList pre
    (by simp [CMolecule.getAtomsList, List.enum, haR, haF, hiR, hiF, hmR, hmF, hnR, hnF,
      hlr, hlf]) hdim
  have hvalid : pre.Valid refMol.getAtomsList.length fitMol.getAtomsList.length := by
    refine ⟨?_, ?_, ?_, ?_⟩
    · intro row hrow
      rw [hmR] at hrow
      obtain ⟨ia, -, rfl⟩ := List.mem_map.1 hrow
      exact writtenRow_length stale _ _ _
    · intro row hrow
      rw [hmF] at hrow
      obtain ⟨ia, -, rfl⟩ := List.mem_map.1 hrow
      exact writtenRow_length stale _ _ _
    · intro sets hsets S hS i hi
      rw [hiR] at hsets
      rw [hsingle idsRef hlr sets hsets, hidsRef] at hS
      obtain ⟨k, hk, rfl⟩ := List.mem_map.1 hS
      rw [List.mem_singleton.1 hi]
      exact List.mem_range.1 hk
    · intro sets hsets S hS i hi
      rw [hiF] at hsets
      rw [hsingle idsFit hlf sets hsets, hidsFit] at hS
      obtain ⟨k, hk, rfl⟩ := List.mem_map.1 hS
      rw [List.mem_singleton.1 hi]
      exact List.mem_range.1 hk
  have hdirect : ∀ g : CGaussianVolume R, g.dGaussianCutoff = dGaussianCutoff →
      g.getOverlapVolumeDirect m refMol fitMol
        = .ok ((refMol.atomsList.map (fun a =>
          (fitMol.atomsList.map (pairTerm m dGaussianCutoff a)).sum)).sum) := by
    intro g hg
    rw [getOverlapVolumeDirect_eq, if_pos hdim, hg]
  refine ⟨pre, _, _, _, hpre, hctor,
    getOverlapVolume_eq m dIndeterminate _ _ _ _ hctor hvalid, hdirect, ?_⟩
  -- the refined sum of order 1
  have hsum : refinedSum m signOfOrders pre
      (refMol.getAtomsList.map (crossNeighbourIds m pre.dGaussianCutoff fitMol.getAtomsList))
      (refMol.getAtomsList.map (fun a =>
        fitMol.getAtomsList.map (fun b => sqDist a.position b.position)))
      = CGaussianVolume.dP ^ 2 / 8 * (refMol.atomsList.map (fun a =>
          (fitMol.atomsList.map (pairTerm m dGaussianCutoff a)).sum)).sum := by
    unfold refinedSum
    simp only [hiR, hiF, hlr, show List.range 1 = [0] from rfl, List.map_cons, List.map_nil, List.sum_cons,
      List.sum_nil, add_zero, hidsRef, hidsFit, List.map_map, CMolecule.getAtomsList, hcut]
    rw [← List.sum_map_mul_left]
    apply sum_range_eq_sum_map
    intro i a ha
    show ((List.range fitMol.atomsList.length).map _).sum = _
    rw [← List.sum_map_mul_left]
    apply sum_range_eq_sum_map
    intro j b hb
    exact order_one_term m hpow pre dGaussianCutoff refMol.atomsList fitMol.atomsList haR haF
      i j a b ha hb
  show 8 * refinedSum m signOfOrders pre _ _ = _
  rw [hsum]
  ring

/-- C36 on two one-atom molecules over the reals with cutoff 0. -/
theorem C36_order_one_agrees_with_direct_mode_witness :
    (∀ x : ℝ, (⟨Real.exp, fun x y => x ^ y, Real.sin, Real.cos⟩ : CMath ℝ).pow x 2 = x ^ 2)
      ∧ ∃ pre e v w,
        CGaussianVolume.precalculate
            (⟨Real.exp, fun x y => x ^ y, Real.sin, Real.cos⟩ : CMath ℝ) (fun _ _ => 0)
            (CMolecule.new.addAtom ⟨1, 1.5, [0, 0, 0]⟩)
            (CMolecule.new.addAtom ⟨1, 1.2, [1, 0, 0]⟩) 0 1 (PrecalculationResult.new 0)
          = .ok pre
        ∧ CGaussianVolume.ofAtoms
            (⟨Real.exp, fun x y => x ^ y, Real.sin, Real.cos⟩ : CMath ℝ) 0
            (some (CMolecule.new.addAtom ⟨1, 1.5, [0, 0, 0]⟩ : CMolecule ℝ).getAtomsList)
            (some (CMolecule.new.addAtom ⟨1, 1.2, [1, 0, 0]⟩ : CMolecule ℝ).getAtomsList)
            (some pre) = .ok e
        ∧ e.getOverlapVolume (⟨Real.exp, fun x y => x ^ y, Real.sin, Real.cos⟩ : CMath ℝ)
            = .ok v
        ∧ (CGaussianVolume.new (0 : ℝ)).getOverlapVolumeDirect
            (⟨Real.exp, fun x y => x ^ y, Real.sin, Real.cos⟩ : CMath ℝ)
            (CMolecule.new.addAtom ⟨1, 1.5, [0, 0, 0]⟩)
            (CMolecule.new.addAtom ⟨1, 1.2, [1, 0, 0]⟩) = .ok w
        ∧ 8 * v = CGaussianVolume.dP ^ 2 * w := by
  have hpow : ∀ x : ℝ,
      (⟨Real.exp, fun x y => x ^ y, Real.sin, Real.cos⟩ : CMath ℝ).pow x 2 = x ^ 2 :=
    fun x => Real.rpow_two x
  obtain ⟨pre, e, v, w, hpre, he, hv, hw, heq⟩ := C36_order_one_agrees_with_direct_mode
    (⟨Real.exp, fun x y => x ^ y, Real.sin, Real.cos⟩ : CMath ℝ) hpow (fun _ _ => 0) 0
    (CMolecule.new.addAtom ⟨1, 1.5, [0, 0, 0]⟩) (CMolecule.new.addAtom ⟨1, 1.2, [1, 0, 0]⟩)
    0 (PrecalculationResult.new 0) (le_refl (0 : ℝ))
    (by simp [CMolecule.new, CMolecule.addAtom, CAtom.clone])
    (by simp [CMolecule.new, CMolecule.addAtom, CAtom.clone])
  exact ⟨hpow, pre, e, v, w, hpre, he, hv, hw (CGaussianVolume.new 0) rfl, heq⟩

end OrderOne

/-! ## Precalculation under a rigid motion -/

section RigidMotion

variable {R : Type} [LinearOrderedField R]

/-- The rotation of `rotateXYZ` keeps the square distance of two 3-D points,
when `sin^2 + cos^2 = 1` at the three angles. -/
theorem sqDist_rotatePoint (m : CMath R) (rx ry rz : R) (p q : List R)
    (hp : p.length = 3) (hq : q.length = 3)
    (hx : m.sin rx ^ 2 + m.cos rx ^ 2 = 1) (hy : m.sin ry ^ 2 + m.cos ry ^ 2 = 1)
    (hz : m.sin rz ^ 2 + m.cos rz ^ 2 = 1) :
    sqDist (rotatePoint m rx ry rz p) (rotatePoint m rx ry rz q) = sqDist p q := by
  obtain ⟨x, y, z, rfl⟩ := List.length_eq_three.1 hp
  obtain ⟨u, v, w, rfl⟩ := List.length_eq_three.1 hq
  simp only [sqDist, rotatePoint, List.zipWith_cons_cons, List.zipWith_nil_right,
    List.sum_cons, List.sum_nil]
  linear_combination
    (((u - x) * m.cos ry + (v - y) * m.sin rx * m.sin ry + (w - z) * m.cos rx * m.sin ry) ^ 2
        + ((v - y) * m.cos rx - (w - z) * m.sin rx) ^ 2) * hz
      + ((u - x) ^ 2 + ((v - y) * m.sin rx + (w - z) * m.cos rx) ^ 2) * hy
      + ((v - y) ^ 2 + (w - z) ^ 2) * hx

/-- The translation of `move` keeps the square distance of two 3-D points. -/
theorem sqDist_translatePoint (tx ty tz : R) (p q : List R)
    (hp : p.length = 3) (hq : q.length = 3) :
    sqDist (translatePoint tx ty tz p) (translatePoint tx ty tz q) = sqDist p q := by
  obtain ⟨x, y, z, rfl⟩ := List.length_eq_three.1 hp
  obtain ⟨u, v, w, rfl⟩ := List.length_eq_three.1 hq
  simp only [sqDist, translatePoint, List.zipWith_cons_cons, List.zipWith_nil_right,
    List.sum_cons, List.sum_nil]
  ring

/-- The rigid transformation keeps the square distance of two atoms. -/
theorem sqDist_rigidTransform (m : CMath R) (tx ty tz rx ry rz : R) (a b : CAtom R)
    (ha : a.position.length = 3) (hb : b.position.length = 3)
    (hx : m.sin rx ^ 2 + m.cos rx ^ 2 = 1) (hy : m.sin ry ^ 2 + m.cos ry ^ 2 = 1)
    (hz : m.sin rz ^ 2 + m.cos rz ^ 2 = 1) :
    sqDist (rigidTransform m tx ty tz rx ry rz a).position
        (rigidTransform m tx ty tz rx ry rz b).position
      = sqDist a.position b.position := by
  unfold rigidTransform
  simp only []
  rw [sqDist_translatePoint _ _ _ _ _ (rotatePoint_length m rx ry rz _ ha)
    (rotatePoint_length m rx ry rz _ hb), sqDist_rotatePoint m rx ry rz _ _ ha hb hx hy hz]

omit [LinearOrderedField R] in
theorem enumFrom_map_snd {α β : Type} (f : α → β) (l : List α) (k : Nat) :
    (l.map f).enumFrom k = (l.enumFrom k).map (fun (ia : Nat × α) => (ia.1, f ia.2)) := by
  induction l generalizing k with
  | nil => rfl
  | cons x xs ih => simp [List.enumFrom_cons, ih]

/-- The neighbour list of an atom does not change under a rigid motion of the
molecule. -/
theorem monotoneNeighbours_rigid (m : CMath R) (c tx ty tz rx ry rz : R)
    (atoms : List (CAtom R)) (i : Nat) (a : CAtom R)
    (h3 : ∀ b ∈ atoms, b.position.length = 3) (ha : a.position.length = 3)
    (hx : m.sin rx ^ 2 + m.cos rx ^ 2 = 1) (hy : m.sin ry ^ 2 + m.cos ry ^ 2 = 1)
    (hz : m.sin rz ^ 2 + m.cos rz ^ 2 = 1) :
    monotoneNeighbours m c (atoms.map (rigidTransform m tx ty tz rx ry rz)) i
        (rigidTransform m tx ty tz rx ry rz a)
      = monotoneNeighbours m c atoms i a := by
  unfold monotoneNeighbours
  rw [List.enum, enumFrom_map_snd, List.filter_map, List.map_map]
  have hfst : (Prod.fst ∘ fun (ia : Nat × CAtom R) =>
      (ia.1, rigidTransform m tx ty tz rx ry rz ia.2)) = Prod.fst := by
    funext ia; rfl
  rw [hfst]
  congr 1
  apply List.filter_congr
  intro jb hjb
  have hb : jb.2.position.length = 3 := by
    have hmem : jb.2 ∈ atoms := by
      have := List.mem_map_of_mem Prod.snd hjb
      rwa [List.enumFrom_map_snd] at this
    exact h3 _ hmem
  simp only [Function.comp]
  rw [sqDist_rigidTransform m tx ty tz rx ry rz a jb.2 ha hb hx hy hz]
  rfl

/-- The entries on and above the diagonal of the matrix written by
`precalculateMolecule` are the square distances of the atoms. -/
theorem entryAt_writtenRow (stale : Nat → Nat → R) (atoms : List (CAtom R)) (i j : Nat)
    (a b : CAtom R) (ha : atoms[i]? = some a) (hb : atoms[j]? = some b) (hij : i ≤ j) :
    entryAt (atoms.enum.map (fun (ia : Nat × CAtom R) => writtenRow stale atoms ia.1 ia.2)) i j
      = sqDist a.position b.position := by
  unfold entryAt
  have hrow : (atoms.enum.map (fun (ia : Nat × CAtom R) =>
      writtenRow stale atoms ia.1 ia.2)).getD i [] = writtenRow stale atoms i a := by
    rw [List.getD_eq_getElem?_getD, List.getElem?_map, List.enum, List.getElem?_enumFrom, ha]
    simp
  rw [hrow]
  unfold writtenRow
  rw [List.getD_eq_getElem?_getD, List.getElem?_map, List.enum, List.getElem?_enumFrom, hb]
  simp [hij]

/-- C35: a precalculation stays valid under rigid motion. For a molecule whose
atoms have three coordinates, a cutoff `>= 0`, a maximum order `>= 1`, rotation
angles at which `sin^2 + cos^2 = 1` and any translation: `rotateXYZ` followed by
`move` returns a molecule on which `precalculateMolecule` yields the alpha
values, the neighbour lists and the enumerated subsets at every order that it
yields on the molecule itself, and the same square distances at every entry
`[i][j]` with `i <= j`. -/
theorem C35_precalculation_invariant_under_rigid_motion (m : CMath R)
    (stale stale2 : Nat → Nat → R) (molecule : CMolecule R) (dGaussianCutoff : R)
    (nMaxIntersectionOrder : Int) (dx dy dz rx ry rz : R)
    (hc : dGaussianCutoff ≥ 0) (ho : nMaxIntersectionOrder ≥ 1)
    (h3 : ∀ a ∈ molecule.atomsList, a.position.length = 3)
    (hx : m.sin rx ^ 2 + m.cos rx ^ 2 = 1) (hy : m.sin ry ^ 2 + m.cos ry ^ 2 = 1)
    (hz : m.sin rz ^ 2 + m.cos rz ^ 2 = 1) :
    ∃ rotated moved p q,
      molecule.rotateXYZ m rx ry rz = .ok rotated
      ∧ rotated.move dx dy dz = .ok moved
      ∧ CGaussianVolume.precalculateMolecule m stale molecule dGaussianCutoff
          nMaxIntersectionOrder = .ok p
      ∧ CGaussianVolume.precalculateMolecule m stale2 moved dGaussianCutoff
          nMaxIntersectionOrder = .ok q
      ∧ q.alphaValues = p.alphaValues
      ∧ q.neighborAtomIds = p.neighborAtomIds
      ∧ q.intersectedAtomIds = p.intersectedAtomIds
      ∧ ∀ i j, i ≤ j → j < molecule.atomsList.length →
          entryAt q.squareDistancesMatrix i j = entryAt p.squareDistancesMatrix i j := by
  have hrot := rotateXYZ_ok m molecule rx ry rz h3
  have h3rot : ∀ a ∈ ({ molecule with atomsList := molecule.atomsList.map (fun a =>
      { a with position := rotatePoint m rx ry rz a.position }) } : CMolecule R).atomsList,
      a.position.length = 3 := by
    intro a ha
    obtain ⟨a0, ha0, rfl⟩ := List.mem_map.1 ha
    exact rotatePoint_length m rx ry rz _ (h3 a0 ha0)
  have hmove := move_ok _ dx dy dz h3rot
  obtain ⟨moved, hmoved, hatoms⟩ : ∃ moved : CMolecule R,
      ({ molecule with atomsList := molecule.atomsList.map (fun a =>
        { a with position := rotatePoint m rx ry rz a.position }) } : CMolecule R).move dx dy dz
        = .ok moved
      ∧ moved.atomsList = molecule.atomsList.map (rigidTransform m dx dy dz rx ry rz) := by
    refine ⟨_, hmove, ?_⟩
    show (molecule.atomsList.map _).map _ = _
    rw [List.map_map]
    rfl
  have h3moved : ∀ a ∈ moved.atomsList, a.position.length = 3 := by
    intro a ha
    rw [hatoms] at ha
    obtain ⟨a0, ha0, rfl⟩ := List.mem_map.1 ha
    exact translatePoint_length _ _ _ _ (rotatePoint_length m rx ry rz _ (h3 a0 ha0))
  obtain ⟨ids, hp, hlen, hget⟩ := precalculateMolecule_ok m stale molecule dGaussianCutoff
    nMaxIntersectionOrder hc (by omega) (three_coordinates _ h3)
  obtain ⟨ids2, hq, hlen2, hget2⟩ := precalculateMolecule_ok m stale2 moved dGaussianCutoff
    nMaxIntersectionOrder hc (by omega) (three_coordinates _ h3moved)
  have hnbrs : moved.atomsList.enum.map (fun (ia : Nat × CAtom R) =>
        monotoneNeighbours m dGaussianCutoff moved.atomsList ia.1 ia.2)
      = molecule.atomsList.enum.map (fun (ia : Nat × CAtom R) =>
        monotoneNeighbours m dGaussianCutoff molecule.atomsList ia.1 ia.2) := by
    rw [hatoms, List.enum, enumFrom_map_snd, List.map_map]
    apply List.map_congr_left
    intro ia hia
    have hmem : ia.2 ∈ molecule.atomsList := by
      have := List.mem_map_of_mem Prod.snd hia
      rwa [List.enumFrom_map_snd] at this
    exact monotoneNeighbours_rigid m dGaussianCutoff dx dy dz rx ry rz molecule.atomsList ia.1
      ia.2 h3 (h3 _ hmem) hx hy hz
  have hids : ids2 = ids := by
    apply List.ext_getElem (by rw [hlen, hlen2])
    intro k h1 h2
    have e1 := hget k (by omega)
    have e2 := hget2 k (by omega)
    rw [hnbrs, e1] at e2
    have e3 := Except.ok.inj e2
    rw [List.getD_eq_getElem _ [] h1, List.getD_eq_getElem _ [] h2] at e3
    exact e3.symm
  refine ⟨_, moved, _, _, hrot, hmoved, hp, hq, ?_, hnbrs, hids, ?_⟩
  · show moved.atomsList.map _ = molecule.atomsList.map _
    rw [hatoms, List.map_map]
    rfl
  · intro i j hij hj
    have hi : i < molecule.atomsList.length := by omega
    show entryAt (moved.atomsList.enum.map _) i j = entryAt (molecule.atomsList.enum.map _) i j
    rw [entryAt_writtenRow stale molecule.atomsList i j _ _ (List.getElem?_eq_getElem hi)
        (List.getElem?_eq_getElem hj) hij,
      entryAt_writtenRow stale2 moved.atomsList i j
        (rigidTransform m dx dy dz rx ry rz molecule.atomsList[i])
        (rigidTransform m dx dy dz rx ry rz molecule.atomsList[j])
        (by rw [hatoms, List.getElem?_map, List.getElem?_eq_getElem hi]; rfl)
        (by rw [hatoms, List.getElem?_map, List.getElem?_eq_getElem hj]; rfl) hij]
    exact sqDist_rigidTransform m dx dy dz rx ry rz _ _ (h3 _ (List.getElem_mem _))
      (h3 _ (List.getElem_mem _)) hx hy hz

/-- C35 on a molecule of two atoms over the reals, rotated by the angles
`(1, 2, 3)` and moved by `(4, 5, 6)`. -/
theorem C35_precalculation_invariant_under_rigid_motion_witness :
    (Real.sin 1 ^ 2 + Real.cos 1 ^ 2 = 1)
      ∧ ∃ rotated moved p q,
        ((CMolecule.new.addAtom ⟨1, 1.5, [0, 0, 0]⟩).addAtom ⟨2, 2, [1, 0, 0]⟩).rotateXYZ
            (⟨Real.exp, fun x y => x ^ y, Real.sin, Real.cos⟩ : CMath ℝ) 1 2 3 = .ok rotated
        ∧ rotated.move 4 5 6 = .ok moved
        ∧ CGaussianVolume.precalculateMolecule
            (⟨Real.exp, fun x y => x ^ y, Real.sin, Real.cos⟩ : CMath ℝ) (fun _ _ => 0)
            ((CMolecule.new.addAtom ⟨1, 1.5, [0, 0, 0]⟩).addAtom ⟨2, 2, [1, 0, 0]⟩) 0 2
          = .ok p
        ∧ CGaussianVolume.precalculateMolecule
            (⟨Real.exp, fun x y => x ^ y, Real.sin, Real.cos⟩ : CMath ℝ) (fun _ _ => 7)
            moved 0 2 = .ok q
        ∧ q.neighborAtomIds = p.neighborAtomIds
        ∧ q.intersectedAtomIds = p.intersectedAtomIds := by
  obtain ⟨rotated, moved, p, q, h1, h2, h3, h4, -, h6, h7, -⟩ :=
    C35_precalculation_invariant_under_rigid_motion
      (⟨Real.exp, fun x y => x ^ y, Real.sin, Real.cos⟩ : CMath ℝ) (fun _ _ => 0) (fun _ _ => 7)
      ((CMolecule.new.addAtom ⟨1, 1.5, [0, 0, 0]⟩).addAtom ⟨2, 2, [1, 0, 0]⟩) 0 2 4 5 6 1 2 3
      (le_refl (0 : ℝ)) (by decide)
      (by simp [CMolecule.new, CMolecule.addAtom, CAtom.clone])
      (Real.sin_sq_add_cos_sq 1) (Real.sin_sq_add_cos_sq 2) (Real.sin_sq_add_cos_sq 3)
  exact ⟨Real.sin_sq_add_cos_sq 1, rotated, moved, p, q, h1, h2, h3, h4, h6, h7⟩

end RigidMotion

/-! ## Enumeration of the intersecting sets -/

section Enumeration

/-- The inner loop of the filter, for an id that has a neighbour list. -/
theorem behindLoop_ok (nbrs : List (List Nat)) (id : Nat) (hid : id < nbrs.length)
    (behind : List Nat) :
    CIntersectedAtomsFilter.behindLoop nbrs id behind
      = .ok (behind.all (fun idBehind => EXIST idBehind (nbrs.getD id []))) := by
  induction behind with
  | nil => rfl
  | cons x xs ih =>
    unfold CIntersectedAtomsFilter.behindLoop
    rw [vecGet_natCast nbrs id [] hid, ok_bind, ih, List.all_cons]
    cases h : EXIST x (nbrs.getD id [])
    · rfl
    · rfl

/-- The filter on ids that have neighbour lists. -/
theorem filter_call_ok (nbrs : List (List Nat)) (ids : List Nat)
    (h : ∀ x ∈ ids, x < nbrs.length) :
    CIntersectedAtomsFilter.call nbrs ids = .ok (pairwiseNeighbours nbrs ids) := by
  induction ids with
  | nil => rfl
  | cons x xs ih =>
    unfold CIntersectedAtomsFilter.call
    rw [behindLoop_ok nbrs x (h x (List.mem_cons_self x xs)) xs, ok_bind,
      ih (fun y hy => h y (List.mem_cons_of_mem x hy))]
    have hdef : pairwiseNeighbours nbrs (x :: xs)
        = (xs.all (fun idBehind => EXIST idBehind (nbrs.getD x []))
          && pairwiseNeighbours nbrs xs) := rfl
    rw [hdef]
    cases hb : xs.all (fun idBehind => EXIST idBehind (nbrs.getD x []))
    · rfl
    · rfl

/-- No selection has more elements than the list. -/
theorem selections_eq_nil (k : Nat) (l : List Nat) (h : l.length < k) : selections k l = [] := by
  induction l generalizing k with
  | nil =>
    cases k with
    | zero => exact absurd h (Nat.lt_irrefl 0)
    | succ k => rfl
  | cons x xs ih =>
    cases k with
    | zero => exact absurd h (Nat.not_lt_zero _)
    | succ k =>
      have hlen : xs.length < k := by simpa using h
      rw [selections, ih k hlen, ih (k + 1) (by omega)]
      rfl

/-- The combination generator on candidates in strictly ascending order above
the current combination, with a number of elements left that is at least the
number of candidates: it appends, in the order of the selections, every
selection of `k` candidates put behind the current combination that passes the
filter. -/
theorem combineElements_eq (filter : List Nat → Except Failure Bool) (P : List Nat → Bool)
    (n : Nat) (hfilter : ∀ ids : List Nat, (∀ x ∈ ids, x < n) → filter ids = .ok (P ids))
    (remaining : List Nat) (hrem : ∀ x ∈ remaining, x < n)
    (hsorted : remaining.Pairwise (fun a b => a < b)) :
    ∀ (nElementsLeft : Int) (k : Nat) (currentCombination : List Nat)
      (resultCombinations : List (List Nat)), (remaining.length : Int) ≤ nElementsLeft →
      (∀ x ∈ currentCombination, x < n) →
      (∀ y ∈ currentCombination, ∀ x ∈ remaining, y < x) →
      CGaussianVolume.combineElements filter remaining nElementsLeft (k : Int)
          currentCombination resultCombinations
        = .ok (resultCombinations
          ++ ((selections k remaining).map (fun s => currentCombination ++ s)).filter P)
      ∧ CGaussianVolume.combineElementsLoop filter remaining nElementsLeft ((k + 1 : Nat) : Int)
          currentCombination resultCombinations
        = .ok (resultCombinations
          ++ ((selections (k + 1) remaining).map (fun s => currentCombination ++ s)).filter P) := by
  induction remaining with
  | nil =>
    intro left k current result hleft hcur habove
    have hloop : ∀ k' : Nat, CGaussianVolume.combineElementsLoop filter [] left
        ((k' + 1 : Nat) : Int) current result
        = .ok (result ++ ((selections (k' + 1) []).map (fun s => current ++ s)).filter P) := by
      intro k'
      unfold CGaussianVolume.combineElementsLoop
      simp [selections, pure, Except.pure]
    refine ⟨?_, hloop k⟩
    unfold CGaussianVolume.combineElements
    split_ifs with h1 h2
    · have hk : ([] : List Nat).length < k := by
        have : (0 : Int) ≤ left := by simpa using hleft
        simp only [List.length_nil]
        omega
      rw [selections_eq_nil k [] hk]
      simp [pure, Except.pure]
    · have hk : k = 0 := by omega
      subst hk
      rw [hfilter current hcur, ok_bind]
      cases hP : P current <;> simp [selections, hP, pure, Except.pure]
    · obtain ⟨k', rfl⟩ : ∃ k', k = k' + 1 := ⟨k - 1, by omega⟩
      exact hloop k'
  | cons start rest ih =>
    intro left k current result hleft hcur habove
    have hrest : ∀ x ∈ rest, x < n := fun x hx => hrem x (List.mem_cons_of_mem start hx)
    have hlen : ((start :: rest).length : Int) = (rest.length : Int) + 1 := by simp
    have hins : setInsert start current = current ++ [start] :=
      setInsert_append start current
        (fun y hy => habove y hy start (List.mem_cons_self start rest))
    have hloop : ∀ k' : Nat, CGaussianVolume.combineElementsLoop filter (start :: rest) left
        ((k' + 1 : Nat) : Int) current result
        = .ok (result
          ++ ((selections (k' + 1) (start :: rest)).map (fun s => current ++ s)).filter P) := by
      intro k'
      unfold CGaussianVolume.combineElementsLoop
      simp only []
      have hcast : (((k' + 1 : Nat) : Int) - 1) = (k' : Int) := by omega
      rw [hcast, hins]
      have hsorted2 : rest.Pairwise (fun a b => a < b) := (List.pairwise_cons.1 hsorted).2
      have hstart : ∀ x ∈ rest, start < x := (List.pairwise_cons.1 hsorted).1
      have h1 := (ih hrest hsorted2 (left - 1) k' (current ++ [start]) result (by omega)
        (by
          intro x hx
          rcases List.mem_append.1 hx with hx | hx
          · exact hcur x hx
          · rw [List.mem_singleton.1 hx]; exact hrem _ (List.mem_cons_self _ rest))
        (by
          intro y hy x hx
          rcases List.mem_append.1 hy with hy | hy
          · exact habove y hy x (List.mem_cons_of_mem start hx)
          · rw [List.mem_singleton.1 hy]; exact hstart x hx)).1
      rw [h1, ok_bind]
      have h2 := (ih hrest hsorted2 left k' current
        (result ++ ((selections k' rest).map (fun s => (current ++ [start]) ++ s)).filter P)
        (by omega) hcur
        (fun y hy x hx => habove y hy x (List.mem_cons_of_mem start hx))).2
      rw [h2]
      simp only [selections, List.map_append, List.filter_append, List.map_map,
        List.append_assoc, Function.comp, List.singleton_append]
      rfl
    refine ⟨?_, hloop k⟩
    unfold CGaussianVolume.combineElements
    split_ifs with h1 h2
    · have hk : (start :: rest).length < k := by omega
      rw [selections_eq_nil k _ hk]
      simp [pure, Except.pure]
    · have hk : k = 0 := by omega
      subst hk
      rw [hfilter current hcur, ok_bind]
      cases hP : P current <;> simp [selections, hP, pure, Except.pure]
    · obtain ⟨k', rfl⟩ : ∃ k', k = k' + 1 := ⟨k - 1, by omega⟩
      exact hloop k'

/-- A loop that appends a list per element. -/
theorem foldlM_append_bind {α β : Type} (l : List α)
    (step : List β → α → Except Failure (List β)) (G : α → List β)
    (hstep : ∀ acc, ∀ x ∈ l, step acc x = .ok (acc ++ G x)) (init : List β) :
    l.foldlM step init = .ok (init ++ l.flatMap G) := by
  induction l generalizing init with
  | nil => simp [pure, Except.pure]
  | cons x xs ih =>
    rw [List.foldlM_cons, hstep init x (List.mem_cons_self x xs), ok_bind,
      ih (fun acc y hy => hstep acc y (List.mem_cons_of_mem x hy)), List.flatMap_cons,
      List.append_assoc]

/-- The selections of one element are the singletons. -/
theorem selections_one (l : List Nat) : selections 1 l = l.map (fun j => [j]) := by
  induction l with
  | nil => rfl
  | cons x xs ih =>
    rw [selections, ih]
    simp [selections]

/-- The elements of a selection are elements of the list. -/
theorem mem_of_mem_selections (k : Nat) (l : List Nat) :
    ∀ s ∈ selections k l, ∀ x ∈ s, x ∈ l := by
  induction l generalizing k with
  | nil =>
    intro s hs x hx
    cases k with
    | zero =>
      rw [selections, List.mem_singleton] at hs
      subst hs
      exact absurd hx (List.not_mem_nil x)
    | succ k => exact absurd hs (List.not_mem_nil s)
  | cons y ys ih =>
    intro s hs x hx
    cases k with
    | zero =>
      rw [selections, List.mem_singleton] at hs
      subst hs
      exact absurd hx (List.not_mem_nil x)
    | succ k =>
      rw [selections, List.mem_append] at hs
      rcases hs with hs | hs
      · obtain ⟨t, ht, rfl⟩ := List.mem_map.1 hs
        rcases List.mem_cons.1 hx with rfl | hx
        · exact List.mem_cons_self _ ys
        · exact List.mem_cons_of_mem y (ih k t ht x hx)
      · exact List.mem_cons_of_mem y (ih (k + 1) s hs x hx)

/-- The loop of order 2 over the neighbours of one key. -/
theorem foldl_pairs (i : Nat) (l : List Nat) (hl : ∀ j ∈ l, i < j) (init : List (List Nat)) :
    l.foldl (fun intersectedAtomIds neighborId =>
        intersectedAtomIds ++ [setInsert neighborId (setInsert i [])]) init
      = init ++ l.map (fun j => [i, j]) := by
  induction l generalizing init with
  | nil => simp
  | cons j js ih =>
    have hj : i < j := hl j (List.mem_cons_self j js)
    rw [List.foldl_cons, ih (fun x hx => hl x (List.mem_cons_of_mem j hx)), List.map_cons,
      List.append_assoc]
    have : setInsert j (setInsert i []) = [i, j] := by
      simp [setInsert, Nat.lt_asymm hj, Nat.ne_of_gt hj]
    rw [this]
    rfl

/-- The result of `enumerateIntersectedAtomIds` at every order `k >= 1`, for
neighbour lists that are strictly ascending and hold only ids of the vector
above their key. -/
theorem enumerateIntersectedAtomIds_eq (nbrs : List (List Nat))
    (hmono : ∀ i, i < nbrs.length →
      (nbrs.getD i []).Pairwise (fun a b => a < b) ∧ ∀ x ∈ nbrs.getD i [], i < x)
    (hids : ∀ l ∈ nbrs, ∀ x ∈ l, x < nbrs.length)
    (k : Nat) (hk : 1 ≤ k) (init : List (List Nat)) :
    CGaussianVolume.enumerateIntersectedAtomIds nbrs (k : Int) init
      = .ok (init ++ enumeratedSets nbrs k) := by
  have hget : ∀ i ∈ List.range nbrs.length,
      vecGet nbrs (i : Int) = .ok (nbrs.getD i []) ∧ (∀ x ∈ nbrs.getD i [], x < nbrs.length)
        ∧ (nbrs.getD i []).Pairwise (fun a b => a < b) ∧ ∀ x ∈ nbrs.getD i [], i < x := by
    intro i hi
    have hi' : i < nbrs.length := List.mem_range.1 hi
    refine ⟨vecGet_natCast nbrs i [] hi', ?_, hmono i hi'⟩
    rw [List.getD_eq_getElem _ [] hi']
    exact hids _ (List.getElem_mem _)
  unfold CGaussianVolume.enumerateIntersectedAtomIds enumeratedSets
  rw [if_pos (by omega), if_neg (by omega)]
  split_ifs with h1 h2
  · -- order 1
    have hk1 : k = 1 := by omega
    subst hk1
    rw [foldl_singletons]
    simp [selections, pairwiseNeighbours, List.map_eq_flatMap, pure, Except.pure]
  · -- order 2
    have hk2 : k = 2 := by omega
    subst hk2
    apply foldlM_append_bind
    intro acc i hi
    obtain ⟨hv, -, -, habove⟩ := hget i hi
    rw [hv, ok_bind, foldl_pairs i _ habove]
    have h21 : (2 - 1 : Nat) = 1 := rfl
    rw [h21, selections_one]
    have hfil : ((nbrs.getD i []).map (fun j => [j])).filter (pairwiseNeighbours nbrs)
        = (nbrs.getD i []).map (fun j => [j]) := by
      apply List.filter_eq_self.2
      intro s hs
      obtain ⟨j, -, rfl⟩ := List.mem_map.1 hs
      rfl
    rw [hfil, List.map_map]
    rfl
  · -- general case
    apply foldlM_append_bind
    intro acc i hi
    obtain ⟨hv, hlt, hsorted, habove⟩ := hget i hi
    rw [hv, ok_bind]
    have hcast : ((k : Int) - 1) = ((k - 1 : Nat) : Int) := by omega
    rw [hcast, (combineElements_eq (CIntersectedAtomsFilter.call nbrs) (pairwiseNeighbours nbrs)
      nbrs.length (fun ids h => filter_call_ok nbrs ids h) (nbrs.getD i []) hlt hsorted
      ((nbrs.getD i []).length : Int) (k - 1) [] [] (le_refl _)
      (fun x hx => absurd hx (List.not_mem_nil x))
      (fun y hy => absurd hy (List.not_mem_nil y))).1, ok_bind]
    simp only [List.nil_append, List.map_id']
    have hmap : ((selections (k - 1) (nbrs.getD i [])).filter (pairwiseNeighbours nbrs)).map
          (fun idsSet => setInsert i idsSet)
        = ((selections (k - 1) (nbrs.getD i [])).filter (pairwiseNeighbours nbrs)).map
          (fun idsSet => i :: idsSet) := by
      apply List.map_congr_left
      intro s hs
      exact setInsert_cons i s (fun y hy =>
        habove y (mem_of_mem_selections (k - 1) _ s (List.mem_of_mem_filter hs) y hy))
    rw [hmap]
    rfl

/-- The selections of `k` elements of a list are its sublists of length `k`. -/
theorem mem_selections (k : Nat) (l s : List Nat) :
    s ∈ selections k l ↔ s.Sublist l ∧ s.length = k := by
  induction l generalizing k s with
  | nil =>
    cases k with
    | zero =>
      rw [selections, List.mem_singleton]
      constructor
      · rintro rfl
        exact ⟨List.Sublist.refl _, rfl⟩
      · rintro ⟨-, h⟩
        exact List.length_eq_zero.1 h
    | succ k =>
      rw [selections]
      constructor
      · intro h
        exact absurd h (List.not_mem_nil s)
      · rintro ⟨h1, h2⟩
        rw [List.sublist_nil.1 h1] at h2
        exact absurd h2 (by simp)
  | cons y ys ih =>
    cases k with
    | zero =>
      rw [selections, List.mem_singleton]
      constructor
      · rintro rfl
        exact ⟨List.nil_sublist _, rfl⟩
      · rintro ⟨-, h⟩
        exact List.length_eq_zero.1 h
    | succ k =>
      rw [selections, List.mem_append, List.mem_map, List.sublist_cons_iff]
      constructor
      · rintro (⟨t, ht, rfl⟩ | h)
        · obtain ⟨h1, h2⟩ := (ih k t).1 ht
          exact ⟨Or.inr ⟨t, rfl, h1⟩, by rw [List.length_cons, h2]⟩
        · obtain ⟨h1, h2⟩ := (ih (k + 1) s).1 h
          exact ⟨Or.inl h1, h2⟩
      · rintro ⟨h1 | ⟨t, rfl, ht⟩, h2⟩
        · exact Or.inr ((ih (k + 1) s).2 ⟨h1, h2⟩)
        · exact Or.inl ⟨t, (ih k t).2 ⟨ht, by simpa using h2⟩, rfl⟩

/-- No selection of a list without duplicates is visited twice. -/
theorem selections_nodup (k : Nat) (l : List Nat) (h : l.Nodup) : (selections k l).Nodup := by
  induction l generalizing k with
  | nil =>
    cases k with
    | zero => exact List.nodup_singleton _
    | succ k => exact List.nodup_nil
  | cons y ys ih =>
    cases k with
    | zero => exact List.nodup_singleton _
    | succ k =>
      have hy : y ∉ ys := (List.nodup_cons.1 h).1
      have hys : ys.Nodup := (List.nodup_cons.1 h).2
      rw [selections]
      refine List.Nodup.append ((ih k hys).map (fun a b hab => (List.cons.inj hab).2))
        (ih (k + 1) hys) ?_
      intro s hs1 hs2
      obtain ⟨t, -, rfl⟩ := List.mem_map.1 hs1
      exact hy (mem_of_mem_selections (k + 1) ys _ hs2 y (List.mem_cons_self y t))

/-- The clique filter accepts a set iff every id has every id behind it in its
neighbour list. -/
theorem pairwiseNeighbours_iff (nbrs : List (List Nat)) (s : List Nat) :
    pairwiseNeighbours nbrs s = true ↔ s.Pairwise (fun a b => b ∈ nbrs.getD a []) := by
  induction s with
  | nil => simp [pairwiseNeighbours]
  | cons x xs ih =>
    rw [pairwiseNeighbours, Bool.and_eq_true, ih, List.pairwise_cons, List.all_eq_true]
    simp [EXIST]

/-- The sets appended at order `k >= 1` are exactly the sets of `k` ids of the
vector in which every id has every id behind it in its neighbour list. -/
theorem mem_enumeratedSets (nbrs : List (List Nat))
    (hmono : ∀ i, i < nbrs.length →
      (nbrs.getD i []).Pairwise (fun a b => a < b) ∧ ∀ x ∈ nbrs.getD i [], i < x)
    (hids : ∀ l ∈ nbrs, ∀ x ∈ l, x < nbrs.length)
    (k : Nat) (hk : 1 ≤ k) (S : List Nat) :
    S ∈ enumeratedSets nbrs k
      ↔ S.length = k ∧ (∀ x ∈ S, x < nbrs.length)
        ∧ S.Pairwise (fun a b => b ∈ nbrs.getD a []) := by
  have hlt : ∀ i, i < nbrs.length → ∀ x ∈ nbrs.getD i [], x < nbrs.length := by
    intro i hi
    rw [List.getD_eq_getElem _ [] hi]
    exact hids _ (List.getElem_mem _)
  unfold enumeratedSets
  rw [List.mem_flatMap]
  constructor
  · rintro ⟨i, hi, hS⟩
    have hi' : i < nbrs.length := List.mem_range.1 hi
    obtain ⟨s, hs, rfl⟩ := List.mem_map.1 hS
    obtain ⟨hsel, hP⟩ := List.mem_filter.1 hs
    obtain ⟨hsub, hlen⟩ := (mem_selections _ _ _).1 hsel
    refine ⟨by rw [List.length_cons, hlen]; omega, ?_, ?_⟩
    · intro x hx
      rcases List.mem_cons.1 hx with rfl | hx
      · exact hi'
      · exact hlt i hi' x (hsub.subset hx)
    · rw [List.pairwise_cons]
      exact ⟨fun b hb => hsub.subset hb, (pairwiseNeighbours_iff nbrs s).1 hP⟩
  · rintro ⟨hlen, hall, hpw⟩
    cases S with
    | nil => simp at hlen; omega
    | cons i s =>
      have hi : i < nbrs.length := hall i (List.mem_cons_self i s)
      obtain ⟨hnb, hpw2⟩ := List.pairwise_cons.1 hpw
      have hsorted : s.Pairwise (fun a b => a < b) := by
        refine List.Pairwise.imp_of_mem ?_ hpw2
        intro a b ha _ hab
        exact (hmono a (hall a (List.mem_cons_of_mem i ha))).2 b hab
      have hnodup : s.Nodup := hsorted.imp (fun h => Nat.ne_of_lt h)
      have hsub : s.Sublist (nbrs.getD i []) :=
        List.sublist_of_subperm_of_sorted (List.subperm_of_subset hnodup hnb) hsorted
          (hmono i hi).1
      refine ⟨i, List.mem_range.2 hi, List.mem_map.2 ⟨s, List.mem_filter.2
        ⟨(mem_selections _ _ _).2 ⟨hsub, by simp at hlen; omega⟩,
          (pairwiseNeighbours_iff nbrs s).2 hpw2⟩, rfl⟩⟩

/-- No set is appended twice. -/
theorem enumeratedSets_nodup (nbrs : List (List Nat))
    (hmono : ∀ i, i < nbrs.length →
      (nbrs.getD i []).Pairwise (fun a b => a < b) ∧ ∀ x ∈ nbrs.getD i [], i < x)
    (k : Nat) : (enumeratedSets nbrs k).Nodup := by
  unfold enumeratedSets
  rw [List.nodup_flatMap]
  constructor
  · intro i hi
    have hi' : i < nbrs.length := List.mem_range.1 hi
    have hnodup : (nbrs.getD i []).Nodup := (hmono i hi').1.imp (fun h => Nat.ne_of_lt h)
    exact ((selections_nodup _ _ hnodup).filter _).map (fun a b hab => (List.cons.inj hab).2)
  · refine (List.nodup_range _).imp ?_
    intro i j hij
    show List.Disjoint _ _
    intro S h1 h2
    obtain ⟨s, -, rfl⟩ := List.mem_map.1 h1
    obtain ⟨t, -, h⟩ := List.mem_map.1 h2
    exact hij (List.cons.inj h).1.symm

end Enumeration

/-! ## Enumerated sets of a precalculated molecule -/

section EnumerationClaim

variable {R : Type} [LinearOrderedField R]

/-- C31: the enumeration returns exactly the cliques. For a molecule whose atoms
have three coordinates, a cutoff `>= 0` and a maximum order `>= 1`,
`precalculateMolecule` returns, and on the neighbour lists it has built
`enumerateIntersectedAtomIds` returns at every order `k >= 1` a list that holds
a set `S` iff `S` has `k` ids of atoms and every id of `S` has every id behind it
in its neighbour list (the members of `S` are pairwise neighbours); no set is
listed twice, every listed set is in strictly ascending order, and for `k` up
to the maximum order the list is the one stored at index `k - 1`. -/
theorem C31_enumeration_is_exactly_the_cliques (m : CMath R) (stale : Nat → Nat → R)
    (molecule : CMolecule R) (dGaussianCutoff : R) (nMaxIntersectionOrder : Int)
    (hc : dGaussianCutoff ≥ 0) (ho : nMaxIntersectionOrder ≥ 1)
    (h3 : ∀ a ∈ molecule.atomsList, a.position.length = 3) :
    ∃ p, CGaussianVolume.precalculateMolecule m stale molecule dGaussianCutoff
        nMaxIntersectionOrder = .ok p
      ∧ ∀ k : Nat, 1 ≤ k →
        ∃ ids, CGaussianVolume.enumerateIntersectedAtomIds p.neighborAtomIds (k : Int) []
            = .ok ids
          ∧ (∀ S, S ∈ ids ↔ S.length = k ∧ (∀ x ∈ S, x < molecule.atomsList.length)
              ∧ S.Pairwise (fun a b => b ∈ p.neighborAtomIds.getD a []))
          ∧ ids.Nodup
          ∧ (∀ S ∈ ids, S.Pairwise (fun a b => a < b))
          ∧ ((k : Int) ≤ nMaxIntersectionOrder → p.intersectedAtomIds.getD (k - 1) [] = ids) := by
  obtain ⟨stored, hp, hlen, hget⟩ := precalculateMolecule_ok m stale molecule dGaussianCutoff
    nMaxIntersectionOrder hc (by omega) (three_coordinates _ h3)
  have hmono := neighbours_monotone m dGaussianCutoff molecule.atomsList
  have hids : ∀ l ∈ molecule.atomsList.enum.map (fun (ia : Nat × CAtom R) =>
      monotoneNeighbours m dGaussianCutoff molecule.atomsList ia.1 ia.2),
      ∀ x ∈ l, x < (molecule.atomsList.enum.map (fun (ia : Nat × CAtom R) =>
        monotoneNeighbours m dGaussianCutoff molecule.atomsList ia.1 ia.2)).length := by
    intro l hl x hx
    obtain ⟨ia, -, rfl⟩ := List.mem_map.1 hl
    have := monotoneNeighbours_lt m dGaussianCutoff molecule.atomsList ia.1 ia.2 x hx
    simpa [List.enum] using this
  have hcount : (molecule.atomsList.enum.map (fun (ia : Nat × CAtom R) =>
      monotoneNeighbours m dGaussianCutoff molecule.atomsList ia.1 ia.2)).length
      = molecule.atomsList.length := by simp [List.enum]
  refine ⟨_, hp, ?_⟩
  intro k hk
  have henum := enumerateIntersectedAtomIds_eq _ hmono hids k hk []
  rw [List.nil_append] at henum
  refine ⟨_, henum, ?_, enumeratedSets_nodup _ hmono k, ?_, ?_⟩
  · intro S
    have := mem_enumeratedSets _ hmono hids k hk S
    rw [hcount] at this
    exact this
  · intro S hS
    obtain ⟨-, hall, hpw⟩ := (mem_enumeratedSets _ hmono hids k hk S).1 hS
    refine List.Pairwise.imp_of_mem ?_ hpw
    intro a b ha _ hab
    exact (hmono a (hall a ha)).2 b hab
  · intro hle
    have h := hget (k - 1) (by omega)
    have hcast : (((k - 1 : Nat) : Int) + 1) = (k : Int) := by omega
    rw [hcast, henum] at h
    exact (Except.ok.inj h).symm

/-- C31 on a molecule of three atoms over the reals in which the atoms 0 and 1
and the atoms 1 and 2 are neighbours, at order 2. -/
theorem C31_enumeration_is_exactly_the_cliques_witness :
    ∃ p ids,
      CGaussianVolume.precalculateMolecule
          (⟨Real.exp, fun x y => x ^ y, Real.sin, Real.cos⟩ : CMath ℝ) (fun _ _ => 0)
          (((CMolecule.new.addAtom ⟨1, 1, [0, 0, 0]⟩).addAtom ⟨2, 1, [1, 0, 0]⟩).addAtom
            ⟨3, 1, [2, 0, 0]⟩) 0 3 = .ok p
      ∧ CGaussianVolume.enumerateIntersectedAtomIds p.neighborAtomIds 2 [] = .ok ids
      ∧ ([0, 1] ∈ ids ↔ ([0, 1] : List Nat).length = 2 ∧ (∀ x ∈ ([0, 1] : List Nat),
            x < (((CMolecule.new.addAtom ⟨1, 1, [0, 0, 0]⟩).addAtom ⟨2, 1, [1, 0, 0]⟩).addAtom
              ⟨3, 1, [2, 0, 0]⟩ : CMolecule ℝ).atomsList.length)
          ∧ ([0, 1] : List Nat).Pairwise (fun a b => b ∈ p.neighborAtomIds.getD a []))
      ∧ ids.Nodup := by
  obtain ⟨p, hp, h⟩ := C31_enumeration_is_exactly_the_cliques
    (⟨Real.exp, fun x y => x ^ y, Real.sin, Real.cos⟩ : CMath ℝ) (fun _ _ => 0)
    (((CMolecule.new.addAtom ⟨1, 1, [0, 0, 0]⟩).addAtom ⟨2, 1, [1, 0, 0]⟩).addAtom
      ⟨3, 1, [2, 0, 0]⟩) 0 3 (le_refl (0 : ℝ)) (by decide)
    (by simp [CMolecule.new, CMolecule.addAtom, CAtom.clone])
  obtain ⟨ids, hids, hmem, hnodup, -, -⟩ := h 2 (by decide)
  exact ⟨p, ids, hp, hids, hmem [0, 1], hnodup⟩

end EnumerationClaim

/-! ## Iterations that return -/

section ReturningIterations

variable {R : Type} [LinearOrderedField R]

/-- The scan of `updateSpecialVertices` on any cached values: the tracked highest
value bounds every cached value from above and the tracked lowest value from
below; an index that is left by the scan and is not `-1` is an index of the
vector and holds the tracked value; the second highest value is at most the
highest one, and a lowest index other than `-1` holds a value below `DBL_MAX`. -/
theorem updateSpecialVertices_scan (s : CSimplexOptimizer R) :
    (∀ j < s.currentFunctionValues.length,
        s.currentFunctionValues.getD j 0 ≤ s.updateSpecialVertices.dHighestSolutionValue)
      ∧ (∀ hi : Nat, s.updateSpecialVertices.nHighestSolutionId = (hi : Int) →
          hi < s.currentFunctionValues.length
            ∧ s.updateSpecialVertices.dHighestSolutionValue = s.currentFunctionValues.getD hi 0)
      ∧ (∀ j < s.currentFunctionValues.length,
          s.updateSpecialVertices.dLowestSolutionValue ≤ s.currentFunctionValues.getD j 0)
      ∧ (∀ lo : Nat, s.updateSpecialVertices.nLowestSolutionId = (lo : Int) →
          lo < s.currentFunctionValues.length
            ∧ s.updateSpecialVertices.dLowestSolutionValue = s.currentFunctionValues.getD lo 0
            ∧ s.updateSpecialVertices.dLowestSolutionValue < DBL_MAX)
      ∧ s.updateSpecialVertices.dSecondHighestSolutionValue
          ≤ s.updateSpecialVertices.dHighestSolutionValue
      ∧ s.updateSpecialVertices.dLowestSolutionValue ≤ DBL_MAX := by
  have key := foldl_enumFrom_invariant
    (fun (self : CSimplexOptimizer R) (iv : Nat × R) =>
      self.updateSpecialVerticesStep iv.1 iv.2)
    (fun k t =>
      (∀ j < k, s.currentFunctionValues.getD j 0 ≤ t.dHighestSolutionValue)
      ∧ (t.nHighestSolutionId = -1 ∨ ∃ hi : Nat, hi < k ∧ t.nHighestSolutionId = (hi : Int)
          ∧ t.dHighestSolutionValue = s.currentFunctionValues.getD hi 0)
      ∧ (∀ j < k, t.dLowestSolutionValue ≤ s.currentFunctionValues.getD j 0)
      ∧ ((t.nLowestSolutionId = -1 ∧ t.dLowestSolutionValue = DBL_MAX)
          ∨ ∃ lo : Nat, lo < k ∧ t.nLowestSolutionId = (lo : Int)
            ∧ t.dLowestSolutionValue = s.currentFunctionValues.getD lo 0
            ∧ t.dLowestSolutionValue < DBL_MAX)
      ∧ t.dSecondHighestSolutionValue ≤ t.dHighestSolutionValue)
    s.currentFunctionValues 0
    { s with
      nHighestSolutionId := -1
      nLowestSolutionId := -1
      nSecondHighestSolutionId := -1
      dHighestSolutionValue := -DBL_MAX
      dLowestSolutionValue := DBL_MAX
      dSecondHighestSolutionValue := -DBL_MAX }
    ⟨fun j hj => absurd hj (Nat.not_lt_zero j), Or.inl rfl,
      fun j hj => absurd hj (Nat.not_lt_zero j), Or.inl ⟨rfl, rfl⟩, le_refl _⟩
    (by
      intro k hk t ht
      rw [zero_add] at ht ⊢
      obtain ⟨hmax, hhi, hmin, hlo, hsec⟩ := ht
      obtain ⟨-, -, -, sHi, sHi2, sLo, sLo2⟩ :=
        updateSpecialVerticesStep_spec t (k : Int) s.currentFunctionValues[k]
      obtain ⟨c1, c2, c3⟩ :=
        updateSpecialVerticesStep_second t (k : Int) s.currentFunctionValues[k]
      have hgetD : s.currentFunctionValues.getD k 0 = s.currentFunctionValues[k] :=
        List.getD_eq_getElem _ 0 hk
      have hdL : t.dLowestSolutionValue ≤ DBL_MAX := by
        rcases hlo with ⟨-, h⟩ | ⟨lo, -, -, -, h⟩
        · exact le_of_eq h
        · exact le_of_lt h
      refine ⟨?_, ?_, ?_, ?_, ?_⟩
      · intro j hj
        by_cases h1 : s.currentFunctionValues[k] > t.dHighestSolutionValue
        · rw [(sHi h1).1]
          rcases Nat.lt_succ_iff_lt_or_eq.1 hj with hj | hj
          · exact le_trans (hmax j hj) (le_of_lt h1)
          · rw [hj, hgetD]
        · rw [(sHi2 h1).1]
          rcases Nat.lt_succ_iff_lt_or_eq.1 hj with hj | hj
          · exact hmax j hj
          · rw [hj, hgetD]; exact not_lt.1 h1
      · by_cases h1 : s.currentFunctionValues[k] > t.dHighestSolutionValue
        · exact Or.inr ⟨k, Nat.lt_succ_self k, (sHi h1).2, by rw [(sHi h1).1, hgetD]⟩
        · rcases hhi with h | ⟨hi, h1', h2, h3⟩
          · exact Or.inl ((sHi2 h1).2.trans h)
          · exact Or.inr ⟨hi, by omega, (sHi2 h1).2.trans h2, (sHi2 h1).1.trans h3⟩
      · intro j hj
        by_cases h1 : s.currentFunctionValues[k] < t.dLowestSolutionValue
        · rw [(sLo h1).1]
          rcases Nat.lt_succ_iff_lt_or_eq.1 hj with hj | hj
          · exact le_trans (le_of_lt h1) (hmin j hj)
          · rw [hj, hgetD]
        · rw [(sLo2 h1).1]
          rcases Nat.lt_succ_iff_lt_or_eq.1 hj with hj | hj
          · exact hmin j hj
          · rw [hj, hgetD]; exact not_lt.1 h1
      · by_cases h1 : s.currentFunctionValues[k] < t.dLowestSolutionValue
        · exact Or.inr ⟨k, Nat.lt_succ_self k, (sLo h1).2, by rw [(sLo h1).1, hgetD],
            by rw [(sLo h1).1]; exact lt_of_lt_of_le h1 hdL⟩
        · rcases hlo with ⟨h, h'⟩ | ⟨lo, h1', h2, h3, h4⟩
          · exact Or.inl ⟨(sLo2 h1).2.trans h, (sLo2 h1).1.trans h'⟩
          · exact Or.inr ⟨lo, by omega, (sLo2 h1).2.trans h2, (sLo2 h1).1.trans h3,
              by rw [(sLo2 h1).1]; exact h4⟩
      · by_cases h1 : s.currentFunctionValues[k] > t.dHighestSolutionValue
        · obtain ⟨e1, -, e3, -⟩ := c1 h1
          rw [e1, e3]
          exact le_of_lt h1
        · by_cases h2 : s.currentFunctionValues[k] > t.dSecondHighestSolutionValue
          · obtain ⟨e1, -, e3, -⟩ := c2 h1 h2
            rw [e1, e3]
            exact not_lt.1 h1
          · obtain ⟨e1, -, e3, -⟩ := c3 h1 h2
            rw [e1, e3]
            exact hsec)
  rw [zero_add] at key
  obtain ⟨hmax, hhi, hmin, hlo, hsec⟩ := key
  refine ⟨hmax, ?_, hmin, ?_, hsec, ?_⟩
  · intro hi hid
    rcases hhi with h | ⟨hi', h1, h2, h3⟩
    · exfalso
      have : (hi : Int) = -1 := hid.symm.trans h
      omega
    · have : hi = hi' := by
        have : (hi : Int) = (hi' : Int) := hid.symm.trans h2
        omega
      subst this
      exact ⟨h1, h3⟩
  · intro lo hid
    rcases hlo with ⟨h, -⟩ | ⟨lo', h1, h2, h3, h4⟩
    · exfalso
      have : (lo : Int) = -1 := hid.symm.trans h
      omega
    · have : lo = lo' := by
        have : (lo : Int) = (lo' : Int) := hid.symm.trans h2
        omega
      subst this
      exact ⟨h1, h3, h4⟩
  · rcases hlo with ⟨-, h⟩ | ⟨lo, -, -, -, h⟩
    · exact le_of_eq h
    · exact le_of_lt h

/-- One iteration that returns, on a simplex of the right shape and whatever the
cached values are: the highest index it has computed is an index of the simplex
and holds a maximal cached value; the iteration keeps the two indices computed
by the scan; and it either replaces the vertex at the highest index by a point
whose value is at most the cached value it replaces, or (Reduce) re-evaluates a
simplex of the same shape in which the vertex at the lowest index, an index of
the simplex, has not moved. -/
theorem iteration_cases (f : List R → R) (d : Nat) (s s' : CSimplexOptimizer R)
    (hshape : s.SimplexShape d) (h : s.iteration f = .ok s') :
    ∃ hi : Nat, hi < d + 1
      ∧ s.updateSpecialVertices.nHighestSolutionId = hi
      ∧ s'.nHighestSolutionId = hi
      ∧ s'.nLowestSolutionId = s.updateSpecialVertices.nLowestSolutionId
      ∧ (∀ j < d + 1, s.currentFunctionValues.getD j 0 ≤ s.currentFunctionValues.getD hi 0)
      ∧ ((∃ x : List R, x.length = d
            ∧ s'.currentFeasibleSolutions = s.currentFeasibleSolutions.set hi x
            ∧ s'.currentFunctionValues = s.currentFunctionValues.set hi (f x)
            ∧ f x ≤ s.currentFunctionValues.getD hi 0)
          ∨ (∃ lo : Nat, lo < d + 1 ∧ s.updateSpecialVertices.nLowestSolutionId = lo
            ∧ s'.currentFeasibleSolutions.length = d + 1
            ∧ (∀ v ∈ s'.currentFeasibleSolutions, v.length = d)
            ∧ s'.currentFunctionValues = s'.currentFeasibleSolutions.map f
            ∧ s'.currentFeasibleSolutions.getD lo [] = s.currentFeasibleSolutions.getD lo [])) := by
  have hshape0 := hshape
  obtain ⟨hdim, hcount, hsize, hvlen⟩ := hshape
  obtain ⟨hc1, hsol1, hval1, -⟩ := updateSpecialVertices_frame s
  obtain ⟨hmax, hhiv, hmin, hlov, hsec, hdL⟩ := updateSpecialVertices_scan s
  have hdim1 : s.updateSpecialVertices.nPROBLEM_DIMENSION = d := by
    have := congrArg (fun c => c.2.1) hc1
    exact this.trans hdim
  have hhigh : ∃ hi : Nat, s.updateSpecialVertices.nHighestSolutionId = hi ∧ hi < d + 1 := by
    cases hcen : s.updateSpecialVertices.updateReflectionCentroid with
    | error e =>
      unfold CSimplexOptimizer.iteration at h
      simp only [] at h
      rw [hcen] at h
      cases h
    | ok s2 =>
      obtain ⟨hi, h1, h2⟩ := updateReflectionCentroid_inv s.updateSpecialVertices s2 d hdim1
        (by rw [hsol1]; exact hsize) hcen
      exact ⟨hi, h1, by rw [hsol1, hcount] at h2; exact h2⟩
  obtain ⟨hi, hid, hhi⟩ := hhigh
  obtain ⟨-, hHv⟩ := hhiv hi hid
  have hmax2 : ∀ j < d + 1,
      s.currentFunctionValues.getD j 0 ≤ s.currentFunctionValues.getD hi 0 := by
    intro j hj
    rw [← hHv]
    exact hmax j (by rw [hvlen]; exact hj)
  have hLle : s.updateSpecialVertices.dLowestSolutionValue
      ≤ s.currentFunctionValues.getD hi 0 := hmin hi (by rw [hvlen]; exact hhi)
  obtain ⟨c, p, hclen, hplen, hiter⟩ := iteration_unfold f d hi s hshape0 hid hhi
  rw [hiter] at h
  have hsols3 : ({ s.updateSpecialVertices with
      reflectionCentroid := c, reflectedPoint := p, dReflectedPointValue := f p } :
      CSimplexOptimizer R).currentFeasibleSolutions = s.currentFeasibleSolutions := hsol1
  have hvals3 : ({ s.updateSpecialVertices with
      reflectionCentroid := c, reflectedPoint := p, dReflectedPointValue := f p } :
      CSimplexOptimizer R).currentFunctionValues = s.currentFunctionValues := hval1
  refine ⟨hi, hhi, hid, ?_⟩
  have hreplace : ∀ (x : List R) (sols : List (List R)) (vals : List R), x.length = d →
      f x ≤ s.currentFunctionValues.getD hi 0 → sols = s.currentFeasibleSolutions →
      vals = s.currentFunctionValues →
      s' = ({ s.updateSpecialVertices with
        reflectionCentroid := c, reflectedPoint := p, dReflectedPointValue := f p
        currentFeasibleSolutions := sols.set hi x
        currentFunctionValues := vals.set hi (f x) } : CSimplexOptimizer R) →
      s'.nHighestSolutionId = hi
      ∧ s'.nLowestSolutionId = s.updateSpecialVertices.nLowestSolutionId
      ∧ (∀ j < d + 1, s.currentFunctionValues.getD j 0 ≤ s.currentFunctionValues.getD hi 0)
      ∧ ((∃ x : List R, x.length = d
            ∧ s'.currentFeasibleSolutions = s.currentFeasibleSolutions.set hi x
            ∧ s'.currentFunctionValues = s.currentFunctionValues.set hi (f x)
            ∧ f x ≤ s.currentFunctionValues.getD hi 0)
          ∨ (∃ lo : Nat, lo < d + 1 ∧ s.updateSpecialVertices.nLowestSolutionId = lo
            ∧ s'.currentFeasibleSolutions.length = d + 1
            ∧ (∀ v ∈ s'.currentFeasibleSolutions, v.length = d)
            ∧ s'.currentFunctionValues = s'.currentFeasibleSolutions.map f
            ∧ s'.currentFeasibleSolutions.getD lo []
                = s.currentFeasibleSolutions.getD lo [])) := by
    intro x sols vals hx hle hsols hvals hs
    subst hs hsols hvals
    exact ⟨hid, rfl, hmax2, Or.inl ⟨x, hx, rfl, rfl, hle⟩⟩
  have hhighest : (s.currentFeasibleSolutions.getD hi []).length = d := by
    apply hsize
    rw [List.getD_eq_getElem _ [] (by omega)]
    exact List.getElem_mem _
  have hpoint : ∀ (r : R) (b : List R), b.length = d → (pointAlong c r b c).length = d := by
    intro r b hb
    unfold pointAlong
    simp [hclen, hb]
  split_ifs at h with hE hR
  · -- Extend
    rw [doExtention_eq f ({ s.updateSpecialVertices with
      reflectionCentroid := c, reflectedPoint := p, dReflectedPointValue := f p } :
      CSimplexOptimizer R) d hi hclen hplen (by rw [hsols3]; omega)
      (by rw [hvals3]; omega) hid] at h
    have h2 := Except.ok.inj h
    split_ifs at h2 with hbetter
    · exact hreplace _ _ _ (hpoint _ p hplen)
        (le_trans (le_of_lt hbetter) (le_trans (le_of_lt hE) hLle)) hsols3 hvals3 h2.symm
    · exact hreplace p _ _ hplen (le_trans (le_of_lt hE) hLle) hsols3 hvals3 h2.symm
  · -- Replace
    have h2 := Except.ok.inj h
    refine hreplace p _ _ hplen ?_ rfl rfl h2.symm
    rw [← hHv]
    exact le_trans hR.2 hsec
  · -- Contract
    have hreduce : (do
          let self ← CSimplexOptimizer.doReduction ({ s.updateSpecialVertices with
            reflectionCentroid := c, reflectedPoint := p, dReflectedPointValue := f p } :
            CSimplexOptimizer R)
          self.evaluateAllCurrentSolutions f) = .ok s' →
        s'.nHighestSolutionId = hi
        ∧ s'.nLowestSolutionId = s.updateSpecialVertices.nLowestSolutionId
        ∧ (∀ j < d + 1, s.currentFunctionValues.getD j 0 ≤ s.currentFunctionValues.getD hi 0)
        ∧ ((∃ x : List R, x.length = d
              ∧ s'.currentFeasibleSolutions = s.currentFeasibleSolutions.set hi x
              ∧ s'.currentFunctionValues = s.currentFunctionValues.set hi (f x)
              ∧ f x ≤ s.currentFunctionValues.getD hi 0)
            ∨ (∃ lo : Nat, lo < d + 1 ∧ s.updateSpecialVertices.nLowestSolutionId = lo
              ∧ s'.currentFeasibleSolutions.length = d + 1
              ∧ (∀ v ∈ s'.currentFeasibleSolutions, v.length = d)
              ∧ s'.currentFunctionValues = s'.currentFeasibleSolutions.map f
              ∧ s'.currentFeasibleSolutions.getD lo []
                  = s.currentFeasibleSolutions.getD lo [])) := by
      intro h
      cases hred : CSimplexOptimizer.doReduction ({ s.updateSpecialVertices with
          reflectionCentroid := c, reflectedPoint := p, dReflectedPointValue := f p } :
          CSimplexOptimizer R) with
      | error e => rw [hred] at h; cases h
      | ok t2 =>
        obtain ⟨lo, hlid, hlo⟩ := doReduction_inv _ t2 hred
        obtain ⟨sols, hsl, hsv, hfix, hred2⟩ := doReduction_ok ({ s.updateSpecialVertices with
          reflectionCentroid := c, reflectedPoint := p, dReflectedPointValue := f p } :
          CSimplexOptimizer R) d lo (by rw [hsols3]; exact hsize) hlo hlid
        rw [hred2, ok_bind, evaluateAllCurrentSolutions_ok f _ (by
          show s.updateSpecialVertices.currentFunctionValues.length = sols.length
          rw [hval1, hvlen, hsl, hsols3, hcount])] at h
        have h2 := Except.ok.inj h
        subst h2
        refine ⟨hid, rfl, hmax2, Or.inr ⟨lo, by rw [hsols3, hcount] at hlo; exact hlo, hlid,
          ?_, hsv, rfl, ?_⟩⟩
        · show sols.length = d + 1
          rw [hsl, hsols3, hcount]
        · show sols.getD lo [] = _
          rw [hfix, hsols3]
    rw [doContraction_eq f ({ s.updateSpecialVertices with
      reflectionCentroid := c, reflectedPoint := p, dReflectedPointValue := f p } :
      CSimplexOptimizer R) d hi (by rw [hsols3]; exact hsize) hclen hplen
      (by rw [hsols3]; omega) (by rw [hvals3]; omega) hid] at h
    split_ifs at h with hb hq hq
    · -- the baseline is the highest vertex
      have h2 := Except.ok.inj h
      refine hreplace _ _ _ (hpoint _ _ (by rw [hsols3]; exact hhighest)) ?_ hsols3 hvals3
        h2.symm
      refine le_trans hq ?_
      rw [hvals3]
    · exact hreduce h
    · -- the baseline is the reflected point
      have h2 := Except.ok.inj h
      refine hreplace _ _ _ (hpoint _ _ hplen) ?_ hsols3 hvals3 h2.symm
      refine le_trans hq ?_
      have := not_lt.1 hb
      rw [hvals3] at this
      exact this
    · exact hreduce h

omit [LinearOrderedField R] in
theorem getD_set_self {α : Type} (l : List α) (i : Nat) (x d : α) (h : i < l.length) :
    (l.set i x).getD i d = x := by
  rw [List.getD_eq_getElem _ d (by rw [List.length_set]; exact h), List.getElem_set_self]

omit [LinearOrderedField R] in
theorem getD_set_ne {α : Type} (l : List α) (i j : Nat) (x d : α) (h : i ≠ j) :
    (l.set i x).getD j d = l.getD j d := by
  rw [List.getD_eq_getElem?_getD, List.getD_eq_getElem?_getD, List.getElem?_set_ne h]

/-- An iteration that returns keeps the simplex invariant, whatever the values
of the objective are. -/
theorem iteration_coherent (f : List R → R) (d : Nat) (s s' : CSimplexOptimizer R)
    (hinv : s.SimplexInvariant f d) (h : s.iteration f = .ok s') :
    s'.SimplexInvariant f d := by
  obtain ⟨hdim, hcount, hsize, hcached⟩ := hinv
  have hvlen : s.currentFunctionValues.length = d + 1 := by
    rw [hcached, List.length_map, hcount]
  have hshape : s.SimplexShape d := ⟨hdim, hcount, hsize, hvlen⟩
  obtain ⟨hshape2, -⟩ := iteration_shape f d s s' hshape h
  obtain ⟨hi, hhi, -, -, -, -, hcase⟩ := iteration_cases f d s s' hshape h
  obtain ⟨hdim2, hcount2, hsize2, -⟩ := hshape2
  refine ⟨hdim2, hcount2, hsize2, ?_⟩
  rcases hcase with ⟨x, -, hs, hv, -⟩ | ⟨lo, -, -, -, -, hv, -⟩
  · rw [hv, hs, hcached, List.map_set]
  · exact hv

/-- The value that a returning iteration leaves at its lowest index, when that
index is not `-1`: the index is an index of the simplex, and the cached value
there is below `DBL_MAX` and at most every cached value before the iteration. -/
theorem iteration_lowest (f : List R → R) (d : Nat) (s s' : CSimplexOptimizer R)
    (hinv : s.SimplexInvariant f d) (h : s.iteration f = .ok s') (lo : Nat)
    (hlo : s'.nLowestSolutionId = (lo : Int)) :
    lo < d + 1
      ∧ (∀ j < d + 1, s'.currentFunctionValues.getD lo 0 ≤ s.currentFunctionValues.getD j 0)
      ∧ s'.currentFunctionValues.getD lo 0 < DBL_MAX := by
  obtain ⟨hdim, hcount, hsize, hcached⟩ := hinv
  have hvlen : s.currentFunctionValues.length = d + 1 := by
    rw [hcached, List.length_map, hcount]
  have hshape : s.SimplexShape d := ⟨hdim, hcount, hsize, hvlen⟩
  obtain ⟨hi, hhi, -, -, hlid, hmax, hcase⟩ := iteration_cases f d s s' hshape h
  obtain ⟨-, -, hmin, hlov, -, -⟩ := updateSpecialVertices_scan s
  obtain ⟨hlolt, hLv, hLlt⟩ := hlov lo (hlid.symm.trans hlo)
  rw [hvlen] at hlolt
  have hle : s'.currentFunctionValues.getD lo 0 ≤ s.currentFunctionValues.getD lo 0 := by
    rcases hcase with ⟨x, -, -, hv, hx⟩ | ⟨lo2, -, hlid2, hcount2, -, hv, hfix⟩
    · rw [hv]
      by_cases hhl : hi = lo
      · subst hhl
        rw [getD_set_self _ _ _ _ (by omega)]
        exact hx
      · rw [getD_set_ne _ _ _ _ _ hhl]
    · have hlo2 : lo2 = lo := by
        have : (lo2 : Int) = (lo : Int) := hlid2.symm.trans (hlid.symm.trans hlo)
        omega
      subst hlo2
      rw [hv, getD_map_of_lt f _ lo2 (by omega) [], hfix, hcached,
        getD_map_of_lt f _ lo2 (by omega) []]
  refine ⟨hlolt, ?_, ?_⟩
  · intro j hj
    refine le_trans hle ?_
    rw [← hLv]
    exact hmin j (by rw [hvlen]; exact hj)
  · refine lt_of_le_of_lt hle ?_
    rw [← hLv]
    exact hLlt

/-- A returning iteration on a simplex of at least two vertices keeps a cached
value at or below every bound that a cached value met before it. -/
theorem iteration_bound (f : List R → R) (d : Nat) (s s' : CSimplexOptimizer R)
    (hd : 1 ≤ d) (hinv : s.SimplexInvariant f d) (h : s.iteration f = .ok s') (B : R)
    (hB : ∃ j < d + 1, s.currentFunctionValues.getD j 0 ≤ B) :
    ∃ j < d + 1, s'.currentFunctionValues.getD j 0 ≤ B := by
  obtain ⟨hdim, hcount, hsize, hcached⟩ := hinv
  have hvlen : s.currentFunctionValues.length = d + 1 := by
    rw [hcached, List.length_map, hcount]
  have hshape : s.SimplexShape d := ⟨hdim, hcount, hsize, hvlen⟩
  obtain ⟨hi, hhi, -, -, hlid, hmax, hcase⟩ := iteration_cases f d s s' hshape h
  obtain ⟨-, -, hmin, hlov, -, -⟩ := updateSpecialVertices_scan s
  obtain ⟨j, hj, hjB⟩ := hB
  rcases hcase with ⟨x, -, -, hv, hx⟩ | ⟨lo, hlo, hlid2, hcount2, -, hv, hfix⟩
  · by_cases hjh : hi = j
    · subst hjh
      -- another vertex keeps its value, which is at most the highest one
      obtain ⟨j2, hj2, hne⟩ : ∃ j2 < d + 1, hi ≠ j2 := by
        by_cases h0 : hi = 0
        · exact ⟨1, by omega, by omega⟩
        · exact ⟨0, by omega, h0⟩
      refine ⟨j2, hj2, ?_⟩
      rw [hv, getD_set_ne _ _ _ _ _ hne]
      exact le_trans (hmax j2 hj2) hjB
    · refine ⟨j, hj, ?_⟩
      rw [hv, getD_set_ne _ _ _ _ _ hjh]
      exact hjB
  · obtain ⟨-, hLv, -⟩ := hlov lo hlid2
    refine ⟨lo, hlo, ?_⟩
    rw [hv, getD_map_of_lt f _ lo (by omega) [], hfix, ← getD_map_of_lt f _ lo (by omega) [],
      ← hcached, ← hLv]
    exact le_trans (hmin j (by rw [hvlen]; exact hj)) hjB

/-- The iterations of a run that returns keep the simplex invariant and, on a
simplex of at least two vertices, a cached value at or below every bound met
before them. -/
theorem iterations_coherent (f : List R → R) (d n : Nat) (s s' : CSimplexOptimizer R)
    (hinv : s.SimplexInvariant f d)
    (h : (List.range n).foldlM
      (fun (self : CSimplexOptimizer R) (_i : Nat) => self.iteration f) s = .ok s') :
    s'.SimplexInvariant f d
      ∧ (1 ≤ d → ∀ B, (∃ j < d + 1, s.currentFunctionValues.getD j 0 ≤ B) →
          ∃ j < d + 1, s'.currentFunctionValues.getD j 0 ≤ B) := by
  induction n generalizing s' with
  | zero =>
    have : s = s' := by simpa [pure, Except.pure] using h
    rw [← this]
    exact ⟨hinv, fun _ _ hB => hB⟩
  | succ n ih =>
    rw [foldlM_range_succ_back] at h
    cases hn : (List.range n).foldlM
        (fun (self : CSimplexOptimizer R) (_i : Nat) => self.iteration f) s with
    | error e => rw [hn] at h; cases h
    | ok s1 =>
      rw [hn, ok_bind] at h
      obtain ⟨h1, h2⟩ := ih s1 hn
      exact ⟨iteration_coherent f d s1 s' h1 h,
        fun hd B hB => iteration_bound f d s1 s' hd h1 h B (h2 hd B hB)⟩

/-- The end of the run of one group that returns, with at least one iteration:
when the lowest index left by the last iteration is not `-1`, it is an index of
the simplex, the cached value there is below `DBL_MAX` and is the objective at
the vertex there, a point of `d` coordinates, and on a simplex of at least two
vertices it is at most every cached value at the start of the iterations. -/
theorem groupRun_lowest (f : List R → R) (d n : Nat) (s s' : CSimplexOptimizer R)
    (hinv : s.SimplexInvariant f d)
    (h : (List.range (n + 1)).foldlM
      (fun (self : CSimplexOptimizer R) (_i : Nat) => self.iteration f) s = .ok s')
    (lo : Nat) (hlo : s'.nLowestSolutionId = (lo : Int)) :
    lo < d + 1 ∧ s'.SimplexInvariant f d
      ∧ s'.currentFunctionValues.getD lo 0 < DBL_MAX
      ∧ s'.currentFunctionValues.getD lo 0 = f (s'.currentFeasibleSolutions.getD lo [])
      ∧ (s'.currentFeasibleSolutions.getD lo []).length = d
      ∧ (1 ≤ d → ∀ j < d + 1,
          s'.currentFunctionValues.getD lo 0 ≤ s.currentFunctionValues.getD j 0) := by
  rw [foldlM_range_succ_back] at h
  cases hn : (List.range n).foldlM
      (fun (self : CSimplexOptimizer R) (_i : Nat) => self.iteration f) s with
  | error e => rw [hn] at h; cases h
  | ok s1 =>
    rw [hn, ok_bind] at h
    obtain ⟨hinv1, hbound⟩ := iterations_coherent f d n s s1 hinv hn
    have hinv2 := iteration_coherent f d s1 s' hinv1 h
    obtain ⟨hlolt, hle, hlt⟩ := iteration_lowest f d s1 s' hinv1 h lo hlo
    obtain ⟨-, hcount2, hsize2, hcached2⟩ := id hinv2
    refine ⟨hlolt, hinv2, hlt, ?_, ?_, ?_⟩
    · rw [hcached2]
      exact getD_map_of_lt f _ lo (by rw [hcount2]; exact hlolt) []
    · apply hsize2
      rw [List.getD_eq_getElem _ [] (by rw [hcount2]; exact hlolt)]
      exact List.getElem_mem _
    · intro hd j hj
      obtain ⟨j1, hj1, hj1B⟩ := hbound hd (s.currentFunctionValues.getD j 0) ⟨j, hj, le_refl _⟩
      exact le_trans (hle j1 hj1) hj1B

/-- C10: within one group's run, for any objective `f` and a simplex of
dimension `d >= 1` whose cached values are the values of `f` at its vertices,
every iteration that returns, whichever branch (Extend, Replace, Contract,
Reduce) it takes, leaves a simplex of the same shape with coherent cached values
whose minimal cached value is at most the minimal cached value before the
iteration; and the iteration returns when the values of `f` lie strictly
between `-DBL_MAX` and `DBL_MAX`. -/
theorem C10_lowest_value_non_increasing (f : List R → R) (d : Nat) (s : CSimplexOptimizer R)
    (hd : 1 ≤ d) (hinv : s.SimplexInvariant f d) :
    (∀ s' : CSimplexOptimizer R, s.iteration f = .ok s' →
        s'.SimplexInvariant f d
          ∧ s'.currentFunctionValues.minimum ≤ s.currentFunctionValues.minimum)
      ∧ ((∀ x, -DBL_MAX < f x ∧ f x < DBL_MAX) →
          ∃ s' : CSimplexOptimizer R, s.iteration f = .ok s') := by
  constructor
  · intro s' hiter
    have hinv' := iteration_coherent f d s s' hinv hiter
    refine ⟨hinv', ?_⟩
    obtain ⟨-, hcount', -, hcached'⟩ := id hinv'
    have hvlen' : s'.currentFunctionValues.length = d + 1 := by
      rw [hcached', List.length_map, hcount']
    apply List.le_minimum_of_forall_le
    intro a ha
    obtain ⟨j, hj, rfl⟩ := List.getElem_of_mem ha
    obtain ⟨-, hcount, -, hcached⟩ := id hinv
    have hvlen : s.currentFunctionValues.length = d + 1 := by
      rw [hcached, List.length_map, hcount]
    obtain ⟨j', hj', hle⟩ := iteration_bound f d s s' hd hinv hiter
      (s.currentFunctionValues[j]) ⟨j, by omega, by
        rw [List.getD_eq_getElem _ 0 hj]⟩
    refine le_trans (List.minimum_le_of_mem' (a := s'.currentFunctionValues.getD j' 0) ?_)
      (WithTop.coe_le_coe.2 hle)
    rw [List.getD_eq_getElem _ 0 (by omega)]
    exact List.getElem_mem _
  · intro hrange
    obtain ⟨s', -, hiter, -⟩ := iteration_invariant f d s hinv hrange
    exact ⟨s', hiter⟩

/-- Witness of C10: the simplex `[2], [1]` of dimension 1 with the cached values
of the bounded objective `-1 / (1 + x0^2)`: the iteration returns, and the
minimal cached value has not increased. -/
theorem C10_lowest_value_non_increasing_witness :
    1 ≤ 1
      ∧ CSimplexOptimizer.SimplexInvariant boundedWell 1
          (CSimplexOptimizer.holding 1 [[2], [1]] [boundedWell [2], boundedWell [1]])
      ∧ ∃ s' : CSimplexOptimizer ℚ,
          (CSimplexOptimizer.holding 1 [[2], [1]]
            [boundedWell [2], boundedWell [1]]).iteration boundedWell = .ok s'
          ∧ s'.SimplexInvariant boundedWell 1
          ∧ s'.currentFunctionValues.minimum
              ≤ List.minimum [boundedWell [2], boundedWell [1]] := by
  have hinv : CSimplexOptimizer.SimplexInvariant boundedWell 1
      (CSimplexOptimizer.holding 1 [[2], [1]] [boundedWell [2], boundedWell [1]]) :=
    ⟨rfl, rfl, by simp [CSimplexOptimizer.holding], rfl⟩
  obtain ⟨hall, hret⟩ := C10_lowest_value_non_increasing boundedWell 1
    (CSimplexOptimizer.holding 1 [[2], [1]] [boundedWell [2], boundedWell [1]])
    (le_refl 1) hinv
  obtain ⟨s', hs'⟩ := hret boundedWell_range
  obtain ⟨h1, h2⟩ := hall s' hs'
  exact ⟨le_refl 1, hinv, s', hs', h1, h2⟩

end ReturningIterations

/-! ## Returned value and the seeds -/

section Seeds

variable {R : Type} [LinearOrderedField R]

/-- C39: the optimizer never returns worse than its seeds. For a list of at
least one group, valid in a dimension `d >= 1`, and at least one iteration, the
constructor returns an optimizer; every value that `runOptimization` returns on
it, for any objective `f`, is at most `f v` for every vertex `v` of every
initial group; and `runOptimization` returns when the values of `f` lie strictly
between `-DBL_MAX` and `DBL_MAX`. -/
theorem C39_never_worse_than_seeds (f : List R → R) (dIndeterminate : R)
    (G : List (List (List R))) (d : Nat) (nMaxIterations : Int)
    (hd : 1 ≤ d) (hne : G ≠ []) (hvalid : validGroups d G) (hn : 1 ≤ nMaxIterations) :
    ∃ o, CSimplexOptimizer.new dIndeterminate G = .ok o
      ∧ (∀ r, o.runOptimization f nMaxIterations = .ok r → ∀ g ∈ G, ∀ v ∈ g, r.2.1 ≤ f v)
      ∧ ((∀ x, -DBL_MAX < f x ∧ f x < DBL_MAX) →
          ∃ r, o.runOptimization f nMaxIterations = .ok r) := by
  obtain ⟨o, ho, hI, hdim, hvals⟩ : ∃ o : CSimplexOptimizer R,
      CSimplexOptimizer.new dIndeterminate G = .ok o ∧ o.INITIAL_FEASIBLE_SOLUTIONS = G
        ∧ o.nPROBLEM_DIMENSION = d ∧ o.currentFunctionValues.length = d + 1 :=
    ⟨_, new_ok dIndeterminate G d hne hvalid, rfl, rfl, List.length_replicate _ _⟩
  refine ⟨o, ho, ?_, ?_⟩
  · intro r hr g hg v hv
    obtain ⟨hiff, hval⟩ := runOptimization_min f nMaxIterations hn d o o hdim hvals G hI hvalid
      ⟨hdim, hvals, rfl, rfl, rfl, rfl⟩
    obtain ⟨lv, s', lo, hrun, hlid, hlo, hlv⟩ := hiff.1 ⟨r, hr⟩ g hg
    have hle := (hval r hr).1 g hg lv ⟨s', lo, hrun, hlid, hlo, hlv⟩
    refine le_trans hle (le_trans (min_le_left _ _) ?_)
    obtain ⟨hglen, hgsize⟩ := hvalid g hg
    obtain ⟨k, hk⟩ : ∃ k : Nat, nMaxIterations.toNat = k + 1 :=
      ⟨nMaxIterations.toNat - 1, by omega⟩
    rw [evaluateAllCurrentSolutions_ok f { o with currentFeasibleSolutions := g }
      (by show o.currentFunctionValues.length = g.length
          rw [hvals, hglen]), ok_bind, hk] at hrun
    have hinv0 : CSimplexOptimizer.SimplexInvariant f d
        ({ o with currentFeasibleSolutions := g, currentFunctionValues := g.map f } :
          CSimplexOptimizer R) := ⟨hdim, hglen, hgsize, rfl⟩
    obtain ⟨-, -, -, -, -, hbound⟩ := groupRun_lowest f d k _ s' hinv0 hrun lo hlid
    obtain ⟨j, hj, rfl⟩ := List.getElem_of_mem hv
    have := hbound hd j (by omega)
    rw [hlv] at this
    refine le_trans this (le_of_eq ?_)
    show (g.map f).getD j 0 = f g[j]
    rw [List.getD_eq_getElem _ 0 (by rw [List.length_map]; exact hj), List.getElem_map]
  · intro hrange
    obtain ⟨r, hr, -, -⟩ := runOptimization_point_value f d nMaxIterations hn o
      (by rw [hI]; exact hne) (by rw [hI]; exact hvalid) hdim hvals hrange
    exact ⟨r, hr⟩

/-- C39 on the one-coordinate objective `(x0 - 10)^2`, the group of the seeds
`0` and `1`, and two iterations. -/
theorem C39_never_worse_than_seeds_witness :
    ∃ o, CSimplexOptimizer.new (0 : ℚ) [[[0], [1]]] = .ok o
      ∧ (∀ r, o.runOptimization squareDistanceToTen 2 = .ok r →
          ∀ g ∈ [[[(0 : ℚ)], [1]]], ∀ v ∈ g, r.2.1 ≤ squareDistanceToTen v) := by
  obtain ⟨o, ho, h, -⟩ := C39_never_worse_than_seeds squareDistanceToTen (0 : ℚ)
    [[[0], [1]]] 1 2 (le_refl 1) (by simp)
    (by
      intro g hg
      rw [List.mem_singleton.1 hg]
      refine ⟨rfl, ?_⟩
      intro v hv
      rcases List.mem_cons.1 hv with rfl | hv
      · rfl
      · rw [List.mem_singleton.1 hv]
        rfl)
    (by decide)
  exact ⟨o, ho, h⟩

end Seeds

/-! ## Cached values and tracked indices -/

section CacheCoherence

variable {R : Type} [LinearOrderedField R]

/-- C38 (amended): cache coherence of the simplex. For a list of at least one
group, valid in dimension `d`, at least one iteration and an objective `f` whose
values lie strictly between `-DBL_MAX` and `DBL_MAX`: the constructor returns an
optimizer of dimension `d` with `d + 1` cached values; the initial evaluation of
a group, from any state of that dimension and size, caches `f` at every vertex;
every iteration from a simplex with coherent cached values returns a simplex
with coherent cached values and leaves the highest and the lowest index in
`[0, d]`; and `runOptimization` returns a point of `d` coordinates together
with the value of `f` at that point. -/
theorem C38_cache_coherence (f : List R → R) (dIndeterminate : R)
    (G : List (List (List R))) (d : Nat) (nMaxIterations : Int)
    (hne : G ≠ []) (hvalid : validGroups d G) (hn : 1 ≤ nMaxIterations)
    (hrange : ∀ x, -DBL_MAX < f x ∧ f x < DBL_MAX) :
    ∃ o r, CSimplexOptimizer.new dIndeterminate G = .ok o
      ∧ o.nPROBLEM_DIMENSION = d ∧ o.currentFunctionValues.length = d + 1
      ∧ (∀ s : CSimplexOptimizer R, s.nPROBLEM_DIMENSION = d →
          s.currentFunctionValues.length = d + 1 → ∀ g ∈ G,
          ∃ s0, CSimplexOptimizer.evaluateAllCurrentSolutions f
              { s with currentFeasibleSolutions := g } = .ok s0
            ∧ s0.SimplexInvariant f d)
      ∧ (∀ s : CSimplexOptimizer R, s.SimplexInvariant f d →
          ∃ s', s.iteration f = .ok s' ∧ s'.SimplexInvariant f d
            ∧ 0 ≤ s'.nHighestSolutionId ∧ s'.nHighestSolutionId ≤ d
            ∧ 0 ≤ s'.nLowestSolutionId ∧ s'.nLowestSolutionId ≤ d)
      ∧ o.runOptimization f nMaxIterations = .ok r
      ∧ r.1.length = d ∧ r.2.1 = f r.1 := by
  obtain ⟨o, ho, hI, hdim, hvals⟩ : ∃ o : CSimplexOptimizer R,
      CSimplexOptimizer.new dIndeterminate G = .ok o ∧ o.INITIAL_FEASIBLE_SOLUTIONS = G
        ∧ o.nPROBLEM_DIMENSION = d ∧ o.currentFunctionValues.length = d + 1 :=
    ⟨_, new_ok dIndeterminate G d hne hvalid, rfl, rfl, List.length_replicate _ _⟩
  obtain ⟨r, hr, hlen, hval⟩ := runOptimization_point_value f d nMaxIterations hn o
    (by rw [hI]; exact hne) (by rw [hI]; exact hvalid) hdim hvals hrange
  refine ⟨o, r, ho, hdim, hvals, ?_, ?_, hr, hlen, hval⟩
  · intro s hsdim hsvals g hg
    obtain ⟨hglen, hgsize⟩ := hvalid g hg
    refine ⟨_, evaluateAllCurrentSolutions_ok f { s with currentFeasibleSolutions := g }
      (by show s.currentFunctionValues.length = g.length
          rw [hsvals, hglen]), ?_⟩
    exact ⟨hsdim, hglen, hgsize, rfl⟩
  · intro s hinv
    obtain ⟨s', lo, hiter, hinv', hlid, hlo, -⟩ := iteration_invariant f d s hinv hrange
    obtain ⟨hsdim, hcount, hsize, hcached⟩ := id hinv
    have hvlen : s.currentFunctionValues.length = d + 1 := by
      rw [hcached, List.length_map, hcount]
    obtain ⟨hi, hhi, -, hhid, -, -, -⟩ := iteration_cases f d s s'
      ⟨hsdim, hcount, hsize, hvlen⟩ hiter
    refine ⟨s', hiter, hinv', ?_, ?_, ?_, ?_⟩
    · rw [hhid]; omega
    · rw [hhid]; omega
    · rw [hlid]; omega
    · rw [hlid]; omega

/-- C38 (amended) on the one-coordinate objective `-1 / (1 + x0^2)`, the group
of the seeds `0` and `1`, and two iterations. -/
theorem C38_cache_coherence_witness :
    (∀ x, -DBL_MAX < boundedWell x ∧ boundedWell x < DBL_MAX)
      ∧ ∃ o r, CSimplexOptimizer.new (0 : ℚ) [[[0], [1]]] = .ok o
        ∧ o.runOptimization boundedWell 2 = .ok r
        ∧ r.2.1 = boundedWell r.1 := by
  obtain ⟨o, r, ho, -, -, -, -, hr, -, hval⟩ := C38_cache_coherence boundedWell (0 : ℚ)
    [[[0], [1]]] 1 2 (by simp)
    (by
      intro g hg
      rw [List.mem_singleton.1 hg]
      refine ⟨rfl, ?_⟩
      intro v hv
      rcases List.mem_cons.1 hv with rfl | hv
      · rfl
      · rw [List.mem_singleton.1 hv]
        rfl)
    (by decide) boundedWell_range
  exact ⟨boundedWell_range, o, r, ho, hr, hval⟩

/-- The reflection phase for the constant objective `DBL_MAX` on the simplex
`[0], [1]`: no cached value is below `DBL_MAX`, and the lowest index stays `-1`. -/
theorem constantHighest_reflectionPhase : (CSimplexOptimizer.holding 1 [[0], [1]]
      [constantHighest [0], constantHighest [1]]).reflectionPhase constantHighest = .ok
      { INITIAL_FEASIBLE_SOLUTIONS := [[[0], [1]]]
        currentFeasibleSolutions := [[0], [1]]
        currentFunctionValues := [DBL_MAX, DBL_MAX]
        dContractionFactor := 0.5
        dExtensionFactor := 2
        dHighestSolutionValue := DBL_MAX
        dLowestSolutionValue := DBL_MAX
        dReductionFactor := 0.5
        dReflectedPointValue := DBL_MAX
        dReflectionFactor := 1
        dSecondHighestSolutionValue := DBL_MAX
        nHighestSolutionId := 0
        nLowestSolutionId := -1
        nPROBLEM_DIMENSION := 1
        nSecondHighestSolutionId := 1
        reflectionCentroid := [1]
        reflectedPoint := [3 / 2] } := by
    have hM : -(DBL_MAX : ℚ) < DBL_MAX := by
      have := DBL_MAX_gt_one (R := ℚ)
      linarith
    norm_num [hM, CSimplexOptimizer.holding, CSimplexOptimizer.reflectionPhase,
      CSimplexOptimizer.updateSpecialVertices,
      CSimplexOptimizer.updateSpecialVerticesStep, CSimplexOptimizer.updateReflectionCentroid,
      CSimplexOptimizer.doReflection, CMathematics.add, CMathematics.substract,
      CMathematics.multiply, vecAssignZero, vecGet, vecSet, constantHighest,
      CSimplexOptimizer.dCONTRACTION_FACTOR, CSimplexOptimizer.dEXTENSION_FACTOR,
      CSimplexOptimizer.dREDUCTION_FACTOR, CSimplexOptimizer.dREFLECTION_FACTOR,
      List.range_succ, pure, Except.pure, bind, Except.bind, List.enum, List.enumFrom,
      List.replicate]

/-- The iteration for the constant objective `DBL_MAX` on the simplex `[0], [1]`
replaces the highest vertex by the reflected point. -/
theorem constantHighest_iteration : (CSimplexOptimizer.holding 1 [[0], [1]]
      [constantHighest [0], constantHighest [1]]).iteration constantHighest = .ok
      { INITIAL_FEASIBLE_SOLUTIONS := [[[0], [1]]]
        currentFeasibleSolutions := [[3 / 2], [1]]
        currentFunctionValues := [DBL_MAX, DBL_MAX]
        dContractionFactor := 0.5
        dExtensionFactor := 2
        dHighestSolutionValue := DBL_MAX
        dLowestSolutionValue := DBL_MAX
        dReductionFactor := 0.5
        dReflectedPointValue := DBL_MAX
        dReflectionFactor := 1
        dSecondHighestSolutionValue := DBL_MAX
        nHighestSolutionId := 0
        nLowestSolutionId := -1
        nPROBLEM_DIMENSION := 1
        nSecondHighestSolutionId := 1
        reflectionCentroid := [1]
        reflectedPoint := [3 / 2] } := by
  rw [iteration_eq_branches, constantHighest_reflectionPhase, ok_bind]
  simp only []
  rw [if_neg (lt_irrefl _), if_pos ⟨le_refl _, le_refl _⟩]
  rfl

/-- Counterexample to C38 as stated. For the objective `(x0 - 10)^2` and the
group of the seeds `0` and `1`: after the initial evaluation the cached values
are the objective at the two vertices, and the highest and the lowest index are
`-1`, as the constructor has left them. And for the constant objective
`DBL_MAX` on the same simplex with coherent cached values, the iteration
returns and the lowest index after it is `-1`. -/
theorem C38_indices_outside_the_simplex_counterexample :
    (∃ o s0, CSimplexOptimizer.new (0 : ℚ) [[[0], [1]]] = .ok o
      ∧ CSimplexOptimizer.evaluateAllCurrentSolutions squareDistanceToTen
          { o with currentFeasibleSolutions := [[0], [1]] } = .ok s0
      ∧ s0.currentFunctionValues = s0.currentFeasibleSolutions.map squareDistanceToTen
      ∧ s0.nHighestSolutionId = -1 ∧ s0.nLowestSolutionId = -1)
    ∧ (CSimplexOptimizer.SimplexInvariant constantHighest 1
          (CSimplexOptimizer.holding 1 [[0], [1]] [constantHighest [0], constantHighest [1]])
      ∧ ∃ s1, (CSimplexOptimizer.holding 1 [[0], [1]]
            [constantHighest [0], constantHighest [1]]).iteration constantHighest = .ok s1
        ∧ s1.nLowestSolutionId = -1) := by
  constructor
  · refine ⟨_, _, new_ok (0 : ℚ) [[[0], [1]]] 1 (by simp)
        (by
          intro g hg
          rw [List.mem_singleton.1 hg]
          refine ⟨rfl, ?_⟩
          intro v hv
          rcases List.mem_cons.1 hv with rfl | hv
          · rfl
          · rw [List.mem_singleton.1 hv]
            rfl),
      evaluateAllCurrentSolutions_ok squareDistanceToTen _ rfl, rfl, rfl, rfl⟩
  · refine ⟨⟨rfl, rfl, by simp [CSimplexOptimizer.holding], rfl⟩, ?_⟩
    exact ⟨_, constantHighest_iteration, rfl⟩

end CacheCoherence

/-! ## Trajectories of a traced run -/

section Trajectories

variable {R : Type} [LinearOrderedField R]

/-- The record after a first trajectory with a last node. -/
theorem bestOfLastNodes_cons (best : List R × R) (t : List (CourseNode R))
    (rest : List (List (CourseNode R))) (node : CourseNode R) (h : t.getLast? = some node) :
    bestOfLastNodes best (t :: rest)
      = bestOfLastNodes
          (if node.dLowestValue < best.2 then (node.lowestPoint, node.dLowestValue) else best)
          rest := by
  unfold bestOfLastNodes
  rw [List.foldl_cons]
  simp only [h]

/-- The record after a first trajectory without nodes. -/
theorem bestOfLastNodes_cons_none (best : List R × R) (t : List (CourseNode R))
    (rest : List (List (CourseNode R))) (h : t.getLast? = none) :
    bestOfLastNodes best (t :: rest) = bestOfLastNodes best rest := by
  unfold bestOfLastNodes
  rw [List.foldl_cons]
  simp only [h]

/-- The record read off the trajectories: its value is at most the starting
value and at most the lowest value of every last node; and either it is the
starting record, no last node being strictly below it, or it is the last node
of the first trajectory whose last node attains the smallest value. -/
theorem bestOfLastNodes_spec (trajs : List (List (CourseNode R))) :
    ∀ best : List R × R,
      (bestOfLastNodes best trajs).2 ≤ best.2
        ∧ (∀ t ∈ trajs, ∀ node, t.getLast? = some node →
            (bestOfLastNodes best trajs).2 ≤ node.dLowestValue)
        ∧ ((bestOfLastNodes best trajs = best
              ∧ ∀ t ∈ trajs, ∀ node, t.getLast? = some node → best.2 ≤ node.dLowestValue)
          ∨ ∃ (i : Nat) (node : CourseNode R),
              (trajs[i]?).bind List.getLast? = some node
                ∧ node.dLowestValue = (bestOfLastNodes best trajs).2
                ∧ node.lowestPoint = (bestOfLastNodes best trajs).1
                ∧ node.dLowestValue < best.2
                ∧ ∀ i', i' < i → ∀ node', (trajs[i']?).bind List.getLast? = some node' →
                    (bestOfLastNodes best trajs).2 < node'.dLowestValue) := by
  induction trajs with
  | nil =>
    intro best
    refine ⟨le_refl _, ?_, Or.inl ⟨rfl, ?_⟩⟩
    · intro t ht
      exact absurd ht (List.not_mem_nil t)
    · intro t ht
      exact absurd ht (List.not_mem_nil t)
  | cons t rest ih =>
    intro best
    cases hlast : t.getLast? with
    | none =>
      rw [bestOfLastNodes_cons_none best t rest hlast]
      obtain ⟨h1, h2, h3⟩ := ih best
      refine ⟨h1, ?_, ?_⟩
      · intro t' ht' node hnode
        rcases List.mem_cons.1 ht' with rfl | ht'
        · rw [hlast] at hnode; cases hnode
        · exact h2 t' ht' node hnode
      · rcases h3 with ⟨heq, hall⟩ | ⟨i, node, hi, hv, hp, hlt, hfirst⟩
        · refine Or.inl ⟨heq, ?_⟩
          intro t' ht' node hnode
          rcases List.mem_cons.1 ht' with rfl | ht'
          · rw [hlast] at hnode; cases hnode
          · exact hall t' ht' node hnode
        · refine Or.inr ⟨i + 1, node, ?_, hv, hp, hlt, ?_⟩
          · rw [List.getElem?_cons_succ]; exact hi
          · intro i' hi' node' hnode'
            cases i' with
            | zero =>
              rw [List.getElem?_cons_zero, Option.some_bind, hlast] at hnode'
              cases hnode'
            | succ j =>
              rw [List.getElem?_cons_succ] at hnode'
              exact hfirst j (by omega) node' hnode'
    | some n0 =>
      rw [bestOfLastNodes_cons best t rest n0 hlast]
      by_cases hlt0 : n0.dLowestValue < best.2
      · rw [if_pos hlt0]
        obtain ⟨h1, h2, h3⟩ := ih (n0.lowestPoint, n0.dLowestValue)
        refine ⟨le_trans h1 (le_of_lt hlt0), ?_, Or.inr ?_⟩
        · intro t' ht' node hnode
          rcases List.mem_cons.1 ht' with rfl | ht'
          · rw [hlast] at hnode
            cases hnode
            exact h1
          · exact h2 t' ht' node hnode
        · rcases h3 with ⟨heq, hall⟩ | ⟨i, node, hi, hv, hp, hlt, hfirst⟩
          · refine ⟨0, n0, ?_, ?_, ?_, hlt0, ?_⟩
            · rw [List.getElem?_cons_zero, Option.some_bind, hlast]
            · rw [heq]
            · rw [heq]
            · intro i' hi'
              omega
          · refine ⟨i + 1, node, ?_, hv, hp, lt_trans hlt hlt0, ?_⟩
            · rw [List.getElem?_cons_succ]; exact hi
            · intro i' hi' node' hnode'
              cases i' with
              | zero =>
                rw [List.getElem?_cons_zero, Option.some_bind, hlast] at hnode'
                cases hnode'
                rw [← hv]
                exact hlt
              | succ j =>
                rw [List.getElem?_cons_succ] at hnode'
                exact hfirst j (by omega) node' hnode'
      · rw [if_neg hlt0]
        obtain ⟨h1, h2, h3⟩ := ih best
        refine ⟨h1, ?_, ?_⟩
        · intro t' ht' node hnode
          rcases List.mem_cons.1 ht' with rfl | ht'
          · rw [hlast] at hnode
            cases hnode
            exact le_trans h1 (not_lt.1 hlt0)
          · exact h2 t' ht' node hnode
        · rcases h3 with ⟨heq, hall⟩ | ⟨i, node, hi, hv, hp, hlt, hfirst⟩
          · refine Or.inl ⟨heq, ?_⟩
            intro t' ht' node hnode
            rcases List.mem_cons.1 ht' with rfl | ht'
            · rw [hlast] at hnode
              cases hnode
              exact not_lt.1 hlt0
            · exact hall t' ht' node hnode
          · refine Or.inr ⟨i + 1, node, ?_, hv, hp, hlt, ?_⟩
            · rw [List.getElem?_cons_succ]; exact hi
            · intro i' hi' node' hnode'
              cases i' with
              | zero =>
                rw [List.getElem?_cons_zero, Option.some_bind, hlast] at hnode'
                cases hnode'
                rw [← hv]
                exact lt_of_lt_of_le hlt (not_lt.1 hlt0)
              | succ j =>
                rw [List.getElem?_cons_succ] at hnode'
                exact hfirst j (by omega) node' hnode'

/-- The traced iterations of one group: when they return, the iterations of
`runOptimization` from the same simplex return the same simplex, one node is
appended per iteration, and the last node carries the vertex and the cached
value at the lowest index of the simplex returned. -/
theorem traceIterations_spec (f : List R → R) (n : Nat) (s : CSimplexOptimizer R)
    (trajectory : List (CourseNode R)) :
    ∀ run : CSimplexOptimizer R × List (CourseNode R),
      (List.range n).foldlM
        (fun (run : CSimplexOptimizer R × List (CourseNode R)) (_iIteration : Nat) => do
          let step ← run.1.traceIteration f
          pure (step.1, run.2 ++ [step.2]))
        (s, trajectory) = .ok run →
      (List.range n).foldlM
          (fun (self : CSimplexOptimizer R) (_iIteration : Nat) => self.iteration f) s
          = .ok run.1
        ∧ ∃ nodes : List (CourseNode R), run.2 = trajectory ++ nodes ∧ nodes.length = n
          ∧ (1 ≤ n → ∃ node, nodes.getLast? = some node
              ∧ vecGet run.1.currentFeasibleSolutions run.1.nLowestSolutionId
                  = .ok node.lowestPoint
              ∧ vecGet run.1.currentFunctionValues run.1.nLowestSolutionId
                  = .ok node.dLowestValue) := by
  induction n with
  | zero =>
    intro run hrun
    simp only [List.range_zero, List.foldlM_nil, pure, Except.pure] at hrun ⊢
    cases hrun
    exact ⟨rfl, [], by simp, rfl, fun h => absurd h (by decide)⟩
  | succ n ih =>
    intro run hrun
    rw [foldlM_range_succ_back
      (fun (run : CSimplexOptimizer R × List (CourseNode R)) => do
        let step ← run.1.traceIteration f
        pure (step.1, run.2 ++ [step.2])) n (s, trajectory)] at hrun
    cases hprev : (List.range n).foldlM
        (fun (run : CSimplexOptimizer R × List (CourseNode R)) (_iIteration : Nat) => do
          let step ← run.1.traceIteration f
          pure (step.1, run.2 ++ [step.2]))
        (s, trajectory) with
    | error e => rw [hprev] at hrun; cases hrun
    | ok run1 =>
      rw [hprev, ok_bind] at hrun
      obtain ⟨hfold, nodes, hnodes, hlen, -⟩ := ih run1 hprev
      cases ht : run1.1.traceIteration f with
      | error e => rw [ht] at hrun; cases hrun
      | ok step =>
        rw [ht, ok_bind] at hrun
        cases hrun
        obtain ⟨hiter, hp, hv, -⟩ := (traceIteration_spec f run1.1).1 step.1 step.2 ht
        refine ⟨?_, nodes ++ [step.2], ?_, ?_, fun _ => ⟨step.2, ?_, hp, hv⟩⟩
        · rw [foldlM_range_succ_back, hfold, ok_bind]
          exact hiter
        · show run1.2 ++ [step.2] = trajectory ++ (nodes ++ [step.2])
          rw [hnodes, List.append_assoc]
        · rw [List.length_append, hlen, List.length_singleton]
        · rw [List.getLast?_append, List.getLast?_singleton]
          rfl

/-- The traced iterations of one group return from a simplex whose cached values
are the values of an objective with values strictly between `-DBL_MAX` and
`DBL_MAX`. -/
theorem traceIterations_returns (f : List R → R) (d n : Nat)
    (hrange : ∀ x, -DBL_MAX < f x ∧ f x < DBL_MAX) (s : CSimplexOptimizer R)
    (trajectory : List (CourseNode R)) (hinv : s.SimplexInvariant f d) :
    ∃ run : CSimplexOptimizer R × List (CourseNode R),
      (List.range n).foldlM
        (fun (run : CSimplexOptimizer R × List (CourseNode R)) (_iIteration : Nat) => do
          let step ← run.1.traceIteration f
          pure (step.1, run.2 ++ [step.2]))
        (s, trajectory) = .ok run
      ∧ run.1.SimplexInvariant f d := by
  induction n with
  | zero =>
    exact ⟨(s, trajectory), rfl, hinv⟩
  | succ n ih =>
    obtain ⟨run1, hprev, hinv1⟩ := ih
    obtain ⟨s', lo, hiter, hinv', hlid, hlo, -⟩ := iteration_invariant f d run1.1 hinv1 hrange
    obtain ⟨-, hcount, -, hcached⟩ := id hinv'
    have hvlen : s'.currentFunctionValues.length = d + 1 := by
      rw [hcached, List.length_map, hcount]
    obtain ⟨node, hnode⟩ := (traceIteration_spec f run1.1).2 s'
      (s'.currentFeasibleSolutions.getD lo []) (s'.currentFunctionValues.getD lo 0) hiter
      (by rw [hlid]; exact vecGet_natCast _ lo [] (by omega))
      (by rw [hlid]; exact vecGet_natCast _ lo 0 (by omega))
    refine ⟨(s', run1.2 ++ [node]), ?_, hinv'⟩
    rw [foldlM_range_succ_back
      (fun (run : CSimplexOptimizer R × List (CourseNode R)) => do
        let step ← run.1.traceIteration f
        pure (step.1, run.2 ++ [step.2])) n (s, trajectory), hprev, ok_bind, hnode, ok_bind]
    rfl

/-- One group of `runOptimization` and of `traceOptimization` from the same
simplex: both leave the same simplex, the trajectory of the group ends with a
node whose lowest value is below `DBL_MAX`, and the record of the run is
replaced by that node when its value is strictly smaller. -/
theorem group_lockstep (f : List R → R) (d k : Nat) (g : List (List R))
    (hg : g.length = d + 1 ∧ ∀ v ∈ g, v.length = d)
    (b : List R) (bv : R) (s : CSimplexOptimizer R) (T : List (List (CourseNode R)))
    (hdim : s.nPROBLEM_DIMENSION = d) (hvals : s.currentFunctionValues.length = d + 1)
    (acc' : List R × R × CSimplexOptimizer R)
    (tr' : List (List (CourseNode R)) × CSimplexOptimizer R)
    (hrun : (do
        let (bestSolution, dBestValue, self) := ((b, bv, s) : List R × R × CSimplexOptimizer R)
        let self := { self with currentFeasibleSolutions := g }
        let self ← self.evaluateAllCurrentSolutions f
        let self ← (List.range (k + 1)).foldlM
          (fun (self : CSimplexOptimizer R) (_iIteration : Nat) => self.iteration f) self
        let lowestValue ← vecGet self.currentFunctionValues self.nLowestSolutionId
        if lowestValue < dBestValue then
          pure ((← vecGet self.currentFeasibleSolutions self.nLowestSolutionId),
            lowestValue, self)
        else
          pure (bestSolution, dBestValue, self)) = .ok acc')
    (htrace : (do
        let self := { s with currentFeasibleSolutions := g }
        let currentTrajectory : List (CourseNode R) := []
        let self ← self.evaluateAllCurrentSolutions f
        let run ← (List.range (k + 1)).foldlM
          (fun (run : CSimplexOptimizer R × List (CourseNode R)) (_iIteration : Nat) => do
            let step ← run.1.traceIteration f
            pure (step.1, run.2 ++ [step.2]))
          (self, currentTrajectory)
        pure (T ++ [run.2], run.1)) = .ok tr') :
    tr'.2 = acc'.2.2 ∧ acc'.2.2.nPROBLEM_DIMENSION = d
      ∧ acc'.2.2.currentFunctionValues.length = d + 1
      ∧ ∃ (t : List (CourseNode R)) (node : CourseNode R), tr'.1 = T ++ [t]
        ∧ t.getLast? = some node ∧ node.dLowestValue < DBL_MAX
        ∧ (acc'.1, acc'.2.1)
            = if node.dLowestValue < bv then (node.lowestPoint, node.dLowestValue)
              else (b, bv) := by
  obtain ⟨hglen, hgsize⟩ := hg
  simp only [] at hrun htrace
  rw [evaluateAllCurrentSolutions_ok f { s with currentFeasibleSolutions := g }
    (by show s.currentFunctionValues.length = g.length
        rw [hvals, hglen]), ok_bind] at hrun htrace
  have hinv0 : CSimplexOptimizer.SimplexInvariant f d
      ({ s with currentFeasibleSolutions := g, currentFunctionValues := g.map f } :
        CSimplexOptimizer R) := ⟨hdim, hglen, hgsize, rfl⟩
  cases htr : (List.range (k + 1)).foldlM
      (fun (run : CSimplexOptimizer R × List (CourseNode R)) (_iIteration : Nat) => do
        let step ← run.1.traceIteration f
        pure (step.1, run.2 ++ [step.2]))
      (({ s with currentFeasibleSolutions := g, currentFunctionValues := g.map f } :
        CSimplexOptimizer R), ([] : List (CourseNode R))) with
  | error e => rw [htr] at htrace; cases htrace
  | ok run =>
    rw [htr, ok_bind] at htrace
    cases htrace
    obtain ⟨hfold, nodes, hnodes, -, hlast⟩ := traceIterations_spec f (k + 1) _ [] run htr
    obtain ⟨node, hnode, hp, hv⟩ := hlast (by omega)
    rw [hfold, ok_bind, hv, ok_bind] at hrun
    obtain ⟨lo, hlo, -⟩ := vecGet_ok_inv _ _ _ hv
    obtain ⟨hlolt, hinv', hlt, -, -, -⟩ := groupRun_lowest f d k _ run.1 hinv0 hfold lo hlo
    obtain ⟨hdim', hcount', -, hcached'⟩ := id hinv'
    have hval : node.dLowestValue = run.1.currentFunctionValues.getD lo 0 := by
      have := hv
      rw [hlo, vecGet_natCast _ lo 0 (by rw [hcached', List.length_map, hcount']; exact hlolt)]
        at this
      exact (Except.ok.inj this).symm
    refine ⟨?_, ?_, ?_, run.2, node, rfl, ?_, by rw [hval]; exact hlt, ?_⟩
    · by_cases hc : node.dLowestValue < bv
      · rw [if_pos hc, hp, ok_bind] at hrun
        cases hrun
        rfl
      · rw [if_neg hc] at hrun
        cases hrun
        rfl
    · by_cases hc : node.dLowestValue < bv
      · rw [if_pos hc, hp, ok_bind] at hrun
        cases hrun
        exact hdim'
      · rw [if_neg hc] at hrun
        cases hrun
        exact hdim'
    · by_cases hc : node.dLowestValue < bv
      · rw [if_pos hc, hp, ok_bind] at hrun
        cases hrun
        show run.1.currentFunctionValues.length = d + 1
        rw [hcached', List.length_map, hcount']
      · rw [if_neg hc] at hrun
        cases hrun
        show run.1.currentFunctionValues.length = d + 1
        rw [hcached', List.length_map, hcount']
    · rw [hnodes, List.nil_append]
      exact hnode
    · by_cases hc : node.dLowestValue < bv
      · rw [if_pos hc, hp, ok_bind] at hrun
        cases hrun
        rw [if_pos hc]
      · rw [if_neg hc] at hrun
        cases hrun
        rw [if_neg hc]

/-- The groups of `runOptimization` and of `traceOptimization` from the same
simplex: one trajectory per group, each ending with a node whose lowest value is
below `DBL_MAX`, and the record of the run is the record read off the
trajectories. -/
theorem groups_lockstep (f : List R → R) (d k : Nat) (l : List (List (List R)))
    (hvalid : validGroups d l) :
    ∀ (b : List R) (bv : R) (s : CSimplexOptimizer R) (T : List (List (CourseNode R)))
      (acc' : List R × R × CSimplexOptimizer R)
      (tr' : List (List (CourseNode R)) × CSimplexOptimizer R),
      s.nPROBLEM_DIMENSION = d → s.currentFunctionValues.length = d + 1 →
      l.foldlM
        (fun (acc : List R × R × CSimplexOptimizer R) (solutionsGroup : List (List R)) => do
          let (bestSolution, dBestValue, self) := acc
          let self := { self with currentFeasibleSolutions := solutionsGroup }
          let self ← self.evaluateAllCurrentSolutions f
          let self ← (List.range (k + 1)).foldlM
            (fun (self : CSimplexOptimizer R) (_iIteration : Nat) => self.iteration f) self
          let lowestValue ← vecGet self.currentFunctionValues self.nLowestSolutionId
          if lowestValue < dBestValue then
            pure ((← vecGet self.currentFeasibleSolutions self.nLowestSolutionId),
              lowestValue, self)
          else
            pure (bestSolution, dBestValue, self))
        (b, bv, s) = .ok acc' →
      l.foldlM
        (fun (acc : List (List (CourseNode R)) × CSimplexOptimizer R)
            (solutionsGroup : List (List R)) => do
          let self := { acc.2 with currentFeasibleSolutions := solutionsGroup }
          let currentTrajectory : List (CourseNode R) := []
          let self ← self.evaluateAllCurrentSolutions f
          let run ← (List.range (k + 1)).foldlM
            (fun (run : CSimplexOptimizer R × List (CourseNode R)) (_iIteration : Nat) => do
              let step ← run.1.traceIteration f
              pure (step.1, run.2 ++ [step.2]))
            (self, currentTrajectory)
          pure (acc.1 ++ [run.2], run.1))
        (T, s) = .ok tr' →
      ∃ trajs : List (List (CourseNode R)), tr'.1 = T ++ trajs ∧ trajs.length = l.length
        ∧ (∀ t ∈ trajs, ∃ node, t.getLast? = some node ∧ node.dLowestValue < DBL_MAX)
        ∧ (acc'.1, acc'.2.1) = bestOfLastNodes (b, bv) trajs := by
  induction l with
  | nil =>
    intro b bv s T acc' tr' _ _ hrun htrace
    simp only [List.foldlM_nil, pure, Except.pure] at hrun htrace
    cases hrun
    cases htrace
    exact ⟨[], by simp, rfl, fun t ht => absurd ht (List.not_mem_nil t), rfl⟩
  | cons g rest ih =>
    intro b bv s T acc' tr' hdim hvals hrun htrace
    rw [List.foldlM_cons] at hrun htrace
    cases hr1 : (do
        let (bestSolution, dBestValue, self) := ((b, bv, s) : List R × R × CSimplexOptimizer R)
        let self := { self with currentFeasibleSolutions := g }
        let self ← self.evaluateAllCurrentSolutions f
        let self ← (List.range (k + 1)).foldlM
          (fun (self : CSimplexOptimizer R) (_iIteration : Nat) => self.iteration f) self
        let lowestValue ← vecGet self.currentFunctionValues self.nLowestSolutionId
        if lowestValue < dBestValue then
          pure ((← vecGet self.currentFeasibleSolutions self.nLowestSolutionId),
            lowestValue, self)
        else
          pure (bestSolution, dBestValue, self)) with
    | error e => rw [hr1] at hrun; cases hrun
    | ok acc1 =>
      cases ht1 : (do
          let self := { s with currentFeasibleSolutions := g }
          let currentTrajectory : List (CourseNode R) := []
          let self ← self.evaluateAllCurrentSolutions f
          let run ← (List.range (k + 1)).foldlM
            (fun (run : CSimplexOptimizer R × List (CourseNode R)) (_iIteration : Nat) => do
              let step ← run.1.traceIteration f
              pure (step.1, run.2 ++ [step.2]))
            (self, currentTrajectory)
          pure (T ++ [run.2], run.1)) with
      | error e => rw [ht1] at htrace; cases htrace
      | ok tr1 =>
        rw [hr1, ok_bind] at hrun
        rw [ht1, ok_bind] at htrace
        obtain ⟨hsame, hdim1, hvals1, t, node, hT1, hlast, hlt, hrec⟩ :=
          group_lockstep f d k g (hvalid g (List.mem_cons_self g rest)) b bv s T hdim hvals
            acc1 tr1 hr1 ht1
        obtain ⟨b1, bv1, s1⟩ := acc1
        obtain ⟨T1, s1'⟩ := tr1
        simp only at hsame hdim1 hvals1 hT1 hrec
        subst hsame
        subst hT1
        obtain ⟨trajs, hT', hlen, hnodes, hbest⟩ :=
          ih (fun g' hg' => hvalid g' (List.mem_cons_of_mem g hg')) b1 bv1 s1' (T ++ [t])
            acc' tr' hdim1 hvals1 hrun htrace
        refine ⟨t :: trajs, ?_, ?_, ?_, ?_⟩
        · rw [hT', List.append_assoc, List.singleton_append]
        · rw [List.length_cons, List.length_cons, hlen]
        · intro t' ht'
          rcases List.mem_cons.1 ht' with rfl | ht'
          · exact ⟨node, hlast, hlt⟩
          · exact hnodes t' ht'
        · rw [bestOfLastNodes_cons (b, bv) t trajs node hlast, ← hrec]
          exact hbest

/-- The traced groups return for an objective with values strictly between
`-DBL_MAX` and `DBL_MAX`. -/
theorem traceGroups_returns (f : List R → R) (d n : Nat)
    (hrange : ∀ x, -DBL_MAX < f x ∧ f x < DBL_MAX) (l : List (List (List R)))
    (hvalid : validGroups d l) :
    ∀ (s : CSimplexOptimizer R) (T : List (List (CourseNode R))),
      s.nPROBLEM_DIMENSION = d → s.currentFunctionValues.length = d + 1 →
      ∃ tr' : List (List (CourseNode R)) × CSimplexOptimizer R,
        l.foldlM
          (fun (acc : List (List (CourseNode R)) × CSimplexOptimizer R)
              (solutionsGroup : List (List R)) => do
            let self := { acc.2 with currentFeasibleSolutions := solutionsGroup }
            let currentTrajectory : List (CourseNode R) := []
            let self ← self.evaluateAllCurrentSolutions f
            let run ← (List.range n).foldlM
              (fun (run : CSimplexOptimizer R × List (CourseNode R)) (_iIteration : Nat) => do
                let step ← run.1.traceIteration f
                pure (step.1, run.2 ++ [step.2]))
              (self, currentTrajectory)
            pure (acc.1 ++ [run.2], run.1))
          (T, s) = .ok tr' := by
  induction l with
  | nil =>
    intro s T _ _
    exact ⟨(T, s), rfl⟩
  | cons g rest ih =>
    intro s T hdim hvals
    obtain ⟨hglen, hgsize⟩ := hvalid g (List.mem_cons_self g rest)
    have hinv0 : CSimplexOptimizer.SimplexInvariant f d
        ({ s with currentFeasibleSolutions := g, currentFunctionValues := g.map f } :
          CSimplexOptimizer R) := ⟨hdim, hglen, hgsize, rfl⟩
    obtain ⟨run, hrun, hinv'⟩ := traceIterations_returns f d n hrange _ [] hinv0
    obtain ⟨hdim', hcount', -, hcached'⟩ := id hinv'
    obtain ⟨tr', htr'⟩ := ih (fun g' hg' => hvalid g' (List.mem_cons_of_mem g hg')) run.1
      (T ++ [run.2]) hdim' (by rw [hcached', List.length_map, hcount'])
    refine ⟨tr', ?_⟩
    rw [List.foldlM_cons]
    simp only []
    rw [evaluateAllCurrentSolutions_ok f { s with currentFeasibleSolutions := g }
      (by show s.currentFunctionValues.length = g.length
          rw [hvals, hglen]), ok_bind, hrun, ok_bind]
    exact htr'

/-- C40: `runOptimization` and `traceOptimization` run the same search. For a
list of at least one valid group and at least one iteration the constructor
returns an optimizer; whenever both calls return on it, for any objective `f`,
`traceOptimization` has one trajectory per group, every trajectory has a last
node, the value returned by `runOptimization` is at most the lowest value of
each last node and is the lowest value of the last node of some group `i`, the
point returned is the lowest point of that node, and the last node of every
group before `i` has a strictly larger lowest value; and both calls return when
the values of `f` lie strictly between `-DBL_MAX` and `DBL_MAX`. -/
theorem C40_run_is_the_best_last_node_of_the_trace (f : List R → R) (dIndeterminate : R)
    (G : List (List (List R))) (d : Nat) (nMaxIterations : Int)
    (trajectories : List (List (CourseNode R)))
    (hne : G ≠ []) (hvalid : validGroups d G) (hn : 1 ≤ nMaxIterations) :
    ∃ o, CSimplexOptimizer.new dIndeterminate G = .ok o
      ∧ (∀ r T, o.runOptimization f nMaxIterations = .ok r →
          o.traceOptimization f trajectories nMaxIterations = .ok T →
          T.1.length = G.length
            ∧ (∀ t ∈ T.1, ∃ node, t.getLast? = some node ∧ r.2.1 ≤ node.dLowestValue)
            ∧ ∃ (i : Nat) (node : CourseNode R),
                (T.1[i]?).bind List.getLast? = some node
                  ∧ node.dLowestValue = r.2.1 ∧ node.lowestPoint = r.1
                  ∧ ∀ i', i' < i → ∀ node', (T.1[i']?).bind List.getLast? = some node' →
                      r.2.1 < node'.dLowestValue)
      ∧ ((∀ x, -DBL_MAX < f x ∧ f x < DBL_MAX) →
          ∃ r T, o.runOptimization f nMaxIterations = .ok r
            ∧ o.traceOptimization f trajectories nMaxIterations = .ok T) := by
  obtain ⟨o, ho, hI, hdim, hvals⟩ : ∃ o : CSimplexOptimizer R,
      CSimplexOptimizer.new dIndeterminate G = .ok o ∧ o.INITIAL_FEASIBLE_SOLUTIONS = G
        ∧ o.nPROBLEM_DIMENSION = d ∧ o.currentFunctionValues.length = d + 1 :=
    ⟨_, new_ok dIndeterminate G d hne hvalid, rfl, rfl, List.length_replicate _ _⟩
  obtain ⟨k, hk⟩ : ∃ k : Nat, nMaxIterations.toNat = k + 1 :=
    ⟨nMaxIterations.toNat - 1, by omega⟩
  refine ⟨o, ho, ?_, ?_⟩
  · intro r T hr hT
    rw [runOptimization_eq, hI, hk] at hr
    unfold CSimplexOptimizer.traceOptimization at hT
    simp only [] at hT
    rw [hI, hk] at hT
    obtain ⟨trajs, hT', hlen, hnodes, hbest⟩ :=
      groups_lockstep f d k G hvalid [] DBL_MAX o [] r T hdim hvals hr hT
    rw [List.nil_append] at hT'
    obtain ⟨-, hle, hcase⟩ := bestOfLastNodes_spec trajs (([] : List R), (DBL_MAX : R))
    rw [← hbest] at hle hcase
    rw [hT']
    refine ⟨hlen, ?_, ?_⟩
    · intro t ht
      obtain ⟨node, hnode, -⟩ := hnodes t ht
      exact ⟨node, hnode, hle t ht node hnode⟩
    · rcases hcase with ⟨-, hall⟩ | ⟨i, node, hi, hv, hp, -, hfirst⟩
      · exfalso
        obtain ⟨t, ht⟩ := List.exists_mem_of_ne_nil trajs
          (by
            intro h
            rw [h] at hlen
            exact hne (List.length_eq_zero.1 hlen.symm))
        obtain ⟨node, hnode, hlt⟩ := hnodes t ht
        exact absurd (hall t ht node hnode) (not_le.2 hlt)
      · exact ⟨i, node, hi, hv, hp, hfirst⟩
  · intro hrange
    obtain ⟨r, hr, -, -⟩ := runOptimization_point_value f d nMaxIterations hn o
      (by rw [hI]; exact hne) (by rw [hI]; exact hvalid) hdim hvals hrange
    obtain ⟨T, hT⟩ := traceGroups_returns f d nMaxIterations.toNat hrange G hvalid o [] hdim
      hvals
    refine ⟨r, T, hr, ?_⟩
    unfold CSimplexOptimizer.traceOptimization
    simp only []
    rw [hI]
    exact hT

/-- C40 on the one-coordinate objective `-1 / (1 + x0^2)`, the two groups of the
seeds `0`, `1` and `5`, `6`, and two iterations: both calls return, and the pair
returned by `runOptimization` is the lowest point and value of the last node of
the first trajectory with the smallest such value. -/
theorem C40_run_is_the_best_last_node_of_the_trace_witness :
    ∃ o r T, CSimplexOptimizer.new (0 : ℚ) [[[0], [1]], [[5], [6]]] = .ok o
      ∧ o.runOptimization boundedWell 2 = .ok r
      ∧ o.traceOptimization boundedWell [] 2 = .ok T
      ∧ T.1.length = 2
      ∧ (∀ t ∈ T.1, ∃ node, t.getLast? = some node ∧ r.2.1 ≤ node.dLowestValue)
      ∧ ∃ (i : Nat) (node : CourseNode ℚ),
          (T.1[i]?).bind List.getLast? = some node
            ∧ node.dLowestValue = r.2.1 ∧ node.lowestPoint = r.1
            ∧ ∀ i', i' < i → ∀ node', (T.1[i']?).bind List.getLast? = some node' →
                r.2.1 < node'.dLowestValue := by
  obtain ⟨o, ho, hboth, hret⟩ := C40_run_is_the_best_last_node_of_the_trace boundedWell
    (0 : ℚ) [[[0], [1]], [[5], [6]]] 1 2 [] (by simp)
    (by
      intro g hg
      rcases List.mem_cons.1 hg with rfl | hg
      · refine ⟨rfl, ?_⟩
        intro v hv
        rcases List.mem_cons.1 hv with rfl | hv
        · rfl
        · rw [List.mem_singleton.1 hv]
          rfl
      · rw [List.mem_singleton.1 hg]
        refine ⟨rfl, ?_⟩
        intro v hv
        rcases List.mem_cons.1 hv with rfl | hv
        · rfl
        · rw [List.mem_singleton.1 hv]
          rfl)
    (by decide)
  obtain ⟨r, T, hr, hT⟩ := hret boundedWell_range
  obtain ⟨hlen, hle, hfirst⟩ := hboth r T hr hT
  exact ⟨o, r, T, ho, hr, hT, hlen, hle, hfirst⟩

end Trajectories

/-! ## Runs of the overlap engine in binary64 arithmetic -/

section Binary64Runs

/-- The rounding on examples: `1/10` has the binary64 `0x1.999999999999ap-4`; a
value in the middle of two neighbours goes to the one with the even
significand; half of the smallest subnormal goes to zero; a binary64 is not
changed. -/
theorem binary64_nearest_examples :
    Binary64.nearest (1 / 10) = 0x1999999999999a * Binary64.pow2 (-56)
      ∧ Binary64.nearest (1 + Binary64.pow2 (-53)) = 1
      ∧ Binary64.nearest (1 + 3 * Binary64.pow2 (-53)) = 1 + Binary64.pow2 (-51)
      ∧ Binary64.nearest (-(1 + 3 * Binary64.pow2 (-53))) = -(1 + Binary64.pow2 (-51))
      ∧ Binary64.nearest (1 + Binary64.pow2 (-53) + Binary64.pow2 (-80)) = 1 + Binary64.pow2 (-52)
      ∧ Binary64.nearest (Binary64.pow2 (-1075)) = 0
      ∧ Binary64.nearest (3 * Binary64.pow2 (-1075)) = 2 * Binary64.pow2 (-1074)
      ∧ Binary64.nearest (0x1999999999999a * Binary64.pow2 (-56)) = 0x1999999999999a * Binary64.pow2 (-56) := by
  decide!

/-- The three constants of the engine as binary64 values. -/
theorem binary64_constants :
    Binary64.CGaussianVolume.dP = 0x16a09e667da582 * Binary64.pow2 (-51)
      ∧ Binary64.CGaussianVolume.dPI = 0x1921fb5443d6f4 * Binary64.pow2 (-51)
      ∧ Binary64.CGaussianVolume.dPARTIAL_ALPHA = 0x13580a0e6ed42e * Binary64.pow2 (-51) := by
  decide!

/-- The library functions on examples: `sqrt(2)`, `exp(1)`, `exp(-1)`, `exp(0)`,
`pow(p, 2)` and `pow(2, 1.5)`. -/
theorem binary64_library_examples :
    Binary64.sqrtNearest 2 = 0x16a09e667f3bcd * Binary64.pow2 (-52)
      ∧ Binary64.exp 1 = 0x15bf0a8b145769 * Binary64.pow2 (-51)
      ∧ Binary64.exp (-1) = 0x178b56362cef38 * Binary64.pow2 (-54)
      ∧ Binary64.exp 0 = 1
      ∧ Binary64.pow (0x16a09e667da582 * Binary64.pow2 (-51)) 2 = 0x1ffffffffb82d6 * Binary64.pow2 (-50)
      ∧ Binary64.pow 2 1.5 = 0x16a09e667f3bcd * Binary64.pow2 (-51) := by
  decide!

/-- A call whose result, read as an option, is `some a` returned `a`. -/
theorem ok_of_toOption {ε α : Type} (e : Except ε α) (a : α) (h : e.toOption = some a) :
    e = .ok a := by
  cases e with
  | error x => simp [Except.toOption] at h
  | ok b =>
    simp only [Except.toOption, Option.some.injEq] at h
    rw [h]

/-- C2 (binary64 runs of the code). With cutoff 0, in binary64 arithmetic:
for `A` = atoms of radius 1 and 1.5 at the origin and `B` = two atoms of radius
1.5 at the origin, the direct-mode overlap of `(A, B)` is
`0x1.4f63ba5f624d9p+5` and that of `(B, A)` is `0x1.4f63ba5f624d8p+5`; for `A` =
atoms of radius 1 at `(0,0,0)` and `(2,0,0)` and `B` = atoms of radius 1 at
`(1,1,0)` and `(0,1,0)` the two values are `0x1.ff2dba38242p+0` and
`0x1.ff2dba38241ffp+0`. The two calls add the same four pair terms in a
different order, and the rounded sums differ in the last place. -/
theorem C2_direct_mode_symmetric_counterexample :
    Binary64.CGaussianVolume.getOverlapVolumeDirect (CGaussianVolume.new 0)
        ((CMolecule.new.addAtom ⟨1, 1, [0, 0, 0]⟩).addAtom ⟨2, 1.5, [0, 0, 0]⟩)
        ((CMolecule.new.addAtom ⟨1, 1.5, [0, 0, 0]⟩).addAtom ⟨2, 1.5, [0, 0, 0]⟩)
      = .ok (0x14f63ba5f624d9 * Binary64.pow2 (-47))
      ∧ Binary64.CGaussianVolume.getOverlapVolumeDirect (CGaussianVolume.new 0)
          ((CMolecule.new.addAtom ⟨1, 1.5, [0, 0, 0]⟩).addAtom ⟨2, 1.5, [0, 0, 0]⟩)
          ((CMolecule.new.addAtom ⟨1, 1, [0, 0, 0]⟩).addAtom ⟨2, 1.5, [0, 0, 0]⟩)
        = .ok (0x14f63ba5f624d8 * Binary64.pow2 (-47))
      ∧ (0x14f63ba5f624d9 * Binary64.pow2 (-47) : ℚ) ≠ 0x14f63ba5f624d8 * Binary64.pow2 (-47)
      ∧ Binary64.CGaussianVolume.getOverlapVolumeDirect (CGaussianVolume.new 0)
          ((CMolecule.new.addAtom ⟨1, 1, [0, 0, 0]⟩).addAtom ⟨2, 1, [2, 0, 0]⟩)
          ((CMolecule.new.addAtom ⟨1, 1, [1, 1, 0]⟩).addAtom ⟨2, 1, [0, 1, 0]⟩)
        = .ok (0x1ff2dba3824200 * Binary64.pow2 (-52))
      ∧ Binary64.CGaussianVolume.getOverlapVolumeDirect (CGaussianVolume.new 0)
          ((CMolecule.new.addAtom ⟨1, 1, [1, 1, 0]⟩).addAtom ⟨2, 1, [0, 1, 0]⟩)
          ((CMolecule.new.addAtom ⟨1, 1, [0, 0, 0]⟩).addAtom ⟨2, 1, [2, 0, 0]⟩)
        = .ok (0x1ff2dba38241ff * Binary64.pow2 (-52))
      ∧ (0x1ff2dba3824200 * Binary64.pow2 (-52) : ℚ) ≠ 0x1ff2dba38241ff * Binary64.pow2 (-52) := by
  refine ⟨ok_of_toOption _ _ ?_, ok_of_toOption _ _ ?_, ?_, ok_of_toOption _ _ ?_,
    ok_of_toOption _ _ ?_, ?_⟩ <;> decide!

/-- C36 (binary64 run of the code). Reference molecule: one atom of radius 1.5
at `(2, 1.5, 2)`; fit molecule: one atom of radius 1 at `(2, 0, 1.5)`; cutoff 0,
maximal order 1. In binary64 arithmetic `precalculate` returns, the engine built
from its result returns the refined value `v = 0x1.0ffb242d1f97fp+0` and the
direct mode returns `w = 0x1.0ffb242d45bf3p+0`. Then `8 * v` and `p^2 * w`
differ, both as exact products of the returned values (with `p` the literal
`2.8284271247` or its binary64) and as binary64 products, which are
`0x1.0ffb242d1f97fp+3` and `0x1.0ffb242d1f98p+3`. -/
theorem C36_order_one_agrees_with_direct_mode_counterexample :
    ∃ (pre : PrecalculationResult ℚ) (e : CGaussianVolume ℚ) (v w : ℚ),
      Binary64.CGaussianVolume.precalculate (fun _ _ => 0)
          (CMolecule.new.addAtom ⟨1, 1.5, [2, 1.5, 2]⟩)
          (CMolecule.new.addAtom ⟨1, 1, [2, 0, 1.5]⟩) 0 1 (PrecalculationResult.new 0)
        = .ok pre
      ∧ Binary64.CGaussianVolume.ofAtoms 0
          (some (CMolecule.new.addAtom ⟨1, 1.5, [2, 1.5, 2]⟩ : CMolecule ℚ).getAtomsList)
          (some (CMolecule.new.addAtom ⟨1, 1, [2, 0, 1.5]⟩ : CMolecule ℚ).getAtomsList)
          (some pre) = .ok e
      ∧ Binary64.CGaussianVolume.getOverlapVolume e = .ok v
      ∧ Binary64.CGaussianVolume.getOverlapVolumeDirect (CGaussianVolume.new 0)
          (CMolecule.new.addAtom ⟨1, 1.5, [2, 1.5, 2]⟩)
          (CMolecule.new.addAtom ⟨1, 1, [2, 0, 1.5]⟩) = .ok w
      ∧ v = 0x10ffb242d1f97f * Binary64.pow2 (-52)
      ∧ w = 0x10ffb242d45bf3 * Binary64.pow2 (-52)
      ∧ 8 * v ≠ (2.8284271247 : ℚ) ^ 2 * w
      ∧ 8 * v ≠ Binary64.CGaussianVolume.dP ^ 2 * w
      ∧ Binary64.mul 8 v = 0x10ffb242d1f97f * Binary64.pow2 (-49)
      ∧ Binary64.mul (Binary64.mul Binary64.CGaussianVolume.dP Binary64.CGaussianVolume.dP) w
        = 0x10ffb242d1f980 * Binary64.pow2 (-49)
      ∧ Binary64.mul 8 v
        ≠ Binary64.mul (Binary64.mul Binary64.CGaussianVolume.dP Binary64.CGaussianVolume.dP) w := by
  have key : (do
      let pre ← Binary64.CGaussianVolume.precalculate (fun _ _ => 0)
        (CMolecule.new.addAtom ⟨1, 1.5, [2, 1.5, 2]⟩) (CMolecule.new.addAtom ⟨1, 1, [2, 0, 1.5]⟩)
        0 1 (PrecalculationResult.new 0)
      let e ← Binary64.CGaussianVolume.ofAtoms 0
        (some (CMolecule.new.addAtom ⟨1, 1.5, [2, 1.5, 2]⟩ : CMolecule ℚ).getAtomsList)
        (some (CMolecule.new.addAtom ⟨1, 1, [2, 0, 1.5]⟩ : CMolecule ℚ).getAtomsList) (some pre)
      let v ← Binary64.CGaussianVolume.getOverlapVolume e
      pure v).toOption = some (0x10ffb242d1f97f * Binary64.pow2 (-52)) := by
    decide!
  have hw : Binary64.CGaussianVolume.getOverlapVolumeDirect (CGaussianVolume.new 0)
      (CMolecule.new.addAtom ⟨1, 1.5, [2, 1.5, 2]⟩)
      (CMolecule.new.addAtom ⟨1, 1, [2, 0, 1.5]⟩)
      = .ok (0x10ffb242d45bf3 * Binary64.pow2 (-52)) :=
    ok_of_toOption _ _ (by decide!)
  cases hp : Binary64.CGaussianVolume.precalculate (fun _ _ => 0)
      (CMolecule.new.addAtom ⟨1, 1.5, [2, 1.5, 2]⟩)
      (CMolecule.new.addAtom ⟨1, 1, [2, 0, 1.5]⟩) 0 1 (PrecalculationResult.new 0) with
  | error x =>
    rw [hp, error_bind] at key
    exact absurd key (by simp [Except.toOption])
  | ok pre =>
    rw [hp, ok_bind] at key
    cases he : Binary64.CGaussianVolume.ofAtoms 0
        (some (CMolecule.new.addAtom ⟨1, 1.5, [2, 1.5, 2]⟩ : CMolecule ℚ).getAtomsList)
        (some (CMolecule.new.addAtom ⟨1, 1, [2, 0, 1.5]⟩ : CMolecule ℚ).getAtomsList)
        (some pre) with
    | error x =>
      rw [he, error_bind] at key
      exact absurd key (by simp [Except.toOption])
    | ok e =>
      rw [he, ok_bind] at key
      have hv : Binary64.CGaussianVolume.getOverlapVolume e
          = .ok (0x10ffb242d1f97f * Binary64.pow2 (-52)) := by
        cases hv : Binary64.CGaussianVolume.getOverlapVolume e with
        | error x =>
          rw [hv, error_bind] at key
          exact absurd key (by simp [Except.toOption])
        | ok v =>
          rw [hv, ok_bind] at key
          exact congrArg Except.ok (Option.some.inj key)
      refine ⟨pre, e, _, _, rfl, he, hv, hw, rfl, rfl, ?_, ?_, ?_, ?_, ?_⟩ <;> decide!

end Binary64Runs

end GaussianShape
